import Mathlib

/-!
# LakeSnes: CPU core and bus register file

A shallow embedding of `snes_cpu.c` (the 65816 interpreter) and of the
register file of `snes.c`.

Conventions of the embedding.

* C unsigned integers (`uint8_t`, `uint16_t`, `uint32_t`) are `Nat`; an
  assignment to a narrower type is written with an explicit `%`.
* C `int` temporaries that may become negative are `Int`.
* C `bool` is `Bool`; `b = (v & m)` is `(v &&& m) != 0`, and a `bool` used
  as a number is `Bool.toNat`.
* The CPU talks to the rest of the machine only through the three callbacks
  stored by `cpu_init` (`read`, `write`, `idle`) on an untyped `mem`
  pointer.  They are a `Handlers μ` record over an arbitrary bus state `μ`.
  In the real machine the callbacks re-enter the CPU through `cpu_nmi`,
  `cpu_setIrq` and, for a write to 0x4200, by setting `intDelay`; a callback
  therefore also returns the list of such calls it made.
* Every callback invocation is appended to `Machine.trace`, so that bus
  traffic (which addresses are read and written, in which order) can be
  stated.
-/

namespace LakeSnes

/-! ## Integer helpers -/

/-- Post-increment of a `uint16_t`. -/
def inc16 (x : Nat) : Nat := (x + 1) % 0x10000

/-- Post-decrement of a `uint16_t`. -/
def dec16 (x : Nat) : Nat := if x = 0 then 0xffff else (x - 1) % 0x10000

/-- Conversion of a C `int` to `uint8_t`. -/
def toU8 (i : Int) : Nat := (i % 256).toNat

/-- Conversion of a C `int` to `uint16_t`. -/
def toU16 (i : Int) : Nat := (i % 65536).toNat

/-- The cast `(int8_t) v` of a byte. -/
def toS8 (v : Nat) : Int := if v % 256 < 128 then ((v % 256 : Nat) : Int) else ((v % 256 : Nat) : Int) - 256

/-- The cast `(int16_t) v` of a 16-bit word. -/
def toS16 (v : Nat) : Int :=
  if v % 65536 < 32768 then ((v % 65536 : Nat) : Int) else ((v % 65536 : Nat) : Int) - 65536

/-- C `i & m` for a 32-bit two's-complement `int` `i` and a non-negative
operand `m`. -/
def cAnd (i : Int) (m : Nat) : Nat := (i % 4294967296).toNat &&& m

/-- C `~x` for a non-negative `int` `x`. -/
def cNot (x : Nat) : Int := -(x : Int) - 1

/-! ## CPU state -/

/-- The register file of `struct Cpu` (cpu.h); the callback pointers and `mem`
live in `Handlers` and `Machine`. -/
structure Cpu where
  a : Nat
  x : Nat
  y : Nat
  sp : Nat
  pc : Nat
  dp : Nat
  k : Nat
  db : Nat
  c : Bool
  z : Bool
  v : Bool
  n : Bool
  i : Bool
  d : Bool
  xf : Bool
  mf : Bool
  e : Bool
  waiting : Bool
  stopped : Bool
  irqWanted : Bool
  nmiWanted : Bool
  intWanted : Bool
  intDelay : Bool
  resetWanted : Bool
  deriving DecidableEq, Repr

/-- One callback invocation made by the CPU. -/
inductive BusEvent where
  | read (adr : Nat) (val : Nat)
  | write (adr : Nat) (val : Nat)
  | idle (waiting : Bool)
  deriving DecidableEq, Repr

/-- A re-entrant call a bus callback makes on the CPU while it runs. -/
inductive CpuCall where
  | nmi
  | setIrq (state : Bool)
  | delay
  deriving DecidableEq, Repr

/-- The three callbacks given to `cpu_init`, over a bus state `μ`.  Each
returns the new bus state and the CPU calls it made; `read` also returns the
byte. -/
structure Handlers (μ : Type) where
  read : μ → Nat → Nat × List CpuCall × μ
  write : μ → Nat → Nat → List CpuCall × μ
  idle : μ → Bool → List CpuCall × μ

/-- The CPU together with the bus state behind `cpu->mem` and the record of
callback invocations so far (oldest first). -/
structure Machine (μ : Type) where
  cpu : Cpu
  mem : μ
  trace : List BusEvent

/-- Stateful CPU code: a function from the machine state to a result and the
new machine state. -/
def CpuM (μ : Type) (α : Type) : Type := Machine μ → α × Machine μ

/-- Run a computation from a state. -/
def CpuM.run {μ α : Type} (m : CpuM μ α) (s : Machine μ) : α × Machine μ := m s

instance {μ : Type} : Monad (CpuM μ) where
  pure a := fun s => (a, s)
  bind m f := fun s => f (m s).1 (m s).2

/-- Read the register file (`cpu->...` on the right-hand side). -/
def getCpu {μ : Type} : CpuM μ Cpu := fun s => (s.cpu, s)

/-- Update the register file (assignments to `cpu->...`). -/
def modifyCpu {μ : Type} (f : Cpu → Cpu) : CpuM μ Unit :=
  fun s => ((), { s with cpu := f s.cpu })

/-! ## Entry points of the bus into the CPU -/

/-- `cpu_reset` (snes_cpu.c:56). -/
def cpu_reset (cpu : Cpu) (hard : Bool) : Cpu :=
  let cpu := if hard then
      { cpu with a := 0, x := 0, y := 0, sp := 0, pc := 0, dp := 0, k := 0, db := 0,
                 c := false, z := false, v := false, n := false, i := false, d := false,
                 xf := false, mf := false, e := false, irqWanted := false }
    else cpu
  { cpu with waiting := false, stopped := false, nmiWanted := false, intWanted := false,
             intDelay := false, resetWanted := true }

/-- `cpu_nmi` (snes_cpu.c:138). -/
def cpu_nmi (cpu : Cpu) : Cpu := { cpu with nmiWanted := true }

/-- `cpu_setIrq` (snes_cpu.c:142). -/
def cpu_setIrq (cpu : Cpu) (state : Bool) : Cpu := { cpu with irqWanted := state }

/-- The effect on the CPU of one re-entrant call made by a callback;
`delay` is `snes->cpu->intDelay = true` (snes.c:412). -/
def applyCall (cpu : Cpu) : CpuCall → Cpu
  | .nmi => cpu_nmi cpu
  | .setIrq state => cpu_setIrq cpu state
  | .delay => { cpu with intDelay := true }

/-- The calls of one callback, in the order they were made. -/
def applyCalls (cpu : Cpu) (calls : List CpuCall) : Cpu := calls.foldl applyCall cpu

section CpuCode

variable {μ : Type} (h : Handlers μ)

/-! ## Bus access -/

/-- `cpu_read` (snes_cpu.c:146). -/
def cpu_read (adr : Nat) : CpuM μ Nat := fun s =>
  let cpu := { s.cpu with intDelay := false }
  let r := h.read s.mem adr
  let val := r.1 % 256
  (val, { cpu := applyCalls cpu r.2.1, mem := r.2.2, trace := s.trace ++ [BusEvent.read adr val] })

/-- `cpu_write` (snes_cpu.c:151). -/
def cpu_write (adr : Nat) (val : Nat) : CpuM μ Unit := fun s =>
  let val := val % 256
  let cpu := { s.cpu with intDelay := false }
  let r := h.write s.mem adr val
  ((), { cpu := applyCalls cpu r.1, mem := r.2, trace := s.trace ++ [BusEvent.write adr val] })

/-- `cpu_idle` (snes_cpu.c:156). -/
def cpu_idle : CpuM μ Unit := fun s =>
  let cpu := { s.cpu with intDelay := false }
  let r := h.idle s.mem false
  ((), { cpu := applyCalls cpu r.1, mem := r.2, trace := s.trace ++ [BusEvent.idle false] })

/-- `cpu_idleWait` (snes_cpu.c:161). -/
def cpu_idleWait : CpuM μ Unit := fun s =>
  let cpu := { s.cpu with intDelay := false }
  let r := h.idle s.mem true
  ((), { cpu := applyCalls cpu r.1, mem := r.2, trace := s.trace ++ [BusEvent.idle true] })

/-- The state update of `cpu_checkInt` (snes_cpu.c:166). -/
def checkInt (cpu : Cpu) : Cpu :=
  { cpu with
    intWanted := (cpu.nmiWanted || (cpu.irqWanted && !cpu.i)) && !cpu.intDelay,
    intDelay := false }

/-- `cpu_checkInt` (snes_cpu.c:166). -/
def cpu_checkInt : CpuM μ Unit := modifyCpu checkInt

/-- `cpu_readOpcode` (snes_cpu.c:171). -/
def cpu_readOpcode : CpuM μ Nat := do
  let cpu ← getCpu
  modifyCpu fun c => { c with pc := inc16 c.pc }
  cpu_read h ((cpu.k <<< 16) ||| cpu.pc)

/-- `cpu_readOpcodeWord` (snes_cpu.c:175). -/
def cpu_readOpcodeWord (intCheck : Bool) : CpuM μ Nat := do
  let low ← cpu_readOpcode h
  if intCheck then cpu_checkInt
  let high ← cpu_readOpcode h
  pure (low ||| (high <<< 8))

/-- `cpu_getFlags` (snes_cpu.c:181). -/
def cpu_getFlags (cpu : Cpu) : Nat :=
  (cpu.n.toNat <<< 7) ||| (cpu.v.toNat <<< 6) ||| (cpu.mf.toNat <<< 5) ||| (cpu.xf.toNat <<< 4)
    ||| (cpu.d.toNat <<< 3) ||| (cpu.i.toNat <<< 2) ||| (cpu.z.toNat <<< 1) ||| cpu.c.toNat

/-- The state update of `cpu_setFlags` (snes_cpu.c:193); `val` is a `uint8_t`. -/
def setFlags (cpu : Cpu) (val : Nat) : Cpu :=
  let val := val % 256
  let cpu := { cpu with
    n := (val &&& 0x80) != 0, v := (val &&& 0x40) != 0, mf := (val &&& 0x20) != 0,
    xf := (val &&& 0x10) != 0, d := (val &&& 8) != 0, i := (val &&& 4) != 0,
    z := (val &&& 2) != 0, c := (val &&& 1) != 0 }
  let cpu := if cpu.e then
      { cpu with mf := true, xf := true, sp := (cpu.sp &&& 0xff) ||| 0x100 }
    else cpu
  if cpu.xf then { cpu with x := cpu.x &&& 0xff, y := cpu.y &&& 0xff } else cpu

/-- `cpu_setFlags` (snes_cpu.c:193). -/
def cpu_setFlags (val : Nat) : CpuM μ Unit := modifyCpu fun c => setFlags c val

/-- `cpu_setZN` (snes_cpu.c:213); `value` is a `uint16_t`. -/
def cpu_setZN (value : Nat) (byte : Bool) : CpuM μ Unit :=
  let value := value % 0x10000
  modifyCpu fun c =>
    if byte then { c with z := (value &&& 0xff) == 0, n := (value &&& 0x80) != 0 }
    else { c with z := value == 0, n := (value &&& 0x8000) != 0 }

/-- `cpu_doBranch` (snes_cpu.c:223). -/
def cpu_doBranch (check : Bool) : CpuM μ Unit := do
  if !check then cpu_checkInt
  let value ← cpu_readOpcode h
  if check then
    cpu_checkInt
    cpu_idle h
    modifyCpu fun c => { c with pc := toU16 ((c.pc : Int) + toS8 value) }

/-- `cpu_pullByte` (snes_cpu.c:233). -/
def cpu_pullByte : CpuM μ Nat := do
  modifyCpu fun c => { c with sp := inc16 c.sp }
  modifyCpu fun c => if c.e then { c with sp := (c.sp &&& 0xff) ||| 0x100 } else c
  let cpu ← getCpu
  cpu_read h cpu.sp

/-- `cpu_pushByte` (snes_cpu.c:239); `value` is a `uint8_t`. -/
def cpu_pushByte (value : Nat) : CpuM μ Unit := do
  let cpu ← getCpu
  cpu_write h cpu.sp (value % 256)
  modifyCpu fun c => { c with sp := dec16 c.sp }
  modifyCpu fun c => if c.e then { c with sp := (c.sp &&& 0xff) ||| 0x100 } else c

/-- `cpu_pullWord` (snes_cpu.c:245). -/
def cpu_pullWord (intCheck : Bool) : CpuM μ Nat := do
  let value ← cpu_pullByte h
  if intCheck then cpu_checkInt
  let high ← cpu_pullByte h
  pure (value ||| (high <<< 8))

/-- `cpu_pushWord` (snes_cpu.c:251); `value` is a `uint16_t`. -/
def cpu_pushWord (value : Nat) (intCheck : Bool) : CpuM μ Unit := do
  let value := value % 0x10000
  cpu_pushByte h (value >>> 8)
  if intCheck then cpu_checkInt
  cpu_pushByte h (value &&& 0xff)

/-- `cpu_readWord` (snes_cpu.c:257). -/
def cpu_readWord (adrl adrh : Nat) (intCheck : Bool) : CpuM μ Nat := do
  let value ← cpu_read h adrl
  if intCheck then cpu_checkInt
  let high ← cpu_read h adrh
  pure (value ||| (high <<< 8))

/-- `cpu_writeWord` (snes_cpu.c:263); `value` is a `uint16_t`. -/
def cpu_writeWord (adrl adrh : Nat) (value : Nat) (reversed intCheck : Bool) : CpuM μ Unit := do
  let value := value % 0x10000
  if reversed then
    cpu_write h adrh (value >>> 8)
    if intCheck then cpu_checkInt
    cpu_write h adrl (value &&& 0xff)
  else
    cpu_write h adrl (value &&& 0xff)
    if intCheck then cpu_checkInt
    cpu_write h adrh (value >>> 8)

/-- `cpu_doInterrupt` (snes_cpu.c:275). -/
def cpu_doInterrupt : CpuM μ Unit := do
  cpu_idle h
  cpu_pushByte h (← getCpu).k
  cpu_pushWord h (← getCpu).pc false
  cpu_pushByte h (cpu_getFlags (← getCpu))
  modifyCpu fun c => { c with i := true, d := false, k := 0, intWanted := false }
  if (← getCpu).nmiWanted then
    modifyCpu fun c => { c with nmiWanted := false }
    let pc ← cpu_readWord h 0xffea 0xffeb false
    modifyCpu fun c => { c with pc := pc }
  else
    let pc ← cpu_readWord h 0xffee 0xffef false
    modifyCpu fun c => { c with pc := pc }

/-! ## Addressing modes

Each returns the pair `(low, high)`: the C functions return `high` and store
`low` through a pointer. -/

/-- `cpu_adrImp` (snes_cpu.c:294). -/
def cpu_adrImp : CpuM μ Unit := do
  cpu_checkInt
  let cpu ← getCpu
  if cpu.intWanted then
    let _ ← cpu_read h ((cpu.k <<< 16) ||| cpu.pc)
    pure ()
  else
    cpu_idle h

/-- `cpu_adrImm` (snes_cpu.c:306). -/
def cpu_adrImm (xFlag : Bool) : CpuM μ (Nat × Nat) := do
  let cpu ← getCpu
  if (xFlag && cpu.xf) || (!xFlag && cpu.mf) then
    modifyCpu fun c => { c with pc := inc16 c.pc }
    pure ((cpu.k <<< 16) ||| cpu.pc, 0)
  else
    modifyCpu fun c => { c with pc := inc16 (inc16 c.pc) }
    pure ((cpu.k <<< 16) ||| cpu.pc, (cpu.k <<< 16) ||| inc16 cpu.pc)

/-- `cpu_adrDp` (snes_cpu.c:316). -/
def cpu_adrDp : CpuM μ (Nat × Nat) := do
  let adr ← cpu_readOpcode h
  if ((← getCpu).dp &&& 0xff) != 0 then cpu_idle h
  let cpu ← getCpu
  pure ((cpu.dp + adr) &&& 0xffff, (cpu.dp + adr + 1) &&& 0xffff)

/-- `cpu_adrDpx` (snes_cpu.c:323). -/
def cpu_adrDpx : CpuM μ (Nat × Nat) := do
  let adr ← cpu_readOpcode h
  if ((← getCpu).dp &&& 0xff) != 0 then cpu_idle h
  cpu_idle h
  let cpu ← getCpu
  pure ((cpu.dp + adr + cpu.x) &&& 0xffff, (cpu.dp + adr + cpu.x + 1) &&& 0xffff)

/-- `cpu_adrDpy` (snes_cpu.c:331). -/
def cpu_adrDpy : CpuM μ (Nat × Nat) := do
  let adr ← cpu_readOpcode h
  if ((← getCpu).dp &&& 0xff) != 0 then cpu_idle h
  cpu_idle h
  let cpu ← getCpu
  pure ((cpu.dp + adr + cpu.y) &&& 0xffff, (cpu.dp + adr + cpu.y + 1) &&& 0xffff)

/-- `cpu_adrIdp` (snes_cpu.c:339). -/
def cpu_adrIdp : CpuM μ (Nat × Nat) := do
  let adr ← cpu_readOpcode h
  if ((← getCpu).dp &&& 0xff) != 0 then cpu_idle h
  let cpu ← getCpu
  let pointer ← cpu_readWord h ((cpu.dp + adr) &&& 0xffff) ((cpu.dp + adr + 1) &&& 0xffff) false
  let cpu ← getCpu
  pure ((cpu.db <<< 16) + pointer, ((cpu.db <<< 16) + pointer + 1) &&& 0xffffff)

/-- `cpu_adrIdx` (snes_cpu.c:347). -/
def cpu_adrIdx : CpuM μ (Nat × Nat) := do
  let adr ← cpu_readOpcode h
  if ((← getCpu).dp &&& 0xff) != 0 then cpu_idle h
  cpu_idle h
  let cpu ← getCpu
  let pointer ← cpu_readWord h ((cpu.dp + adr + cpu.x) &&& 0xffff)
    ((cpu.dp + adr + cpu.x + 1) &&& 0xffff) false
  let cpu ← getCpu
  pure ((cpu.db <<< 16) + pointer, ((cpu.db <<< 16) + pointer + 1) &&& 0xffffff)

/-- `cpu_adrIdy` (snes_cpu.c:356). -/
def cpu_adrIdy (write : Bool) : CpuM μ (Nat × Nat) := do
  let adr ← cpu_readOpcode h
  if ((← getCpu).dp &&& 0xff) != 0 then cpu_idle h
  let cpu ← getCpu
  let pointer ← cpu_readWord h ((cpu.dp + adr) &&& 0xffff) ((cpu.dp + adr + 1) &&& 0xffff) false
  let cpu ← getCpu
  if write || !cpu.xf || ((pointer >>> 8) != ((pointer + cpu.y) >>> 8)) then cpu_idle h
  let cpu ← getCpu
  pure (((cpu.db <<< 16) + pointer + cpu.y) &&& 0xffffff,
        ((cpu.db <<< 16) + pointer + cpu.y + 1) &&& 0xffffff)

/-- `cpu_adrIdl` (snes_cpu.c:366). -/
def cpu_adrIdl : CpuM μ (Nat × Nat) := do
  let adr ← cpu_readOpcode h
  if ((← getCpu).dp &&& 0xff) != 0 then cpu_idle h
  let cpu ← getCpu
  let pointer ← cpu_readWord h ((cpu.dp + adr) &&& 0xffff) ((cpu.dp + adr + 1) &&& 0xffff) false
  let cpu ← getCpu
  let bank ← cpu_read h ((cpu.dp + adr + 2) &&& 0xffff)
  let pointer := pointer ||| (bank <<< 16)
  pure (pointer, (pointer + 1) &&& 0xffffff)

/-- `cpu_adrIly` (snes_cpu.c:375). -/
def cpu_adrIly : CpuM μ (Nat × Nat) := do
  let adr ← cpu_readOpcode h
  if ((← getCpu).dp &&& 0xff) != 0 then cpu_idle h
  let cpu ← getCpu
  let pointer ← cpu_readWord h ((cpu.dp + adr) &&& 0xffff) ((cpu.dp + adr + 1) &&& 0xffff) false
  let cpu ← getCpu
  let bank ← cpu_read h ((cpu.dp + adr + 2) &&& 0xffff)
  let pointer := pointer ||| (bank <<< 16)
  let cpu ← getCpu
  pure ((pointer + cpu.y) &&& 0xffffff, (pointer + cpu.y + 1) &&& 0xffffff)

/-- `cpu_adrSr` (snes_cpu.c:384). -/
def cpu_adrSr : CpuM μ (Nat × Nat) := do
  let adr ← cpu_readOpcode h
  cpu_idle h
  let cpu ← getCpu
  pure ((cpu.sp + adr) &&& 0xffff, (cpu.sp + adr + 1) &&& 0xffff)

/-- `cpu_adrIsy` (snes_cpu.c:391). -/
def cpu_adrIsy : CpuM μ (Nat × Nat) := do
  let adr ← cpu_readOpcode h
  cpu_idle h
  let cpu ← getCpu
  let pointer ← cpu_readWord h ((cpu.sp + adr) &&& 0xffff) ((cpu.sp + adr + 1) &&& 0xffff) false
  cpu_idle h
  let cpu ← getCpu
  pure (((cpu.db <<< 16) + pointer + cpu.y) &&& 0xffffff,
        ((cpu.db <<< 16) + pointer + cpu.y + 1) &&& 0xffffff)

/-- `cpu_adrAbs` (snes_cpu.c:400). -/
def cpu_adrAbs : CpuM μ (Nat × Nat) := do
  let adr ← cpu_readOpcodeWord h false
  let cpu ← getCpu
  pure ((cpu.db <<< 16) + adr, ((cpu.db <<< 16) + adr + 1) &&& 0xffffff)

/-- `cpu_adrAbx` (snes_cpu.c:406). -/
def cpu_adrAbx (write : Bool) : CpuM μ (Nat × Nat) := do
  let adr ← cpu_readOpcodeWord h false
  let cpu ← getCpu
  if write || !cpu.xf || ((adr >>> 8) != ((adr + cpu.x) >>> 8)) then cpu_idle h
  let cpu ← getCpu
  pure (((cpu.db <<< 16) + adr + cpu.x) &&& 0xffffff,
        ((cpu.db <<< 16) + adr + cpu.x + 1) &&& 0xffffff)

/-- `cpu_adrAby` (snes_cpu.c:414). -/
def cpu_adrAby (write : Bool) : CpuM μ (Nat × Nat) := do
  let adr ← cpu_readOpcodeWord h false
  let cpu ← getCpu
  if write || !cpu.xf || ((adr >>> 8) != ((adr + cpu.y) >>> 8)) then cpu_idle h
  let cpu ← getCpu
  pure (((cpu.db <<< 16) + adr + cpu.y) &&& 0xffffff,
        ((cpu.db <<< 16) + adr + cpu.y + 1) &&& 0xffffff)

/-- `cpu_adrAbl` (snes_cpu.c:422). -/
def cpu_adrAbl : CpuM μ (Nat × Nat) := do
  let adr ← cpu_readOpcodeWord h false
  let bank ← cpu_readOpcode h
  let adr := adr ||| (bank <<< 16)
  pure (adr, (adr + 1) &&& 0xffffff)

/-- `cpu_adrAlx` (snes_cpu.c:429). -/
def cpu_adrAlx : CpuM μ (Nat × Nat) := do
  let adr ← cpu_readOpcodeWord h false
  let bank ← cpu_readOpcode h
  let adr := adr ||| (bank <<< 16)
  let cpu ← getCpu
  pure ((adr + cpu.x) &&& 0xffffff, (adr + cpu.x + 1) &&& 0xffffff)

/-! ## Opcode functions -/

/-- `cpu_and` (snes_cpu.c:438). -/
def cpu_and (low high : Nat) : CpuM μ Unit := do
  if (← getCpu).mf then
    cpu_checkInt
    let value ← cpu_read h low
    modifyCpu fun c => { c with a := (c.a &&& 0xff00) ||| ((c.a &&& value) &&& 0xff) }
  else
    let value ← cpu_readWord h low high true
    modifyCpu fun c => { c with a := c.a &&& value }
  let cpu ← getCpu
  cpu_setZN cpu.a cpu.mf

/-- `cpu_ora` (snes_cpu.c:450). -/
def cpu_ora (low high : Nat) : CpuM μ Unit := do
  if (← getCpu).mf then
    cpu_checkInt
    let value ← cpu_read h low
    modifyCpu fun c => { c with a := (c.a &&& 0xff00) ||| ((c.a ||| value) &&& 0xff) }
  else
    let value ← cpu_readWord h low high true
    modifyCpu fun c => { c with a := c.a ||| value }
  let cpu ← getCpu
  cpu_setZN cpu.a cpu.mf

/-- `cpu_eor` (snes_cpu.c:462). -/
def cpu_eor (low high : Nat) : CpuM μ Unit := do
  if (← getCpu).mf then
    cpu_checkInt
    let value ← cpu_read h low
    modifyCpu fun c => { c with a := (c.a &&& 0xff00) ||| ((c.a ^^^ value) &&& 0xff) }
  else
    let value ← cpu_readWord h low high true
    modifyCpu fun c => { c with a := c.a ^^^ value }
  let cpu ← getCpu
  cpu_setZN cpu.a cpu.mf

/-- The 8-bit arithmetic of `cpu_adc` after the operand read (snes_cpu.c:478-489). -/
def adc8 (cpu : Cpu) (value : Nat) : Cpu :=
  let result :=
    if cpu.d then
      let result := (cpu.a &&& 0xf) + (value &&& 0xf) + cpu.c.toNat
      let result := if result > 0x9 then ((result + 0x6) &&& 0xf) + 0x10 else result
      (cpu.a &&& 0xf0) + (value &&& 0xf0) + result
    else
      (cpu.a &&& 0xff) + value + cpu.c.toNat
  let v := ((cpu.a &&& 0x80) == (value &&& 0x80)) && ((value &&& 0x80) != (result &&& 0x80))
  let result := if cpu.d && decide (result > 0x9f) then result + 0x60 else result
  { cpu with v := v, c := decide (result > 0xff), a := (cpu.a &&& 0xff00) ||| (result &&& 0xff) }

/-- The 16-bit arithmetic of `cpu_adc` after the operand read (snes_cpu.c:492-507). -/
def adc16 (cpu : Cpu) (value : Nat) : Cpu :=
  let result :=
    if cpu.d then
      let result := (cpu.a &&& 0xf) + (value &&& 0xf) + cpu.c.toNat
      let result := if result > 0x9 then ((result + 0x6) &&& 0xf) + 0x10 else result
      let result := (cpu.a &&& 0xf0) + (value &&& 0xf0) + result
      let result := if result > 0x9f then ((result + 0x60) &&& 0xff) + 0x100 else result
      let result := (cpu.a &&& 0xf00) + (value &&& 0xf00) + result
      let result := if result > 0x9ff then ((result + 0x600) &&& 0xfff) + 0x1000 else result
      (cpu.a &&& 0xf000) + (value &&& 0xf000) + result
    else
      cpu.a + value + cpu.c.toNat
  let v := ((cpu.a &&& 0x8000) == (value &&& 0x8000)) && ((value &&& 0x8000) != (result &&& 0x8000))
  let result := if cpu.d && decide (result > 0x9fff) then result + 0x6000 else result
  { cpu with v := v, c := decide (result > 0xffff), a := result % 0x10000 }

/-- `cpu_adc` (snes_cpu.c:474). -/
def cpu_adc (low high : Nat) : CpuM μ Unit := do
  if (← getCpu).mf then
    cpu_checkInt
    let value ← cpu_read h low
    modifyCpu fun c => adc8 c value
  else
    let value ← cpu_readWord h low high true
    modifyCpu fun c => adc16 c value
  let cpu ← getCpu
  cpu_setZN cpu.a cpu.mf

/-- The 8-bit arithmetic of `cpu_sbc` after the operand read and complement
(snes_cpu.c:516-527); `value` is the complemented operand. -/
def sbc8 (cpu : Cpu) (value : Nat) : Cpu :=
  let result : Int :=
    if cpu.d then
      let result : Int := (((cpu.a &&& 0xf) + (value &&& 0xf) + cpu.c.toNat : Nat) : Int)
      let result : Int :=
        if result < 0x10 then ((cAnd (result - 0x6) (if result - 0x6 < 0 then 0xf else 0x1f) : Nat) : Int)
        else result
      (((cpu.a &&& 0xf0) + (value &&& 0xf0) : Nat) : Int) + result
    else
      (((cpu.a &&& 0xff) + value + cpu.c.toNat : Nat) : Int)
  let v := ((cpu.a &&& 0x80) == (value &&& 0x80)) && ((value &&& 0x80) != cAnd result 0x80)
  let result : Int := if cpu.d && decide (result < 0x100) then result - 0x60 else result
  { cpu with v := v, c := decide (result > 0xff), a := (cpu.a &&& 0xff00) ||| cAnd result 0xff }

/-- The 16-bit arithmetic of `cpu_sbc` after the operand read and complement
(snes_cpu.c:530-545); `value` is the complemented operand. -/
def sbc16 (cpu : Cpu) (value : Nat) : Cpu :=
  let result : Int :=
    if cpu.d then
      let result : Int := (((cpu.a &&& 0xf) + (value &&& 0xf) + cpu.c.toNat : Nat) : Int)
      let result : Int :=
        if result < 0x10 then ((cAnd (result - 0x6) (if result - 0x6 < 0 then 0xf else 0x1f) : Nat) : Int)
        else result
      let result : Int := (((cpu.a &&& 0xf0) + (value &&& 0xf0) : Nat) : Int) + result
      let result : Int :=
        if result < 0x100 then ((cAnd (result - 0x60) (if result - 0x60 < 0 then 0xff else 0x1ff) : Nat) : Int)
        else result
      let result : Int := (((cpu.a &&& 0xf00) + (value &&& 0xf00) : Nat) : Int) + result
      let result : Int :=
        if result < 0x1000 then
          ((cAnd (result - 0x600) (if result - 0x600 < 0 then 0xfff else 0x1fff) : Nat) : Int)
        else result
      (((cpu.a &&& 0xf000) + (value &&& 0xf000) : Nat) : Int) + result
    else
      ((cpu.a + value + cpu.c.toNat : Nat) : Int)
  let v := ((cpu.a &&& 0x8000) == (value &&& 0x8000)) && ((value &&& 0x8000) != cAnd result 0x8000)
  let result : Int := if cpu.d && decide (result < 0x10000) then result - 0x6000 else result
  { cpu with v := v, c := decide (result > 0xffff), a := toU16 result }

/-- `cpu_sbc` (snes_cpu.c:512). -/
def cpu_sbc (low high : Nat) : CpuM μ Unit := do
  if (← getCpu).mf then
    cpu_checkInt
    let value ← cpu_read h low
    modifyCpu fun c => sbc8 c (value ^^^ 0xff)
  else
    let value ← cpu_readWord h low high true
    modifyCpu fun c => sbc16 c (value ^^^ 0xffff)
  let cpu ← getCpu
  cpu_setZN cpu.a cpu.mf

/-- `cpu_cmp` (snes_cpu.c:550). -/
def cpu_cmp (low high : Nat) : CpuM μ Unit := do
  if (← getCpu).mf then
    cpu_checkInt
    let value ← cpu_read h low
    let value := value ^^^ 0xff
    let result := ((← getCpu).a &&& 0xff) + value + 1
    modifyCpu fun c => { c with c := decide (result > 0xff) }
    cpu_setZN result (← getCpu).mf
  else
    let value ← cpu_readWord h low high true
    let value := value ^^^ 0xffff
    let result := (← getCpu).a + value + 1
    modifyCpu fun c => { c with c := decide (result > 0xffff) }
    cpu_setZN result (← getCpu).mf

/-- `cpu_cpx` (snes_cpu.c:565). -/
def cpu_cpx (low high : Nat) : CpuM μ Unit := do
  if (← getCpu).xf then
    cpu_checkInt
    let value ← cpu_read h low
    let value := value ^^^ 0xff
    let result := ((← getCpu).x &&& 0xff) + value + 1
    modifyCpu fun c => { c with c := decide (result > 0xff) }
    cpu_setZN result (← getCpu).xf
  else
    let value ← cpu_readWord h low high true
    let value := value ^^^ 0xffff
    let result := (← getCpu).x + value + 1
    modifyCpu fun c => { c with c := decide (result > 0xffff) }
    cpu_setZN result (← getCpu).xf

/-- `cpu_cpy` (snes_cpu.c:580). -/
def cpu_cpy (low high : Nat) : CpuM μ Unit := do
  if (← getCpu).xf then
    cpu_checkInt
    let value ← cpu_read h low
    let value := value ^^^ 0xff
    let result := ((← getCpu).y &&& 0xff) + value + 1
    modifyCpu fun c => { c with c := decide (result > 0xff) }
    cpu_setZN result (← getCpu).xf
  else
    let value ← cpu_readWord h low high true
    let value := value ^^^ 0xffff
    let result := (← getCpu).y + value + 1
    modifyCpu fun c => { c with c := decide (result > 0xffff) }
    cpu_setZN result (← getCpu).xf

/-- `cpu_bit` (snes_cpu.c:595). -/
def cpu_bit (low high : Nat) : CpuM μ Unit := do
  if (← getCpu).mf then
    cpu_checkInt
    let value ← cpu_read h low
    modifyCpu fun c =>
      { c with z := ((c.a &&& 0xff) &&& value) == 0, n := (value &&& 0x80) != 0,
               v := (value &&& 0x40) != 0 }
  else
    let value ← cpu_readWord h low high true
    modifyCpu fun c =>
      { c with z := (c.a &&& value) == 0, n := (value &&& 0x8000) != 0,
               v := (value &&& 0x4000) != 0 }

/-- `cpu_lda` (snes_cpu.c:612). -/
def cpu_lda (low high : Nat) : CpuM μ Unit := do
  if (← getCpu).mf then
    cpu_checkInt
    let value ← cpu_read h low
    modifyCpu fun c => { c with a := (c.a &&& 0xff00) ||| value }
  else
    let value ← cpu_readWord h low high true
    modifyCpu fun c => { c with a := value }
  let cpu ← getCpu
  cpu_setZN cpu.a cpu.mf

/-- `cpu_ldx` (snes_cpu.c:622). -/
def cpu_ldx (low high : Nat) : CpuM μ Unit := do
  if (← getCpu).xf then
    cpu_checkInt
    let value ← cpu_read h low
    modifyCpu fun c => { c with x := value }
  else
    let value ← cpu_readWord h low high true
    modifyCpu fun c => { c with x := value }
  let cpu ← getCpu
  cpu_setZN cpu.x cpu.xf

/-- `cpu_ldy` (snes_cpu.c:632). -/
def cpu_ldy (low high : Nat) : CpuM μ Unit := do
  if (← getCpu).xf then
    cpu_checkInt
    let value ← cpu_read h low
    modifyCpu fun c => { c with y := value }
  else
    let value ← cpu_readWord h low high true
    modifyCpu fun c => { c with y := value }
  let cpu ← getCpu
  cpu_setZN cpu.y cpu.xf

/-- `cpu_sta` (snes_cpu.c:642). -/
def cpu_sta (low high : Nat) : CpuM μ Unit := do
  if (← getCpu).mf then
    cpu_checkInt
    cpu_write h low (← getCpu).a
  else
    cpu_writeWord h low high (← getCpu).a false true

/-- `cpu_stx` (snes_cpu.c:651). -/
def cpu_stx (low high : Nat) : CpuM μ Unit := do
  if (← getCpu).xf then
    cpu_checkInt
    cpu_write h low (← getCpu).x
  else
    cpu_writeWord h low high (← getCpu).x false true

/-- `cpu_sty` (snes_cpu.c:660). -/
def cpu_sty (low high : Nat) : CpuM μ Unit := do
  if (← getCpu).xf then
    cpu_checkInt
    cpu_write h low (← getCpu).y
  else
    cpu_writeWord h low high (← getCpu).y false true

/-- `cpu_stz` (snes_cpu.c:669). -/
def cpu_stz (low high : Nat) : CpuM μ Unit := do
  if (← getCpu).mf then
    cpu_checkInt
    cpu_write h low 0
  else
    cpu_writeWord h low high 0 false true

/-- `cpu_ror` (snes_cpu.c:678). -/
def cpu_ror (low high : Nat) : CpuM μ Unit := do
  if (← getCpu).mf then
    let value ← cpu_read h low
    cpu_idle h
    let carry := (value &&& 1) != 0
    let result := (value >>> 1) ||| ((← getCpu).c.toNat <<< 7)
    cpu_checkInt
    cpu_write h low result
    cpu_setZN result (← getCpu).mf
    modifyCpu fun c => { c with c := carry }
  else
    let value ← cpu_readWord h low high false
    cpu_idle h
    let carry := (value &&& 1) != 0
    let result := (value >>> 1) ||| ((← getCpu).c.toNat <<< 15)
    cpu_writeWord h low high result true true
    cpu_setZN result (← getCpu).mf
    modifyCpu fun c => { c with c := carry }

/-- `cpu_rol` (snes_cpu.c:699). -/
def cpu_rol (low high : Nat) : CpuM μ Unit := do
  if (← getCpu).mf then
    let value ← cpu_read h low
    let result := (value <<< 1) ||| (← getCpu).c.toNat
    cpu_idle h
    modifyCpu fun c => { c with c := (result &&& 0x100) != 0 }
    cpu_checkInt
    cpu_write h low result
    cpu_setZN result (← getCpu).mf
  else
    let value ← cpu_readWord h low high false
    let result := (value <<< 1) ||| (← getCpu).c.toNat
    cpu_idle h
    modifyCpu fun c => { c with c := (result &&& 0x10000) != 0 }
    cpu_writeWord h low high result true true
    cpu_setZN result (← getCpu).mf

/-- `cpu_lsr` (snes_cpu.c:716). -/
def cpu_lsr (low high : Nat) : CpuM μ Unit := do
  if (← getCpu).mf then
    let value ← cpu_read h low
    cpu_idle h
    modifyCpu fun c => { c with c := (value &&& 1) != 0 }
    let result := value >>> 1
    cpu_checkInt
    cpu_write h low result
    cpu_setZN result (← getCpu).mf
  else
    let value ← cpu_readWord h low high false
    cpu_idle h
    modifyCpu fun c => { c with c := (value &&& 1) != 0 }
    let result := value >>> 1
    cpu_writeWord h low high result true true
    cpu_setZN result (← getCpu).mf

/-- `cpu_asl` (snes_cpu.c:735). -/
def cpu_asl (low high : Nat) : CpuM μ Unit := do
  if (← getCpu).mf then
    let value ← cpu_read h low
    let result := value <<< 1
    cpu_idle h
    modifyCpu fun c => { c with c := (result &&& 0x100) != 0 }
    cpu_checkInt
    cpu_write h low result
    cpu_setZN result (← getCpu).mf
  else
    let value ← cpu_readWord h low high false
    let result := value <<< 1
    cpu_idle h
    modifyCpu fun c => { c with c := (result &&& 0x10000) != 0 }
    cpu_writeWord h low high result true true
    cpu_setZN result (← getCpu).mf

/-- `cpu_inc` (snes_cpu.c:752). -/
def cpu_inc (low high : Nat) : CpuM μ Unit := do
  if (← getCpu).mf then
    let value ← cpu_read h low
    let result := value + 1
    cpu_idle h
    cpu_checkInt
    cpu_write h low result
    cpu_setZN result (← getCpu).mf
  else
    let value ← cpu_readWord h low high false
    let result := value + 1
    cpu_idle h
    cpu_writeWord h low high result true true
    cpu_setZN result (← getCpu).mf

/-- `cpu_dec` (snes_cpu.c:767). -/
def cpu_dec (low high : Nat) : CpuM μ Unit := do
  if (← getCpu).mf then
    let value ← cpu_read h low
    let result : Int := (value : Int) - 1
    cpu_idle h
    cpu_checkInt
    cpu_write h low (toU8 result)
    cpu_setZN (toU16 result) (← getCpu).mf
  else
    let value ← cpu_readWord h low high false
    let result : Int := (value : Int) - 1
    cpu_idle h
    cpu_writeWord h low high (toU16 result) true true
    cpu_setZN (toU16 result) (← getCpu).mf

/-- `cpu_tsb` (snes_cpu.c:782). -/
def cpu_tsb (low high : Nat) : CpuM μ Unit := do
  if (← getCpu).mf then
    let value ← cpu_read h low
    cpu_idle h
    modifyCpu fun c => { c with z := ((c.a &&& 0xff) &&& value) == 0 }
    cpu_checkInt
    cpu_write h low (value ||| ((← getCpu).a &&& 0xff))
  else
    let value ← cpu_readWord h low high false
    cpu_idle h
    modifyCpu fun c => { c with z := (c.a &&& value) == 0 }
    cpu_writeWord h low high (value ||| (← getCpu).a) true true

/-- `cpu_trb` (snes_cpu.c:797). -/
def cpu_trb (low high : Nat) : CpuM μ Unit := do
  if (← getCpu).mf then
    let value ← cpu_read h low
    cpu_idle h
    modifyCpu fun c => { c with z := ((c.a &&& 0xff) &&& value) == 0 }
    cpu_checkInt
    cpu_write h low (cAnd (cNot ((← getCpu).a &&& 0xff)) value)
  else
    let value ← cpu_readWord h low high false
    cpu_idle h
    modifyCpu fun c => { c with z := (c.a &&& value) == 0 }
    cpu_writeWord h low high (cAnd (cNot (← getCpu).a) value) true true

/-- The register updates of one MVP / MVN iteration, between the data write
and the idle cycles (snes_cpu.c:1262-1271 and 1377-1386): `cpu->a--`, the index
step (`x--, y--` for MVP, `x++, y++` for MVN), the rewind of PC while A has not
wrapped, and the 8-bit index truncation. -/
def blockMoveRegs (step : Nat → Nat) (c : Cpu) : Cpu :=
  let c := { c with a := dec16 c.a, x := step c.x, y := step c.y }
  let c := if c.a != 0xffff then { c with pc := toU16 ((c.pc : Int) - 3) } else c
  if c.xf then { c with x := c.x &&& 0xff, y := c.y &&& 0xff } else c

/-! ## The opcode switch

`cpu_doOpcode` is one 256-way `switch`.  It is split here by the high nibble
of the opcode into sixteen functions of sixteen cases each; the cases are in
source order and each carries the comment of its `case` label. -/

/-- Opcodes 0x00..0x0f of the switch in `cpu_doOpcode` (snes_cpu.c:814). -/
def cpu_doOpcode0 (opcode : Nat) : CpuM μ Unit :=
  match opcode with
  | 0x00 => do -- brk imm(s)
    let vector := if (← getCpu).e then 0xfffe else 0xffe6
    let _ ← cpu_readOpcode h
    if !(← getCpu).e then cpu_pushByte h (← getCpu).k
    cpu_pushWord h (← getCpu).pc false
    cpu_pushByte h (cpu_getFlags (← getCpu))
    modifyCpu fun c => { c with i := true, d := false, k := 0 }
    let pc ← cpu_readWord h vector (vector + 1) true
    modifyCpu fun c => { c with pc := pc }
  | 0x01 => do -- ora idx
    let p ← cpu_adrIdx h
    cpu_ora h p.1 p.2
  | 0x02 => do -- cop imm(s)
    let vector := if (← getCpu).e then 0xfff4 else 0xffe4
    let _ ← cpu_readOpcode h
    if !(← getCpu).e then cpu_pushByte h (← getCpu).k
    cpu_pushWord h (← getCpu).pc false
    cpu_pushByte h (cpu_getFlags (← getCpu))
    modifyCpu fun c => { c with i := true, d := false, k := 0 }
    let pc ← cpu_readWord h vector (vector + 1) true
    modifyCpu fun c => { c with pc := pc }
  | 0x03 => do -- ora sr
    let p ← cpu_adrSr h
    cpu_ora h p.1 p.2
  | 0x04 => do -- tsb dp
    let p ← cpu_adrDp h
    cpu_tsb h p.1 p.2
  | 0x05 => do -- ora dp
    let p ← cpu_adrDp h
    cpu_ora h p.1 p.2
  | 0x06 => do -- asl dp
    let p ← cpu_adrDp h
    cpu_asl h p.1 p.2
  | 0x07 => do -- ora idl
    let p ← cpu_adrIdl h
    cpu_ora h p.1 p.2
  | 0x08 => do -- php imp
    cpu_idle h
    cpu_checkInt
    cpu_pushByte h (cpu_getFlags (← getCpu))
  | 0x09 => do -- ora imm(m)
    let p ← cpu_adrImm false
    cpu_ora h p.1 p.2
  | 0x0a => do -- asla imp
    cpu_adrImp h
    modifyCpu fun c =>
      if c.mf then { c with c := (c.a &&& 0x80) != 0, a := (c.a &&& 0xff00) ||| ((c.a <<< 1) &&& 0xff) }
      else { c with c := (c.a &&& 0x8000) != 0, a := (c.a <<< 1) % 0x10000 }
    let cpu ← getCpu
    cpu_setZN cpu.a cpu.mf
  | 0x0b => do -- phd imp
    cpu_idle h
    cpu_pushWord h (← getCpu).dp true
  | 0x0c => do -- tsb abs
    let p ← cpu_adrAbs h
    cpu_tsb h p.1 p.2
  | 0x0d => do -- ora abs
    let p ← cpu_adrAbs h
    cpu_ora h p.1 p.2
  | 0x0e => do -- asl abs
    let p ← cpu_adrAbs h
    cpu_asl h p.1 p.2
  | 0x0f => do -- ora abl
    let p ← cpu_adrAbl h
    cpu_ora h p.1 p.2
  | _ => pure ()

/-- Opcodes 0x10..0x1f of the switch in `cpu_doOpcode` (snes_cpu.c:927). -/
def cpu_doOpcode1 (opcode : Nat) : CpuM μ Unit :=
  match opcode with
  | 0x10 => do -- bpl rel
    cpu_doBranch h (!(← getCpu).n)
  | 0x11 => do -- ora idy(r)
    let p ← cpu_adrIdy h false
    cpu_ora h p.1 p.2
  | 0x12 => do -- ora idp
    let p ← cpu_adrIdp h
    cpu_ora h p.1 p.2
  | 0x13 => do -- ora isy
    let p ← cpu_adrIsy h
    cpu_ora h p.1 p.2
  | 0x14 => do -- trb dp
    let p ← cpu_adrDp h
    cpu_trb h p.1 p.2
  | 0x15 => do -- ora dpx
    let p ← cpu_adrDpx h
    cpu_ora h p.1 p.2
  | 0x16 => do -- asl dpx
    let p ← cpu_adrDpx h
    cpu_asl h p.1 p.2
  | 0x17 => do -- ora ily
    let p ← cpu_adrIly h
    cpu_ora h p.1 p.2
  | 0x18 => do -- clc imp
    cpu_adrImp h
    modifyCpu fun c => { c with c := false }
  | 0x19 => do -- ora aby(r)
    let p ← cpu_adrAby h false
    cpu_ora h p.1 p.2
  | 0x1a => do -- inca imp
    cpu_adrImp h
    modifyCpu fun c =>
      if c.mf then { c with a := (c.a &&& 0xff00) ||| ((c.a + 1) &&& 0xff) } else { c with a := inc16 c.a }
    let cpu ← getCpu
    cpu_setZN cpu.a cpu.mf
  | 0x1b => do -- tcs imp
    cpu_adrImp h
    modifyCpu fun c => { c with sp := if c.e then (c.a &&& 0xff) ||| 0x100 else c.a }
  | 0x1c => do -- trb abs
    let p ← cpu_adrAbs h
    cpu_trb h p.1 p.2
  | 0x1d => do -- ora abx(r)
    let p ← cpu_adrAbx h false
    cpu_ora h p.1 p.2
  | 0x1e => do -- asl abx
    let p ← cpu_adrAbx h true
    cpu_asl h p.1 p.2
  | 0x1f => do -- ora alx
    let p ← cpu_adrAlx h
    cpu_ora h p.1 p.2
  | _ => pure ()

/-- Opcodes 0x20..0x2f of the switch in `cpu_doOpcode` (snes_cpu.c:1023). -/
def cpu_doOpcode2 (opcode : Nat) : CpuM μ Unit :=
  match opcode with
  | 0x20 => do -- jsr abs
    let value ← cpu_readOpcodeWord h false
    cpu_idle h
    cpu_pushWord h (toU16 (((← getCpu).pc : Int) - 1)) true
    modifyCpu fun c => { c with pc := value }
  | 0x21 => do -- and idx
    let p ← cpu_adrIdx h
    cpu_and h p.1 p.2
  | 0x22 => do -- jsl abl
    let value ← cpu_readOpcodeWord h false
    cpu_pushByte h (← getCpu).k
    cpu_idle h
    let newK ← cpu_readOpcode h
    cpu_pushWord h (toU16 (((← getCpu).pc : Int) - 1)) true
    modifyCpu fun c => { c with pc := value, k := newK }
  | 0x23 => do -- and sr
    let p ← cpu_adrSr h
    cpu_and h p.1 p.2
  | 0x24 => do -- bit dp
    let p ← cpu_adrDp h
    cpu_bit h p.1 p.2
  | 0x25 => do -- and dp
    let p ← cpu_adrDp h
    cpu_and h p.1 p.2
  | 0x26 => do -- rol dp
    let p ← cpu_adrDp h
    cpu_rol h p.1 p.2
  | 0x27 => do -- and idl
    let p ← cpu_adrIdl h
    cpu_and h p.1 p.2
  | 0x28 => do -- plp imp
    cpu_idle h
    cpu_idle h
    cpu_checkInt
    let value ← cpu_pullByte h
    cpu_setFlags value
  | 0x29 => do -- and imm(m)
    let p ← cpu_adrImm false
    cpu_and h p.1 p.2
  | 0x2a => do -- rola imp
    cpu_adrImp h
    modifyCpu fun c =>
      let result := (c.a <<< 1) ||| c.c.toNat
      if c.mf then { c with c := (result &&& 0x100) != 0, a := (c.a &&& 0xff00) ||| (result &&& 0xff) }
      else { c with c := (result &&& 0x10000) != 0, a := result % 0x10000 }
    let cpu ← getCpu
    cpu_setZN cpu.a cpu.mf
  | 0x2b => do -- pld imp
    cpu_idle h
    cpu_idle h
    let value ← cpu_pullWord h true
    modifyCpu fun c => { c with dp := value }
    cpu_setZN (← getCpu).dp false
  | 0x2c => do -- bit abs
    let p ← cpu_adrAbs h
    cpu_bit h p.1 p.2
  | 0x2d => do -- and abs
    let p ← cpu_adrAbs h
    cpu_and h p.1 p.2
  | 0x2e => do -- rol abs
    let p ← cpu_adrAbs h
    cpu_rol h p.1 p.2
  | 0x2f => do -- and abl
    let p ← cpu_adrAbl h
    cpu_and h p.1 p.2
  | _ => pure ()

/-- Opcodes 0x30..0x3f of the switch in `cpu_doOpcode` (snes_cpu.c:1133). -/
def cpu_doOpcode3 (opcode : Nat) : CpuM μ Unit :=
  match opcode with
  | 0x30 => do -- bmi rel
    cpu_doBranch h ((← getCpu).n)
  | 0x31 => do -- and idy(r)
    let p ← cpu_adrIdy h false
    cpu_and h p.1 p.2
  | 0x32 => do -- and idp
    let p ← cpu_adrIdp h
    cpu_and h p.1 p.2
  | 0x33 => do -- and isy
    let p ← cpu_adrIsy h
    cpu_and h p.1 p.2
  | 0x34 => do -- bit dpx
    let p ← cpu_adrDpx h
    cpu_bit h p.1 p.2
  | 0x35 => do -- and dpx
    let p ← cpu_adrDpx h
    cpu_and h p.1 p.2
  | 0x36 => do -- rol dpx
    let p ← cpu_adrDpx h
    cpu_rol h p.1 p.2
  | 0x37 => do -- and ily
    let p ← cpu_adrIly h
    cpu_and h p.1 p.2
  | 0x38 => do -- sec imp
    cpu_adrImp h
    modifyCpu fun c => { c with c := true }
  | 0x39 => do -- and aby(r)
    let p ← cpu_adrAby h false
    cpu_and h p.1 p.2
  | 0x3a => do -- deca imp
    cpu_adrImp h
    modifyCpu fun c =>
      if c.mf then { c with a := (c.a &&& 0xff00) ||| cAnd ((c.a : Int) - 1) 0xff } else { c with a := dec16 c.a }
    let cpu ← getCpu
    cpu_setZN cpu.a cpu.mf
  | 0x3b => do -- tsc imp
    cpu_adrImp h
    modifyCpu fun c => { c with a := c.sp }
    cpu_setZN (← getCpu).a false
  | 0x3c => do -- bit abx(r)
    let p ← cpu_adrAbx h false
    cpu_bit h p.1 p.2
  | 0x3d => do -- and abx(r)
    let p ← cpu_adrAbx h false
    cpu_and h p.1 p.2
  | 0x3e => do -- rol abx
    let p ← cpu_adrAbx h true
    cpu_rol h p.1 p.2
  | 0x3f => do -- and alx
    let p ← cpu_adrAlx h
    cpu_and h p.1 p.2
  | _ => pure ()

/-- Opcodes 0x40..0x4f of the switch in `cpu_doOpcode` (snes_cpu.c:1230). -/
def cpu_doOpcode4 (opcode : Nat) : CpuM μ Unit :=
  match opcode with
  | 0x40 => do -- rti imp
    cpu_idle h
    cpu_idle h
    let value ← cpu_pullByte h
    cpu_setFlags value
    let pc ← cpu_pullWord h false
    modifyCpu fun c => { c with pc := pc }
    cpu_checkInt
    let k ← cpu_pullByte h
    modifyCpu fun c => { c with k := k }
  | 0x41 => do -- eor idx
    let p ← cpu_adrIdx h
    cpu_eor h p.1 p.2
  | 0x42 => do -- wdm imm(s)
    cpu_checkInt
    let _ ← cpu_readOpcode h
    pure ()
  | 0x43 => do -- eor sr
    let p ← cpu_adrSr h
    cpu_eor h p.1 p.2
  | 0x44 => do -- mvp bm
    let dest ← cpu_readOpcode h
    let src ← cpu_readOpcode h
    modifyCpu fun c => { c with db := dest }
    let value ← cpu_read h ((src <<< 16) ||| (← getCpu).x)
    cpu_write h ((dest <<< 16) ||| (← getCpu).y) value
    modifyCpu (blockMoveRegs dec16)
    cpu_idle h
    cpu_checkInt
    cpu_idle h
  | 0x45 => do -- eor dp
    let p ← cpu_adrDp h
    cpu_eor h p.1 p.2
  | 0x46 => do -- lsr dp
    let p ← cpu_adrDp h
    cpu_lsr h p.1 p.2
  | 0x47 => do -- eor idl
    let p ← cpu_adrIdl h
    cpu_eor h p.1 p.2
  | 0x48 => do -- pha imp
    cpu_idle h
    if (← getCpu).mf then
      cpu_checkInt
      cpu_pushByte h (← getCpu).a
    else
      cpu_pushWord h (← getCpu).a true
  | 0x49 => do -- eor imm(m)
    let p ← cpu_adrImm false
    cpu_eor h p.1 p.2
  | 0x4a => do -- lsra imp
    cpu_adrImp h
    modifyCpu fun c => { c with c := (c.a &&& 1) != 0 }
    modifyCpu fun c =>
      if c.mf then { c with a := (c.a &&& 0xff00) ||| ((c.a >>> 1) &&& 0x7f) } else { c with a := c.a >>> 1 }
    let cpu ← getCpu
    cpu_setZN cpu.a cpu.mf
  | 0x4b => do -- phk imp
    cpu_idle h
    cpu_checkInt
    cpu_pushByte h (← getCpu).k
  | 0x4c => do -- jmp abs
    let pc ← cpu_readOpcodeWord h true
    modifyCpu fun c => { c with pc := pc }
  | 0x4d => do -- eor abs
    let p ← cpu_adrAbs h
    cpu_eor h p.1 p.2
  | 0x4e => do -- lsr abs
    let p ← cpu_adrAbs h
    cpu_lsr h p.1 p.2
  | 0x4f => do -- eor abl
    let p ← cpu_adrAbl h
    cpu_eor h p.1 p.2
  | _ => pure ()

/-- Opcodes 0x50..0x5f of the switch in `cpu_doOpcode` (snes_cpu.c:1349). -/
def cpu_doOpcode5 (opcode : Nat) : CpuM μ Unit :=
  match opcode with
  | 0x50 => do -- bvc rel
    cpu_doBranch h (!(← getCpu).v)
  | 0x51 => do -- eor idy(r)
    let p ← cpu_adrIdy h false
    cpu_eor h p.1 p.2
  | 0x52 => do -- eor idp
    let p ← cpu_adrIdp h
    cpu_eor h p.1 p.2
  | 0x53 => do -- eor isy
    let p ← cpu_adrIsy h
    cpu_eor h p.1 p.2
  | 0x54 => do -- mvn bm
    let dest ← cpu_readOpcode h
    let src ← cpu_readOpcode h
    modifyCpu fun c => { c with db := dest }
    let value ← cpu_read h ((src <<< 16) ||| (← getCpu).x)
    cpu_write h ((dest <<< 16) ||| (← getCpu).y) value
    modifyCpu (blockMoveRegs inc16)
    cpu_idle h
    cpu_checkInt
    cpu_idle h
  | 0x55 => do -- eor dpx
    let p ← cpu_adrDpx h
    cpu_eor h p.1 p.2
  | 0x56 => do -- lsr dpx
    let p ← cpu_adrDpx h
    cpu_lsr h p.1 p.2
  | 0x57 => do -- eor ily
    let p ← cpu_adrIly h
    cpu_eor h p.1 p.2
  | 0x58 => do -- cli imp
    cpu_adrImp h
    modifyCpu fun c => { c with i := false }
  | 0x59 => do -- eor aby(r)
    let p ← cpu_adrAby h false
    cpu_eor h p.1 p.2
  | 0x5a => do -- phy imp
    cpu_idle h
    if (← getCpu).xf then
      cpu_checkInt
      cpu_pushByte h (← getCpu).y
    else
      cpu_pushWord h (← getCpu).y true
  | 0x5b => do -- tcd imp
    cpu_adrImp h
    modifyCpu fun c => { c with dp := c.a }
    cpu_setZN (← getCpu).dp false
  | 0x5c => do -- jml abl
    let value ← cpu_readOpcodeWord h false
    cpu_checkInt
    let k ← cpu_readOpcode h
    modifyCpu fun c => { c with k := k }
    modifyCpu fun c => { c with pc := value }
  | 0x5d => do -- eor abx(r)
    let p ← cpu_adrAbx h false
    cpu_eor h p.1 p.2
  | 0x5e => do -- lsr abx
    let p ← cpu_adrAbx h true
    cpu_lsr h p.1 p.2
  | 0x5f => do -- eor alx
    let p ← cpu_adrAlx h
    cpu_eor h p.1 p.2
  | _ => pure ()

/-- Opcodes 0x60..0x6f of the switch in `cpu_doOpcode` (snes_cpu.c:1461). -/
def cpu_doOpcode6 (opcode : Nat) : CpuM μ Unit :=
  match opcode with
  | 0x60 => do -- rts imp
    cpu_idle h
    cpu_idle h
    let value ← cpu_pullWord h false
    modifyCpu fun c => { c with pc := (value + 1) % 0x10000 }
    cpu_checkInt
    cpu_idle h
  | 0x61 => do -- adc idx
    let p ← cpu_adrIdx h
    cpu_adc h p.1 p.2
  | 0x62 => do -- per rll
    let value ← cpu_readOpcodeWord h false
    cpu_idle h
    cpu_pushWord h (toU16 (((← getCpu).pc : Int) + toS16 value)) true
  | 0x63 => do -- adc sr
    let p ← cpu_adrSr h
    cpu_adc h p.1 p.2
  | 0x64 => do -- stz dp
    let p ← cpu_adrDp h
    cpu_stz h p.1 p.2
  | 0x65 => do -- adc dp
    let p ← cpu_adrDp h
    cpu_adc h p.1 p.2
  | 0x66 => do -- ror dp
    let p ← cpu_adrDp h
    cpu_ror h p.1 p.2
  | 0x67 => do -- adc idl
    let p ← cpu_adrIdl h
    cpu_adc h p.1 p.2
  | 0x68 => do -- pla imp
    cpu_idle h
    cpu_idle h
    if (← getCpu).mf then
      cpu_checkInt
      let value ← cpu_pullByte h
      modifyCpu fun c => { c with a := (c.a &&& 0xff00) ||| value }
    else
      let value ← cpu_pullWord h true
      modifyCpu fun c => { c with a := value }
    let cpu ← getCpu
    cpu_setZN cpu.a cpu.mf
  | 0x69 => do -- adc imm(m)
    let p ← cpu_adrImm false
    cpu_adc h p.1 p.2
  | 0x6a => do -- rora imp
    cpu_adrImp h
    modifyCpu fun c =>
      let carry := (c.a &&& 1) != 0
      let c :=
        if c.mf then { c with a := (c.a &&& 0xff00) ||| ((c.a >>> 1) &&& 0x7f) ||| (c.c.toNat <<< 7) }
        else { c with a := (c.a >>> 1) ||| (c.c.toNat <<< 15) }
      { c with c := carry }
    let cpu ← getCpu
    cpu_setZN cpu.a cpu.mf
  | 0x6b => do -- rtl imp
    cpu_idle h
    cpu_idle h
    let value ← cpu_pullWord h false
    modifyCpu fun c => { c with pc := (value + 1) % 0x10000 }
    cpu_checkInt
    let k ← cpu_pullByte h
    modifyCpu fun c => { c with k := k }
  | 0x6c => do -- jmp ind
    let adr ← cpu_readOpcodeWord h false
    let pc ← cpu_readWord h adr ((adr + 1) &&& 0xffff) true
    modifyCpu fun c => { c with pc := pc }
  | 0x6d => do -- adc abs
    let p ← cpu_adrAbs h
    cpu_adc h p.1 p.2
  | 0x6e => do -- ror abs
    let p ← cpu_adrAbs h
    cpu_ror h p.1 p.2
  | 0x6f => do -- adc abl
    let p ← cpu_adrAbl h
    cpu_adc h p.1 p.2
  | _ => pure ()

/-- Opcodes 0x70..0x7f of the switch in `cpu_doOpcode` (snes_cpu.c:1572). -/
def cpu_doOpcode7 (opcode : Nat) : CpuM μ Unit :=
  match opcode with
  | 0x70 => do -- bvs rel
    cpu_doBranch h ((← getCpu).v)
  | 0x71 => do -- adc idy(r)
    let p ← cpu_adrIdy h false
    cpu_adc h p.1 p.2
  | 0x72 => do -- adc idp
    let p ← cpu_adrIdp h
    cpu_adc h p.1 p.2
  | 0x73 => do -- adc isy
    let p ← cpu_adrIsy h
    cpu_adc h p.1 p.2
  | 0x74 => do -- stz dpx
    let p ← cpu_adrDpx h
    cpu_stz h p.1 p.2
  | 0x75 => do -- adc dpx
    let p ← cpu_adrDpx h
    cpu_adc h p.1 p.2
  | 0x76 => do -- ror dpx
    let p ← cpu_adrDpx h
    cpu_ror h p.1 p.2
  | 0x77 => do -- adc ily
    let p ← cpu_adrIly h
    cpu_adc h p.1 p.2
  | 0x78 => do -- sei imp
    cpu_adrImp h
    modifyCpu fun c => { c with i := true }
  | 0x79 => do -- adc aby(r)
    let p ← cpu_adrAby h false
    cpu_adc h p.1 p.2
  | 0x7a => do -- ply imp
    cpu_idle h
    cpu_idle h
    if (← getCpu).xf then
      cpu_checkInt
      let value ← cpu_pullByte h
      modifyCpu fun c => { c with y := value }
    else
      let value ← cpu_pullWord h true
      modifyCpu fun c => { c with y := value }
    let cpu ← getCpu
    cpu_setZN cpu.y cpu.xf
  | 0x7b => do -- tdc imp
    cpu_adrImp h
    modifyCpu fun c => { c with a := c.dp }
    cpu_setZN (← getCpu).a false
  | 0x7c => do -- jmp iax
    let adr ← cpu_readOpcodeWord h false
    cpu_idle h
    let cpu ← getCpu
    let pc ← cpu_readWord h ((cpu.k <<< 16) ||| ((adr + cpu.x) &&& 0xffff))
      ((cpu.k <<< 16) ||| ((adr + cpu.x + 1) &&& 0xffff)) true
    modifyCpu fun c => { c with pc := pc }
  | 0x7d => do -- adc abx(r)
    let p ← cpu_adrAbx h false
    cpu_adc h p.1 p.2
  | 0x7e => do -- ror abx
    let p ← cpu_adrAbx h true
    cpu_ror h p.1 p.2
  | 0x7f => do -- adc alx
    let p ← cpu_adrAlx h
    cpu_adc h p.1 p.2
  | _ => pure ()

/-- Opcodes 0x80..0x8f of the switch in `cpu_doOpcode` (snes_cpu.c:1671). -/
def cpu_doOpcode8 (opcode : Nat) : CpuM μ Unit :=
  match opcode with
  | 0x80 => do -- bra rel
    cpu_doBranch h true
  | 0x81 => do -- sta idx
    let p ← cpu_adrIdx h
    cpu_sta h p.1 p.2
  | 0x82 => do -- brl rll
    let value ← cpu_readOpcodeWord h false
    modifyCpu fun c => { c with pc := toU16 ((c.pc : Int) + toS16 value) }
    cpu_checkInt
    cpu_idle h
  | 0x83 => do -- sta sr
    let p ← cpu_adrSr h
    cpu_sta h p.1 p.2
  | 0x84 => do -- sty dp
    let p ← cpu_adrDp h
    cpu_sty h p.1 p.2
  | 0x85 => do -- sta dp
    let p ← cpu_adrDp h
    cpu_sta h p.1 p.2
  | 0x86 => do -- stx dp
    let p ← cpu_adrDp h
    cpu_stx h p.1 p.2
  | 0x87 => do -- sta idl
    let p ← cpu_adrIdl h
    cpu_sta h p.1 p.2
  | 0x88 => do -- dey imp
    cpu_adrImp h
    modifyCpu fun c =>
      if c.xf then { c with y := cAnd ((c.y : Int) - 1) 0xff } else { c with y := dec16 c.y }
    let cpu ← getCpu
    cpu_setZN cpu.y cpu.xf
  | 0x89 => do -- biti imm(m)
    if (← getCpu).mf then
      cpu_checkInt
      let value ← cpu_readOpcode h
      modifyCpu fun c => { c with z := ((c.a &&& 0xff) &&& value) == 0 }
    else
      let value ← cpu_readOpcodeWord h true
      modifyCpu fun c => { c with z := (c.a &&& value) == 0 }
  | 0x8a => do -- txa imp
    cpu_adrImp h
    modifyCpu fun c =>
      if c.mf then { c with a := (c.a &&& 0xff00) ||| (c.x &&& 0xff) } else { c with a := c.x }
    let cpu ← getCpu
    cpu_setZN cpu.a cpu.mf
  | 0x8b => do -- phb imp
    cpu_idle h
    cpu_checkInt
    cpu_pushByte h (← getCpu).db
  | 0x8c => do -- sty abs
    let p ← cpu_adrAbs h
    cpu_sty h p.1 p.2
  | 0x8d => do -- sta abs
    let p ← cpu_adrAbs h
    cpu_sta h p.1 p.2
  | 0x8e => do -- stx abs
    let p ← cpu_adrAbs h
    cpu_stx h p.1 p.2
  | 0x8f => do -- sta abl
    let p ← cpu_adrAbl h
    cpu_sta h p.1 p.2
  | _ => pure ()

/-- Opcodes 0x90..0x9f of the switch in `cpu_doOpcode` (snes_cpu.c:1778). -/
def cpu_doOpcode9 (opcode : Nat) : CpuM μ Unit :=
  match opcode with
  | 0x90 => do -- bcc rel
    cpu_doBranch h (!(← getCpu).c)
  | 0x91 => do -- sta idy
    let p ← cpu_adrIdy h true
    cpu_sta h p.1 p.2
  | 0x92 => do -- sta idp
    let p ← cpu_adrIdp h
    cpu_sta h p.1 p.2
  | 0x93 => do -- sta isy
    let p ← cpu_adrIsy h
    cpu_sta h p.1 p.2
  | 0x94 => do -- sty dpx
    let p ← cpu_adrDpx h
    cpu_sty h p.1 p.2
  | 0x95 => do -- sta dpx
    let p ← cpu_adrDpx h
    cpu_sta h p.1 p.2
  | 0x96 => do -- stx dpy
    let p ← cpu_adrDpy h
    cpu_stx h p.1 p.2
  | 0x97 => do -- sta ily
    let p ← cpu_adrIly h
    cpu_sta h p.1 p.2
  | 0x98 => do -- tya imp
    cpu_adrImp h
    modifyCpu fun c =>
      if c.mf then { c with a := (c.a &&& 0xff00) ||| (c.y &&& 0xff) } else { c with a := c.y }
    let cpu ← getCpu
    cpu_setZN cpu.a cpu.mf
  | 0x99 => do -- sta aby
    let p ← cpu_adrAby h true
    cpu_sta h p.1 p.2
  | 0x9a => do -- txs imp
    cpu_adrImp h
    modifyCpu fun c => { c with sp := if c.e then (c.x &&& 0xff) ||| 0x100 else c.x }
  | 0x9b => do -- txy imp
    cpu_adrImp h
    modifyCpu fun c => if c.xf then { c with y := c.x &&& 0xff } else { c with y := c.x }
    let cpu ← getCpu
    cpu_setZN cpu.y cpu.xf
  | 0x9c => do -- stz abs
    let p ← cpu_adrAbs h
    cpu_stz h p.1 p.2
  | 0x9d => do -- sta abx
    let p ← cpu_adrAbx h true
    cpu_sta h p.1 p.2
  | 0x9e => do -- stz abx
    let p ← cpu_adrAbx h true
    cpu_stz h p.1 p.2
  | 0x9f => do -- sta alx
    let p ← cpu_adrAlx h
    cpu_sta h p.1 p.2
  | _ => pure ()

/-- Opcodes 0xa0..0xaf of the switch in `cpu_doOpcode` (snes_cpu.c:1879). -/
def cpu_doOpcodeA (opcode : Nat) : CpuM μ Unit :=
  match opcode with
  | 0xa0 => do -- ldy imm(x)
    let p ← cpu_adrImm true
    cpu_ldy h p.1 p.2
  | 0xa1 => do -- lda idx
    let p ← cpu_adrIdx h
    cpu_lda h p.1 p.2
  | 0xa2 => do -- ldx imm(x)
    let p ← cpu_adrImm true
    cpu_ldx h p.1 p.2
  | 0xa3 => do -- lda sr
    let p ← cpu_adrSr h
    cpu_lda h p.1 p.2
  | 0xa4 => do -- ldy dp
    let p ← cpu_adrDp h
    cpu_ldy h p.1 p.2
  | 0xa5 => do -- lda dp
    let p ← cpu_adrDp h
    cpu_lda h p.1 p.2
  | 0xa6 => do -- ldx dp
    let p ← cpu_adrDp h
    cpu_ldx h p.1 p.2
  | 0xa7 => do -- lda idl
    let p ← cpu_adrIdl h
    cpu_lda h p.1 p.2
  | 0xa8 => do -- tay imp
    cpu_adrImp h
    modifyCpu fun c => if c.xf then { c with y := c.a &&& 0xff } else { c with y := c.a }
    let cpu ← getCpu
    cpu_setZN cpu.y cpu.xf
  | 0xa9 => do -- lda imm(m)
    let p ← cpu_adrImm false
    cpu_lda h p.1 p.2
  | 0xaa => do -- tax imp
    cpu_adrImp h
    modifyCpu fun c => if c.xf then { c with x := c.a &&& 0xff } else { c with x := c.a }
    let cpu ← getCpu
    cpu_setZN cpu.x cpu.xf
  | 0xab => do -- plb imp
    cpu_idle h
    cpu_idle h
    cpu_checkInt
    let value ← cpu_pullByte h
    modifyCpu fun c => { c with db := value }
    cpu_setZN (← getCpu).db true
  | 0xac => do -- ldy abs
    let p ← cpu_adrAbs h
    cpu_ldy h p.1 p.2
  | 0xad => do -- lda abs
    let p ← cpu_adrAbs h
    cpu_lda h p.1 p.2
  | 0xae => do -- ldx abs
    let p ← cpu_adrAbs h
    cpu_ldx h p.1 p.2
  | 0xaf => do -- lda abl
    let p ← cpu_adrAbl h
    cpu_lda h p.1 p.2
  | _ => pure ()

/-- Opcodes 0xb0..0xbf of the switch in `cpu_doOpcode` (snes_cpu.c:1985). -/
def cpu_doOpcodeB (opcode : Nat) : CpuM μ Unit :=
  match opcode with
  | 0xb0 => do -- bcs rel
    cpu_doBranch h ((← getCpu).c)
  | 0xb1 => do -- lda idy(r)
    let p ← cpu_adrIdy h false
    cpu_lda h p.1 p.2
  | 0xb2 => do -- lda idp
    let p ← cpu_adrIdp h
    cpu_lda h p.1 p.2
  | 0xb3 => do -- lda isy
    let p ← cpu_adrIsy h
    cpu_lda h p.1 p.2
  | 0xb4 => do -- ldy dpx
    let p ← cpu_adrDpx h
    cpu_ldy h p.1 p.2
  | 0xb5 => do -- lda dpx
    let p ← cpu_adrDpx h
    cpu_lda h p.1 p.2
  | 0xb6 => do -- ldx dpy
    let p ← cpu_adrDpy h
    cpu_ldx h p.1 p.2
  | 0xb7 => do -- lda ily
    let p ← cpu_adrIly h
    cpu_lda h p.1 p.2
  | 0xb8 => do -- clv imp
    cpu_adrImp h
    modifyCpu fun c => { c with v := false }
  | 0xb9 => do -- lda aby(r)
    let p ← cpu_adrAby h false
    cpu_lda h p.1 p.2
  | 0xba => do -- tsx imp
    cpu_adrImp h
    modifyCpu fun c => if c.xf then { c with x := c.sp &&& 0xff } else { c with x := c.sp }
    let cpu ← getCpu
    cpu_setZN cpu.x cpu.xf
  | 0xbb => do -- tyx imp
    cpu_adrImp h
    modifyCpu fun c => if c.xf then { c with x := c.y &&& 0xff } else { c with x := c.y }
    let cpu ← getCpu
    cpu_setZN cpu.x cpu.xf
  | 0xbc => do -- ldy abx(r)
    let p ← cpu_adrAbx h false
    cpu_ldy h p.1 p.2
  | 0xbd => do -- lda abx(r)
    let p ← cpu_adrAbx h false
    cpu_lda h p.1 p.2
  | 0xbe => do -- ldx aby(r)
    let p ← cpu_adrAby h false
    cpu_ldx h p.1 p.2
  | 0xbf => do -- lda alx
    let p ← cpu_adrAlx h
    cpu_lda h p.1 p.2
  | _ => pure ()

/-- Opcodes 0xc0..0xcf of the switch in `cpu_doOpcode` (snes_cpu.c:2086). -/
def cpu_doOpcodeC (opcode : Nat) : CpuM μ Unit :=
  match opcode with
  | 0xc0 => do -- cpy imm(x)
    let p ← cpu_adrImm true
    cpu_cpy h p.1 p.2
  | 0xc1 => do -- cmp idx
    let p ← cpu_adrIdx h
    cpu_cmp h p.1 p.2
  | 0xc2 => do -- rep imm(s)
    let val ← cpu_readOpcode h
    cpu_checkInt
    cpu_setFlags (cAnd (cNot val) (cpu_getFlags (← getCpu)))
    cpu_idle h
  | 0xc3 => do -- cmp sr
    let p ← cpu_adrSr h
    cpu_cmp h p.1 p.2
  | 0xc4 => do -- cpy dp
    let p ← cpu_adrDp h
    cpu_cpy h p.1 p.2
  | 0xc5 => do -- cmp dp
    let p ← cpu_adrDp h
    cpu_cmp h p.1 p.2
  | 0xc6 => do -- dec dp
    let p ← cpu_adrDp h
    cpu_dec h p.1 p.2
  | 0xc7 => do -- cmp idl
    let p ← cpu_adrIdl h
    cpu_cmp h p.1 p.2
  | 0xc8 => do -- iny imp
    cpu_adrImp h
    modifyCpu fun c => if c.xf then { c with y := (c.y + 1) &&& 0xff } else { c with y := inc16 c.y }
    let cpu ← getCpu
    cpu_setZN cpu.y cpu.xf
  | 0xc9 => do -- cmp imm(m)
    let p ← cpu_adrImm false
    cpu_cmp h p.1 p.2
  | 0xca => do -- dex imp
    cpu_adrImp h
    modifyCpu fun c =>
      if c.xf then { c with x := cAnd ((c.x : Int) - 1) 0xff } else { c with x := dec16 c.x }
    let cpu ← getCpu
    cpu_setZN cpu.x cpu.xf
  | 0xcb => do -- wai imp
    modifyCpu fun c => { c with waiting := true }
    cpu_idle h
    cpu_idle h
  | 0xcc => do -- cpy abs
    let p ← cpu_adrAbs h
    cpu_cpy h p.1 p.2
  | 0xcd => do -- cmp abs
    let p ← cpu_adrAbs h
    cpu_cmp h p.1 p.2
  | 0xce => do -- dec abs
    let p ← cpu_adrAbs h
    cpu_dec h p.1 p.2
  | 0xcf => do -- cmp abl
    let p ← cpu_adrAbl h
    cpu_cmp h p.1 p.2
  | _ => pure ()

/-- Opcodes 0xd0..0xdf of the switch in `cpu_doOpcode` (snes_cpu.c:2191). -/
def cpu_doOpcodeD (opcode : Nat) : CpuM μ Unit :=
  match opcode with
  | 0xd0 => do -- bne rel
    cpu_doBranch h (!(← getCpu).z)
  | 0xd1 => do -- cmp idy(r)
    let p ← cpu_adrIdy h false
    cpu_cmp h p.1 p.2
  | 0xd2 => do -- cmp idp
    let p ← cpu_adrIdp h
    cpu_cmp h p.1 p.2
  | 0xd3 => do -- cmp isy
    let p ← cpu_adrIsy h
    cpu_cmp h p.1 p.2
  | 0xd4 => do -- pei dp
    let p ← cpu_adrDp h
    let value ← cpu_readWord h p.1 p.2 false
    cpu_pushWord h value true
  | 0xd5 => do -- cmp dpx
    let p ← cpu_adrDpx h
    cpu_cmp h p.1 p.2
  | 0xd6 => do -- dec dpx
    let p ← cpu_adrDpx h
    cpu_dec h p.1 p.2
  | 0xd7 => do -- cmp ily
    let p ← cpu_adrIly h
    cpu_cmp h p.1 p.2
  | 0xd8 => do -- cld imp
    cpu_adrImp h
    modifyCpu fun c => { c with d := false }
  | 0xd9 => do -- cmp aby(r)
    let p ← cpu_adrAby h false
    cpu_cmp h p.1 p.2
  | 0xda => do -- phx imp
    cpu_idle h
    if (← getCpu).xf then
      cpu_checkInt
      cpu_pushByte h (← getCpu).x
    else
      cpu_pushWord h (← getCpu).x true
  | 0xdb => do -- stp imp
    modifyCpu fun c => { c with stopped := true }
    cpu_idle h
    cpu_idle h
  | 0xdc => do -- jml ial
    let adr ← cpu_readOpcodeWord h false
    let pc ← cpu_readWord h adr ((adr + 1) &&& 0xffff) false
    modifyCpu fun c => { c with pc := pc }
    cpu_checkInt
    let k ← cpu_read h ((adr + 2) &&& 0xffff)
    modifyCpu fun c => { c with k := k }
  | 0xdd => do -- cmp abx(r)
    let p ← cpu_adrAbx h false
    cpu_cmp h p.1 p.2
  | 0xde => do -- dec abx
    let p ← cpu_adrAbx h true
    cpu_dec h p.1 p.2
  | 0xdf => do -- cmp alx
    let p ← cpu_adrAlx h
    cpu_cmp h p.1 p.2
  | _ => pure ()

/-- Opcodes 0xe0..0xef of the switch in `cpu_doOpcode` (snes_cpu.c:2289). -/
def cpu_doOpcodeE (opcode : Nat) : CpuM μ Unit :=
  match opcode with
  | 0xe0 => do -- cpx imm(x)
    let p ← cpu_adrImm true
    cpu_cpx h p.1 p.2
  | 0xe1 => do -- sbc idx
    let p ← cpu_adrIdx h
    cpu_sbc h p.1 p.2
  | 0xe2 => do -- sep imm(s)
    let val ← cpu_readOpcode h
    cpu_checkInt
    cpu_setFlags (cpu_getFlags (← getCpu) ||| val)
    cpu_idle h
  | 0xe3 => do -- sbc sr
    let p ← cpu_adrSr h
    cpu_sbc h p.1 p.2
  | 0xe4 => do -- cpx dp
    let p ← cpu_adrDp h
    cpu_cpx h p.1 p.2
  | 0xe5 => do -- sbc dp
    let p ← cpu_adrDp h
    cpu_sbc h p.1 p.2
  | 0xe6 => do -- inc dp
    let p ← cpu_adrDp h
    cpu_inc h p.1 p.2
  | 0xe7 => do -- sbc idl
    let p ← cpu_adrIdl h
    cpu_sbc h p.1 p.2
  | 0xe8 => do -- inx imp
    cpu_adrImp h
    modifyCpu fun c => if c.xf then { c with x := (c.x + 1) &&& 0xff } else { c with x := inc16 c.x }
    let cpu ← getCpu
    cpu_setZN cpu.x cpu.xf
  | 0xe9 => do -- sbc imm(m)
    let p ← cpu_adrImm false
    cpu_sbc h p.1 p.2
  | 0xea => do -- nop imp
    cpu_adrImp h
  | 0xeb => do -- xba imp
    let cpu ← getCpu
    let low := cpu.a &&& 0xff
    let high := (cpu.a >>> 8) % 256
    modifyCpu fun c => { c with a := (low <<< 8) ||| high }
    cpu_setZN high true
    cpu_idle h
    cpu_checkInt
    cpu_idle h
  | 0xec => do -- cpx abs
    let p ← cpu_adrAbs h
    cpu_cpx h p.1 p.2
  | 0xed => do -- sbc abs
    let p ← cpu_adrAbs h
    cpu_sbc h p.1 p.2
  | 0xee => do -- inc abs
    let p ← cpu_adrAbs h
    cpu_inc h p.1 p.2
  | 0xef => do -- sbc abl
    let p ← cpu_adrAbl h
    cpu_sbc h p.1 p.2
  | _ => pure ()

/-- Opcodes 0xf0..0xff of the switch in `cpu_doOpcode` (snes_cpu.c:2393). -/
def cpu_doOpcodeF (opcode : Nat) : CpuM μ Unit :=
  match opcode with
  | 0xf0 => do -- beq rel
    cpu_doBranch h ((← getCpu).z)
  | 0xf1 => do -- sbc idy(r)
    let p ← cpu_adrIdy h false
    cpu_sbc h p.1 p.2
  | 0xf2 => do -- sbc idp
    let p ← cpu_adrIdp h
    cpu_sbc h p.1 p.2
  | 0xf3 => do -- sbc isy
    let p ← cpu_adrIsy h
    cpu_sbc h p.1 p.2
  | 0xf4 => do -- pea imm(l)
    let value ← cpu_readOpcodeWord h false
    cpu_pushWord h value true
  | 0xf5 => do -- sbc dpx
    let p ← cpu_adrDpx h
    cpu_sbc h p.1 p.2
  | 0xf6 => do -- inc dpx
    let p ← cpu_adrDpx h
    cpu_inc h p.1 p.2
  | 0xf7 => do -- sbc ily
    let p ← cpu_adrIly h
    cpu_sbc h p.1 p.2
  | 0xf8 => do -- sed imp
    cpu_adrImp h
    modifyCpu fun c => { c with d := true }
  | 0xf9 => do -- sbc aby(r)
    let p ← cpu_adrAby h false
    cpu_sbc h p.1 p.2
  | 0xfa => do -- plx imp
    cpu_idle h
    cpu_idle h
    if (← getCpu).xf then
      cpu_checkInt
      let value ← cpu_pullByte h
      modifyCpu fun c => { c with x := value }
    else
      let value ← cpu_pullWord h true
      modifyCpu fun c => { c with x := value }
    let cpu ← getCpu
    cpu_setZN cpu.x cpu.xf
  | 0xfb => do -- xce imp
    cpu_adrImp h
    modifyCpu fun c => { c with c := c.e, e := c.c }
    cpu_setFlags (cpu_getFlags (← getCpu))
  | 0xfc => do -- jsr iax
    let adrl ← cpu_readOpcode h
    cpu_pushWord h (← getCpu).pc false
    let adrh ← cpu_readOpcode h
    let adr := adrl ||| (adrh <<< 8)
    cpu_idle h
    let cpu ← getCpu
    let value ← cpu_readWord h ((cpu.k <<< 16) ||| ((adr + cpu.x) &&& 0xffff))
      ((cpu.k <<< 16) ||| ((adr + cpu.x + 1) &&& 0xffff)) true
    modifyCpu fun c => { c with pc := value }
  | 0xfd => do -- sbc abx(r)
    let p ← cpu_adrAbx h false
    cpu_sbc h p.1 p.2
  | 0xfe => do -- inc abx
    let p ← cpu_adrAbx h true
    cpu_inc h p.1 p.2
  | 0xff => do -- sbc alx
    let p ← cpu_adrAlx h
    cpu_sbc h p.1 p.2
  | _ => pure ()

/-- `cpu_doOpcode` (snes_cpu.c:812): the 256-way switch, dispatched by opcode row. -/
def cpu_doOpcode (opcode : Nat) : CpuM μ Unit :=
  match opcode / 16 with
  | 0 => cpu_doOpcode0 h opcode
  | 1 => cpu_doOpcode1 h opcode
  | 2 => cpu_doOpcode2 h opcode
  | 3 => cpu_doOpcode3 h opcode
  | 4 => cpu_doOpcode4 h opcode
  | 5 => cpu_doOpcode5 h opcode
  | 6 => cpu_doOpcode6 h opcode
  | 7 => cpu_doOpcode7 h opcode
  | 8 => cpu_doOpcode8 h opcode
  | 9 => cpu_doOpcode9 h opcode
  | 10 => cpu_doOpcodeA h opcode
  | 11 => cpu_doOpcodeB h opcode
  | 12 => cpu_doOpcodeC h opcode
  | 13 => cpu_doOpcodeD h opcode
  | 14 => cpu_doOpcodeE h opcode
  | 15 => cpu_doOpcodeF h opcode
  | _ => pure ()

/-- `cpu_runOpcode` (snes_cpu.c:94). -/
def cpu_runOpcode : CpuM μ Unit := do
  if (← getCpu).resetWanted then
    modifyCpu fun c => { c with resetWanted := false }
    -- reset: brk/interrupt without writes
    let cpu ← getCpu
    let _ ← cpu_read h ((cpu.k <<< 16) ||| cpu.pc)
    cpu_idle h
    let cpu ← getCpu
    modifyCpu fun c => { c with sp := dec16 c.sp }
    let _ ← cpu_read h (0x100 ||| (cpu.sp &&& 0xff))
    let cpu ← getCpu
    modifyCpu fun c => { c with sp := dec16 c.sp }
    let _ ← cpu_read h (0x100 ||| (cpu.sp &&& 0xff))
    let cpu ← getCpu
    modifyCpu fun c => { c with sp := dec16 c.sp }
    let _ ← cpu_read h (0x100 ||| (cpu.sp &&& 0xff))
    modifyCpu fun c => { c with sp := (c.sp &&& 0xff) ||| 0x100 }
    modifyCpu fun c => { c with e := true, i := true, d := false }
    cpu_setFlags (cpu_getFlags (← getCpu))
    modifyCpu fun c => { c with k := 0 }
    let pc ← cpu_readWord h 0xfffc 0xfffd false
    modifyCpu fun c => { c with pc := pc }
  else if (← getCpu).stopped then
    cpu_idleWait h
  else if (← getCpu).waiting then
    if (← getCpu).irqWanted || (← getCpu).nmiWanted then
      modifyCpu fun c => { c with waiting := false }
      cpu_idle h
      cpu_checkInt
      cpu_idle h
    else
      cpu_idleWait h
  else if (← getCpu).intWanted then
    -- not stopped or waiting, execute a opcode or go to interrupt
    let cpu ← getCpu
    let _ ← cpu_read h ((cpu.k <<< 16) ||| cpu.pc)
    cpu_doInterrupt h
  else
    let opcode ← cpu_readOpcode h
    cpu_doOpcode h opcode

end CpuCode

/-! ## Runs of the CPU and concrete backends -/

/-- A bus whose callbacks never re-enter the CPU (no `cpu_nmi`, `cpu_setIrq`
or `intDelay` poke while a callback runs): a plain memory backend. -/
def Quiet {μ : Type} (h : Handlers μ) : Prop :=
  (∀ m adr, (h.read m adr).2.1 = []) ∧ (∀ m adr val, (h.write m adr val).1 = []) ∧
  (∀ m w, (h.idle m w).1 = [])

/-- Every register is within the range of its C type. -/
def Cpu.WellFormed (c : Cpu) : Prop :=
  c.a < 0x10000 ∧ c.x < 0x10000 ∧ c.y < 0x10000 ∧ c.sp < 0x10000 ∧ c.pc < 0x10000 ∧
  c.dp < 0x10000 ∧ c.k < 0x100 ∧ c.db < 0x100

/-- The machine states reached from a hard `cpu_reset`: by `cpu_runOpcode`
steps against the callbacks `h`, by `cpu_nmi` / `cpu_setIrq` calls and further
resets between steps, and by any change of the bus state between steps. -/
inductive Reachable {μ : Type} (h : Handlers μ) : Machine μ → Prop where
  | reset (s : Machine μ) : Reachable h { s with cpu := cpu_reset s.cpu true }
  | step {s : Machine μ} : Reachable h s → Reachable h ((cpu_runOpcode h).run s).2
  | nmi {s : Machine μ} : Reachable h s → Reachable h { s with cpu := cpu_nmi s.cpu }
  | setIrq {s : Machine μ} (state : Bool) :
      Reachable h s → Reachable h { s with cpu := cpu_setIrq s.cpu state }
  | softReset {s : Machine μ} (hard : Bool) :
      Reachable h s → Reachable h { s with cpu := cpu_reset s.cpu hard }
  | bus {s : Machine μ} (m : μ) : Reachable h s → Reachable h { s with mem := m }

/-- A read-only memory backend: reads return `rom adr`, writes and idle
cycles do nothing, and no callback re-enters the CPU. -/
def romHandlers (rom : Nat → Nat) : Handlers Unit where
  read := fun m adr => (rom adr, [], m)
  write := fun m _ _ => ([], m)
  idle := fun m _ => ([], m)

/-- A register file with every field zero / false. -/
def zeroCpu : Cpu :=
  { a := 0, x := 0, y := 0, sp := 0, pc := 0, dp := 0, k := 0, db := 0, c := false, z := false,
    v := false, n := false, i := false, d := false, xf := false, mf := false, e := false,
    waiting := false, stopped := false, irqWanted := false, nmiWanted := false, intWanted := false,
    intDelay := false, resetWanted := false }

/-- A ROM image with the reset vector 0x8000 and all vectors distinct:
0xFFEA/B -> 0x1122 (native NMI), 0xFFEE/F -> 0x3344 (native IRQ),
0xFFFE/F -> 0x5566 (emulation IRQ/BRK); every other byte is `plp` (0x28). -/
def demoRom (adr : Nat) : Nat :=
  if adr = 0xfffc then 0x00 else if adr = 0xfffd then 0x80
  else if adr = 0xffea then 0x22 else if adr = 0xffeb then 0x11
  else if adr = 0xffee then 0x44 else if adr = 0xffef then 0x33
  else if adr = 0xfffe then 0x66 else if adr = 0xffff then 0x55
  else 0x28

/-- The machine right after power-on reset over `demoRom`. -/
def demoStart : Machine Unit := { cpu := cpu_reset zeroCpu true, mem := (), trace := [] }

/-- The machine after the reset sequence has run (one `cpu_runOpcode`). -/
def demoBooted : Machine Unit := ((cpu_runOpcode (romHandlers demoRom)).run demoStart).2

/-- A native-mode register file at PC = 0x8000, SP = 0x1FD with M = X = I = 1 and an NMI
pending (both `nmiWanted` and the sampled `intWanted` set). -/
def demoNmiCpu : Cpu :=
  { zeroCpu with sp := 0x1fd, pc := 0x8000, i := true, xf := true, mf := true,
                 nmiWanted := true, intWanted := true }

/-- The machine holding `demoNmiCpu` over the ROM backend. -/
def demoNmiState : Machine Unit := { cpu := demoNmiCpu, mem := (), trace := [] }

/-- An emulation-mode register file at PC = 0x8000, SP = 0x1FD with M = X = 1, I = 0 and an
IRQ pending (`irqWanted` and the sampled `intWanted` set, no NMI). -/
def demoEmuIrqCpu : Cpu :=
  { zeroCpu with sp := 0x1fd, pc := 0x8000, xf := true, mf := true, e := true,
                 irqWanted := true, intWanted := true }

/-- The machine holding `demoEmuIrqCpu` over the ROM backend. -/
def demoEmuIrqState : Machine Unit := { cpu := demoEmuIrqCpu, mem := (), trace := [] }

/-- An emulation-mode register file at PC = 0x8000, SP = 0x1FD with M = X = I = 1 and an
NMI pending (`nmiWanted` and the sampled `intWanted` set). -/
def demoEmuNmiCpu : Cpu :=
  { zeroCpu with sp := 0x1fd, pc := 0x8000, i := true, xf := true, mf := true, e := true,
                 nmiWanted := true, intWanted := true }

/-- The machine holding `demoEmuNmiCpu` over the ROM backend. -/
def demoEmuNmiState : Machine Unit := { cpu := demoEmuNmiCpu, mem := (), trace := [] }

/-- Whether a bus event is a write callback. -/
def BusEvent.isWrite : BusEvent → Bool
  | BusEvent.write _ _ => true
  | _ => false

/-- A stopped CPU (after STP) in emulation mode at PC = 0x8000. -/
def demoStoppedState : Machine Unit :=
  { cpu := { zeroCpu with sp := 0x1fd, pc := 0x8000, i := true, xf := true, mf := true,
                          e := true, stopped := true },
    mem := (), trace := [] }

/-- A backend over a counter of idle cycles whose second idle callback raises an NMI. -/
def lateNmiHandlers : Handlers Nat where
  read := fun m _ => (0, [], m)
  write := fun m _ _ => ([], m)
  idle := fun m _ => (if m = 1 then [CpuCall.nmi] else [], m + 1)

/-- A waiting CPU (after WAI) with I = 1 and an IRQ pending. -/
def demoWaitingState : Machine Nat :=
  { cpu := { zeroCpu with sp := 0x1fd, pc := 0x8000, i := true, xf := true, mf := true,
                          e := true, waiting := true, irqWanted := true },
    mem := 0, trace := [] }

/-- The waiting CPU of `demoWaitingState` over the ROM backend. -/
def demoWaitingRom : Machine Unit :=
  { cpu := demoWaitingState.cpu, mem := (), trace := [] }

/-- A register file in decimal mode with an 8-bit accumulator holding 0x52, carry clear. -/
def demoDecimalCpu : Cpu :=
  { zeroCpu with a := 0x52, sp := 0x1fd, pc := 0x8000, d := true, xf := true, mf := true }

/-- The machine holding `demoDecimalCpu` over the ROM backend (whose data bytes are 0x28). -/
def demoDecimalState : Machine Unit := { cpu := demoDecimalCpu, mem := (), trace := [] }


/-! # The PPU registers (snes_ppu.c)

The `Ppu` record holds the fields of `struct Ppu` (widths as given by
`ppu_handleState`) and the file-level static `bright_now`.  Arrays are total
functions on indices; `pixelBuffer` is indexed by 16-bit word, the way
`ppu_handlePixel` and `ppu_putPixels` access it.  The fields of the bus that
the PPU reads through its `snes` back pointer are passed as a `PpuBus`. -/

/-- One entry of `ppu->bgLayer`. -/
structure BgLayer where
  hScroll : Nat
  vScroll : Nat
  tilemapWider : Bool
  tilemapHigher : Bool
  tilemapAdr : Nat
  tileAdr : Nat
  bigTiles : Bool
  mosaicEnabled : Bool

/-- One entry of `ppu->layer`. -/
structure Layer where
  mainScreenEnabled : Bool
  subScreenEnabled : Bool
  mainScreenWindowed : Bool
  subScreenWindowed : Bool

/-- One entry of `ppu->windowLayer`. -/
structure WindowLayer where
  window1enabled : Bool
  window2enabled : Bool
  window1inversed : Bool
  window2inversed : Bool
  maskLogic : Nat

/-- The state of `struct Ppu` together with the static `bright_now`. -/
structure Ppu where
  vram : Nat → Nat
  vramPointer : Nat
  vramIncrementOnHigh : Bool
  vramIncrement : Nat
  vramRemapMode : Nat
  vramReadBuffer : Nat
  cgram : Nat → Nat
  cgramPointer : Nat
  cgramSecondWrite : Bool
  cgramBuffer : Nat
  oam : Nat → Nat
  highOam : Nat → Nat
  oamAdr : Nat
  oamAdrWritten : Nat
  oamInHigh : Bool
  oamInHighWritten : Bool
  oamSecondWrite : Bool
  oamBuffer : Nat
  objPriority : Bool
  objTileAdr1 : Nat
  objTileAdr2 : Nat
  objSize : Nat
  objPixelBuffer : Nat → Nat
  objPriorityBuffer : Nat → Nat
  timeOver : Bool
  rangeOver : Bool
  objInterlace : Bool
  bgLayer : Nat → BgLayer
  scrollPrev : Nat
  scrollPrev2 : Nat
  mosaicSize : Nat
  mosaicStartLine : Nat
  layer : Nat → Layer
  m7matrix : Nat → Int
  m7prev : Nat
  m7largeField : Bool
  m7charFill : Bool
  m7xFlip : Bool
  m7yFlip : Bool
  m7extBg : Bool
  m7startX : Int
  m7startY : Int
  windowLayer : Nat → WindowLayer
  window1left : Nat
  window1right : Nat
  window2left : Nat
  window2right : Nat
  clipMode : Nat
  preventMathMode : Nat
  addSubscreen : Bool
  subtractColor : Bool
  halfColor : Bool
  mathEnabled : Nat → Bool
  fixedColorR : Nat
  fixedColorG : Nat
  fixedColorB : Nat
  forcedBlank : Bool
  brightness : Nat
  mode : Nat
  bg3priority : Bool
  evenFrame : Bool
  pseudoHires : Bool
  overscan : Bool
  frameOverscan : Bool
  interlace : Bool
  frameInterlace : Bool
  directColor : Bool
  hCount : Nat
  vCount : Nat
  hCountSecond : Bool
  vCountSecond : Bool
  countersLatched : Bool
  ppu1openBus : Nat
  ppu2openBus : Nat
  pixelBuffer : Nat → Nat
  bright_now : Nat

/-- The bus fields read by the PPU through `ppu->snes`. -/
structure PpuBus where
  hPos : Nat
  vPos : Nat
  ppuLatch : Bool
  openBus : Nat
  palTiming : Bool
  inVblank : Bool

/-- The static `bright_lut` as filled by `ppu_reset` (snes_ppu.c:107). -/
def bright_lut (i : Nat) : Nat := (i * 0x10000) / 15

/-- The static `color_clamp_lut` as filled by `ppu_reset` (snes_ppu.c:110);
entries from 0x60 on lie outside the array. -/
def color_clamp_lut (i : Nat) : Option Nat :=
  if i < 0x20 then some 0
  else if i ≤ 0x3f then some (i - 0x20)
  else if i < 0x60 then some 0x1f
  else none

/-- The lookup `color_clamp_lut_i20[v]`, i.e. `color_clamp_lut[0x20 + v]` for a C `int` `v`;
`none` when the index falls outside the 96 entries. -/
def color_clamp_lut_i20 (v : Int) : Option Nat :=
  if 0 ≤ 0x20 + v then color_clamp_lut (0x20 + v).toNat else none

/-- `ppu_reset` (snes_ppu.c:105); `pixelBuffer` is cleared, the buffers passed in are only
used for nothing: every field is assigned. -/
def ppu_reset : Ppu :=
  { vram := fun _ => 0, vramPointer := 0, vramIncrementOnHigh := false, vramIncrement := 1,
    vramRemapMode := 0, vramReadBuffer := 0, cgram := fun _ => 0, cgramPointer := 0,
    cgramSecondWrite := false, cgramBuffer := 0, oam := fun _ => 0, highOam := fun _ => 0,
    oamAdr := 0, oamAdrWritten := 0, oamInHigh := false, oamInHighWritten := false,
    oamSecondWrite := false, oamBuffer := 0, objPriority := false, objTileAdr1 := 0,
    objTileAdr2 := 0, objSize := 0, objPixelBuffer := fun _ => 0, objPriorityBuffer := fun _ => 0,
    timeOver := false, rangeOver := false, objInterlace := false,
    bgLayer := fun _ => { hScroll := 0, vScroll := 0, tilemapWider := false, tilemapHigher := false,
                          tilemapAdr := 0, tileAdr := 0, bigTiles := false, mosaicEnabled := false },
    scrollPrev := 0, scrollPrev2 := 0, mosaicSize := 1, mosaicStartLine := 1,
    layer := fun _ => { mainScreenEnabled := false, subScreenEnabled := false,
                        mainScreenWindowed := false, subScreenWindowed := false },
    m7matrix := fun _ => 0, m7prev := 0, m7largeField := false, m7charFill := false,
    m7xFlip := false, m7yFlip := false, m7extBg := false, m7startX := 0, m7startY := 0,
    windowLayer := fun _ => { window1enabled := false, window2enabled := false,
                              window1inversed := false, window2inversed := false, maskLogic := 0 },
    window1left := 0, window1right := 0, window2left := 0, window2right := 0, clipMode := 0,
    preventMathMode := 0, addSubscreen := false, subtractColor := false, halfColor := false,
    mathEnabled := fun _ => false, fixedColorR := 0, fixedColorG := 0, fixedColorB := 0,
    forcedBlank := true, brightness := 0, mode := 0, bg3priority := false, evenFrame := false,
    pseudoHires := false, overscan := false, frameOverscan := false, interlace := false,
    frameInterlace := false, directColor := false, hCount := 0, vCount := 0,
    hCountSecond := false, vCountSecond := false, countersLatched := false, ppu1openBus := 0,
    ppu2openBus := 0, pixelBuffer := fun _ => 0, bright_now := bright_lut 0xf }

/-- `ppu_checkOverscan` (snes_ppu.c:276): the new PPU state and the returned flag. -/
def ppu_checkOverscan (ppu : Ppu) : Ppu × Bool :=
  ({ ppu with frameOverscan := ppu.overscan }, ppu.overscan)

/-- `ppu_handleVblank` (snes_ppu.c:282). -/
def ppu_handleVblank (ppu : Ppu) : Ppu :=
  let ppu := if !ppu.forcedBlank then
      { ppu with oamAdr := ppu.oamAdrWritten, oamInHigh := ppu.oamInHighWritten,
                 oamSecondWrite := false }
    else ppu
  { ppu with frameInterlace := ppu.interlace }

/-- `ppu_handleFrameStart` (snes_ppu.c:292). -/
def ppu_handleFrameStart (ppu : Ppu) : Ppu :=
  { ppu with mosaicStartLine := 1, rangeOver := false, timeOver := false,
             evenFrame := !ppu.evenFrame }

/-- The address computation of `ppu_getVramRemap` (snes_ppu.c:769) on the 16-bit pointer
`adr` in remap mode `mode`. -/
def vramRemap (mode adr : Nat) : Nat :=
  match mode with
  | 0 => adr
  | 1 => (adr &&& 0xff00) ||| ((adr &&& 0xe0) >>> 5) ||| ((adr &&& 0x1f) <<< 3)
  | 2 => (adr &&& 0xfe00) ||| ((adr &&& 0x1c0) >>> 6) ||| ((adr &&& 0x3f) <<< 3)
  | 3 => (adr &&& 0xfc00) ||| ((adr &&& 0x380) >>> 7) ||| ((adr &&& 0x7f) <<< 3)
  | _ => adr

/-- `ppu_getVramRemap` (snes_ppu.c:769). -/
def ppu_getVramRemap (ppu : Ppu) : Nat := vramRemap ppu.vramRemapMode ppu.vramPointer

/-- `ppu_latchHV` (snes_ppu.c:780). -/
def ppu_latchHV (ppu : Ppu) (bus : PpuBus) : Ppu :=
  { ppu with hCount := bus.hPos / 4, vCount := bus.vPos, countersLatched := true }

/-- `ppu_read` (snes_ppu.c:786): the byte returned and the new PPU state. -/
def ppu_read (ppu : Ppu) (bus : PpuBus) (adr : Nat) : Nat × Ppu :=
  if adr = 0x04 ∨ adr = 0x14 ∨ adr = 0x24 ∨ adr = 0x05 ∨ adr = 0x15 ∨ adr = 0x25 ∨
     adr = 0x06 ∨ adr = 0x16 ∨ adr = 0x26 ∨ adr = 0x08 ∨ adr = 0x18 ∨ adr = 0x28 ∨
     adr = 0x09 ∨ adr = 0x19 ∨ adr = 0x29 ∨ adr = 0x0a ∨ adr = 0x1a ∨ adr = 0x2a then
    (ppu.ppu1openBus, ppu)
  else if adr = 0x34 ∨ adr = 0x35 ∨ adr = 0x36 then
    let result : Int := ppu.m7matrix 0 * (ppu.m7matrix 1 >>> 8)
    let v := cAnd (result >>> (8 * (adr - 0x34))) 0xff
    (v, { ppu with ppu1openBus := v })
  else if adr = 0x37 then
    (bus.openBus, if bus.ppuLatch then ppu_latchHV ppu bus else ppu)
  else if adr = 0x38 then
    let ret :=
      if ppu.oamInHigh then ppu.highOam (((ppu.oamAdr &&& 0xf) <<< 1) ||| ppu.oamSecondWrite.toNat)
      else if !ppu.oamSecondWrite then ppu.oam ppu.oamAdr &&& 0xff
      else (ppu.oam ppu.oamAdr >>> 8) % 256
    let ppu :=
      if ppu.oamInHigh then
        if ppu.oamSecondWrite then
          let a := (ppu.oamAdr + 1) % 256
          { ppu with oamAdr := a, oamInHigh := if a = 0 then false else ppu.oamInHigh }
        else ppu
      else if !ppu.oamSecondWrite then ppu
      else
        let a := (ppu.oamAdr + 1) % 256
        { ppu with oamAdr := a, oamInHigh := if a = 0 then true else ppu.oamInHigh }
    (ret, { ppu with oamSecondWrite := !ppu.oamSecondWrite, ppu1openBus := ret })
  else if adr = 0x39 then
    let val := ppu.vramReadBuffer
    let ppu := if !ppu.vramIncrementOnHigh then
        { ppu with vramReadBuffer := ppu.vram (ppu_getVramRemap ppu &&& 0x7fff),
                   vramPointer := (ppu.vramPointer + ppu.vramIncrement) % 0x10000 }
      else ppu
    (val &&& 0xff, { ppu with ppu1openBus := val &&& 0xff })
  else if adr = 0x3a then
    let val := ppu.vramReadBuffer
    let ppu := if ppu.vramIncrementOnHigh then
        { ppu with vramReadBuffer := ppu.vram (ppu_getVramRemap ppu &&& 0x7fff),
                   vramPointer := (ppu.vramPointer + ppu.vramIncrement) % 0x10000 }
      else ppu
    ((val >>> 8) % 256, { ppu with ppu1openBus := (val >>> 8) % 256 })
  else if adr = 0x3b then
    let ret :=
      if !ppu.cgramSecondWrite then ppu.cgram ppu.cgramPointer &&& 0xff
      else ((ppu.cgram ppu.cgramPointer >>> 8) &&& 0x7f) ||| (ppu.ppu2openBus &&& 0x80)
    let ppu := if !ppu.cgramSecondWrite then ppu
      else { ppu with cgramPointer := (ppu.cgramPointer + 1) % 256 }
    (ret, { ppu with cgramSecondWrite := !ppu.cgramSecondWrite, ppu2openBus := ret })
  else if adr = 0x3c then
    let val :=
      if ppu.hCountSecond then ((ppu.hCount >>> 8) &&& 1) ||| (ppu.ppu2openBus &&& 0xfe)
      else ppu.hCount &&& 0xff
    (val, { ppu with hCountSecond := !ppu.hCountSecond, ppu2openBus := val })
  else if adr = 0x3d then
    let val :=
      if ppu.vCountSecond then ((ppu.vCount >>> 8) &&& 1) ||| (ppu.ppu2openBus &&& 0xfe)
      else ppu.vCount &&& 0xff
    (val, { ppu with vCountSecond := !ppu.vCountSecond, ppu2openBus := val })
  else if adr = 0x3e then
    let val := 0x1 ||| (ppu.ppu1openBus &&& 0x10) ||| (ppu.rangeOver.toNat <<< 6)
      ||| (ppu.timeOver.toNat <<< 7)
    (val, { ppu with ppu1openBus := val })
  else if adr = 0x3f then
    let val := 0x3 ||| (bus.palTiming.toNat <<< 4) ||| (ppu.ppu2openBus &&& 0x20)
      ||| (ppu.countersLatched.toNat <<< 6) ||| (ppu.evenFrame.toNat <<< 7)
    let ppu := if bus.ppuLatch then
        { ppu with countersLatched := false, hCountSecond := false, vCountSecond := false }
      else ppu
    (val, { ppu with ppu2openBus := val })
  else
    (bus.openBus, ppu)

/-- The BG-HOFS part shared by registers 0x0d, 0x0f, 0x11, 0x13 of `ppu_write`
(snes_ppu.c:1001). -/
def ppu_writeHScroll (ppu : Ppu) (adr val : Nat) : Ppu :=
  let i := (adr - 0xd) / 2
  { ppu with
    bgLayer := Function.update ppu.bgLayer i
      { ppu.bgLayer i with
        hScroll := ((val <<< 8) ||| (ppu.scrollPrev &&& 0xf8) ||| (ppu.scrollPrev2 &&& 0x7)) &&& 0x3ff },
    scrollPrev := val, scrollPrev2 := val }

/-- The BG-VOFS part shared by registers 0x0e, 0x10, 0x12, 0x14 of `ppu_write`
(snes_ppu.c:1015). -/
def ppu_writeVScroll (ppu : Ppu) (adr val : Nat) : Ppu :=
  let i := (adr - 0xe) / 2
  { ppu with
    bgLayer := Function.update ppu.bgLayer i
      { ppu.bgLayer i with vScroll := ((val <<< 8) ||| ppu.scrollPrev) &&& 0x3ff },
    scrollPrev := val }

/-- `ppu_write` (snes_ppu.c:905); `adr` and `val` are bytes. -/
def ppu_write (ppu : Ppu) (bus : PpuBus) (adr val : Nat) : Ppu :=
  if adr = 0x00 then
    { ppu with brightness := val &&& 0xf, bright_now := bright_lut (val &&& 0xf),
               forcedBlank := (val &&& 0x80) != 0 }
  else if adr = 0x01 then
    { ppu with objSize := val >>> 5, objTileAdr1 := (val &&& 7) <<< 13,
               objTileAdr2 := (((val &&& 7) <<< 13) + (((val &&& 0x18) + 8) <<< 9)) % 0x10000 }
  else if adr = 0x02 then
    { ppu with oamAdr := val, oamAdrWritten := val, oamInHigh := ppu.oamInHighWritten,
               oamSecondWrite := false }
  else if adr = 0x03 then
    { ppu with objPriority := (val &&& 0x80) != 0, oamInHigh := (val &&& 1) != 0,
               oamInHighWritten := (val &&& 1) != 0, oamAdr := ppu.oamAdrWritten,
               oamSecondWrite := false }
  else if adr = 0x04 then
    let ppu :=
      if ppu.oamInHigh then
        let ppu := { ppu with
          highOam := Function.update ppu.highOam
            (((ppu.oamAdr &&& 0xf) <<< 1) ||| ppu.oamSecondWrite.toNat) val }
        if ppu.oamSecondWrite then
          let a := (ppu.oamAdr + 1) % 256
          { ppu with oamAdr := a, oamInHigh := if a = 0 then false else ppu.oamInHigh }
        else ppu
      else if !ppu.oamSecondWrite then { ppu with oamBuffer := val }
      else
        let a := (ppu.oamAdr + 1) % 256
        { ppu with oam := Function.update ppu.oam ppu.oamAdr ((val <<< 8) ||| ppu.oamBuffer),
                   oamAdr := a, oamInHigh := if a = 0 then true else ppu.oamInHigh }
    { ppu with oamSecondWrite := !ppu.oamSecondWrite }
  else if adr = 0x05 then
    { ppu with mode := val &&& 0x7, bg3priority := (val &&& 0x8) != 0,
               bgLayer := fun i =>
                 if i = 0 then { ppu.bgLayer 0 with bigTiles := (val &&& 0x10) != 0 }
                 else if i = 1 then { ppu.bgLayer 1 with bigTiles := (val &&& 0x20) != 0 }
                 else if i = 2 then { ppu.bgLayer 2 with bigTiles := (val &&& 0x40) != 0 }
                 else if i = 3 then { ppu.bgLayer 3 with bigTiles := (val &&& 0x80) != 0 }
                 else ppu.bgLayer i }
  else if adr = 0x06 then
    { ppu with bgLayer := fun i =>
                 if i = 0 then { ppu.bgLayer 0 with mosaicEnabled := (val &&& 0x1) != 0 }
                 else if i = 1 then { ppu.bgLayer 1 with mosaicEnabled := (val &&& 0x2) != 0 }
                 else if i = 2 then { ppu.bgLayer 2 with mosaicEnabled := (val &&& 0x4) != 0 }
                 else if i = 3 then { ppu.bgLayer 3 with mosaicEnabled := (val &&& 0x8) != 0 }
                 else ppu.bgLayer i,
               mosaicSize := (val >>> 4) + 1, mosaicStartLine := bus.vPos % 256 }
  else if adr = 0x07 ∨ adr = 0x08 ∨ adr = 0x09 ∨ adr = 0x0a then
    let l : BgLayer :=
      { ppu.bgLayer (adr - 7) with
        tilemapWider := (val &&& 0x1) != 0, tilemapHigher := (val &&& 0x2) != 0,
        tilemapAdr := (val &&& 0xfc) <<< 8 }
    { ppu with bgLayer := Function.update ppu.bgLayer (adr - 7) l }
  else if adr = 0x0b then
    { ppu with bgLayer := fun i =>
                 if i = 0 then { ppu.bgLayer 0 with tileAdr := (val &&& 0xf) <<< 12 }
                 else if i = 1 then { ppu.bgLayer 1 with tileAdr := (val &&& 0xf0) <<< 8 }
                 else ppu.bgLayer i }
  else if adr = 0x0c then
    { ppu with bgLayer := fun i =>
                 if i = 2 then { ppu.bgLayer 2 with tileAdr := (val &&& 0xf) <<< 12 }
                 else if i = 3 then { ppu.bgLayer 3 with tileAdr := (val &&& 0xf0) <<< 8 }
                 else ppu.bgLayer i }
  else if adr = 0x0d then
    ppu_writeHScroll
      { ppu with
        m7matrix := Function.update ppu.m7matrix 6 (toS16 (((val <<< 8) ||| ppu.m7prev) &&& 0x1fff)),
        m7prev := val } adr val
  else if adr = 0x0f ∨ adr = 0x11 ∨ adr = 0x13 then
    ppu_writeHScroll ppu adr val
  else if adr = 0x0e then
    ppu_writeVScroll
      { ppu with
        m7matrix := Function.update ppu.m7matrix 7 (toS16 (((val <<< 8) ||| ppu.m7prev) &&& 0x1fff)),
        m7prev := val } adr val
  else if adr = 0x10 ∨ adr = 0x12 ∨ adr = 0x14 then
    ppu_writeVScroll ppu adr val
  else if adr = 0x15 then
    { ppu with vramIncrement := if val &&& 3 = 0 then 1 else if val &&& 3 = 1 then 32 else 128,
               vramRemapMode := (val &&& 0xc) >>> 2,
               vramIncrementOnHigh := (val &&& 0x80) != 0 }
  else if adr = 0x16 then
    let ppu := { ppu with vramPointer := (ppu.vramPointer &&& 0xff00) ||| val }
    { ppu with vramReadBuffer := ppu.vram (ppu_getVramRemap ppu &&& 0x7fff) }
  else if adr = 0x17 then
    let ppu := { ppu with vramPointer := (ppu.vramPointer &&& 0x00ff) ||| (val <<< 8) }
    { ppu with vramReadBuffer := ppu.vram (ppu_getVramRemap ppu &&& 0x7fff) }
  else if adr = 0x18 then
    let vramAdr := ppu_getVramRemap ppu
    let ppu := if ppu.forcedBlank || bus.inVblank then
        { ppu with
          vram := Function.update ppu.vram (vramAdr &&& 0x7fff)
            ((ppu.vram (vramAdr &&& 0x7fff) &&& 0xff00) ||| val) }
      else ppu
    if !ppu.vramIncrementOnHigh then
      { ppu with vramPointer := (ppu.vramPointer + ppu.vramIncrement) % 0x10000 }
    else ppu
  else if adr = 0x19 then
    let vramAdr := ppu_getVramRemap ppu
    let ppu := if ppu.forcedBlank || bus.inVblank then
        { ppu with
          vram := Function.update ppu.vram (vramAdr &&& 0x7fff)
            ((ppu.vram (vramAdr &&& 0x7fff) &&& 0x00ff) ||| (val <<< 8)) }
      else ppu
    if ppu.vramIncrementOnHigh then
      { ppu with vramPointer := (ppu.vramPointer + ppu.vramIncrement) % 0x10000 }
    else ppu
  else if adr = 0x1a then
    { ppu with m7largeField := (val &&& 0x80) != 0, m7charFill := (val &&& 0x40) != 0,
               m7yFlip := (val &&& 0x2) != 0, m7xFlip := (val &&& 0x1) != 0 }
  else if adr = 0x1b ∨ adr = 0x1c ∨ adr = 0x1d ∨ adr = 0x1e then
    { ppu with
      m7matrix := Function.update ppu.m7matrix (adr - 0x1b) (toS16 ((val <<< 8) ||| ppu.m7prev)),
      m7prev := val }
  else if adr = 0x1f ∨ adr = 0x20 then
    { ppu with
      m7matrix :=
        Function.update ppu.m7matrix (adr - 0x1b) (toS16 (((val <<< 8) ||| ppu.m7prev) &&& 0x1fff)),
      m7prev := val }
  else if adr = 0x21 then
    { ppu with cgramPointer := val, cgramSecondWrite := false }
  else if adr = 0x22 then
    let ppu := if !ppu.cgramSecondWrite then { ppu with cgramBuffer := val }
      else { ppu with
             cgram := Function.update ppu.cgram ppu.cgramPointer ((val <<< 8) ||| ppu.cgramBuffer),
             cgramPointer := (ppu.cgramPointer + 1) % 256 }
    { ppu with cgramSecondWrite := !ppu.cgramSecondWrite }
  else if adr = 0x23 ∨ adr = 0x24 ∨ adr = 0x25 then
    let i := (adr - 0x23) * 2
    { ppu with windowLayer := fun j =>
        if j = i then
          { ppu.windowLayer i with
            window1inversed := (val &&& 0x1) != 0, window1enabled := (val &&& 0x2) != 0,
            window2inversed := (val &&& 0x4) != 0, window2enabled := (val &&& 0x8) != 0 }
        else if j = i + 1 then
          { ppu.windowLayer (i + 1) with
            window1inversed := (val &&& 0x10) != 0, window1enabled := (val &&& 0x20) != 0,
            window2inversed := (val &&& 0x40) != 0, window2enabled := (val &&& 0x80) != 0 }
        else ppu.windowLayer j }
  else if adr = 0x26 then { ppu with window1left := val }
  else if adr = 0x27 then { ppu with window1right := val }
  else if adr = 0x28 then { ppu with window2left := val }
  else if adr = 0x29 then { ppu with window2right := val }
  else if adr = 0x2a then
    { ppu with windowLayer := fun j =>
        if j = 0 then { ppu.windowLayer 0 with maskLogic := val &&& 0x3 }
        else if j = 1 then { ppu.windowLayer 1 with maskLogic := (val >>> 2) &&& 0x3 }
        else if j = 2 then { ppu.windowLayer 2 with maskLogic := (val >>> 4) &&& 0x3 }
        else if j = 3 then { ppu.windowLayer 3 with maskLogic := (val >>> 6) &&& 0x3 }
        else ppu.windowLayer j }
  else if adr = 0x2b then
    { ppu with windowLayer := fun j =>
        if j = 4 then { ppu.windowLayer 4 with maskLogic := val &&& 0x3 }
        else if j = 5 then { ppu.windowLayer 5 with maskLogic := (val >>> 2) &&& 0x3 }
        else ppu.windowLayer j }
  else if adr = 0x2c then
    { ppu with layer := fun j =>
        if j < 5 then { ppu.layer j with mainScreenEnabled := (val &&& (1 <<< j)) != 0 }
        else ppu.layer j }
  else if adr = 0x2d then
    { ppu with layer := fun j =>
        if j < 5 then { ppu.layer j with subScreenEnabled := (val &&& (1 <<< j)) != 0 }
        else ppu.layer j }
  else if adr = 0x2e then
    { ppu with layer := fun j =>
        if j < 5 then { ppu.layer j with mainScreenWindowed := (val &&& (1 <<< j)) != 0 }
        else ppu.layer j }
  else if adr = 0x2f then
    { ppu with layer := fun j =>
        if j < 5 then { ppu.layer j with subScreenWindowed := (val &&& (1 <<< j)) != 0 }
        else ppu.layer j }
  else if adr = 0x30 then
    { ppu with directColor := (val &&& 0x1) != 0, addSubscreen := (val &&& 0x2) != 0,
               preventMathMode := (val &&& 0x30) >>> 4, clipMode := (val &&& 0xc0) >>> 6 }
  else if adr = 0x31 then
    { ppu with subtractColor := (val &&& 0x80) != 0, halfColor := (val &&& 0x40) != 0,
               mathEnabled := fun i =>
                 if i < 6 then (val &&& (1 <<< i)) != 0 else ppu.mathEnabled i }
  else if adr = 0x32 then
    { ppu with fixedColorB := if (val &&& 0x80) != 0 then val &&& 0x1f else ppu.fixedColorB,
               fixedColorG := if (val &&& 0x40) != 0 then val &&& 0x1f else ppu.fixedColorG,
               fixedColorR := if (val &&& 0x20) != 0 then val &&& 0x1f else ppu.fixedColorR }
  else if adr = 0x33 then
    { ppu with interlace := (val &&& 0x1) != 0, objInterlace := (val &&& 0x2) != 0,
               overscan := (val &&& 0x4) != 0, pseudoHires := (val &&& 0x8) != 0,
               m7extBg := (val &&& 0x40) != 0 }
  else ppu


/-! # The system bus (snes.c)

`Snes` holds the fields of `struct Snes` (widths as given by
`snes_handleState`), the CPU and PPU states, the few fields of the DMA unit
and the cartridge that snes.c touches, and the static `access_time` table.
Calls into components whose code lies outside snes.c, snes_cpu.c and
snes_ppu.c (APU, DSP, DMA, cartridge, CX4, controllers) are recorded in `ext`;
the bytes such components return are drawn from an `Env`, which sees the
record of earlier calls. -/

/-- A call into a component outside the three source files. -/
inductive ExtCall where
  | apu_reset | dma_reset | input_reset (port : Nat) | cart_reset
  | apu_runCycles
  | dsp_newFrame
  | cx4_run
  | dma_startDma (val : Nat) (hdma : Bool)
  | dma_read (adr : Nat)
  | dma_write (adr val : Nat)
  | cart_read (bank adr : Nat)
  | cart_write (bank adr val : Nat)
  | input_latch (port : Nat) (value : Bool)
  | input_read (port : Nat)
  | apu_inPort (port val : Nat)
  | apu_outPort (port : Nat)
deriving DecidableEq, Repr

/-- What `ppu_runLine` (snes_ppu.c:300) and its callees write: the two object line
buffers, the range/time-over flags, the mode-7 start coordinates and the pixel buffer. -/
structure Render where
  objPixelBuffer : Nat → Nat
  objPriorityBuffer : Nat → Nat
  rangeOver : Bool
  timeOver : Bool
  m7startX : Int
  m7startY : Int
  pixelBuffer : Nat → Nat

/-- The environment of the bus: the bytes returned by the controllers, the APU ports,
the DMA registers and the cartridge, each depending on the calls made so far, and the
picture computed by `ppu_runLine`. -/
structure Env where
  input_read : List ExtCall → Nat → Nat
  apu_outPort : List ExtCall → Nat → Nat
  dma_read : List ExtCall → Nat → Nat
  cart_read : List ExtCall → Nat → Nat → Nat
  runLine : Ppu → Nat → Render

/-- The state of `struct Snes`. -/
structure Snes where
  cpu : Cpu
  ppu : Ppu
  palTiming : Bool
  ram : Nat → Nat
  ramFill : Nat
  ramAdr : Nat
  hPos : Nat
  vPos : Nat
  frames : Nat
  cycles : Nat
  syncCycle : Nat
  hIrqEnabled : Bool
  vIrqEnabled : Bool
  nmiEnabled : Bool
  hTimer : Nat
  vTimer : Nat
  hvTimer : Nat
  inNmi : Bool
  irqCondition : Bool
  inIrq : Bool
  inVblank : Bool
  portAutoRead : Nat → Nat
  autoJoyRead : Bool
  autoJoyTimer : Nat
  ppuLatch : Bool
  multiplyA : Nat
  multiplyResult : Nat
  divideA : Nat
  divideResult : Nat
  fastMem : Bool
  openBus : Nat
  nextHoriEvent : Nat
  hdmaInitRequested : Bool
  hdmaRunRequested : Bool
  cartType : Nat
  access_time : Nat → Nat
  ext : List ExtCall

/-- The view of the bus that the PPU has through `ppu->snes`. -/
def Snes.ppuBus (s : Snes) : PpuBus :=
  { hPos := s.hPos, vPos := s.vPos, ppuLatch := s.ppuLatch, openBus := s.openBus,
    palTiming := s.palTiming, inVblank := s.inVblank }

/-- Record a call into an outside component. -/
def Snes.call (s : Snes) (c : ExtCall) : Snes := { s with ext := s.ext ++ [c] }

/-- `snes_getAccessTime` (snes.c:547) as a function of `fastMem` and the address. -/
def getAccessTime (fastMem : Bool) (adr : Nat) : Nat :=
  let bank := (adr >>> 16) % 256
  let adr := adr &&& 0xffff
  if (bank < 0x40 ∨ (bank ≥ 0x80 ∧ bank < 0xc0)) ∧ adr < 0x8000 then
    if adr < 0x2000 ∨ adr ≥ 0x6000 then 8
    else if adr < 0x4000 ∨ adr ≥ 0x4200 then 6
    else 12
  else if fastMem ∧ bank ≥ 0x80 then 6 else 8

/-- `snes_getAccessTime` (snes.c:547). -/
def snes_getAccessTime (s : Snes) (adr : Nat) : Nat := getAccessTime s.fastMem adr

/-- `build_accesstime` (snes.c:561): entries from `start` up to 0xFFFFFF are recomputed. -/
def build_accesstime (s : Snes) (recalc : Bool) : Snes :=
  let start := if recalc then 0x800000 else 0
  { s with access_time := fun i =>
      if start ≤ i ∧ i < 0x1000000 then snes_getAccessTime s i else s.access_time i }

/-- `snes_reset` (snes.c:68). -/
def snes_reset (s : Snes) (hard : Bool) : Snes :=
  let s := { s with cpu := cpu_reset s.cpu hard }
  let s := s.call ExtCall.apu_reset
  let s := s.call ExtCall.dma_reset
  let s := { s with ppu := ppu_reset }
  let s := s.call (ExtCall.input_reset 1)
  let s := s.call (ExtCall.input_reset 2)
  let s := s.call ExtCall.cart_reset
  let s := if hard then { s with ram := fun _ => s.ramFill } else s
  let s := { s with
    ramAdr := 0, hPos := 0, vPos := 0, frames := 0, cycles := 0, syncCycle := 0,
    hIrqEnabled := false, vIrqEnabled := false, nmiEnabled := false, hTimer := 0x1ff * 4,
    vTimer := 0x1ff, hvTimer := 0, inNmi := false, irqCondition := false, inIrq := false,
    inVblank := false, portAutoRead := fun _ => 0, autoJoyRead := false, autoJoyTimer := 0,
    ppuLatch := true, multiplyA := 0xff, multiplyResult := 0xfe01, divideA := 0xffff,
    divideResult := 0x101, fastMem := false, openBus := 0, nextHoriEvent := 16 }
  build_accesstime s false

/-- `snes_catchupApu` (snes.c:275). -/
def snes_catchupApu (s : Snes) : Snes := s.call ExtCall.apu_runCycles

/-- One round of the loop of `snes_doAutoJoypad` (snes.c:286) for bit `15 - i`. -/
def autoJoypadStep (env : Env) (s : Snes) (i : Nat) : Snes :=
  let val := env.input_read s.ext 1 % 256
  let s := s.call (ExtCall.input_read 1)
  let s := { s with portAutoRead := fun j =>
    if j = 0 then (s.portAutoRead 0 ||| ((val &&& 1) <<< (15 - i))) % 0x10000
    else if j = 2 then (s.portAutoRead 2 ||| (((val >>> 1) &&& 1) <<< (15 - i))) % 0x10000
    else s.portAutoRead j }
  let val := env.input_read s.ext 2 % 256
  let s := s.call (ExtCall.input_read 2)
  { s with portAutoRead := fun j =>
    if j = 1 then (s.portAutoRead 1 ||| ((val &&& 1) <<< (15 - i))) % 0x10000
    else if j = 3 then (s.portAutoRead 3 ||| (((val >>> 1) &&& 1) <<< (15 - i))) % 0x10000
    else s.portAutoRead j }

/-- `snes_doAutoJoypad` (snes.c:279). -/
def snes_doAutoJoypad (env : Env) (s : Snes) : Snes :=
  let s := { s with portAutoRead := fun _ => 0 }
  let s := s.call (ExtCall.input_latch 1 true)
  let s := s.call (ExtCall.input_latch 2 true)
  let s := s.call (ExtCall.input_latch 1 false)
  let s := s.call (ExtCall.input_latch 2 false)
  (List.range 16).foldl (autoJoypadStep env) s

/-- The `startingVblank` block of `snes_runCycle` (snes.c:249). -/
def snes_startVblank (env : Env) (s : Snes) : Snes :=
  let s := snes_catchupApu s
  let s := s.call ExtCall.dsp_newFrame
  let s := { s with ppu := ppu_handleVblank s.ppu }
  let s := { s with inVblank := true, inNmi := true }
  let s := if s.autoJoyRead then snes_doAutoJoypad env { s with autoJoyTimer := 4224 } else s
  if s.nmiEnabled then { s with cpu := cpu_nmi s.cpu } else s

/-- The frame wrap inside the end-of-line case of `snes_runCycle` (snes.c:222, 229):
`cx4_run` for a CX4 cartridge, `vPos = 0`, `frames++`. -/
def snes_frameWrap (s : Snes) : Snes :=
  let s := if s.cartType = 4 then s.call ExtCall.cx4_run else s
  { s with vPos := 0, frames := (s.frames + 1) % 0x100000000 }

/-- The test for the last line of the frame (snes.c:220, 227), on the incremented `vPos`. -/
def snes_lastLine (s : Snes) : Prop :=
  if s.palTiming = false then
    (s.vPos = 262 ∧ (s.ppu.frameInterlace = false ∨ s.ppu.evenFrame = false)) ∨ s.vPos = 263
  else
    (s.vPos = 312 ∧ (s.ppu.frameInterlace = false ∨ s.ppu.evenFrame = false)) ∨ s.vPos = 313

instance (s : Snes) : Decidable (snes_lastLine s) := by
  unfold snes_lastLine; exact inferInstance

/-- The first part of the end-of-line case of `snes_runCycle` (snes.c:214): the next event, the
new `hPos` and `vPos`, and the frame wrap. -/
def snes_nextLine (s : Snes) : Snes :=
  let s := { s with nextHoriEvent := 16, hPos := 0, vPos := (s.vPos + 1) % 0x10000 }
  if snes_lastLine s then snes_frameWrap s else s

/-- The case `vPos == 225` of the end-of-line tests (snes.c:242). -/
def snes_line225 (env : Env) (s : Snes) : Snes :=
  let r := ppu_checkOverscan s.ppu
  if !r.2 then snes_startVblank env { s with ppu := r.1 } else { s with ppu := r.1 }

/-- The `vPos` tests at the end of a line in `snes_runCycle` (snes.c:235). -/
def snes_lineStart (env : Env) (s : Snes) : Snes :=
  if s.vPos = 0 then
    { s with inVblank := false, inNmi := false, ppu := ppu_handleFrameStart s.ppu }
  else if s.vPos = 225 then snes_line225 env s
  else if s.vPos = 240 then
    if !s.inVblank then snes_startVblank env s else s
  else s

/-- The end-of-line case (`case 1360: case 1364: case 1368:`) of `snes_runCycle`
(snes.c:213). -/
def snes_endLine (env : Env) (s : Snes) : Snes := snes_lineStart env (snes_nextLine s)

/-- The state update of `ppu_runLine` (snes_ppu.c:300) with the picture taken from `env`. -/
def ppu_runLine (env : Env) (ppu : Ppu) (line : Nat) : Ppu :=
  let r := env.runLine ppu line
  { ppu with objPixelBuffer := r.objPixelBuffer, objPriorityBuffer := r.objPriorityBuffer,
             rangeOver := r.rangeOver, timeOver := r.timeOver, m7startX := r.m7startX,
             m7startY := r.m7startY, pixelBuffer := r.pixelBuffer }

/-- The line length selected at `hPos == 1104` (snes.c:203). -/
def lineLength (s : Snes) : Nat :=
  if s.palTiming = false then
    if s.vPos = 240 ∧ s.ppu.evenFrame = false ∧ s.ppu.frameInterlace = false then 1360 else 1364
  else
    if s.vPos ≠ 311 ∨ s.ppu.evenFrame = true ∨ s.ppu.frameInterlace = false then 1364 else 1368

/-- The `switch (snes->hPos)` of `snes_runCycle` (snes.c:192), entered when
`hPos == nextHoriEvent`. -/
def snes_horiEvent (env : Env) (s : Snes) : Snes :=
  if s.hPos = 16 then
    { s with nextHoriEvent := 512,
             hdmaInitRequested := if s.vPos = 0 then true else s.hdmaInitRequested }
  else if s.hPos = 512 then
    { s with nextHoriEvent := 1104,
             ppu := if s.inVblank = false ∧ s.vPos > 0 then ppu_runLine env s.ppu s.vPos
                    else s.ppu }
  else if s.hPos = 1104 then
    { s with hdmaRunRequested := if s.inVblank = false then true else s.hdmaRunRequested,
             nextHoriEvent := lineLength s }
  else if s.hPos = 1360 ∨ s.hPos = 1364 ∨ s.hPos = 1368 then
    snes_endLine env s
  else s

/-- `x -= 2` on an unsigned value of `w` bits. -/
def subTwo (w x : Nat) : Nat := if 2 ≤ x then x - 2 else if x = 1 then 2 ^ w - 1 else 2 ^ w - 2

/-- The countdown part of the H/V-timer block of `snes_runCycle` (snes.c:168). -/
def snes_hvCountdown (s : Snes) : Snes :=
  if s.hvTimer > 0 then
    if subTwo 32 s.hvTimer = 0 then
      { s with hvTimer := subTwo 32 s.hvTimer, inIrq := true, cpu := cpu_setIrq s.cpu true }
    else { s with hvTimer := subTwo 32 s.hvTimer }
  else s

/-- The sampled H/V-timer condition of `snes_runCycle` (snes.c:175). -/
def snes_irqCondition (s : Snes) : Bool :=
  (s.vIrqEnabled || s.hIrqEnabled) &&
  (s.vPos == s.vTimer || !s.vIrqEnabled) &&
  (s.hPos == s.hTimer || !s.hIrqEnabled)

/-- The H/V-timer block of `snes_runCycle` (snes.c:166), run when `(hPos & 2) == 0`. -/
def snes_checkIrq (s : Snes) : Snes :=
  let s := snes_hvCountdown s
  { s with hvTimer := if !s.irqCondition && snes_irqCondition s then 4 else s.hvTimer,
           irqCondition := snes_irqCondition s }

/-- The auto-joypad timer step at the end of `snes_runCycle` (snes.c:272). -/
def snes_joyTimer (s : Snes) : Snes :=
  if s.autoJoyTimer > 0 then { s with autoJoyTimer := subTwo 16 s.autoJoyTimer } else s

/-- The position step of `snes_runCycle` (snes.c:188): `hPos += 2` and the event at the
new position. -/
def snes_advance (env : Env) (s : Snes) : Snes :=
  let s := { s with hPos := (s.hPos + 2) % 0x10000 }
  if s.hPos = s.nextHoriEvent then snes_horiEvent env s else s

/-- The first part of `snes_runCycle` (snes.c:165): the cycle counter and the H/V-timer
check. -/
def snes_tick (s : Snes) : Snes :=
  let s := { s with cycles := (s.cycles + 2) % 0x10000000000000000 }
  if s.hPos &&& 2 = 0 then snes_checkIrq s else s

/-- `snes_runCycle` (snes.c:164). -/
def snes_runCycle (env : Env) (s : Snes) : Snes :=
  snes_joyTimer (snes_advance env (snes_tick s))

/-- Run `f` `n` times. -/
def iterate (f : Snes → Snes) : Nat → Snes → Snes
  | 0, s => s
  | n + 1, s => iterate f n (f s)

/-- `snes_runCycles` (snes.c:143); `cycles` is a C `int`. -/
def snes_runCycles (env : Env) (s : Snes) (cycles : Int) : Snes :=
  let cycles := if (s.hPos : Int) + cycles ≥ 536 ∧ s.hPos < 536 then cycles + 40 else cycles
  iterate (snes_runCycle env) ((cycles + 1) / 2).toNat s

/-- `snes_readBBus` (snes.c:296); `adr` is a byte. -/
def snes_readBBus (env : Env) (s : Snes) (adr : Nat) : Nat × Snes :=
  if adr < 0x40 then
    let r := ppu_read s.ppu s.ppuBus adr
    (r.1, { s with ppu := r.2 })
  else if adr < 0x80 then
    let s := snes_catchupApu s
    (env.apu_outPort s.ext (adr &&& 0x3) % 256, s.call (ExtCall.apu_outPort (adr &&& 0x3)))
  else if adr = 0x80 then
    (s.ram s.ramAdr, { s with ramAdr := ((s.ramAdr + 1) % 0x100000000) &&& 0x1ffff })
  else (s.openBus, s)

/-- `snes_writeBBus` (snes.c:312); `adr` and `val` are bytes. -/
def snes_writeBBus (s : Snes) (adr val : Nat) : Snes :=
  if adr < 0x40 then { s with ppu := ppu_write s.ppu s.ppuBus adr val }
  else if adr < 0x80 then
    let s := snes_catchupApu s
    s.call (ExtCall.apu_inPort (adr &&& 0x3) val)
  else if adr = 0x80 then
    { s with ram := Function.update s.ram s.ramAdr val,
             ramAdr := ((s.ramAdr + 1) % 0x100000000) &&& 0x1ffff }
  else if adr = 0x81 then { s with ramAdr := (s.ramAdr &&& 0x1ff00) ||| val }
  else if adr = 0x82 then { s with ramAdr := (s.ramAdr &&& 0x100ff) ||| (val <<< 8) }
  else if adr = 0x83 then { s with ramAdr := (s.ramAdr &&& 0x0ffff) ||| ((val &&& 1) <<< 16) }
  else s

/-- `snes_readReg` (snes.c:343); `adr` is a 16-bit address. -/
def snes_readReg (s : Snes) (adr : Nat) : Nat × Snes :=
  if adr = 0x4210 then
    ((0x2 ||| (s.inNmi.toNat <<< 7)) ||| (s.openBus &&& 0x70), { s with inNmi := false })
  else if adr = 0x4211 then
    ((s.inIrq.toNat <<< 7) ||| (s.openBus &&& 0x7f),
      { s with inIrq := false, cpu := cpu_setIrq s.cpu false })
  else if adr = 0x4212 then
    (((decide (s.autoJoyTimer > 0)).toNat ||| ((decide (s.hPos < 4 ∨ s.hPos ≥ 1096)).toNat <<< 6)
        ||| (s.inVblank.toNat <<< 7)) ||| (s.openBus &&& 0x3e), s)
  else if adr = 0x4213 then (s.ppuLatch.toNat <<< 7, s)
  else if adr = 0x4214 then (s.divideResult &&& 0xff, s)
  else if adr = 0x4215 then ((s.divideResult >>> 8) % 256, s)
  else if adr = 0x4216 then (s.multiplyResult &&& 0xff, s)
  else if adr = 0x4217 then ((s.multiplyResult >>> 8) % 256, s)
  else if adr = 0x4218 ∨ adr = 0x421a ∨ adr = 0x421c ∨ adr = 0x421e then
    (s.portAutoRead ((adr - 0x4218) / 2) &&& 0xff, s)
  else if adr = 0x4219 ∨ adr = 0x421b ∨ adr = 0x421d ∨ adr = 0x421f then
    ((s.portAutoRead ((adr - 0x4219) / 2) >>> 8) % 256, s)
  else (s.openBus, s)

/-- `snes_writeReg` (snes.c:396); `adr` is a 16-bit address, `val` a byte. -/
def snes_writeReg (s : Snes) (adr val : Nat) : Snes :=
  if adr = 0x4200 then
    let s := { s with autoJoyRead := (val &&& 0x1) != 0 }
    let s := if !s.autoJoyRead then { s with autoJoyTimer := 0 } else s
    let s := { s with hIrqEnabled := (val &&& 0x10) != 0, vIrqEnabled := (val &&& 0x20) != 0 }
    let s := if !s.hIrqEnabled && !s.vIrqEnabled then
        { s with inIrq := false, cpu := cpu_setIrq s.cpu false }
      else s
    let s := if !s.nmiEnabled && (val &&& 0x80) != 0 && s.inNmi then
        { s with cpu := cpu_nmi s.cpu }
      else s
    let s := { s with nmiEnabled := (val &&& 0x80) != 0 }
    { s with cpu := { s.cpu with intDelay := true } }
  else if adr = 0x4201 then
    let s := if !((val &&& 0x80) != 0) && s.ppuLatch then
        { s with ppu := ppu_latchHV s.ppu s.ppuBus }
      else s
    { s with ppuLatch := (val &&& 0x80) != 0 }
  else if adr = 0x4202 then { s with multiplyA := val }
  else if adr = 0x4203 then { s with multiplyResult := (s.multiplyA * val) % 0x10000 }
  else if adr = 0x4204 then { s with divideA := (s.divideA &&& 0xff00) ||| val }
  else if adr = 0x4205 then { s with divideA := ((s.divideA &&& 0x00ff) ||| (val <<< 8)) % 0x10000 }
  else if adr = 0x4206 then
    if val = 0 then { s with divideResult := 0xffff, multiplyResult := s.divideA }
    else { s with divideResult := s.divideA / val, multiplyResult := s.divideA % val }
  else if adr = 0x4207 then { s with hTimer := ((s.hTimer &&& 0x400) ||| (val <<< 2)) % 0x10000 }
  else if adr = 0x4208 then
    { s with hTimer := ((s.hTimer &&& 0x03fc) ||| ((val &&& 1) <<< 10)) % 0x10000 }
  else if adr = 0x4209 then { s with vTimer := (s.vTimer &&& 0x100) ||| val }
  else if adr = 0x420a then { s with vTimer := (s.vTimer &&& 0x0ff) ||| ((val &&& 1) <<< 8) }
  else if adr = 0x420b then s.call (ExtCall.dma_startDma val false)
  else if adr = 0x420c then s.call (ExtCall.dma_startDma val true)
  else if adr = 0x420d then
    if s.fastMem != ((val &&& 0x1) != 0) then
      build_accesstime { s with fastMem := (val &&& 0x1) != 0 } true
    else s
  else s

/-- `snes_rread` (snes.c:488); `adr` is a 24-bit address. -/
def snes_rread (env : Env) (s : Snes) (adr : Nat) : Nat × Snes :=
  let bank := (adr >>> 16) % 256
  let adr := adr &&& 0xffff
  if bank = 0x7e ∨ bank = 0x7f then (s.ram (((bank &&& 1) <<< 16) ||| adr), s)
  else if (bank < 0x40 ∨ (bank ≥ 0x80 ∧ bank < 0xc0)) ∧ adr < 0x2000 then (s.ram adr, s)
  else if (bank < 0x40 ∨ (bank ≥ 0x80 ∧ bank < 0xc0)) ∧ adr ≥ 0x2100 ∧ adr < 0x2200 then
    snes_readBBus env s (adr &&& 0xff)
  else if (bank < 0x40 ∨ (bank ≥ 0x80 ∧ bank < 0xc0)) ∧ adr = 0x4016 then
    ((env.input_read s.ext 1 % 256) ||| (s.openBus &&& 0xfc), s.call (ExtCall.input_read 1))
  else if (bank < 0x40 ∨ (bank ≥ 0x80 ∧ bank < 0xc0)) ∧ adr = 0x4017 then
    ((env.input_read s.ext 2 % 256) ||| (s.openBus &&& 0xe0) ||| 0x1c,
      s.call (ExtCall.input_read 2))
  else if (bank < 0x40 ∨ (bank ≥ 0x80 ∧ bank < 0xc0)) ∧ adr ≥ 0x4200 ∧ adr < 0x4220 then
    snes_readReg s adr
  else if (bank < 0x40 ∨ (bank ≥ 0x80 ∧ bank < 0xc0)) ∧ adr ≥ 0x4300 ∧ adr < 0x4380 then
    (env.dma_read s.ext adr % 256, s.call (ExtCall.dma_read adr))
  else (env.cart_read s.ext bank adr % 256, s.call (ExtCall.cart_read bank adr))

/-- `snes_read` (snes.c:575). -/
def snes_read (env : Env) (s : Snes) (adr : Nat) : Nat × Snes :=
  let r := snes_rread env s adr
  (r.1, { r.2 with openBus := r.1 })

/-- `snes_write` (snes.c:516); `adr` is a 24-bit address, `val` a byte. -/
def snes_write (s : Snes) (adr val : Nat) : Snes :=
  let s := { s with openBus := val }
  let bank := (adr >>> 16) % 256
  let adr := adr &&& 0xffff
  let s := if bank = 0x7e ∨ bank = 0x7f then
      { s with ram := Function.update s.ram (((bank &&& 1) <<< 16) ||| adr) val }
    else s
  let s := if bank < 0x40 ∨ (bank ≥ 0x80 ∧ bank < 0xc0) then
      let s := if adr < 0x2000 then { s with ram := Function.update s.ram adr val } else s
      let s := if adr ≥ 0x2100 ∧ adr < 0x2200 then snes_writeBBus s (adr &&& 0xff) val else s
      let s := if adr = 0x4016 then
          (s.call (ExtCall.input_latch 1 ((val &&& 1) != 0))).call
            (ExtCall.input_latch 2 ((val &&& 1) != 0))
        else s
      let s := if adr ≥ 0x4200 ∧ adr < 0x4220 then snes_writeReg s adr val else s
      if adr ≥ 0x4300 ∧ adr < 0x4380 then s.call (ExtCall.dma_write adr val) else s
    else s
  s.call (ExtCall.cart_write bank adr val)

/-- An environment whose components return zero and whose renderer leaves the PPU buffers
as they are. -/
def zeroEnv : Env :=
  { input_read := fun _ _ => 0, apu_outPort := fun _ _ => 0, dma_read := fun _ _ => 0,
    cart_read := fun _ _ _ => 0,
    runLine := fun ppu _ =>
      { objPixelBuffer := ppu.objPixelBuffer, objPriorityBuffer := ppu.objPriorityBuffer,
        rangeOver := ppu.rangeOver, timeOver := ppu.timeOver, m7startX := ppu.m7startX,
        m7startY := ppu.m7startY, pixelBuffer := ppu.pixelBuffer } }

/-- A bus state with every field zero / false. -/
def zeroSnes : Snes :=
  { cpu := zeroCpu, ppu := ppu_reset, palTiming := false, ram := fun _ => 0, ramFill := 0,
    ramAdr := 0, hPos := 0, vPos := 0, frames := 0, cycles := 0, syncCycle := 0,
    hIrqEnabled := false, vIrqEnabled := false, nmiEnabled := false, hTimer := 0, vTimer := 0,
    hvTimer := 0, inNmi := false, irqCondition := false, inIrq := false, inVblank := false,
    portAutoRead := fun _ => 0, autoJoyRead := false, autoJoyTimer := 0, ppuLatch := false,
    multiplyA := 0, multiplyResult := 0, divideA := 0, divideResult := 0, fastMem := false,
    openBus := 0, nextHoriEvent := 0, hdmaInitRequested := false, hdmaRunRequested := false,
    cartType := 0, access_time := fun _ => 0, ext := [] }

/-- The NTSC bus after a hard `snes_reset`. -/
def demoBus : Snes := snes_reset zeroSnes true

/-- The 16-bit value read from the register pair `adr`, `adr + 1` (low byte first). -/
def readRegWord (s : Snes) (adr : Nat) : Nat :=
  (snes_readReg s adr).1 ||| ((snes_readReg (snes_readReg s adr).2 (adr + 1)).1 <<< 8)


/-! ## Reachable bus states -/

/-- The bus states reached from a `snes_reset`: by `snes_runCycle` steps, by bus reads and
writes (`snes_read`, `snes_write`; these are what the CPU callbacks and the DMA unit perform),
by further resets, by the CPU changing its own registers, and by the DMA unit changing its
two request flags. -/
inductive BusReach (env : Env) : Snes → Prop where
  | reset (s : Snes) (hard : Bool) : BusReach env (snes_reset s hard)
  | cycle {s : Snes} : BusReach env s → BusReach env (snes_runCycle env s)
  | read {s : Snes} (adr : Nat) : BusReach env s → BusReach env (snes_read env s adr).2
  | write {s : Snes} (adr val : Nat) (hval : val < 256) :
      BusReach env s → BusReach env (snes_write s adr val)
  | cpu {s : Snes} (c : Cpu) : BusReach env s → BusReach env { s with cpu := c }
  | dma {s : Snes} (a b : Bool) :
      BusReach env s → BusReach env { s with hdmaInitRequested := a, hdmaRunRequested := b }

/-- Line `vblankStart` of the current frame: 240 when the PPU latched an overscan frame. -/
def vblankStart (s : Snes) : Nat := if s.ppu.frameOverscan then 240 else 225

/-- The raster fields of the bus. -/
structure Timing where
  hPos : Nat
  vPos : Nat
  nextHoriEvent : Nat
  palTiming : Bool
  inVblank : Bool
  inNmi : Bool
  frameOverscan : Bool
  autoJoyTimer : Nat
  ramAdr : Nat
  fastMem : Bool
  access_time : Nat → Nat
  nmiEnabled : Bool
  autoJoyRead : Bool
  nmiWanted : Bool

/-- The raster fields of a bus state. -/
def timingOf (s : Snes) : Timing :=
  { hPos := s.hPos, vPos := s.vPos, nextHoriEvent := s.nextHoriEvent, palTiming := s.palTiming,
    inVblank := s.inVblank, inNmi := s.inNmi, frameOverscan := s.ppu.frameOverscan,
    autoJoyTimer := s.autoJoyTimer, ramAdr := s.ramAdr, fastMem := s.fastMem,
    access_time := s.access_time, nmiEnabled := s.nmiEnabled, autoJoyRead := s.autoJoyRead,
    nmiWanted := s.cpu.nmiWanted }

/-- The invariant of the raster fields. -/
def TimingInv (t : Timing) : Prop :=
  t.hPos % 2 = 0 ∧ t.hPos < t.nextHoriEvent ∧
  (t.nextHoriEvent = 16 ∨ t.nextHoriEvent = 512 ∨ t.nextHoriEvent = 1104 ∨
    t.nextHoriEvent = 1360 ∨ t.nextHoriEvent = 1364 ∨ t.nextHoriEvent = 1368) ∧
  (t.palTiming = false → t.vPos ≤ 262) ∧ (t.palTiming = true → t.vPos ≤ 312) ∧
  (t.inVblank = true ↔ (if t.frameOverscan then 240 else 225) ≤ t.vPos) ∧
  (t.inNmi = true → t.inVblank = true) ∧
  t.autoJoyTimer % 2 = 0 ∧ t.autoJoyTimer ≤ 4224 ∧
  t.ramAdr < 0x20000 ∧
  (∀ i, i < 0x1000000 → t.access_time i = getAccessTime t.fastMem i)

/-! The raster part of `snes_runCycle`, as functions on `Timing`; the flags they take are
the PPU and bus fields the corresponding code reads. -/

/-- The raster part of `snes_startVblank`. -/
def startVblankT (t : Timing) (autoJoyRead : Bool) : Timing :=
  { t with inVblank := true, inNmi := true,
           autoJoyTimer := if autoJoyRead then 4224 else t.autoJoyTimer,
           nmiWanted := if t.nmiEnabled then true else t.nmiWanted }

/-- The last-line test of `snes_lastLine` on raster fields; `short` is
`!frameInterlace || !evenFrame`. -/
def lastLineT (pal : Bool) (v : Nat) (short : Prop) : Prop :=
  (pal = false ∧ ((v = 262 ∧ short) ∨ v = 263)) ∨ (pal = true ∧ ((v = 312 ∧ short) ∨ v = 313))

instance (pal : Bool) (v : Nat) (short : Prop) [Decidable short] :
    Decidable (lastLineT pal v short) := by
  unfold lastLineT; exact inferInstance

/-- The raster part of `snes_nextLine`. -/
def nextLineT (t : Timing) (short : Prop) [Decidable short] : Timing :=
  { t with nextHoriEvent := 16, hPos := 0,
           vPos := if lastLineT t.palTiming ((t.vPos + 1) % 0x10000) short then 0
                   else (t.vPos + 1) % 0x10000 }

/-- The raster part of `snes_lineStart`. -/
def lineStartT (t : Timing) (overscan autoJoyRead : Bool) : Timing :=
  if t.vPos = 0 then { t with inVblank := false, inNmi := false }
  else if t.vPos = 225 then
    if !overscan then startVblankT { t with frameOverscan := overscan } autoJoyRead
    else { t with frameOverscan := overscan }
  else if t.vPos = 240 then
    if !t.inVblank then startVblankT t autoJoyRead else t
  else t

/-- The raster part of `snes_horiEvent`; `next` is the line length chosen at `hPos = 1104`. -/
def horiEventT (t : Timing) (next : Nat) (short : Prop) [Decidable short]
    (overscan autoJoyRead : Bool) : Timing :=
  if t.hPos = 16 then { t with nextHoriEvent := 512 }
  else if t.hPos = 512 then { t with nextHoriEvent := 1104 }
  else if t.hPos = 1104 then { t with nextHoriEvent := next }
  else if t.hPos = 1360 ∨ t.hPos = 1364 ∨ t.hPos = 1368 then
    lineStartT (nextLineT t short) overscan autoJoyRead
  else t

/-- The raster part of `snes_advance`. -/
def advanceT (t : Timing) (next : Nat) (short : Prop) [Decidable short]
    (overscan autoJoyRead : Bool) : Timing :=
  if (t.hPos + 2) % 0x10000 = t.nextHoriEvent then
    horiEventT { t with hPos := (t.hPos + 2) % 0x10000 } next short overscan autoJoyRead
  else { t with hPos := (t.hPos + 2) % 0x10000 }

/-- The raster part of `snes_joyTimer`. -/
def joyTimerT (t : Timing) : Timing :=
  if t.autoJoyTimer > 0 then { t with autoJoyTimer := subTwo 16 t.autoJoyTimer } else t

/-- The H/V-timer fields of the bus, with the master cycle counter. -/
structure IrqView where
  hvTimer : Nat
  inIrq : Bool
  irqCondition : Bool
  irqWanted : Bool
  cycles : Nat

/-- The H/V-timer fields of a bus state. -/
def irqOf (s : Snes) : IrqView :=
  { hvTimer := s.hvTimer, inIrq := s.inIrq, irqCondition := s.irqCondition,
    irqWanted := s.cpu.irqWanted, cycles := s.cycles }

/-- A PPU whose horizontal counter toggle is on its second read and whose counters are
latched, with `hCount = 0x123`. -/
def demoLatchedPpu : Ppu :=
  { ppu_reset with hCountSecond := true, vCountSecond := true, countersLatched := true,
                   hCount := 0x123, vCount := 0x45 }

/-- The PPU's view of a bus with `ppuLatch` clear. -/
def demoUnlatchedBus : PpuBus :=
  { hPos := 0, vPos := 0, ppuLatch := false, openBus := 0, palTiming := false, inVblank := false }

/-- The PPU's view of a bus with `ppuLatch` set, outside vblank. -/
def demoLatchBus : PpuBus :=
  { hPos := 0, vPos := 0, ppuLatch := true, openBus := 0, palTiming := false, inVblank := false }

/-- A PPU with forced blank off, VRAM pointer 0x1234 and increment 32. -/
def demoActivePpu : Ppu :=
  { ppu_reset with forcedBlank := false, vramPointer := 0x1234, vramIncrement := 32,
                   vram := fun i => if i = 0x1234 then 0xabcd else 0 }


/-! ## Layer tables and the effective mode (snes_ppu.c:15, 422) -/

/-- The table `layersPerMode` (snes_ppu.c:15): 0-3 are BG layers 1-4, 4 is the sprite layer,
5 marks an unused slot. -/
def layersPerMode : List (List Nat) :=
  [[4, 0, 1, 4, 0, 1, 4, 2, 3, 4, 2, 3],
   [4, 0, 1, 4, 0, 1, 4, 2, 4, 2, 5, 5],
   [4, 0, 4, 1, 4, 0, 4, 1, 5, 5, 5, 5],
   [4, 0, 4, 1, 4, 0, 4, 1, 5, 5, 5, 5],
   [4, 0, 4, 1, 4, 0, 4, 1, 5, 5, 5, 5],
   [4, 0, 4, 1, 4, 0, 4, 1, 5, 5, 5, 5],
   [4, 0, 4, 4, 0, 4, 5, 5, 5, 5, 5, 5],
   [4, 4, 4, 0, 4, 5, 5, 5, 5, 5, 5, 5],
   [2, 4, 0, 1, 4, 0, 1, 4, 4, 2, 5, 5],
   [4, 4, 1, 4, 0, 4, 1, 5, 5, 5, 5, 5]]

/-- The table `prioritysPerMode` (snes_ppu.c:28). -/
def prioritysPerMode : List (List Nat) :=
  [[3, 1, 1, 2, 0, 0, 1, 1, 1, 0, 0, 0],
   [3, 1, 1, 2, 0, 0, 1, 1, 0, 0, 5, 5],
   [3, 1, 2, 1, 1, 0, 0, 0, 5, 5, 5, 5],
   [3, 1, 2, 1, 1, 0, 0, 0, 5, 5, 5, 5],
   [3, 1, 2, 1, 1, 0, 0, 0, 5, 5, 5, 5],
   [3, 1, 2, 1, 1, 0, 0, 0, 5, 5, 5, 5],
   [3, 1, 2, 1, 0, 0, 5, 5, 5, 5, 5, 5],
   [3, 2, 1, 0, 0, 5, 5, 5, 5, 5, 5, 5],
   [1, 3, 1, 1, 2, 0, 0, 1, 0, 0, 5, 5],
   [3, 2, 1, 1, 0, 0, 0, 5, 5, 5, 5, 5]]

/-- The table `layerCountPerMode` (snes_ppu.c:41). -/
def layerCountPerMode : List Nat := [12, 10, 8, 8, 8, 8, 6, 5, 10, 7]

/-- The table `bitDepthsPerMode` (snes_ppu.c:45). -/
def bitDepthsPerMode : List (List Nat) :=
  [[2, 2, 2, 2], [4, 4, 2, 5], [4, 4, 5, 5], [8, 4, 5, 5], [8, 2, 5, 5],
   [4, 2, 5, 5], [4, 5, 5, 5], [8, 5, 5, 5], [4, 4, 2, 5], [8, 7, 5, 5]]

/-- Entry `[m][i]` of a two-dimensional table; `none` outside the array. -/
def tableAt (t : List (List Nat)) (m i : Nat) : Option Nat := (t.getD m []).get? i

/-- The effective mode `actMode` of `ppu_getPixel` (snes_ppu.c:425). -/
def actMode (ppu : Ppu) : Nat :=
  let a := if ppu.mode == 1 && ppu.bg3priority then 8 else ppu.mode
  if ppu.mode == 7 && ppu.m7extBg then 9 else a

/-- The PPU states reached from `ppu_reset` by register reads and writes of bytes, frame
events and rendered lines. -/
inductive PpuReach : Ppu → Prop where
  | reset : PpuReach ppu_reset
  | write {ppu : Ppu} (bus : PpuBus) (adr val : Nat) (hval : val < 256) :
      PpuReach ppu → PpuReach (ppu_write ppu bus adr val)
  | read {ppu : Ppu} (bus : PpuBus) (adr : Nat) : PpuReach ppu → PpuReach (ppu_read ppu bus adr).2
  | latch {ppu : Ppu} (bus : PpuBus) : PpuReach ppu → PpuReach (ppu_latchHV ppu bus)
  | overscan {ppu : Ppu} : PpuReach ppu → PpuReach (ppu_checkOverscan ppu).1
  | vblank {ppu : Ppu} : PpuReach ppu → PpuReach (ppu_handleVblank ppu)
  | frameStart {ppu : Ppu} : PpuReach ppu → PpuReach (ppu_handleFrameStart ppu)
  | line {ppu : Ppu} (env : Env) (line : Nat) : PpuReach ppu → PpuReach (ppu_runLine env ppu line)

/-- The sprite-layer priorities of mode `m`, in table order. -/
def spritePriorities (m : Nat) : List (Option Nat) :=
  ((List.range (layerCountPerMode.getD m 0)).filter
    (fun i => tableAt layersPerMode m i == some 4)).map (fun i => tableAt prioritysPerMode m i)

/-! ## `ppu_handlePixel`: colour math

The layer loop of `ppu_getPixel` and `ppu_getWindowState` are taken from `PixelEnv`: they
decide which layer and which palette index a position shows, for any VRAM, OAM, window and
scroll contents.  What follows them in the source, the conversion to colour channels and the
colour math of `ppu_handlePixel`, is embedded as it is. -/

/-- The results of the parts of the renderer that select a pixel: `windowState ppu layer x`
is `ppu_getWindowState`, `pickLayer ppu x y sub` is the layer loop of `ppu_getPixel`
(snes_ppu.c:427-483), giving the layer (0-5) and the palette index found. -/
structure PixelEnv where
  windowState : Ppu → Nat → Nat → Bool
  pickLayer : Ppu → Nat → Nat → Bool → Nat × Nat

/-- The result of `ppu_getPixel`: the layer returned and the channels stored through `r`,
`g` and `b`. -/
structure PixelColour where
  layer : Nat
  r : Int
  g : Int
  b : Int

/-- `ppu_getPixel` (snes_ppu.c:422) after its layer loop: the colour of the pixel found and
the layer returned. -/
def ppu_getPixel (env : PixelEnv) (ppu : Ppu) (x y : Nat) (sub : Bool) : PixelColour :=
  let layer := (env.pickLayer ppu x y sub).1
  let pixel := (env.pickLayer ppu x y sub).2
  let direct := ppu.directColor && decide (layer < 4) &&
    (tableAt bitDepthsPerMode (actMode ppu) layer == some 8)
  let color := ppu.cgram (pixel &&& 0xff)
  { layer := if layer = 4 ∧ pixel < 0xc0 then 6 else layer,
    r := if direct then (((pixel &&& 0x7) <<< 2) ||| ((pixel &&& 0x100) >>> 7) : Nat)
         else ((color &&& 0x1f : Nat) : Int),
    g := if direct then (((pixel &&& 0x38) >>> 1) ||| ((pixel &&& 0x200) >>> 8) : Nat)
         else (((color >>> 5) &&& 0x1f : Nat) : Int),
    b := if direct then (((pixel &&& 0xc0) >>> 3) ||| ((pixel &&& 0x400) >>> 8) : Nat)
         else (((color >>> 10) &&& 0x1f : Nat) : Int) }

/-- The add / subtract step of the colour math for one channel (snes_ppu.c:354-384; the
source runs the same statements on r, g and b): `c` is the main-screen channel, `c2` the
sub-screen channel, `fixed` the fixed colour, `useSub` is `addSubscreen && secondLayer != 5`.
The result is the pair of `c` and `c2`; `none` when a table read is out of range. -/
def mathSum (subtract useSub highRes : Bool) (c c2 fixed : Int) : Option (Int × Int) :=
  if subtract then
    if useSub then some (c - c2, c2)
    else if highRes then do
      let v ← color_clamp_lut_i20 (c2 - fixed)
      pure (c - fixed, (v : Int))
    else some (c - fixed, c2)
  else
    if useSub then some (c + c2, c2)
    else if highRes then do
      let v ← color_clamp_lut_i20 (c2 + fixed)
      pure (c + fixed, (v : Int))
    else some (c + fixed, c2)

/-- The colour math of `ppu_handlePixel` for one channel, when math is enabled
(snes_ppu.c:353-393): the add / subtract step, the halving (`half` is
`halfColor && (secondLayer != 5 || !addSubscreen)`) and the clamp through the table. -/
def mathClamp (subtract useSub highRes half : Bool) (c c2 fixed : Int) : Option (Int × Int) := do
  let p ← mathSum subtract useSub highRes c c2 fixed
  let v ← color_clamp_lut_i20 (if half then p.1 >>> (1 : Nat) else p.1)
  pure ((v : Int), p.2)

/-- One channel through `ppu_handlePixel` from the colour math to the end of the
`if(!ppu->forcedBlank)` block (snes_ppu.c:352-401); `avg` is `pseudoHires && mode < 5`. -/
def channelMath (mathEnabled subtract useSub highRes half avg : Bool) (c c2 fixed : Int) :
    Option (Int × Int) := do
  let p ← (if mathEnabled then mathClamp subtract useSub highRes half c c2 fixed
    else some (c, c2))
  let p := if avg then ((p.1 + p.2) >>> (1 : Nat), (p.1 + p.2) >>> (1 : Nat)) else p
  pure (if highRes = false then (p.1, p.1) else p)

/-- The brightness step `c = (c * bright_now) >> 16` (snes_ppu.c:408); the product is taken
in `uint32_t`. -/
def applyBrightness (ppu : Ppu) (c : Int) : Int :=
  (c * (ppu.bright_now : Int)) % 4294967296 / 65536

/-- The three channels `r`, `g`, `b` of `ppu_handlePixel` (snes_ppu.c:314-411) at the point
where they are packed into the output pixel; `none` when a table read is out of range. -/
def ppu_pixelChannels (env : PixelEnv) (ppu : Ppu) (x y : Nat) : Option (Int × Int × Int) :=
  if ppu.forcedBlank then some (0, 0, 0)
  else
    let main := ppu_getPixel env ppu x y false
    let colorWindowState := env.windowState ppu 5 x
    let clip := ppu.clipMode == 3 || (ppu.clipMode == 2 && colorWindowState) ||
      (ppu.clipMode == 1 && !colorWindowState)
    let halfColor := if clip && decide (ppu.clipMode < 3) then false else ppu.halfColor
    let mathEnabled := decide (main.layer < 6) && ppu.mathEnabled main.layer &&
      !(ppu.preventMathMode == 3 || (ppu.preventMathMode == 2 && colorWindowState) ||
        (ppu.preventMathMode == 1 && !colorWindowState))
    let bHighRes := ppu.pseudoHires || ppu.mode == 5 || ppu.mode == 6
    let fetch := (mathEnabled && ppu.addSubscreen) || bHighRes
    let second := ppu_getPixel env ppu x y true
    let secondLayer := if fetch then second.layer else 5
    let zero2 := !fetch || (bHighRes && clip)
    let useSub := ppu.addSubscreen && secondLayer != 5
    let half := halfColor && (secondLayer != 5 || !ppu.addSubscreen)
    let avg := ppu.pseudoHires && decide (ppu.mode < 5)
    do
      let r ← channelMath mathEnabled ppu.subtractColor useSub bHighRes half avg
        (if clip then 0 else main.r) (if zero2 then 0 else second.r) ppu.fixedColorR
      let g ← channelMath mathEnabled ppu.subtractColor useSub bHighRes half avg
        (if clip then 0 else main.g) (if zero2 then 0 else second.g) ppu.fixedColorG
      let b ← channelMath mathEnabled ppu.subtractColor useSub bHighRes half avg
        (if clip then 0 else main.b) (if zero2 then 0 else second.b) ppu.fixedColorB
      pure (applyBrightness ppu r.1, applyBrightness ppu g.1, applyBrightness ppu b.1)

/-- `ppu_handlePixel` (snes_ppu.c:314): the packed pixel is stored in the frame buffer at the
word of line `y - 1` of the current field, column `x`. -/
def ppu_handlePixel (env : PixelEnv) (ppu : Ppu) (x y : Nat) : Option Ppu := do
  let c ← ppu_pixelChannels env ppu x y
  let rgb565 := ((cAnd c.1 0x1f <<< 11) ||| (cAnd c.2.1 0x1f <<< 6) ||| cAnd c.2.2 0x1f) % 0x10000
  let dest := ((y - 1) + (if ppu.evenFrame then 0 else 239)) * 256 + x
  pure { ppu with pixelBuffer := fun i => if i = dest then rgb565 else ppu.pixelBuffer i }

/-- A pixel source that shows palette index 1 of BG1 everywhere and no window. -/
def demoPixelEnv : PixelEnv :=
  { windowState := fun _ _ _ => false, pickLayer := fun _ _ _ _ => (0, 1) }

/-! ## `ppu_evaluateSprites`

The two loops of `ppu_evaluateSprites` (snes_ppu.c:684): the scan of the 128 OAM entries
for the sprites on a line, and the fetch of their tile slivers.  `foundSprites` has 32
entries; a write outside them makes the scan return `none`. -/

/-- The table `spriteSizes` (snes_ppu.c:58). -/
def spriteSizes : List (List Nat) :=
  [[8, 16], [8, 32], [8, 64], [16, 32], [16, 64], [32, 64], [16, 32], [16, 32]]

/-- The size of the sprite at OAM word `index`:
`spriteSizes[objSize][(highOam[index >> 3] >> ((index & 7) + 1)) & 1]`. -/
def spriteSizeAt (ppu : Ppu) (index : Nat) : Nat :=
  (spriteSizes.getD ppu.objSize []).getD
    ((ppu.highOam (index >>> 3) >>> ((index &&& 7) + 1)) &&& 1) 0

/-- The x position of the sprite at OAM word `index`, with the high bit from `highOam`,
as a signed value (snes_ppu.c:699-701). -/
def spriteX (ppu : Ppu) (index : Nat) : Int :=
  let x := (ppu.oam index &&& 0xff) |||
    (((ppu.highOam (index >>> 3) >>> (index &&& 7)) &&& 1) <<< 8)
  if x > 255 then (x : Int) - 512 else (x : Int)

/-- The `uint8_t row = line - y` of the sprite at OAM word `index`. -/
def spriteRow (ppu : Ppu) (line : Int) (index : Nat) : Nat :=
  ((line - (((ppu.oam index >>> 8) % 256 : Nat) : Int)) % 256).toNat

/-- The two tests of the first loop: the sprite at `index` is in y-range and in x-range of
the line (snes_ppu.c:697, 703). -/
def spriteInRange (ppu : Ppu) (line : Int) (index : Nat) : Bool :=
  decide (spriteRow ppu line index <
    (if ppu.objInterlace then spriteSizeAt ppu index / 2 else spriteSizeAt ppu index)) &&
  (decide (spriteX ppu index > -(spriteSizeAt ppu index : Int)) ||
    decide (spriteX ppu index = -256))

/-- The variables of the first loop. -/
structure SpriteScan where
  index : Nat
  spritesFound : Nat
  foundSprites : Nat → Nat
  rangeOver : Bool

/-- The first loop of `ppu_evaluateSprites` (snes_ppu.c:691-713) for `n` more OAM entries;
`index` is a `uint8_t`.  The result is `none` when `foundSprites` is written outside its 32
entries. -/
def spriteScanLoop (ppu : Ppu) (line : Int) : Nat → SpriteScan → Option SpriteScan
  | 0, st => some st
  | n + 1, st =>
    if spriteInRange ppu line st.index then
      if st.spritesFound + 1 > 32 then
        some { st with spritesFound := 32, rangeOver := true }
      else if st.spritesFound + 1 - 1 < 32 then
        spriteScanLoop ppu line n
          { st with spritesFound := st.spritesFound + 1,
                    foundSprites := Function.update st.foundSprites (st.spritesFound + 1 - 1)
                      st.index,
                    index := (st.index + 2) % 256 }
      else none
    else spriteScanLoop ppu line n { st with index := (st.index + 2) % 256 }

/-- The first OAM word looked at: `objPriority ? (oamAdr & 0xfe) : 0`. -/
def spriteStartIndex (ppu : Ppu) : Nat :=
  if ppu.objPriority then (ppu.oamAdr &&& 0xfe) % 256 else 0

/-- The first loop of `ppu_evaluateSprites` from its initial values. -/
def spriteScan (ppu : Ppu) (line : Int) : Option SpriteScan :=
  spriteScanLoop ppu line 128
    { index := spriteStartIndex ppu, spritesFound := 0, foundSprites := fun _ => 0,
      rangeOver := ppu.rangeOver }

/-- The variables of the second loop, and `drawn`: the slivers fetched and drawn so far, each
as the OAM word of its sprite and its column. -/
structure SpriteDraw where
  tilesFound : Nat
  timeOver : Bool
  objPixelBuffer : Nat → Nat
  objPriorityBuffer : Nat → Nat
  drawn : List (Nat × Nat)

/-- One pixel of a sliver (the body of the `px` loop, snes_ppu.c:748-758). -/
def drawSliverPixel (ppu : Ppu) (index : Nat) (x : Int) (col plane1 plane2 : Nat)
    (st : SpriteDraw) (px : Nat) : SpriteDraw :=
  let attr := ppu.oam (index + 1)
  let palette := (attr &&& 0xe00) >>> 9
  let hFlipped := (attr &&& 0x4000) != 0
  let shift := if hFlipped then px else 7 - px
  let pixel := ((plane1 >>> shift) &&& 1) ||| (((plane1 >>> (8 + shift)) &&& 1) <<< 1) |||
    (((plane2 >>> shift) &&& 1) <<< 2) ||| (((plane2 >>> (8 + shift)) &&& 1) <<< 3)
  let screenCol : Int := (col : Int) + x + (px : Int)
  if pixel > 0 ∧ 0 ≤ screenCol ∧ screenCol < 256 then
    { st with
      objPixelBuffer := Function.update st.objPixelBuffer screenCol.toNat
        (0x80 + 16 * palette + pixel),
      objPriorityBuffer := Function.update st.objPriorityBuffer screenCol.toNat
        ((attr &&& 0x3000) >>> 12) }
  else st

/-- The fetch and drawing of one sliver (snes_ppu.c:741-759): column `col` of the sprite at
OAM word `index`, on sprite row `row`. -/
def drawSliver (ppu : Ppu) (index : Nat) (x : Int) (row spriteSize col : Nat)
    (st : SpriteDraw) : SpriteDraw :=
  let attr := ppu.oam (index + 1)
  let tile := attr &&& 0xff
  let hFlipped := (attr &&& 0x4000) != 0
  let usedCol := if hFlipped then spriteSize - 1 - col else col
  let usedTile := ((((tile >>> 4) + (row / 8)) <<< 4) |||
    (((tile &&& 0xf) + (usedCol / 8)) &&& 0xf)) % 256
  let objAdr := if (attr &&& 0x100) != 0 then ppu.objTileAdr2 else ppu.objTileAdr1
  let plane1 := ppu.vram ((objAdr + usedTile * 16 + (row &&& 0x7)) &&& 0x7fff)
  let plane2 := ppu.vram ((objAdr + usedTile * 16 + 8 + (row &&& 0x7)) &&& 0x7fff)
  (List.range 8).foldl (drawSliverPixel ppu index x col plane1 plane2)
    { st with drawn := st.drawn ++ [(index, col)] }

/-- The loop over the columns of one sprite (snes_ppu.c:734-761) for `n` more columns from
`col` on; it is left early when a 35th sliver is counted. -/
def spriteColumns (ppu : Ppu) (index : Nat) (x : Int) (row spriteSize : Nat) :
    Nat → Nat → SpriteDraw → SpriteDraw
  | 0, _, st => st
  | n + 1, col, st =>
    if (col : Int) + x > -8 ∧ (col : Int) + x < 256 then
      if st.tilesFound + 1 > 34 then
        { st with tilesFound := st.tilesFound + 1, timeOver := true }
      else
        spriteColumns ppu index x row spriteSize n (col + 8)
          (drawSliver ppu index x row spriteSize col
            { st with tilesFound := st.tilesFound + 1 })
    else spriteColumns ppu index x row spriteSize n (col + 8) st

/-- The sprite row used for the fetch: `row` after the obj-interlace and y-flip updates
(snes_ppu.c:727, 732), a `uint8_t`. -/
def spriteFetchRow (ppu : Ppu) (line : Int) (index : Nat) : Nat :=
  let row := spriteRow ppu line index
  let row := if ppu.objInterlace then (row * 2 + (if ppu.evenFrame then 0 else 1)) % 256
    else row
  if (ppu.oam (index + 1) &&& 0x8000) != 0 then
    (((spriteSizeAt ppu index : Int) - 1 - (row : Int)) % 256).toNat
  else row

/-- The second loop of `ppu_evaluateSprites` (snes_ppu.c:717-766), from `i` down to 1 over
the recorded sprites; the column loop `for(col = 0; col < spriteSize; col += 8)` runs
`(spriteSize + 7) / 8` times. -/
def spriteDrawLoop (ppu : Ppu) (line : Int) (foundSprites : Nat → Nat) :
    Nat → SpriteDraw → SpriteDraw
  | 0, st => st
  | i + 1, st =>
    let index := foundSprites i
    let spriteSize := spriteSizeAt ppu index
    let x := spriteX ppu index
    if x > -(spriteSize : Int) then
      let st1 := spriteColumns ppu index x (spriteFetchRow ppu line index) spriteSize
        ((spriteSize + 7) / 8) 0 st
      if st1.tilesFound > 34 then st1 else spriteDrawLoop ppu line foundSprites i st1
    else spriteDrawLoop ppu line foundSprites i st

/-- The second loop of `ppu_evaluateSprites` from its initial values, after the scan `sc`. -/
def spriteDraw (ppu : Ppu) (line : Int) (sc : SpriteScan) : SpriteDraw :=
  spriteDrawLoop ppu line sc.foundSprites sc.spritesFound
    { tilesFound := 0, timeOver := ppu.timeOver, objPixelBuffer := ppu.objPixelBuffer,
      objPriorityBuffer := ppu.objPriorityBuffer, drawn := [] }

/-- `ppu_evaluateSprites` (snes_ppu.c:684). -/
def ppu_evaluateSprites (ppu : Ppu) (line : Int) : Option Ppu := do
  let sc ← spriteScan ppu line
  let d := spriteDraw ppu line sc
  pure { ppu with rangeOver := sc.rangeOver, timeOver := d.timeOver,
                  objPixelBuffer := d.objPixelBuffer,
                  objPriorityBuffer := d.objPriorityBuffer }

/-- The in-range sprites of a line among `n` OAM entries from word `index` on, in the order
of the scan. -/
def inRangeSprites (ppu : Ppu) (line : Int) : Nat → Nat → List Nat
  | 0, _ => []
  | n + 1, index =>
    (if spriteInRange ppu line index then [index] else []) ++
      inRangeSprites ppu line n ((index + 2) % 256)

/-- The number of on-screen slivers (`-8 < col + x < 256`) among `n` columns of a sprite at
`x`, from column `col` on. -/
def onScreenColumns (x : Int) : Nat → Nat → Nat
  | 0, _ => 0
  | n + 1, col =>
    (if (col : Int) + x > -8 ∧ (col : Int) + x < 256 then 1 else 0) +
      onScreenColumns x n (col + 8)

/-- The number of on-screen slivers of the sprite at OAM word `index`. -/
def onScreenSlivers (ppu : Ppu) (index : Nat) : Nat :=
  if spriteX ppu index > -(spriteSizeAt ppu index : Int) then
    onScreenColumns (spriteX ppu index) ((spriteSizeAt ppu index + 7) / 8) 0
  else 0

/-- The number of on-screen slivers of the sprites in a list. -/
def sliverDemand (ppu : Ppu) (l : List Nat) : Nat := (l.map (onScreenSlivers ppu)).sum

/-- The on-screen slivers of the recorded sprites `foundSprites[0 .. i-1]`. -/
def sliverDemandUpTo (ppu : Ppu) (foundSprites : Nat → Nat) : Nat → Nat
  | 0 => 0
  | i + 1 => onScreenSlivers ppu (foundSprites i) + sliverDemandUpTo ppu foundSprites i


set_option linter.unusedTactic false
set_option linter.unreachableTactic false
set_option linter.unusedVariables false

/-! # Lemmas and theorems

## Running computations -/

section RunLemmas

variable {μ : Type}

@[simp] theorem run_pure {α : Type} (a : α) (s : Machine μ) :
    (pure a : CpuM μ α).run s = (a, s) := rfl

@[simp] theorem run_bind {α β : Type} (m : CpuM μ α) (f : α → CpuM μ β) (s : Machine μ) :
    (m >>= f).run s = (f (m.run s).1).run (m.run s).2 := rfl

@[simp] theorem run_getCpu (s : Machine μ) : (getCpu : CpuM μ Cpu).run s = (s.cpu, s) := rfl

@[simp] theorem run_modifyCpu (f : Cpu → Cpu) (s : Machine μ) :
    (modifyCpu f : CpuM μ Unit).run s = ((), { s with cpu := f s.cpu }) := rfl

theorem run_ite {α : Type} (c : Prop) [Decidable c] (m1 m2 : CpuM μ α) (s : Machine μ) :
    (if c then m1 else m2).run s = if c then m1.run s else m2.run s := by
  split <;> rfl

end RunLemmas

/-! ## Bit-mask facts -/

set_option maxRecDepth 20000 in
theorem byte_and_ff00 {v : Nat} (hv : v < 256) : v &&& 0xff00 = 0 := by
  have key : ∀ b, b < 256 → b &&& 0xff00 = 0 := by decide
  exact key v hv

set_option maxRecDepth 20000 in
theorem byte_or_100 {v : Nat} (hv : v < 256) : (v ||| 0x100) &&& 0xff00 = 0x100 := by
  have key : ∀ b, b < 256 → (b ||| 0x100) &&& 0xff00 = 0x100 := by decide
  exact key v hv

theorem and_ff_lt (a : Nat) : a &&& 0xff < 256 :=
  Nat.and_lt_two_pow a (by decide : 0xff < 2 ^ 8)

theorem and_ff_and_ff00 (a : Nat) : (a &&& 0xff) &&& 0xff00 = 0 := byte_and_ff00 (and_ff_lt a)

theorem page1_of_or (a : Nat) : ((a &&& 0xff) ||| 0x100) &&& 0xff00 = 0x100 :=
  byte_or_100 (and_ff_lt a)

theorem cAnd_ff_and_ff00 (i : Int) : cAnd i 0xff &&& 0xff00 = 0 := by
  unfold cAnd; exact and_ff_and_ff00 _

/-! ## The width invariant

`Inv` is the conjunction of the emulation-mode invariant and the index-width
invariant.  It only depends on six fields of the register file (`coreOf`). -/

/-- The fields the width invariant speaks about. -/
structure Core where
  e : Bool
  mf : Bool
  xf : Bool
  sp : Nat
  x : Nat
  y : Nat

/-- Projection of the register file onto the fields of `Core`. -/
def coreOf (c : Cpu) : Core := ⟨c.e, c.mf, c.xf, c.sp, c.x, c.y⟩

/-- Emulation mode forces 8-bit registers and a page-1 stack; 8-bit index
mode forces the high bytes of X and Y to zero. -/
def Inv (c : Cpu) : Prop :=
  (c.e = true → c.mf = true ∧ c.xf = true ∧ c.sp &&& 0xff00 = 0x100) ∧
  (c.xf = true → c.x &&& 0xff00 = 0 ∧ c.y &&& 0xff00 = 0)

/-- The invariant in a state with 16-bit index registers. -/
def InvNX (c : Cpu) : Prop := Inv c ∧ c.xf = false

/-- A predicate that only depends on the `Core` fields. -/
class CoreInv (I : Cpu → Prop) : Prop where
  core : ∀ c c2, coreOf c2 = coreOf c → I c → I c2

/-- A predicate kept by any assignment to SP that is followed by the
emulation-mode page-1 fix-up of `cpu_pushByte` / `cpu_pullByte`. -/
class SpInv (I : Cpu → Prop) : Prop where
  sp : ∀ (c : Cpu) (v : Nat), I c →
    I (if c.e = true then { c with sp := (v &&& 0xff) ||| 0x100 } else { c with sp := v })

theorem inv_of_core {c c2 : Cpu} (hc : coreOf c2 = coreOf c) (hi : Inv c) : Inv c2 := by
  simp only [coreOf, Core.mk.injEq] at hc
  obtain ⟨h1, h2, h3, h4, h5, h6⟩ := hc
  simp only [Inv, h1, h2, h3, h4, h5, h6]; exact hi

instance coreInv_inv : CoreInv Inv := ⟨fun _ _ hc hi => inv_of_core hc hi⟩

instance coreInv_invNX : CoreInv InvNX := ⟨fun c c2 hc hi => ⟨inv_of_core hc hi.1, by
  have hx : c2.xf = c.xf := congrArg Core.xf hc
  rw [hx]; exact hi.2⟩⟩

instance spInv_inv : SpInv Inv := ⟨fun c v hi => by
  obtain ⟨h1, h2⟩ := hi
  by_cases he : c.e = true
  · rw [if_pos he]
    exact ⟨fun _ => ⟨(h1 he).1, (h1 he).2.1, page1_of_or v⟩, h2⟩
  · rw [if_neg he]
    exact ⟨fun h => absurd h he, h2⟩⟩

instance spInv_invNX : SpInv InvNX := ⟨fun c v hi => by
  obtain ⟨⟨h1, h2⟩, h3⟩ := hi
  have he : ¬ c.e = true := fun he => by
    have := (h1 he).2.1
    rw [h3] at this
    exact Bool.noConfusion this
  rw [if_neg he]
  exact ⟨⟨fun h => absurd h he, h2⟩, h3⟩⟩

theorem applyCalls_core (c : Cpu) (l : List CpuCall) : coreOf (applyCalls c l) = coreOf c := by
  induction l generalizing c with
  | nil => rfl
  | cons a l ih =>
    simp only [applyCalls, List.foldl_cons] at ih ⊢
    rw [ih]; cases a <;> rfl

/-- Preservation of a predicate on the register file by a computation. -/
structure Holds {μ α : Type} (I : Cpu → Prop) (m : CpuM μ α) : Prop where
  inv : ∀ s, I s.cpu → I (m.run s).2.cpu

section Preservation

variable {μ : Type} (h : Handlers μ) {I : Cpu → Prop}

theorem holds_pure {α : Type} (a : α) : Holds I (pure a : CpuM μ α) := ⟨fun _ hs => hs⟩

theorem holds_bind {α β : Type} {m : CpuM μ α} {f : α → CpuM μ β} (hm : Holds I m)
    (hf : ∀ a, Holds I (f a)) : Holds I (m >>= f) := ⟨fun s hs => (hf _).inv _ (hm.inv s hs)⟩

theorem holds_ite {α : Type} {c : Prop} [Decidable c] {m1 m2 : CpuM μ α} (h1 : Holds I m1)
    (h2 : Holds I m2) : Holds I (if c then m1 else m2) := by split <;> assumption

theorem holds_getCpu : Holds I (getCpu : CpuM μ Cpu) := ⟨fun _ hs => hs⟩

theorem holds_modify {f : Cpu → Cpu} (hf : ∀ c, I c → I (f c)) :
    Holds I (modifyCpu f : CpuM μ Unit) := ⟨fun _ hs => hf _ hs⟩

theorem holds_modify_core [CoreInv I] {f : Cpu → Cpu} (hf : ∀ c, coreOf (f c) = coreOf c) :
    Holds I (modifyCpu f : CpuM μ Unit) := ⟨fun s hs => CoreInv.core _ _ (hf s.cpu) hs⟩

theorem holds_read [CoreInv I] (adr : Nat) : Holds I (cpu_read h adr) :=
  ⟨fun s hs => CoreInv.core _ _ (applyCalls_core _ _) (CoreInv.core s.cpu { s.cpu with intDelay := false } rfl hs)⟩

theorem holds_write [CoreInv I] (adr val : Nat) : Holds I (cpu_write h adr val) :=
  ⟨fun s hs => CoreInv.core _ _ (applyCalls_core _ _) (CoreInv.core s.cpu { s.cpu with intDelay := false } rfl hs)⟩

theorem holds_idle [CoreInv I] : Holds I (cpu_idle h) :=
  ⟨fun s hs => CoreInv.core _ _ (applyCalls_core _ _) (CoreInv.core s.cpu { s.cpu with intDelay := false } rfl hs)⟩

theorem holds_idleWait [CoreInv I] : Holds I (cpu_idleWait h) :=
  ⟨fun s hs => CoreInv.core _ _ (applyCalls_core _ _) (CoreInv.core s.cpu { s.cpu with intDelay := false } rfl hs)⟩

theorem holds_checkInt [CoreInv I] : Holds I (cpu_checkInt : CpuM μ Unit) :=
  holds_modify_core (fun _ => rfl)

theorem holds_setZN [CoreInv I] (value : Nat) (byte : Bool) :
    Holds I (cpu_setZN value byte : CpuM μ Unit) := by
  unfold cpu_setZN
  exact holds_modify_core (fun _ => by split <;> rfl)

theorem holds_pullByte [CoreInv I] [SpInv I] : Holds I (cpu_pullByte h) :=
  ⟨fun s hs => (holds_read h _).inv _ (SpInv.sp s.cpu (inc16 s.cpu.sp) hs)⟩

theorem holds_spFix [SpInv I] (g : Cpu → Nat) :
    Holds I ((modifyCpu (fun c => { c with sp := g c }) >>= fun _ =>
      modifyCpu (fun c => if c.e then { c with sp := (c.sp &&& 0xff) ||| 0x100 } else c)) : CpuM μ Unit) := by
  constructor
  intro s hs
  have key := SpInv.sp s.cpu (g s.cpu) hs
  simp only [run_bind, run_modifyCpu]
  exact key

theorem holds_pushByte [CoreInv I] [SpInv I] (value : Nat) : Holds I (cpu_pushByte h value) := by
  unfold cpu_pushByte
  exact holds_bind holds_getCpu (fun cpu => holds_bind (holds_write h _ _) (fun _ => holds_spFix _))

/-! The CPU functions are kept folded while the preservation lemmas are assembled. -/

attribute [local irreducible] blockMoveRegs getCpu modifyCpu cpu_read cpu_write cpu_idle cpu_idleWait cpu_checkInt cpu_setZN cpu_setFlags cpu_readOpcode cpu_readOpcodeWord cpu_doBranch cpu_pullByte cpu_pushByte cpu_pullWord cpu_pushWord cpu_readWord cpu_writeWord cpu_doInterrupt cpu_adrImp cpu_adrImm cpu_adrDp cpu_adrDpx cpu_adrDpy cpu_adrIdp cpu_adrIdx cpu_adrIdy cpu_adrIdl cpu_adrIly cpu_adrSr cpu_adrIsy cpu_adrAbs cpu_adrAbx cpu_adrAby cpu_adrAbl cpu_adrAlx cpu_and cpu_ora cpu_eor cpu_adc cpu_sbc cpu_cmp cpu_cpx cpu_cpy cpu_bit cpu_lda cpu_ldx cpu_ldy cpu_sta cpu_stx cpu_sty cpu_stz cpu_ror cpu_rol cpu_lsr cpu_asl cpu_inc cpu_dec cpu_tsb cpu_trb

theorem holds_readOpcode [CoreInv I] :
    Holds I (cpu_readOpcode h) := by
  unfold cpu_readOpcode
  repeat' first
    | intro _
    | exact holds_pure _
    | exact holds_getCpu
    | exact holds_read h _
    | exact holds_write h _ _
    | exact holds_idle h
    | exact holds_idleWait h
    | exact holds_checkInt
    | exact holds_setZN _ _
    | exact holds_pullByte h
    | exact holds_pushByte h _
    | apply holds_ite
    | apply holds_bind
    | exact holds_modify_core (fun _ => rfl)
    | (refine holds_modify_core (fun _ => ?_); split <;> rfl)

theorem holds_readOpcodeWord [CoreInv I] (intCheck : Bool) :
    Holds I (cpu_readOpcodeWord h intCheck) := by
  unfold cpu_readOpcodeWord
  repeat' first
    | intro _
    | exact holds_pure _
    | exact holds_getCpu
    | exact holds_read h _
    | exact holds_write h _ _
    | exact holds_idle h
    | exact holds_idleWait h
    | exact holds_checkInt
    | exact holds_setZN _ _
    | exact holds_pullByte h
    | exact holds_pushByte h _
    | exact holds_readOpcode h
    | apply holds_ite
    | apply holds_bind
    | exact holds_modify_core (fun _ => rfl)
    | (refine holds_modify_core (fun _ => ?_); split <;> rfl)

theorem holds_doBranch [CoreInv I] (check : Bool) :
    Holds I (cpu_doBranch h check) := by
  unfold cpu_doBranch
  repeat' first
    | intro _
    | exact holds_pure _
    | exact holds_getCpu
    | exact holds_read h _
    | exact holds_write h _ _
    | exact holds_idle h
    | exact holds_idleWait h
    | exact holds_checkInt
    | exact holds_setZN _ _
    | exact holds_pullByte h
    | exact holds_pushByte h _
    | exact holds_readOpcode h
    | exact holds_readOpcodeWord h _
    | apply holds_ite
    | apply holds_bind
    | exact holds_modify_core (fun _ => rfl)
    | (refine holds_modify_core (fun _ => ?_); split <;> rfl)

theorem holds_readWord [CoreInv I] (adrl : Nat) (adrh : Nat) (intCheck : Bool) :
    Holds I (cpu_readWord h adrl adrh intCheck) := by
  unfold cpu_readWord
  repeat' first
    | intro _
    | exact holds_pure _
    | exact holds_getCpu
    | exact holds_read h _
    | exact holds_write h _ _
    | exact holds_idle h
    | exact holds_idleWait h
    | exact holds_checkInt
    | exact holds_setZN _ _
    | exact holds_pullByte h
    | exact holds_pushByte h _
    | exact holds_readOpcode h
    | exact holds_readOpcodeWord h _
    | exact holds_doBranch h _
    | apply holds_ite
    | apply holds_bind
    | exact holds_modify_core (fun _ => rfl)
    | (refine holds_modify_core (fun _ => ?_); split <;> rfl)

theorem holds_writeWord [CoreInv I] (adrl : Nat) (adrh : Nat) (value : Nat) (reversed : Bool) (intCheck : Bool) :
    Holds I (cpu_writeWord h adrl adrh value reversed intCheck) := by
  unfold cpu_writeWord
  repeat' first
    | intro _
    | exact holds_pure _
    | exact holds_getCpu
    | exact holds_read h _
    | exact holds_write h _ _
    | exact holds_idle h
    | exact holds_idleWait h
    | exact holds_checkInt
    | exact holds_setZN _ _
    | exact holds_pullByte h
    | exact holds_pushByte h _
    | exact holds_readOpcode h
    | exact holds_readOpcodeWord h _
    | exact holds_doBranch h _
    | exact holds_readWord h _ _ _
    | apply holds_ite
    | apply holds_bind
    | exact holds_modify_core (fun _ => rfl)
    | (refine holds_modify_core (fun _ => ?_); split <;> rfl)

theorem holds_pullWord [CoreInv I] [SpInv I] (intCheck : Bool) :
    Holds I (cpu_pullWord h intCheck) := by
  unfold cpu_pullWord
  repeat' first
    | intro _
    | exact holds_pure _
    | exact holds_getCpu
    | exact holds_read h _
    | exact holds_write h _ _
    | exact holds_idle h
    | exact holds_idleWait h
    | exact holds_checkInt
    | exact holds_setZN _ _
    | exact holds_pullByte h
    | exact holds_pushByte h _
    | exact holds_readOpcode h
    | exact holds_readOpcodeWord h _
    | exact holds_doBranch h _
    | exact holds_readWord h _ _ _
    | exact holds_writeWord h _ _ _ _ _
    | apply holds_ite
    | apply holds_bind
    | exact holds_modify_core (fun _ => rfl)
    | (refine holds_modify_core (fun _ => ?_); split <;> rfl)

theorem holds_pushWord [CoreInv I] [SpInv I] (value : Nat) (intCheck : Bool) :
    Holds I (cpu_pushWord h value intCheck) := by
  unfold cpu_pushWord
  repeat' first
    | intro _
    | exact holds_pure _
    | exact holds_getCpu
    | exact holds_read h _
    | exact holds_write h _ _
    | exact holds_idle h
    | exact holds_idleWait h
    | exact holds_checkInt
    | exact holds_setZN _ _
    | exact holds_pullByte h
    | exact holds_pushByte h _
    | exact holds_readOpcode h
    | exact holds_readOpcodeWord h _
    | exact holds_doBranch h _
    | exact holds_readWord h _ _ _
    | exact holds_writeWord h _ _ _ _ _
    | exact holds_pullWord h _
    | apply holds_ite
    | apply holds_bind
    | exact holds_modify_core (fun _ => rfl)
    | (refine holds_modify_core (fun _ => ?_); split <;> rfl)

theorem holds_doInterrupt [CoreInv I] [SpInv I] :
    Holds I (cpu_doInterrupt h) := by
  unfold cpu_doInterrupt
  repeat' first
    | intro _
    | exact holds_pure _
    | exact holds_getCpu
    | exact holds_read h _
    | exact holds_write h _ _
    | exact holds_idle h
    | exact holds_idleWait h
    | exact holds_checkInt
    | exact holds_setZN _ _
    | exact holds_pullByte h
    | exact holds_pushByte h _
    | exact holds_readOpcode h
    | exact holds_readOpcodeWord h _
    | exact holds_doBranch h _
    | exact holds_readWord h _ _ _
    | exact holds_writeWord h _ _ _ _ _
    | exact holds_pullWord h _
    | exact holds_pushWord h _ _
    | apply holds_ite
    | apply holds_bind
    | exact holds_modify_core (fun _ => rfl)
    | (refine holds_modify_core (fun _ => ?_); split <;> rfl)

theorem holds_adrImp [CoreInv I] :
    Holds I (cpu_adrImp h) := by
  unfold cpu_adrImp
  repeat' first
    | intro _
    | exact holds_pure _
    | exact holds_getCpu
    | exact holds_read h _
    | exact holds_write h _ _
    | exact holds_idle h
    | exact holds_idleWait h
    | exact holds_checkInt
    | exact holds_setZN _ _
    | exact holds_pullByte h
    | exact holds_pushByte h _
    | exact holds_readOpcode h
    | exact holds_readOpcodeWord h _
    | exact holds_doBranch h _
    | exact holds_readWord h _ _ _
    | exact holds_writeWord h _ _ _ _ _
    | exact holds_pullWord h _
    | exact holds_pushWord h _ _
    | exact holds_doInterrupt h
    | apply holds_ite
    | apply holds_bind
    | exact holds_modify_core (fun _ => rfl)
    | (refine holds_modify_core (fun _ => ?_); split <;> rfl)

theorem holds_adrImm [CoreInv I] (xFlag : Bool) :
    Holds I ((cpu_adrImm xFlag : CpuM μ (Nat × Nat))) := by
  unfold cpu_adrImm
  repeat' first
    | intro _
    | exact holds_pure _
    | exact holds_getCpu
    | exact holds_read h _
    | exact holds_write h _ _
    | exact holds_idle h
    | exact holds_idleWait h
    | exact holds_checkInt
    | exact holds_setZN _ _
    | exact holds_pullByte h
    | exact holds_pushByte h _
    | exact holds_readOpcode h
    | exact holds_readOpcodeWord h _
    | exact holds_doBranch h _
    | exact holds_readWord h _ _ _
    | exact holds_writeWord h _ _ _ _ _
    | exact holds_pullWord h _
    | exact holds_pushWord h _ _
    | exact holds_doInterrupt h
    | exact holds_adrImp h
    | apply holds_ite
    | apply holds_bind
    | exact holds_modify_core (fun _ => rfl)
    | (refine holds_modify_core (fun _ => ?_); split <;> rfl)

theorem holds_adrDp [CoreInv I] :
    Holds I (cpu_adrDp h) := by
  unfold cpu_adrDp
  repeat' first
    | intro _
    | exact holds_pure _
    | exact holds_getCpu
    | exact holds_read h _
    | exact holds_write h _ _
    | exact holds_idle h
    | exact holds_idleWait h
    | exact holds_checkInt
    | exact holds_setZN _ _
    | exact holds_pullByte h
    | exact holds_pushByte h _
    | exact holds_readOpcode h
    | exact holds_readOpcodeWord h _
    | exact holds_doBranch h _
    | exact holds_readWord h _ _ _
    | exact holds_writeWord h _ _ _ _ _
    | exact holds_pullWord h _
    | exact holds_pushWord h _ _
    | exact holds_doInterrupt h
    | exact holds_adrImp h
    | exact holds_adrImm _
    | apply holds_ite
    | apply holds_bind
    | exact holds_modify_core (fun _ => rfl)
    | (refine holds_modify_core (fun _ => ?_); split <;> rfl)

theorem holds_adrDpx [CoreInv I] :
    Holds I (cpu_adrDpx h) := by
  unfold cpu_adrDpx
  repeat' first
    | intro _
    | exact holds_pure _
    | exact holds_getCpu
    | exact holds_read h _
    | exact holds_write h _ _
    | exact holds_idle h
    | exact holds_idleWait h
    | exact holds_checkInt
    | exact holds_setZN _ _
    | exact holds_pullByte h
    | exact holds_pushByte h _
    | exact holds_readOpcode h
    | exact holds_readOpcodeWord h _
    | exact holds_doBranch h _
    | exact holds_readWord h _ _ _
    | exact holds_writeWord h _ _ _ _ _
    | exact holds_pullWord h _
    | exact holds_pushWord h _ _
    | exact holds_doInterrupt h
    | exact holds_adrImp h
    | exact holds_adrImm _
    | exact holds_adrDp h
    | apply holds_ite
    | apply holds_bind
    | exact holds_modify_core (fun _ => rfl)
    | (refine holds_modify_core (fun _ => ?_); split <;> rfl)

theorem holds_adrDpy [CoreInv I] :
    Holds I (cpu_adrDpy h) := by
  unfold cpu_adrDpy
  repeat' first
    | intro _
    | exact holds_pure _
    | exact holds_getCpu
    | exact holds_read h _
    | exact holds_write h _ _
    | exact holds_idle h
    | exact holds_idleWait h
    | exact holds_checkInt
    | exact holds_setZN _ _
    | exact holds_pullByte h
    | exact holds_pushByte h _
    | exact holds_readOpcode h
    | exact holds_readOpcodeWord h _
    | exact holds_doBranch h _
    | exact holds_readWord h _ _ _
    | exact holds_writeWord h _ _ _ _ _
    | exact holds_pullWord h _
    | exact holds_pushWord h _ _
    | exact holds_doInterrupt h
    | exact holds_adrImp h
    | exact holds_adrImm _
    | exact holds_adrDp h
    | exact holds_adrDpx h
    | apply holds_ite
    | apply holds_bind
    | exact holds_modify_core (fun _ => rfl)
    | (refine holds_modify_core (fun _ => ?_); split <;> rfl)

theorem holds_adrIdp [CoreInv I] :
    Holds I (cpu_adrIdp h) := by
  unfold cpu_adrIdp
  repeat' first
    | intro _
    | exact holds_pure _
    | exact holds_getCpu
    | exact holds_read h _
    | exact holds_write h _ _
    | exact holds_idle h
    | exact holds_idleWait h
    | exact holds_checkInt
    | exact holds_setZN _ _
    | exact holds_pullByte h
    | exact holds_pushByte h _
    | exact holds_readOpcode h
    | exact holds_readOpcodeWord h _
    | exact holds_doBranch h _
    | exact holds_readWord h _ _ _
    | exact holds_writeWord h _ _ _ _ _
    | exact holds_pullWord h _
    | exact holds_pushWord h _ _
    | exact holds_doInterrupt h
    | exact holds_adrImp h
    | exact holds_adrImm _
    | exact holds_adrDp h
    | exact holds_adrDpx h
    | exact holds_adrDpy h
    | apply holds_ite
    | apply holds_bind
    | exact holds_modify_core (fun _ => rfl)
    | (refine holds_modify_core (fun _ => ?_); split <;> rfl)

theorem holds_adrIdx [CoreInv I] :
    Holds I (cpu_adrIdx h) := by
  unfold cpu_adrIdx
  repeat' first
    | intro _
    | exact holds_pure _
    | exact holds_getCpu
    | exact holds_read h _
    | exact holds_write h _ _
    | exact holds_idle h
    | exact holds_idleWait h
    | exact holds_checkInt
    | exact holds_setZN _ _
    | exact holds_pullByte h
    | exact holds_pushByte h _
    | exact holds_readOpcode h
    | exact holds_readOpcodeWord h _
    | exact holds_doBranch h _
    | exact holds_readWord h _ _ _
    | exact holds_writeWord h _ _ _ _ _
    | exact holds_pullWord h _
    | exact holds_pushWord h _ _
    | exact holds_doInterrupt h
    | exact holds_adrImp h
    | exact holds_adrImm _
    | exact holds_adrDp h
    | exact holds_adrDpx h
    | exact holds_adrDpy h
    | exact holds_adrIdp h
    | apply holds_ite
    | apply holds_bind
    | exact holds_modify_core (fun _ => rfl)
    | (refine holds_modify_core (fun _ => ?_); split <;> rfl)

theorem holds_adrIdy [CoreInv I] (write : Bool) :
    Holds I (cpu_adrIdy h write) := by
  unfold cpu_adrIdy
  repeat' first
    | intro _
    | exact holds_pure _
    | exact holds_getCpu
    | exact holds_read h _
    | exact holds_write h _ _
    | exact holds_idle h
    | exact holds_idleWait h
    | exact holds_checkInt
    | exact holds_setZN _ _
    | exact holds_pullByte h
    | exact holds_pushByte h _
    | exact holds_readOpcode h
    | exact holds_readOpcodeWord h _
    | exact holds_doBranch h _
    | exact holds_readWord h _ _ _
    | exact holds_writeWord h _ _ _ _ _
    | exact holds_pullWord h _
    | exact holds_pushWord h _ _
    | exact holds_doInterrupt h
    | exact holds_adrImp h
    | exact holds_adrImm _
    | exact holds_adrDp h
    | exact holds_adrDpx h
    | exact holds_adrDpy h
    | exact holds_adrIdp h
    | exact holds_adrIdx h
    | apply holds_ite
    | apply holds_bind
    | exact holds_modify_core (fun _ => rfl)
    | (refine holds_modify_core (fun _ => ?_); split <;> rfl)

theorem holds_adrIdl [CoreInv I] :
    Holds I (cpu_adrIdl h) := by
  unfold cpu_adrIdl
  repeat' first
    | intro _
    | exact holds_pure _
    | exact holds_getCpu
    | exact holds_read h _
    | exact holds_write h _ _
    | exact holds_idle h
    | exact holds_idleWait h
    | exact holds_checkInt
    | exact holds_setZN _ _
    | exact holds_pullByte h
    | exact holds_pushByte h _
    | exact holds_readOpcode h
    | exact holds_readOpcodeWord h _
    | exact holds_doBranch h _
    | exact holds_readWord h _ _ _
    | exact holds_writeWord h _ _ _ _ _
    | exact holds_pullWord h _
    | exact holds_pushWord h _ _
    | exact holds_doInterrupt h
    | exact holds_adrImp h
    | exact holds_adrImm _
    | exact holds_adrDp h
    | exact holds_adrDpx h
    | exact holds_adrDpy h
    | exact holds_adrIdp h
    | exact holds_adrIdx h
    | exact holds_adrIdy h _
    | apply holds_ite
    | apply holds_bind
    | exact holds_modify_core (fun _ => rfl)
    | (refine holds_modify_core (fun _ => ?_); split <;> rfl)

theorem holds_adrIly [CoreInv I] :
    Holds I (cpu_adrIly h) := by
  unfold cpu_adrIly
  repeat' first
    | intro _
    | exact holds_pure _
    | exact holds_getCpu
    | exact holds_read h _
    | exact holds_write h _ _
    | exact holds_idle h
    | exact holds_idleWait h
    | exact holds_checkInt
    | exact holds_setZN _ _
    | exact holds_pullByte h
    | exact holds_pushByte h _
    | exact holds_readOpcode h
    | exact holds_readOpcodeWord h _
    | exact holds_doBranch h _
    | exact holds_readWord h _ _ _
    | exact holds_writeWord h _ _ _ _ _
    | exact holds_pullWord h _
    | exact holds_pushWord h _ _
    | exact holds_doInterrupt h
    | exact holds_adrImp h
    | exact holds_adrImm _
    | exact holds_adrDp h
    | exact holds_adrDpx h
    | exact holds_adrDpy h
    | exact holds_adrIdp h
    | exact holds_adrIdx h
    | exact holds_adrIdy h _
    | exact holds_adrIdl h
    | apply holds_ite
    | apply holds_bind
    | exact holds_modify_core (fun _ => rfl)
    | (refine holds_modify_core (fun _ => ?_); split <;> rfl)

theorem holds_adrSr [CoreInv I] :
    Holds I (cpu_adrSr h) := by
  unfold cpu_adrSr
  repeat' first
    | intro _
    | exact holds_pure _
    | exact holds_getCpu
    | exact holds_read h _
    | exact holds_write h _ _
    | exact holds_idle h
    | exact holds_idleWait h
    | exact holds_checkInt
    | exact holds_setZN _ _
    | exact holds_pullByte h
    | exact holds_pushByte h _
    | exact holds_readOpcode h
    | exact holds_readOpcodeWord h _
    | exact holds_doBranch h _
    | exact holds_readWord h _ _ _
    | exact holds_writeWord h _ _ _ _ _
    | exact holds_pullWord h _
    | exact holds_pushWord h _ _
    | exact holds_doInterrupt h
    | exact holds_adrImp h
    | exact holds_adrImm _
    | exact holds_adrDp h
    | exact holds_adrDpx h
    | exact holds_adrDpy h
    | exact holds_adrIdp h
    | exact holds_adrIdx h
    | exact holds_adrIdy h _
    | exact holds_adrIdl h
    | exact holds_adrIly h
    | apply holds_ite
    | apply holds_bind
    | exact holds_modify_core (fun _ => rfl)
    | (refine holds_modify_core (fun _ => ?_); split <;> rfl)

theorem holds_adrIsy [CoreInv I] :
    Holds I (cpu_adrIsy h) := by
  unfold cpu_adrIsy
  repeat' first
    | intro _
    | exact holds_pure _
    | exact holds_getCpu
    | exact holds_read h _
    | exact holds_write h _ _
    | exact holds_idle h
    | exact holds_idleWait h
    | exact holds_checkInt
    | exact holds_setZN _ _
    | exact holds_pullByte h
    | exact holds_pushByte h _
    | exact holds_readOpcode h
    | exact holds_readOpcodeWord h _
    | exact holds_doBranch h _
    | exact holds_readWord h _ _ _
    | exact holds_writeWord h _ _ _ _ _
    | exact holds_pullWord h _
    | exact holds_pushWord h _ _
    | exact holds_doInterrupt h
    | exact holds_adrImp h
    | exact holds_adrImm _
    | exact holds_adrDp h
    | exact holds_adrDpx h
    | exact holds_adrDpy h
    | exact holds_adrIdp h
    | exact holds_adrIdx h
    | exact holds_adrIdy h _
    | exact holds_adrIdl h
    | exact holds_adrIly h
    | exact holds_adrSr h
    | apply holds_ite
    | apply holds_bind
    | exact holds_modify_core (fun _ => rfl)
    | (refine holds_modify_core (fun _ => ?_); split <;> rfl)

theorem holds_adrAbs [CoreInv I] :
    Holds I (cpu_adrAbs h) := by
  unfold cpu_adrAbs
  repeat' first
    | intro _
    | exact holds_pure _
    | exact holds_getCpu
    | exact holds_read h _
    | exact holds_write h _ _
    | exact holds_idle h
    | exact holds_idleWait h
    | exact holds_checkInt
    | exact holds_setZN _ _
    | exact holds_pullByte h
    | exact holds_pushByte h _
    | exact holds_readOpcode h
    | exact holds_readOpcodeWord h _
    | exact holds_doBranch h _
    | exact holds_readWord h _ _ _
    | exact holds_writeWord h _ _ _ _ _
    | exact holds_pullWord h _
    | exact holds_pushWord h _ _
    | exact holds_doInterrupt h
    | exact holds_adrImp h
    | exact holds_adrImm _
    | exact holds_adrDp h
    | exact holds_adrDpx h
    | exact holds_adrDpy h
    | exact holds_adrIdp h
    | exact holds_adrIdx h
    | exact holds_adrIdy h _
    | exact holds_adrIdl h
    | exact holds_adrIly h
    | exact holds_adrSr h
    | exact holds_adrIsy h
    | apply holds_ite
    | apply holds_bind
    | exact holds_modify_core (fun _ => rfl)
    | (refine holds_modify_core (fun _ => ?_); split <;> rfl)

theorem holds_adrAbx [CoreInv I] (write : Bool) :
    Holds I (cpu_adrAbx h write) := by
  unfold cpu_adrAbx
  repeat' first
    | intro _
    | exact holds_pure _
    | exact holds_getCpu
    | exact holds_read h _
    | exact holds_write h _ _
    | exact holds_idle h
    | exact holds_idleWait h
    | exact holds_checkInt
    | exact holds_setZN _ _
    | exact holds_pullByte h
    | exact holds_pushByte h _
    | exact holds_readOpcode h
    | exact holds_readOpcodeWord h _
    | exact holds_doBranch h _
    | exact holds_readWord h _ _ _
    | exact holds_writeWord h _ _ _ _ _
    | exact holds_pullWord h _
    | exact holds_pushWord h _ _
    | exact holds_doInterrupt h
    | exact holds_adrImp h
    | exact holds_adrImm _
    | exact holds_adrDp h
    | exact holds_adrDpx h
    | exact holds_adrDpy h
    | exact holds_adrIdp h
    | exact holds_adrIdx h
    | exact holds_adrIdy h _
    | exact holds_adrIdl h
    | exact holds_adrIly h
    | exact holds_adrSr h
    | exact holds_adrIsy h
    | exact holds_adrAbs h
    | apply holds_ite
    | apply holds_bind
    | exact holds_modify_core (fun _ => rfl)
    | (refine holds_modify_core (fun _ => ?_); split <;> rfl)

theorem holds_adrAby [CoreInv I] (write : Bool) :
    Holds I (cpu_adrAby h write) := by
  unfold cpu_adrAby
  repeat' first
    | intro _
    | exact holds_pure _
    | exact holds_getCpu
    | exact holds_read h _
    | exact holds_write h _ _
    | exact holds_idle h
    | exact holds_idleWait h
    | exact holds_checkInt
    | exact holds_setZN _ _
    | exact holds_pullByte h
    | exact holds_pushByte h _
    | exact holds_readOpcode h
    | exact holds_readOpcodeWord h _
    | exact holds_doBranch h _
    | exact holds_readWord h _ _ _
    | exact holds_writeWord h _ _ _ _ _
    | exact holds_pullWord h _
    | exact holds_pushWord h _ _
    | exact holds_doInterrupt h
    | exact holds_adrImp h
    | exact holds_adrImm _
    | exact holds_adrDp h
    | exact holds_adrDpx h
    | exact holds_adrDpy h
    | exact holds_adrIdp h
    | exact holds_adrIdx h
    | exact holds_adrIdy h _
    | exact holds_adrIdl h
    | exact holds_adrIly h
    | exact holds_adrSr h
    | exact holds_adrIsy h
    | exact holds_adrAbs h
    | exact holds_adrAbx h _
    | apply holds_ite
    | apply holds_bind
    | exact holds_modify_core (fun _ => rfl)
    | (refine holds_modify_core (fun _ => ?_); split <;> rfl)

theorem holds_adrAbl [CoreInv I] :
    Holds I (cpu_adrAbl h) := by
  unfold cpu_adrAbl
  repeat' first
    | intro _
    | exact holds_pure _
    | exact holds_getCpu
    | exact holds_read h _
    | exact holds_write h _ _
    | exact holds_idle h
    | exact holds_idleWait h
    | exact holds_checkInt
    | exact holds_setZN _ _
    | exact holds_pullByte h
    | exact holds_pushByte h _
    | exact holds_readOpcode h
    | exact holds_readOpcodeWord h _
    | exact holds_doBranch h _
    | exact holds_readWord h _ _ _
    | exact holds_writeWord h _ _ _ _ _
    | exact holds_pullWord h _
    | exact holds_pushWord h _ _
    | exact holds_doInterrupt h
    | exact holds_adrImp h
    | exact holds_adrImm _
    | exact holds_adrDp h
    | exact holds_adrDpx h
    | exact holds_adrDpy h
    | exact holds_adrIdp h
    | exact holds_adrIdx h
    | exact holds_adrIdy h _
    | exact holds_adrIdl h
    | exact holds_adrIly h
    | exact holds_adrSr h
    | exact holds_adrIsy h
    | exact holds_adrAbs h
    | exact holds_adrAbx h _
    | exact holds_adrAby h _
    | apply holds_ite
    | apply holds_bind
    | exact holds_modify_core (fun _ => rfl)
    | (refine holds_modify_core (fun _ => ?_); split <;> rfl)

theorem holds_adrAlx [CoreInv I] :
    Holds I (cpu_adrAlx h) := by
  unfold cpu_adrAlx
  repeat' first
    | intro _
    | exact holds_pure _
    | exact holds_getCpu
    | exact holds_read h _
    | exact holds_write h _ _
    | exact holds_idle h
    | exact holds_idleWait h
    | exact holds_checkInt
    | exact holds_setZN _ _
    | exact holds_pullByte h
    | exact holds_pushByte h _
    | exact holds_readOpcode h
    | exact holds_readOpcodeWord h _
    | exact holds_doBranch h _
    | exact holds_readWord h _ _ _
    | exact holds_writeWord h _ _ _ _ _
    | exact holds_pullWord h _
    | exact holds_pushWord h _ _
    | exact holds_doInterrupt h
    | exact holds_adrImp h
    | exact holds_adrImm _
    | exact holds_adrDp h
    | exact holds_adrDpx h
    | exact holds_adrDpy h
    | exact holds_adrIdp h
    | exact holds_adrIdx h
    | exact holds_adrIdy h _
    | exact holds_adrIdl h
    | exact holds_adrIly h
    | exact holds_adrSr h
    | exact holds_adrIsy h
    | exact holds_adrAbs h
    | exact holds_adrAbx h _
    | exact holds_adrAby h _
    | exact holds_adrAbl h
    | apply holds_ite
    | apply holds_bind
    | exact holds_modify_core (fun _ => rfl)
    | (refine holds_modify_core (fun _ => ?_); split <;> rfl)

theorem holds_and [CoreInv I] (low : Nat) (high : Nat) :
    Holds I (cpu_and h low high) := by
  unfold cpu_and
  repeat' first
    | intro _
    | exact holds_pure _
    | exact holds_getCpu
    | exact holds_read h _
    | exact holds_write h _ _
    | exact holds_idle h
    | exact holds_idleWait h
    | exact holds_checkInt
    | exact holds_setZN _ _
    | exact holds_pullByte h
    | exact holds_pushByte h _
    | exact holds_readOpcode h
    | exact holds_readOpcodeWord h _
    | exact holds_doBranch h _
    | exact holds_readWord h _ _ _
    | exact holds_writeWord h _ _ _ _ _
    | exact holds_pullWord h _
    | exact holds_pushWord h _ _
    | exact holds_doInterrupt h
    | exact holds_adrImp h
    | exact holds_adrImm _
    | exact holds_adrDp h
    | exact holds_adrDpx h
    | exact holds_adrDpy h
    | exact holds_adrIdp h
    | exact holds_adrIdx h
    | exact holds_adrIdy h _
    | exact holds_adrIdl h
    | exact holds_adrIly h
    | exact holds_adrSr h
    | exact holds_adrIsy h
    | exact holds_adrAbs h
    | exact holds_adrAbx h _
    | exact holds_adrAby h _
    | exact holds_adrAbl h
    | exact holds_adrAlx h
    | apply holds_ite
    | apply holds_bind
    | exact holds_modify_core (fun _ => rfl)
    | (refine holds_modify_core (fun _ => ?_); split <;> rfl)

theorem holds_ora [CoreInv I] (low : Nat) (high : Nat) :
    Holds I (cpu_ora h low high) := by
  unfold cpu_ora
  repeat' first
    | intro _
    | exact holds_pure _
    | exact holds_getCpu
    | exact holds_read h _
    | exact holds_write h _ _
    | exact holds_idle h
    | exact holds_idleWait h
    | exact holds_checkInt
    | exact holds_setZN _ _
    | exact holds_pullByte h
    | exact holds_pushByte h _
    | exact holds_readOpcode h
    | exact holds_readOpcodeWord h _
    | exact holds_doBranch h _
    | exact holds_readWord h _ _ _
    | exact holds_writeWord h _ _ _ _ _
    | exact holds_pullWord h _
    | exact holds_pushWord h _ _
    | exact holds_doInterrupt h
    | exact holds_adrImp h
    | exact holds_adrImm _
    | exact holds_adrDp h
    | exact holds_adrDpx h
    | exact holds_adrDpy h
    | exact holds_adrIdp h
    | exact holds_adrIdx h
    | exact holds_adrIdy h _
    | exact holds_adrIdl h
    | exact holds_adrIly h
    | exact holds_adrSr h
    | exact holds_adrIsy h
    | exact holds_adrAbs h
    | exact holds_adrAbx h _
    | exact holds_adrAby h _
    | exact holds_adrAbl h
    | exact holds_adrAlx h
    | exact holds_and h _ _
    | apply holds_ite
    | apply holds_bind
    | exact holds_modify_core (fun _ => rfl)
    | (refine holds_modify_core (fun _ => ?_); split <;> rfl)

theorem holds_eor [CoreInv I] (low : Nat) (high : Nat) :
    Holds I (cpu_eor h low high) := by
  unfold cpu_eor
  repeat' first
    | intro _
    | exact holds_pure _
    | exact holds_getCpu
    | exact holds_read h _
    | exact holds_write h _ _
    | exact holds_idle h
    | exact holds_idleWait h
    | exact holds_checkInt
    | exact holds_setZN _ _
    | exact holds_pullByte h
    | exact holds_pushByte h _
    | exact holds_readOpcode h
    | exact holds_readOpcodeWord h _
    | exact holds_doBranch h _
    | exact holds_readWord h _ _ _
    | exact holds_writeWord h _ _ _ _ _
    | exact holds_pullWord h _
    | exact holds_pushWord h _ _
    | exact holds_doInterrupt h
    | exact holds_adrImp h
    | exact holds_adrImm _
    | exact holds_adrDp h
    | exact holds_adrDpx h
    | exact holds_adrDpy h
    | exact holds_adrIdp h
    | exact holds_adrIdx h
    | exact holds_adrIdy h _
    | exact holds_adrIdl h
    | exact holds_adrIly h
    | exact holds_adrSr h
    | exact holds_adrIsy h
    | exact holds_adrAbs h
    | exact holds_adrAbx h _
    | exact holds_adrAby h _
    | exact holds_adrAbl h
    | exact holds_adrAlx h
    | exact holds_and h _ _
    | exact holds_ora h _ _
    | apply holds_ite
    | apply holds_bind
    | exact holds_modify_core (fun _ => rfl)
    | (refine holds_modify_core (fun _ => ?_); split <;> rfl)

theorem holds_adc [CoreInv I] (low : Nat) (high : Nat) :
    Holds I (cpu_adc h low high) := by
  unfold cpu_adc
  repeat' first
    | intro _
    | exact holds_pure _
    | exact holds_getCpu
    | exact holds_read h _
    | exact holds_write h _ _
    | exact holds_idle h
    | exact holds_idleWait h
    | exact holds_checkInt
    | exact holds_setZN _ _
    | exact holds_pullByte h
    | exact holds_pushByte h _
    | exact holds_readOpcode h
    | exact holds_readOpcodeWord h _
    | exact holds_doBranch h _
    | exact holds_readWord h _ _ _
    | exact holds_writeWord h _ _ _ _ _
    | exact holds_pullWord h _
    | exact holds_pushWord h _ _
    | exact holds_doInterrupt h
    | exact holds_adrImp h
    | exact holds_adrImm _
    | exact holds_adrDp h
    | exact holds_adrDpx h
    | exact holds_adrDpy h
    | exact holds_adrIdp h
    | exact holds_adrIdx h
    | exact holds_adrIdy h _
    | exact holds_adrIdl h
    | exact holds_adrIly h
    | exact holds_adrSr h
    | exact holds_adrIsy h
    | exact holds_adrAbs h
    | exact holds_adrAbx h _
    | exact holds_adrAby h _
    | exact holds_adrAbl h
    | exact holds_adrAlx h
    | exact holds_and h _ _
    | exact holds_ora h _ _
    | exact holds_eor h _ _
    | apply holds_ite
    | apply holds_bind
    | exact holds_modify_core (fun _ => rfl)
    | (refine holds_modify_core (fun _ => ?_); split <;> rfl)

theorem holds_sbc [CoreInv I] (low : Nat) (high : Nat) :
    Holds I (cpu_sbc h low high) := by
  unfold cpu_sbc
  repeat' first
    | intro _
    | exact holds_pure _
    | exact holds_getCpu
    | exact holds_read h _
    | exact holds_write h _ _
    | exact holds_idle h
    | exact holds_idleWait h
    | exact holds_checkInt
    | exact holds_setZN _ _
    | exact holds_pullByte h
    | exact holds_pushByte h _
    | exact holds_readOpcode h
    | exact holds_readOpcodeWord h _
    | exact holds_doBranch h _
    | exact holds_readWord h _ _ _
    | exact holds_writeWord h _ _ _ _ _
    | exact holds_pullWord h _
    | exact holds_pushWord h _ _
    | exact holds_doInterrupt h
    | exact holds_adrImp h
    | exact holds_adrImm _
    | exact holds_adrDp h
    | exact holds_adrDpx h
    | exact holds_adrDpy h
    | exact holds_adrIdp h
    | exact holds_adrIdx h
    | exact holds_adrIdy h _
    | exact holds_adrIdl h
    | exact holds_adrIly h
    | exact holds_adrSr h
    | exact holds_adrIsy h
    | exact holds_adrAbs h
    | exact holds_adrAbx h _
    | exact holds_adrAby h _
    | exact holds_adrAbl h
    | exact holds_adrAlx h
    | exact holds_and h _ _
    | exact holds_ora h _ _
    | exact holds_eor h _ _
    | exact holds_adc h _ _
    | apply holds_ite
    | apply holds_bind
    | exact holds_modify_core (fun _ => rfl)
    | (refine holds_modify_core (fun _ => ?_); split <;> rfl)

theorem holds_cmp [CoreInv I] (low : Nat) (high : Nat) :
    Holds I (cpu_cmp h low high) := by
  unfold cpu_cmp
  repeat' first
    | intro _
    | exact holds_pure _
    | exact holds_getCpu
    | exact holds_read h _
    | exact holds_write h _ _
    | exact holds_idle h
    | exact holds_idleWait h
    | exact holds_checkInt
    | exact holds_setZN _ _
    | exact holds_pullByte h
    | exact holds_pushByte h _
    | exact holds_readOpcode h
    | exact holds_readOpcodeWord h _
    | exact holds_doBranch h _
    | exact holds_readWord h _ _ _
    | exact holds_writeWord h _ _ _ _ _
    | exact holds_pullWord h _
    | exact holds_pushWord h _ _
    | exact holds_doInterrupt h
    | exact holds_adrImp h
    | exact holds_adrImm _
    | exact holds_adrDp h
    | exact holds_adrDpx h
    | exact holds_adrDpy h
    | exact holds_adrIdp h
    | exact holds_adrIdx h
    | exact holds_adrIdy h _
    | exact holds_adrIdl h
    | exact holds_adrIly h
    | exact holds_adrSr h
    | exact holds_adrIsy h
    | exact holds_adrAbs h
    | exact holds_adrAbx h _
    | exact holds_adrAby h _
    | exact holds_adrAbl h
    | exact holds_adrAlx h
    | exact holds_and h _ _
    | exact holds_ora h _ _
    | exact holds_eor h _ _
    | exact holds_adc h _ _
    | exact holds_sbc h _ _
    | apply holds_ite
    | apply holds_bind
    | exact holds_modify_core (fun _ => rfl)
    | (refine holds_modify_core (fun _ => ?_); split <;> rfl)

theorem holds_cpx [CoreInv I] (low : Nat) (high : Nat) :
    Holds I (cpu_cpx h low high) := by
  unfold cpu_cpx
  repeat' first
    | intro _
    | exact holds_pure _
    | exact holds_getCpu
    | exact holds_read h _
    | exact holds_write h _ _
    | exact holds_idle h
    | exact holds_idleWait h
    | exact holds_checkInt
    | exact holds_setZN _ _
    | exact holds_pullByte h
    | exact holds_pushByte h _
    | exact holds_readOpcode h
    | exact holds_readOpcodeWord h _
    | exact holds_doBranch h _
    | exact holds_readWord h _ _ _
    | exact holds_writeWord h _ _ _ _ _
    | exact holds_pullWord h _
    | exact holds_pushWord h _ _
    | exact holds_doInterrupt h
    | exact holds_adrImp h
    | exact holds_adrImm _
    | exact holds_adrDp h
    | exact holds_adrDpx h
    | exact holds_adrDpy h
    | exact holds_adrIdp h
    | exact holds_adrIdx h
    | exact holds_adrIdy h _
    | exact holds_adrIdl h
    | exact holds_adrIly h
    | exact holds_adrSr h
    | exact holds_adrIsy h
    | exact holds_adrAbs h
    | exact holds_adrAbx h _
    | exact holds_adrAby h _
    | exact holds_adrAbl h
    | exact holds_adrAlx h
    | exact holds_and h _ _
    | exact holds_ora h _ _
    | exact holds_eor h _ _
    | exact holds_adc h _ _
    | exact holds_sbc h _ _
    | exact holds_cmp h _ _
    | apply holds_ite
    | apply holds_bind
    | exact holds_modify_core (fun _ => rfl)
    | (refine holds_modify_core (fun _ => ?_); split <;> rfl)

theorem holds_cpy [CoreInv I] (low : Nat) (high : Nat) :
    Holds I (cpu_cpy h low high) := by
  unfold cpu_cpy
  repeat' first
    | intro _
    | exact holds_pure _
    | exact holds_getCpu
    | exact holds_read h _
    | exact holds_write h _ _
    | exact holds_idle h
    | exact holds_idleWait h
    | exact holds_checkInt
    | exact holds_setZN _ _
    | exact holds_pullByte h
    | exact holds_pushByte h _
    | exact holds_readOpcode h
    | exact holds_readOpcodeWord h _
    | exact holds_doBranch h _
    | exact holds_readWord h _ _ _
    | exact holds_writeWord h _ _ _ _ _
    | exact holds_pullWord h _
    | exact holds_pushWord h _ _
    | exact holds_doInterrupt h
    | exact holds_adrImp h
    | exact holds_adrImm _
    | exact holds_adrDp h
    | exact holds_adrDpx h
    | exact holds_adrDpy h
    | exact holds_adrIdp h
    | exact holds_adrIdx h
    | exact holds_adrIdy h _
    | exact holds_adrIdl h
    | exact holds_adrIly h
    | exact holds_adrSr h
    | exact holds_adrIsy h
    | exact holds_adrAbs h
    | exact holds_adrAbx h _
    | exact holds_adrAby h _
    | exact holds_adrAbl h
    | exact holds_adrAlx h
    | exact holds_and h _ _
    | exact holds_ora h _ _
    | exact holds_eor h _ _
    | exact holds_adc h _ _
    | exact holds_sbc h _ _
    | exact holds_cmp h _ _
    | exact holds_cpx h _ _
    | apply holds_ite
    | apply holds_bind
    | exact holds_modify_core (fun _ => rfl)
    | (refine holds_modify_core (fun _ => ?_); split <;> rfl)

theorem holds_bit [CoreInv I] (low : Nat) (high : Nat) :
    Holds I (cpu_bit h low high) := by
  unfold cpu_bit
  repeat' first
    | intro _
    | exact holds_pure _
    | exact holds_getCpu
    | exact holds_read h _
    | exact holds_write h _ _
    | exact holds_idle h
    | exact holds_idleWait h
    | exact holds_checkInt
    | exact holds_setZN _ _
    | exact holds_pullByte h
    | exact holds_pushByte h _
    | exact holds_readOpcode h
    | exact holds_readOpcodeWord h _
    | exact holds_doBranch h _
    | exact holds_readWord h _ _ _
    | exact holds_writeWord h _ _ _ _ _
    | exact holds_pullWord h _
    | exact holds_pushWord h _ _
    | exact holds_doInterrupt h
    | exact holds_adrImp h
    | exact holds_adrImm _
    | exact holds_adrDp h
    | exact holds_adrDpx h
    | exact holds_adrDpy h
    | exact holds_adrIdp h
    | exact holds_adrIdx h
    | exact holds_adrIdy h _
    | exact holds_adrIdl h
    | exact holds_adrIly h
    | exact holds_adrSr h
    | exact holds_adrIsy h
    | exact holds_adrAbs h
    | exact holds_adrAbx h _
    | exact holds_adrAby h _
    | exact holds_adrAbl h
    | exact holds_adrAlx h
    | exact holds_and h _ _
    | exact holds_ora h _ _
    | exact holds_eor h _ _
    | exact holds_adc h _ _
    | exact holds_sbc h _ _
    | exact holds_cmp h _ _
    | exact holds_cpx h _ _
    | exact holds_cpy h _ _
    | apply holds_ite
    | apply holds_bind
    | exact holds_modify_core (fun _ => rfl)
    | (refine holds_modify_core (fun _ => ?_); split <;> rfl)

theorem holds_lda [CoreInv I] (low : Nat) (high : Nat) :
    Holds I (cpu_lda h low high) := by
  unfold cpu_lda
  repeat' first
    | intro _
    | exact holds_pure _
    | exact holds_getCpu
    | exact holds_read h _
    | exact holds_write h _ _
    | exact holds_idle h
    | exact holds_idleWait h
    | exact holds_checkInt
    | exact holds_setZN _ _
    | exact holds_pullByte h
    | exact holds_pushByte h _
    | exact holds_readOpcode h
    | exact holds_readOpcodeWord h _
    | exact holds_doBranch h _
    | exact holds_readWord h _ _ _
    | exact holds_writeWord h _ _ _ _ _
    | exact holds_pullWord h _
    | exact holds_pushWord h _ _
    | exact holds_doInterrupt h
    | exact holds_adrImp h
    | exact holds_adrImm _
    | exact holds_adrDp h
    | exact holds_adrDpx h
    | exact holds_adrDpy h
    | exact holds_adrIdp h
    | exact holds_adrIdx h
    | exact holds_adrIdy h _
    | exact holds_adrIdl h
    | exact holds_adrIly h
    | exact holds_adrSr h
    | exact holds_adrIsy h
    | exact holds_adrAbs h
    | exact holds_adrAbx h _
    | exact holds_adrAby h _
    | exact holds_adrAbl h
    | exact holds_adrAlx h
    | exact holds_and h _ _
    | exact holds_ora h _ _
    | exact holds_eor h _ _
    | exact holds_adc h _ _
    | exact holds_sbc h _ _
    | exact holds_cmp h _ _
    | exact holds_cpx h _ _
    | exact holds_cpy h _ _
    | exact holds_bit h _ _
    | apply holds_ite
    | apply holds_bind
    | exact holds_modify_core (fun _ => rfl)
    | (refine holds_modify_core (fun _ => ?_); split <;> rfl)

theorem holds_sta [CoreInv I] (low : Nat) (high : Nat) :
    Holds I (cpu_sta h low high) := by
  unfold cpu_sta
  repeat' first
    | intro _
    | exact holds_pure _
    | exact holds_getCpu
    | exact holds_read h _
    | exact holds_write h _ _
    | exact holds_idle h
    | exact holds_idleWait h
    | exact holds_checkInt
    | exact holds_setZN _ _
    | exact holds_pullByte h
    | exact holds_pushByte h _
    | exact holds_readOpcode h
    | exact holds_readOpcodeWord h _
    | exact holds_doBranch h _
    | exact holds_readWord h _ _ _
    | exact holds_writeWord h _ _ _ _ _
    | exact holds_pullWord h _
    | exact holds_pushWord h _ _
    | exact holds_doInterrupt h
    | exact holds_adrImp h
    | exact holds_adrImm _
    | exact holds_adrDp h
    | exact holds_adrDpx h
    | exact holds_adrDpy h
    | exact holds_adrIdp h
    | exact holds_adrIdx h
    | exact holds_adrIdy h _
    | exact holds_adrIdl h
    | exact holds_adrIly h
    | exact holds_adrSr h
    | exact holds_adrIsy h
    | exact holds_adrAbs h
    | exact holds_adrAbx h _
    | exact holds_adrAby h _
    | exact holds_adrAbl h
    | exact holds_adrAlx h
    | exact holds_and h _ _
    | exact holds_ora h _ _
    | exact holds_eor h _ _
    | exact holds_adc h _ _
    | exact holds_sbc h _ _
    | exact holds_cmp h _ _
    | exact holds_cpx h _ _
    | exact holds_cpy h _ _
    | exact holds_bit h _ _
    | exact holds_lda h _ _
    | apply holds_ite
    | apply holds_bind
    | exact holds_modify_core (fun _ => rfl)
    | (refine holds_modify_core (fun _ => ?_); split <;> rfl)

theorem holds_stx [CoreInv I] (low : Nat) (high : Nat) :
    Holds I (cpu_stx h low high) := by
  unfold cpu_stx
  repeat' first
    | intro _
    | exact holds_pure _
    | exact holds_getCpu
    | exact holds_read h _
    | exact holds_write h _ _
    | exact holds_idle h
    | exact holds_idleWait h
    | exact holds_checkInt
    | exact holds_setZN _ _
    | exact holds_pullByte h
    | exact holds_pushByte h _
    | exact holds_readOpcode h
    | exact holds_readOpcodeWord h _
    | exact holds_doBranch h _
    | exact holds_readWord h _ _ _
    | exact holds_writeWord h _ _ _ _ _
    | exact holds_pullWord h _
    | exact holds_pushWord h _ _
    | exact holds_doInterrupt h
    | exact holds_adrImp h
    | exact holds_adrImm _
    | exact holds_adrDp h
    | exact holds_adrDpx h
    | exact holds_adrDpy h
    | exact holds_adrIdp h
    | exact holds_adrIdx h
    | exact holds_adrIdy h _
    | exact holds_adrIdl h
    | exact holds_adrIly h
    | exact holds_adrSr h
    | exact holds_adrIsy h
    | exact holds_adrAbs h
    | exact holds_adrAbx h _
    | exact holds_adrAby h _
    | exact holds_adrAbl h
    | exact holds_adrAlx h
    | exact holds_and h _ _
    | exact holds_ora h _ _
    | exact holds_eor h _ _
    | exact holds_adc h _ _
    | exact holds_sbc h _ _
    | exact holds_cmp h _ _
    | exact holds_cpx h _ _
    | exact holds_cpy h _ _
    | exact holds_bit h _ _
    | exact holds_lda h _ _
    | exact holds_sta h _ _
    | apply holds_ite
    | apply holds_bind
    | exact holds_modify_core (fun _ => rfl)
    | (refine holds_modify_core (fun _ => ?_); split <;> rfl)

theorem holds_sty [CoreInv I] (low : Nat) (high : Nat) :
    Holds I (cpu_sty h low high) := by
  unfold cpu_sty
  repeat' first
    | intro _
    | exact holds_pure _
    | exact holds_getCpu
    | exact holds_read h _
    | exact holds_write h _ _
    | exact holds_idle h
    | exact holds_idleWait h
    | exact holds_checkInt
    | exact holds_setZN _ _
    | exact holds_pullByte h
    | exact holds_pushByte h _
    | exact holds_readOpcode h
    | exact holds_readOpcodeWord h _
    | exact holds_doBranch h _
    | exact holds_readWord h _ _ _
    | exact holds_writeWord h _ _ _ _ _
    | exact holds_pullWord h _
    | exact holds_pushWord h _ _
    | exact holds_doInterrupt h
    | exact holds_adrImp h
    | exact holds_adrImm _
    | exact holds_adrDp h
    | exact holds_adrDpx h
    | exact holds_adrDpy h
    | exact holds_adrIdp h
    | exact holds_adrIdx h
    | exact holds_adrIdy h _
    | exact holds_adrIdl h
    | exact holds_adrIly h
    | exact holds_adrSr h
    | exact holds_adrIsy h
    | exact holds_adrAbs h
    | exact holds_adrAbx h _
    | exact holds_adrAby h _
    | exact holds_adrAbl h
    | exact holds_adrAlx h
    | exact holds_and h _ _
    | exact holds_ora h _ _
    | exact holds_eor h _ _
    | exact holds_adc h _ _
    | exact holds_sbc h _ _
    | exact holds_cmp h _ _
    | exact holds_cpx h _ _
    | exact holds_cpy h _ _
    | exact holds_bit h _ _
    | exact holds_lda h _ _
    | exact holds_sta h _ _
    | exact holds_stx h _ _
    | apply holds_ite
    | apply holds_bind
    | exact holds_modify_core (fun _ => rfl)
    | (refine holds_modify_core (fun _ => ?_); split <;> rfl)

theorem holds_stz [CoreInv I] (low : Nat) (high : Nat) :
    Holds I (cpu_stz h low high) := by
  unfold cpu_stz
  repeat' first
    | intro _
    | exact holds_pure _
    | exact holds_getCpu
    | exact holds_read h _
    | exact holds_write h _ _
    | exact holds_idle h
    | exact holds_idleWait h
    | exact holds_checkInt
    | exact holds_setZN _ _
    | exact holds_pullByte h
    | exact holds_pushByte h _
    | exact holds_readOpcode h
    | exact holds_readOpcodeWord h _
    | exact holds_doBranch h _
    | exact holds_readWord h _ _ _
    | exact holds_writeWord h _ _ _ _ _
    | exact holds_pullWord h _
    | exact holds_pushWord h _ _
    | exact holds_doInterrupt h
    | exact holds_adrImp h
    | exact holds_adrImm _
    | exact holds_adrDp h
    | exact holds_adrDpx h
    | exact holds_adrDpy h
    | exact holds_adrIdp h
    | exact holds_adrIdx h
    | exact holds_adrIdy h _
    | exact holds_adrIdl h
    | exact holds_adrIly h
    | exact holds_adrSr h
    | exact holds_adrIsy h
    | exact holds_adrAbs h
    | exact holds_adrAbx h _
    | exact holds_adrAby h _
    | exact holds_adrAbl h
    | exact holds_adrAlx h
    | exact holds_and h _ _
    | exact holds_ora h _ _
    | exact holds_eor h _ _
    | exact holds_adc h _ _
    | exact holds_sbc h _ _
    | exact holds_cmp h _ _
    | exact holds_cpx h _ _
    | exact holds_cpy h _ _
    | exact holds_bit h _ _
    | exact holds_lda h _ _
    | exact holds_sta h _ _
    | exact holds_stx h _ _
    | exact holds_sty h _ _
    | apply holds_ite
    | apply holds_bind
    | exact holds_modify_core (fun _ => rfl)
    | (refine holds_modify_core (fun _ => ?_); split <;> rfl)

theorem holds_ror [CoreInv I] (low : Nat) (high : Nat) :
    Holds I (cpu_ror h low high) := by
  unfold cpu_ror
  repeat' first
    | intro _
    | exact holds_pure _
    | exact holds_getCpu
    | exact holds_read h _
    | exact holds_write h _ _
    | exact holds_idle h
    | exact holds_idleWait h
    | exact holds_checkInt
    | exact holds_setZN _ _
    | exact holds_pullByte h
    | exact holds_pushByte h _
    | exact holds_readOpcode h
    | exact holds_readOpcodeWord h _
    | exact holds_doBranch h _
    | exact holds_readWord h _ _ _
    | exact holds_writeWord h _ _ _ _ _
    | exact holds_pullWord h _
    | exact holds_pushWord h _ _
    | exact holds_doInterrupt h
    | exact holds_adrImp h
    | exact holds_adrImm _
    | exact holds_adrDp h
    | exact holds_adrDpx h
    | exact holds_adrDpy h
    | exact holds_adrIdp h
    | exact holds_adrIdx h
    | exact holds_adrIdy h _
    | exact holds_adrIdl h
    | exact holds_adrIly h
    | exact holds_adrSr h
    | exact holds_adrIsy h
    | exact holds_adrAbs h
    | exact holds_adrAbx h _
    | exact holds_adrAby h _
    | exact holds_adrAbl h
    | exact holds_adrAlx h
    | exact holds_and h _ _
    | exact holds_ora h _ _
    | exact holds_eor h _ _
    | exact holds_adc h _ _
    | exact holds_sbc h _ _
    | exact holds_cmp h _ _
    | exact holds_cpx h _ _
    | exact holds_cpy h _ _
    | exact holds_bit h _ _
    | exact holds_lda h _ _
    | exact holds_sta h _ _
    | exact holds_stx h _ _
    | exact holds_sty h _ _
    | exact holds_stz h _ _
    | apply holds_ite
    | apply holds_bind
    | exact holds_modify_core (fun _ => rfl)
    | (refine holds_modify_core (fun _ => ?_); split <;> rfl)

theorem holds_rol [CoreInv I] (low : Nat) (high : Nat) :
    Holds I (cpu_rol h low high) := by
  unfold cpu_rol
  repeat' first
    | intro _
    | exact holds_pure _
    | exact holds_getCpu
    | exact holds_read h _
    | exact holds_write h _ _
    | exact holds_idle h
    | exact holds_idleWait h
    | exact holds_checkInt
    | exact holds_setZN _ _
    | exact holds_pullByte h
    | exact holds_pushByte h _
    | exact holds_readOpcode h
    | exact holds_readOpcodeWord h _
    | exact holds_doBranch h _
    | exact holds_readWord h _ _ _
    | exact holds_writeWord h _ _ _ _ _
    | exact holds_pullWord h _
    | exact holds_pushWord h _ _
    | exact holds_doInterrupt h
    | exact holds_adrImp h
    | exact holds_adrImm _
    | exact holds_adrDp h
    | exact holds_adrDpx h
    | exact holds_adrDpy h
    | exact holds_adrIdp h
    | exact holds_adrIdx h
    | exact holds_adrIdy h _
    | exact holds_adrIdl h
    | exact holds_adrIly h
    | exact holds_adrSr h
    | exact holds_adrIsy h
    | exact holds_adrAbs h
    | exact holds_adrAbx h _
    | exact holds_adrAby h _
    | exact holds_adrAbl h
    | exact holds_adrAlx h
    | exact holds_and h _ _
    | exact holds_ora h _ _
    | exact holds_eor h _ _
    | exact holds_adc h _ _
    | exact holds_sbc h _ _
    | exact holds_cmp h _ _
    | exact holds_cpx h _ _
    | exact holds_cpy h _ _
    | exact holds_bit h _ _
    | exact holds_lda h _ _
    | exact holds_sta h _ _
    | exact holds_stx h _ _
    | exact holds_sty h _ _
    | exact holds_stz h _ _
    | exact holds_ror h _ _
    | apply holds_ite
    | apply holds_bind
    | exact holds_modify_core (fun _ => rfl)
    | (refine holds_modify_core (fun _ => ?_); split <;> rfl)

theorem holds_lsr [CoreInv I] (low : Nat) (high : Nat) :
    Holds I (cpu_lsr h low high) := by
  unfold cpu_lsr
  repeat' first
    | intro _
    | exact holds_pure _
    | exact holds_getCpu
    | exact holds_read h _
    | exact holds_write h _ _
    | exact holds_idle h
    | exact holds_idleWait h
    | exact holds_checkInt
    | exact holds_setZN _ _
    | exact holds_pullByte h
    | exact holds_pushByte h _
    | exact holds_readOpcode h
    | exact holds_readOpcodeWord h _
    | exact holds_doBranch h _
    | exact holds_readWord h _ _ _
    | exact holds_writeWord h _ _ _ _ _
    | exact holds_pullWord h _
    | exact holds_pushWord h _ _
    | exact holds_doInterrupt h
    | exact holds_adrImp h
    | exact holds_adrImm _
    | exact holds_adrDp h
    | exact holds_adrDpx h
    | exact holds_adrDpy h
    | exact holds_adrIdp h
    | exact holds_adrIdx h
    | exact holds_adrIdy h _
    | exact holds_adrIdl h
    | exact holds_adrIly h
    | exact holds_adrSr h
    | exact holds_adrIsy h
    | exact holds_adrAbs h
    | exact holds_adrAbx h _
    | exact holds_adrAby h _
    | exact holds_adrAbl h
    | exact holds_adrAlx h
    | exact holds_and h _ _
    | exact holds_ora h _ _
    | exact holds_eor h _ _
    | exact holds_adc h _ _
    | exact holds_sbc h _ _
    | exact holds_cmp h _ _
    | exact holds_cpx h _ _
    | exact holds_cpy h _ _
    | exact holds_bit h _ _
    | exact holds_lda h _ _
    | exact holds_sta h _ _
    | exact holds_stx h _ _
    | exact holds_sty h _ _
    | exact holds_stz h _ _
    | exact holds_ror h _ _
    | exact holds_rol h _ _
    | apply holds_ite
    | apply holds_bind
    | exact holds_modify_core (fun _ => rfl)
    | (refine holds_modify_core (fun _ => ?_); split <;> rfl)

theorem holds_asl [CoreInv I] (low : Nat) (high : Nat) :
    Holds I (cpu_asl h low high) := by
  unfold cpu_asl
  repeat' first
    | intro _
    | exact holds_pure _
    | exact holds_getCpu
    | exact holds_read h _
    | exact holds_write h _ _
    | exact holds_idle h
    | exact holds_idleWait h
    | exact holds_checkInt
    | exact holds_setZN _ _
    | exact holds_pullByte h
    | exact holds_pushByte h _
    | exact holds_readOpcode h
    | exact holds_readOpcodeWord h _
    | exact holds_doBranch h _
    | exact holds_readWord h _ _ _
    | exact holds_writeWord h _ _ _ _ _
    | exact holds_pullWord h _
    | exact holds_pushWord h _ _
    | exact holds_doInterrupt h
    | exact holds_adrImp h
    | exact holds_adrImm _
    | exact holds_adrDp h
    | exact holds_adrDpx h
    | exact holds_adrDpy h
    | exact holds_adrIdp h
    | exact holds_adrIdx h
    | exact holds_adrIdy h _
    | exact holds_adrIdl h
    | exact holds_adrIly h
    | exact holds_adrSr h
    | exact holds_adrIsy h
    | exact holds_adrAbs h
    | exact holds_adrAbx h _
    | exact holds_adrAby h _
    | exact holds_adrAbl h
    | exact holds_adrAlx h
    | exact holds_and h _ _
    | exact holds_ora h _ _
    | exact holds_eor h _ _
    | exact holds_adc h _ _
    | exact holds_sbc h _ _
    | exact holds_cmp h _ _
    | exact holds_cpx h _ _
    | exact holds_cpy h _ _
    | exact holds_bit h _ _
    | exact holds_lda h _ _
    | exact holds_sta h _ _
    | exact holds_stx h _ _
    | exact holds_sty h _ _
    | exact holds_stz h _ _
    | exact holds_ror h _ _
    | exact holds_rol h _ _
    | exact holds_lsr h _ _
    | apply holds_ite
    | apply holds_bind
    | exact holds_modify_core (fun _ => rfl)
    | (refine holds_modify_core (fun _ => ?_); split <;> rfl)

theorem holds_inc [CoreInv I] (low : Nat) (high : Nat) :
    Holds I (cpu_inc h low high) := by
  unfold cpu_inc
  repeat' first
    | intro _
    | exact holds_pure _
    | exact holds_getCpu
    | exact holds_read h _
    | exact holds_write h _ _
    | exact holds_idle h
    | exact holds_idleWait h
    | exact holds_checkInt
    | exact holds_setZN _ _
    | exact holds_pullByte h
    | exact holds_pushByte h _
    | exact holds_readOpcode h
    | exact holds_readOpcodeWord h _
    | exact holds_doBranch h _
    | exact holds_readWord h _ _ _
    | exact holds_writeWord h _ _ _ _ _
    | exact holds_pullWord h _
    | exact holds_pushWord h _ _
    | exact holds_doInterrupt h
    | exact holds_adrImp h
    | exact holds_adrImm _
    | exact holds_adrDp h
    | exact holds_adrDpx h
    | exact holds_adrDpy h
    | exact holds_adrIdp h
    | exact holds_adrIdx h
    | exact holds_adrIdy h _
    | exact holds_adrIdl h
    | exact holds_adrIly h
    | exact holds_adrSr h
    | exact holds_adrIsy h
    | exact holds_adrAbs h
    | exact holds_adrAbx h _
    | exact holds_adrAby h _
    | exact holds_adrAbl h
    | exact holds_adrAlx h
    | exact holds_and h _ _
    | exact holds_ora h _ _
    | exact holds_eor h _ _
    | exact holds_adc h _ _
    | exact holds_sbc h _ _
    | exact holds_cmp h _ _
    | exact holds_cpx h _ _
    | exact holds_cpy h _ _
    | exact holds_bit h _ _
    | exact holds_lda h _ _
    | exact holds_sta h _ _
    | exact holds_stx h _ _
    | exact holds_sty h _ _
    | exact holds_stz h _ _
    | exact holds_ror h _ _
    | exact holds_rol h _ _
    | exact holds_lsr h _ _
    | exact holds_asl h _ _
    | apply holds_ite
    | apply holds_bind
    | exact holds_modify_core (fun _ => rfl)
    | (refine holds_modify_core (fun _ => ?_); split <;> rfl)

theorem holds_dec [CoreInv I] (low : Nat) (high : Nat) :
    Holds I (cpu_dec h low high) := by
  unfold cpu_dec
  repeat' first
    | intro _
    | exact holds_pure _
    | exact holds_getCpu
    | exact holds_read h _
    | exact holds_write h _ _
    | exact holds_idle h
    | exact holds_idleWait h
    | exact holds_checkInt
    | exact holds_setZN _ _
    | exact holds_pullByte h
    | exact holds_pushByte h _
    | exact holds_readOpcode h
    | exact holds_readOpcodeWord h _
    | exact holds_doBranch h _
    | exact holds_readWord h _ _ _
    | exact holds_writeWord h _ _ _ _ _
    | exact holds_pullWord h _
    | exact holds_pushWord h _ _
    | exact holds_doInterrupt h
    | exact holds_adrImp h
    | exact holds_adrImm _
    | exact holds_adrDp h
    | exact holds_adrDpx h
    | exact holds_adrDpy h
    | exact holds_adrIdp h
    | exact holds_adrIdx h
    | exact holds_adrIdy h _
    | exact holds_adrIdl h
    | exact holds_adrIly h
    | exact holds_adrSr h
    | exact holds_adrIsy h
    | exact holds_adrAbs h
    | exact holds_adrAbx h _
    | exact holds_adrAby h _
    | exact holds_adrAbl h
    | exact holds_adrAlx h
    | exact holds_and h _ _
    | exact holds_ora h _ _
    | exact holds_eor h _ _
    | exact holds_adc h _ _
    | exact holds_sbc h _ _
    | exact holds_cmp h _ _
    | exact holds_cpx h _ _
    | exact holds_cpy h _ _
    | exact holds_bit h _ _
    | exact holds_lda h _ _
    | exact holds_sta h _ _
    | exact holds_stx h _ _
    | exact holds_sty h _ _
    | exact holds_stz h _ _
    | exact holds_ror h _ _
    | exact holds_rol h _ _
    | exact holds_lsr h _ _
    | exact holds_asl h _ _
    | exact holds_inc h _ _
    | apply holds_ite
    | apply holds_bind
    | exact holds_modify_core (fun _ => rfl)
    | (refine holds_modify_core (fun _ => ?_); split <;> rfl)

theorem holds_tsb [CoreInv I] (low : Nat) (high : Nat) :
    Holds I (cpu_tsb h low high) := by
  unfold cpu_tsb
  repeat' first
    | intro _
    | exact holds_pure _
    | exact holds_getCpu
    | exact holds_read h _
    | exact holds_write h _ _
    | exact holds_idle h
    | exact holds_idleWait h
    | exact holds_checkInt
    | exact holds_setZN _ _
    | exact holds_pullByte h
    | exact holds_pushByte h _
    | exact holds_readOpcode h
    | exact holds_readOpcodeWord h _
    | exact holds_doBranch h _
    | exact holds_readWord h _ _ _
    | exact holds_writeWord h _ _ _ _ _
    | exact holds_pullWord h _
    | exact holds_pushWord h _ _
    | exact holds_doInterrupt h
    | exact holds_adrImp h
    | exact holds_adrImm _
    | exact holds_adrDp h
    | exact holds_adrDpx h
    | exact holds_adrDpy h
    | exact holds_adrIdp h
    | exact holds_adrIdx h
    | exact holds_adrIdy h _
    | exact holds_adrIdl h
    | exact holds_adrIly h
    | exact holds_adrSr h
    | exact holds_adrIsy h
    | exact holds_adrAbs h
    | exact holds_adrAbx h _
    | exact holds_adrAby h _
    | exact holds_adrAbl h
    | exact holds_adrAlx h
    | exact holds_and h _ _
    | exact holds_ora h _ _
    | exact holds_eor h _ _
    | exact holds_adc h _ _
    | exact holds_sbc h _ _
    | exact holds_cmp h _ _
    | exact holds_cpx h _ _
    | exact holds_cpy h _ _
    | exact holds_bit h _ _
    | exact holds_lda h _ _
    | exact holds_sta h _ _
    | exact holds_stx h _ _
    | exact holds_sty h _ _
    | exact holds_stz h _ _
    | exact holds_ror h _ _
    | exact holds_rol h _ _
    | exact holds_lsr h _ _
    | exact holds_asl h _ _
    | exact holds_inc h _ _
    | exact holds_dec h _ _
    | apply holds_ite
    | apply holds_bind
    | exact holds_modify_core (fun _ => rfl)
    | (refine holds_modify_core (fun _ => ?_); split <;> rfl)

theorem holds_trb [CoreInv I] (low : Nat) (high : Nat) :
    Holds I (cpu_trb h low high) := by
  unfold cpu_trb
  repeat' first
    | intro _
    | exact holds_pure _
    | exact holds_getCpu
    | exact holds_read h _
    | exact holds_write h _ _
    | exact holds_idle h
    | exact holds_idleWait h
    | exact holds_checkInt
    | exact holds_setZN _ _
    | exact holds_pullByte h
    | exact holds_pushByte h _
    | exact holds_readOpcode h
    | exact holds_readOpcodeWord h _
    | exact holds_doBranch h _
    | exact holds_readWord h _ _ _
    | exact holds_writeWord h _ _ _ _ _
    | exact holds_pullWord h _
    | exact holds_pushWord h _ _
    | exact holds_doInterrupt h
    | exact holds_adrImp h
    | exact holds_adrImm _
    | exact holds_adrDp h
    | exact holds_adrDpx h
    | exact holds_adrDpy h
    | exact holds_adrIdp h
    | exact holds_adrIdx h
    | exact holds_adrIdy h _
    | exact holds_adrIdl h
    | exact holds_adrIly h
    | exact holds_adrSr h
    | exact holds_adrIsy h
    | exact holds_adrAbs h
    | exact holds_adrAbx h _
    | exact holds_adrAby h _
    | exact holds_adrAbl h
    | exact holds_adrAlx h
    | exact holds_and h _ _
    | exact holds_ora h _ _
    | exact holds_eor h _ _
    | exact holds_adc h _ _
    | exact holds_sbc h _ _
    | exact holds_cmp h _ _
    | exact holds_cpx h _ _
    | exact holds_cpy h _ _
    | exact holds_bit h _ _
    | exact holds_lda h _ _
    | exact holds_sta h _ _
    | exact holds_stx h _ _
    | exact holds_sty h _ _
    | exact holds_stz h _ _
    | exact holds_ror h _ _
    | exact holds_rol h _ _
    | exact holds_lsr h _ _
    | exact holds_asl h _ _
    | exact holds_inc h _ _
    | exact holds_dec h _ _
    | exact holds_tsb h _ _
    | apply holds_ite
    | apply holds_bind
    | exact holds_modify_core (fun _ => rfl)
    | (refine holds_modify_core (fun _ => ?_); split <;> rfl)


/-! ### Reads return bytes -/

theorem read_lt (adr : Nat) (s : Machine μ) : ((cpu_read h adr).run s).1 < 256 := by
  unfold cpu_read CpuM.run
  exact Nat.mod_lt _ (by decide)

theorem pullByte_lt (s : Machine μ) : ((cpu_pullByte h).run s).1 < 256 := by
  unfold cpu_pullByte
  simp only [run_bind]
  exact read_lt h _ _

theorem holds_bind_read [CoreInv I] {β : Type} (adr : Nat) {f : Nat → CpuM μ β}
    (hf : ∀ v, v < 256 → Holds I (f v)) : Holds I (cpu_read h adr >>= f) :=
  ⟨fun s hs => (hf _ (read_lt h adr s)).inv _ ((holds_read h adr).inv s hs)⟩

theorem holds_bind_pullByte [CoreInv I] [SpInv I] {β : Type} {f : Nat → CpuM μ β}
    (hf : ∀ v, v < 256 → Holds I (f v)) : Holds I (cpu_pullByte h >>= f) :=
  ⟨fun s hs => (hf _ (pullByte_lt h s)).inv _ ((holds_pullByte h).inv s hs)⟩

/-! ### Updates of the width-sensitive registers -/

theorem inv_setFlags (c : Cpu) (val : Nat) : Inv (setFlags c val) := by
  unfold setFlags Inv
  by_cases he : c.e = true <;> by_cases hx : ((val % 256) &&& 0x10 != 0) = true <;>
    simp [he, hx, page1_of_or, and_ff_and_ff00]

theorem inv_set_x {c : Cpu} {v : Nat} (hv : v < 256) (hc : Inv c) : Inv { c with x := v } :=
  ⟨hc.1, fun hx => ⟨byte_and_ff00 hv, (hc.2 hx).2⟩⟩

theorem inv_set_y {c : Cpu} {v : Nat} (hv : v < 256) (hc : Inv c) : Inv { c with y := v } :=
  ⟨hc.1, fun hx => ⟨(hc.2 hx).1, byte_and_ff00 hv⟩⟩

theorem invNX_of_flags (c c2 : Cpu) (he : c2.e = c.e) (hx : c2.xf = c.xf) (hc : InvNX c) :
    InvNX c2 := by
  obtain ⟨⟨h1, h2⟩, h3⟩ := hc
  refine ⟨⟨fun h => ?_, fun h => ?_⟩, by rw [hx]; exact h3⟩
  · rw [he] at h; have := (h1 h).2.1; rw [h3] at this; exact Bool.noConfusion this
  · rw [hx, h3] at h; exact Bool.noConfusion h

theorem invNX_set_x (c : Cpu) (v : Nat) (hc : InvNX c) : InvNX { c with x := v } :=
  invNX_of_flags c _ rfl rfl hc

theorem invNX_set_y (c : Cpu) (v : Nat) (hc : InvNX c) : InvNX { c with y := v } :=
  invNX_of_flags c _ rfl rfl hc

theorem inv_blockMoveRegs (step : Nat → Nat) (c : Cpu) (hc : Inv c) : Inv (blockMoveRegs step c) := by
  unfold blockMoveRegs
  unfold Inv at hc ⊢
  simp only []
  split <;> split <;> simp_all [and_ff_and_ff00]

theorem holds_blockMoveRegs (step : Nat → Nat) :
    Holds Inv (modifyCpu (blockMoveRegs step) : CpuM μ Unit) :=
  holds_modify (inv_blockMoveRegs step)

theorem holds_setFlags (val : Nat) : Holds Inv (cpu_setFlags val : CpuM μ Unit) := by
  unfold cpu_setFlags
  exact holds_modify (fun c _ => inv_setFlags c val)

/-- Any register update that is directly followed by `cpu_setFlags` leaves the
invariant established, whatever it did to E, the flags or SP. -/
theorem holds_setFlags_after (f : Cpu → Cpu) (g : Cpu → Nat) :
    Holds Inv ((modifyCpu f >>= fun _ => getCpu >>= fun c => cpu_setFlags (g c)) : CpuM μ Unit) := by
  constructor
  intro s _
  simp only [run_bind, run_modifyCpu, run_getCpu]
  unfold cpu_setFlags
  simp only [run_modifyCpu]
  exact inv_setFlags _ _

theorem holds_branch_xf {α : Type} {A B : CpuM μ α} (hA : Holds Inv A) (hB : Holds InvNX B) :
    Holds Inv (getCpu >>= fun c => if c.xf = true then A else B) := by
  constructor
  intro s hs
  rw [run_bind, run_getCpu]
  by_cases hx : s.cpu.xf = true
  · have hb : (if (s.cpu, s).1.xf = true then A else B) = A := if_pos hx
    rw [hb]; exact hA.inv s hs
  · have hb : (if (s.cpu, s).1.xf = true then A else B) = B := if_neg hx
    rw [hb]; exact (hB.inv s ⟨hs, by simpa using hx⟩).1

theorem holds_ldx (low high : Nat) : Holds Inv (cpu_ldx h low high) := by
  unfold cpu_ldx
  apply holds_branch_xf
  repeat' first
    | intro _
    | exact holds_pure _
    | exact holds_getCpu
    | exact holds_read h _
    | exact holds_write h _ _
    | exact holds_idle h
    | exact holds_idleWait h
    | exact holds_checkInt
    | exact holds_setZN _ _
    | exact holds_pullByte h
    | exact holds_pushByte h _
    | exact holds_readOpcode h
    | exact holds_readOpcodeWord h _
    | exact holds_doBranch h _
    | exact holds_readWord h _ _ _
    | exact holds_writeWord h _ _ _ _ _
    | exact holds_pullWord h _
    | exact holds_pushWord h _ _
    | exact holds_doInterrupt h
    | exact holds_adrImp h
    | exact holds_adrImm _
    | exact holds_adrDp h
    | exact holds_adrDpx h
    | exact holds_adrDpy h
    | exact holds_adrIdp h
    | exact holds_adrIdx h
    | exact holds_adrIdy h _
    | exact holds_adrIdl h
    | exact holds_adrIly h
    | exact holds_adrSr h
    | exact holds_adrIsy h
    | exact holds_adrAbs h
    | exact holds_adrAbx h _
    | exact holds_adrAby h _
    | exact holds_adrAbl h
    | exact holds_adrAlx h
    | exact holds_and h _ _
    | exact holds_ora h _ _
    | exact holds_eor h _ _
    | exact holds_adc h _ _
    | exact holds_sbc h _ _
    | exact holds_cmp h _ _
    | exact holds_cpx h _ _
    | exact holds_cpy h _ _
    | exact holds_bit h _ _
    | exact holds_lda h _ _
    | exact holds_sta h _ _
    | exact holds_stx h _ _
    | exact holds_sty h _ _
    | exact holds_stz h _ _
    | exact holds_ror h _ _
    | exact holds_rol h _ _
    | exact holds_lsr h _ _
    | exact holds_asl h _ _
    | exact holds_inc h _ _
    | exact holds_dec h _ _
    | exact holds_tsb h _ _
    | exact holds_trb h _ _
    | apply holds_bind_read
    | apply holds_bind_pullByte
    | apply holds_ite
    | apply holds_bind
    | exact holds_modify_core (fun _ => rfl)
    | (refine holds_modify_core (fun _ => ?_); split <;> rfl)
    | (refine holds_modify (fun c hc => inv_set_x ?_ hc); assumption)
    | (refine holds_modify (fun c hc => inv_set_y ?_ hc); assumption)
    | exact holds_modify (fun c hc => invNX_set_x c _ hc)
    | exact holds_modify (fun c hc => invNX_set_y c _ hc)

theorem holds_ldy (low high : Nat) : Holds Inv (cpu_ldy h low high) := by
  unfold cpu_ldy
  apply holds_branch_xf
  repeat' first
    | intro _
    | exact holds_pure _
    | exact holds_getCpu
    | exact holds_read h _
    | exact holds_write h _ _
    | exact holds_idle h
    | exact holds_idleWait h
    | exact holds_checkInt
    | exact holds_setZN _ _
    | exact holds_pullByte h
    | exact holds_pushByte h _
    | exact holds_readOpcode h
    | exact holds_readOpcodeWord h _
    | exact holds_doBranch h _
    | exact holds_readWord h _ _ _
    | exact holds_writeWord h _ _ _ _ _
    | exact holds_pullWord h _
    | exact holds_pushWord h _ _
    | exact holds_doInterrupt h
    | exact holds_adrImp h
    | exact holds_adrImm _
    | exact holds_adrDp h
    | exact holds_adrDpx h
    | exact holds_adrDpy h
    | exact holds_adrIdp h
    | exact holds_adrIdx h
    | exact holds_adrIdy h _
    | exact holds_adrIdl h
    | exact holds_adrIly h
    | exact holds_adrSr h
    | exact holds_adrIsy h
    | exact holds_adrAbs h
    | exact holds_adrAbx h _
    | exact holds_adrAby h _
    | exact holds_adrAbl h
    | exact holds_adrAlx h
    | exact holds_and h _ _
    | exact holds_ora h _ _
    | exact holds_eor h _ _
    | exact holds_adc h _ _
    | exact holds_sbc h _ _
    | exact holds_cmp h _ _
    | exact holds_cpx h _ _
    | exact holds_cpy h _ _
    | exact holds_bit h _ _
    | exact holds_lda h _ _
    | exact holds_sta h _ _
    | exact holds_stx h _ _
    | exact holds_sty h _ _
    | exact holds_stz h _ _
    | exact holds_ror h _ _
    | exact holds_rol h _ _
    | exact holds_lsr h _ _
    | exact holds_asl h _ _
    | exact holds_inc h _ _
    | exact holds_dec h _ _
    | exact holds_tsb h _ _
    | exact holds_trb h _ _
    | exact holds_ldx h _ _
    | apply holds_bind_read
    | apply holds_bind_pullByte
    | apply holds_ite
    | apply holds_bind
    | exact holds_modify_core (fun _ => rfl)
    | (refine holds_modify_core (fun _ => ?_); split <;> rfl)
    | (refine holds_modify (fun c hc => inv_set_x ?_ hc); assumption)
    | (refine holds_modify (fun c hc => inv_set_y ?_ hc); assumption)
    | exact holds_modify (fun c hc => invNX_set_x c _ hc)
    | exact holds_modify (fun c hc => invNX_set_y c _ hc)

theorem holds_doOpcode0 (opcode : Nat) : Holds Inv (cpu_doOpcode0 h opcode) := by
  unfold cpu_doOpcode0
  split
  all_goals
    repeat' first
      | intro _
      | exact holds_pure _
      | exact holds_getCpu
      | exact holds_read h _
      | exact holds_write h _ _
      | exact holds_idle h
      | exact holds_idleWait h
      | exact holds_checkInt
      | exact holds_setZN _ _
      | exact holds_pullByte h
      | exact holds_pushByte h _
      | exact holds_readOpcode h
      | exact holds_readOpcodeWord h _
      | exact holds_doBranch h _
      | exact holds_readWord h _ _ _
      | exact holds_writeWord h _ _ _ _ _
      | exact holds_pullWord h _
      | exact holds_pushWord h _ _
      | exact holds_doInterrupt h
      | exact holds_adrImp h
      | exact holds_adrImm _
      | exact holds_adrDp h
      | exact holds_adrDpx h
      | exact holds_adrDpy h
      | exact holds_adrIdp h
      | exact holds_adrIdx h
      | exact holds_adrIdy h _
      | exact holds_adrIdl h
      | exact holds_adrIly h
      | exact holds_adrSr h
      | exact holds_adrIsy h
      | exact holds_adrAbs h
      | exact holds_adrAbx h _
      | exact holds_adrAby h _
      | exact holds_adrAbl h
      | exact holds_adrAlx h
      | exact holds_and h _ _
      | exact holds_ora h _ _
      | exact holds_eor h _ _
      | exact holds_adc h _ _
      | exact holds_sbc h _ _
      | exact holds_cmp h _ _
      | exact holds_cpx h _ _
      | exact holds_cpy h _ _
      | exact holds_bit h _ _
      | exact holds_lda h _ _
      | exact holds_sta h _ _
      | exact holds_stx h _ _
      | exact holds_sty h _ _
      | exact holds_stz h _ _
      | exact holds_ror h _ _
      | exact holds_rol h _ _
      | exact holds_lsr h _ _
      | exact holds_asl h _ _
      | exact holds_inc h _ _
      | exact holds_dec h _ _
      | exact holds_tsb h _ _
      | exact holds_trb h _ _
      | exact holds_ldx h _ _
      | exact holds_ldy h _ _
      | exact holds_blockMoveRegs _
      | exact holds_setFlags _
      | exact holds_setFlags_after _ _
      | apply holds_branch_xf
      | apply holds_bind_read
      | apply holds_bind_pullByte
      | apply holds_ite
      | apply holds_bind
      | (refine holds_modify (fun c hc => inv_set_x ?_ hc); assumption)
      | (refine holds_modify (fun c hc => inv_set_y ?_ hc); assumption)
      | exact holds_modify (fun c hc => invNX_set_x c _ hc)
      | exact holds_modify (fun c hc => invNX_set_y c _ hc)
      | (refine holds_modify (fun c hc => ?_); unfold Inv at hc ⊢; (try simp only []); first | (split <;> split <;> simp_all [and_ff_and_ff00, page1_of_or, cAnd_ff_and_ff00]) | (split <;> simp_all [and_ff_and_ff00, page1_of_or, cAnd_ff_and_ff00]) | simp_all [and_ff_and_ff00, page1_of_or, cAnd_ff_and_ff00])

theorem holds_doOpcode1 (opcode : Nat) : Holds Inv (cpu_doOpcode1 h opcode) := by
  unfold cpu_doOpcode1
  split
  all_goals
    repeat' first
      | intro _
      | exact holds_pure _
      | exact holds_getCpu
      | exact holds_read h _
      | exact holds_write h _ _
      | exact holds_idle h
      | exact holds_idleWait h
      | exact holds_checkInt
      | exact holds_setZN _ _
      | exact holds_pullByte h
      | exact holds_pushByte h _
      | exact holds_readOpcode h
      | exact holds_readOpcodeWord h _
      | exact holds_doBranch h _
      | exact holds_readWord h _ _ _
      | exact holds_writeWord h _ _ _ _ _
      | exact holds_pullWord h _
      | exact holds_pushWord h _ _
      | exact holds_doInterrupt h
      | exact holds_adrImp h
      | exact holds_adrImm _
      | exact holds_adrDp h
      | exact holds_adrDpx h
      | exact holds_adrDpy h
      | exact holds_adrIdp h
      | exact holds_adrIdx h
      | exact holds_adrIdy h _
      | exact holds_adrIdl h
      | exact holds_adrIly h
      | exact holds_adrSr h
      | exact holds_adrIsy h
      | exact holds_adrAbs h
      | exact holds_adrAbx h _
      | exact holds_adrAby h _
      | exact holds_adrAbl h
      | exact holds_adrAlx h
      | exact holds_and h _ _
      | exact holds_ora h _ _
      | exact holds_eor h _ _
      | exact holds_adc h _ _
      | exact holds_sbc h _ _
      | exact holds_cmp h _ _
      | exact holds_cpx h _ _
      | exact holds_cpy h _ _
      | exact holds_bit h _ _
      | exact holds_lda h _ _
      | exact holds_sta h _ _
      | exact holds_stx h _ _
      | exact holds_sty h _ _
      | exact holds_stz h _ _
      | exact holds_ror h _ _
      | exact holds_rol h _ _
      | exact holds_lsr h _ _
      | exact holds_asl h _ _
      | exact holds_inc h _ _
      | exact holds_dec h _ _
      | exact holds_tsb h _ _
      | exact holds_trb h _ _
      | exact holds_ldx h _ _
      | exact holds_ldy h _ _
      | exact holds_blockMoveRegs _
      | exact holds_setFlags _
      | exact holds_setFlags_after _ _
      | apply holds_branch_xf
      | apply holds_bind_read
      | apply holds_bind_pullByte
      | apply holds_ite
      | apply holds_bind
      | (refine holds_modify (fun c hc => inv_set_x ?_ hc); assumption)
      | (refine holds_modify (fun c hc => inv_set_y ?_ hc); assumption)
      | exact holds_modify (fun c hc => invNX_set_x c _ hc)
      | exact holds_modify (fun c hc => invNX_set_y c _ hc)
      | (refine holds_modify (fun c hc => ?_); unfold Inv at hc ⊢; (try simp only []); first | (split <;> split <;> simp_all [and_ff_and_ff00, page1_of_or, cAnd_ff_and_ff00]) | (split <;> simp_all [and_ff_and_ff00, page1_of_or, cAnd_ff_and_ff00]) | simp_all [and_ff_and_ff00, page1_of_or, cAnd_ff_and_ff00])

theorem holds_doOpcode2 (opcode : Nat) : Holds Inv (cpu_doOpcode2 h opcode) := by
  unfold cpu_doOpcode2
  split
  all_goals
    repeat' first
      | intro _
      | exact holds_pure _
      | exact holds_getCpu
      | exact holds_read h _
      | exact holds_write h _ _
      | exact holds_idle h
      | exact holds_idleWait h
      | exact holds_checkInt
      | exact holds_setZN _ _
      | exact holds_pullByte h
      | exact holds_pushByte h _
      | exact holds_readOpcode h
      | exact holds_readOpcodeWord h _
      | exact holds_doBranch h _
      | exact holds_readWord h _ _ _
      | exact holds_writeWord h _ _ _ _ _
      | exact holds_pullWord h _
      | exact holds_pushWord h _ _
      | exact holds_doInterrupt h
      | exact holds_adrImp h
      | exact holds_adrImm _
      | exact holds_adrDp h
      | exact holds_adrDpx h
      | exact holds_adrDpy h
      | exact holds_adrIdp h
      | exact holds_adrIdx h
      | exact holds_adrIdy h _
      | exact holds_adrIdl h
      | exact holds_adrIly h
      | exact holds_adrSr h
      | exact holds_adrIsy h
      | exact holds_adrAbs h
      | exact holds_adrAbx h _
      | exact holds_adrAby h _
      | exact holds_adrAbl h
      | exact holds_adrAlx h
      | exact holds_and h _ _
      | exact holds_ora h _ _
      | exact holds_eor h _ _
      | exact holds_adc h _ _
      | exact holds_sbc h _ _
      | exact holds_cmp h _ _
      | exact holds_cpx h _ _
      | exact holds_cpy h _ _
      | exact holds_bit h _ _
      | exact holds_lda h _ _
      | exact holds_sta h _ _
      | exact holds_stx h _ _
      | exact holds_sty h _ _
      | exact holds_stz h _ _
      | exact holds_ror h _ _
      | exact holds_rol h _ _
      | exact holds_lsr h _ _
      | exact holds_asl h _ _
      | exact holds_inc h _ _
      | exact holds_dec h _ _
      | exact holds_tsb h _ _
      | exact holds_trb h _ _
      | exact holds_ldx h _ _
      | exact holds_ldy h _ _
      | exact holds_blockMoveRegs _
      | exact holds_setFlags _
      | exact holds_setFlags_after _ _
      | apply holds_branch_xf
      | apply holds_bind_read
      | apply holds_bind_pullByte
      | apply holds_ite
      | apply holds_bind
      | (refine holds_modify (fun c hc => inv_set_x ?_ hc); assumption)
      | (refine holds_modify (fun c hc => inv_set_y ?_ hc); assumption)
      | exact holds_modify (fun c hc => invNX_set_x c _ hc)
      | exact holds_modify (fun c hc => invNX_set_y c _ hc)
      | (refine holds_modify (fun c hc => ?_); unfold Inv at hc ⊢; (try simp only []); first | (split <;> split <;> simp_all [and_ff_and_ff00, page1_of_or, cAnd_ff_and_ff00]) | (split <;> simp_all [and_ff_and_ff00, page1_of_or, cAnd_ff_and_ff00]) | simp_all [and_ff_and_ff00, page1_of_or, cAnd_ff_and_ff00])

theorem holds_doOpcode3 (opcode : Nat) : Holds Inv (cpu_doOpcode3 h opcode) := by
  unfold cpu_doOpcode3
  split
  all_goals
    repeat' first
      | intro _
      | exact holds_pure _
      | exact holds_getCpu
      | exact holds_read h _
      | exact holds_write h _ _
      | exact holds_idle h
      | exact holds_idleWait h
      | exact holds_checkInt
      | exact holds_setZN _ _
      | exact holds_pullByte h
      | exact holds_pushByte h _
      | exact holds_readOpcode h
      | exact holds_readOpcodeWord h _
      | exact holds_doBranch h _
      | exact holds_readWord h _ _ _
      | exact holds_writeWord h _ _ _ _ _
      | exact holds_pullWord h _
      | exact holds_pushWord h _ _
      | exact holds_doInterrupt h
      | exact holds_adrImp h
      | exact holds_adrImm _
      | exact holds_adrDp h
      | exact holds_adrDpx h
      | exact holds_adrDpy h
      | exact holds_adrIdp h
      | exact holds_adrIdx h
      | exact holds_adrIdy h _
      | exact holds_adrIdl h
      | exact holds_adrIly h
      | exact holds_adrSr h
      | exact holds_adrIsy h
      | exact holds_adrAbs h
      | exact holds_adrAbx h _
      | exact holds_adrAby h _
      | exact holds_adrAbl h
      | exact holds_adrAlx h
      | exact holds_and h _ _
      | exact holds_ora h _ _
      | exact holds_eor h _ _
      | exact holds_adc h _ _
      | exact holds_sbc h _ _
      | exact holds_cmp h _ _
      | exact holds_cpx h _ _
      | exact holds_cpy h _ _
      | exact holds_bit h _ _
      | exact holds_lda h _ _
      | exact holds_sta h _ _
      | exact holds_stx h _ _
      | exact holds_sty h _ _
      | exact holds_stz h _ _
      | exact holds_ror h _ _
      | exact holds_rol h _ _
      | exact holds_lsr h _ _
      | exact holds_asl h _ _
      | exact holds_inc h _ _
      | exact holds_dec h _ _
      | exact holds_tsb h _ _
      | exact holds_trb h _ _
      | exact holds_ldx h _ _
      | exact holds_ldy h _ _
      | exact holds_blockMoveRegs _
      | exact holds_setFlags _
      | exact holds_setFlags_after _ _
      | apply holds_branch_xf
      | apply holds_bind_read
      | apply holds_bind_pullByte
      | apply holds_ite
      | apply holds_bind
      | (refine holds_modify (fun c hc => inv_set_x ?_ hc); assumption)
      | (refine holds_modify (fun c hc => inv_set_y ?_ hc); assumption)
      | exact holds_modify (fun c hc => invNX_set_x c _ hc)
      | exact holds_modify (fun c hc => invNX_set_y c _ hc)
      | (refine holds_modify (fun c hc => ?_); unfold Inv at hc ⊢; (try simp only []); first | (split <;> split <;> simp_all [and_ff_and_ff00, page1_of_or, cAnd_ff_and_ff00]) | (split <;> simp_all [and_ff_and_ff00, page1_of_or, cAnd_ff_and_ff00]) | simp_all [and_ff_and_ff00, page1_of_or, cAnd_ff_and_ff00])

theorem holds_doOpcode4 (opcode : Nat) : Holds Inv (cpu_doOpcode4 h opcode) := by
  unfold cpu_doOpcode4
  split
  all_goals
    repeat' first
      | intro _
      | exact holds_pure _
      | exact holds_getCpu
      | exact holds_read h _
      | exact holds_write h _ _
      | exact holds_idle h
      | exact holds_idleWait h
      | exact holds_checkInt
      | exact holds_setZN _ _
      | exact holds_pullByte h
      | exact holds_pushByte h _
      | exact holds_readOpcode h
      | exact holds_readOpcodeWord h _
      | exact holds_doBranch h _
      | exact holds_readWord h _ _ _
      | exact holds_writeWord h _ _ _ _ _
      | exact holds_pullWord h _
      | exact holds_pushWord h _ _
      | exact holds_doInterrupt h
      | exact holds_adrImp h
      | exact holds_adrImm _
      | exact holds_adrDp h
      | exact holds_adrDpx h
      | exact holds_adrDpy h
      | exact holds_adrIdp h
      | exact holds_adrIdx h
      | exact holds_adrIdy h _
      | exact holds_adrIdl h
      | exact holds_adrIly h
      | exact holds_adrSr h
      | exact holds_adrIsy h
      | exact holds_adrAbs h
      | exact holds_adrAbx h _
      | exact holds_adrAby h _
      | exact holds_adrAbl h
      | exact holds_adrAlx h
      | exact holds_and h _ _
      | exact holds_ora h _ _
      | exact holds_eor h _ _
      | exact holds_adc h _ _
      | exact holds_sbc h _ _
      | exact holds_cmp h _ _
      | exact holds_cpx h _ _
      | exact holds_cpy h _ _
      | exact holds_bit h _ _
      | exact holds_lda h _ _
      | exact holds_sta h _ _
      | exact holds_stx h _ _
      | exact holds_sty h _ _
      | exact holds_stz h _ _
      | exact holds_ror h _ _
      | exact holds_rol h _ _
      | exact holds_lsr h _ _
      | exact holds_asl h _ _
      | exact holds_inc h _ _
      | exact holds_dec h _ _
      | exact holds_tsb h _ _
      | exact holds_trb h _ _
      | exact holds_ldx h _ _
      | exact holds_ldy h _ _
      | exact holds_blockMoveRegs _
      | exact holds_setFlags _
      | exact holds_setFlags_after _ _
      | apply holds_branch_xf
      | apply holds_bind_read
      | apply holds_bind_pullByte
      | apply holds_ite
      | apply holds_bind
      | (refine holds_modify (fun c hc => inv_set_x ?_ hc); assumption)
      | (refine holds_modify (fun c hc => inv_set_y ?_ hc); assumption)
      | exact holds_modify (fun c hc => invNX_set_x c _ hc)
      | exact holds_modify (fun c hc => invNX_set_y c _ hc)
      | (refine holds_modify (fun c hc => ?_); unfold Inv at hc ⊢; (try simp only []); first | (split <;> split <;> simp_all [and_ff_and_ff00, page1_of_or, cAnd_ff_and_ff00]) | (split <;> simp_all [and_ff_and_ff00, page1_of_or, cAnd_ff_and_ff00]) | simp_all [and_ff_and_ff00, page1_of_or, cAnd_ff_and_ff00])

theorem holds_doOpcode5 (opcode : Nat) : Holds Inv (cpu_doOpcode5 h opcode) := by
  unfold cpu_doOpcode5
  split
  all_goals
    repeat' first
      | intro _
      | exact holds_pure _
      | exact holds_getCpu
      | exact holds_read h _
      | exact holds_write h _ _
      | exact holds_idle h
      | exact holds_idleWait h
      | exact holds_checkInt
      | exact holds_setZN _ _
      | exact holds_pullByte h
      | exact holds_pushByte h _
      | exact holds_readOpcode h
      | exact holds_readOpcodeWord h _
      | exact holds_doBranch h _
      | exact holds_readWord h _ _ _
      | exact holds_writeWord h _ _ _ _ _
      | exact holds_pullWord h _
      | exact holds_pushWord h _ _
      | exact holds_doInterrupt h
      | exact holds_adrImp h
      | exact holds_adrImm _
      | exact holds_adrDp h
      | exact holds_adrDpx h
      | exact holds_adrDpy h
      | exact holds_adrIdp h
      | exact holds_adrIdx h
      | exact holds_adrIdy h _
      | exact holds_adrIdl h
      | exact holds_adrIly h
      | exact holds_adrSr h
      | exact holds_adrIsy h
      | exact holds_adrAbs h
      | exact holds_adrAbx h _
      | exact holds_adrAby h _
      | exact holds_adrAbl h
      | exact holds_adrAlx h
      | exact holds_and h _ _
      | exact holds_ora h _ _
      | exact holds_eor h _ _
      | exact holds_adc h _ _
      | exact holds_sbc h _ _
      | exact holds_cmp h _ _
      | exact holds_cpx h _ _
      | exact holds_cpy h _ _
      | exact holds_bit h _ _
      | exact holds_lda h _ _
      | exact holds_sta h _ _
      | exact holds_stx h _ _
      | exact holds_sty h _ _
      | exact holds_stz h _ _
      | exact holds_ror h _ _
      | exact holds_rol h _ _
      | exact holds_lsr h _ _
      | exact holds_asl h _ _
      | exact holds_inc h _ _
      | exact holds_dec h _ _
      | exact holds_tsb h _ _
      | exact holds_trb h _ _
      | exact holds_ldx h _ _
      | exact holds_ldy h _ _
      | exact holds_blockMoveRegs _
      | exact holds_setFlags _
      | exact holds_setFlags_after _ _
      | apply holds_branch_xf
      | apply holds_bind_read
      | apply holds_bind_pullByte
      | apply holds_ite
      | apply holds_bind
      | (refine holds_modify (fun c hc => inv_set_x ?_ hc); assumption)
      | (refine holds_modify (fun c hc => inv_set_y ?_ hc); assumption)
      | exact holds_modify (fun c hc => invNX_set_x c _ hc)
      | exact holds_modify (fun c hc => invNX_set_y c _ hc)
      | (refine holds_modify (fun c hc => ?_); unfold Inv at hc ⊢; (try simp only []); first | (split <;> split <;> simp_all [and_ff_and_ff00, page1_of_or, cAnd_ff_and_ff00]) | (split <;> simp_all [and_ff_and_ff00, page1_of_or, cAnd_ff_and_ff00]) | simp_all [and_ff_and_ff00, page1_of_or, cAnd_ff_and_ff00])

theorem holds_doOpcode6 (opcode : Nat) : Holds Inv (cpu_doOpcode6 h opcode) := by
  unfold cpu_doOpcode6
  split
  all_goals
    repeat' first
      | intro _
      | exact holds_pure _
      | exact holds_getCpu
      | exact holds_read h _
      | exact holds_write h _ _
      | exact holds_idle h
      | exact holds_idleWait h
      | exact holds_checkInt
      | exact holds_setZN _ _
      | exact holds_pullByte h
      | exact holds_pushByte h _
      | exact holds_readOpcode h
      | exact holds_readOpcodeWord h _
      | exact holds_doBranch h _
      | exact holds_readWord h _ _ _
      | exact holds_writeWord h _ _ _ _ _
      | exact holds_pullWord h _
      | exact holds_pushWord h _ _
      | exact holds_doInterrupt h
      | exact holds_adrImp h
      | exact holds_adrImm _
      | exact holds_adrDp h
      | exact holds_adrDpx h
      | exact holds_adrDpy h
      | exact holds_adrIdp h
      | exact holds_adrIdx h
      | exact holds_adrIdy h _
      | exact holds_adrIdl h
      | exact holds_adrIly h
      | exact holds_adrSr h
      | exact holds_adrIsy h
      | exact holds_adrAbs h
      | exact holds_adrAbx h _
      | exact holds_adrAby h _
      | exact holds_adrAbl h
      | exact holds_adrAlx h
      | exact holds_and h _ _
      | exact holds_ora h _ _
      | exact holds_eor h _ _
      | exact holds_adc h _ _
      | exact holds_sbc h _ _
      | exact holds_cmp h _ _
      | exact holds_cpx h _ _
      | exact holds_cpy h _ _
      | exact holds_bit h _ _
      | exact holds_lda h _ _
      | exact holds_sta h _ _
      | exact holds_stx h _ _
      | exact holds_sty h _ _
      | exact holds_stz h _ _
      | exact holds_ror h _ _
      | exact holds_rol h _ _
      | exact holds_lsr h _ _
      | exact holds_asl h _ _
      | exact holds_inc h _ _
      | exact holds_dec h _ _
      | exact holds_tsb h _ _
      | exact holds_trb h _ _
      | exact holds_ldx h _ _
      | exact holds_ldy h _ _
      | exact holds_blockMoveRegs _
      | exact holds_setFlags _
      | exact holds_setFlags_after _ _
      | apply holds_branch_xf
      | apply holds_bind_read
      | apply holds_bind_pullByte
      | apply holds_ite
      | apply holds_bind
      | (refine holds_modify (fun c hc => inv_set_x ?_ hc); assumption)
      | (refine holds_modify (fun c hc => inv_set_y ?_ hc); assumption)
      | exact holds_modify (fun c hc => invNX_set_x c _ hc)
      | exact holds_modify (fun c hc => invNX_set_y c _ hc)
      | (refine holds_modify (fun c hc => ?_); unfold Inv at hc ⊢; (try simp only []); first | (split <;> split <;> simp_all [and_ff_and_ff00, page1_of_or, cAnd_ff_and_ff00]) | (split <;> simp_all [and_ff_and_ff00, page1_of_or, cAnd_ff_and_ff00]) | simp_all [and_ff_and_ff00, page1_of_or, cAnd_ff_and_ff00])

theorem holds_doOpcode7 (opcode : Nat) : Holds Inv (cpu_doOpcode7 h opcode) := by
  unfold cpu_doOpcode7
  split
  all_goals
    repeat' first
      | intro _
      | exact holds_pure _
      | exact holds_getCpu
      | exact holds_read h _
      | exact holds_write h _ _
      | exact holds_idle h
      | exact holds_idleWait h
      | exact holds_checkInt
      | exact holds_setZN _ _
      | exact holds_pullByte h
      | exact holds_pushByte h _
      | exact holds_readOpcode h
      | exact holds_readOpcodeWord h _
      | exact holds_doBranch h _
      | exact holds_readWord h _ _ _
      | exact holds_writeWord h _ _ _ _ _
      | exact holds_pullWord h _
      | exact holds_pushWord h _ _
      | exact holds_doInterrupt h
      | exact holds_adrImp h
      | exact holds_adrImm _
      | exact holds_adrDp h
      | exact holds_adrDpx h
      | exact holds_adrDpy h
      | exact holds_adrIdp h
      | exact holds_adrIdx h
      | exact holds_adrIdy h _
      | exact holds_adrIdl h
      | exact holds_adrIly h
      | exact holds_adrSr h
      | exact holds_adrIsy h
      | exact holds_adrAbs h
      | exact holds_adrAbx h _
      | exact holds_adrAby h _
      | exact holds_adrAbl h
      | exact holds_adrAlx h
      | exact holds_and h _ _
      | exact holds_ora h _ _
      | exact holds_eor h _ _
      | exact holds_adc h _ _
      | exact holds_sbc h _ _
      | exact holds_cmp h _ _
      | exact holds_cpx h _ _
      | exact holds_cpy h _ _
      | exact holds_bit h _ _
      | exact holds_lda h _ _
      | exact holds_sta h _ _
      | exact holds_stx h _ _
      | exact holds_sty h _ _
      | exact holds_stz h _ _
      | exact holds_ror h _ _
      | exact holds_rol h _ _
      | exact holds_lsr h _ _
      | exact holds_asl h _ _
      | exact holds_inc h _ _
      | exact holds_dec h _ _
      | exact holds_tsb h _ _
      | exact holds_trb h _ _
      | exact holds_ldx h _ _
      | exact holds_ldy h _ _
      | exact holds_blockMoveRegs _
      | exact holds_setFlags _
      | exact holds_setFlags_after _ _
      | apply holds_branch_xf
      | apply holds_bind_read
      | apply holds_bind_pullByte
      | apply holds_ite
      | apply holds_bind
      | (refine holds_modify (fun c hc => inv_set_x ?_ hc); assumption)
      | (refine holds_modify (fun c hc => inv_set_y ?_ hc); assumption)
      | exact holds_modify (fun c hc => invNX_set_x c _ hc)
      | exact holds_modify (fun c hc => invNX_set_y c _ hc)
      | (refine holds_modify (fun c hc => ?_); unfold Inv at hc ⊢; (try simp only []); first | (split <;> split <;> simp_all [and_ff_and_ff00, page1_of_or, cAnd_ff_and_ff00]) | (split <;> simp_all [and_ff_and_ff00, page1_of_or, cAnd_ff_and_ff00]) | simp_all [and_ff_and_ff00, page1_of_or, cAnd_ff_and_ff00])

theorem holds_doOpcode8 (opcode : Nat) : Holds Inv (cpu_doOpcode8 h opcode) := by
  unfold cpu_doOpcode8
  split
  all_goals
    repeat' first
      | intro _
      | exact holds_pure _
      | exact holds_getCpu
      | exact holds_read h _
      | exact holds_write h _ _
      | exact holds_idle h
      | exact holds_idleWait h
      | exact holds_checkInt
      | exact holds_setZN _ _
      | exact holds_pullByte h
      | exact holds_pushByte h _
      | exact holds_readOpcode h
      | exact holds_readOpcodeWord h _
      | exact holds_doBranch h _
      | exact holds_readWord h _ _ _
      | exact holds_writeWord h _ _ _ _ _
      | exact holds_pullWord h _
      | exact holds_pushWord h _ _
      | exact holds_doInterrupt h
      | exact holds_adrImp h
      | exact holds_adrImm _
      | exact holds_adrDp h
      | exact holds_adrDpx h
      | exact holds_adrDpy h
      | exact holds_adrIdp h
      | exact holds_adrIdx h
      | exact holds_adrIdy h _
      | exact holds_adrIdl h
      | exact holds_adrIly h
      | exact holds_adrSr h
      | exact holds_adrIsy h
      | exact holds_adrAbs h
      | exact holds_adrAbx h _
      | exact holds_adrAby h _
      | exact holds_adrAbl h
      | exact holds_adrAlx h
      | exact holds_and h _ _
      | exact holds_ora h _ _
      | exact holds_eor h _ _
      | exact holds_adc h _ _
      | exact holds_sbc h _ _
      | exact holds_cmp h _ _
      | exact holds_cpx h _ _
      | exact holds_cpy h _ _
      | exact holds_bit h _ _
      | exact holds_lda h _ _
      | exact holds_sta h _ _
      | exact holds_stx h _ _
      | exact holds_sty h _ _
      | exact holds_stz h _ _
      | exact holds_ror h _ _
      | exact holds_rol h _ _
      | exact holds_lsr h _ _
      | exact holds_asl h _ _
      | exact holds_inc h _ _
      | exact holds_dec h _ _
      | exact holds_tsb h _ _
      | exact holds_trb h _ _
      | exact holds_ldx h _ _
      | exact holds_ldy h _ _
      | exact holds_blockMoveRegs _
      | exact holds_setFlags _
      | exact holds_setFlags_after _ _
      | apply holds_branch_xf
      | apply holds_bind_read
      | apply holds_bind_pullByte
      | apply holds_ite
      | apply holds_bind
      | (refine holds_modify (fun c hc => inv_set_x ?_ hc); assumption)
      | (refine holds_modify (fun c hc => inv_set_y ?_ hc); assumption)
      | exact holds_modify (fun c hc => invNX_set_x c _ hc)
      | exact holds_modify (fun c hc => invNX_set_y c _ hc)
      | (refine holds_modify (fun c hc => ?_); unfold Inv at hc ⊢; (try simp only []); first | (split <;> split <;> simp_all [and_ff_and_ff00, page1_of_or, cAnd_ff_and_ff00]) | (split <;> simp_all [and_ff_and_ff00, page1_of_or, cAnd_ff_and_ff00]) | simp_all [and_ff_and_ff00, page1_of_or, cAnd_ff_and_ff00])

theorem holds_doOpcode9 (opcode : Nat) : Holds Inv (cpu_doOpcode9 h opcode) := by
  unfold cpu_doOpcode9
  split
  all_goals
    repeat' first
      | intro _
      | exact holds_pure _
      | exact holds_getCpu
      | exact holds_read h _
      | exact holds_write h _ _
      | exact holds_idle h
      | exact holds_idleWait h
      | exact holds_checkInt
      | exact holds_setZN _ _
      | exact holds_pullByte h
      | exact holds_pushByte h _
      | exact holds_readOpcode h
      | exact holds_readOpcodeWord h _
      | exact holds_doBranch h _
      | exact holds_readWord h _ _ _
      | exact holds_writeWord h _ _ _ _ _
      | exact holds_pullWord h _
      | exact holds_pushWord h _ _
      | exact holds_doInterrupt h
      | exact holds_adrImp h
      | exact holds_adrImm _
      | exact holds_adrDp h
      | exact holds_adrDpx h
      | exact holds_adrDpy h
      | exact holds_adrIdp h
      | exact holds_adrIdx h
      | exact holds_adrIdy h _
      | exact holds_adrIdl h
      | exact holds_adrIly h
      | exact holds_adrSr h
      | exact holds_adrIsy h
      | exact holds_adrAbs h
      | exact holds_adrAbx h _
      | exact holds_adrAby h _
      | exact holds_adrAbl h
      | exact holds_adrAlx h
      | exact holds_and h _ _
      | exact holds_ora h _ _
      | exact holds_eor h _ _
      | exact holds_adc h _ _
      | exact holds_sbc h _ _
      | exact holds_cmp h _ _
      | exact holds_cpx h _ _
      | exact holds_cpy h _ _
      | exact holds_bit h _ _
      | exact holds_lda h _ _
      | exact holds_sta h _ _
      | exact holds_stx h _ _
      | exact holds_sty h _ _
      | exact holds_stz h _ _
      | exact holds_ror h _ _
      | exact holds_rol h _ _
      | exact holds_lsr h _ _
      | exact holds_asl h _ _
      | exact holds_inc h _ _
      | exact holds_dec h _ _
      | exact holds_tsb h _ _
      | exact holds_trb h _ _
      | exact holds_ldx h _ _
      | exact holds_ldy h _ _
      | exact holds_blockMoveRegs _
      | exact holds_setFlags _
      | exact holds_setFlags_after _ _
      | apply holds_branch_xf
      | apply holds_bind_read
      | apply holds_bind_pullByte
      | apply holds_ite
      | apply holds_bind
      | (refine holds_modify (fun c hc => inv_set_x ?_ hc); assumption)
      | (refine holds_modify (fun c hc => inv_set_y ?_ hc); assumption)
      | exact holds_modify (fun c hc => invNX_set_x c _ hc)
      | exact holds_modify (fun c hc => invNX_set_y c _ hc)
      | (refine holds_modify (fun c hc => ?_); unfold Inv at hc ⊢; (try simp only []); first | (split <;> split <;> simp_all [and_ff_and_ff00, page1_of_or, cAnd_ff_and_ff00]) | (split <;> simp_all [and_ff_and_ff00, page1_of_or, cAnd_ff_and_ff00]) | simp_all [and_ff_and_ff00, page1_of_or, cAnd_ff_and_ff00])

theorem holds_doOpcodeA (opcode : Nat) : Holds Inv (cpu_doOpcodeA h opcode) := by
  unfold cpu_doOpcodeA
  split
  all_goals
    repeat' first
      | intro _
      | exact holds_pure _
      | exact holds_getCpu
      | exact holds_read h _
      | exact holds_write h _ _
      | exact holds_idle h
      | exact holds_idleWait h
      | exact holds_checkInt
      | exact holds_setZN _ _
      | exact holds_pullByte h
      | exact holds_pushByte h _
      | exact holds_readOpcode h
      | exact holds_readOpcodeWord h _
      | exact holds_doBranch h _
      | exact holds_readWord h _ _ _
      | exact holds_writeWord h _ _ _ _ _
      | exact holds_pullWord h _
      | exact holds_pushWord h _ _
      | exact holds_doInterrupt h
      | exact holds_adrImp h
      | exact holds_adrImm _
      | exact holds_adrDp h
      | exact holds_adrDpx h
      | exact holds_adrDpy h
      | exact holds_adrIdp h
      | exact holds_adrIdx h
      | exact holds_adrIdy h _
      | exact holds_adrIdl h
      | exact holds_adrIly h
      | exact holds_adrSr h
      | exact holds_adrIsy h
      | exact holds_adrAbs h
      | exact holds_adrAbx h _
      | exact holds_adrAby h _
      | exact holds_adrAbl h
      | exact holds_adrAlx h
      | exact holds_and h _ _
      | exact holds_ora h _ _
      | exact holds_eor h _ _
      | exact holds_adc h _ _
      | exact holds_sbc h _ _
      | exact holds_cmp h _ _
      | exact holds_cpx h _ _
      | exact holds_cpy h _ _
      | exact holds_bit h _ _
      | exact holds_lda h _ _
      | exact holds_sta h _ _
      | exact holds_stx h _ _
      | exact holds_sty h _ _
      | exact holds_stz h _ _
      | exact holds_ror h _ _
      | exact holds_rol h _ _
      | exact holds_lsr h _ _
      | exact holds_asl h _ _
      | exact holds_inc h _ _
      | exact holds_dec h _ _
      | exact holds_tsb h _ _
      | exact holds_trb h _ _
      | exact holds_ldx h _ _
      | exact holds_ldy h _ _
      | exact holds_blockMoveRegs _
      | exact holds_setFlags _
      | exact holds_setFlags_after _ _
      | apply holds_branch_xf
      | apply holds_bind_read
      | apply holds_bind_pullByte
      | apply holds_ite
      | apply holds_bind
      | (refine holds_modify (fun c hc => inv_set_x ?_ hc); assumption)
      | (refine holds_modify (fun c hc => inv_set_y ?_ hc); assumption)
      | exact holds_modify (fun c hc => invNX_set_x c _ hc)
      | exact holds_modify (fun c hc => invNX_set_y c _ hc)
      | (refine holds_modify (fun c hc => ?_); unfold Inv at hc ⊢; (try simp only []); first | (split <;> split <;> simp_all [and_ff_and_ff00, page1_of_or, cAnd_ff_and_ff00]) | (split <;> simp_all [and_ff_and_ff00, page1_of_or, cAnd_ff_and_ff00]) | simp_all [and_ff_and_ff00, page1_of_or, cAnd_ff_and_ff00])

theorem holds_doOpcodeB (opcode : Nat) : Holds Inv (cpu_doOpcodeB h opcode) := by
  unfold cpu_doOpcodeB
  split
  all_goals
    repeat' first
      | intro _
      | exact holds_pure _
      | exact holds_getCpu
      | exact holds_read h _
      | exact holds_write h _ _
      | exact holds_idle h
      | exact holds_idleWait h
      | exact holds_checkInt
      | exact holds_setZN _ _
      | exact holds_pullByte h
      | exact holds_pushByte h _
      | exact holds_readOpcode h
      | exact holds_readOpcodeWord h _
      | exact holds_doBranch h _
      | exact holds_readWord h _ _ _
      | exact holds_writeWord h _ _ _ _ _
      | exact holds_pullWord h _
      | exact holds_pushWord h _ _
      | exact holds_doInterrupt h
      | exact holds_adrImp h
      | exact holds_adrImm _
      | exact holds_adrDp h
      | exact holds_adrDpx h
      | exact holds_adrDpy h
      | exact holds_adrIdp h
      | exact holds_adrIdx h
      | exact holds_adrIdy h _
      | exact holds_adrIdl h
      | exact holds_adrIly h
      | exact holds_adrSr h
      | exact holds_adrIsy h
      | exact holds_adrAbs h
      | exact holds_adrAbx h _
      | exact holds_adrAby h _
      | exact holds_adrAbl h
      | exact holds_adrAlx h
      | exact holds_and h _ _
      | exact holds_ora h _ _
      | exact holds_eor h _ _
      | exact holds_adc h _ _
      | exact holds_sbc h _ _
      | exact holds_cmp h _ _
      | exact holds_cpx h _ _
      | exact holds_cpy h _ _
      | exact holds_bit h _ _
      | exact holds_lda h _ _
      | exact holds_sta h _ _
      | exact holds_stx h _ _
      | exact holds_sty h _ _
      | exact holds_stz h _ _
      | exact holds_ror h _ _
      | exact holds_rol h _ _
      | exact holds_lsr h _ _
      | exact holds_asl h _ _
      | exact holds_inc h _ _
      | exact holds_dec h _ _
      | exact holds_tsb h _ _
      | exact holds_trb h _ _
      | exact holds_ldx h _ _
      | exact holds_ldy h _ _
      | exact holds_blockMoveRegs _
      | exact holds_setFlags _
      | exact holds_setFlags_after _ _
      | apply holds_branch_xf
      | apply holds_bind_read
      | apply holds_bind_pullByte
      | apply holds_ite
      | apply holds_bind
      | (refine holds_modify (fun c hc => inv_set_x ?_ hc); assumption)
      | (refine holds_modify (fun c hc => inv_set_y ?_ hc); assumption)
      | exact holds_modify (fun c hc => invNX_set_x c _ hc)
      | exact holds_modify (fun c hc => invNX_set_y c _ hc)
      | (refine holds_modify (fun c hc => ?_); unfold Inv at hc ⊢; (try simp only []); first | (split <;> split <;> simp_all [and_ff_and_ff00, page1_of_or, cAnd_ff_and_ff00]) | (split <;> simp_all [and_ff_and_ff00, page1_of_or, cAnd_ff_and_ff00]) | simp_all [and_ff_and_ff00, page1_of_or, cAnd_ff_and_ff00])

theorem holds_doOpcodeC (opcode : Nat) : Holds Inv (cpu_doOpcodeC h opcode) := by
  unfold cpu_doOpcodeC
  split
  all_goals
    repeat' first
      | intro _
      | exact holds_pure _
      | exact holds_getCpu
      | exact holds_read h _
      | exact holds_write h _ _
      | exact holds_idle h
      | exact holds_idleWait h
      | exact holds_checkInt
      | exact holds_setZN _ _
      | exact holds_pullByte h
      | exact holds_pushByte h _
      | exact holds_readOpcode h
      | exact holds_readOpcodeWord h _
      | exact holds_doBranch h _
      | exact holds_readWord h _ _ _
      | exact holds_writeWord h _ _ _ _ _
      | exact holds_pullWord h _
      | exact holds_pushWord h _ _
      | exact holds_doInterrupt h
      | exact holds_adrImp h
      | exact holds_adrImm _
      | exact holds_adrDp h
      | exact holds_adrDpx h
      | exact holds_adrDpy h
      | exact holds_adrIdp h
      | exact holds_adrIdx h
      | exact holds_adrIdy h _
      | exact holds_adrIdl h
      | exact holds_adrIly h
      | exact holds_adrSr h
      | exact holds_adrIsy h
      | exact holds_adrAbs h
      | exact holds_adrAbx h _
      | exact holds_adrAby h _
      | exact holds_adrAbl h
      | exact holds_adrAlx h
      | exact holds_and h _ _
      | exact holds_ora h _ _
      | exact holds_eor h _ _
      | exact holds_adc h _ _
      | exact holds_sbc h _ _
      | exact holds_cmp h _ _
      | exact holds_cpx h _ _
      | exact holds_cpy h _ _
      | exact holds_bit h _ _
      | exact holds_lda h _ _
      | exact holds_sta h _ _
      | exact holds_stx h _ _
      | exact holds_sty h _ _
      | exact holds_stz h _ _
      | exact holds_ror h _ _
      | exact holds_rol h _ _
      | exact holds_lsr h _ _
      | exact holds_asl h _ _
      | exact holds_inc h _ _
      | exact holds_dec h _ _
      | exact holds_tsb h _ _
      | exact holds_trb h _ _
      | exact holds_ldx h _ _
      | exact holds_ldy h _ _
      | exact holds_blockMoveRegs _
      | exact holds_setFlags _
      | exact holds_setFlags_after _ _
      | apply holds_branch_xf
      | apply holds_bind_read
      | apply holds_bind_pullByte
      | apply holds_ite
      | apply holds_bind
      | (refine holds_modify (fun c hc => inv_set_x ?_ hc); assumption)
      | (refine holds_modify (fun c hc => inv_set_y ?_ hc); assumption)
      | exact holds_modify (fun c hc => invNX_set_x c _ hc)
      | exact holds_modify (fun c hc => invNX_set_y c _ hc)
      | (refine holds_modify (fun c hc => ?_); unfold Inv at hc ⊢; (try simp only []); first | (split <;> split <;> simp_all [and_ff_and_ff00, page1_of_or, cAnd_ff_and_ff00]) | (split <;> simp_all [and_ff_and_ff00, page1_of_or, cAnd_ff_and_ff00]) | simp_all [and_ff_and_ff00, page1_of_or, cAnd_ff_and_ff00])

theorem holds_doOpcodeD (opcode : Nat) : Holds Inv (cpu_doOpcodeD h opcode) := by
  unfold cpu_doOpcodeD
  split
  all_goals
    repeat' first
      | intro _
      | exact holds_pure _
      | exact holds_getCpu
      | exact holds_read h _
      | exact holds_write h _ _
      | exact holds_idle h
      | exact holds_idleWait h
      | exact holds_checkInt
      | exact holds_setZN _ _
      | exact holds_pullByte h
      | exact holds_pushByte h _
      | exact holds_readOpcode h
      | exact holds_readOpcodeWord h _
      | exact holds_doBranch h _
      | exact holds_readWord h _ _ _
      | exact holds_writeWord h _ _ _ _ _
      | exact holds_pullWord h _
      | exact holds_pushWord h _ _
      | exact holds_doInterrupt h
      | exact holds_adrImp h
      | exact holds_adrImm _
      | exact holds_adrDp h
      | exact holds_adrDpx h
      | exact holds_adrDpy h
      | exact holds_adrIdp h
      | exact holds_adrIdx h
      | exact holds_adrIdy h _
      | exact holds_adrIdl h
      | exact holds_adrIly h
      | exact holds_adrSr h
      | exact holds_adrIsy h
      | exact holds_adrAbs h
      | exact holds_adrAbx h _
      | exact holds_adrAby h _
      | exact holds_adrAbl h
      | exact holds_adrAlx h
      | exact holds_and h _ _
      | exact holds_ora h _ _
      | exact holds_eor h _ _
      | exact holds_adc h _ _
      | exact holds_sbc h _ _
      | exact holds_cmp h _ _
      | exact holds_cpx h _ _
      | exact holds_cpy h _ _
      | exact holds_bit h _ _
      | exact holds_lda h _ _
      | exact holds_sta h _ _
      | exact holds_stx h _ _
      | exact holds_sty h _ _
      | exact holds_stz h _ _
      | exact holds_ror h _ _
      | exact holds_rol h _ _
      | exact holds_lsr h _ _
      | exact holds_asl h _ _
      | exact holds_inc h _ _
      | exact holds_dec h _ _
      | exact holds_tsb h _ _
      | exact holds_trb h _ _
      | exact holds_ldx h _ _
      | exact holds_ldy h _ _
      | exact holds_blockMoveRegs _
      | exact holds_setFlags _
      | exact holds_setFlags_after _ _
      | apply holds_branch_xf
      | apply holds_bind_read
      | apply holds_bind_pullByte
      | apply holds_ite
      | apply holds_bind
      | (refine holds_modify (fun c hc => inv_set_x ?_ hc); assumption)
      | (refine holds_modify (fun c hc => inv_set_y ?_ hc); assumption)
      | exact holds_modify (fun c hc => invNX_set_x c _ hc)
      | exact holds_modify (fun c hc => invNX_set_y c _ hc)
      | (refine holds_modify (fun c hc => ?_); unfold Inv at hc ⊢; (try simp only []); first | (split <;> split <;> simp_all [and_ff_and_ff00, page1_of_or, cAnd_ff_and_ff00]) | (split <;> simp_all [and_ff_and_ff00, page1_of_or, cAnd_ff_and_ff00]) | simp_all [and_ff_and_ff00, page1_of_or, cAnd_ff_and_ff00])

theorem holds_doOpcodeE (opcode : Nat) : Holds Inv (cpu_doOpcodeE h opcode) := by
  unfold cpu_doOpcodeE
  split
  all_goals
    repeat' first
      | intro _
      | exact holds_pure _
      | exact holds_getCpu
      | exact holds_read h _
      | exact holds_write h _ _
      | exact holds_idle h
      | exact holds_idleWait h
      | exact holds_checkInt
      | exact holds_setZN _ _
      | exact holds_pullByte h
      | exact holds_pushByte h _
      | exact holds_readOpcode h
      | exact holds_readOpcodeWord h _
      | exact holds_doBranch h _
      | exact holds_readWord h _ _ _
      | exact holds_writeWord h _ _ _ _ _
      | exact holds_pullWord h _
      | exact holds_pushWord h _ _
      | exact holds_doInterrupt h
      | exact holds_adrImp h
      | exact holds_adrImm _
      | exact holds_adrDp h
      | exact holds_adrDpx h
      | exact holds_adrDpy h
      | exact holds_adrIdp h
      | exact holds_adrIdx h
      | exact holds_adrIdy h _
      | exact holds_adrIdl h
      | exact holds_adrIly h
      | exact holds_adrSr h
      | exact holds_adrIsy h
      | exact holds_adrAbs h
      | exact holds_adrAbx h _
      | exact holds_adrAby h _
      | exact holds_adrAbl h
      | exact holds_adrAlx h
      | exact holds_and h _ _
      | exact holds_ora h _ _
      | exact holds_eor h _ _
      | exact holds_adc h _ _
      | exact holds_sbc h _ _
      | exact holds_cmp h _ _
      | exact holds_cpx h _ _
      | exact holds_cpy h _ _
      | exact holds_bit h _ _
      | exact holds_lda h _ _
      | exact holds_sta h _ _
      | exact holds_stx h _ _
      | exact holds_sty h _ _
      | exact holds_stz h _ _
      | exact holds_ror h _ _
      | exact holds_rol h _ _
      | exact holds_lsr h _ _
      | exact holds_asl h _ _
      | exact holds_inc h _ _
      | exact holds_dec h _ _
      | exact holds_tsb h _ _
      | exact holds_trb h _ _
      | exact holds_ldx h _ _
      | exact holds_ldy h _ _
      | exact holds_blockMoveRegs _
      | exact holds_setFlags _
      | exact holds_setFlags_after _ _
      | apply holds_branch_xf
      | apply holds_bind_read
      | apply holds_bind_pullByte
      | apply holds_ite
      | apply holds_bind
      | (refine holds_modify (fun c hc => inv_set_x ?_ hc); assumption)
      | (refine holds_modify (fun c hc => inv_set_y ?_ hc); assumption)
      | exact holds_modify (fun c hc => invNX_set_x c _ hc)
      | exact holds_modify (fun c hc => invNX_set_y c _ hc)
      | (refine holds_modify (fun c hc => ?_); unfold Inv at hc ⊢; (try simp only []); first | (split <;> split <;> simp_all [and_ff_and_ff00, page1_of_or, cAnd_ff_and_ff00]) | (split <;> simp_all [and_ff_and_ff00, page1_of_or, cAnd_ff_and_ff00]) | simp_all [and_ff_and_ff00, page1_of_or, cAnd_ff_and_ff00])

theorem holds_doOpcodeF (opcode : Nat) : Holds Inv (cpu_doOpcodeF h opcode) := by
  unfold cpu_doOpcodeF
  split
  all_goals
    repeat' first
      | intro _
      | exact holds_pure _
      | exact holds_getCpu
      | exact holds_read h _
      | exact holds_write h _ _
      | exact holds_idle h
      | exact holds_idleWait h
      | exact holds_checkInt
      | exact holds_setZN _ _
      | exact holds_pullByte h
      | exact holds_pushByte h _
      | exact holds_readOpcode h
      | exact holds_readOpcodeWord h _
      | exact holds_doBranch h _
      | exact holds_readWord h _ _ _
      | exact holds_writeWord h _ _ _ _ _
      | exact holds_pullWord h _
      | exact holds_pushWord h _ _
      | exact holds_doInterrupt h
      | exact holds_adrImp h
      | exact holds_adrImm _
      | exact holds_adrDp h
      | exact holds_adrDpx h
      | exact holds_adrDpy h
      | exact holds_adrIdp h
      | exact holds_adrIdx h
      | exact holds_adrIdy h _
      | exact holds_adrIdl h
      | exact holds_adrIly h
      | exact holds_adrSr h
      | exact holds_adrIsy h
      | exact holds_adrAbs h
      | exact holds_adrAbx h _
      | exact holds_adrAby h _
      | exact holds_adrAbl h
      | exact holds_adrAlx h
      | exact holds_and h _ _
      | exact holds_ora h _ _
      | exact holds_eor h _ _
      | exact holds_adc h _ _
      | exact holds_sbc h _ _
      | exact holds_cmp h _ _
      | exact holds_cpx h _ _
      | exact holds_cpy h _ _
      | exact holds_bit h _ _
      | exact holds_lda h _ _
      | exact holds_sta h _ _
      | exact holds_stx h _ _
      | exact holds_sty h _ _
      | exact holds_stz h _ _
      | exact holds_ror h _ _
      | exact holds_rol h _ _
      | exact holds_lsr h _ _
      | exact holds_asl h _ _
      | exact holds_inc h _ _
      | exact holds_dec h _ _
      | exact holds_tsb h _ _
      | exact holds_trb h _ _
      | exact holds_ldx h _ _
      | exact holds_ldy h _ _
      | exact holds_blockMoveRegs _
      | exact holds_setFlags _
      | exact holds_setFlags_after _ _
      | apply holds_branch_xf
      | apply holds_bind_read
      | apply holds_bind_pullByte
      | apply holds_ite
      | apply holds_bind
      | (refine holds_modify (fun c hc => inv_set_x ?_ hc); assumption)
      | (refine holds_modify (fun c hc => inv_set_y ?_ hc); assumption)
      | exact holds_modify (fun c hc => invNX_set_x c _ hc)
      | exact holds_modify (fun c hc => invNX_set_y c _ hc)
      | (refine holds_modify (fun c hc => ?_); unfold Inv at hc ⊢; (try simp only []); first | (split <;> split <;> simp_all [and_ff_and_ff00, page1_of_or, cAnd_ff_and_ff00]) | (split <;> simp_all [and_ff_and_ff00, page1_of_or, cAnd_ff_and_ff00]) | simp_all [and_ff_and_ff00, page1_of_or, cAnd_ff_and_ff00])

theorem holds_doOpcode (opcode : Nat) : Holds Inv (cpu_doOpcode h opcode) := by
  unfold cpu_doOpcode
  split
  · exact holds_doOpcode0 h opcode
  · exact holds_doOpcode1 h opcode
  · exact holds_doOpcode2 h opcode
  · exact holds_doOpcode3 h opcode
  · exact holds_doOpcode4 h opcode
  · exact holds_doOpcode5 h opcode
  · exact holds_doOpcode6 h opcode
  · exact holds_doOpcode7 h opcode
  · exact holds_doOpcode8 h opcode
  · exact holds_doOpcode9 h opcode
  · exact holds_doOpcodeA h opcode
  · exact holds_doOpcodeB h opcode
  · exact holds_doOpcodeC h opcode
  · exact holds_doOpcodeD h opcode
  · exact holds_doOpcodeE h opcode
  · exact holds_doOpcodeF h opcode
  · exact holds_pure _


/-- A computation after which the invariant holds whatever the state before. -/
structure Est {μ α : Type} (m : CpuM μ α) : Prop where
  est : ∀ s, Inv (m.run s).2.cpu

theorem Est.holds {α : Type} {m : CpuM μ α} (hm : Est m) : Holds Inv m := ⟨fun s _ => hm.est s⟩

theorem est_bind_right {α β : Type} {m : CpuM μ α} {f : α → CpuM μ β} (hf : ∀ a, Est (f a)) :
    Est (m >>= f) := ⟨fun s => (hf _).est _⟩

theorem est_bind_left {α β : Type} {m : CpuM μ α} {f : α → CpuM μ β} (hm : Est m)
    (hf : ∀ a, Holds Inv (f a)) : Est (m >>= f) := ⟨fun s => (hf _).inv _ (hm.est s)⟩

theorem est_setFlags (val : Nat) : Est (cpu_setFlags val : CpuM μ Unit) := by
  unfold cpu_setFlags
  exact ⟨fun s => by rw [run_modifyCpu]; exact inv_setFlags _ _⟩

theorem holds_runOpcode : Holds Inv (cpu_runOpcode h) := by
  unfold cpu_runOpcode
  apply holds_bind holds_getCpu
  intro c
  apply holds_ite
  · apply Est.holds
    repeat' first
      | intro _
      | (refine est_bind_left (est_setFlags _) ?_
         intro _
         repeat' first
           | intro _
           | exact holds_pure _
           | exact holds_getCpu
           | exact holds_read h _
           | exact holds_write h _ _
           | exact holds_idle h
           | exact holds_idleWait h
           | exact holds_checkInt
           | exact holds_setZN _ _
           | exact holds_pullByte h
           | exact holds_pushByte h _
           | exact holds_readOpcode h
           | exact holds_readOpcodeWord h _
           | exact holds_doBranch h _
           | exact holds_readWord h _ _ _
           | exact holds_writeWord h _ _ _ _ _
           | exact holds_pullWord h _
           | exact holds_pushWord h _ _
           | exact holds_doInterrupt h
           | exact holds_adrImp h
           | exact holds_adrImm _
           | exact holds_adrDp h
           | exact holds_adrDpx h
           | exact holds_adrDpy h
           | exact holds_adrIdp h
           | exact holds_adrIdx h
           | exact holds_adrIdy h _
           | exact holds_adrIdl h
           | exact holds_adrIly h
           | exact holds_adrSr h
           | exact holds_adrIsy h
           | exact holds_adrAbs h
           | exact holds_adrAbx h _
           | exact holds_adrAby h _
           | exact holds_adrAbl h
           | exact holds_adrAlx h
           | exact holds_and h _ _
           | exact holds_ora h _ _
           | exact holds_eor h _ _
           | exact holds_adc h _ _
           | exact holds_sbc h _ _
           | exact holds_cmp h _ _
           | exact holds_cpx h _ _
           | exact holds_cpy h _ _
           | exact holds_bit h _ _
           | exact holds_lda h _ _
           | exact holds_sta h _ _
           | exact holds_stx h _ _
           | exact holds_sty h _ _
           | exact holds_stz h _ _
           | exact holds_ror h _ _
           | exact holds_rol h _ _
           | exact holds_lsr h _ _
           | exact holds_asl h _ _
           | exact holds_inc h _ _
           | exact holds_dec h _ _
           | exact holds_tsb h _ _
           | exact holds_trb h _ _
           | apply holds_ite
           | apply holds_bind
           | exact holds_modify_core (fun _ => rfl)
           | (refine holds_modify_core (fun _ => ?_); split <;> rfl))
      | apply est_bind_right
  · 
    repeat' first
      | intro _
      | exact holds_pure _
      | exact holds_getCpu
      | exact holds_read h _
      | exact holds_write h _ _
      | exact holds_idle h
      | exact holds_idleWait h
      | exact holds_checkInt
      | exact holds_setZN _ _
      | exact holds_pullByte h
      | exact holds_pushByte h _
      | exact holds_readOpcode h
      | exact holds_readOpcodeWord h _
      | exact holds_doBranch h _
      | exact holds_readWord h _ _ _
      | exact holds_writeWord h _ _ _ _ _
      | exact holds_pullWord h _
      | exact holds_pushWord h _ _
      | exact holds_doInterrupt h
      | exact holds_adrImp h
      | exact holds_adrImm _
      | exact holds_adrDp h
      | exact holds_adrDpx h
      | exact holds_adrDpy h
      | exact holds_adrIdp h
      | exact holds_adrIdx h
      | exact holds_adrIdy h _
      | exact holds_adrIdl h
      | exact holds_adrIly h
      | exact holds_adrSr h
      | exact holds_adrIsy h
      | exact holds_adrAbs h
      | exact holds_adrAbx h _
      | exact holds_adrAby h _
      | exact holds_adrAbl h
      | exact holds_adrAlx h
      | exact holds_and h _ _
      | exact holds_ora h _ _
      | exact holds_eor h _ _
      | exact holds_adc h _ _
      | exact holds_sbc h _ _
      | exact holds_cmp h _ _
      | exact holds_cpx h _ _
      | exact holds_cpy h _ _
      | exact holds_bit h _ _
      | exact holds_lda h _ _
      | exact holds_sta h _ _
      | exact holds_stx h _ _
      | exact holds_sty h _ _
      | exact holds_stz h _ _
      | exact holds_ror h _ _
      | exact holds_rol h _ _
      | exact holds_lsr h _ _
      | exact holds_asl h _ _
      | exact holds_inc h _ _
      | exact holds_dec h _ _
      | exact holds_tsb h _ _
      | exact holds_trb h _ _
      | exact holds_doOpcode h _
      | apply holds_ite
      | apply holds_bind
      | exact holds_modify_core (fun _ => rfl)
      | (refine holds_modify_core (fun _ => ?_); split <;> rfl)

end Preservation

/-! ## Frame lemmas for the re-entrant calls -/

@[simp] theorem applyCalls_nil (c : Cpu) : applyCalls c [] = c := rfl

@[simp] theorem applyCalls_cons (c : Cpu) (a : CpuCall) (l : List CpuCall) :
    applyCalls c (a :: l) = applyCalls (applyCall c a) l := rfl

@[simp] theorem applyCalls_a (c : Cpu) (l : List CpuCall) : (applyCalls c l).a = c.a := by
  induction l generalizing c with
  | nil => rfl
  | cons a l ih => rw [applyCalls_cons, ih]; cases a <;> rfl

@[simp] theorem applyCalls_x (c : Cpu) (l : List CpuCall) : (applyCalls c l).x = c.x := by
  induction l generalizing c with
  | nil => rfl
  | cons a l ih => rw [applyCalls_cons, ih]; cases a <;> rfl

@[simp] theorem applyCalls_y (c : Cpu) (l : List CpuCall) : (applyCalls c l).y = c.y := by
  induction l generalizing c with
  | nil => rfl
  | cons a l ih => rw [applyCalls_cons, ih]; cases a <;> rfl

@[simp] theorem applyCalls_sp (c : Cpu) (l : List CpuCall) : (applyCalls c l).sp = c.sp := by
  induction l generalizing c with
  | nil => rfl
  | cons a l ih => rw [applyCalls_cons, ih]; cases a <;> rfl

@[simp] theorem applyCalls_pc (c : Cpu) (l : List CpuCall) : (applyCalls c l).pc = c.pc := by
  induction l generalizing c with
  | nil => rfl
  | cons a l ih => rw [applyCalls_cons, ih]; cases a <;> rfl

@[simp] theorem applyCalls_dp (c : Cpu) (l : List CpuCall) : (applyCalls c l).dp = c.dp := by
  induction l generalizing c with
  | nil => rfl
  | cons a l ih => rw [applyCalls_cons, ih]; cases a <;> rfl

@[simp] theorem applyCalls_k (c : Cpu) (l : List CpuCall) : (applyCalls c l).k = c.k := by
  induction l generalizing c with
  | nil => rfl
  | cons a l ih => rw [applyCalls_cons, ih]; cases a <;> rfl

@[simp] theorem applyCalls_db (c : Cpu) (l : List CpuCall) : (applyCalls c l).db = c.db := by
  induction l generalizing c with
  | nil => rfl
  | cons a l ih => rw [applyCalls_cons, ih]; cases a <;> rfl

@[simp] theorem applyCalls_c (c : Cpu) (l : List CpuCall) : (applyCalls c l).c = c.c := by
  induction l generalizing c with
  | nil => rfl
  | cons a l ih => rw [applyCalls_cons, ih]; cases a <;> rfl

@[simp] theorem applyCalls_z (c : Cpu) (l : List CpuCall) : (applyCalls c l).z = c.z := by
  induction l generalizing c with
  | nil => rfl
  | cons a l ih => rw [applyCalls_cons, ih]; cases a <;> rfl

@[simp] theorem applyCalls_v (c : Cpu) (l : List CpuCall) : (applyCalls c l).v = c.v := by
  induction l generalizing c with
  | nil => rfl
  | cons a l ih => rw [applyCalls_cons, ih]; cases a <;> rfl

@[simp] theorem applyCalls_n (c : Cpu) (l : List CpuCall) : (applyCalls c l).n = c.n := by
  induction l generalizing c with
  | nil => rfl
  | cons a l ih => rw [applyCalls_cons, ih]; cases a <;> rfl

@[simp] theorem applyCalls_i (c : Cpu) (l : List CpuCall) : (applyCalls c l).i = c.i := by
  induction l generalizing c with
  | nil => rfl
  | cons a l ih => rw [applyCalls_cons, ih]; cases a <;> rfl

@[simp] theorem applyCalls_d (c : Cpu) (l : List CpuCall) : (applyCalls c l).d = c.d := by
  induction l generalizing c with
  | nil => rfl
  | cons a l ih => rw [applyCalls_cons, ih]; cases a <;> rfl

@[simp] theorem applyCalls_xf (c : Cpu) (l : List CpuCall) : (applyCalls c l).xf = c.xf := by
  induction l generalizing c with
  | nil => rfl
  | cons a l ih => rw [applyCalls_cons, ih]; cases a <;> rfl

@[simp] theorem applyCalls_mf (c : Cpu) (l : List CpuCall) : (applyCalls c l).mf = c.mf := by
  induction l generalizing c with
  | nil => rfl
  | cons a l ih => rw [applyCalls_cons, ih]; cases a <;> rfl

@[simp] theorem applyCalls_e (c : Cpu) (l : List CpuCall) : (applyCalls c l).e = c.e := by
  induction l generalizing c with
  | nil => rfl
  | cons a l ih => rw [applyCalls_cons, ih]; cases a <;> rfl

@[simp] theorem applyCalls_waiting (c : Cpu) (l : List CpuCall) : (applyCalls c l).waiting = c.waiting := by
  induction l generalizing c with
  | nil => rfl
  | cons a l ih => rw [applyCalls_cons, ih]; cases a <;> rfl

@[simp] theorem applyCalls_stopped (c : Cpu) (l : List CpuCall) : (applyCalls c l).stopped = c.stopped := by
  induction l generalizing c with
  | nil => rfl
  | cons a l ih => rw [applyCalls_cons, ih]; cases a <;> rfl

@[simp] theorem applyCalls_intWanted (c : Cpu) (l : List CpuCall) : (applyCalls c l).intWanted = c.intWanted := by
  induction l generalizing c with
  | nil => rfl
  | cons a l ih => rw [applyCalls_cons, ih]; cases a <;> rfl

@[simp] theorem applyCalls_resetWanted (c : Cpu) (l : List CpuCall) : (applyCalls c l).resetWanted = c.resetWanted := by
  induction l generalizing c with
  | nil => rfl
  | cons a l ih => rw [applyCalls_cons, ih]; cases a <;> rfl

section EvalRun
variable {μ : Type} (h : Handlers μ)

theorem run_cpu_read (adr : Nat) (s : Machine μ) :
    (cpu_read h adr).run s =
      ((h.read s.mem adr).1 % 256,
       { cpu := applyCalls { s.cpu with intDelay := false } (h.read s.mem adr).2.1,
         mem := (h.read s.mem adr).2.2,
         trace := s.trace ++ [BusEvent.read adr ((h.read s.mem adr).1 % 256)] }) := rfl

theorem run_cpu_write (adr val : Nat) (s : Machine μ) :
    (cpu_write h adr val).run s =
      ((), { cpu := applyCalls { s.cpu with intDelay := false } (h.write s.mem adr (val % 256)).1,
             mem := (h.write s.mem adr (val % 256)).2,
             trace := s.trace ++ [BusEvent.write adr (val % 256)] }) := rfl

theorem run_cpu_idle (s : Machine μ) :
    (cpu_idle h).run s =
      ((), { cpu := applyCalls { s.cpu with intDelay := false } (h.idle s.mem false).1,
             mem := (h.idle s.mem false).2,
             trace := s.trace ++ [BusEvent.idle false] }) := rfl

theorem run_cpu_idleWait (s : Machine μ) :
    (cpu_idleWait h).run s =
      ((), { cpu := applyCalls { s.cpu with intDelay := false } (h.idle s.mem true).1,
             mem := (h.idle s.mem true).2,
             trace := s.trace ++ [BusEvent.idle true] }) := rfl

end EvalRun

/-! ## Symbolic execution of bus accesses

A callback can only change `nmiWanted`, `irqWanted` and `intDelay` of the CPU. -/

section Eval
variable {μ : Type} (h : Handlers μ)

theorem applyCalls_eq (c : Cpu) (l : List CpuCall) :
    applyCalls c l = { c with nmiWanted := (applyCalls c l).nmiWanted,
                              irqWanted := (applyCalls c l).irqWanted,
                              intDelay := (applyCalls c l).intDelay } := by
  have h1 := applyCalls_a c l; have h2 := applyCalls_x c l; have h3 := applyCalls_y c l
  have h4 := applyCalls_sp c l; have h5 := applyCalls_pc c l; have h6 := applyCalls_dp c l
  have h7 := applyCalls_k c l; have h8 := applyCalls_db c l; have h9 := applyCalls_c c l
  have h10 := applyCalls_z c l; have h11 := applyCalls_v c l; have h12 := applyCalls_n c l
  have h13 := applyCalls_i c l; have h14 := applyCalls_d c l; have h15 := applyCalls_xf c l
  have h16 := applyCalls_mf c l; have h17 := applyCalls_e c l; have h18 := applyCalls_waiting c l
  have h19 := applyCalls_stopped c l; have h20 := applyCalls_intWanted c l
  have h21 := applyCalls_resetWanted c l
  cases hc : applyCalls c l
  rw [hc] at h1 h2 h3 h4 h5 h6 h7 h8 h9 h10 h11 h12 h13 h14 h15 h16 h17 h18 h19 h20 h21
  simp only at h1 h2 h3 h4 h5 h6 h7 h8 h9 h10 h11 h12 h13 h14 h15 h16 h17 h18 h19 h20 h21
  subst h1 h2 h3 h4 h5 h6 h7 h8 h9 h10 h11 h12 h13 h14 h15 h16 h17 h18 h19 h20 h21
  rfl

theorem applyCalls_nmi_mono (c : Cpu) (l : List CpuCall) (hn : c.nmiWanted = true) :
    (applyCalls c l).nmiWanted = true := by
  induction l generalizing c with
  | nil => exact hn
  | cons a l ih => rw [applyCalls_cons]; apply ih; cases a <;> simp [applyCall, cpu_nmi, cpu_setIrq, hn]

/-- What a bus access leaves of the CPU: the three fields a callback may
touch take new values, everything else is kept. -/
def afterBus (c : Cpu) (nmi irq dly : Bool) : Cpu :=
  { c with nmiWanted := nmi, irqWanted := irq, intDelay := dly }

theorem cpu_read_eq (adr : Nat) (s : Machine μ) :
    ∃ (nmi irq dly : Bool) (m' : μ),
      (cpu_read h adr).run s =
        ((h.read s.mem adr).1 % 256,
          ⟨afterBus s.cpu nmi irq dly, m', s.trace ++ [BusEvent.read adr ((h.read s.mem adr).1 % 256)]⟩) ∧
      (s.cpu.nmiWanted = true → nmi = true) ∧
      (Quiet h → nmi = s.cpu.nmiWanted ∧ irq = s.cpu.irqWanted ∧ dly = false) := by
  refine ⟨(applyCalls { s.cpu with intDelay := false } (h.read s.mem adr).2.1).nmiWanted,
    (applyCalls { s.cpu with intDelay := false } (h.read s.mem adr).2.1).irqWanted,
    (applyCalls { s.cpu with intDelay := false } (h.read s.mem adr).2.1).intDelay, (h.read s.mem adr).2.2, ?_, ?_, ?_⟩
  · rw [run_cpu_read, applyCalls_eq]; rfl
  · intro hn; exact applyCalls_nmi_mono _ _ hn
  · intro hq; rw [hq.1]; exact ⟨rfl, rfl, rfl⟩

theorem cpu_write_eq (adr val : Nat) (s : Machine μ) :
    ∃ (nmi irq dly : Bool) (m' : μ),
      (cpu_write h adr val).run s =
        ((), ⟨afterBus s.cpu nmi irq dly, m', s.trace ++ [BusEvent.write adr (val % 256)]⟩) ∧
      (s.cpu.nmiWanted = true → nmi = true) ∧
      (Quiet h → nmi = s.cpu.nmiWanted ∧ irq = s.cpu.irqWanted ∧ dly = false) := by
  refine ⟨(applyCalls { s.cpu with intDelay := false } (h.write s.mem adr (val % 256)).1).nmiWanted,
    (applyCalls { s.cpu with intDelay := false } (h.write s.mem adr (val % 256)).1).irqWanted,
    (applyCalls { s.cpu with intDelay := false } (h.write s.mem adr (val % 256)).1).intDelay, (h.write s.mem adr (val % 256)).2, ?_, ?_, ?_⟩
  · rw [run_cpu_write, applyCalls_eq]; rfl
  · intro hn; exact applyCalls_nmi_mono _ _ hn
  · intro hq; rw [hq.2.1]; exact ⟨rfl, rfl, rfl⟩

theorem cpu_idle_eq (s : Machine μ) :
    ∃ (nmi irq dly : Bool) (m' : μ),
      (cpu_idle h).run s = ((), ⟨afterBus s.cpu nmi irq dly, m', s.trace ++ [BusEvent.idle false]⟩) ∧
      (s.cpu.nmiWanted = true → nmi = true) ∧
      (Quiet h → nmi = s.cpu.nmiWanted ∧ irq = s.cpu.irqWanted ∧ dly = false) := by
  refine ⟨(applyCalls { s.cpu with intDelay := false } (h.idle s.mem false).1).nmiWanted,
    (applyCalls { s.cpu with intDelay := false } (h.idle s.mem false).1).irqWanted,
    (applyCalls { s.cpu with intDelay := false } (h.idle s.mem false).1).intDelay, (h.idle s.mem false).2, ?_, ?_, ?_⟩
  · rw [run_cpu_idle, applyCalls_eq]; rfl
  · intro hn; exact applyCalls_nmi_mono _ _ hn
  · intro hq; rw [hq.2.2]; exact ⟨rfl, rfl, rfl⟩

theorem cpu_idleWait_eq (s : Machine μ) :
    ∃ (nmi irq dly : Bool) (m' : μ),
      (cpu_idleWait h).run s = ((), ⟨afterBus s.cpu nmi irq dly, m', s.trace ++ [BusEvent.idle true]⟩) ∧
      (s.cpu.nmiWanted = true → nmi = true) ∧
      (Quiet h → nmi = s.cpu.nmiWanted ∧ irq = s.cpu.irqWanted ∧ dly = false) := by
  refine ⟨(applyCalls { s.cpu with intDelay := false } (h.idle s.mem true).1).nmiWanted,
    (applyCalls { s.cpu with intDelay := false } (h.idle s.mem true).1).irqWanted,
    (applyCalls { s.cpu with intDelay := false } (h.idle s.mem true).1).intDelay, (h.idle s.mem true).2, ?_, ?_, ?_⟩
  · rw [run_cpu_idleWait, applyCalls_eq]; rfl
  · intro hn; exact applyCalls_nmi_mono _ _ hn
  · intro hq; rw [hq.2.2]; exact ⟨rfl, rfl, rfl⟩
end Eval

/-! ## Weakest preconditions

`wp m Q s` says that running `m` from `s` ends in a result and state
satisfying `Q`.  Every computation here is a total function, so this is a
statement about the result that is actually produced. -/

/-- The result of `m` from `s` satisfies `Q`. -/
def wp {μ α : Type} (m : CpuM μ α) (Q : α → Machine μ → Prop) (s : Machine μ) : Prop :=
  Q (m.run s).1 (m.run s).2

section Wp
variable {μ : Type} (h : Handlers μ)

theorem wp_bind {α β : Type} {m : CpuM μ α} {f : α → CpuM μ β} {Q : β → Machine μ → Prop}
    {s : Machine μ} (H : wp m (fun a s' => wp (f a) Q s') s) : wp (m >>= f) Q s := H

theorem wp_pure {α : Type} {a : α} {Q : α → Machine μ → Prop} {s : Machine μ} (H : Q a s) :
    wp (pure a) Q s := H

theorem wp_getCpu {Q : Cpu → Machine μ → Prop} {s : Machine μ} (H : Q s.cpu s) :
    wp getCpu Q s := H

theorem wp_modifyCpu {f : Cpu → Cpu} {Q : Unit → Machine μ → Prop} {s : Machine μ}
    (H : Q () { s with cpu := f s.cpu }) : wp (modifyCpu f) Q s := H

theorem wp_checkInt {Q : Unit → Machine μ → Prop} {s : Machine μ}
    (H : Q () { s with cpu := checkInt s.cpu }) : wp cpu_checkInt Q s := H

theorem wp_ite {α : Type} {c : Prop} [Decidable c] {m1 m2 : CpuM μ α} {Q : α → Machine μ → Prop}
    {s : Machine μ} (H1 : c → wp m1 Q s) (H2 : ¬ c → wp m2 Q s) :
    wp (if c then m1 else m2) Q s := by
  by_cases hc : c
  · rw [if_pos hc]; exact H1 hc
  · rw [if_neg hc]; exact H2 hc

theorem wp_read {adr : Nat} {Q : Nat → Machine μ → Prop} {s : Machine μ}
    (H : ∀ (nmi irq dly : Bool) (m' : μ), (s.cpu.nmiWanted = true → nmi = true) →
      (Quiet h → nmi = s.cpu.nmiWanted ∧ irq = s.cpu.irqWanted ∧ dly = false) →
      Q ((h.read s.mem adr).1 % 256)
        ⟨afterBus s.cpu nmi irq dly, m',
          s.trace ++ [BusEvent.read adr ((h.read s.mem adr).1 % 256)]⟩) :
    wp (cpu_read h adr) Q s := by
  obtain ⟨nmi, irq, dly, m', hr, hn, hq⟩ := cpu_read_eq h adr s
  unfold wp
  rw [hr]
  exact H nmi irq dly m' hn hq

theorem wp_write {adr val : Nat} {Q : Unit → Machine μ → Prop} {s : Machine μ}
    (H : ∀ (nmi irq dly : Bool) (m' : μ), (s.cpu.nmiWanted = true → nmi = true) →
      (Quiet h → nmi = s.cpu.nmiWanted ∧ irq = s.cpu.irqWanted ∧ dly = false) →
      Q () ⟨afterBus s.cpu nmi irq dly, m', s.trace ++ [BusEvent.write adr (val % 256)]⟩) :
    wp (cpu_write h adr val) Q s := by
  obtain ⟨nmi, irq, dly, m', hr, hn, hq⟩ := cpu_write_eq h adr val s
  unfold wp
  rw [hr]
  exact H nmi irq dly m' hn hq

theorem wp_idle {Q : Unit → Machine μ → Prop} {s : Machine μ}
    (H : ∀ (nmi irq dly : Bool) (m' : μ), (s.cpu.nmiWanted = true → nmi = true) →
      (Quiet h → nmi = s.cpu.nmiWanted ∧ irq = s.cpu.irqWanted ∧ dly = false) →
      Q () ⟨afterBus s.cpu nmi irq dly, m', s.trace ++ [BusEvent.idle false]⟩) :
    wp (cpu_idle h) Q s := by
  obtain ⟨nmi, irq, dly, m', hr, hn, hq⟩ := cpu_idle_eq h s
  unfold wp
  rw [hr]
  exact H nmi irq dly m' hn hq

theorem wp_idleWait {Q : Unit → Machine μ → Prop} {s : Machine μ}
    (H : ∀ (nmi irq dly : Bool) (m' : μ), (s.cpu.nmiWanted = true → nmi = true) →
      (Quiet h → nmi = s.cpu.nmiWanted ∧ irq = s.cpu.irqWanted ∧ dly = false) →
      Q () ⟨afterBus s.cpu nmi irq dly, m', s.trace ++ [BusEvent.idle true]⟩) :
    wp (cpu_idleWait h) Q s := by
  obtain ⟨nmi, irq, dly, m', hr, hn, hq⟩ := cpu_idleWait_eq h s
  unfold wp
  rw [hr]
  exact H nmi irq dly m' hn hq

end Wp

/-! ## Field-wise description of `setFlags` -/

@[simp] theorem setFlags_a (c : Cpu) (val : Nat) : (setFlags c val).a = c.a := by
  unfold setFlags; simp only []; split <;> split <;> rfl

@[simp] theorem setFlags_pc (c : Cpu) (val : Nat) : (setFlags c val).pc = c.pc := by
  unfold setFlags; simp only []; split <;> split <;> rfl

@[simp] theorem setFlags_dp (c : Cpu) (val : Nat) : (setFlags c val).dp = c.dp := by
  unfold setFlags; simp only []; split <;> split <;> rfl

@[simp] theorem setFlags_k (c : Cpu) (val : Nat) : (setFlags c val).k = c.k := by
  unfold setFlags; simp only []; split <;> split <;> rfl

@[simp] theorem setFlags_db (c : Cpu) (val : Nat) : (setFlags c val).db = c.db := by
  unfold setFlags; simp only []; split <;> split <;> rfl

@[simp] theorem setFlags_e (c : Cpu) (val : Nat) : (setFlags c val).e = c.e := by
  unfold setFlags; simp only []; split <;> split <;> rfl

@[simp] theorem setFlags_waiting (c : Cpu) (val : Nat) : (setFlags c val).waiting = c.waiting := by
  unfold setFlags; simp only []; split <;> split <;> rfl

@[simp] theorem setFlags_stopped (c : Cpu) (val : Nat) : (setFlags c val).stopped = c.stopped := by
  unfold setFlags; simp only []; split <;> split <;> rfl

@[simp] theorem setFlags_irqWanted (c : Cpu) (val : Nat) : (setFlags c val).irqWanted = c.irqWanted := by
  unfold setFlags; simp only []; split <;> split <;> rfl

@[simp] theorem setFlags_nmiWanted (c : Cpu) (val : Nat) : (setFlags c val).nmiWanted = c.nmiWanted := by
  unfold setFlags; simp only []; split <;> split <;> rfl

@[simp] theorem setFlags_intWanted (c : Cpu) (val : Nat) : (setFlags c val).intWanted = c.intWanted := by
  unfold setFlags; simp only []; split <;> split <;> rfl

@[simp] theorem setFlags_intDelay (c : Cpu) (val : Nat) : (setFlags c val).intDelay = c.intDelay := by
  unfold setFlags; simp only []; split <;> split <;> rfl

@[simp] theorem setFlags_resetWanted (c : Cpu) (val : Nat) : (setFlags c val).resetWanted = c.resetWanted := by
  unfold setFlags; simp only []; split <;> split <;> rfl

@[simp] theorem setFlags_n (c : Cpu) (val : Nat) :
    (setFlags c val).n = (((val % 256) &&& 0x80) != 0) := by
  unfold setFlags; simp only []; split <;> split <;> rfl

@[simp] theorem setFlags_v (c : Cpu) (val : Nat) :
    (setFlags c val).v = (((val % 256) &&& 0x40) != 0) := by
  unfold setFlags; simp only []; split <;> split <;> rfl

@[simp] theorem setFlags_d (c : Cpu) (val : Nat) :
    (setFlags c val).d = (((val % 256) &&& 8) != 0) := by
  unfold setFlags; simp only []; split <;> split <;> rfl

@[simp] theorem setFlags_i (c : Cpu) (val : Nat) :
    (setFlags c val).i = (((val % 256) &&& 4) != 0) := by
  unfold setFlags; simp only []; split <;> split <;> rfl

@[simp] theorem setFlags_z (c : Cpu) (val : Nat) :
    (setFlags c val).z = (((val % 256) &&& 2) != 0) := by
  unfold setFlags; simp only []; split <;> split <;> rfl

@[simp] theorem setFlags_c (c : Cpu) (val : Nat) :
    (setFlags c val).c = (((val % 256) &&& 1) != 0) := by
  unfold setFlags; simp only []; split <;> split <;> rfl

theorem setFlags_emu (c : Cpu) (val : Nat) (he : c.e = true) :
    (setFlags c val).mf = true ∧ (setFlags c val).xf = true ∧
    (setFlags c val).sp = (c.sp &&& 0xff) ||| 0x100 ∧
    (setFlags c val).x = c.x &&& 0xff ∧ (setFlags c val).y = c.y &&& 0xff := by
  unfold setFlags
  simp [he]

@[simp] theorem setFlags_mf_emu (c : Cpu) (val : Nat) (he : c.e = true) : (setFlags c val).mf = true :=
  (setFlags_emu c val he).1

@[simp] theorem setFlags_xf_emu (c : Cpu) (val : Nat) (he : c.e = true) : (setFlags c val).xf = true :=
  (setFlags_emu c val he).2.1

@[simp] theorem setFlags_sp_emu (c : Cpu) (val : Nat) (he : c.e = true) :
    (setFlags c val).sp = (c.sp &&& 0xff) ||| 0x100 :=
  (setFlags_emu c val he).2.2.1

/-- Reading back a flag from the byte built by `cpu_getFlags`. -/
theorem cpu_getFlags_bits (c : Cpu) :
    (((cpu_getFlags c % 256) &&& 0x80) != 0) = c.n ∧ (((cpu_getFlags c % 256) &&& 0x40) != 0) = c.v ∧
    (((cpu_getFlags c % 256) &&& 0x20) != 0) = c.mf ∧ (((cpu_getFlags c % 256) &&& 0x10) != 0) = c.xf ∧
    (((cpu_getFlags c % 256) &&& 8) != 0) = c.d ∧ (((cpu_getFlags c % 256) &&& 4) != 0) = c.i ∧
    (((cpu_getFlags c % 256) &&& 2) != 0) = c.z ∧ (((cpu_getFlags c % 256) &&& 1) != 0) = c.c := by
  unfold cpu_getFlags
  cases c.n <;> cases c.v <;> cases c.mf <;> cases c.xf <;> cases c.d <;> cases c.i <;> cases c.z <;>
    cases c.c <;> decide

theorem cpu_getFlags_lt (c : Cpu) : cpu_getFlags c < 256 := by
  unfold cpu_getFlags
  cases c.n <;> cases c.v <;> cases c.mf <;> cases c.xf <;> cases c.d <;> cases c.i <;> cases c.z <;>
    cases c.c <;> decide

section WpSpecs
variable {μ : Type} (h : Handlers μ)

theorem wp_mono {α : Type} {m : CpuM μ α} {Q Q' : α → Machine μ → Prop} {s : Machine μ}
    (H : wp m Q s) (hq : ∀ a s', Q a s' → Q' a s') : wp m Q' s := hq _ _ H

/-- `cpu_readWord` without interrupt check: two reads, little-endian. -/
theorem wp_readWord {adrl adrh : Nat} {Q : Nat → Machine μ → Prop} {s : Machine μ}
    (H : ∀ (lo hi : Nat) (nmi irq dly : Bool) (m1 m' : μ),
      lo = (h.read s.mem adrl).1 % 256 → hi = (h.read m1 adrh).1 % 256 →
      (s.cpu.nmiWanted = true → nmi = true) →
      (Quiet h → nmi = s.cpu.nmiWanted ∧ irq = s.cpu.irqWanted ∧ dly = false) →
      Q (lo ||| (hi <<< 8))
        ⟨afterBus s.cpu nmi irq dly, m',
          s.trace ++ [BusEvent.read adrl lo, BusEvent.read adrh hi]⟩) :
    wp (cpu_readWord h adrl adrh false) Q s := by
  unfold cpu_readWord
  apply wp_bind
  apply wp_read
  intro n1 i1 d1 m1 hn1 hq1
  simp only [Bool.false_eq_true, if_false]
  apply wp_bind
  apply wp_pure
  apply wp_bind
  apply wp_read
  intro n2 i2 d2 m2 hn2 hq2
  apply wp_pure
  have key := H ((h.read s.mem adrl).1 % 256) ((h.read m1 adrh).1 % 256) n2 i2 d2 m1 m2 rfl rfl
    (fun hn => hn2 (hn1 hn))
    (fun hq => by
      obtain ⟨a1, a2, a3⟩ := hq1 hq
      obtain ⟨b1, b2, b3⟩ := hq2 hq
      exact ⟨b1.trans a1, b2.trans a2, b3⟩)
  simpa only [afterBus, List.append_assoc, List.cons_append, List.nil_append] using key

/-- The end of the reset sequence: force emulation mode, reload the flags,
clear K and fetch the reset vector. -/
theorem wp_reset_finish (s : Machine μ) :
    wp (do
        modifyCpu fun c => { c with e := true, i := true, d := false }
        cpu_setFlags (cpu_getFlags (← getCpu))
        modifyCpu fun c => { c with k := 0 }
        let pc ← cpu_readWord h 0xfffc 0xfffd false
        modifyCpu fun c => { c with pc := pc })
      (fun _ s' => ∃ lo hi m1, lo = (h.read s.mem 0xfffc).1 % 256 ∧ hi = (h.read m1 0xfffd).1 % 256 ∧
        s'.cpu.pc = lo ||| (hi <<< 8) ∧ s'.cpu.k = 0 ∧ s'.cpu.e = true ∧ s'.cpu.i = true ∧
        s'.cpu.d = false ∧ s'.cpu.mf = true ∧ s'.cpu.xf = true ∧
        s'.cpu.sp = (s.cpu.sp &&& 0xff) ||| 0x100 ∧ s'.cpu.resetWanted = s.cpu.resetWanted ∧
        s'.trace = s.trace ++ [BusEvent.read 0xfffc lo, BusEvent.read 0xfffd hi]) s := by
  unfold cpu_setFlags
  apply wp_bind; apply wp_modifyCpu
  apply wp_bind; apply wp_getCpu
  apply wp_bind; apply wp_modifyCpu
  apply wp_bind; apply wp_modifyCpu
  apply wp_bind; apply wp_readWord
  intro lo hi nmi irq dly m1 m' hlo hhi hn hq
  apply wp_modifyCpu
  dsimp only [afterBus]
  refine ⟨lo, hi, m1, hlo, hhi, rfl, rfl, ?_, ?_, ?_, ?_, ?_, ?_, ?_, rfl⟩
  · simp only [setFlags_e]
  · simp only [setFlags_i]; exact (cpu_getFlags_bits _).2.2.2.2.2.1
  · simp only [setFlags_d]; exact (cpu_getFlags_bits _).2.2.2.2.1
  · exact setFlags_mf_emu _ _ rfl
  · exact setFlags_xf_emu _ _ rfl
  · exact setFlags_sp_emu _ _ rfl
  · simp only [setFlags_resetWanted]

end WpSpecs

section WpStack
variable {μ : Type} (h : Handlers μ)

/-- `cpu_pushByte` in native mode: one write at SP, then SP decremented mod 2^16. -/
theorem wp_pushByte_native {value : Nat} {Q : Unit → Machine μ → Prop} {s : Machine μ}
    (he : s.cpu.e = false)
    (H : ∀ (nmi irq dly : Bool) (m' : μ), (s.cpu.nmiWanted = true → nmi = true) →
      (Quiet h → nmi = s.cpu.nmiWanted ∧ irq = s.cpu.irqWanted ∧ dly = false) →
      Q () ⟨afterBus { s.cpu with sp := dec16 s.cpu.sp } nmi irq dly, m',
          s.trace ++ [BusEvent.write s.cpu.sp (value % 256)]⟩) :
    wp (cpu_pushByte h value) Q s := by
  unfold cpu_pushByte
  apply wp_bind; apply wp_getCpu
  apply wp_bind; apply wp_write
  intro nmi irq dly m' hn hq
  apply wp_bind; apply wp_modifyCpu
  apply wp_modifyCpu
  have key := H nmi irq dly m' hn hq
  simp only [afterBus, he, Bool.false_eq_true, if_false, Nat.mod_mod] at key ⊢
  exact key

/-- `cpu_pushWord` without interrupt check in native mode: high byte at SP, low byte at SP-1. -/
theorem wp_pushWord_native {value : Nat} {Q : Unit → Machine μ → Prop} {s : Machine μ}
    (he : s.cpu.e = false)
    (H : ∀ (nmi irq dly : Bool) (m' : μ), (s.cpu.nmiWanted = true → nmi = true) →
      (Quiet h → nmi = s.cpu.nmiWanted ∧ irq = s.cpu.irqWanted ∧ dly = false) →
      Q () ⟨afterBus { s.cpu with sp := dec16 (dec16 s.cpu.sp) } nmi irq dly, m',
          s.trace ++ [BusEvent.write s.cpu.sp (((value % 0x10000) >>> 8) % 256),
                      BusEvent.write (dec16 s.cpu.sp) (((value % 0x10000) &&& 0xff) % 256)]⟩) :
    wp (cpu_pushWord h value false) Q s := by
  unfold cpu_pushWord
  apply wp_bind; apply wp_pushByte_native h he
  intro n1 i1 d1 m1 hn1 hq1
  simp only [Bool.false_eq_true, if_false]
  apply wp_bind; apply wp_pure
  refine wp_pushByte_native h ?_ ?_
  · dsimp only [afterBus]; exact he
  intro n2 i2 d2 m2 hn2 hq2
  have key := H n2 i2 d2 m2 (fun hn => hn2 (hn1 hn))
    (fun hq => by
      obtain ⟨a1, a2, a3⟩ := hq1 hq
      obtain ⟨b1, b2, b3⟩ := hq2 hq
      exact ⟨b1.trans a1, b2.trans a2, b3⟩)
  simpa only [afterBus, List.append_assoc, List.cons_append, List.nil_append] using key

end WpStack

section WpBranch
variable {μ : Type}

theorem wp_ite_pos {α : Type} {c : Prop} [Decidable c] {m1 m2 : CpuM μ α}
    {Q : α → Machine μ → Prop} {s : Machine μ} (hc : c) (H : wp m1 Q s) :
    wp (if c then m1 else m2) Q s := by
  rw [if_pos hc]; exact H

theorem wp_ite_neg {α : Type} {c : Prop} [Decidable c] {m1 m2 : CpuM μ α}
    {Q : α → Machine μ → Prop} {s : Machine μ} (hc : ¬ c) (H : wp m2 Q s) :
    wp (if c then m1 else m2) Q s := by
  rw [if_neg hc]; exact H

end WpBranch

theorem wp_of_run_eq {μ α : Type} {m : CpuM μ α} {Q : α → Machine μ → Prop} {s s2 : Machine μ}
    {a : α} (hr : m.run s = (a, s2)) (H : Q a s2) : wp m Q s := by
  unfold wp; rw [hr]; exact H

/-- C1: for every pair of bytes `lo`, `hi`: after `cpu_reset(hard = true)` and one
`cpu_runOpcode` against a backend returning `lo` at 0x00FFFC and `hi` at 0x00FFFD, the CPU has
PC = (hi << 8) | lo, K = 0, E = 1, I = 1, D = 0, M = 1, X = 1, SP = 0x01FD and
resetWanted = false, and the step made exactly seven callbacks (six reads and one idle), none
of them a write. -/
theorem C1_reset_sequence {μ : Type} (h : Handlers μ) (lo hi : Nat) (hlo : lo < 256) (hhi : hi < 256)
    (hl : ∀ m, (h.read m 0xfffc).1 = lo) (hh : ∀ m, (h.read m 0xfffd).1 = hi)
    (c0 : Cpu) (m : μ) (t : List BusEvent) :
    wp (cpu_runOpcode h) (fun _ s' =>
      s'.cpu.pc = (hi <<< 8) ||| lo ∧ s'.cpu.k = 0 ∧ s'.cpu.e = true ∧ s'.cpu.i = true ∧
      s'.cpu.d = false ∧ s'.cpu.mf = true ∧ s'.cpu.xf = true ∧ s'.cpu.sp = 0x1fd ∧
      s'.cpu.resetWanted = false ∧
      ∃ v0 v1 v2 v3, s'.trace =
        t ++ [BusEvent.read 0 v0, BusEvent.idle false, BusEvent.read 0x100 v1, BusEvent.read 0x1ff v2,
              BusEvent.read 0x1fe v3, BusEvent.read 0xfffc lo, BusEvent.read 0xfffd hi])
      ⟨cpu_reset c0 true, m, t⟩ := by
  unfold cpu_runOpcode
  simp only [cpu_reset, if_true]
  iterate 30
    (first
      | apply wp_bind
      | apply wp_getCpu
      | apply wp_modifyCpu
      | (apply wp_read; intro nmi irq dly m' hn hq; clear hn hq)
      | (apply wp_idle; intro nmi irq dly m' hn hq; clear hn hq))
    dsimp only [afterBus]
  refine wp_mono (wp_reset_finish h _) ?_
  intro _ s' hs'
  obtain ⟨l, hv, m1, hl1, hh1, hpc, hk, he, hi1, hd, hmf, hxf, hsp, hrw, htr⟩ := hs'
  rw [hl, Nat.mod_eq_of_lt hlo] at hl1
  rw [hh, Nat.mod_eq_of_lt hhi] at hh1
  subst hl1 hh1
  have e3 : (dec16 (dec16 (dec16 0)) &&& 255 ||| 256) &&& 255 ||| 256 = 0x1fd := by decide
  refine ⟨hpc.trans (Nat.lor_comm _ _), hk, he, hi1, hd, hmf, hxf, hsp.trans e3, hrw, ?_⟩
  have e0 : (0 <<< 16 ||| 0 : Nat) = 0 := by decide
  have e4 : (256 ||| 0 &&& 255 : Nat) = 0x100 := by decide
  have e5 : (256 ||| dec16 0 &&& 255 : Nat) = 0x1ff := by decide
  have e6 : (256 ||| dec16 (dec16 0) &&& 255 : Nat) = 0x1fe := by decide
  simp only [e0, e4, e5, e6, List.append_assoc, List.cons_append, List.nil_append] at htr
  exact ⟨_, _, _, _, htr⟩

/-- Witness for C1: over `demoRom` (bytes 0x00 at 0xFFFC and 0x80 at 0xFFFD) the reset sequence
ends with PC = 0x8000. -/
theorem C1_reset_sequence_witness :
    (0x00 < 256 ∧ 0x80 < 256) ∧
    wp (cpu_runOpcode (romHandlers demoRom)) (fun _ s' =>
      s'.cpu.pc = (0x80 <<< 8) ||| 0x00 ∧ s'.cpu.k = 0 ∧ s'.cpu.e = true ∧ s'.cpu.i = true ∧
      s'.cpu.d = false ∧ s'.cpu.mf = true ∧ s'.cpu.xf = true ∧ s'.cpu.sp = 0x1fd ∧
      s'.cpu.resetWanted = false ∧
      ∃ v0 v1 v2 v3, s'.trace =
        [] ++ [BusEvent.read 0 v0, BusEvent.idle false, BusEvent.read 0x100 v1, BusEvent.read 0x1ff v2,
              BusEvent.read 0x1fe v3, BusEvent.read 0xfffc 0x00, BusEvent.read 0xfffd 0x80])
      ⟨cpu_reset zeroCpu true, (), []⟩ :=
  ⟨by decide, C1_reset_sequence (romHandlers demoRom) 0x00 0x80 (by decide) (by decide)
    (fun _ => rfl) (fun _ => rfl) zeroCpu () []⟩

/-- A ROM backend over `demoRom` whose read callback raises an NMI while the low byte of the
NMI vector (0xFFEA) is read. -/
def vectorNmiHandlers : Handlers Unit where
  read := fun m adr => (demoRom adr, if adr = 0xffea then [CpuCall.nmi] else [], m)
  write := fun m _ _ => ([], m)
  idle := fun m _ => ([], m)

/-- A CPU call list raises `nmiWanted` exactly when it contains a `cpu_nmi` call. -/
theorem applyCalls_nmiWanted (c : Cpu) (l : List CpuCall) :
    (applyCalls c l).nmiWanted = (c.nmiWanted || decide (CpuCall.nmi ∈ l)) := by
  induction l generalizing c with
  | nil => simp
  | cons a l ih =>
    rw [applyCalls_cons, ih]
    cases a <;> simp [applyCall, cpu_nmi, cpu_setIrq]

section VectorFetch
variable {μ : Type} (h : Handlers μ)

/-- `cpu_readWord` without the interrupt check, with the value of `nmiWanted` it leaves: the
old value, or set by a `cpu_nmi` call of one of the two read callbacks. -/
theorem wp_readWord_calls {adrl adrh : Nat} {Q : Nat → Machine μ → Prop} {s : Machine μ}
    (H : ∀ (lo hi : Nat) (irq dly : Bool),
      lo = (h.read s.mem adrl).1 % 256 →
      hi = (h.read (h.read s.mem adrl).2.2 adrh).1 % 256 →
      Q (lo ||| (hi <<< 8))
        ⟨afterBus s.cpu
            (s.cpu.nmiWanted || decide (CpuCall.nmi ∈ (h.read s.mem adrl).2.1 ∨
              CpuCall.nmi ∈ (h.read (h.read s.mem adrl).2.2 adrh).2.1)) irq dly,
          (h.read (h.read s.mem adrl).2.2 adrh).2.2,
          s.trace ++ [BusEvent.read adrl lo, BusEvent.read adrh hi]⟩) :
    wp (cpu_readWord h adrl adrh false) Q s := by
  unfold cpu_readWord
  simp only [Bool.false_eq_true, if_false]
  have key := H ((h.read s.mem adrl).1 % 256) ((h.read (h.read s.mem adrl).2.2 adrh).1 % 256)
    (applyCalls { applyCalls { s.cpu with intDelay := false } (h.read s.mem adrl).2.1 with
      intDelay := false } (h.read (h.read s.mem adrl).2.2 adrh).2.1).irqWanted
    (applyCalls { applyCalls { s.cpu with intDelay := false } (h.read s.mem adrl).2.1 with
      intDelay := false } (h.read (h.read s.mem adrl).2.2 adrh).2.1).intDelay rfl rfl
  have e : (cpu_read h adrl >>= fun value => (pure PUnit.unit : CpuM μ PUnit) >>= fun _ =>
      cpu_read h adrh >>= fun high => pure (value ||| (high <<< 8))).run s =
      ((h.read s.mem adrl).1 % 256 ||| (((h.read (h.read s.mem adrl).2.2 adrh).1 % 256) <<< 8),
        ⟨applyCalls { applyCalls { s.cpu with intDelay := false } (h.read s.mem adrl).2.1 with
          intDelay := false } (h.read (h.read s.mem adrl).2.2 adrh).2.1,
         (h.read (h.read s.mem adrl).2.2 adrh).2.2,
         (s.trace ++ [BusEvent.read adrl ((h.read s.mem adrl).1 % 256)]) ++
           [BusEvent.read adrh ((h.read (h.read s.mem adrl).2.2 adrh).1 % 256)]⟩) := rfl
  refine wp_of_run_eq e ?_
  rw [applyCalls_eq, applyCalls_nmiWanted]
  have e2 : ({ applyCalls { s.cpu with intDelay := false } (h.read s.mem adrl).2.1 with
      intDelay := false } : Cpu).nmiWanted =
      (s.cpu.nmiWanted || decide (CpuCall.nmi ∈ (h.read s.mem adrl).2.1)) :=
    applyCalls_nmiWanted _ _
  rw [e2]
  have e3 : ((s.cpu.nmiWanted || decide (CpuCall.nmi ∈ (h.read s.mem adrl).2.1)) ||
      decide (CpuCall.nmi ∈ (h.read (h.read s.mem adrl).2.2 adrh).2.1)) =
      (s.cpu.nmiWanted || decide (CpuCall.nmi ∈ (h.read s.mem adrl).2.1 ∨
        CpuCall.nmi ∈ (h.read (h.read s.mem adrl).2.2 adrh).2.1)) := by
    rw [Bool.or_assoc, Bool.decide_or]
  rw [e3]
  have e4 : ({ ({ applyCalls { s.cpu with intDelay := false } (h.read s.mem adrl).2.1 with
      intDelay := false } : Cpu) with
      nmiWanted := (s.cpu.nmiWanted || decide (CpuCall.nmi ∈ (h.read s.mem adrl).2.1 ∨
        CpuCall.nmi ∈ (h.read (h.read s.mem adrl).2.2 adrh).2.1)),
      irqWanted := (applyCalls { applyCalls { s.cpu with intDelay := false }
        (h.read s.mem adrl).2.1 with intDelay := false }
        (h.read (h.read s.mem adrl).2.2 adrh).2.1).irqWanted,
      intDelay := (applyCalls { applyCalls { s.cpu with intDelay := false }
        (h.read s.mem adrl).2.1 with intDelay := false }
        (h.read (h.read s.mem adrl).2.2 adrh).2.1).intDelay } : Cpu) =
      afterBus s.cpu (s.cpu.nmiWanted || decide (CpuCall.nmi ∈ (h.read s.mem adrl).2.1 ∨
        CpuCall.nmi ∈ (h.read (h.read s.mem adrl).2.2 adrh).2.1))
        (applyCalls { applyCalls { s.cpu with intDelay := false }
        (h.read s.mem adrl).2.1 with intDelay := false }
        (h.read (h.read s.mem adrl).2.2 adrh).2.1).irqWanted
        (applyCalls { applyCalls { s.cpu with intDelay := false }
        (h.read s.mem adrl).2.1 with intDelay := false }
        (h.read (h.read s.mem adrl).2.2 adrh).2.1).intDelay := by
    rw [applyCalls_eq { s.cpu with intDelay := false } (h.read s.mem adrl).2.1]
    rfl
  rw [e4]
  simpa only [List.append_assoc, List.cons_append, List.nil_append] using key

end VectorFetch

/-- C2 (counterexample): over a backend whose read of 0xFFEA raises a new NMI, the NMI entry
from `demoNmiState` ends with `nmiWanted` set: the flag is cleared before the vector fetch
and the callback of the fetch sets it again. -/
theorem C2_nmi_raised_during_vector_fetch :
    demoNmiState.cpu.e = false ∧ demoNmiState.cpu.intWanted = true ∧
    demoNmiState.cpu.nmiWanted = true ∧
    ((cpu_runOpcode vectorNmiHandlers).run demoNmiState).2.cpu.nmiWanted = true ∧
    ((cpu_runOpcode vectorNmiHandlers).run demoNmiState).2.cpu.intWanted = false ∧
    ((cpu_runOpcode vectorNmiHandlers).run demoNmiState).2.cpu.pc = 0x1122 := by
  decide

/-- C2 (amended): native-mode NMI entry.  For every native-mode (E = 0) state with registers in
range, `intWanted` and `nmiWanted` set and no reset / stop / wait pending, with PC = p, K = k,
SP = s and flag byte P = `N V M X D I Z C` (bit 7 to bit 0): `cpu_runOpcode` makes a dummy
read at K:PC and an idle cycle, then writes k to address s, high(p) to s-1, low(p) to s-2 and
P to s-3 in that order (addresses mod 2^16), leaves SP = s-4, sets I = 1, D = 0, K = 0,
clears `intWanted`, clears `nmiWanted` before the vector fetch, and loads PC from the bytes
read at 0xFFEA (low) and 0xFFEB (high).  At the end `nmiWanted` is set exactly when the
callback of one of these two reads called `cpu_nmi`; in particular it is clear when the
callbacks make no CPU calls. -/
theorem C2_native_nmi_entry {μ : Type} (h : Handlers μ) (s : Machine μ) (hwf : s.cpu.WellFormed)
    (he : s.cpu.e = false) (hiw : s.cpu.intWanted = true) (hnw : s.cpu.nmiWanted = true)
    (hr : s.cpu.resetWanted = false) (hs : s.cpu.stopped = false) (hw : s.cpu.waiting = false) :
    wp (cpu_runOpcode h) (fun _ s' =>
      (∃ v0 lo hi m1, lo = (h.read m1 0xffea).1 % 256 ∧
        hi = (h.read (h.read m1 0xffea).2.2 0xffeb).1 % 256 ∧
        s'.trace = s.trace ++
          [BusEvent.read ((s.cpu.k <<< 16) ||| s.cpu.pc) v0, BusEvent.idle false,
           BusEvent.write s.cpu.sp s.cpu.k,
           BusEvent.write (dec16 s.cpu.sp) (s.cpu.pc / 256),
           BusEvent.write (dec16 (dec16 s.cpu.sp)) (s.cpu.pc % 256),
           BusEvent.write (dec16 (dec16 (dec16 s.cpu.sp))) (cpu_getFlags s.cpu),
           BusEvent.read 0xffea lo, BusEvent.read 0xffeb hi] ∧
        s'.cpu.pc = lo ||| (hi <<< 8) ∧
        s'.cpu.nmiWanted = decide (CpuCall.nmi ∈ (h.read m1 0xffea).2.1 ∨
          CpuCall.nmi ∈ (h.read (h.read m1 0xffea).2.2 0xffeb).2.1)) ∧
      cpu_getFlags s.cpu = 128 * s.cpu.n.toNat + 64 * s.cpu.v.toNat + 32 * s.cpu.mf.toNat +
        16 * s.cpu.xf.toNat + 8 * s.cpu.d.toNat + 4 * s.cpu.i.toNat + 2 * s.cpu.z.toNat +
        s.cpu.c.toNat ∧
      s'.cpu.sp = dec16 (dec16 (dec16 (dec16 s.cpu.sp))) ∧
      s'.cpu.i = true ∧ s'.cpu.d = false ∧ s'.cpu.k = 0 ∧ s'.cpu.intWanted = false ∧
      s'.cpu.e = false ∧
      (Quiet h → s'.cpu.nmiWanted = false)) s := by
  obtain ⟨_, _, _, _, hpc, _, hk, _⟩ := hwf
  have hflags : cpu_getFlags s.cpu = 128 * s.cpu.n.toNat + 64 * s.cpu.v.toNat +
      32 * s.cpu.mf.toNat + 16 * s.cpu.xf.toNat + 8 * s.cpu.d.toNat + 4 * s.cpu.i.toNat +
      2 * s.cpu.z.toNat + s.cpu.c.toNat := by
    unfold cpu_getFlags
    cases s.cpu.n <;> cases s.cpu.v <;> cases s.cpu.mf <;> cases s.cpu.xf <;> cases s.cpu.d <;>
      cases s.cpu.i <;> cases s.cpu.z <;> cases s.cpu.c <;> decide
  unfold cpu_runOpcode
  apply wp_bind; apply wp_getCpu; simp only [hr, Bool.false_eq_true, if_false]
  apply wp_bind; apply wp_getCpu; simp only [hs, Bool.false_eq_true, if_false]
  apply wp_bind; apply wp_getCpu; simp only [hw, Bool.false_eq_true, if_false]
  apply wp_bind; apply wp_getCpu; simp only [hiw, if_true]
  apply wp_bind; apply wp_getCpu
  apply wp_bind; apply wp_read
  intro n0 i0 d0 m0 hn0 hq0
  clear hq0
  unfold cpu_doInterrupt
  apply wp_bind; apply wp_idle
  intro n1 i1 d1 m1 hn1 hq1
  clear hq1
  apply wp_bind; apply wp_getCpu
  apply wp_bind; refine wp_pushByte_native h (by dsimp only [afterBus]; exact he) ?_
  intro n2 i2 d2 m2 hn2 hq2
  clear hq2
  apply wp_bind; apply wp_getCpu
  apply wp_bind; refine wp_pushWord_native h (by dsimp only [afterBus]; exact he) ?_
  intro n3 i3 d3 m3 hn3 hq3
  clear hq3
  apply wp_bind; apply wp_getCpu
  apply wp_bind; refine wp_pushByte_native h (by dsimp only [afterBus]; exact he) ?_
  intro n4 i4 d4 m4 hn4 hq4
  clear hq4
  dsimp only [afterBus] at hn0 hn1 hn2 hn3 hn4
  have h4 : n4 = true := hn4 (hn3 (hn2 (hn1 (hn0 hnw))))
  subst h4
  apply wp_bind; apply wp_modifyCpu
  apply wp_bind; apply wp_getCpu
  dsimp only [afterBus]
  simp only [if_true]
  apply wp_bind; apply wp_modifyCpu
  apply wp_bind; apply wp_readWord_calls
  intro lo hi i5 d5 hlo hhi
  apply wp_modifyCpu
  dsimp only [afterBus] at hlo hhi ⊢
  have ek : s.cpu.k % 256 = s.cpu.k := Nat.mod_eq_of_lt hk
  have ep : s.cpu.pc % 65536 = s.cpu.pc := Nat.mod_eq_of_lt hpc
  have eh : (s.cpu.pc >>> 8) % 256 = s.cpu.pc / 256 := by
    rw [Nat.shiftRight_eq_div_pow]
    exact Nat.mod_eq_of_lt (by omega)
  have el : (s.cpu.pc &&& 255) % 256 = s.cpu.pc % 256 := by
    have : s.cpu.pc &&& 255 = s.cpu.pc % 256 := Nat.and_pow_two_sub_one_eq_mod s.cpu.pc 8
    rw [this, Nat.mod_mod]
  refine ⟨⟨(h.read s.mem (s.cpu.k <<< 16 ||| s.cpu.pc)).1 % 256, lo, hi, m4, hlo, hhi, ?_, rfl,
    ?_⟩, hflags, rfl, rfl, rfl, rfl, rfl, he, fun hq => ?_⟩
  · simp only [ek, ep, eh, el, List.append_assoc, List.cons_append, List.nil_append]
    simp only [Nat.mod_eq_of_lt (cpu_getFlags_lt _)]
    simp only [cpu_getFlags]
  · simp only [Bool.false_or]
  · simp only [Bool.false_or, hq.1, List.not_mem_nil, or_self, decide_False]

/-- Witness for C2: the state after a hard reset switched to native mode with an NMI pending,
over `demoRom`. -/
theorem C2_native_nmi_entry_witness :
    demoNmiState.cpu.WellFormed ∧ demoNmiState.cpu.e = false ∧
    demoNmiState.cpu.intWanted = true ∧ demoNmiState.cpu.nmiWanted = true ∧
    wp (cpu_runOpcode (romHandlers demoRom)) (fun _ s' =>
      (∃ v0 lo hi m1, lo = ((romHandlers demoRom).read m1 0xffea).1 % 256 ∧
        hi = ((romHandlers demoRom).read ((romHandlers demoRom).read m1 0xffea).2.2 0xffeb).1
          % 256 ∧
        s'.trace = demoNmiState.trace ++
          [BusEvent.read ((demoNmiState.cpu.k <<< 16) ||| demoNmiState.cpu.pc) v0,
           BusEvent.idle false,
           BusEvent.write demoNmiState.cpu.sp demoNmiState.cpu.k,
           BusEvent.write (dec16 demoNmiState.cpu.sp) (demoNmiState.cpu.pc / 256),
           BusEvent.write (dec16 (dec16 demoNmiState.cpu.sp)) (demoNmiState.cpu.pc % 256),
           BusEvent.write (dec16 (dec16 (dec16 demoNmiState.cpu.sp)))
             (cpu_getFlags demoNmiState.cpu),
           BusEvent.read 0xffea lo, BusEvent.read 0xffeb hi] ∧
        s'.cpu.pc = lo ||| (hi <<< 8) ∧
        s'.cpu.nmiWanted = decide (CpuCall.nmi ∈ ((romHandlers demoRom).read m1 0xffea).2.1 ∨
          CpuCall.nmi ∈
            ((romHandlers demoRom).read ((romHandlers demoRom).read m1 0xffea).2.2 0xffeb).2.1)) ∧
      cpu_getFlags demoNmiState.cpu = 128 * demoNmiState.cpu.n.toNat +
        64 * demoNmiState.cpu.v.toNat + 32 * demoNmiState.cpu.mf.toNat +
        16 * demoNmiState.cpu.xf.toNat + 8 * demoNmiState.cpu.d.toNat +
        4 * demoNmiState.cpu.i.toNat + 2 * demoNmiState.cpu.z.toNat +
        demoNmiState.cpu.c.toNat ∧
      s'.cpu.sp = dec16 (dec16 (dec16 (dec16 demoNmiState.cpu.sp))) ∧
      s'.cpu.i = true ∧ s'.cpu.d = false ∧ s'.cpu.k = 0 ∧ s'.cpu.intWanted = false ∧
      s'.cpu.e = false ∧
      (Quiet (romHandlers demoRom) → s'.cpu.nmiWanted = false)) demoNmiState :=
  ⟨⟨by decide, by decide, by decide, by decide, by decide, by decide, by decide, by decide⟩,
    rfl, rfl, rfl,
    C2_native_nmi_entry (romHandlers demoRom) demoNmiState
      ⟨by decide, by decide, by decide, by decide, by decide, by decide, by decide, by decide⟩
      rfl rfl rfl rfl rfl rfl⟩

/-- C3 (divergence): in emulation mode (E = 1) with an IRQ pending, `cpu_runOpcode` over
`demoRom` fetches the new PC from the native IRQ vector 0xFFEE/0xFFEF (giving 0x3344), not
from the emulation vector 0xFFFE/0xFFFF (which holds 0x5566). -/
theorem C3_emulation_irq_vector :
    ((cpu_runOpcode (romHandlers demoRom)).run demoEmuIrqState).2.cpu.pc = 0x3344 ∧
    ((cpu_runOpcode (romHandlers demoRom)).run demoEmuIrqState).2.cpu.e = true ∧
    ((cpu_runOpcode (romHandlers demoRom)).run demoEmuIrqState).2.trace =
      [BusEvent.read 0x8000 0x28, BusEvent.idle false, BusEvent.write 0x1fd 0,
       BusEvent.write 0x1fc 0x80, BusEvent.write 0x1fb 0, BusEvent.write 0x1fa 0x30,
       BusEvent.read 0xffee 0x44, BusEvent.read 0xffef 0x33] := by
  decide

/-- C4 (divergence): in emulation mode (E = 1) with an NMI pending, `cpu_runOpcode` over
`demoRom` makes four write callbacks and lowers the low byte of SP by four (0xFD to 0xF9),
not three. -/
theorem C4_emulation_nmi_pushes :
    (((cpu_runOpcode (romHandlers demoRom)).run demoEmuNmiState).2.trace.filter
      BusEvent.isWrite).length = 4 ∧
    ((cpu_runOpcode (romHandlers demoRom)).run demoEmuNmiState).2.cpu.sp = 0x1f9 ∧
    demoEmuNmiState.cpu.sp = 0x1fd ∧
    ((cpu_runOpcode (romHandlers demoRom)).run demoEmuNmiState).2.cpu.e = true ∧
    ((cpu_runOpcode (romHandlers demoRom)).run demoEmuNmiState).2.cpu.pc = 0x1122 := by
  decide

theorem inv_reset_hard (c : Cpu) : Inv (cpu_reset c true) := by
  unfold Inv cpu_reset
  simp

theorem inv_reset_of_inv (c : Cpu) (hard : Bool) (hc : Inv c) : Inv (cpu_reset c hard) := by
  cases hard
  · exact inv_of_core rfl hc
  · exact inv_reset_hard c

theorem reachable_inv {μ : Type} (h : Handlers μ) {s : Machine μ} (hr : Reachable h s) : Inv s.cpu := by
  induction hr with
  | reset s => exact inv_reset_hard s.cpu
  | step _ ih => exact (holds_runOpcode h).inv _ ih
  | nmi _ ih => exact inv_of_core rfl ih
  | setIrq _ _ ih => exact inv_of_core rfl ih
  | softReset hard _ ih => exact inv_reset_of_inv _ hard ih
  | bus _ _ ih => exact ih

/-- C5: emulation-mode invariant.  In every state reached from a hard `cpu_reset` by any number
of `cpu_runOpcode` steps, for any bus callbacks (any opcode and data bytes, NMI/IRQ raised inside
callbacks or between steps, further resets), E = 1 implies M = 1, X = 1 and
`(SP & 0xFF00) == 0x0100`. -/
theorem C5_emulation_invariant {μ : Type} (h : Handlers μ) (s : Machine μ) (hr : Reachable h s) :
    s.cpu.e = true → s.cpu.mf = true ∧ s.cpu.xf = true ∧ s.cpu.sp &&& 0xff00 = 0x100 :=
  (reachable_inv h hr).1

/-- Witness for C5: the state after the reset sequence over `demoRom` is reachable, is in
emulation mode, and satisfies the conclusion. -/
theorem C5_emulation_invariant_witness :
    Reachable (romHandlers demoRom) demoBooted ∧ demoBooted.cpu.e = true ∧
      (demoBooted.cpu.mf = true ∧ demoBooted.cpu.xf = true ∧ demoBooted.cpu.sp &&& 0xff00 = 0x100) :=
  have hr : Reachable (romHandlers demoRom) demoBooted := Reachable.step (Reachable.reset ⟨zeroCpu, (), []⟩)
  ⟨hr, by decide, C5_emulation_invariant (romHandlers demoRom) demoBooted hr (by decide)⟩

/-- C6: index-width invariant.  In every state reached from a hard `cpu_reset` by any number of
`cpu_runOpcode` steps, for any bus callbacks, the X flag being set implies
`(X & 0xFF00) == 0` and `(Y & 0xFF00) == 0`. -/
theorem C6_index_width_invariant {μ : Type} (h : Handlers μ) (s : Machine μ) (hr : Reachable h s) :
    s.cpu.xf = true → s.cpu.x &&& 0xff00 = 0 ∧ s.cpu.y &&& 0xff00 = 0 :=
  (reachable_inv h hr).2

/-- Witness for C6: the booted state over `demoRom` is reachable, has the X flag set, and has
the high bytes of X and Y zero. -/
theorem C6_index_width_invariant_witness :
    Reachable (romHandlers demoRom) demoBooted ∧ demoBooted.cpu.xf = true ∧
      (demoBooted.cpu.x &&& 0xff00 = 0 ∧ demoBooted.cpu.y &&& 0xff00 = 0) :=
  have hr : Reachable (romHandlers demoRom) demoBooted := Reachable.step (Reachable.reset ⟨zeroCpu, (), []⟩)
  ⟨hr, by decide, C6_index_width_invariant (romHandlers demoRom) demoBooted hr (by decide)⟩

/-- C7: `cpu_checkInt` sets `intWanted` to `(not intDelay) and (nmiWanted or (irqWanted and not I))`
evaluated on the state before the call, clears `intDelay`, and changes nothing else (no other
register, not the bus state, no callback). -/
theorem C7_checkInt_exact {μ : Type} (s : Machine μ) :
    ((cpu_checkInt : CpuM μ Unit).run s).2 =
      { s with cpu := { s.cpu with
          intWanted := (!s.cpu.intDelay) && (s.cpu.nmiWanted || (s.cpu.irqWanted && !s.cpu.i)),
          intDelay := false } } := by
  simp only [cpu_checkInt, run_modifyCpu, checkInt, Bool.and_comm]

section IntDelay
variable {μ : Type} (h : Handlers μ)

theorem doOpcode_plp : cpu_doOpcode h 0x28 = (do
    cpu_idle h
    cpu_idle h
    cpu_checkInt
    let value ← cpu_pullByte h
    cpu_setFlags value) := rfl

theorem doOpcode_rti : cpu_doOpcode h 0x40 = (do
    cpu_idle h
    cpu_idle h
    let value ← cpu_pullByte h
    cpu_setFlags value
    let pc ← cpu_pullWord h false
    modifyCpu fun c => { c with pc := pc }
    cpu_checkInt
    let k ← cpu_pullByte h
    modifyCpu fun c => { c with k := k }) := rfl

theorem doOpcode_rep : cpu_doOpcode h 0xc2 = (do
    let val ← cpu_readOpcode h
    cpu_checkInt
    cpu_setFlags (cAnd (cNot val) (cpu_getFlags (← getCpu)))
    cpu_idle h) := rfl

theorem doOpcode_sep : cpu_doOpcode h 0xe2 = (do
    let val ← cpu_readOpcode h
    cpu_checkInt
    cpu_setFlags (cpu_getFlags (← getCpu) ||| val)
    cpu_idle h) := rfl

theorem doOpcode_xce : cpu_doOpcode h 0xfb = (do
    cpu_adrImp h
    modifyCpu fun c => { c with c := c.e, e := c.c }
    cpu_setFlags (cpu_getFlags (← getCpu))) := rfl

/-- The computation `m` always ends with `intDelay` clear. -/
def ClearsDelay {α : Type} (m : CpuM μ α) : Prop :=
  ∀ s, wp m (fun _ s' => s'.cpu.intDelay = false) s

/-- The computation `m` ends with `intDelay` clear when started with it clear. -/
def KeepsDelay {α : Type} (m : CpuM μ α) : Prop :=
  ∀ s, s.cpu.intDelay = false → wp m (fun _ s' => s'.cpu.intDelay = false) s

theorem ClearsDelay.keeps {α : Type} {m : CpuM μ α} (hm : ClearsDelay m) : KeepsDelay m :=
  fun s _ => hm s

theorem clears_bind_right {α β : Type} {m : CpuM μ α} {f : α → CpuM μ β}
    (hf : ∀ a, ClearsDelay (f a)) : ClearsDelay (m >>= f) :=
  fun s => hf (m.run s).1 (m.run s).2

theorem clears_bind_left {α β : Type} {m : CpuM μ α} {f : α → CpuM μ β}
    (hm : ClearsDelay m) (hf : ∀ a, KeepsDelay (f a)) : ClearsDelay (m >>= f) :=
  fun s => hf (m.run s).1 (m.run s).2 (hm s)

theorem keeps_bind {α β : Type} {m : CpuM μ α} {f : α → CpuM μ β}
    (hm : KeepsDelay m) (hf : ∀ a, KeepsDelay (f a)) : KeepsDelay (m >>= f) :=
  fun s hs => hf (m.run s).1 (m.run s).2 (hm s hs)

theorem keeps_getCpu : KeepsDelay (getCpu : CpuM μ Cpu) := fun _ hs => hs

theorem keeps_modifyCpu {f : Cpu → Cpu} (hf : ∀ c, (f c).intDelay = c.intDelay) :
    KeepsDelay (modifyCpu f : CpuM μ Unit) :=
  fun s hs => (hf s.cpu).trans hs

theorem clears_read (hq : Quiet h) (adr : Nat) : ClearsDelay (cpu_read h adr) := by
  intro s
  apply wp_read
  intro nmi irq dly m' _ hx
  exact (hx hq).2.2

theorem clears_idle (hq : Quiet h) : ClearsDelay (cpu_idle h) := by
  intro s
  apply wp_idle
  intro nmi irq dly m' _ hx
  exact (hx hq).2.2

theorem clears_pullByte (hq : Quiet h) : ClearsDelay (cpu_pullByte h) := by
  unfold cpu_pullByte
  exact clears_bind_right fun _ => clears_bind_right fun _ => clears_bind_right fun _ =>
    clears_read h hq _

/-- The five flag-modifying opcodes leave `intDelay` clear over a quiet bus. -/
theorem intDelay_flagOpcodes (hq : Quiet h) (op : Nat)
    (hop : op = 0x28 ∨ op = 0xc2 ∨ op = 0xe2 ∨ op = 0x40 ∨ op = 0xfb) :
    ClearsDelay (cpu_doOpcode h op) := by
  rcases hop with rfl | rfl | rfl | rfl | rfl
  · rw [doOpcode_plp]
    exact clears_bind_right fun _ => clears_bind_right fun _ => clears_bind_right fun _ =>
      clears_bind_left (clears_pullByte h hq) fun v => keeps_modifyCpu fun c => setFlags_intDelay c v
  · rw [doOpcode_rep]
    exact clears_bind_right fun _ => clears_bind_right fun _ => clears_bind_right fun _ =>
      clears_bind_right fun _ => clears_idle h hq
  · rw [doOpcode_sep]
    exact clears_bind_right fun _ => clears_bind_right fun _ => clears_bind_right fun _ =>
      clears_bind_right fun _ => clears_idle h hq
  · rw [doOpcode_rti]
    exact clears_bind_right fun _ => clears_bind_right fun _ => clears_bind_right fun _ =>
      clears_bind_right fun _ => clears_bind_right fun _ => clears_bind_right fun _ =>
      clears_bind_right fun _ =>
      clears_bind_left (clears_pullByte h hq) fun _ => keeps_modifyCpu fun _ => rfl
  · rw [doOpcode_xce]
    refine clears_bind_left ?_ fun _ => ?_
    · unfold cpu_adrImp
      refine clears_bind_right fun _ => clears_bind_right fun c => ?_
      by_cases hc : c.intWanted = true
      · rw [if_pos hc]
        exact clears_bind_left (clears_read h hq _) fun _ _ hs => hs
      · rw [if_neg hc]
        exact clears_idle h hq
    · exact keeps_bind (keeps_modifyCpu fun _ => rfl) fun _ => keeps_bind keeps_getCpu fun c =>
        keeps_modifyCpu fun c2 => setFlags_intDelay c2 (cpu_getFlags c)

end IntDelay

/-- C8 (counterexample): executing PLP (the byte 0x28 at 0x8000 of `demoRom`) from the booted
machine leaves `intDelay` false. -/
theorem C8_plp_leaves_intDelay_clear :
    demoBooted.cpu.pc = 0x8000 ∧ demoRom 0x8000 = 0x28 ∧
    ((cpu_runOpcode (romHandlers demoRom)).run demoBooted).2.cpu.intDelay = false ∧
    ((cpu_runOpcode (romHandlers demoRom)).run demoBooted).2.trace.drop 7 =
      [BusEvent.read 0x8000 0x28, BusEvent.idle false, BusEvent.idle false,
       BusEvent.read 0x1fe 0x28] := by
  decide

/-- C8 (amended): over a bus whose callbacks do not call back into the CPU, after
`cpu_runOpcode` fetches and executes PLP (0x28), REP (0xC2), SEP (0xE2), RTI (0x40) or
XCE (0xFB), the `intDelay` flag is clear. -/
theorem C8_intDelay_clear_after_flag_opcodes {μ : Type} (h : Handlers μ) (hq : Quiet h)
    (s : Machine μ) (hr : s.cpu.resetWanted = false) (hs : s.cpu.stopped = false)
    (hw : s.cpu.waiting = false) (hi : s.cpu.intWanted = false) (op : Nat)
    (hfetch : (h.read s.mem ((s.cpu.k <<< 16) ||| s.cpu.pc)).1 % 256 = op)
    (hop : op = 0x28 ∨ op = 0xc2 ∨ op = 0xe2 ∨ op = 0x40 ∨ op = 0xfb) :
    wp (cpu_runOpcode h) (fun _ s' => s'.cpu.intDelay = false) s := by
  unfold cpu_runOpcode cpu_readOpcode
  apply wp_bind; apply wp_getCpu; simp only [hr, Bool.false_eq_true, if_false]
  apply wp_bind; apply wp_getCpu; simp only [hs, Bool.false_eq_true, if_false]
  apply wp_bind; apply wp_getCpu; simp only [hw, Bool.false_eq_true, if_false]
  apply wp_bind; apply wp_getCpu; simp only [hi, Bool.false_eq_true, if_false]
  apply wp_bind; apply wp_bind; apply wp_getCpu
  apply wp_bind; apply wp_modifyCpu
  apply wp_read
  intro nmi irq dly m' hn hx
  dsimp only
  rw [hfetch]
  exact intDelay_flagOpcodes h hq op hop _

/-- Witness for C8: PLP fetched by the booted machine over `demoRom`. -/
theorem C8_intDelay_clear_after_flag_opcodes_witness :
    wp (cpu_runOpcode (romHandlers demoRom)) (fun _ s' => s'.cpu.intDelay = false) demoBooted :=
  C8_intDelay_clear_after_flag_opcodes (romHandlers demoRom)
    ⟨fun _ _ => rfl, fun _ _ _ => rfl, fun _ _ => rfl⟩ demoBooted (by decide) (by decide)
    (by decide) (by decide) 0x28 (by decide) (Or.inl rfl)

/-- C21: while the CPU is stopped, or is waiting with neither `irqWanted` nor `nmiWanted`
set, and no reset is requested, `cpu_runOpcode` performs exactly one callback, an idle with
`waiting = true`, and leaves every register and flag of the CPU as it was; the only fields
that can differ afterwards are the three a callback may set (`nmiWanted`, `irqWanted`,
`intDelay`). -/
theorem C21_stopped_or_waiting_idles {μ : Type} (h : Handlers μ) (s : Machine μ)
    (hr : s.cpu.resetWanted = false)
    (hsw : s.cpu.stopped = true ∨
      (s.cpu.waiting = true ∧ s.cpu.irqWanted = false ∧ s.cpu.nmiWanted = false)) :
    wp (cpu_runOpcode h) (fun _ s' =>
      s'.trace = s.trace ++ [BusEvent.idle true] ∧
      ∃ nmi irq dly, s'.cpu = afterBus s.cpu nmi irq dly) s := by
  unfold cpu_runOpcode
  apply wp_bind; apply wp_getCpu; simp only [hr, Bool.false_eq_true, if_false]
  apply wp_bind; apply wp_getCpu
  by_cases hs : s.cpu.stopped = true
  · simp only [hs, if_true]
    apply wp_idleWait
    intro nmi irq dly m' _ _
    exact ⟨rfl, nmi, irq, dly, rfl⟩
  · have hs2 : s.cpu.stopped = false := by simpa using hs
    obtain ⟨hw, hi, hn⟩ := hsw.resolve_left hs
    simp only [hs2, Bool.false_eq_true, if_false]
    apply wp_bind; apply wp_getCpu; simp only [hw, if_true]
    apply wp_bind; apply wp_getCpu
    apply wp_bind; apply wp_getCpu
    simp only [hi, hn, Bool.or_self, Bool.false_eq_true, if_false]
    apply wp_idleWait
    intro nmi irq dly m' _ _
    exact ⟨rfl, nmi, irq, dly, rfl⟩

/-- Witness for C21: a stopped CPU over the ROM backend. -/
theorem C21_stopped_or_waiting_idles_witness :
    wp (cpu_runOpcode (romHandlers demoRom)) (fun _ s' =>
      s'.trace = demoStoppedState.trace ++ [BusEvent.idle true] ∧
      ∃ nmi irq dly, s'.cpu = afterBus demoStoppedState.cpu nmi irq dly) demoStoppedState :=
  C21_stopped_or_waiting_idles (romHandlers demoRom) demoStoppedState rfl (Or.inl rfl)

/-- The wake-up sequence of `cpu_runOpcode`: idle, interrupt sample, idle; `n1`, `i1`, `d1`
are the values the first idle callback leaves in `nmiWanted`, `irqWanted`, `intDelay`. -/
theorem wp_wakeup {μ : Type} (h : Handlers μ) (c : Cpu) (m m1 : μ) (t : List BusEvent)
    (n1 i1 d1 : Bool)
    (hrun : (cpu_idle h).run ⟨c, m, t⟩
      = ((), ⟨afterBus c n1 i1 d1, m1, t ++ [BusEvent.idle false]⟩)) :
    wp (do cpu_idle h; cpu_checkInt; cpu_idle h) (fun _ s' =>
      s'.trace = t ++ [BusEvent.idle false, BusEvent.idle false] ∧
      ∃ n2 i2 d2,
        s'.cpu = afterBus { c with intWanted := (n1 || (i1 && !c.i)) && !d1 } n2 i2 d2 ∧
        (Quiet h → n2 = n1 ∧ i2 = i1))
      ⟨c, m, t⟩ := by
  apply wp_bind
  refine wp_of_run_eq hrun ?_
  apply wp_bind; apply wp_checkInt
  apply wp_idle
  intro n2 i2 d2 m2 _ hq2
  refine ⟨by simp only [List.append_assoc, List.cons_append, List.nil_append],
    n2, i2, d2, rfl, fun hq => ?_⟩
  obtain ⟨b1, b2, -⟩ := hq2 hq
  exact ⟨b1, b2⟩

/-- C32 (counterexample): over a backend whose second idle callback raises an NMI, a waiting
CPU with a masked IRQ pending (I = 1) wakes up with `intWanted = false` although `nmiWanted`
is set at the end: the interrupt sample was taken between the two idle cycles, not after
both. -/
theorem C32_sample_between_idles :
    ((cpu_runOpcode lateNmiHandlers).run demoWaitingState).2.trace
      = [BusEvent.idle false, BusEvent.idle false] ∧
    ((cpu_runOpcode lateNmiHandlers).run demoWaitingState).2.cpu.nmiWanted = true ∧
    ((cpu_runOpcode lateNmiHandlers).run demoWaitingState).2.cpu.intWanted = false ∧
    ((cpu_runOpcode lateNmiHandlers).run demoWaitingState).2.cpu.waiting = false := by
  decide

/-- C32 (amended): when the CPU is waiting and `irqWanted` or `nmiWanted` is set (no reset
pending, not stopped), `cpu_runOpcode` clears `waiting`, performs exactly two idle callbacks
and no read or write, and leaves every other register unchanged; the interrupt sample is
taken between the two idle cycles, so `intWanted` is computed from the values `n1`, `i1`, `d1`
of `nmiWanted`, `irqWanted`, `intDelay` left by the first idle callback.  When the callbacks
make no CPU calls, `intWanted = nmiWanted || (irqWanted && !I)` holds at the end. -/
theorem C32_wai_wakeup {μ : Type} (h : Handlers μ) (s : Machine μ)
    (hr : s.cpu.resetWanted = false) (hs : s.cpu.stopped = false) (hw : s.cpu.waiting = true)
    (hin : s.cpu.irqWanted = true ∨ s.cpu.nmiWanted = true) :
    wp (cpu_runOpcode h) (fun _ s' =>
      s'.trace = s.trace ++ [BusEvent.idle false, BusEvent.idle false] ∧
      ∃ n1 i1 d1 n2 i2 d2 m1,
        ((cpu_idle h).run ⟨{ s.cpu with waiting := false }, s.mem, s.trace⟩).2
          = ⟨afterBus { s.cpu with waiting := false } n1 i1 d1, m1,
              s.trace ++ [BusEvent.idle false]⟩ ∧
        s'.cpu = afterBus { s.cpu with waiting := false,
                                       intWanted := (n1 || (i1 && !s.cpu.i)) && !d1 } n2 i2 d2 ∧
        (Quiet h → s'.cpu.nmiWanted = s.cpu.nmiWanted ∧ s'.cpu.irqWanted = s.cpu.irqWanted ∧
          s'.cpu.intWanted = (s'.cpu.nmiWanted || (s'.cpu.irqWanted && !s'.cpu.i)))) s := by
  unfold cpu_runOpcode
  apply wp_bind; apply wp_getCpu
  refine wp_ite_neg (by rw [hr]; decide) ?_
  apply wp_bind; apply wp_getCpu
  refine wp_ite_neg (by rw [hs]; decide) ?_
  apply wp_bind; apply wp_getCpu
  refine wp_ite_pos hw ?_
  apply wp_bind; apply wp_getCpu
  apply wp_bind; apply wp_getCpu
  refine wp_ite_pos (by rcases hin with h1 | h1 <;> simp [h1]) ?_
  apply wp_bind; apply wp_modifyCpu
  obtain ⟨n1, i1, d1, m1, hrun, -, hq1⟩ :=
    cpu_idle_eq h ⟨{ s.cpu with waiting := false }, s.mem, s.trace⟩
  refine wp_mono (wp_wakeup h { s.cpu with waiting := false } s.mem m1 s.trace n1 i1 d1 hrun) ?_
  intro _ s' hs'
  obtain ⟨ht, n2, i2, d2, hcpu, hq⟩ := hs'
  refine ⟨ht, n1, i1, d1, n2, i2, d2, m1, congrArg Prod.snd hrun, hcpu, fun hq0 => ?_⟩
  obtain ⟨a1, a2, a3⟩ := hq1 hq0
  obtain ⟨a4, a5⟩ := hq hq0
  rw [hcpu]
  simp only [afterBus, a1, a2, a3, a4, a5, Bool.not_false, Bool.and_true]
  exact ⟨trivial, trivial, trivial⟩

/-- Witness for C32: a waiting CPU with a masked IRQ pending over the ROM backend. -/
theorem C32_wai_wakeup_witness :
    wp (cpu_runOpcode (romHandlers demoRom)) (fun _ s' =>
      s'.trace = demoWaitingRom.trace ++ [BusEvent.idle false, BusEvent.idle false] ∧
      ∃ n1 i1 d1 n2 i2 d2 m1,
        ((cpu_idle (romHandlers demoRom)).run
            ⟨{ demoWaitingRom.cpu with waiting := false }, demoWaitingRom.mem, demoWaitingRom.trace⟩).2
          = ⟨afterBus { demoWaitingRom.cpu with waiting := false } n1 i1 d1, m1,
              demoWaitingRom.trace ++ [BusEvent.idle false]⟩ ∧
        s'.cpu = afterBus { demoWaitingRom.cpu with
            waiting := false, intWanted := (n1 || (i1 && !demoWaitingRom.cpu.i)) && !d1 } n2 i2 d2 ∧
        (Quiet (romHandlers demoRom) → s'.cpu.nmiWanted = demoWaitingRom.cpu.nmiWanted ∧
          s'.cpu.irqWanted = demoWaitingRom.cpu.irqWanted ∧
          s'.cpu.intWanted = (s'.cpu.nmiWanted || (s'.cpu.irqWanted && !s'.cpu.i))))
      demoWaitingRom :=
  C32_wai_wakeup (romHandlers demoRom) demoWaitingRom rfl rfl rfl (Or.inl rfl)

/-! ## Multiplier and divider registers -/

theorem and_ff_eq_mod (x : Nat) : x &&& 0xff = x % 256 := Nat.and_pow_two_sub_one_eq_mod x 8

theorem shr8_eq_div (x : Nat) : x >>> 8 = x / 256 := Nat.shiftRight_eq_div_pow x 8

theorem byte_or_shl8 (lo hi : Nat) (hlo : lo < 256) : lo ||| (hi <<< 8) = lo + 256 * hi := by
  have h := Nat.mul_add_lt_is_or (i := 8) (by simpa using hlo : lo < 2 ^ 8) hi
  rw [Nat.shiftLeft_eq, Nat.lor_comm, Nat.mul_comm, ← h]
  omega

/-- The product registers after the two operand writes. -/
theorem multiplier_regs (s : Snes) (a b : Nat) (ha : a < 256) (hb : b < 256) :
    (snes_readReg (snes_writeReg (snes_writeReg s 0x4202 a) 0x4203 b) 0x4216).1 = (a * b) % 256 ∧
    (snes_readReg (snes_writeReg (snes_writeReg s 0x4202 a) 0x4203 b) 0x4217).1 = (a * b) / 256 := by
  have hab : a * b < 0x10000 := by nlinarith
  refine ⟨?_, ?_⟩
  · simp [snes_writeReg, snes_readReg, and_ff_eq_mod]
    omega
  · simp [snes_writeReg, snes_readReg, shr8_eq_div]
    omega

/-- C9: for all bytes `a`, `b` and every bus state, after writing `a` to 0x4202 and then `b` to
0x4203 a read of 0x4216 returns `(a*b) mod 256` and a read of 0x4217 returns `(a*b) div 256`;
the write to 0x4202 alone changes only `multiplyA`, so the result registers read as before. -/
theorem C9_multiplier (s : Snes) (a b : Nat) (ha : a < 256) (hb : b < 256) :
    (snes_readReg (snes_writeReg (snes_writeReg s 0x4202 a) 0x4203 b) 0x4216).1 = (a * b) % 256 ∧
    (snes_readReg (snes_writeReg (snes_writeReg s 0x4202 a) 0x4203 b) 0x4217).1 = (a * b) / 256 ∧
    snes_writeReg s 0x4202 a = { s with multiplyA := a } ∧
    (snes_readReg (snes_writeReg s 0x4202 a) 0x4216).1 = (snes_readReg s 0x4216).1 ∧
    (snes_readReg (snes_writeReg s 0x4202 a) 0x4217).1 = (snes_readReg s 0x4217).1 := by
  refine ⟨(multiplier_regs s a b ha hb).1, (multiplier_regs s a b ha hb).2, ?_, ?_, ?_⟩
  · simp [snes_writeReg]
  · simp [snes_writeReg, snes_readReg]
  · simp [snes_writeReg, snes_readReg]

/-- Witness for C9: 0x12 times 0x34 on the reset bus. -/
theorem C9_multiplier_witness :
    (snes_readReg (snes_writeReg (snes_writeReg demoBus 0x4202 0x12) 0x4203 0x34) 0x4216).1
      = (0x12 * 0x34) % 256 ∧
    (snes_readReg (snes_writeReg (snes_writeReg demoBus 0x4202 0x12) 0x4203 0x34) 0x4217).1
      = (0x12 * 0x34) / 256 ∧
    snes_writeReg demoBus 0x4202 0x12 = { demoBus with multiplyA := 0x12 } ∧
    (snes_readReg (snes_writeReg demoBus 0x4202 0x12) 0x4216).1 = (snes_readReg demoBus 0x4216).1 ∧
    (snes_readReg (snes_writeReg demoBus 0x4202 0x12) 0x4217).1 = (snes_readReg demoBus 0x4217).1 :=
  C9_multiplier demoBus 0x12 0x34 (by decide) (by decide)

/-- C10 (counterexample): after writing 0x12 to 0x4202 and 0x34 to 0x4203 on the reset bus,
0x4216 reads 0xA8, which is not 0x08. -/
theorem C10_low_byte_is_A8 :
    (snes_readReg (snes_writeReg (snes_writeReg demoBus 0x4202 0x12) 0x4203 0x34) 0x4216).1 = 0xa8 ∧
    (snes_readReg (snes_writeReg (snes_writeReg demoBus 0x4202 0x12) 0x4203 0x34) 0x4216).1 ≠ 0x08 := by
  decide

/-- C10 (amended): in every bus state, after writing 0x12 to 0x4202 and then 0x34 to 0x4203,
reading 0x4216 returns 0xA8 and reading 0x4217 returns 0x03 (0x12 * 0x34 = 0x03A8). -/
theorem C10_multiplier_scenario (s : Snes) :
    (snes_readReg (snes_writeReg (snes_writeReg s 0x4202 0x12) 0x4203 0x34) 0x4216).1 = 0xa8 ∧
    (snes_readReg (snes_writeReg (snes_writeReg s 0x4202 0x12) 0x4203 0x34) 0x4217).1 = 0x03 := by
  have h := multiplier_regs s 0x12 0x34 (by decide) (by decide)
  exact ⟨h.1.trans (by norm_num), h.2.trans (by norm_num)⟩

/-- The dividend register after both byte writes, in either order. -/
theorem divideA_written (s : Snes) (lo hi : Nat) (hlo : lo < 256) (hhi : hi < 256) :
    (snes_writeReg (snes_writeReg s 0x4204 lo) 0x4205 hi).divideA = lo + 256 * hi ∧
    (snes_writeReg (snes_writeReg s 0x4205 hi) 0x4204 lo).divideA = lo + 256 * hi := by
  have e1 : ∀ x : Nat, ((x &&& 0xff00) ||| lo) &&& 0xff = lo := by
    intro x
    apply Nat.eq_of_testBit_eq
    intro i
    simp only [Nat.testBit_and, Nat.testBit_or]
    by_cases hi8 : i < 8
    · have : (0xff00 : Nat).testBit i = false := by interval_cases i <;> rfl
      have h2 : (0xff : Nat).testBit i = true := by interval_cases i <;> rfl
      simp [this, h2]
    · have h2 : (0xff : Nat).testBit i = false := by
        have : (0xff : Nat) < 2 ^ i := lt_of_lt_of_le (by norm_num) (Nat.pow_le_pow_right (by norm_num) (not_lt.mp hi8))
        exact Nat.testBit_lt_two_pow this
      have h3 : lo.testBit i = false := by
        have : lo < 2 ^ i := lt_of_lt_of_le hlo (le_trans (by norm_num) (Nat.pow_le_pow_right (by norm_num : 0 < 2) (not_lt.mp hi8)))
        exact Nat.testBit_lt_two_pow this
      simp [h2, h3]
  have e2 : ∀ x : Nat, (((x &&& 0xff) ||| (hi <<< 8)) % 0x10000 &&& 0xff00) ||| lo = lo + 256 * hi := by
    intro x
    have hx : x &&& 0xff < 256 := by rw [and_ff_eq_mod]; omega
    have h1 : (x &&& 0xff) ||| (hi <<< 8) = (x &&& 0xff) + 256 * hi := byte_or_shl8 _ _ hx
    rw [h1, Nat.mod_eq_of_lt (by omega)]
    have h3 : ((x &&& 0xff) + 256 * hi) &&& 0xff00 = 256 * hi := by
      have := Nat.and_pow_two_sub_one_eq_mod ((x &&& 0xff) + 256 * hi) 8
      have h4 : ((x &&& 0xff) + 256 * hi) &&& 0xff00 = (((x &&& 0xff) + 256 * hi) >>> 8 &&& 0xff) <<< 8 := by
        apply Nat.eq_of_testBit_eq
        intro i
        simp only [Nat.testBit_and, Nat.testBit_shiftLeft, Nat.testBit_shiftRight]
        by_cases hi8 : 8 ≤ i
        · by_cases hi16 : i < 16
          · have : (0xff00 : Nat).testBit i = true := by interval_cases i <;> rfl
            have h5 : (0xff : Nat).testBit (i - 8) = true := by interval_cases i <;> rfl
            simp [this, h5, hi8]
          · have : (0xff00 : Nat).testBit i = false :=
              Nat.testBit_lt_two_pow (lt_of_lt_of_le (by norm_num) (Nat.pow_le_pow_right (by norm_num : 0 < 2) (not_lt.mp hi16)))
            have h5 : (0xff : Nat).testBit (i - 8) = false :=
              Nat.testBit_lt_two_pow (lt_of_lt_of_le (by norm_num : 255 < 2 ^ 8) (Nat.pow_le_pow_right (by norm_num : 0 < 2) (by omega)))
            simp [this, h5]
        · have : (0xff00 : Nat).testBit i = false := by
            have : i < 8 := by omega
            interval_cases i <;> rfl
          simp [this, hi8]
      rw [h4, shr8_eq_div, and_ff_eq_mod, Nat.shiftLeft_eq]
      omega
    rw [h3, Nat.lor_comm]
    have := byte_or_shl8 lo hi hlo
    rw [Nat.shiftLeft_eq, Nat.mul_comm] at this
    simpa [Nat.mul_comm] using this
  constructor
  · simp only [snes_writeReg]
    simp
    rw [e1, byte_or_shl8 lo hi hlo, Nat.mod_eq_of_lt (by omega)]
  · simp only [snes_writeReg]
    simp
    exact e2 _

theorem word_of_bytes (q : Nat) (hq : q < 0x10000) :
    (q &&& 0xff) ||| (((q >>> 8) % 256) <<< 8) = q := by
  rw [and_ff_eq_mod, shr8_eq_div, byte_or_shl8 _ _ (Nat.mod_lt _ (by norm_num))]
  omega

theorem readRegWord_quotient (s : Snes) (hq : s.divideResult < 0x10000) :
    readRegWord s 0x4214 = s.divideResult := by
  simp only [readRegWord, snes_readReg]
  simp
  exact word_of_bytes _ hq

theorem readRegWord_remainder (s : Snes) (hq : s.multiplyResult < 0x10000) :
    readRegWord s 0x4216 = s.multiplyResult := by
  simp only [readRegWord, snes_readReg]
  simp
  exact word_of_bytes _ hq

theorem writeReg_divisor (s : Snes) (v : Nat) (hv : 0 < v) :
    (snes_writeReg s 0x4206 v).divideResult = s.divideA / v ∧
    (snes_writeReg s 0x4206 v).multiplyResult = s.divideA % v := by
  have : v ≠ 0 := by omega
  simp [snes_writeReg, this]

/-- C11: for every dividend `d = lo + 256 * hi` written bytewise to 0x4204 / 0x4205 in either
order and every non-zero divisor byte `v` written to 0x4206, the word read from 0x4214/0x4215
is `d / v` and the word read from 0x4216/0x4217 is `d % v`; so `d = q * v + r` with `r < v`. -/
theorem C11_divider (s s1 : Snes) (lo hi v : Nat) (hlo : lo < 256) (hhi : hi < 256)
    (hv0 : 0 < v) (hv : v < 256)
    (hs1 : s1 = snes_writeReg (snes_writeReg s 0x4204 lo) 0x4205 hi ∨
           s1 = snes_writeReg (snes_writeReg s 0x4205 hi) 0x4204 lo) :
    readRegWord (snes_writeReg s1 0x4206 v) 0x4214 = (lo + 256 * hi) / v ∧
    readRegWord (snes_writeReg s1 0x4206 v) 0x4216 = (lo + 256 * hi) % v ∧
    lo + 256 * hi = ((lo + 256 * hi) / v) * v + (lo + 256 * hi) % v ∧
    (lo + 256 * hi) % v < v := by
  have hd : s1.divideA = lo + 256 * hi := by
    rcases hs1 with h | h
    · rw [h]; exact (divideA_written s lo hi hlo hhi).1
    · rw [h]; exact (divideA_written s lo hi hlo hhi).2
  obtain ⟨h1, h2⟩ := writeReg_divisor s1 v hv0
  rw [hd] at h1 h2
  have hq : (lo + 256 * hi) / v < 0x10000 :=
    lt_of_le_of_lt (Nat.div_le_self _ _) (by omega)
  have hr : (lo + 256 * hi) % v < 0x10000 :=
    lt_trans (Nat.mod_lt _ hv0) (by omega)
  refine ⟨?_, ?_, ?_, Nat.mod_lt _ hv0⟩
  · rw [readRegWord_quotient _ (by rw [h1]; exact hq), h1]
  · rw [readRegWord_remainder _ (by rw [h2]; exact hr), h2]
  · have := Nat.div_add_mod (lo + 256 * hi) v
    rw [Nat.mul_comm] at this
    exact this.symm

/-- Witness for C11: dividend 0x1000 (bytes 0x00, 0x10), divisor 5 on the reset bus gives
quotient 0x0333 and remainder 1. -/
theorem C11_divider_witness :
    readRegWord (snes_writeReg (snes_writeReg (snes_writeReg demoBus 0x4204 0x00) 0x4205 0x10)
      0x4206 5) 0x4214 = (0x00 + 256 * 0x10) / 5 ∧
    readRegWord (snes_writeReg (snes_writeReg (snes_writeReg demoBus 0x4204 0x00) 0x4205 0x10)
      0x4206 5) 0x4216 = (0x00 + 256 * 0x10) % 5 ∧
    0x00 + 256 * 0x10 = ((0x00 + 256 * 0x10) / 5) * 5 + (0x00 + 256 * 0x10) % 5 ∧
    (0x00 + 256 * 0x10) % 5 < 5 :=
  C11_divider demoBus _ 0x00 0x10 5 (by decide) (by decide) (by decide) (by decide) (Or.inl rfl)

/-- C12: for every 16-bit dividend held in `divideA`, writing 0 to 0x4206 changes only the two
result registers: 0x4214/0x4215 then read as 0xFFFF and 0x4216/0x4217 as the dividend. -/
theorem C12_divide_by_zero (s : Snes) (hd : s.divideA < 0x10000) :
    snes_writeReg s 0x4206 0 = { s with divideResult := 0xffff, multiplyResult := s.divideA } ∧
    readRegWord (snes_writeReg s 0x4206 0) 0x4214 = 0xffff ∧
    readRegWord (snes_writeReg s 0x4206 0) 0x4216 = s.divideA := by
  have h0 : snes_writeReg s 0x4206 0
      = { s with divideResult := 0xffff, multiplyResult := s.divideA } := by
    simp [snes_writeReg]
  refine ⟨h0, ?_, ?_⟩
  · rw [readRegWord_quotient _ (by rw [h0]; exact (by decide : (0xffff : Nat) < 0x10000)), h0]
  · rw [readRegWord_remainder _ (by rw [h0]; exact hd), h0]

/-- Witness for C12: the dividend 0x1000. -/
theorem C12_divide_by_zero_witness :
    snes_writeReg { demoBus with divideA := 0x1000 } 0x4206 0
      = { { demoBus with divideA := 0x1000 } with
          divideResult := 0xffff, multiplyResult := ({ demoBus with divideA := 0x1000 } : Snes).divideA } ∧
    readRegWord (snes_writeReg { demoBus with divideA := 0x1000 } 0x4206 0) 0x4214 = 0xffff ∧
    readRegWord (snes_writeReg { demoBus with divideA := 0x1000 } 0x4206 0) 0x4216
      = ({ demoBus with divideA := 0x1000 } : Snes).divideA :=
  C12_divide_by_zero { demoBus with divideA := 0x1000 } (by decide)

/-! ## Access time -/

theorem adr_bank (bank off : Nat) (hoff : off < 0x10000) :
    (((bank <<< 16) ||| off) >>> 16) = bank ∧ ((bank <<< 16) ||| off) &&& 0xffff = off := by
  have h := Nat.mul_add_lt_is_or (i := 16) (by simpa using hoff : off < 2 ^ 16) bank
  have e : (bank <<< 16) ||| off = 65536 * bank + off := by
    rw [Nat.shiftLeft_eq, Nat.mul_comm, ← h]
  rw [e]
  constructor
  · rw [Nat.shiftRight_eq_div_pow]; norm_num; omega
  · have := Nat.and_pow_two_sub_one_eq_mod (65536 * bank + off) 16
    norm_num at this
    rw [this]; omega

theorem getAccessTime_eq (fastMem : Bool) (bank off : Nat) (hb : bank < 256) (hoff : off < 0x10000) :
    getAccessTime fastMem ((bank <<< 16) ||| off) =
      if (bank < 0x40 ∨ (bank ≥ 0x80 ∧ bank < 0xc0)) ∧ off < 0x8000 then
        if off < 0x2000 ∨ off ≥ 0x6000 then 8
        else if off < 0x4000 ∨ off ≥ 0x4200 then 6
        else 12
      else if fastMem = true ∧ bank ≥ 0x80 then 6 else 8 := by
  obtain ⟨h1, h2⟩ := adr_bank bank off hoff
  simp only [getAccessTime, h1, h2, Nat.mod_eq_of_lt hb]

/-- C18 (counterexample): the controller port 0x4016 in bank 0 costs 12 master cycles, not 6. -/
theorem C18_controller_port_costs_12 :
    snes_getAccessTime demoBus 0x004016 = 12 ∧ snes_getAccessTime demoBus 0x004016 ≠ 6 := by
  decide

/-- C18 (amended): for every bank in 0x00..0x3F or 0x80..0xBF and either setting of `fastMem`,
`snes_getAccessTime` returns 12 master cycles for the controller-port offsets 0x4016 and
0x4017 (they lie in the slow 0x4000..0x41FF region). -/
theorem C18_controller_ports_slow (s : Snes) (bank : Nat)
    (hb : bank < 0x40 ∨ (0x80 ≤ bank ∧ bank < 0xc0)) :
    snes_getAccessTime s ((bank <<< 16) ||| 0x4016) = 12 ∧
    snes_getAccessTime s ((bank <<< 16) ||| 0x4017) = 12 := by
  have hb2 : bank < 256 := by omega
  have hc : bank < 0x40 ∨ (bank ≥ 0x80 ∧ bank < 0xc0) := hb
  constructor
  · rw [snes_getAccessTime, getAccessTime_eq _ _ _ hb2 (by norm_num)]
    simp [hc]
  · rw [snes_getAccessTime, getAccessTime_eq _ _ _ hb2 (by norm_num)]
    simp [hc]

/-- Witness for C18: bank 0x80 with `fastMem` clear. -/
theorem C18_controller_ports_slow_witness :
    snes_getAccessTime demoBus ((0x80 <<< 16) ||| 0x4016) = 12 ∧
    snes_getAccessTime demoBus ((0x80 <<< 16) ||| 0x4017) = 12 :=
  C18_controller_ports_slow demoBus 0x80 (Or.inr ⟨by decide, by decide⟩)

/-- C19: `snes_getAccessTime` follows the region table.  For a bank in 0x00..0x3F or
0x80..0xBF it returns 8 for offsets 0x0000..0x1FFF and 0x6000..0x7FFF, 6 for 0x2100..0x21FF,
0x4200..0x421F and 0x4300..0x437F, and 12 for 0x4000..0x41FF; for offsets 0x8000..0xFFFF of
those banks and every offset of the banks 0x40..0x7D and 0xC0..0xFF it returns 6 if `fastMem`
is set and the bank is at least 0x80, and 8 otherwise.  The result is a function of the
address and `fastMem` only and is one of 6, 8, 12. -/
theorem C19_access_time_table (s : Snes) (bank off : Nat) (hb : bank < 256) (hoff : off < 0x10000) :
    ((bank < 0x40 ∨ (0x80 ≤ bank ∧ bank < 0xc0)) →
      ((off < 0x2000 ∨ (0x6000 ≤ off ∧ off < 0x8000)) →
        snes_getAccessTime s ((bank <<< 16) ||| off) = 8) ∧
      (((0x2100 ≤ off ∧ off < 0x2200) ∨ (0x4200 ≤ off ∧ off < 0x4220) ∨
          (0x4300 ≤ off ∧ off < 0x4380)) →
        snes_getAccessTime s ((bank <<< 16) ||| off) = 6) ∧
      ((0x4000 ≤ off ∧ off < 0x4200) → snes_getAccessTime s ((bank <<< 16) ||| off) = 12)) ∧
    (((bank < 0x40 ∨ (0x80 ≤ bank ∧ bank < 0xc0)) ∧ 0x8000 ≤ off ∨
        (0x40 ≤ bank ∧ bank ≤ 0x7d) ∨ 0xc0 ≤ bank) →
      snes_getAccessTime s ((bank <<< 16) ||| off) =
        if s.fastMem = true ∧ 0x80 ≤ bank then 6 else 8) ∧
    (∀ s2 : Snes, s2.fastMem = s.fastMem →
      snes_getAccessTime s2 ((bank <<< 16) ||| off) = snes_getAccessTime s ((bank <<< 16) ||| off)) ∧
    (snes_getAccessTime s ((bank <<< 16) ||| off) = 6 ∨
      snes_getAccessTime s ((bank <<< 16) ||| off) = 8 ∨
      snes_getAccessTime s ((bank <<< 16) ||| off) = 12) := by
  rw [snes_getAccessTime, getAccessTime_eq _ _ _ hb hoff]
  refine ⟨fun h1 => ⟨fun h2 => ?_, fun h2 => ?_, fun h2 => ?_⟩, fun h1 => ?_, fun s2 h2 => ?_, ?_⟩
  · have h3 : off < 0x8000 := by omega
    have h4 : off < 0x2000 ∨ off ≥ 0x6000 := by omega
    have h5 : bank < 0x40 ∨ (bank ≥ 0x80 ∧ bank < 0xc0) := h1
    simp only [h3, h4, h5, and_self, if_true]
  · have h3 : off < 0x8000 := by omega
    have h4 : ¬ (off < 0x2000 ∨ off ≥ 0x6000) := by omega
    have h6 : off < 0x4000 ∨ off ≥ 0x4200 := by omega
    have h5 : bank < 0x40 ∨ (bank ≥ 0x80 ∧ bank < 0xc0) := h1
    simp only [h3, h4, h5, h6, and_self, if_true, if_false]
  · have h3 : off < 0x8000 := by omega
    have h4 : ¬ (off < 0x2000 ∨ off ≥ 0x6000) := by omega
    have h6 : ¬ (off < 0x4000 ∨ off ≥ 0x4200) := by omega
    have h5 : bank < 0x40 ∨ (bank ≥ 0x80 ∧ bank < 0xc0) := h1
    simp only [h3, h4, h5, h6, and_self, if_true, if_false]
  · have h3 : ¬ ((bank < 0x40 ∨ (bank ≥ 0x80 ∧ bank < 0xc0)) ∧ off < 0x8000) := by omega
    rw [if_neg h3]
  · rw [snes_getAccessTime, getAccessTime_eq _ _ _ hb hoff, h2]
  · split_ifs <;> simp

/-- Witness for C19: the first ROM byte of bank 0x80. -/
theorem C19_access_time_table_witness :
    ((0x80 < 0x40 ∨ (0x80 ≤ 0x80 ∧ 0x80 < 0xc0)) →
      ((0x8000 < 0x2000 ∨ (0x6000 ≤ 0x8000 ∧ 0x8000 < 0x8000)) →
        snes_getAccessTime demoBus ((0x80 <<< 16) ||| 0x8000) = 8) ∧
      (((0x2100 ≤ 0x8000 ∧ 0x8000 < 0x2200) ∨ (0x4200 ≤ 0x8000 ∧ 0x8000 < 0x4220) ∨
          (0x4300 ≤ 0x8000 ∧ 0x8000 < 0x4380)) →
        snes_getAccessTime demoBus ((0x80 <<< 16) ||| 0x8000) = 6) ∧
      ((0x4000 ≤ 0x8000 ∧ 0x8000 < 0x4200) →
        snes_getAccessTime demoBus ((0x80 <<< 16) ||| 0x8000) = 12)) ∧
    (((0x80 < 0x40 ∨ (0x80 ≤ 0x80 ∧ 0x80 < 0xc0)) ∧ 0x8000 ≤ 0x8000 ∨
        (0x40 ≤ 0x80 ∧ 0x80 ≤ 0x7d) ∨ 0xc0 ≤ 0x80) →
      snes_getAccessTime demoBus ((0x80 <<< 16) ||| 0x8000) =
        if demoBus.fastMem = true ∧ 0x80 ≤ 0x80 then 6 else 8) ∧
    (∀ s2 : Snes, s2.fastMem = demoBus.fastMem →
      snes_getAccessTime s2 ((0x80 <<< 16) ||| 0x8000)
        = snes_getAccessTime demoBus ((0x80 <<< 16) ||| 0x8000)) ∧
    (snes_getAccessTime demoBus ((0x80 <<< 16) ||| 0x8000) = 6 ∨
      snes_getAccessTime demoBus ((0x80 <<< 16) ||| 0x8000) = 8 ∨
      snes_getAccessTime demoBus ((0x80 <<< 16) ||| 0x8000) = 12) :=
  C19_access_time_table demoBus 0x80 0x8000 (by decide) (by decide)

/-! ## The raster fields under each bus operation -/

theorem ppu_write_frameOverscan (ppu : Ppu) (bus : PpuBus) (adr val : Nat) :
    (ppu_write ppu bus adr val).frameOverscan = ppu.frameOverscan := by
  simp only [ppu_write, ppu_writeHScroll, ppu_writeVScroll, apply_ite Ppu.frameOverscan, ite_self]

theorem ppu_read_frameOverscan (ppu : Ppu) (bus : PpuBus) (adr : Nat) :
    (ppu_read ppu bus adr).2.frameOverscan = ppu.frameOverscan := by
  simp only [ppu_read, ppu_latchHV, apply_ite Prod.snd, apply_ite Ppu.frameOverscan, ite_self]

/-- What a bus read or write may do to the raster fields: clear `inNmi`, zero the auto-joypad
timer, and move the WRAM pointer within its 17 bits. -/
def CalmCore (t t2 : Timing) : Prop :=
  t2.hPos = t.hPos ∧ t2.vPos = t.vPos ∧ t2.nextHoriEvent = t.nextHoriEvent ∧
  t2.palTiming = t.palTiming ∧ t2.inVblank = t.inVblank ∧ (t2.inNmi = true → t.inNmi = true) ∧
  t2.frameOverscan = t.frameOverscan ∧
  (t2.autoJoyTimer = t.autoJoyTimer ∨ t2.autoJoyTimer = 0) ∧
  (t2.ramAdr = t.ramAdr ∨ t2.ramAdr < 0x20000)

/-- The access-time table agrees with `getAccessTime` on all 24-bit addresses. -/
def TableOk (t : Timing) : Prop :=
  ∀ i, i < 0x1000000 → t.access_time i = getAccessTime t.fastMem i

/-- A bus read or write is calm on the raster fields and keeps the access-time table right. -/
def Calm (t t2 : Timing) : Prop :=
  CalmCore t t2 ∧ (TableOk t → TableOk t2)

theorem Calm.refl (t : Timing) : Calm t t :=
  ⟨⟨rfl, rfl, rfl, rfl, rfl, id, rfl, Or.inl rfl, Or.inl rfl⟩, id⟩

theorem Calm.trans {a b c : Timing} (h1 : Calm a b) (h2 : Calm b c) : Calm a c := by
  obtain ⟨⟨a1, a2, a3, a4, a5, a6, a7, a8, a9⟩, a10⟩ := h1
  obtain ⟨⟨b1, b2, b3, b4, b5, b6, b7, b8, b9⟩, b10⟩ := h2
  refine ⟨⟨b1.trans a1, b2.trans a2, b3.trans a3, b4.trans a4, b5.trans a5, fun h => a6 (b6 h),
    b7.trans a7, ?_, ?_⟩, fun h => b10 (a10 h)⟩
  · rcases b8 with h | h
    · rw [h]; exact a8
    · exact Or.inr h
  · rcases b9 with h | h
    · rw [h]; exact a9
    · exact Or.inr h

theorem Calm.inv {t t2 : Timing} (h : Calm t t2) (ht : TimingInv t) : TimingInv t2 := by
  obtain ⟨⟨a1, a2, a3, a4, a5, a6, a7, a8, a9⟩, a10⟩ := h
  obtain ⟨h1, h2, h3, h4, h5, h6, h7, h8, h9, h10, h11⟩ := ht
  refine ⟨by rw [a1]; exact h1, by rw [a1, a3]; exact h2, by rw [a3]; exact h3,
    by rw [a4, a2]; exact h4, by rw [a4, a2]; exact h5, by rw [a5, a7, a2]; exact h6,
    fun h => by rw [a5]; exact h7 (a6 h), ?_, ?_, ?_, a10 h11⟩
  · rcases a8 with h | h <;> rw [h]
    exact h8
  · rcases a8 with h | h <;> rw [h]
    · exact h9
    · omega
  · rcases a9 with h | h
    · rw [h]; exact h10
    · exact h

theorem calm_same_table (s s2 : Snes) (h : CalmCore (timingOf s) (timingOf s2))
    (h1 : s2.fastMem = s.fastMem) (h2 : ∀ i, s2.access_time i = s.access_time i) :
    Calm (timingOf s) (timingOf s2) := by
  refine ⟨h, fun ht i hi => ?_⟩
  show s2.access_time i = getAccessTime s2.fastMem i
  rw [h1, h2]; exact ht i hi

theorem calm_of_timing_eq {s s2 : Snes} (h : timingOf s2 = timingOf s) :
    Calm (timingOf s) (timingOf s2) := by rw [h]; exact Calm.refl _

theorem and_1ffff_lt (x : Nat) : x &&& 0x1ffff < 0x20000 := by
  have := Nat.and_pow_two_sub_one_eq_mod x 17
  norm_num at this
  rw [this]; omega

theorem readReg_fastMem (s : Snes) (adr : Nat) :
    (snes_readReg s adr).2.fastMem = s.fastMem := by
  simp only [snes_readReg, apply_ite Prod.snd, apply_ite Snes.fastMem, ite_self]

theorem readReg_access_time (s : Snes) (adr i : Nat) :
    (snes_readReg s adr).2.access_time i = s.access_time i := by
  simp only [snes_readReg, apply_ite Prod.snd, apply_ite Snes.access_time, ite_apply, ite_self]

theorem calm_readReg (s : Snes) (adr : Nat) :
    Calm (timingOf s) (timingOf (snes_readReg s adr).2) := by
  refine calm_same_table s (snes_readReg s adr).2 ?_ (readReg_fastMem s adr)
    (readReg_access_time s adr)
  simp only [snes_readReg, apply_ite Prod.snd, apply_ite timingOf, timingOf, CalmCore]
  split_ifs <;> simp

theorem readBBus_fastMem (env : Env) (s : Snes) (adr : Nat) :
    (snes_readBBus env s adr).2.fastMem = s.fastMem := by
  simp only [snes_readBBus, snes_catchupApu, Snes.call, apply_ite Prod.snd,
    apply_ite Snes.fastMem, ite_self]

theorem readBBus_access_time (env : Env) (s : Snes) (adr i : Nat) :
    (snes_readBBus env s adr).2.access_time i = s.access_time i := by
  simp only [snes_readBBus, snes_catchupApu, Snes.call, apply_ite Prod.snd,
    apply_ite Snes.access_time, ite_apply, ite_self]

theorem calm_readBBus (env : Env) (s : Snes) (adr : Nat) :
    Calm (timingOf s) (timingOf (snes_readBBus env s adr).2) := by
  refine calm_same_table s (snes_readBBus env s adr).2 ?_ (readBBus_fastMem env s adr)
    (readBBus_access_time env s adr)
  simp only [snes_readBBus, snes_catchupApu, Snes.call, apply_ite Prod.snd, apply_ite timingOf,
    timingOf, CalmCore, ppu_read_frameOverscan]
  split_ifs <;> simp [and_1ffff_lt, ppu_read_frameOverscan]

theorem calm_rread (env : Env) (s : Snes) (adr : Nat) :
    Calm (timingOf s) (timingOf (snes_rread env s adr).2) := by
  unfold snes_rread
  dsimp only
  split_ifs
  all_goals first
    | exact Calm.refl _
    | exact calm_readBBus env s _
    | exact calm_readReg s _

theorem calm_read (env : Env) (s : Snes) (adr : Nat) :
    Calm (timingOf s) (timingOf (snes_read env s adr).2) :=
  calm_rread env s adr

theorem writeBBus_fastMem (s : Snes) (adr val : Nat) :
    (snes_writeBBus s adr val).fastMem = s.fastMem := by
  simp only [snes_writeBBus, snes_catchupApu, Snes.call, apply_ite Snes.fastMem, ite_self]

theorem writeBBus_access_time (s : Snes) (adr val i : Nat) :
    (snes_writeBBus s adr val).access_time i = s.access_time i := by
  simp only [snes_writeBBus, snes_catchupApu, Snes.call, apply_ite Snes.access_time, ite_apply,
    ite_self]

theorem calm_writeBBus (s : Snes) (adr val : Nat) (hval : val < 256) :
    Calm (timingOf s) (timingOf (snes_writeBBus s adr val)) := by
  have h1 : (s.ramAdr &&& 0x1ff00) ||| val < 0x20000 := by
    have : (s.ramAdr &&& 0x1ff00) ||| val < 2 ^ 17 :=
      Nat.or_lt_two_pow (lt_of_le_of_lt Nat.and_le_right (by norm_num))
        (lt_trans hval (by norm_num))
    simpa using this
  have h2 : (s.ramAdr &&& 0x100ff) ||| (val <<< 8) < 0x20000 := by
    have : (s.ramAdr &&& 0x100ff) ||| (val <<< 8) < 2 ^ 17 :=
      Nat.or_lt_two_pow (lt_of_le_of_lt Nat.and_le_right (by norm_num))
        (by rw [Nat.shiftLeft_eq]; norm_num; omega)
    simpa using this
  have h3 : (s.ramAdr &&& 0x0ffff) ||| ((val &&& 1) <<< 16) < 0x20000 := by
    have h4 : val &&& 1 ≤ 1 := Nat.and_le_right
    have : (s.ramAdr &&& 0x0ffff) ||| ((val &&& 1) <<< 16) < 2 ^ 17 :=
      Nat.or_lt_two_pow (lt_of_le_of_lt Nat.and_le_right (by norm_num))
        (by rw [Nat.shiftLeft_eq]; norm_num; omega)
    simpa using this
  rw [Nat.and_one_is_mod] at h3
  refine calm_same_table s (snes_writeBBus s adr val) ?_ (writeBBus_fastMem s adr val)
    (writeBBus_access_time s adr val)
  simp only [snes_writeBBus, snes_catchupApu, Snes.call, apply_ite timingOf, timingOf, CalmCore,
    ppu_write_frameOverscan]
  split_ifs <;> simp [and_1ffff_lt, h1, h2, h3, ppu_write_frameOverscan]

theorem writeReg_autoJoyTimer (s : Snes) (adr val : Nat) :
    (snes_writeReg s adr val).autoJoyTimer = s.autoJoyTimer ∨
    (snes_writeReg s adr val).autoJoyTimer = 0 := by
  by_cases h : adr = 0x4200
  · subst h
    simp only [snes_writeReg, eq_self_iff_true, if_true, apply_ite Snes.autoJoyTimer, ite_self]
    split_ifs
    · exact Or.inr rfl
    · exact Or.inl rfl
  · left
    simp only [snes_writeReg, if_neg h, Snes.call, build_accesstime, ppu_latchHV,
      apply_ite Snes.autoJoyTimer, ite_self]

theorem getAccessTime_low (a b : Bool) (i : Nat) (hi : i < 0x800000) :
    getAccessTime a i = getAccessTime b i := by
  unfold getAccessTime
  have h1 : (i >>> 16) % 256 < 0x80 := by
    rw [Nat.shiftRight_eq_div_pow]
    have : i / 2 ^ 16 < 0x80 := by
      rw [Nat.div_lt_iff_lt_mul (by norm_num)]; norm_num; omega
    omega
  have h2 : ¬ ((i >>> 16) % 256 ≥ 0x80) := by omega
  simp only [h2, and_false, if_false]

theorem writeReg_table (s : Snes) (adr val : Nat)
    (h : ∀ i, i < 0x1000000 → s.access_time i = getAccessTime s.fastMem i) :
    ∀ i, i < 0x1000000 →
      (snes_writeReg s adr val).access_time i = getAccessTime (snes_writeReg s adr val).fastMem i := by
  by_cases ha : adr = 0x420d
  · subst ha
    have e : snes_writeReg s 0x420d val =
        if s.fastMem != ((val &&& 0x1) != 0) then
          build_accesstime { s with fastMem := (val &&& 0x1) != 0 } true
        else s := by
      simp [snes_writeReg]
    rw [e]
    split_ifs
    · intro i hi
      simp only [build_accesstime, snes_getAccessTime, if_true]
      by_cases h8 : 0x800000 ≤ i
      · rw [if_pos ⟨h8, hi⟩]
      · rw [if_neg (fun hc => h8 hc.1), h i hi]
        exact getAccessTime_low _ _ i (by omega)
    · exact h
  · have e1 : ∀ i, (snes_writeReg s adr val).access_time i = s.access_time i := by
      intro i
      simp only [snes_writeReg, if_neg ha, Snes.call, ppu_latchHV, apply_ite Snes.access_time,
        ite_apply, ite_self]
    have e2 : (snes_writeReg s adr val).fastMem = s.fastMem := by
      simp only [snes_writeReg, if_neg ha, Snes.call, ppu_latchHV, apply_ite Snes.fastMem,
        ite_self]
    intro i hi
    rw [e1, e2]; exact h i hi

theorem calm_writeReg (s : Snes) (adr val : Nat) :
    Calm (timingOf s) (timingOf (snes_writeReg s adr val)) := by
  refine ⟨⟨?_, ?_, ?_, ?_, ?_, ?_, ?_, writeReg_autoJoyTimer s adr val, Or.inl ?_⟩,
    writeReg_table s adr val⟩
  · simp only [timingOf, snes_writeReg, Snes.call, build_accesstime, ppu_latchHV,
      apply_ite Snes.hPos, ite_self]
  · simp only [timingOf, snes_writeReg, Snes.call, build_accesstime, ppu_latchHV,
      apply_ite Snes.vPos, ite_self]
  · simp only [timingOf, snes_writeReg, Snes.call, build_accesstime, ppu_latchHV,
      apply_ite Snes.nextHoriEvent, ite_self]
  · simp only [timingOf, snes_writeReg, Snes.call, build_accesstime, ppu_latchHV,
      apply_ite Snes.palTiming, ite_self]
  · simp only [timingOf, snes_writeReg, Snes.call, build_accesstime, ppu_latchHV,
      apply_ite Snes.inVblank, ite_self]
  · intro h
    have e : (snes_writeReg s adr val).inNmi = s.inNmi := by
      simp only [snes_writeReg, Snes.call, build_accesstime, ppu_latchHV,
        apply_ite Snes.inNmi, ite_self]
    have h2 : (snes_writeReg s adr val).inNmi = true := h
    rw [e] at h2
    exact h2
  · simp only [timingOf, snes_writeReg, Snes.call, build_accesstime, ppu_latchHV,
      apply_ite Snes.ppu, apply_ite Ppu.frameOverscan, ite_self]
  · simp only [timingOf, snes_writeReg, Snes.call, build_accesstime, ppu_latchHV,
      apply_ite Snes.ramAdr, ite_self]

theorem calm_ite {t : Timing} {c : Prop} [Decidable c] {a b : Snes}
    (ha : Calm t (timingOf a)) (hb : Calm t (timingOf b)) :
    Calm t (timingOf (if c then a else b)) := by
  split_ifs
  · exact ha
  · exact hb

theorem calm_call {t : Timing} {y : Snes} (c : ExtCall) (h : Calm t (timingOf y)) :
    Calm t (timingOf (y.call c)) := h

theorem calm_setRam {t : Timing} {y : Snes} (r : Nat → Nat) (h : Calm t (timingOf y)) :
    Calm t (timingOf { y with ram := r }) := h

theorem calm_setOpenBus {t : Timing} {y : Snes} (v : Nat) (h : Calm t (timingOf y)) :
    Calm t (timingOf { y with openBus := v }) := h

section WriteCalm
attribute [local irreducible] snes_writeReg snes_writeBBus Snes.call timingOf

theorem calm_write (s : Snes) (adr val : Nat) (hval : val < 256) :
    Calm (timingOf s) (timingOf (snes_write s adr val)) := by
  unfold snes_write
  dsimp only
  repeat' first
    | exact Calm.refl _
    | apply calm_ite
    | apply calm_call
    | refine Calm.trans ?_ (calm_writeReg _ _ _)
    | refine Calm.trans ?_ (calm_writeBBus _ _ _ hval)
    | apply calm_setRam
    | apply calm_setOpenBus
    | (unfold timingOf; exact Calm.refl _)

end WriteCalm

/-! ## The raster fields under `snes_runCycle` -/

theorem hvCountdown_timing (s : Snes) : timingOf (snes_hvCountdown s) = timingOf s := by
  unfold snes_hvCountdown
  split_ifs <;> rfl

theorem checkIrq_timing (s : Snes) : timingOf (snes_checkIrq s) = timingOf s :=
  hvCountdown_timing s

theorem tick_timing (s : Snes) : timingOf (snes_tick s) = timingOf s := by
  unfold snes_tick
  dsimp only
  split_ifs
  · exact checkIrq_timing _
  · rfl

theorem autoJoypad_fold_eq (env : Env) (l : List Nat) (s : Snes) :
    l.foldl (autoJoypadStep env) s =
      { s with portAutoRead := (l.foldl (autoJoypadStep env) s).portAutoRead,
               ext := (l.foldl (autoJoypadStep env) s).ext } := by
  induction l generalizing s with
  | nil => rfl
  | cons a l ih =>
    have h := ih (autoJoypadStep env s a)
    simp only [List.foldl_cons]
    rw [h]
    rfl

/-- `snes_doAutoJoypad` changes only `portAutoRead` and the record of outside calls. -/
theorem doAutoJoypad_eq (env : Env) (s : Snes) :
    snes_doAutoJoypad env s =
      { s with portAutoRead := (snes_doAutoJoypad env s).portAutoRead,
               ext := (snes_doAutoJoypad env s).ext } := by
  unfold snes_doAutoJoypad
  dsimp only
  rw [autoJoypad_fold_eq]
  rfl

theorem doAutoJoypad_field {α : Type} (f : Snes → α)
    (hf : ∀ (s : Snes) (p : Nat → Nat) (e : List ExtCall),
      f { s with portAutoRead := p, ext := e } = f s) (env : Env) (s : Snes) :
    f (snes_doAutoJoypad env s) = f s := by
  rw [doAutoJoypad_eq]; exact hf _ _ _

theorem doAutoJoypad_timing (env : Env) (s : Snes) :
    timingOf (snes_doAutoJoypad env s) = timingOf s :=
  doAutoJoypad_field timingOf (fun _ _ _ => rfl) env s

theorem handleVblank_frameOverscan (ppu : Ppu) :
    (ppu_handleVblank ppu).frameOverscan = ppu.frameOverscan := by
  simp only [ppu_handleVblank, apply_ite Ppu.frameOverscan, ite_self]

theorem startVblank_timing (env : Env) (s : Snes) :
    timingOf (snes_startVblank env s) = startVblankT (timingOf s) s.autoJoyRead := by
  have key : ∀ X : Snes,
      timingOf (if X.nmiEnabled = true then { X with cpu := cpu_nmi X.cpu } else X) =
        { timingOf X with nmiWanted := if X.nmiEnabled then true else X.cpu.nmiWanted } := by
    intro X; split_ifs <;> rfl
  unfold snes_startVblank
  rw [key]
  by_cases h1 : s.autoJoyRead = true
  · rw [if_pos (by exact h1), doAutoJoypad_timing,
      doAutoJoypad_field Snes.nmiEnabled (fun _ _ _ => rfl),
      doAutoJoypad_field (fun x => x.cpu.nmiWanted) (fun _ _ _ => rfl)]
    simp only [timingOf, startVblankT, h1, if_true, Snes.call, snes_catchupApu,
      handleVblank_frameOverscan]
  · rw [if_neg (by exact h1)]
    have h1f : s.autoJoyRead = false := by simpa using h1
    simp only [timingOf, startVblankT, h1f, Bool.false_eq_true, if_false, Snes.call,
      snes_catchupApu, handleVblank_frameOverscan]

theorem frameWrap_timing (s : Snes) :
    timingOf (snes_frameWrap s) = { timingOf s with vPos := 0 } := by
  unfold snes_frameWrap
  dsimp only
  split_ifs <;> rfl

theorem frameWrap_ppu (s : Snes) :
    (snes_frameWrap s).ppu = s.ppu ∧ (snes_frameWrap s).autoJoyRead = s.autoJoyRead := by
  unfold snes_frameWrap
  dsimp only
  split_ifs <;> exact ⟨rfl, rfl⟩

theorem nextLine_ppu (s : Snes) :
    (snes_nextLine s).ppu = s.ppu ∧ (snes_nextLine s).autoJoyRead = s.autoJoyRead := by
  unfold snes_nextLine
  dsimp only
  split_ifs
  · exact frameWrap_ppu _
  · exact ⟨rfl, rfl⟩

theorem lastLine_iff (s : Snes) :
    snes_lastLine s ↔
      lastLineT s.palTiming s.vPos (s.ppu.frameInterlace = false ∨ s.ppu.evenFrame = false) := by
  unfold snes_lastLine lastLineT
  cases hp : s.palTiming <;> simp

theorem nextLine_timing (s : Snes) :
    timingOf (snes_nextLine s) =
      nextLineT (timingOf s) (s.ppu.frameInterlace = false ∨ s.ppu.evenFrame = false) := by
  unfold snes_nextLine nextLineT
  dsimp only
  by_cases h : snes_lastLine
      { s with nextHoriEvent := 16, hPos := 0, vPos := (s.vPos + 1) % 0x10000 }
  · rw [if_pos h, frameWrap_timing]
    rw [lastLine_iff] at h
    simp only [timingOf]
    rw [if_pos h]
  · rw [if_neg h]
    rw [lastLine_iff] at h
    simp only [timingOf]
    rw [if_neg h]

theorem line225_timing (env : Env) (s : Snes) :
    timingOf (snes_line225 env s) =
      (if !s.ppu.overscan then
          startVblankT { timingOf s with frameOverscan := s.ppu.overscan } s.autoJoyRead
        else { timingOf s with frameOverscan := s.ppu.overscan }) := by
  unfold snes_line225 ppu_checkOverscan
  dsimp only
  split_ifs
  · rw [startVblank_timing]; rfl
  · rfl

theorem lineStart_timing (env : Env) (s : Snes) :
    timingOf (snes_lineStart env s) = lineStartT (timingOf s) s.ppu.overscan s.autoJoyRead := by
  unfold snes_lineStart lineStartT
  have e1 : (timingOf s).vPos = s.vPos := rfl
  have e2 : (timingOf s).inVblank = s.inVblank := rfl
  rw [e1, e2]
  split_ifs
  · rfl
  · rw [line225_timing]; simp_all
  · rw [line225_timing]; simp_all
  · exact startVblank_timing env s
  · rfl
  · rfl

theorem endLine_timing (env : Env) (s : Snes) :
    timingOf (snes_endLine env s) =
      lineStartT (nextLineT (timingOf s) (s.ppu.frameInterlace = false ∨ s.ppu.evenFrame = false))
        s.ppu.overscan s.autoJoyRead := by
  unfold snes_endLine
  rw [lineStart_timing, nextLine_timing, (nextLine_ppu s).1, (nextLine_ppu s).2]

theorem runLine_frameOverscan (env : Env) (c : Prop) [Decidable c] (p : Ppu) (l : Nat) :
    (if c then ppu_runLine env p l else p).frameOverscan = p.frameOverscan := by
  split_ifs <;> rfl

theorem horiEvent_timing (env : Env) (s : Snes) :
    timingOf (snes_horiEvent env s) =
      horiEventT (timingOf s) (lineLength s) (s.ppu.frameInterlace = false ∨ s.ppu.evenFrame = false)
        s.ppu.overscan s.autoJoyRead := by
  unfold snes_horiEvent horiEventT
  have e1 : (timingOf s).hPos = s.hPos := rfl
  rw [e1]
  by_cases h16 : s.hPos = 16
  · rw [if_pos h16, if_pos h16]; rfl
  rw [if_neg h16, if_neg h16]
  by_cases h512 : s.hPos = 512
  · rw [if_pos h512, if_pos h512]
    simp only [timingOf, runLine_frameOverscan]
  rw [if_neg h512, if_neg h512]
  by_cases h1104 : s.hPos = 1104
  · rw [if_pos h1104, if_pos h1104]; rfl
  rw [if_neg h1104, if_neg h1104]
  by_cases hend : s.hPos = 1360 ∨ s.hPos = 1364 ∨ s.hPos = 1368
  · rw [if_pos hend, if_pos hend]; exact endLine_timing env s
  · rw [if_neg hend, if_neg hend]

theorem advance_timing (env : Env) (s : Snes) :
    timingOf (snes_advance env s) =
      advanceT (timingOf s) (lineLength s) (s.ppu.frameInterlace = false ∨ s.ppu.evenFrame = false)
        s.ppu.overscan s.autoJoyRead := by
  unfold snes_advance advanceT
  dsimp only
  have e1 : (timingOf s).hPos = s.hPos := rfl
  have e2 : (timingOf s).nextHoriEvent = s.nextHoriEvent := rfl
  rw [e1, e2]
  split_ifs
  · rw [horiEvent_timing]; rfl
  · rfl

theorem joyTimer_timing (s : Snes) : timingOf (snes_joyTimer s) = joyTimerT (timingOf s) := by
  unfold snes_joyTimer joyTimerT
  have e1 : (timingOf s).autoJoyTimer = s.autoJoyTimer := rfl
  rw [e1]
  split_ifs <;> rfl

/-! ## The raster invariant -/

theorem lineLength_mem (s : Snes) :
    lineLength s = 1360 ∨ lineLength s = 1364 ∨ lineLength s = 1368 := by
  unfold lineLength
  split_ifs <;> simp

theorem subTwo_even (w x : Nat) (hx : 0 < x) (he : x % 2 = 0) : subTwo w x = x - 2 := by
  unfold subTwo
  have : 2 ≤ x := by omega
  rw [if_pos this]

theorem joyTimerT_inv (t : Timing) (ht : TimingInv t) : TimingInv (joyTimerT t) := by
  obtain ⟨h1, h2, h3, h4, h5, h6, h7, h8, h9, h10⟩ := ht
  unfold joyTimerT
  split_ifs with h
  · refine ⟨h1, h2, h3, h4, h5, h6, h7, ?_, ?_, h10⟩
    · show subTwo 16 t.autoJoyTimer % 2 = 0
      rw [subTwo_even _ _ h h8]; omega
    · show subTwo 16 t.autoJoyTimer ≤ 4224
      rw [subTwo_even _ _ h h8]; omega
  · exact ⟨h1, h2, h3, h4, h5, h6, h7, h8, h9, h10⟩

theorem nextLineT_spec (t : Timing) (short : Prop) [Decidable short]
    (h4 : t.palTiming = false → t.vPos ≤ 262) (h5 : t.palTiming = true → t.vPos ≤ 312) :
    ∃ v, nextLineT t short = { t with nextHoriEvent := 16, hPos := 0, vPos := v } ∧
      (v = 0 ∨ v = t.vPos + 1) ∧ (t.palTiming = false → v ≤ 262) ∧ (t.palTiming = true → v ≤ 312) := by
  have hv : (t.vPos + 1) % 65536 = t.vPos + 1 := by
    cases hp : t.palTiming
    · have := h4 hp; omega
    · have := h5 hp; omega
  refine ⟨_, rfl, ?_, ?_, ?_⟩
  · rw [hv]
    split_ifs
    · exact Or.inl rfl
    · exact Or.inr rfl
  · intro hp
    have := h4 hp
    rw [hv]
    split_ifs with h
    · omega
    · by_contra hc
      apply h
      left
      exact ⟨hp, Or.inr (by omega)⟩
  · intro hp
    have := h5 hp
    rw [hv]
    split_ifs with h
    · omega
    · by_contra hc
      apply h
      right
      exact ⟨hp, Or.inr (by omega)⟩

theorem lineStartT_inv (t : Timing) (overscan autoJoyRead : Bool)
    (h1 : t.hPos = 0) (h3 : t.nextHoriEvent = 16)
    (h4 : t.palTiming = false → t.vPos ≤ 262) (h5 : t.palTiming = true → t.vPos ≤ 312)
    (h6 : t.vPos ≠ 0 → (t.inVblank = true ↔ (if t.frameOverscan then 240 else 225) + 1 ≤ t.vPos))
    (h7 : t.inNmi = true → t.inVblank = true)
    (h8 : t.autoJoyTimer % 2 = 0) (h9 : t.autoJoyTimer ≤ 4224) (h10 : t.ramAdr < 0x20000 ∧
      ∀ i, i < 0x1000000 → t.access_time i = getAccessTime t.fastMem i) :
    TimingInv (lineStartT t overscan autoJoyRead) := by
  rcases t with ⟨hPos, vPos, nxt, pal, iv, inm, fo, ajt, ra⟩
  dsimp only at h1 h3 h4 h5 h6 h7 h8 h9 h10
  subst h1 h3
  have hajt : ∀ b : Bool, (if b = true then 4224 else ajt) % 2 = 0 ∧ (if b = true then 4224 else ajt) ≤ 4224 := by
    intro b; cases b <;> simp [h8, h9]
  unfold lineStartT
  dsimp only
  by_cases hv0 : vPos = 0
  · rw [if_pos hv0]
    subst hv0
    refine ⟨rfl, by (try dsimp only); omega, Or.inl rfl, fun _ => by dsimp only; omega,
      fun _ => by dsimp only; omega, ?_, ?_, h8, h9, h10⟩
    · dsimp only; cases fo <;> simp
    · intro h; simp at h
  rw [if_neg hv0]
  have h6 := h6 hv0
  by_cases hv225 : vPos = 225
  · rw [if_pos hv225]
    subst hv225
    have hiv : iv = false := by
      cases iv
      · rfl
      · have := h6.mp rfl
        cases fo <;> simp at this
    subst hiv
    have hinm : inm = false := by
      cases inm
      · rfl
      · have := h7 rfl; simp at this
    subst hinm
    cases overscan <;>
      simp only [Bool.not_false, Bool.not_true, if_true, Bool.false_eq_true, if_false,
        startVblankT]
    · refine ⟨rfl, by (try dsimp only); omega, Or.inl rfl, h4, h5, ?_, fun _ => rfl, (hajt autoJoyRead).1,
        (hajt autoJoyRead).2, h10⟩
      simp [startVblankT]
    · refine ⟨rfl, by (try dsimp only); omega, Or.inl rfl, h4, h5, ?_, ?_, h8, h9, h10⟩
      · simp
      · intro h; simp at h
  rw [if_neg hv225]
  by_cases hv240 : vPos = 240
  · rw [if_pos hv240]
    subst hv240
    cases iv <;>
      simp only [Bool.not_false, Bool.not_true, if_true, Bool.false_eq_true, if_false,
        startVblankT]
    · refine ⟨rfl, by (try dsimp only); omega, Or.inl rfl, h4, h5, ?_, fun _ => rfl, (hajt autoJoyRead).1,
        (hajt autoJoyRead).2, h10⟩
      cases fo <;> simp [startVblankT]
    · refine ⟨rfl, by (try dsimp only); omega, Or.inl rfl, h4, h5, ?_, h7, h8, h9, h10⟩
      cases fo <;> simp
  rw [if_neg hv240]
  refine ⟨rfl, by (try dsimp only); omega, Or.inl rfl, h4, h5, ?_, h7, h8, h9, h10⟩
  dsimp only
  rw [h6]
  cases fo <;> simp <;> omega

theorem lineEnd_inv (t : Timing) (short : Prop) [Decidable short] (overscan autoJoyRead : Bool)
    (h4 : t.palTiming = false → t.vPos ≤ 262) (h5 : t.palTiming = true → t.vPos ≤ 312)
    (h6 : t.inVblank = true ↔ (if t.frameOverscan then 240 else 225) ≤ t.vPos)
    (h7 : t.inNmi = true → t.inVblank = true)
    (h8 : t.autoJoyTimer % 2 = 0) (h9 : t.autoJoyTimer ≤ 4224) (h10 : t.ramAdr < 0x20000 ∧
      ∀ i, i < 0x1000000 → t.access_time i = getAccessTime t.fastMem i) :
    TimingInv (lineStartT (nextLineT t short) overscan autoJoyRead) := by
  obtain ⟨v, hv, hv1, hv2, hv3⟩ := nextLineT_spec t short h4 h5
  rw [hv]
  refine lineStartT_inv _ overscan autoJoyRead rfl rfl hv2 hv3 ?_ h7 h8 h9 h10
  intro hne
  dsimp only at hne ⊢
  rcases hv1 with h | h
  · exact absurd h hne
  · rw [h6, h]
    constructor <;> intro hh <;> omega

theorem advanceT_inv (t : Timing) (next : Nat) (short : Prop) [Decidable short]
    (overscan autoJoyRead : Bool) (hn : next = 1360 ∨ next = 1364 ∨ next = 1368)
    (ht : TimingInv t) : TimingInv (advanceT t next short overscan autoJoyRead) := by
  obtain ⟨h1, h2, h3, h4, h5, h6, h7, h8, h9, h10⟩ := ht
  have hm : (t.hPos + 2) % 65536 = t.hPos + 2 := by omega
  unfold advanceT
  rw [hm]
  by_cases he : t.hPos + 2 = t.nextHoriEvent
  · rw [if_pos he]
    unfold horiEventT
    dsimp only
    by_cases h16 : t.hPos + 2 = 16
    · rw [if_pos h16]
      exact ⟨by dsimp only; omega, by dsimp only; omega, Or.inr (Or.inl rfl), h4, h5, h6, h7, h8,
        h9, h10⟩
    rw [if_neg h16]
    by_cases h512 : t.hPos + 2 = 512
    · rw [if_pos h512]
      exact ⟨by dsimp only; omega, by dsimp only; omega, Or.inr (Or.inr (Or.inl rfl)), h4, h5,
        h6, h7, h8, h9, h10⟩
    rw [if_neg h512]
    by_cases h1104 : t.hPos + 2 = 1104
    · rw [if_pos h1104]
      refine ⟨by dsimp only; omega, by dsimp only; omega, ?_, h4, h5, h6, h7, h8, h9, h10⟩
      dsimp only
      omega
    rw [if_neg h1104]
    have hend : t.hPos + 2 = 1360 ∨ t.hPos + 2 = 1364 ∨ t.hPos + 2 = 1368 := by omega
    rw [if_pos hend]
    exact lineEnd_inv _ short overscan autoJoyRead h4 h5 h6 h7 h8 h9 h10
  · rw [if_neg he]
    exact ⟨by dsimp only; omega, by dsimp only; omega, h3, h4, h5, h6, h7, h8, h9, h10⟩

theorem runCycle_timing_inv (env : Env) (s : Snes) (ht : TimingInv (timingOf s)) :
    TimingInv (timingOf (snes_runCycle env s)) := by
  unfold snes_runCycle
  rw [joyTimer_timing, advance_timing]
  apply joyTimerT_inv
  apply advanceT_inv _ _ _ _ _ (lineLength_mem _)
  rw [tick_timing]
  exact ht

/-! ## The raster invariant on reachable bus states -/

theorem reset_timing_inv (s : Snes) (hard : Bool) : TimingInv (timingOf (snes_reset s hard)) := by
  cases hard
  all_goals refine ⟨rfl, (by decide : (0 : Nat) < 16), Or.inl rfl, fun _ => Nat.zero_le _,
    fun _ => Nat.zero_le _, ?_, fun h => ?_, rfl, Nat.zero_le _, (by decide : (0 : Nat) < 0x20000),
    fun i hi => ?_⟩
  all_goals first
    | (show (false = true ↔ (if false = true then 240 else 225) ≤ 0)
       simp)
    | (have h2 : false = true := h
       exact absurd h2 (by decide))
    | (show (if 0 ≤ i ∧ i < 0x1000000 then getAccessTime false i else _) = getAccessTime false i
       rw [if_pos ⟨Nat.zero_le _, hi⟩])

theorem busReach_inv {env : Env} {s : Snes} (h : BusReach env s) : TimingInv (timingOf s) := by
  induction h with
  | reset s hard => exact reset_timing_inv s hard
  | cycle _ ih => exact runCycle_timing_inv _ _ ih
  | read adr _ ih => exact (calm_read _ _ adr).inv ih
  | write adr val hval _ ih => exact (calm_write _ adr val hval).inv ih
  | cpu c _ ih => exact ih
  | dma a b _ ih => exact ih

/-- C13: in every reachable bus state, `hPos` is even, below 1368, and strictly below
`nextHoriEvent`, which is one of 16, 512, 1104, 1360, 1364, 1368. -/
theorem C13_raster_invariant (env : Env) (s : Snes) (h : BusReach env s) :
    s.hPos % 2 = 0 ∧ s.hPos < 1368 ∧ s.hPos < s.nextHoriEvent ∧
    (s.nextHoriEvent = 16 ∨ s.nextHoriEvent = 512 ∨ s.nextHoriEvent = 1104 ∨
      s.nextHoriEvent = 1360 ∨ s.nextHoriEvent = 1364 ∨ s.nextHoriEvent = 1368) := by
  obtain ⟨h1, h2, h3, -⟩ := busReach_inv h
  have h2b : s.hPos < s.nextHoriEvent := h2
  have h3b : s.nextHoriEvent = 16 ∨ s.nextHoriEvent = 512 ∨ s.nextHoriEvent = 1104 ∨
      s.nextHoriEvent = 1360 ∨ s.nextHoriEvent = 1364 ∨ s.nextHoriEvent = 1368 := h3
  refine ⟨h1, ?_, h2b, h3b⟩
  omega

theorem C13_raster_invariant_witness :
    BusReach zeroEnv (snes_runCycle zeroEnv (snes_write demoBus 0x4200 0x81)) ∧
    (snes_runCycle zeroEnv (snes_write demoBus 0x4200 0x81)).hPos % 2 = 0 ∧
    (snes_runCycle zeroEnv (snes_write demoBus 0x4200 0x81)).hPos < 1368 ∧
    (snes_runCycle zeroEnv (snes_write demoBus 0x4200 0x81)).hPos <
      (snes_runCycle zeroEnv (snes_write demoBus 0x4200 0x81)).nextHoriEvent ∧
    ((snes_runCycle zeroEnv (snes_write demoBus 0x4200 0x81)).nextHoriEvent = 16 ∨
      (snes_runCycle zeroEnv (snes_write demoBus 0x4200 0x81)).nextHoriEvent = 512 ∨
      (snes_runCycle zeroEnv (snes_write demoBus 0x4200 0x81)).nextHoriEvent = 1104 ∨
      (snes_runCycle zeroEnv (snes_write demoBus 0x4200 0x81)).nextHoriEvent = 1360 ∨
      (snes_runCycle zeroEnv (snes_write demoBus 0x4200 0x81)).nextHoriEvent = 1364 ∨
      (snes_runCycle zeroEnv (snes_write demoBus 0x4200 0x81)).nextHoriEvent = 1368) :=
  ⟨BusReach.cycle (BusReach.write _ _ (by decide) (BusReach.reset zeroSnes true)),
    C13_raster_invariant zeroEnv _
      (BusReach.cycle (BusReach.write _ _ (by decide) (BusReach.reset zeroSnes true)))⟩

/-- C14: in every reachable bus state, `vPos < 312` under NTSC timing and `vPos < 313` under
PAL timing, whatever the interlace and even-frame flags are; under NTSC timing `vPos` is in
fact at most 262. -/
theorem C14_vPos_bounds (env : Env) (s : Snes) (h : BusReach env s) :
    (s.palTiming = false → s.vPos < 312) ∧ (s.palTiming = true → s.vPos < 313) ∧
    (s.palTiming = false → s.vPos ≤ 262) := by
  obtain ⟨-, -, -, h4, h5, -⟩ := busReach_inv h
  have h4b : s.palTiming = false → s.vPos ≤ 262 := h4
  have h5b : s.palTiming = true → s.vPos ≤ 312 := h5
  refine ⟨fun hp => ?_, fun hp => ?_, h4b⟩
  · have := h4b hp; omega
  · have := h5b hp; omega

theorem C14_vPos_bounds_witness :
    BusReach zeroEnv (snes_runCycle zeroEnv { demoBus with palTiming := true }) ∧
    (((snes_runCycle zeroEnv { demoBus with palTiming := true }).palTiming = false →
      (snes_runCycle zeroEnv { demoBus with palTiming := true }).vPos < 312) ∧
    ((snes_runCycle zeroEnv { demoBus with palTiming := true }).palTiming = true →
      (snes_runCycle zeroEnv { demoBus with palTiming := true }).vPos < 313) ∧
    ((snes_runCycle zeroEnv { demoBus with palTiming := true }).palTiming = false →
      (snes_runCycle zeroEnv { demoBus with palTiming := true }).vPos ≤ 262)) :=
  ⟨BusReach.cycle (BusReach.reset { zeroSnes with palTiming := true } true),
    C14_vPos_bounds zeroEnv _
      (BusReach.cycle (BusReach.reset { zeroSnes with palTiming := true } true))⟩

/-- C15: in every reachable bus state, `inVblank` holds exactly when `vPos` is at or past
`vblankStart` (240 when the PPU latched an overscan frame, 225 otherwise). -/
theorem C15_inVblank_iff (env : Env) (s : Snes) (h : BusReach env s) :
    s.inVblank = true ↔ s.vPos ≥ vblankStart s := by
  obtain ⟨-, -, -, -, -, h6, -⟩ := busReach_inv h
  exact h6

theorem C15_inVblank_iff_witness :
    BusReach zeroEnv (snes_read zeroEnv (snes_runCycle zeroEnv demoBus) 0x4212).2 ∧
    ((snes_read zeroEnv (snes_runCycle zeroEnv demoBus) 0x4212).2.inVblank = true ↔
      (snes_read zeroEnv (snes_runCycle zeroEnv demoBus) 0x4212).2.vPos ≥
        vblankStart (snes_read zeroEnv (snes_runCycle zeroEnv demoBus) 0x4212).2) :=
  ⟨BusReach.read _ (BusReach.cycle (BusReach.reset zeroSnes true)),
    C15_inVblank_iff zeroEnv _ (BusReach.read _ (BusReach.cycle (BusReach.reset zeroSnes true)))⟩

/-- C30: in every reachable bus state (in particular after any sequence of resets and
writes to 0x420D), the access-time table agrees with `snes_getAccessTime` on every 24-bit
address. -/
theorem C30_access_time_table (env : Env) (s : Snes) (h : BusReach env s) (i : Nat)
    (hi : i < 0x1000000) : s.access_time i = snes_getAccessTime s i := by
  obtain ⟨-, -, -, -, -, -, -, -, -, -, h11⟩ := busReach_inv h
  exact h11 i hi

theorem C30_access_time_table_witness :
    BusReach zeroEnv (snes_write (snes_write demoBus 0x420d 1) 0x420d 0) ∧
    (0x808000 : Nat) < 0x1000000 ∧
    (snes_write (snes_write demoBus 0x420d 1) 0x420d 0).access_time 0x808000 =
      snes_getAccessTime (snes_write (snes_write demoBus 0x420d 1) 0x420d 0) 0x808000 :=
  ⟨BusReach.write _ _ (by decide) (BusReach.write _ _ (by decide) (BusReach.reset zeroSnes true)),
    by decide,
    C30_access_time_table zeroEnv _
      (BusReach.write _ _ (by decide)
        (BusReach.write _ _ (by decide) (BusReach.reset zeroSnes true))) 0x808000 (by decide)⟩

/-! ## The WMDATA pointer -/

theorem tb_1ff00 (i : Nat) : Nat.testBit 0x1ff00 i = (decide (8 ≤ i) && decide (i < 17)) := by
  have e : (0x1ff00 : Nat) = (2 ^ 9 - 1) <<< 8 := by decide
  rw [e, Nat.testBit_shiftLeft, Nat.testBit_two_pow_sub_one]
  by_cases h : 8 ≤ i <;> simp [h] <;> omega

theorem tb_100ff (i : Nat) : Nat.testBit 0x100ff i = (decide (i < 8) || decide (i = 16)) := by
  have e : (0x100ff : Nat) = (2 ^ 8 - 1) ||| 2 ^ 16 := by decide
  rw [e, Nat.testBit_or, Nat.testBit_two_pow_sub_one, Nat.testBit_two_pow]
  by_cases h : i = 16 <;> simp [h, eq_comm]

theorem tb_ffff (i : Nat) : Nat.testBit 0xffff i = decide (i < 16) := by
  have e : (0xffff : Nat) = 2 ^ 16 - 1 := by decide
  rw [e, Nat.testBit_two_pow_sub_one]

theorem tb_ff (i : Nat) : Nat.testBit 0xff i = decide (i < 8) := by
  have e : (0xff : Nat) = 2 ^ 8 - 1 := by decide
  rw [e, Nat.testBit_two_pow_sub_one]

theorem tb_byte {v : Nat} (hv : v < 256) {i : Nat} (hi : 8 ≤ i) : v.testBit i = false :=
  Nat.testBit_eq_false_of_lt (lt_of_lt_of_le hv (by
    calc 256 = 2 ^ 8 := by norm_num
      _ ≤ 2 ^ i := Nat.pow_le_pow_right (by norm_num) hi))

theorem tb_and_one (v i : Nat) : (v &&& 1).testBit i = (decide (i = 0) && v.testBit 0) := by
  rw [Nat.testBit_and]
  by_cases h : i = 0
  · subst h; simp
  · have : Nat.testBit 1 i = false := by
      have e : (1 : Nat) = 2 ^ 0 := by norm_num
      rw [e, Nat.testBit_two_pow]; simp; omega
    simp [h, this]

theorem tb_w81 (r a i : Nat) (ha : a < 256) :
    ((r &&& 0x1ff00) ||| a).testBit i =
      if i < 8 then a.testBit i else (decide (i < 17) && r.testBit i) := by
  rw [Nat.testBit_or, Nat.testBit_and, tb_1ff00]
  by_cases h : i < 8
  · have h2 : ¬ 8 ≤ i := by omega
    simp [h, h2]
  · have h2 : 8 ≤ i := by omega
    simp [h, h2, tb_byte ha h2, Bool.and_comm]

theorem tb_w82 (r a i : Nat) (ha : a < 256) :
    ((r &&& 0x100ff) ||| (a <<< 8)).testBit i =
      if 8 ≤ i ∧ i < 16 then a.testBit (i - 8)
      else ((decide (i < 8) || decide (i = 16)) && r.testBit i) := by
  rw [Nat.testBit_or, Nat.testBit_and, tb_100ff, Nat.testBit_shiftLeft]
  by_cases h : 8 ≤ i
  · by_cases h3 : i < 16
    · have h4 : ¬ i < 8 := by omega
      have h5 : ¬ i = 16 := by omega
      simp [h, h3, h4, h5]
    · have h4 : ¬ i < 8 := by omega
      have h6 : a.testBit (i - 8) = false := tb_byte ha (by omega)
      simp [h, h3, h4, h6, Bool.and_comm]
  · have h4 : i < 8 := by omega
    have h5 : ¬ i = 16 := by omega
    simp [h, h4, h5, Bool.and_comm]

theorem tb_w83 (r a i : Nat) :
    ((r &&& 0xffff) ||| ((a &&& 1) <<< 16)).testBit i =
      if i = 16 then a.testBit 0 else (decide (i < 16) && r.testBit i) := by
  rw [Nat.testBit_or, Nat.testBit_and, tb_ffff, Nat.testBit_shiftLeft, tb_and_one]
  by_cases h : i = 16
  · subst h; simp
  · by_cases h2 : 16 ≤ i
    · have h3 : ¬ i < 16 := by omega
      have h4 : ¬ i - 16 = 0 := by omega
      simp [h, h2, h3, h4]
    · have h3 : i < 16 := by omega
      simp [h, h2, h3, Bool.and_comm]

theorem tb_pointer (a0 a1 a2 i : Nat) (h0 : a0 < 256) (h1 : a1 < 256) :
    (a0 ||| (a1 <<< 8) ||| ((a2 &&& 1) <<< 16)).testBit i =
      if i < 8 then a0.testBit i else if i < 16 then a1.testBit (i - 8)
      else if i = 16 then a2.testBit 0 else false := by
  rw [Nat.testBit_or, Nat.testBit_or, Nat.testBit_shiftLeft, Nat.testBit_shiftLeft, tb_and_one]
  by_cases h : i < 8
  · have h2 : ¬ 8 ≤ i := by omega
    have h3 : ¬ 16 ≤ i := by omega
    simp [h, h2, h3]
  · have h2 : 8 ≤ i := by omega
    by_cases h3 : i < 16
    · have h4 : ¬ 16 ≤ i := by omega
      simp [h, h2, h3, h4, tb_byte h0 h2]
    · have h4 : 16 ≤ i := by omega
      have h6 : a1.testBit (i - 8) = false := tb_byte h1 (by omega)
      by_cases h5 : i = 16
      · subst h5; simp [tb_byte h0 h2, h6]
      · have h7 : ¬ i - 16 = 0 := by omega
        simp [h, h2, h3, h4, h5, h6, h7, tb_byte h0 h2]

/-- The six orders of the three pointer writes give the same pointer. -/
theorem pointer_orders (r a0 a1 a2 : Nat) (h0 : a0 < 256) (h1 : a1 < 256) :
    ((((((r &&& 0x1ff00) ||| a0) &&& 0x100ff) ||| (a1 <<< 8)) &&& 0xffff) ||| ((a2 &&& 1) <<< 16)
      = a0 ||| (a1 <<< 8) ||| ((a2 &&& 1) <<< 16)) ∧
    ((((((r &&& 0x1ff00) ||| a0) &&& 0xffff) ||| ((a2 &&& 1) <<< 16)) &&& 0x100ff) ||| (a1 <<< 8)
      = a0 ||| (a1 <<< 8) ||| ((a2 &&& 1) <<< 16)) ∧
    ((((((r &&& 0x100ff) ||| (a1 <<< 8)) &&& 0x1ff00) ||| a0) &&& 0xffff) ||| ((a2 &&& 1) <<< 16)
      = a0 ||| (a1 <<< 8) ||| ((a2 &&& 1) <<< 16)) ∧
    ((((((r &&& 0x100ff) ||| (a1 <<< 8)) &&& 0xffff) ||| ((a2 &&& 1) <<< 16)) &&& 0x1ff00) ||| a0
      = a0 ||| (a1 <<< 8) ||| ((a2 &&& 1) <<< 16)) ∧
    ((((((r &&& 0xffff) ||| ((a2 &&& 1) <<< 16)) &&& 0x1ff00) ||| a0) &&& 0x100ff) ||| (a1 <<< 8)
      = a0 ||| (a1 <<< 8) ||| ((a2 &&& 1) <<< 16)) ∧
    ((((((r &&& 0xffff) ||| ((a2 &&& 1) <<< 16)) &&& 0x100ff) ||| (a1 <<< 8)) &&& 0x1ff00) ||| a0
      = a0 ||| (a1 <<< 8) ||| ((a2 &&& 1) <<< 16)) := by
  refine ⟨?_, ?_, ?_, ?_, ?_, ?_⟩ <;>
  · apply Nat.eq_of_testBit_eq
    intro i
    simp only [tb_w81 _ _ _ h0, tb_w82 _ _ _ h1, tb_w83, tb_pointer _ _ _ _ h0 h1]
    by_cases c1 : i < 8
    · have c2 : ¬ (8 ≤ i ∧ i < 16) := by omega
      have c3 : ¬ i = 16 := by omega
      have c6 : i < 16 := by omega
      have c7 : i < 17 := by omega
      simp [c1, c2, c3, c6, c7]
    · by_cases c2 : i < 16
      · have c3 : ¬ i = 16 := by omega
        have c4 : 8 ≤ i ∧ i < 16 := by omega
        have c7 : i < 17 := by omega
        simp [c1, c2, c3, c4, c7]
      · have c4 : ¬ (8 ≤ i ∧ i < 16) := by omega
        by_cases c3 : i = 16
        · simp [c1, c2, c3, c4]
        · have c5 : ¬ i < 17 := by omega
          simp [c1, c2, c3, c4, c5]

theorem pointer_bytes (p : Nat) (hp : p < 0x20000) :
    (p &&& 0xff) ||| (((p >>> 8) &&& 0xff) <<< 8) ||| ((((p >>> 16) &&& 0xff) &&& 1) <<< 16) = p := by
  have b0 : p &&& 0xff < 256 := lt_of_le_of_lt Nat.and_le_right (by norm_num)
  have b1 : (p >>> 8) &&& 0xff < 256 := lt_of_le_of_lt Nat.and_le_right (by norm_num)
  apply Nat.eq_of_testBit_eq
  intro i
  rw [tb_pointer _ _ _ _ b0 b1]
  by_cases c1 : i < 8
  · simp [c1, Nat.testBit_and, tb_ff]
  · by_cases c2 : i < 16
    · have c3 : i - 8 < 8 := by omega
      have c4 : 8 + (i - 8) = i := by omega
      simp [c1, c2, c3, c4, Nat.testBit_and, tb_ff,
        Nat.testBit_shiftRight]
    · by_cases c3 : i = 16
      · subst c3
        simp [Nat.testBit_and, tb_ff, Nat.testBit_shiftRight]
      · have c5 : p.testBit i = false :=
          Nat.testBit_eq_false_of_lt (lt_of_lt_of_le hp (by
            calc 0x20000 = 2 ^ 17 := by norm_num
              _ ≤ 2 ^ i := Nat.pow_le_pow_right (by norm_num) (by omega)))
        simp [c1, c2, c3, c5]

theorem advance_pointer (r : Nat) : ((r + 1) % 0x100000000) &&& 0x1ffff = (r + 1) % 0x20000 := by
  have := Nat.and_pow_two_sub_one_eq_mod ((r + 1) % 0x100000000) 17
  norm_num at this
  rw [this]

theorem writeBBus_81 (s : Snes) (v : Nat) :
    (snes_writeBBus s 0x81 v).ramAdr = (s.ramAdr &&& 0x1ff00) ||| v := rfl

theorem writeBBus_82 (s : Snes) (v : Nat) :
    (snes_writeBBus s 0x82 v).ramAdr = (s.ramAdr &&& 0x100ff) ||| (v <<< 8) := rfl

theorem writeBBus_83 (s : Snes) (v : Nat) :
    (snes_writeBBus s 0x83 v).ramAdr = (s.ramAdr &&& 0x0ffff) ||| ((v &&& 1) <<< 16) := rfl

theorem writeBBus_81_ram (s : Snes) (v : Nat) : (snes_writeBBus s 0x81 v).ram = s.ram := rfl

theorem writeBBus_82_ram (s : Snes) (v : Nat) : (snes_writeBBus s 0x82 v).ram = s.ram := rfl

theorem writeBBus_83_ram (s : Snes) (v : Nat) : (snes_writeBBus s 0x83 v).ram = s.ram := rfl

theorem writeBBus_80 (s : Snes) (v : Nat) :
    (snes_writeBBus s 0x80 v).ram = Function.update s.ram s.ramAdr v ∧
    (snes_writeBBus s 0x80 v).ramAdr = (s.ramAdr + 1) % 0x20000 :=
  ⟨rfl, advance_pointer s.ramAdr⟩

theorem readBBus_80 (env : Env) (s : Snes) :
    (snes_readBBus env s 0x80).1 = s.ram s.ramAdr ∧
    (snes_readBBus env s 0x80).2.ramAdr = (s.ramAdr + 1) % 0x20000 ∧
    (snes_readBBus env s 0x80).2.ram = s.ram :=
  ⟨rfl, advance_pointer s.ramAdr, rfl⟩

/-- C20: the WMDATA pointer. Writing bytes `a0`, `a1`, `a2` to 0x81, 0x82, 0x83 in any of
the six orders leaves `ramAdr = a0 | (a1 << 8) | ((a2 & 1) << 16)`; a write of `v` to 0x80
stores `v` at `ram[ramAdr]` (and nothing else) and a read of 0x80 returns `ram[ramAdr]`, each
advancing `ramAdr` by 1 modulo 0x20000; writing `v`, setting the pointer back and reading
returns `v`; and `ramAdr < 0x20000` in every reachable state. -/
theorem C20_wmdata_pointer (env : Env) (s : Snes) (h : BusReach env s) (a0 a1 a2 v : Nat)
    (h0 : a0 < 256) (h1 : a1 < 256) (h2 : a2 < 256) (hv : v < 256) :
    (snes_writeBBus (snes_writeBBus (snes_writeBBus s 0x81 a0) 0x82 a1) 0x83 a2).ramAdr
      = a0 ||| (a1 <<< 8) ||| ((a2 &&& 1) <<< 16) ∧
    (snes_writeBBus (snes_writeBBus (snes_writeBBus s 0x81 a0) 0x83 a2) 0x82 a1).ramAdr
      = a0 ||| (a1 <<< 8) ||| ((a2 &&& 1) <<< 16) ∧
    (snes_writeBBus (snes_writeBBus (snes_writeBBus s 0x82 a1) 0x81 a0) 0x83 a2).ramAdr
      = a0 ||| (a1 <<< 8) ||| ((a2 &&& 1) <<< 16) ∧
    (snes_writeBBus (snes_writeBBus (snes_writeBBus s 0x82 a1) 0x83 a2) 0x81 a0).ramAdr
      = a0 ||| (a1 <<< 8) ||| ((a2 &&& 1) <<< 16) ∧
    (snes_writeBBus (snes_writeBBus (snes_writeBBus s 0x83 a2) 0x81 a0) 0x82 a1).ramAdr
      = a0 ||| (a1 <<< 8) ||| ((a2 &&& 1) <<< 16) ∧
    (snes_writeBBus (snes_writeBBus (snes_writeBBus s 0x83 a2) 0x82 a1) 0x81 a0).ramAdr
      = a0 ||| (a1 <<< 8) ||| ((a2 &&& 1) <<< 16) ∧
    (snes_writeBBus s 0x80 v).ram s.ramAdr = v ∧
    (∀ j, j ≠ s.ramAdr → (snes_writeBBus s 0x80 v).ram j = s.ram j) ∧
    (snes_writeBBus s 0x80 v).ramAdr = (s.ramAdr + 1) % 0x20000 ∧
    (snes_readBBus env s 0x80).1 = s.ram s.ramAdr ∧
    (snes_readBBus env s 0x80).2.ramAdr = (s.ramAdr + 1) % 0x20000 ∧
    (s.ramAdr = 0x1ffff → (snes_writeBBus s 0x80 v).ramAdr = 0 ∧
      (snes_readBBus env s 0x80).2.ramAdr = 0) ∧
    (snes_readBBus env
      (snes_writeBBus (snes_writeBBus (snes_writeBBus (snes_writeBBus s 0x80 v)
        0x81 (s.ramAdr &&& 0xff)) 0x82 ((s.ramAdr >>> 8) &&& 0xff))
        0x83 ((s.ramAdr >>> 16) &&& 0xff)) 0x80).1 = v ∧
    s.ramAdr < 0x20000 := by
  have hp : s.ramAdr < 0x20000 := (busReach_inv h).2.2.2.2.2.2.2.2.2.1
  obtain ⟨o1, o2, o3, o4, o5, o6⟩ := pointer_orders s.ramAdr a0 a1 a2 h0 h1
  refine ⟨?_, ?_, ?_, ?_, ?_, ?_, ?_, ?_, (writeBBus_80 s v).2, rfl, (readBBus_80 env s).2.1,
    ?_, ?_, hp⟩
  · rw [writeBBus_83, writeBBus_82, writeBBus_81]; exact o1
  · rw [writeBBus_82, writeBBus_83, writeBBus_81]; exact o2
  · rw [writeBBus_83, writeBBus_81, writeBBus_82]; exact o3
  · rw [writeBBus_81, writeBBus_83, writeBBus_82]; exact o4
  · rw [writeBBus_82, writeBBus_81, writeBBus_83]; exact o5
  · rw [writeBBus_81, writeBBus_82, writeBBus_83]; exact o6
  · rw [(writeBBus_80 s v).1]; exact Function.update_same _ _ _
  · intro j hj
    rw [(writeBBus_80 s v).1]; exact Function.update_noteq hj _ _
  · intro e
    rw [(writeBBus_80 s v).2, (readBBus_80 env s).2.1, e]
    exact ⟨by norm_num, by norm_num⟩
  · have b0 : s.ramAdr &&& 0xff < 256 := lt_of_le_of_lt Nat.and_le_right (by norm_num)
    have b1 : (s.ramAdr >>> 8) &&& 0xff < 256 := lt_of_le_of_lt Nat.and_le_right (by norm_num)
    rw [(readBBus_80 env _).1, writeBBus_83, writeBBus_82, writeBBus_81, writeBBus_83_ram,
      writeBBus_82_ram, writeBBus_81_ram,
      (pointer_orders _ _ _ _ b0 b1).1, pointer_bytes _ hp, (writeBBus_80 s v).1]
    exact Function.update_same _ _ _

theorem C20_wmdata_pointer_witness :
    BusReach zeroEnv demoBus ∧ (0x34 : Nat) < 256 ∧ (0x12 : Nat) < 256 ∧ (0x01 : Nat) < 256 ∧
    (0x5a : Nat) < 256 ∧
    (snes_writeBBus (snes_writeBBus (snes_writeBBus demoBus 0x83 0x01) 0x82 0x12) 0x81 0x34).ramAdr
      = 0x34 ||| (0x12 <<< 8) ||| ((0x01 &&& 1) <<< 16) ∧
    (snes_readBBus zeroEnv
      (snes_writeBBus (snes_writeBBus (snes_writeBBus (snes_writeBBus demoBus 0x80 0x5a)
        0x81 (demoBus.ramAdr &&& 0xff)) 0x82 ((demoBus.ramAdr >>> 8) &&& 0xff))
        0x83 ((demoBus.ramAdr >>> 16) &&& 0xff)) 0x80).1 = 0x5a :=
  ⟨BusReach.reset zeroSnes true, by decide, by decide, by decide, by decide,
    (C20_wmdata_pointer zeroEnv demoBus (BusReach.reset zeroSnes true) 0x34 0x12 0x01 0x5a
      (by decide) (by decide) (by decide) (by decide)).2.2.2.2.2.1,
    (C20_wmdata_pointer zeroEnv demoBus (BusReach.reset zeroSnes true) 0x34 0x12 0x01 0x5a
      (by decide) (by decide) (by decide) (by decide)).2.2.2.2.2.2.2.2.2.2.2.2.1⟩

/-! ## One `snes_runCycle` step: either a plain step or the entry into vblank -/

/-- A step of the raster that does not start vblank. -/
def QuietStep (t t2 : Timing) : Prop :=
  t2.nmiEnabled = t.nmiEnabled ∧ t2.autoJoyRead = t.autoJoyRead ∧ t2.nmiWanted = t.nmiWanted ∧
  t2.autoJoyTimer = t.autoJoyTimer ∧ (t2.inVblank = true → t.inVblank = true) ∧
  (t.inVblank = false →
    (t2.hPos = t.hPos + 2 ∧ t2.vPos = t.vPos) ∨ (t2.hPos = 0 ∧ t2.vPos = t.vPos + 1))

/-- A step of the raster that starts vblank. -/
def EnterStep (t t2 : Timing) : Prop :=
  t2.nmiEnabled = t.nmiEnabled ∧ t2.autoJoyRead = t.autoJoyRead ∧
  t.inVblank = false ∧ t2.inVblank = true ∧ t2.inNmi = true ∧
  t2.nmiWanted = (t.nmiEnabled || t.nmiWanted) ∧
  t2.autoJoyTimer = (if t.autoJoyRead then 4224 else t.autoJoyTimer) ∧
  t2.hPos = 0 ∧ t2.vPos = t.vPos + 1 ∧ t2.vPos = (if t2.frameOverscan then 240 else 225)

theorem nextLineT_wrap (t : Timing) (short : Prop) [Decidable short]
    (h4 : t.palTiming = false → t.vPos ≤ 262) (h5 : t.palTiming = true → t.vPos ≤ 312)
    (h0 : (nextLineT t short).vPos = 0) : 261 ≤ t.vPos := by
  have hv : (t.vPos + 1) % 65536 = t.vPos + 1 := by
    cases hp : t.palTiming
    · have := h4 hp; omega
    · have := h5 hp; omega
  unfold nextLineT at h0
  dsimp only at h0
  rw [hv] at h0
  by_cases hl : lastLineT t.palTiming (t.vPos + 1) short
  · unfold lastLineT at hl
    omega
  · rw [if_neg hl] at h0
    omega

theorem nmi_or (a b : Bool) : (if a = true then true else b) = (a || b) := by
  cases a <;> rfl

theorem lineEnd_cases (t : Timing) (x : Nat) (short : Prop) [Decidable short] (overscan : Bool)
    (h4 : t.palTiming = false → t.vPos ≤ 262) (h5 : t.palTiming = true → t.vPos ≤ 312)
    (h6 : t.inVblank = true ↔ (if t.frameOverscan then 240 else 225) ≤ t.vPos) :
    QuietStep t (lineStartT (nextLineT { t with hPos := x } short) overscan t.autoJoyRead) ∨
    EnterStep t (lineStartT (nextLineT { t with hPos := x } short) overscan t.autoJoyRead) := by
  have hw := nextLineT_wrap { t with hPos := x } short h4 h5
  obtain ⟨v, hv, hv1, -, -⟩ := nextLineT_spec { t with hPos := x } short h4 h5
  rw [hv] at hw ⊢
  dsimp only at hw
  have hpos : t.inVblank = false → v = t.vPos + 1 := by
    intro hf
    rcases hv1 with h | h
    · have := hw h
      have h6b : t.inVblank = true := h6.mpr (by split_ifs <;> omega)
      rw [hf] at h6b
      exact absurd h6b (by decide)
    · exact h
  unfold lineStartT
  dsimp only
  by_cases hv0 : v = 0
  · rw [if_pos hv0]
    left
    refine ⟨rfl, rfl, rfl, rfl, fun h => by simp at h, fun hf => Or.inr ⟨rfl, hpos hf⟩⟩
  rw [if_neg hv0]
  have hvs : v = t.vPos + 1 := by
    rcases hv1 with h | h
    · exact absurd h hv0
    · exact h
  by_cases hv225 : v = 225
  · rw [if_pos hv225]
    have hiv : t.inVblank = false := by
      cases hi : t.inVblank
      · rfl
      · have := h6.mp hi
        split_ifs at this <;> omega
    cases overscan
    · right
      simp only [Bool.not_false, if_true, startVblankT]
      exact ⟨rfl, rfl, hiv, rfl, rfl, nmi_or _ _, rfl, rfl, hvs, hv225⟩
    · left
      simp only [Bool.not_true, Bool.false_eq_true, if_false]
      exact ⟨rfl, rfl, rfl, rfl, id, fun hf => Or.inr ⟨rfl, hvs⟩⟩
  rw [if_neg hv225]
  by_cases hv240 : v = 240
  · rw [if_pos hv240]
    cases hi : t.inVblank
    · right
      simp only [Bool.not_false, if_true, startVblankT]
      have hfo : t.frameOverscan = true := by
        cases hf : t.frameOverscan
        · have h6b : t.inVblank = true := h6.mpr (by rw [hf]; simp; omega)
          rw [hi] at h6b
          exact absurd h6b (by decide)
        · rfl
      refine ⟨rfl, rfl, hi, rfl, rfl, nmi_or _ _, rfl, rfl, hvs, ?_⟩
      show v = if t.frameOverscan = true then 240 else 225
      rw [if_pos hfo]; exact hv240
    · left
      simp only [Bool.not_true, Bool.false_eq_true, if_false]
      exact ⟨rfl, rfl, rfl, rfl, fun _ => hi, fun hf => Or.inr ⟨rfl, hvs⟩⟩
  rw [if_neg hv240]
  left
  exact ⟨rfl, rfl, rfl, rfl, id, fun hf => Or.inr ⟨rfl, hvs⟩⟩

theorem advanceT_cases (t : Timing) (next : Nat) (short : Prop) [Decidable short]
    (overscan : Bool) (ht : TimingInv t) :
    QuietStep t (advanceT t next short overscan t.autoJoyRead) ∨
    EnterStep t (advanceT t next short overscan t.autoJoyRead) := by
  obtain ⟨h1, h2, h3, h4, h5, h6, h7, h8, h9, h10⟩ := ht
  have hm : (t.hPos + 2) % 65536 = t.hPos + 2 := by omega
  unfold advanceT
  rw [hm]
  by_cases he : t.hPos + 2 = t.nextHoriEvent
  · rw [if_pos he]
    unfold horiEventT
    dsimp only
    by_cases h16 : t.hPos + 2 = 16
    · rw [if_pos h16]
      exact Or.inl ⟨rfl, rfl, rfl, rfl, id, fun _ => Or.inl ⟨rfl, rfl⟩⟩
    rw [if_neg h16]
    by_cases h512 : t.hPos + 2 = 512
    · rw [if_pos h512]
      exact Or.inl ⟨rfl, rfl, rfl, rfl, id, fun _ => Or.inl ⟨rfl, rfl⟩⟩
    rw [if_neg h512]
    by_cases h1104 : t.hPos + 2 = 1104
    · rw [if_pos h1104]
      exact Or.inl ⟨rfl, rfl, rfl, rfl, id, fun _ => Or.inl ⟨rfl, rfl⟩⟩
    rw [if_neg h1104]
    have hend : t.hPos + 2 = 1360 ∨ t.hPos + 2 = 1364 ∨ t.hPos + 2 = 1368 := by omega
    rw [if_pos hend]
    exact lineEnd_cases t (t.hPos + 2) short overscan h4 h5 h6
  · rw [if_neg he]
    exact Or.inl ⟨rfl, rfl, rfl, rfl, id, fun _ => Or.inl ⟨rfl, rfl⟩⟩

theorem joyTimerT_fields (t : Timing) :
    (joyTimerT t).nmiEnabled = t.nmiEnabled ∧ (joyTimerT t).autoJoyRead = t.autoJoyRead ∧
    (joyTimerT t).nmiWanted = t.nmiWanted ∧ (joyTimerT t).inVblank = t.inVblank ∧
    (joyTimerT t).inNmi = t.inNmi ∧ (joyTimerT t).hPos = t.hPos ∧ (joyTimerT t).vPos = t.vPos ∧
    (t.autoJoyTimer % 2 = 0 →
      (joyTimerT t).autoJoyTimer = if t.autoJoyTimer > 0 then t.autoJoyTimer - 2 else 0) := by
  unfold joyTimerT
  by_cases h : t.autoJoyTimer > 0
  · rw [if_pos h, if_pos h]
    exact ⟨rfl, rfl, rfl, rfl, rfl, rfl, rfl, fun he => subTwo_even _ _ h he⟩
  · rw [if_neg h, if_neg h]
    exact ⟨rfl, rfl, rfl, rfl, rfl, rfl, rfl, fun _ => by omega⟩

/-- One `snes_runCycle` step from a state satisfying the raster invariant is either a plain
step, which decrements the auto-joypad timer and leaves the NMI request alone, or the entry
into vblank. -/
theorem runCycle_cases (env : Env) (s : Snes) (ht : TimingInv (timingOf s)) :
    (snes_runCycle env s).nmiEnabled = s.nmiEnabled ∧
    (snes_runCycle env s).autoJoyRead = s.autoJoyRead ∧
    (((snes_runCycle env s).cpu.nmiWanted = s.cpu.nmiWanted ∧
      (snes_runCycle env s).autoJoyTimer = (if s.autoJoyTimer > 0 then s.autoJoyTimer - 2 else 0) ∧
      ((snes_runCycle env s).inVblank = true → s.inVblank = true) ∧
      (s.inVblank = false →
        ((snes_runCycle env s).hPos = s.hPos + 2 ∧ (snes_runCycle env s).vPos = s.vPos) ∨
        ((snes_runCycle env s).hPos = 0 ∧ (snes_runCycle env s).vPos = s.vPos + 1))) ∨
     (s.inVblank = false ∧ (snes_runCycle env s).inVblank = true ∧
      (snes_runCycle env s).inNmi = true ∧
      (snes_runCycle env s).cpu.nmiWanted = (s.nmiEnabled || s.cpu.nmiWanted) ∧
      (snes_runCycle env s).autoJoyTimer =
        (if s.autoJoyRead then 4222
         else if s.autoJoyTimer > 0 then s.autoJoyTimer - 2 else 0) ∧
      (snes_runCycle env s).hPos = 0 ∧ (snes_runCycle env s).vPos = s.vPos + 1 ∧
      (snes_runCycle env s).vPos = vblankStart (snes_runCycle env s))) := by
  have e : timingOf (snes_runCycle env s) =
      joyTimerT (advanceT (timingOf (snes_tick s)) (lineLength (snes_tick s))
        ((snes_tick s).ppu.frameInterlace = false ∨ (snes_tick s).ppu.evenFrame = false)
        (snes_tick s).ppu.overscan (timingOf (snes_tick s)).autoJoyRead) :=
    (joyTimer_timing (snes_advance env (snes_tick s))).trans
      (congrArg joyTimerT (advance_timing env (snes_tick s)))
  have hA := advanceT_cases (timingOf (snes_tick s)) (lineLength (snes_tick s))
    ((snes_tick s).ppu.frameInterlace = false ∨ (snes_tick s).ppu.evenFrame = false)
    (snes_tick s).ppu.overscan (by rw [tick_timing]; exact ht)
  generalize advanceT (timingOf (snes_tick s)) (lineLength (snes_tick s))
    ((snes_tick s).ppu.frameInterlace = false ∨ (snes_tick s).ppu.evenFrame = false)
    (snes_tick s).ppu.overscan (timingOf (snes_tick s)).autoJoyRead = B at e hA
  rw [tick_timing] at hA
  obtain ⟨j1, j2, j3, j4, j5, j6, j7, j8⟩ := joyTimerT_fields B
  have f1 : (snes_runCycle env s).nmiEnabled = B.nmiEnabled :=
    (congrArg Timing.nmiEnabled e).trans j1
  have f2 : (snes_runCycle env s).autoJoyRead = B.autoJoyRead :=
    (congrArg Timing.autoJoyRead e).trans j2
  have f3 : (snes_runCycle env s).cpu.nmiWanted = B.nmiWanted :=
    (congrArg Timing.nmiWanted e).trans j3
  have f4 : (snes_runCycle env s).inVblank = B.inVblank :=
    (congrArg Timing.inVblank e).trans j4
  have f5 : (snes_runCycle env s).inNmi = B.inNmi := (congrArg Timing.inNmi e).trans j5
  have f6 : (snes_runCycle env s).hPos = B.hPos := (congrArg Timing.hPos e).trans j6
  have f7 : (snes_runCycle env s).vPos = B.vPos := (congrArg Timing.vPos e).trans j7
  have f8 : (snes_runCycle env s).autoJoyTimer = (joyTimerT B).autoJoyTimer :=
    congrArg Timing.autoJoyTimer e
  have hev : s.autoJoyTimer % 2 = 0 := ht.2.2.2.2.2.2.2.1
  rcases hA with ⟨a1, a2, a3, a4, a5, a6⟩ | ⟨a1, a2, a3, a4, a5, a6, a7, a8, a9, a10⟩
  · have a1b : B.nmiEnabled = s.nmiEnabled := a1
    have a2b : B.autoJoyRead = s.autoJoyRead := a2
    have a3b : B.nmiWanted = s.cpu.nmiWanted := a3
    have a4b : B.autoJoyTimer = s.autoJoyTimer := a4
    have a5b : B.inVblank = true → s.inVblank = true := a5
    have a6b : s.inVblank = false →
        (B.hPos = s.hPos + 2 ∧ B.vPos = s.vPos) ∨ (B.hPos = 0 ∧ B.vPos = s.vPos + 1) := a6
    refine ⟨f1.trans a1b, f2.trans a2b, Or.inl ⟨f3.trans a3b, ?_, ?_, ?_⟩⟩
    · rw [f8, j8 (by rw [a4b]; exact hev), a4b]
    · rw [f4]; exact a5b
    · rw [f6, f7]; exact a6b
  · have a1b : B.nmiEnabled = s.nmiEnabled := a1
    have a2b : B.autoJoyRead = s.autoJoyRead := a2
    have a3b : s.inVblank = false := a3
    have a6b : B.nmiWanted = (s.nmiEnabled || s.cpu.nmiWanted) := a6
    have a7b : B.autoJoyTimer = (if s.autoJoyRead = true then 4224 else s.autoJoyTimer) := a7
    have f9 : (snes_runCycle env s).ppu.frameOverscan = B.frameOverscan :=
      (congrArg Timing.frameOverscan e).trans (by unfold joyTimerT; split_ifs <;> rfl)
    have a10b : B.vPos = if B.frameOverscan = true then 240 else 225 := a10
    refine ⟨f1.trans a1b, f2.trans a2b, Or.inr ⟨a3b, f4.trans a4, f5.trans a5, f3.trans a6b, ?_,
      f6.trans a8, f7.trans a9, by unfold vblankStart; rw [f7, f9]; exact a10b⟩⟩
    rw [f8]
    by_cases hj : s.autoJoyRead = true
    · rw [if_pos hj] at a7b
      rw [j8 (by rw [a7b]), a7b, if_pos hj]
      rfl
    · rw [if_neg hj] at a7b
      rw [j8 (by rw [a7b]; exact hev), a7b, if_neg hj]

/-- From every reachable state outside vblank, `snes_runCycle` steps reach a state whose next
step enters vblank, with the NMI enable, the auto-joypad enable and an idle auto-joypad timer
as they were. -/
theorem reaches_entry (env : Env) (n : Nat) :
    ∀ s, BusReach env s → s.inVblank = false →
      (241 - s.vPos) * 1400 + (1400 - s.hPos) ≤ n →
      ∃ s2, BusReach env s2 ∧ s2.inVblank = false ∧ (snes_runCycle env s2).inVblank = true ∧
        s2.nmiEnabled = s.nmiEnabled ∧ s2.autoJoyRead = s.autoJoyRead ∧
        (s.autoJoyTimer = 0 → s2.autoJoyTimer = 0) := by
  induction n with
  | zero =>
    intro s hs _ hm
    have hi := busReach_inv hs
    have h2 : s.hPos < s.nextHoriEvent := hi.2.1
    have h3 : s.nextHoriEvent = 16 ∨ s.nextHoriEvent = 512 ∨ s.nextHoriEvent = 1104 ∨
      s.nextHoriEvent = 1360 ∨ s.nextHoriEvent = 1364 ∨ s.nextHoriEvent = 1368 := hi.2.2.1
    omega
  | succ n ih =>
    intro s hs hv hm
    have hi := busReach_inv hs
    have h2 : s.hPos < s.nextHoriEvent := hi.2.1
    have h3 : s.nextHoriEvent = 16 ∨ s.nextHoriEvent = 512 ∨ s.nextHoriEvent = 1104 ∨
      s.nextHoriEvent = 1360 ∨ s.nextHoriEvent = 1364 ∨ s.nextHoriEvent = 1368 := hi.2.2.1
    have h6 : s.inVblank = true ↔ (if s.ppu.frameOverscan then 240 else 225) ≤ s.vPos :=
      hi.2.2.2.2.2.1
    have hvp : s.vPos ≤ 239 := by
      by_contra hc
      have : s.inVblank = true := h6.mpr (by split_ifs <;> omega)
      rw [hv] at this
      exact absurd this (by decide)
    by_cases hn : (snes_runCycle env s).inVblank = true
    · exact ⟨s, hs, hv, hn, rfl, rfl, id⟩
    · obtain ⟨c1, c2, c3⟩ := runCycle_cases env s hi
      rcases c3 with ⟨-, d2, -, d4⟩ | ⟨-, d2, -⟩
      · have hv2 : (snes_runCycle env s).inVblank = false := by simpa using hn
        have hm2 : (241 - (snes_runCycle env s).vPos) * 1400 +
            (1400 - (snes_runCycle env s).hPos) ≤ n := by
          rcases d4 hv with ⟨p1, p2⟩ | ⟨p1, p2⟩
          · rw [p1, p2]; omega
          · rw [p1, p2]; omega
        obtain ⟨s2, r1, r2, r3, r4, r5, r6⟩ := ih _ (BusReach.cycle hs) hv2 hm2
        refine ⟨s2, r1, r2, r3, r4.trans c1, r5.trans c2, fun h0 => r6 ?_⟩
        rw [d2, h0]
        rfl
      · exact absurd d2 hn

/-! ## The NMI flag and the auto-joypad timer at the entry into vblank -/

theorem entry_exists (env : Env) (s : Snes) (hs : BusReach env s) (hv : s.inVblank = false) :
    ∃ s2, BusReach env s2 ∧ s2.inVblank = false ∧ (snes_runCycle env s2).inVblank = true ∧
      s2.nmiEnabled = s.nmiEnabled ∧ s2.autoJoyRead = s.autoJoyRead ∧
      (s.autoJoyTimer = 0 → s2.autoJoyTimer = 0) :=
  reaches_entry env _ s hs hv (le_refl _)

/-- C16 (counterexample): running from a reset, where `nmiEnabled` is clear, the bus reaches
a state whose next `snes_runCycle` step enters vblank; `nmiEnabled` is still clear there,
and the step sets `inNmi` all the same. -/
theorem C16_inNmi_set_while_nmi_disabled :
    ∃ s, BusReach zeroEnv s ∧ s.inVblank = false ∧ s.nmiEnabled = false ∧
      (snes_runCycle zeroEnv s).inVblank = true ∧ (snes_runCycle zeroEnv s).inNmi = true ∧
      (snes_runCycle zeroEnv s).nmiEnabled = false := by
  obtain ⟨s2, r1, r2, r3, r4, -, -⟩ :=
    entry_exists zeroEnv demoBus (BusReach.reset zeroSnes true) rfl
  have hn : s2.nmiEnabled = false := r4.trans rfl
  obtain ⟨c1, -, c3⟩ := runCycle_cases zeroEnv s2 (busReach_inv r1)
  refine ⟨s2, r1, r2, hn, r3, ?_, c1.trans hn⟩
  rcases c3 with ⟨-, -, d3, -⟩ | ⟨-, -, d3, -⟩
  · have := d3 r3
    rw [r2] at this
    exact absurd this (by decide)
  · exact d3

/-- C16 (amended): on the `snes_runCycle` step that takes a reachable bus state into vblank
(`vPos` reaching `vblankStart`, at `hPos = 0`), `inNmi` becomes set whatever `nmiEnabled`
is; `nmiEnabled` is unchanged, and the NMI is requested from the CPU exactly when
`nmiEnabled` is set: `nmiWanted` afterwards is `nmiEnabled || nmiWanted`. -/
theorem C16_vblank_entry_sets_inNmi (env : Env) (s : Snes) (h : BusReach env s)
    (h1 : s.inVblank = false) (h2 : (snes_runCycle env s).inVblank = true) :
    (snes_runCycle env s).inNmi = true ∧
    (snes_runCycle env s).nmiEnabled = s.nmiEnabled ∧
    (snes_runCycle env s).cpu.nmiWanted = (s.nmiEnabled || s.cpu.nmiWanted) ∧
    (s.cpu.nmiWanted = false →
      ((snes_runCycle env s).cpu.nmiWanted = true ↔ s.nmiEnabled = true)) ∧
    (snes_runCycle env s).hPos = 0 ∧
    (snes_runCycle env s).vPos = s.vPos + 1 ∧
    (snes_runCycle env s).vPos = vblankStart (snes_runCycle env s) := by
  obtain ⟨c1, -, c3⟩ := runCycle_cases env s (busReach_inv h)
  rcases c3 with ⟨-, -, d3, -⟩ | ⟨-, -, d3, d4, -, d6, d7, d8⟩
  · have := d3 h2
    rw [h1] at this
    exact absurd this (by decide)
  · refine ⟨d3, c1, d4, fun hw => ?_, d6, d7, d8⟩
    rw [d4, hw]
    simp

theorem C16_vblank_entry_sets_inNmi_witness :
    ∃ s, BusReach zeroEnv s ∧ s.inVblank = false ∧ (snes_runCycle zeroEnv s).inVblank = true ∧
      ((snes_runCycle zeroEnv s).inNmi = true ∧
      (snes_runCycle zeroEnv s).nmiEnabled = s.nmiEnabled ∧
      (snes_runCycle zeroEnv s).cpu.nmiWanted = (s.nmiEnabled || s.cpu.nmiWanted) ∧
      (s.cpu.nmiWanted = false →
        ((snes_runCycle zeroEnv s).cpu.nmiWanted = true ↔ s.nmiEnabled = true)) ∧
      (snes_runCycle zeroEnv s).hPos = 0 ∧
      (snes_runCycle zeroEnv s).vPos = s.vPos + 1 ∧
      (snes_runCycle zeroEnv s).vPos = vblankStart (snes_runCycle zeroEnv s)) := by
  obtain ⟨s2, r1, r2, r3, -⟩ :=
    entry_exists zeroEnv demoBus (BusReach.reset zeroSnes true) rfl
  exact ⟨s2, r1, r2, r3, C16_vblank_entry_sets_inNmi zeroEnv s2 r1 r2 r3⟩

theorem hvbjoy_bit0 (s : Snes) :
    ((snes_readReg s 0x4212).1 &&& 1 = 1) ↔ s.autoJoyTimer > 0 := by
  have e : (snes_readReg s 0x4212).1 =
      (((decide (s.autoJoyTimer > 0)).toNat |||
        ((decide (s.hPos < 4 ∨ s.hPos ≥ 1096)).toNat <<< 6)
        ||| (s.inVblank.toNat <<< 7)) ||| (s.openBus &&& 0x3e)) := rfl
  rw [e, Nat.and_one_is_mod]
  have h62 : Nat.testBit 0x3e 0 = false := by decide
  have hb : ∀ b : Bool, b.toNat.testBit 0 = b := by intro b; cases b <;> rfl
  have ht : ((((decide (s.autoJoyTimer > 0)).toNat |||
        ((decide (s.hPos < 4 ∨ s.hPos ≥ 1096)).toNat <<< 6)
        ||| (s.inVblank.toNat <<< 7)) ||| (s.openBus &&& 0x3e))).testBit 0
      = decide (s.autoJoyTimer > 0) := by
    rw [Nat.testBit_or, Nat.testBit_or, Nat.testBit_or, Nat.testBit_and, h62,
      Nat.testBit_shiftLeft, Nat.testBit_shiftLeft, hb]
    simp
  rw [Nat.testBit_zero] at ht
  by_cases h : s.autoJoyTimer > 0
  · simp only [h, decide_True, decide_eq_true_eq] at ht
    simp only [h, iff_true]
    exact ht
  · simp only [h, decide_False, decide_eq_false_iff_not] at ht
    simp only [h, iff_false]
    exact ht

/-- C37 (counterexample): with auto-joypad reading enabled by a write of 0x01 to 0x4200 after
a reset, the bus reaches a state with `autoJoyTimer = 0` whose next `snes_runCycle` step
leaves the timer at 4222: the step that enters vblank reloads the timer with 4224 before
the decrement. -/
theorem C37_timer_reloaded_at_vblank :
    ∃ s, BusReach zeroEnv s ∧ s.autoJoyTimer = 0 ∧
      (snes_runCycle zeroEnv s).autoJoyTimer = 4222 := by
  have hw : BusReach zeroEnv (snes_write demoBus 0x4200 0x01) :=
    BusReach.write _ _ (by decide) (BusReach.reset zeroSnes true)
  obtain ⟨s2, r1, r2, r3, -, r5, r6⟩ := entry_exists zeroEnv _ hw rfl
  have hj : s2.autoJoyRead = true := r5.trans rfl
  obtain ⟨-, -, c3⟩ := runCycle_cases zeroEnv s2 (busReach_inv r1)
  refine ⟨s2, r1, r6 rfl, ?_⟩
  rcases c3 with ⟨-, -, d3, -⟩ | ⟨-, -, -, -, d5, -⟩
  · have := d3 r3
    rw [r2] at this
    exact absurd this (by decide)
  · rw [d5, if_pos hj]

/-- C37 (amended): in every reachable bus state `autoJoyTimer` is even and at most 4224, and
bit 0 of a read of 0x4212 is 1 exactly when `autoJoyTimer > 0`.  A `snes_runCycle` step that
enters vblank with auto-joypad reading enabled leaves the timer at 4222 (reload to 4224,
then the decrement); every other step decreases it by 2 when it is positive and leaves it at
0 otherwise. -/
theorem C37_auto_joypad_timer (env : Env) (s : Snes) (h : BusReach env s) :
    s.autoJoyTimer % 2 = 0 ∧ s.autoJoyTimer ≤ 4224 ∧
    (((snes_readReg s 0x4212).1 &&& 1 = 1) ↔ s.autoJoyTimer > 0) ∧
    ((s.inVblank = false ∧ (snes_runCycle env s).inVblank = true ∧ s.autoJoyRead = true) →
      (snes_runCycle env s).autoJoyTimer = 4222) ∧
    (¬ (s.inVblank = false ∧ (snes_runCycle env s).inVblank = true ∧ s.autoJoyRead = true) →
      (snes_runCycle env s).autoJoyTimer =
        (if s.autoJoyTimer > 0 then s.autoJoyTimer - 2 else 0)) := by
  have hi := busReach_inv h
  have h8 : s.autoJoyTimer % 2 = 0 := hi.2.2.2.2.2.2.2.1
  have h9 : s.autoJoyTimer ≤ 4224 := hi.2.2.2.2.2.2.2.2.1
  obtain ⟨-, -, c3⟩ := runCycle_cases env s hi
  refine ⟨h8, h9, hvbjoy_bit0 s, ?_, ?_⟩
  · rintro ⟨e1, e2, e3⟩
    rcases c3 with ⟨-, -, d3, -⟩ | ⟨-, -, -, -, d5, -⟩
    · have := d3 e2
      rw [e1] at this
      exact absurd this (by decide)
    · rw [d5, if_pos e3]
  · intro hne
    rcases c3 with ⟨-, d2, -, -⟩ | ⟨d1, d2, -, -, d5, -⟩
    · exact d2
    · have hj : ¬ s.autoJoyRead = true := fun hc => hne ⟨d1, d2, hc⟩
      rw [d5, if_neg hj]

theorem C37_auto_joypad_timer_witness :
    BusReach zeroEnv (snes_runCycle zeroEnv (snes_write demoBus 0x4200 0x01)) ∧
    ((snes_runCycle zeroEnv (snes_write demoBus 0x4200 0x01)).autoJoyTimer % 2 = 0 ∧
    (snes_runCycle zeroEnv (snes_write demoBus 0x4200 0x01)).autoJoyTimer ≤ 4224 ∧
    (((snes_readReg (snes_runCycle zeroEnv (snes_write demoBus 0x4200 0x01)) 0x4212).1 &&& 1 = 1)
      ↔ (snes_runCycle zeroEnv (snes_write demoBus 0x4200 0x01)).autoJoyTimer > 0) ∧
    (((snes_runCycle zeroEnv (snes_write demoBus 0x4200 0x01)).inVblank = false ∧
      (snes_runCycle zeroEnv
        (snes_runCycle zeroEnv (snes_write demoBus 0x4200 0x01))).inVblank = true ∧
      (snes_runCycle zeroEnv (snes_write demoBus 0x4200 0x01)).autoJoyRead = true) →
      (snes_runCycle zeroEnv
        (snes_runCycle zeroEnv (snes_write demoBus 0x4200 0x01))).autoJoyTimer = 4222) ∧
    (¬ ((snes_runCycle zeroEnv (snes_write demoBus 0x4200 0x01)).inVblank = false ∧
      (snes_runCycle zeroEnv
        (snes_runCycle zeroEnv (snes_write demoBus 0x4200 0x01))).inVblank = true ∧
      (snes_runCycle zeroEnv (snes_write demoBus 0x4200 0x01)).autoJoyRead = true) →
      (snes_runCycle zeroEnv
        (snes_runCycle zeroEnv (snes_write demoBus 0x4200 0x01))).autoJoyTimer =
        (if (snes_runCycle zeroEnv (snes_write demoBus 0x4200 0x01)).autoJoyTimer > 0 then
          (snes_runCycle zeroEnv (snes_write demoBus 0x4200 0x01)).autoJoyTimer - 2 else 0))) :=
  ⟨BusReach.cycle (BusReach.write _ _ (by decide) (BusReach.reset zeroSnes true)),
    C37_auto_joypad_timer zeroEnv _
      (BusReach.cycle (BusReach.write _ _ (by decide) (BusReach.reset zeroSnes true)))⟩

/-! ## The H/V-timer fields under `snes_runCycle` -/

theorem doAutoJoypad_irq (env : Env) (s : Snes) : irqOf (snes_doAutoJoypad env s) = irqOf s :=
  doAutoJoypad_field irqOf (fun _ _ _ => rfl) env s

theorem startVblank_irq (env : Env) (s : Snes) : irqOf (snes_startVblank env s) = irqOf s := by
  have key : ∀ X : Snes,
      irqOf (if X.nmiEnabled = true then { X with cpu := cpu_nmi X.cpu } else X) = irqOf X := by
    intro X; split_ifs <;> rfl
  unfold snes_startVblank
  rw [key]
  by_cases h1 : s.autoJoyRead = true
  · rw [if_pos (by exact h1), doAutoJoypad_irq]; rfl
  · rw [if_neg (by exact h1)]; rfl

theorem frameWrap_irq (s : Snes) : irqOf (snes_frameWrap s) = irqOf s := by
  unfold snes_frameWrap
  dsimp only
  split_ifs <;> rfl

theorem nextLine_irq (s : Snes) : irqOf (snes_nextLine s) = irqOf s := by
  unfold snes_nextLine
  dsimp only
  split_ifs
  · exact frameWrap_irq _
  · rfl

theorem line225_irq (env : Env) (s : Snes) : irqOf (snes_line225 env s) = irqOf s := by
  unfold snes_line225
  dsimp only
  split_ifs
  · rw [startVblank_irq]; rfl
  · rfl

theorem lineStart_irq (env : Env) (s : Snes) : irqOf (snes_lineStart env s) = irqOf s := by
  unfold snes_lineStart
  split_ifs
  · rfl
  · exact line225_irq env s
  · exact startVblank_irq env s
  · rfl
  · rfl

theorem endLine_irq (env : Env) (s : Snes) : irqOf (snes_endLine env s) = irqOf s := by
  unfold snes_endLine
  rw [lineStart_irq, nextLine_irq]

theorem horiEvent_irq (env : Env) (s : Snes) : irqOf (snes_horiEvent env s) = irqOf s := by
  unfold snes_horiEvent
  by_cases h16 : s.hPos = 16
  · rw [if_pos h16]; rfl
  rw [if_neg h16]
  by_cases h512 : s.hPos = 512
  · rw [if_pos h512]; rfl
  rw [if_neg h512]
  by_cases h1104 : s.hPos = 1104
  · rw [if_pos h1104]; rfl
  rw [if_neg h1104]
  by_cases hend : s.hPos = 1360 ∨ s.hPos = 1364 ∨ s.hPos = 1368
  · rw [if_pos hend]; exact endLine_irq env s
  · rw [if_neg hend]

theorem advance_irq (env : Env) (s : Snes) : irqOf (snes_advance env s) = irqOf s := by
  unfold snes_advance
  dsimp only
  split_ifs
  · rw [horiEvent_irq]; rfl
  · rfl

theorem joyTimer_irq (s : Snes) : irqOf (snes_joyTimer s) = irqOf s := by
  unfold snes_joyTimer
  split_ifs <;> rfl

theorem runCycle_irq (env : Env) (s : Snes) :
    irqOf (snes_runCycle env s) = irqOf (snes_tick s) := by
  unfold snes_runCycle
  rw [joyTimer_irq, advance_irq]

theorem checkIrq_cycles (s : Snes) : (snes_checkIrq s).cycles = s.cycles := by
  unfold snes_checkIrq snes_hvCountdown
  dsimp only
  split_ifs <;> rfl

theorem runCycle_cycles (env : Env) (s : Snes) :
    (snes_runCycle env s).cycles = (s.cycles + 2) % 0x10000000000000000 := by
  have e := congrArg IrqView.cycles (runCycle_irq env s)
  have e2 : (snes_tick s).cycles = (s.cycles + 2) % 0x10000000000000000 := by
    unfold snes_tick
    dsimp only
    split_ifs
    · rw [checkIrq_cycles]
    · rfl
  exact e.trans e2

theorem iterate_cycles (env : Env) (k : Nat) :
    ∀ s, (iterate (snes_runCycle env) k s).cycles % 0x10000000000000000 =
      (s.cycles + 2 * k) % 0x10000000000000000 := by
  induction k with
  | zero => intro s; rfl
  | succ k ih =>
    intro s
    show (iterate (snes_runCycle env) k (snes_runCycle env s)).cycles % _ = _
    rw [ih, runCycle_cycles]
    omega

theorem and_two_eq_zero (x : Nat) : x &&& 2 = 0 ↔ x % 4 < 2 := by
  have h := Nat.and_two_pow x 1
  have h2 : x.testBit 1 = decide (x / 2 % 2 = 1) := by
    rw [show (1 : Nat) = Nat.succ 0 from rfl, Nat.testBit_succ, Nat.testBit_zero]
  rw [h2] at h
  have h3 : x &&& 2 = (decide (x / 2 % 2 = 1)).toNat * 2 := by simpa using h
  rw [h3]
  by_cases c : x / 2 % 2 = 1
  · simp [c]; omega
  · simp [c]; omega

theorem lineStartT_pos (t : Timing) (overscan autoJoyRead : Bool) :
    (lineStartT t overscan autoJoyRead).hPos = t.hPos ∧
    (lineStartT t overscan autoJoyRead).vPos = t.vPos := by
  unfold lineStartT startVblankT
  split_ifs <;> exact ⟨rfl, rfl⟩

theorem advanceT_pos (t : Timing) (next : Nat) (short : Prop) [Decidable short]
    (overscan autoJoyRead : Bool) (ht : TimingInv t) :
    ((advanceT t next short overscan autoJoyRead).hPos = t.hPos + 2 ∧
      (advanceT t next short overscan autoJoyRead).vPos = t.vPos) ∨
    ((advanceT t next short overscan autoJoyRead).hPos = 0 ∧ 1360 ≤ t.hPos + 2 ∧
      t.hPos % 4 = 2) := by
  obtain ⟨h1, h2, h3, h4, h5, h6, h7, h8, h9, h10⟩ := ht
  have hm : (t.hPos + 2) % 65536 = t.hPos + 2 := by omega
  unfold advanceT
  rw [hm]
  by_cases he : t.hPos + 2 = t.nextHoriEvent
  · rw [if_pos he]
    unfold horiEventT
    dsimp only
    by_cases h16 : t.hPos + 2 = 16
    · rw [if_pos h16]; exact Or.inl ⟨rfl, rfl⟩
    rw [if_neg h16]
    by_cases h512 : t.hPos + 2 = 512
    · rw [if_pos h512]; exact Or.inl ⟨rfl, rfl⟩
    rw [if_neg h512]
    by_cases h1104 : t.hPos + 2 = 1104
    · rw [if_pos h1104]; exact Or.inl ⟨rfl, rfl⟩
    rw [if_neg h1104]
    have hend : t.hPos + 2 = 1360 ∨ t.hPos + 2 = 1364 ∨ t.hPos + 2 = 1368 := by omega
    rw [if_pos hend]
    right
    refine ⟨?_, by omega, by omega⟩
    rw [(lineStartT_pos _ _ _).1]
    rfl
  · rw [if_neg he]
    exact Or.inl ⟨rfl, rfl⟩

theorem runCycle_pos (env : Env) (s : Snes) (ht : TimingInv (timingOf s)) :
    ((snes_runCycle env s).hPos = s.hPos + 2 ∧ (snes_runCycle env s).vPos = s.vPos) ∨
    ((snes_runCycle env s).hPos = 0 ∧ 1360 ≤ s.hPos + 2 ∧ s.hPos % 4 = 2) := by
  have e : timingOf (snes_runCycle env s) =
      joyTimerT (advanceT (timingOf (snes_tick s)) (lineLength (snes_tick s))
        ((snes_tick s).ppu.frameInterlace = false ∨ (snes_tick s).ppu.evenFrame = false)
        (snes_tick s).ppu.overscan (snes_tick s).autoJoyRead) :=
    (joyTimer_timing (snes_advance env (snes_tick s))).trans
      (congrArg joyTimerT (advance_timing env (snes_tick s)))
  have hA := advanceT_pos (timingOf (snes_tick s)) (lineLength (snes_tick s))
    ((snes_tick s).ppu.frameInterlace = false ∨ (snes_tick s).ppu.evenFrame = false)
    (snes_tick s).ppu.overscan (snes_tick s).autoJoyRead (by rw [tick_timing]; exact ht)
  generalize advanceT (timingOf (snes_tick s)) (lineLength (snes_tick s))
    ((snes_tick s).ppu.frameInterlace = false ∨ (snes_tick s).ppu.evenFrame = false)
    (snes_tick s).ppu.overscan (snes_tick s).autoJoyRead = B at e hA
  rw [tick_timing] at hA
  obtain ⟨-, -, -, -, -, j6, j7, -⟩ := joyTimerT_fields B
  have f6 : (snes_runCycle env s).hPos = B.hPos := (congrArg Timing.hPos e).trans j6
  have f7 : (snes_runCycle env s).vPos = B.vPos := (congrArg Timing.vPos e).trans j7
  rw [f6, f7]
  exact hA

theorem iterate_succ_last (f : Snes → Snes) (k : Nat) :
    ∀ s, iterate f (k + 1) s = f (iterate f k s) := by
  induction k with
  | zero => intro s; rfl
  | succ k ih => intro s; exact ih (f s)

theorem iterate_reach (env : Env) (k : Nat) :
    ∀ s, BusReach env s → BusReach env (iterate (snes_runCycle env) k s) := by
  induction k with
  | zero => intro s h; exact h
  | succ k ih => intro s h; exact ih _ (BusReach.cycle h)

theorem iterate_pos (env : Env) (k : Nat) :
    ∀ s, BusReach env s → s.hPos + 2 * k < 1360 →
      (iterate (snes_runCycle env) k s).hPos = s.hPos + 2 * k ∧
      (iterate (snes_runCycle env) k s).vPos = s.vPos := by
  induction k with
  | zero => intro s _ _; exact ⟨rfl, rfl⟩
  | succ k ih =>
    intro s h hk
    rcases runCycle_pos env s (busReach_inv h) with ⟨p1, p2⟩ | ⟨-, p2, -⟩
    · obtain ⟨q1, q2⟩ := ih (snes_runCycle env s) (BusReach.cycle h) (by rw [p1]; omega)
      show (iterate (snes_runCycle env) k (snes_runCycle env s)).hPos = _ ∧
        (iterate (snes_runCycle env) k (snes_runCycle env s)).vPos = _
      rw [q1, q2, p1, p2]
      exact ⟨by omega, rfl⟩
    · omega

theorem iterate_cycles_exact (env : Env) (k : Nat) (hk : 0 < k) (s : Snes) :
    (iterate (snes_runCycle env) k s).cycles = (s.cycles + 2 * k) % 0x10000000000000000 := by
  obtain ⟨j, rfl⟩ : ∃ j, k = j + 1 := ⟨k - 1, by omega⟩
  rw [iterate_succ_last, runCycle_cycles]
  have := iterate_cycles env j s
  omega

/-- The number of cycles `snes_runCycles` really runs: 40 more when the run crosses
`hPos = 536`. -/
def refreshed (s : Snes) (n : Int) : Int :=
  if (s.hPos : Int) + n ≥ 536 ∧ s.hPos < 536 then n + 40 else n

theorem runCycles_eq (env : Env) (s : Snes) (n : Int) :
    snes_runCycles env s n = iterate (snes_runCycle env) ((refreshed s n + 1) / 2).toNat s := rfl

theorem advanceT_raster (t : Timing) (next : Nat) (short : Prop) [Decidable short]
    (overscan autoJoyRead : Bool) (ht : TimingInv t) :
    ((advanceT t next short overscan autoJoyRead).hPos = t.hPos + 2 ∧
      (advanceT t next short overscan autoJoyRead).vPos = t.vPos) ∨
    ((advanceT t next short overscan autoJoyRead).hPos = 0 ∧
      (t.hPos + 2 = 1360 ∨ t.hPos + 2 = 1364 ∨ t.hPos + 2 = 1368) ∧
      ((advanceT t next short overscan autoJoyRead).vPos = t.vPos + 1 ∨
        (advanceT t next short overscan autoJoyRead).vPos = 0)) := by
  obtain ⟨h1, h2, h3, h4, h5, h6, h7, h8, h9, h10⟩ := ht
  have hm : (t.hPos + 2) % 65536 = t.hPos + 2 := by omega
  have hv : (t.vPos + 1) % 65536 = t.vPos + 1 := by
    cases hp : t.palTiming
    · have := h4 hp; omega
    · have := h5 hp; omega
  unfold advanceT
  rw [hm]
  by_cases he : t.hPos + 2 = t.nextHoriEvent
  · rw [if_pos he]
    unfold horiEventT
    dsimp only
    by_cases h16 : t.hPos + 2 = 16
    · rw [if_pos h16]; exact Or.inl ⟨rfl, rfl⟩
    rw [if_neg h16]
    by_cases h512 : t.hPos + 2 = 512
    · rw [if_pos h512]; exact Or.inl ⟨rfl, rfl⟩
    rw [if_neg h512]
    by_cases h1104 : t.hPos + 2 = 1104
    · rw [if_pos h1104]; exact Or.inl ⟨rfl, rfl⟩
    rw [if_neg h1104]
    have hend : t.hPos + 2 = 1360 ∨ t.hPos + 2 = 1364 ∨ t.hPos + 2 = 1368 := by omega
    rw [if_pos hend]
    right
    refine ⟨?_, hend, ?_⟩
    · rw [(lineStartT_pos _ _ _).1]
      rfl
    · rw [(lineStartT_pos _ _ _).2]
      unfold nextLineT
      dsimp only
      rw [hv]
      split_ifs
      · exact Or.inr rfl
      · exact Or.inl rfl
  · rw [if_neg he]
    exact Or.inl ⟨rfl, rfl⟩

/-- One `snes_runCycle` step moves the raster by two master cycles: `hPos` advances by 2 on
the same line or, at the end of a scanline (`hPos + 2` is 1360, 1364 or 1368), `hPos` becomes
0 and `vPos` advances by one line or wraps to line 0. -/
theorem runCycle_raster (env : Env) (s : Snes) (ht : TimingInv (timingOf s)) :
    ((snes_runCycle env s).hPos = s.hPos + 2 ∧ (snes_runCycle env s).vPos = s.vPos) ∨
    ((snes_runCycle env s).hPos = 0 ∧
      (s.hPos + 2 = 1360 ∨ s.hPos + 2 = 1364 ∨ s.hPos + 2 = 1368) ∧
      ((snes_runCycle env s).vPos = s.vPos + 1 ∨ (snes_runCycle env s).vPos = 0)) := by
  have e : timingOf (snes_runCycle env s) =
      joyTimerT (advanceT (timingOf (snes_tick s)) (lineLength (snes_tick s))
        ((snes_tick s).ppu.frameInterlace = false ∨ (snes_tick s).ppu.evenFrame = false)
        (snes_tick s).ppu.overscan (snes_tick s).autoJoyRead) :=
    (joyTimer_timing (snes_advance env (snes_tick s))).trans
      (congrArg joyTimerT (advance_timing env (snes_tick s)))
  have hA := advanceT_raster (timingOf (snes_tick s)) (lineLength (snes_tick s))
    ((snes_tick s).ppu.frameInterlace = false ∨ (snes_tick s).ppu.evenFrame = false)
    (snes_tick s).ppu.overscan (snes_tick s).autoJoyRead (by rw [tick_timing]; exact ht)
  generalize advanceT (timingOf (snes_tick s)) (lineLength (snes_tick s))
    ((snes_tick s).ppu.frameInterlace = false ∨ (snes_tick s).ppu.evenFrame = false)
    (snes_tick s).ppu.overscan (snes_tick s).autoJoyRead = B at e hA
  rw [tick_timing] at hA
  obtain ⟨-, -, -, -, -, j6, j7, -⟩ := joyTimerT_fields B
  have f6 : (snes_runCycle env s).hPos = B.hPos := (congrArg Timing.hPos e).trans j6
  have f7 : (snes_runCycle env s).vPos = B.vPos := (congrArg Timing.vPos e).trans j7
  rw [f6, f7]
  exact hA

/-- C17 (counterexample): from the reset state (`hPos = 0`, `cycles = 0`),
`snes_runCycles(snes, 536)` leaves `cycles = 576` and `hPos = 576`: the run crosses
`hPos = 536` and 40 cycles are added. -/
theorem C17_refresh_adds_40_cycles :
    BusReach zeroEnv demoBus ∧ demoBus.cycles = 0 ∧ demoBus.hPos = 0 ∧
    (snes_runCycles zeroEnv demoBus 536).cycles = 576 ∧
    (snes_runCycles zeroEnv demoBus 536).hPos = 576 := by
  have e : snes_runCycles zeroEnv demoBus 536 = iterate (snes_runCycle zeroEnv) 288 demoBus := by
    rw [runCycles_eq]
    have : ((refreshed demoBus 536 + 1) / 2).toNat = 288 := by decide
    rw [this]
  refine ⟨BusReach.reset zeroSnes true, rfl, rfl, ?_, ?_⟩
  · rw [e, iterate_cycles_exact _ _ (by decide)]
    rfl
  · rw [e, (iterate_pos zeroEnv 288 demoBus (BusReach.reset zeroSnes true) (by decide)).1]
    rfl

/-- C17 (amended): for every reachable bus state and every even `n > 0` (with `n + 40` in
the range of `int`), let `m = n + 40` if `hPos < 536 <= hPos + n` and `m = n` otherwise.
Then `snes_runCycles(snes, n)` is `m / 2` steps of `snes_runCycle`; the master cycle counter
advances by exactly `m` (modulo 2^64); and the raster advances by the same `m` cycles: each
of the `m / 2` steps moves `hPos` forward by 2 on the same line or, at the end of a scanline
(`hPos + 2` is 1360, 1364 or 1368), to `hPos = 0` of the next line (`vPos + 1`, or 0 after
the last line).  In particular `hPos` grows by `m` with `vPos` unchanged when
`hPos + m < 1360`. -/
theorem C17_runCycles_advance (env : Env) (s : Snes) (h : BusReach env s) (n m : Int)
    (hn : 0 < n) (he : n % 2 = 0) (hmax : n + 40 ≤ 0x7fffffff)
    (hm : m = if s.hPos < 536 ∧ 536 ≤ (s.hPos : Int) + n then n + 40 else n) :
    snes_runCycles env s n = iterate (snes_runCycle env) (m / 2).toNat s ∧
    (snes_runCycles env s n).cycles = (s.cycles + m.toNat) % 0x10000000000000000 ∧
    (∀ j, j < (m / 2).toNat →
      ((iterate (snes_runCycle env) (j + 1) s).hPos =
          (iterate (snes_runCycle env) j s).hPos + 2 ∧
        (iterate (snes_runCycle env) (j + 1) s).vPos =
          (iterate (snes_runCycle env) j s).vPos) ∨
      ((iterate (snes_runCycle env) (j + 1) s).hPos = 0 ∧
        ((iterate (snes_runCycle env) j s).hPos + 2 = 1360 ∨
          (iterate (snes_runCycle env) j s).hPos + 2 = 1364 ∨
          (iterate (snes_runCycle env) j s).hPos + 2 = 1368) ∧
        ((iterate (snes_runCycle env) (j + 1) s).vPos =
            (iterate (snes_runCycle env) j s).vPos + 1 ∨
          (iterate (snes_runCycle env) (j + 1) s).vPos = 0))) ∧
    ((s.hPos : Int) + m < 1360 →
      (snes_runCycles env s n).hPos = s.hPos + m.toNat ∧
      (snes_runCycles env s n).vPos = s.vPos) := by
  have hmr : m = refreshed s n := by
    rw [hm]
    unfold refreshed
    by_cases c : (s.hPos : Int) + n ≥ 536 ∧ s.hPos < 536
    · rw [if_pos c, if_pos ⟨c.2, c.1⟩]
    · rw [if_neg c, if_neg (fun hc => c ⟨hc.2, hc.1⟩)]
  have hr : m = n ∨ m = n + 40 := by
    rw [hm]; split_ifs <;> simp
  have hk : ((refreshed s n + 1) / 2).toNat = (m / 2).toNat := by
    rw [← hmr]
    rcases hr with e | e <;> rw [e] <;> congr 1 <;> omega
  have h2 : 2 * (m / 2).toNat = m.toNat := by
    rcases hr with e | e <;> rw [e] <;> omega
  have hpos : 0 < (m / 2).toNat := by
    rcases hr with e | e <;> rw [e] <;> omega
  have e0 : snes_runCycles env s n = iterate (snes_runCycle env) (m / 2).toNat s := by
    rw [runCycles_eq, hk]
  refine ⟨e0, ?_, ?_, ?_⟩
  · rw [e0, iterate_cycles_exact env _ hpos, h2]
  · intro j _
    rw [iterate_succ_last]
    exact runCycle_raster env _ (busReach_inv (iterate_reach env j s h))
  · intro hlt
    have hlt2 : s.hPos + 2 * (m / 2).toNat < 1360 := by
      rw [h2]
      rcases hr with e | e <;> rw [e] at hlt ⊢ <;> omega
    rw [e0, (iterate_pos env _ s h hlt2).1, (iterate_pos env _ s h hlt2).2, h2]
    exact ⟨rfl, rfl⟩

theorem C17_runCycles_advance_witness :
    BusReach zeroEnv demoBus ∧ (0 : Int) < 100 ∧ (100 : Int) % 2 = 0 ∧
    (100 : Int) + 40 ≤ 0x7fffffff ∧
    (100 : Int) = (if demoBus.hPos < 536 ∧ 536 ≤ (demoBus.hPos : Int) + 100 then 100 + 40
      else 100) ∧
    snes_runCycles zeroEnv demoBus 100 =
      iterate (snes_runCycle zeroEnv) ((100 : Int) / 2).toNat demoBus ∧
    (snes_runCycles zeroEnv demoBus 100).cycles =
      (demoBus.cycles + (100 : Int).toNat) % 0x10000000000000000 :=
  ⟨BusReach.reset zeroSnes true, by decide, by decide, by decide, by decide,
    (C17_runCycles_advance zeroEnv demoBus (BusReach.reset zeroSnes true) 100 100 (by decide)
      (by decide) (by decide) (by decide)).1,
    (C17_runCycles_advance zeroEnv demoBus (BusReach.reset zeroSnes true) 100 100 (by decide)
      (by decide) (by decide) (by decide)).2.1⟩

/-! ## The H/V-timer IRQ -/

theorem hvCountdown_condition (s : Snes) :
    snes_irqCondition (snes_hvCountdown s) = snes_irqCondition s := by
  unfold snes_hvCountdown
  split_ifs <;> rfl

/-- The check that sees the condition rise arms the countdown. -/
theorem checkIrq_rise (s : Snes) (h0 : s.hvTimer = 0) (hc : s.irqCondition = false)
    (hr : snes_irqCondition s = true) :
    (snes_checkIrq s).hvTimer = 4 ∧ (snes_checkIrq s).inIrq = s.inIrq ∧
    (snes_checkIrq s).irqCondition = true ∧
    (snes_checkIrq s).cpu.irqWanted = s.cpu.irqWanted := by
  have e : snes_hvCountdown s = s := by
    unfold snes_hvCountdown
    rw [if_neg (by rw [h0]; decide)]
  unfold snes_checkIrq
  dsimp only
  rw [e, hc, hr]
  exact ⟨rfl, rfl, rfl, rfl⟩

/-- The first check after the rise counts 4 down to 2 and raises nothing. -/
theorem checkIrq_first (s : Snes) (h0 : s.hvTimer = 4) (hc : s.irqCondition = true) :
    (snes_checkIrq s).hvTimer = 2 ∧ (snes_checkIrq s).inIrq = s.inIrq ∧
    (snes_checkIrq s).cpu.irqWanted = s.cpu.irqWanted := by
  have e : snes_hvCountdown s = { s with hvTimer := 2 } := by
    unfold snes_hvCountdown
    rw [h0]
    rfl
  unfold snes_checkIrq
  dsimp only
  rw [e]
  dsimp only
  rw [hc]
  exact ⟨rfl, rfl, rfl⟩

/-- The second check after the rise counts 2 down to 0 and raises the IRQ. -/
theorem checkIrq_second (s : Snes) (h0 : s.hvTimer = 2) :
    (snes_checkIrq s).inIrq = true ∧ (snes_checkIrq s).cpu.irqWanted = true := by
  have e : snes_hvCountdown s =
      { s with hvTimer := 0, inIrq := true, cpu := cpu_setIrq s.cpu true } := by
    unfold snes_hvCountdown
    rw [h0]
    rfl
  unfold snes_checkIrq
  dsimp only
  rw [e]
  exact ⟨rfl, rfl⟩

theorem step_check (env : Env) (s : Snes) (ht : TimingInv (timingOf s)) (hc : s.hPos % 4 = 0) :
    irqOf (snes_runCycle env s) =
      irqOf (snes_checkIrq { s with cycles := (s.cycles + 2) % 0x10000000000000000 }) ∧
    (snes_runCycle env s).hPos % 4 = 2 ∧ TimingInv (timingOf (snes_runCycle env s)) := by
  refine ⟨?_, ?_, runCycle_timing_inv env s ht⟩
  · rw [runCycle_irq]
    unfold snes_tick
    dsimp only
    rw [if_pos ((and_two_eq_zero s.hPos).mpr (by omega))]
  · rcases runCycle_pos env s ht with ⟨p1, -⟩ | ⟨-, -, p3⟩
    · rw [p1]; omega
    · omega

theorem step_nocheck (env : Env) (s : Snes) (ht : TimingInv (timingOf s))
    (hc : s.hPos % 4 = 2) :
    irqOf (snes_runCycle env s) =
      { irqOf s with cycles := (s.cycles + 2) % 0x10000000000000000 } ∧
    (snes_runCycle env s).hPos % 4 = 0 ∧ TimingInv (timingOf (snes_runCycle env s)) := by
  refine ⟨?_, ?_, runCycle_timing_inv env s ht⟩
  · rw [runCycle_irq]
    unfold snes_tick
    dsimp only
    rw [if_neg (fun hh => by have := (and_two_eq_zero s.hPos).mp hh; omega)]
    rfl
  · rcases runCycle_pos env s ht with ⟨p1, -⟩ | ⟨p1, -, -⟩
    · rw [p1]; omega
    · rw [p1]

/-- C29 (counterexample): with the H-timer IRQ enabled at `hTimer = 0` after a reset, the
step at `hPos = 0` sees the condition rise (`irqCondition` becomes true, `cycles = 2`); two
steps later, 4 master cycles after the rise (`cycles = 6`), `inIrq` and `irqWanted` are
still false. -/
theorem C29_no_irq_after_4_cycles :
    (snes_runCycle zeroEnv
      (snes_write (snes_write (snes_write demoBus 0x4207 0) 0x4208 0) 0x4200 0x10)).irqCondition
      = true ∧
    (snes_runCycle zeroEnv
      (snes_write (snes_write (snes_write demoBus 0x4207 0) 0x4208 0) 0x4200 0x10)).cycles = 2 ∧
    (iterate (snes_runCycle zeroEnv) 3
      (snes_write (snes_write (snes_write demoBus 0x4207 0) 0x4208 0) 0x4200 0x10)).cycles = 6 ∧
    (iterate (snes_runCycle zeroEnv) 3
      (snes_write (snes_write (snes_write demoBus 0x4207 0) 0x4208 0) 0x4200 0x10)).inIrq
      = false ∧
    (iterate (snes_runCycle zeroEnv) 3
      (snes_write (snes_write (snes_write demoBus 0x4207 0) 0x4208 0) 0x4200 0x10)).cpu.irqWanted
      = false ∧
    (iterate (snes_runCycle zeroEnv) 5
      (snes_write (snes_write (snes_write demoBus 0x4207 0) 0x4208 0) 0x4200 0x10)).cycles = 10 ∧
    (iterate (snes_runCycle zeroEnv) 5
      (snes_write (snes_write (snes_write demoBus 0x4207 0) 0x4208 0) 0x4200 0x10)).inIrq
      = true := by
  decide

theorem irqOf_fields {a : Snes} {v : IrqView} (e : irqOf a = v) :
    a.hvTimer = v.hvTimer ∧ a.inIrq = v.inIrq ∧ a.irqCondition = v.irqCondition ∧
    a.cpu.irqWanted = v.irqWanted ∧ a.cycles = v.cycles := by
  subst e
  exact ⟨rfl, rfl, rfl, rfl, rfl⟩

theorem irq_step_rise (env : Env) (s : Snes) (ht : TimingInv (timingOf s))
    (hm : s.hPos % 4 = 0) (h0 : s.hvTimer = 0) (hq : s.irqCondition = false)
    (hr : snes_irqCondition s = true) :
    (snes_runCycle env s).hvTimer = 4 ∧ (snes_runCycle env s).inIrq = s.inIrq ∧
    (snes_runCycle env s).irqCondition = true ∧
    (snes_runCycle env s).cpu.irqWanted = s.cpu.irqWanted ∧
    (snes_runCycle env s).hPos % 4 = 2 ∧ TimingInv (timingOf (snes_runCycle env s)) := by
  obtain ⟨e1, p1, t1⟩ := step_check env s ht hm
  obtain ⟨a1, a2, a3, a4⟩ :=
    checkIrq_rise { s with cycles := (s.cycles + 2) % 0x10000000000000000 } h0 hq hr
  obtain ⟨b1, b2, b3, b4, -⟩ := irqOf_fields e1
  exact ⟨b1.trans a1, b2.trans a2, b3.trans a3, b4.trans a4, p1, t1⟩

theorem irq_step_idle (env : Env) (s : Snes) (ht : TimingInv (timingOf s))
    (hm : s.hPos % 4 = 2) :
    (snes_runCycle env s).hvTimer = s.hvTimer ∧ (snes_runCycle env s).inIrq = s.inIrq ∧
    (snes_runCycle env s).irqCondition = s.irqCondition ∧
    (snes_runCycle env s).cpu.irqWanted = s.cpu.irqWanted ∧
    (snes_runCycle env s).hPos % 4 = 0 ∧ TimingInv (timingOf (snes_runCycle env s)) := by
  obtain ⟨e2, p2, t2⟩ := step_nocheck env s ht hm
  obtain ⟨c1, c2, c3, c4, -⟩ := irqOf_fields e2
  exact ⟨c1, c2, c3, c4, p2, t2⟩

theorem irq_step_first (env : Env) (s : Snes) (ht : TimingInv (timingOf s))
    (hm : s.hPos % 4 = 0) (h0 : s.hvTimer = 4) (hq : s.irqCondition = true) :
    (snes_runCycle env s).hvTimer = 2 ∧ (snes_runCycle env s).inIrq = s.inIrq ∧
    (snes_runCycle env s).cpu.irqWanted = s.cpu.irqWanted ∧
    (snes_runCycle env s).hPos % 4 = 2 ∧ TimingInv (timingOf (snes_runCycle env s)) := by
  obtain ⟨e1, p1, t1⟩ := step_check env s ht hm
  obtain ⟨a1, a2, a3⟩ :=
    checkIrq_first { s with cycles := (s.cycles + 2) % 0x10000000000000000 } h0 hq
  obtain ⟨b1, b2, -, b4, -⟩ := irqOf_fields e1
  exact ⟨b1.trans a1, b2.trans a2, b4.trans a3, p1, t1⟩

theorem irq_step_second (env : Env) (s : Snes) (ht : TimingInv (timingOf s))
    (hm : s.hPos % 4 = 0) (h0 : s.hvTimer = 2) :
    (snes_runCycle env s).inIrq = true ∧ (snes_runCycle env s).cpu.irqWanted = true := by
  obtain ⟨e1, -, -⟩ := step_check env s ht hm
  obtain ⟨a1, a2⟩ :=
    checkIrq_second { s with cycles := (s.cycles + 2) % 0x10000000000000000 } h0
  obtain ⟨-, b2, -, b4, -⟩ := irqOf_fields e1
  exact ⟨b2.trans a1, b4.trans a2⟩

theorem irq_five_steps (env : Env) (s s1 s2 s3 s4 s5 : Snes)
    (e1 : snes_runCycle env s = s1) (e2 : snes_runCycle env s1 = s2)
    (e3 : snes_runCycle env s2 = s3) (e4 : snes_runCycle env s3 = s4)
    (e5 : snes_runCycle env s4 = s5)
    (ht : TimingInv (timingOf s)) (hm : s.hPos % 4 = 0) (h0 : s.hvTimer = 0)
    (hq : s.irqCondition = false) (hr : snes_irqCondition s = true) (hi : s.inIrq = false)
    (hw : s.cpu.irqWanted = false) :
    s1.irqCondition = true ∧ s1.hvTimer = 4 ∧
    (s1.inIrq = false ∧ s1.cpu.irqWanted = false) ∧
    (s2.inIrq = false ∧ s2.cpu.irqWanted = false) ∧
    (s3.inIrq = false ∧ s3.cpu.irqWanted = false) ∧
    (s4.inIrq = false ∧ s4.cpu.irqWanted = false) ∧
    s5.inIrq = true ∧ s5.cpu.irqWanted = true := by
  obtain ⟨a1, a2, a3, a4, a5, a6⟩ := irq_step_rise env s ht hm h0 hq hr
  rw [e1] at a1 a2 a3 a4 a5 a6
  obtain ⟨b1, b2, b3, b4, b5, b6⟩ := irq_step_idle env s1 a6 a5
  rw [e2] at b1 b2 b3 b4 b5 b6
  obtain ⟨c1, c2, c3, c4, c5⟩ := irq_step_first env s2 b6 b5 (b1.trans a1) (b3.trans a3)
  rw [e3] at c1 c2 c3 c4 c5
  obtain ⟨d1, d2, d3, d4, d5, d6⟩ := irq_step_idle env s3 c5 c4
  rw [e4] at d1 d2 d3 d4 d5 d6
  obtain ⟨f1, f2⟩ := irq_step_second env s4 d6 d5 (d1.trans c1)
  rw [e5] at f1 f2
  have i1 : s1.inIrq = false := a2.trans hi
  have w1 : s1.cpu.irqWanted = false := a4.trans hw
  have i2 : s2.inIrq = false := b2.trans i1
  have w2 : s2.cpu.irqWanted = false := b4.trans w1
  have i3 : s3.inIrq = false := c2.trans i2
  have w3 : s3.cpu.irqWanted = false := c3.trans w2
  exact ⟨a3, a1, ⟨i1, w1⟩, ⟨i2, w2⟩, ⟨i3, w3⟩, ⟨d2.trans i3, d4.trans w3⟩, f1, f2⟩

/-- C29 (amended): let a reachable bus state be at a sampling position (`(hPos & 2) == 0`)
with no countdown pending, `irqCondition`, `inIrq` and `irqWanted` clear, and the H/V-timer
condition true.  The next `snes_runCycle` step records the rise and arms `hvTimer = 4`;
`inIrq` and `irqWanted` stay false during that step and the three after it, and become true
in the fourth step after it, 8 master cycles after the rise (the countdown is stepped by 2
only at the checks, which are 4 cycles apart). -/
theorem C29_irq_after_8_cycles (env : Env) (s : Snes) (h : BusReach env s)
    (hc : s.hPos &&& 2 = 0) (h0 : s.hvTimer = 0) (hq : s.irqCondition = false)
    (hr : snes_irqCondition s = true) (hi : s.inIrq = false) (hw : s.cpu.irqWanted = false) :
    (snes_runCycle env s).irqCondition = true ∧ (snes_runCycle env s).hvTimer = 4 ∧
    ((iterate (snes_runCycle env) 1 s).inIrq = false ∧
      (iterate (snes_runCycle env) 1 s).cpu.irqWanted = false) ∧
    ((iterate (snes_runCycle env) 2 s).inIrq = false ∧
      (iterate (snes_runCycle env) 2 s).cpu.irqWanted = false) ∧
    ((iterate (snes_runCycle env) 3 s).inIrq = false ∧
      (iterate (snes_runCycle env) 3 s).cpu.irqWanted = false) ∧
    ((iterate (snes_runCycle env) 4 s).inIrq = false ∧
      (iterate (snes_runCycle env) 4 s).cpu.irqWanted = false) ∧
    (iterate (snes_runCycle env) 5 s).inIrq = true ∧
    (iterate (snes_runCycle env) 5 s).cpu.irqWanted = true ∧
    (iterate (snes_runCycle env) 5 s).cycles =
      ((snes_runCycle env s).cycles + 8) % 0x10000000000000000 := by
  have ht := busReach_inv h
  have hev : s.hPos % 2 = 0 := ht.1
  have hm : s.hPos % 4 = 0 := by
    have := (and_two_eq_zero s.hPos).mp hc
    omega
  have i1 : iterate (snes_runCycle env) 1 s = snes_runCycle env s := rfl
  obtain ⟨r1, r2, r3, r4, r5, r6, r7, r8⟩ :=
    irq_five_steps env s _ _ _ _ _ (iterate_succ_last (snes_runCycle env) 0 s).symm
      (iterate_succ_last (snes_runCycle env) 1 s).symm
      (iterate_succ_last (snes_runCycle env) 2 s).symm
      (iterate_succ_last (snes_runCycle env) 3 s).symm
      (iterate_succ_last (snes_runCycle env) 4 s).symm ht hm h0 hq hr hi hw
  have hcy : (iterate (snes_runCycle env) 5 s).cycles =
      ((snes_runCycle env s).cycles + 8) % 0x10000000000000000 :=
    iterate_cycles_exact env 4 (by decide) (snes_runCycle env s)
  rw [i1] at r1 r2
  exact ⟨r1, r2, r3, r4, r5, r6, r7, r8, hcy⟩

theorem C29_irq_after_8_cycles_witness :
    BusReach zeroEnv
      (snes_write (snes_write (snes_write demoBus 0x4207 0) 0x4208 0) 0x4200 0x10) ∧
    (iterate (snes_runCycle zeroEnv) 4
      (snes_write (snes_write (snes_write demoBus 0x4207 0) 0x4208 0) 0x4200 0x10)).inIrq
      = false ∧
    (iterate (snes_runCycle zeroEnv) 5
      (snes_write (snes_write (snes_write demoBus 0x4207 0) 0x4208 0) 0x4200 0x10)).inIrq
      = true ∧
    (iterate (snes_runCycle zeroEnv) 5
      (snes_write (snes_write (snes_write demoBus 0x4207 0) 0x4208 0) 0x4200 0x10)).cycles =
      ((snes_runCycle zeroEnv
        (snes_write (snes_write (snes_write demoBus 0x4207 0) 0x4208 0) 0x4200 0x10)).cycles + 8)
        % 0x10000000000000000 :=
  ⟨BusReach.write _ _ (by decide) (BusReach.write _ _ (by decide)
      (BusReach.write _ _ (by decide) (BusReach.reset zeroSnes true))),
    (C29_irq_after_8_cycles zeroEnv _
      (BusReach.write _ _ (by decide) (BusReach.write _ _ (by decide)
        (BusReach.write _ _ (by decide) (BusReach.reset zeroSnes true))))
      (by decide) (by decide) (by decide) (by decide) (by decide) (by decide)).2.2.2.2.2.1.1,
    (C29_irq_after_8_cycles zeroEnv _
      (BusReach.write _ _ (by decide) (BusReach.write _ _ (by decide)
        (BusReach.write _ _ (by decide) (BusReach.reset zeroSnes true))))
      (by decide) (by decide) (by decide) (by decide) (by decide) (by decide)).2.2.2.2.2.2.1,
    (C29_irq_after_8_cycles zeroEnv _
      (BusReach.write _ _ (by decide) (BusReach.write _ _ (by decide)
        (BusReach.write _ _ (by decide) (BusReach.reset zeroSnes true))))
      (by decide) (by decide) (by decide) (by decide) (by decide) (by decide)).2.2.2.2.2.2.2.2⟩

/-! ## PPU registers -/

/-- C35 (counterexample): with `ppuLatch` clear, a read of 0x3F leaves the counters latched and
the toggles set, and the next read of 0x3C then returns 0x43 instead of the low byte 0x23 of
`hCount = 0x123`. -/
theorem C35_toggle_kept_without_ppuLatch :
    (ppu_read demoLatchedPpu demoUnlatchedBus 0x3f).2.countersLatched = true ∧
    (ppu_read demoLatchedPpu demoUnlatchedBus 0x3f).2.hCountSecond = true ∧
    (ppu_read (ppu_read demoLatchedPpu demoUnlatchedBus 0x3f).2 demoUnlatchedBus 0x3c).1 = 0x43 ∧
    demoLatchedPpu.hCount &&& 0xff = 0x23 := by
  decide

/-- C35 (amended): for every PPU state and every bus state with `ppuLatch` set, a read of the
status register 0x3F clears `countersLatched` and both toggles, so the next read of 0x3C
returns the low byte of `hCount` and the next read of 0x3D the low byte of `vCount`; with
`ppuLatch` clear the three flags are left as they were. -/
theorem C35_status_read_resets_toggles (ppu : Ppu) (bus bus2 : PpuBus) :
    (bus.ppuLatch = true →
      (ppu_read ppu bus 0x3f).2.countersLatched = false ∧
      (ppu_read ppu bus 0x3f).2.hCountSecond = false ∧
      (ppu_read ppu bus 0x3f).2.vCountSecond = false ∧
      (ppu_read (ppu_read ppu bus 0x3f).2 bus2 0x3c).1 = ppu.hCount &&& 0xff ∧
      (ppu_read (ppu_read ppu bus 0x3f).2 bus2 0x3d).1 = ppu.vCount &&& 0xff) ∧
    (bus.ppuLatch = false →
      (ppu_read ppu bus 0x3f).2.countersLatched = ppu.countersLatched ∧
      (ppu_read ppu bus 0x3f).2.hCountSecond = ppu.hCountSecond ∧
      (ppu_read ppu bus 0x3f).2.vCountSecond = ppu.vCountSecond) := by
  constructor
  · intro h
    simp [ppu_read, h]
  · intro h
    simp [ppu_read, h]

/-- Witness for C35: the latched PPU read over a bus with `ppuLatch` set. -/
theorem C35_status_read_resets_toggles_witness :
    (demoLatchBus.ppuLatch = true →
      (ppu_read demoLatchedPpu demoLatchBus 0x3f).2.countersLatched = false ∧
      (ppu_read demoLatchedPpu demoLatchBus 0x3f).2.hCountSecond = false ∧
      (ppu_read demoLatchedPpu demoLatchBus 0x3f).2.vCountSecond = false ∧
      (ppu_read (ppu_read demoLatchedPpu demoLatchBus 0x3f).2 demoLatchBus 0x3c).1
        = demoLatchedPpu.hCount &&& 0xff ∧
      (ppu_read (ppu_read demoLatchedPpu demoLatchBus 0x3f).2 demoLatchBus 0x3d).1
        = demoLatchedPpu.vCount &&& 0xff) ∧
    (demoLatchBus.ppuLatch = false →
      (ppu_read demoLatchedPpu demoLatchBus 0x3f).2.countersLatched = demoLatchedPpu.countersLatched ∧
      (ppu_read demoLatchedPpu demoLatchBus 0x3f).2.hCountSecond = demoLatchedPpu.hCountSecond ∧
      (ppu_read demoLatchedPpu demoLatchBus 0x3f).2.vCountSecond = demoLatchedPpu.vCountSecond) :=
  C35_status_read_resets_toggles demoLatchedPpu demoLatchBus demoLatchBus

/-- C27: a write of the byte `val` to PPU register 0x18 or 0x19.  While `forcedBlank` is clear
and the bus is outside vblank, VRAM is left unchanged; otherwise exactly the word at the
remapped address `& 0x7FFF` changes, its low byte (0x18) or high byte (0x19) being replaced by
`val`.  In both cases `vramPointer` advances by `vramIncrement` (mod 2^16) when the
increment-on-high flag selects the register written (clear for 0x18, set for 0x19) and stays
put otherwise. -/
theorem C27_vram_write_gating (ppu : Ppu) (bus : PpuBus) (val : Nat) (hval : val < 256) :
    ((ppu.forcedBlank = false ∧ bus.inVblank = false) →
      (ppu_write ppu bus 0x18 val).vram = ppu.vram ∧
      (ppu_write ppu bus 0x19 val).vram = ppu.vram) ∧
    ((ppu.forcedBlank = true ∨ bus.inVblank = true) →
      (ppu_write ppu bus 0x18 val).vram =
        Function.update ppu.vram (ppu_getVramRemap ppu &&& 0x7fff)
          ((ppu.vram (ppu_getVramRemap ppu &&& 0x7fff) &&& 0xff00) ||| val) ∧
      (ppu_write ppu bus 0x19 val).vram =
        Function.update ppu.vram (ppu_getVramRemap ppu &&& 0x7fff)
          ((ppu.vram (ppu_getVramRemap ppu &&& 0x7fff) &&& 0x00ff) ||| (val <<< 8))) ∧
    (ppu_write ppu bus 0x18 val).vramPointer =
      (if ppu.vramIncrementOnHigh = false then (ppu.vramPointer + ppu.vramIncrement) % 0x10000
       else ppu.vramPointer) ∧
    (ppu_write ppu bus 0x19 val).vramPointer =
      (if ppu.vramIncrementOnHigh = true then (ppu.vramPointer + ppu.vramIncrement) % 0x10000
       else ppu.vramPointer) := by
  refine ⟨?_, ?_, ?_, ?_⟩
  · rintro ⟨h1, h2⟩
    constructor
    · simp only [ppu_write]
      simp [h1, h2, apply_ite Ppu.vram]
    · simp only [ppu_write]
      simp [h1, h2, apply_ite Ppu.vram]
  · intro h
    have h3 : (ppu.forcedBlank || bus.inVblank) = true := by
      rcases h with h | h <;> simp [h]
    constructor
    · simp only [ppu_write]
      simp [h3, apply_ite Ppu.vram]
    · simp only [ppu_write]
      simp [h3, apply_ite Ppu.vram]
  · simp only [ppu_write]
    simp [apply_ite Ppu.vramPointer]
    split_ifs <;> simp_all
  · simp only [ppu_write]
    simp [apply_ite Ppu.vramPointer]
    split_ifs <;> simp_all

/-- Witness for C27: the byte 0x5A written to a PPU with forced blank off. -/
theorem C27_vram_write_gating_witness :
    ((demoActivePpu.forcedBlank = false ∧ demoLatchBus.inVblank = false) →
      (ppu_write demoActivePpu demoLatchBus 0x18 0x5a).vram = demoActivePpu.vram ∧
      (ppu_write demoActivePpu demoLatchBus 0x19 0x5a).vram = demoActivePpu.vram) ∧
    ((demoActivePpu.forcedBlank = true ∨ demoLatchBus.inVblank = true) →
      (ppu_write demoActivePpu demoLatchBus 0x18 0x5a).vram =
        Function.update demoActivePpu.vram (ppu_getVramRemap demoActivePpu &&& 0x7fff)
          ((demoActivePpu.vram (ppu_getVramRemap demoActivePpu &&& 0x7fff) &&& 0xff00) ||| 0x5a) ∧
      (ppu_write demoActivePpu demoLatchBus 0x19 0x5a).vram =
        Function.update demoActivePpu.vram (ppu_getVramRemap demoActivePpu &&& 0x7fff)
          ((demoActivePpu.vram (ppu_getVramRemap demoActivePpu &&& 0x7fff) &&& 0x00ff)
            ||| (0x5a <<< 8))) ∧
    (ppu_write demoActivePpu demoLatchBus 0x18 0x5a).vramPointer =
      (if demoActivePpu.vramIncrementOnHigh = false then
         (demoActivePpu.vramPointer + demoActivePpu.vramIncrement) % 0x10000
       else demoActivePpu.vramPointer) ∧
    (ppu_write demoActivePpu demoLatchBus 0x19 0x5a).vramPointer =
      (if demoActivePpu.vramIncrementOnHigh = true then
         (demoActivePpu.vramPointer + demoActivePpu.vramIncrement) % 0x10000
       else demoActivePpu.vramPointer) :=
  C27_vram_write_gating demoActivePpu demoLatchBus 0x5a (by decide)

theorem ppu_write_mode (ppu : Ppu) (bus : PpuBus) (adr val : Nat) :
    (ppu_write ppu bus adr val).mode = if adr = 0x05 then val &&& 0x7 else ppu.mode := by
  by_cases h : adr = 0x05
  · subst h
    simp [ppu_write]
  · rw [if_neg h]
    simp only [ppu_write, ppu_writeHScroll, ppu_writeVScroll, if_neg h, apply_ite Ppu.mode,
      ite_self]

theorem ppu_read_mode (ppu : Ppu) (bus : PpuBus) (adr : Nat) :
    (ppu_read ppu bus adr).2.mode = ppu.mode := by
  simp only [ppu_read, ppu_latchHV, apply_ite Prod.snd, apply_ite Ppu.mode, ite_self]

theorem handleVblank_mode (ppu : Ppu) : (ppu_handleVblank ppu).mode = ppu.mode := by
  simp only [ppu_handleVblank, apply_ite Ppu.mode, ite_self]

theorem and_7_le (v : Nat) : v &&& 0x7 ≤ 7 := Nat.and_le_right

theorem ppuReach_mode {ppu : Ppu} (hp : PpuReach ppu) : ppu.mode ≤ 7 := by
  induction hp with
  | reset => decide
  | write bus adr val hval _ ih =>
    rw [ppu_write_mode]
    split_ifs
    · exact and_7_le val
    · exact ih
  | read bus adr _ ih => rw [ppu_read_mode]; exact ih
  | latch bus _ ih => exact ih
  | overscan _ ih => exact ih
  | vblank _ ih => rw [handleVblank_mode]; exact ih
  | frameStart _ ih => exact ih
  | line env line _ ih => exact ih

/-- C40: in every PPU state reached from `ppu_reset`, the effective mode of `ppu_getPixel` is
at most 9; for every effective mode `m < 10` and every `i < layerCountPerMode[m]`, entry
`layersPerMode[m][i]` is at most 4 and `prioritysPerMode[m][i]` at most 3 (the sentinel 5 is
never among the entries used); and in each mode the sprite layer (4) occurs exactly four
times, with priorities 3, 2, 1, 0 in this order. -/
theorem C40_priority_tables (ppu : Ppu) (hp : PpuReach ppu) :
    actMode ppu < 10 ∧
    (∀ m < 10, ∀ i < layerCountPerMode.getD m 0,
      (∃ l, tableAt layersPerMode m i = some l ∧ l ≤ 4) ∧
      (∃ p, tableAt prioritysPerMode m i = some p ∧ p ≤ 3)) ∧
    (∀ m < 10, spritePriorities m = [some 3, some 2, some 1, some 0]) := by
  refine ⟨?_, ?_, by decide⟩
  · have hm := ppuReach_mode hp
    unfold actMode
    dsimp only
    split_ifs <;> omega
  · intro m hm i hi
    interval_cases m <;> simp only [layerCountPerMode, List.getD_cons_zero, List.getD_cons_succ] at hi <;>
      interval_cases i <;> exact ⟨⟨_, rfl, by decide⟩, ⟨_, rfl, by decide⟩⟩

/-- Witness for C40: mode 1 with BG3 priority, set through register 0x05. -/
theorem C40_priority_tables_witness :
    actMode (ppu_write ppu_reset demoLatchBus 0x05 0x09) < 10 ∧
    (∀ m < 10, ∀ i < layerCountPerMode.getD m 0,
      (∃ l, tableAt layersPerMode m i = some l ∧ l ≤ 4) ∧
      (∃ p, tableAt prioritysPerMode m i = some p ∧ p ≤ 3)) ∧
    (∀ m < 10, spritePriorities m = [some 3, some 2, some 1, some 0]) :=
  C40_priority_tables _ (PpuReach.write demoLatchBus 0x05 0x09 (by decide) PpuReach.reset)

/-! ## Bit masks as arithmetic -/

theorem and_shl_mask (x m k : Nat) : x &&& (m <<< k) = ((x >>> k) &&& m) <<< k := by
  apply Nat.eq_of_testBit_eq
  intro i
  rw [Nat.testBit_and, Nat.testBit_shiftLeft, Nat.testBit_shiftLeft, Nat.testBit_and,
    Nat.testBit_shiftRight]
  by_cases h : k ≤ i
  · have e : k + (i - k) = i := by omega
    simp [h, e]
  · simp [h]

/-- Bits `lo .. lo + n - 1` of `x`, in place. -/
theorem and_field (x lo n : Nat) :
    x &&& ((2 ^ n - 1) <<< lo) = x / 2 ^ lo % 2 ^ n * 2 ^ lo := by
  rw [and_shl_mask, Nat.and_pow_two_sub_one_eq_mod, Nat.shiftRight_eq_div_pow, Nat.shiftLeft_eq]

theorem and_ff (x : Nat) : x &&& 0xff = x % 256 := by
  have := Nat.and_pow_two_sub_one_eq_mod x 8
  simpa using this

theorem and_f (x : Nat) : x &&& 0xf = x % 16 := by
  have := Nat.and_pow_two_sub_one_eq_mod x 4
  simpa using this

theorem and_fff (x : Nat) : x &&& 0xfff = x % 4096 := by
  have := Nat.and_pow_two_sub_one_eq_mod x 12
  simpa using this

theorem and_ffff (x : Nat) : x &&& 0xffff = x % 65536 := by
  have := Nat.and_pow_two_sub_one_eq_mod x 16
  simpa using this

theorem and_ff00 (x : Nat) : x &&& 0xff00 = x / 256 % 256 * 256 := by
  have := and_field x 8 8
  simpa using this

theorem and_80 (x : Nat) : x &&& 0x80 = x / 128 % 2 * 128 := by
  have := and_field x 7 1
  simpa using this

theorem and_8000 (x : Nat) : x &&& 0x8000 = x / 32768 % 2 * 32768 := by
  have := and_field x 15 1
  simpa using this

theorem and_f0 (x : Nat) : x &&& 0xf0 = x / 16 % 16 * 16 := by
  have := and_field x 4 4
  simpa using this

theorem and_f00 (x : Nat) : x &&& 0xf00 = x / 256 % 16 * 256 := by
  have := and_field x 8 4
  simpa using this

theorem and_f000 (x : Nat) : x &&& 0xf000 = x / 4096 % 16 * 4096 := by
  have := and_field x 12 4
  simpa using this

theorem or_high_low (hi lo : Nat) (h : lo < 256) : (hi * 256) ||| lo = hi * 256 + lo := by
  have := Nat.mul_add_lt_is_or (show lo < 2 ^ 8 from h) hi
  rw [Nat.mul_comm hi 256]
  exact this.symm

/-! ## VRAM address remapping -/

theorem or_parts (n hi mid lo : Nat) (hm : mid < 8) (hl : lo * 8 + mid < 2 ^ n) :
    (hi * 2 ^ n) ||| mid ||| (lo <<< 3) = hi * 2 ^ n + (lo * 8 + mid) := by
  have e1 : (lo <<< 3) ||| mid = lo * 8 + mid := by
    rw [Nat.shiftLeft_eq, Nat.mul_comm lo (2 ^ 3)]
    have := Nat.mul_add_lt_is_or (show mid < 2 ^ 3 from hm) lo
    rw [← this]
  rw [Nat.or_assoc, Nat.or_comm mid, e1, Nat.mul_comm hi (2 ^ n)]
  have := Nat.mul_add_lt_is_or hl hi
  rw [← this]

theorem vramRemap_1 (adr : Nat) (h : adr < 0x10000) :
    vramRemap 1 adr = adr / 256 * 256 + (adr % 32 * 8 + adr / 32 % 8) := by
  have m1 : (0xff00 : Nat) = (2 ^ 8 - 1) <<< 8 := by decide
  have m2 : (0xe0 : Nat) = (2 ^ 3 - 1) <<< 5 := by decide
  have m3 : (0x1f : Nat) = 2 ^ 5 - 1 := by decide
  show (adr &&& 0xff00) ||| ((adr &&& 0xe0) >>> 5) ||| ((adr &&& 0x1f) <<< 3) = _
  rw [m1, m2, m3, and_field, and_field, Nat.and_pow_two_sub_one_eq_mod,
    Nat.shiftRight_eq_div_pow, Nat.mul_div_cancel _ (by norm_num : 0 < 2 ^ 5)]
  have e := or_parts 8 (adr / 2 ^ 8 % 2 ^ 8) (adr / 2 ^ 5 % 2 ^ 3) (adr % 2 ^ 5)
    (by norm_num; omega) (by norm_num; omega)
  rw [e]
  norm_num
  omega

theorem vramRemap_2 (adr : Nat) (h : adr < 0x10000) :
    vramRemap 2 adr = adr / 512 * 512 + (adr % 64 * 8 + adr / 64 % 8) := by
  have m1 : (0xfe00 : Nat) = (2 ^ 7 - 1) <<< 9 := by decide
  have m2 : (0x1c0 : Nat) = (2 ^ 3 - 1) <<< 6 := by decide
  have m3 : (0x3f : Nat) = 2 ^ 6 - 1 := by decide
  show (adr &&& 0xfe00) ||| ((adr &&& 0x1c0) >>> 6) ||| ((adr &&& 0x3f) <<< 3) = _
  rw [m1, m2, m3, and_field, and_field, Nat.and_pow_two_sub_one_eq_mod,
    Nat.shiftRight_eq_div_pow, Nat.mul_div_cancel _ (by norm_num : 0 < 2 ^ 6)]
  have e := or_parts 9 (adr / 2 ^ 9 % 2 ^ 7) (adr / 2 ^ 6 % 2 ^ 3) (adr % 2 ^ 6)
    (by norm_num; omega) (by norm_num; omega)
  rw [e]
  norm_num
  omega

theorem vramRemap_3 (adr : Nat) (h : adr < 0x10000) :
    vramRemap 3 adr = adr / 1024 * 1024 + (adr % 128 * 8 + adr / 128 % 8) := by
  have m1 : (0xfc00 : Nat) = (2 ^ 6 - 1) <<< 10 := by decide
  have m2 : (0x380 : Nat) = (2 ^ 3 - 1) <<< 7 := by decide
  have m3 : (0x7f : Nat) = 2 ^ 7 - 1 := by decide
  show (adr &&& 0xfc00) ||| ((adr &&& 0x380) >>> 7) ||| ((adr &&& 0x7f) <<< 3) = _
  rw [m1, m2, m3, and_field, and_field, Nat.and_pow_two_sub_one_eq_mod,
    Nat.shiftRight_eq_div_pow, Nat.mul_div_cancel _ (by norm_num : 0 < 2 ^ 7)]
  have e := or_parts 10 (adr / 2 ^ 10 % 2 ^ 6) (adr / 2 ^ 7 % 2 ^ 3) (adr % 2 ^ 7)
    (by norm_num; omega) (by norm_num; omega)
  rw [e]
  norm_num
  omega

theorem vramRemap_inj (mode a b : Nat) (hm : mode < 4) (ha : a < 0x10000) (hb : b < 0x10000)
    (e : vramRemap mode b = vramRemap mode a) : b = a := by
  have h4 : mode = 0 ∨ mode = 1 ∨ mode = 2 ∨ mode = 3 := by omega
  rcases h4 with rfl | rfl | rfl | rfl
  · exact e
  · rw [vramRemap_1 a ha, vramRemap_1 b hb] at e; omega
  · rw [vramRemap_2 a ha, vramRemap_2 b hb] at e; omega
  · rw [vramRemap_3 a ha, vramRemap_3 b hb] at e; omega

theorem vramRemap_lt (mode a : Nat) (hm : mode < 4) (ha : a < 0x10000) :
    vramRemap mode a < 0x10000 := by
  have h4 : mode = 0 ∨ mode = 1 ∨ mode = 2 ∨ mode = 3 := by omega
  rcases h4 with rfl | rfl | rfl | rfl
  · exact ha
  · rw [vramRemap_1 a ha]; omega
  · rw [vramRemap_2 a ha]; omega
  · rw [vramRemap_3 a ha]; omega

theorem rot_inverse (n k a : Nat) (hk : k * 8 = n) (hn : 0 < k) :
    ∃ b, b < (a / n + 1) * n ∧ b / n = a / n ∧ b % k = a % n / 8 ∧ b / k % 8 = a % 8 := by
  subst hk
  refine ⟨a / (k * 8) * (k * 8) + (a % (k * 8) / 8 + a % 8 * k), ?_, ?_, ?_, ?_⟩
  · have h1 : a % (k * 8) / 8 < k := by
      rw [Nat.div_lt_iff_lt_mul (by norm_num)]
      exact Nat.mod_lt _ (by omega)
    have h2 : a % 8 * k ≤ 7 * k := Nat.mul_le_mul_right _ (by omega)
    have h3 : (a / (k * 8) + 1) * (k * 8) = a / (k * 8) * (k * 8) + k * 8 := by ring
    omega
  · have h1 : a % (k * 8) / 8 < k := by
      rw [Nat.div_lt_iff_lt_mul (by norm_num)]
      exact Nat.mod_lt _ (by omega)
    have h2 : a % 8 * k ≤ 7 * k := Nat.mul_le_mul_right _ (by omega)
    rw [Nat.add_comm, Nat.add_mul_div_right _ _ (by omega : 0 < k * 8)]
    rw [Nat.div_eq_of_lt (by omega)]
    omega
  · rw [Nat.add_comm (a / (k * 8) * (k * 8)), Nat.add_assoc,
      show a % 8 * k + a / (k * 8) * (k * 8) = k * (a % 8 + a / (k * 8) * 8) by ring,
      Nat.add_mul_mod_self_left]
    apply Nat.mod_eq_of_lt
    rw [Nat.div_lt_iff_lt_mul (by norm_num)]
    exact Nat.mod_lt _ (by omega)
  · have h1 : a % (k * 8) / 8 < k := by
      rw [Nat.div_lt_iff_lt_mul (by norm_num)]
      exact Nat.mod_lt _ (by omega)
    rw [Nat.add_comm (a / (k * 8) * (k * 8)), Nat.add_assoc,
      show a % 8 * k + a / (k * 8) * (k * 8) = k * (a % 8 + a / (k * 8) * 8) by ring,
      Nat.add_mul_div_left _ _ hn, Nat.div_eq_of_lt h1]
    omega

theorem vramRemap_surj (mode a : Nat) (hm : mode < 4) (ha : a < 0x10000) :
    ∃ b, b < 0x10000 ∧ vramRemap mode b = a := by
  have h4 : mode = 0 ∨ mode = 1 ∨ mode = 2 ∨ mode = 3 := by omega
  rcases h4 with rfl | rfl | rfl | rfl
  · exact ⟨a, ha, rfl⟩
  · obtain ⟨b, b0, b1, b2, b3⟩ := rot_inverse 256 32 a (by norm_num) (by norm_num)
    have hb : b < 0x10000 := by omega
    refine ⟨b, hb, ?_⟩
    rw [vramRemap_1 b hb, b1, b2, b3]; omega
  · obtain ⟨b, b0, b1, b2, b3⟩ := rot_inverse 512 64 a (by norm_num) (by norm_num)
    have hb : b < 0x10000 := by omega
    refine ⟨b, hb, ?_⟩
    rw [vramRemap_2 b hb, b1, b2, b3]; omega
  · obtain ⟨b, b0, b1, b2, b3⟩ := rot_inverse 1024 128 a (by norm_num) (by norm_num)
    have hb : b < 0x10000 := by omega
    refine ⟨b, hb, ?_⟩
    rw [vramRemap_3 b hb, b1, b2, b3]; omega

/-- C36: `ppu_getVramRemap` returns the pointer unchanged in mode 0 and, in modes 1, 2, 3,
the pointer with its low 8, 9, 10 bits rotated left by 3 (`low * 8 mod 2^n + low / 2^(n-3)`)
and the higher bits unchanged; for each mode the map is a bijection of the 16-bit
addresses. -/
theorem C36_vram_remap_rotation (ppu : Ppu) (h : ppu.vramPointer < 0x10000) :
    (ppu.vramRemapMode = 0 → ppu_getVramRemap ppu = ppu.vramPointer) ∧
    (ppu.vramRemapMode = 1 → ppu_getVramRemap ppu =
      ppu.vramPointer / 256 * 256 +
        (ppu.vramPointer % 256 * 8 % 256 + ppu.vramPointer % 256 / 32)) ∧
    (ppu.vramRemapMode = 2 → ppu_getVramRemap ppu =
      ppu.vramPointer / 512 * 512 +
        (ppu.vramPointer % 512 * 8 % 512 + ppu.vramPointer % 512 / 64)) ∧
    (ppu.vramRemapMode = 3 → ppu_getVramRemap ppu =
      ppu.vramPointer / 1024 * 1024 +
        (ppu.vramPointer % 1024 * 8 % 1024 + ppu.vramPointer % 1024 / 128)) ∧
    (∀ mode, mode < 4 →
      (∀ a, a < 0x10000 → vramRemap mode a < 0x10000) ∧
      (∀ a b, a < 0x10000 → b < 0x10000 → vramRemap mode b = vramRemap mode a → b = a) ∧
      (∀ a, a < 0x10000 → ∃ b, b < 0x10000 ∧ vramRemap mode b = a)) := by
  refine ⟨fun e => ?_, fun e => ?_, fun e => ?_, fun e => ?_, fun mode hm => ⟨?_, ?_, ?_⟩⟩
  · unfold ppu_getVramRemap; rw [e]; rfl
  · unfold ppu_getVramRemap; rw [e, vramRemap_1 _ h]; omega
  · unfold ppu_getVramRemap; rw [e, vramRemap_2 _ h]; omega
  · unfold ppu_getVramRemap; rw [e, vramRemap_3 _ h]; omega
  · exact fun a ha => vramRemap_lt mode a hm ha
  · exact fun a b ha hb e => vramRemap_inj mode a b hm ha hb e
  · exact fun a ha => vramRemap_surj mode a hm ha

theorem C36_vram_remap_rotation_witness :
    ({ ppu_reset with vramRemapMode := 1, vramPointer := 0x12e5 } : Ppu).vramPointer < 0x10000 ∧
    (({ ppu_reset with vramRemapMode := 1, vramPointer := 0x12e5 } : Ppu).vramRemapMode = 1 →
      ppu_getVramRemap { ppu_reset with vramRemapMode := 1, vramPointer := 0x12e5 } =
        ({ ppu_reset with vramRemapMode := 1, vramPointer := 0x12e5 } : Ppu).vramPointer
            / 256 * 256 +
          (({ ppu_reset with vramRemapMode := 1, vramPointer := 0x12e5 } : Ppu).vramPointer
              % 256 * 8 % 256 +
            ({ ppu_reset with vramRemapMode := 1, vramPointer := 0x12e5 } : Ppu).vramPointer
              % 256 / 32)) :=
  ⟨by decide,
    (C36_vram_remap_rotation { ppu_reset with vramRemapMode := 1, vramPointer := 0x12e5 }
      (by decide)).2.1⟩

/-! ## The arithmetic of `cpu_adc` -/

/-- The value of the `w`-bit pattern `x` read as a two's-complement integer. -/
def signedOf (w : Nat) (x : Nat) : Int :=
  if x < 2 ^ (w - 1) then (x : Int) else (x : Int) - 2 ^ w

theorem bool_toNat_le (b : Bool) : b.toNat ≤ 1 := by cases b <;> decide

theorem adc8_binary (cpu : Cpu) (m : Nat) (hd : cpu.d = false) (hm : m < 256) :
    (adc8 cpu m).a = cpu.a / 256 % 256 * 256 + (cpu.a % 256 + m + cpu.c.toNat) % 256 ∧
    (adc8 cpu m).c = decide (cpu.a % 256 + m + cpu.c.toNat ≥ 256) ∧
    (adc8 cpu m).v = decide (signedOf 8 (cpu.a % 256) + signedOf 8 m + cpu.c.toNat < -128 ∨
      signedOf 8 (cpu.a % 256) + signedOf 8 m + cpu.c.toNat > 127) := by
  have hc := bool_toNat_le cpu.c
  unfold adc8
  simp only [hd, Bool.false_eq_true, if_false, Bool.false_and, and_ff, and_ff00, and_80]
  refine ⟨?_, ?_, ?_⟩
  · rw [or_high_low _ _ (Nat.mod_lt _ (by norm_num))]
  · congr 1
  · unfold signedOf
    rw [Bool.eq_iff_iff]
    simp only [Bool.and_eq_true, beq_iff_eq, bne_iff_ne, ne_eq, decide_eq_true_eq]
    have e1 : (2 : Int) ^ 8 = 256 := by norm_num
    have e2 : 2 ^ (8 - 1) = 128 := by norm_num
    rw [e1, e2]
    split_ifs <;> omega

theorem adc16_binary (cpu : Cpu) (m : Nat) (hd : cpu.d = false) (ha : cpu.a < 0x10000)
    (hm : m < 0x10000) :
    (adc16 cpu m).a = (cpu.a + m + cpu.c.toNat) % 0x10000 ∧
    (adc16 cpu m).c = decide (cpu.a + m + cpu.c.toNat ≥ 0x10000) ∧
    (adc16 cpu m).v = decide (signedOf 16 cpu.a + signedOf 16 m + cpu.c.toNat < -32768 ∨
      signedOf 16 cpu.a + signedOf 16 m + cpu.c.toNat > 32767) := by
  have hc := bool_toNat_le cpu.c
  unfold adc16
  simp only [hd, Bool.false_eq_true, if_false, Bool.false_and, and_8000]
  refine ⟨?_, ?_, ?_⟩
  · first | rfl | trivial
  · congr 1
  · unfold signedOf
    rw [Bool.eq_iff_iff]
    simp only [Bool.and_eq_true, beq_iff_eq, bne_iff_ne, ne_eq, decide_eq_true_eq]
    have e1 : (2 : Int) ^ 16 = 65536 := by norm_num
    have e2 : 2 ^ (16 - 1) = 32768 := by norm_num
    rw [e1, e2]
    split_ifs <;> omega

/-- What `cpu_setZN` stores for the value `a` of width `byte`. -/
theorem setZN_fields {μ : Type} (a : Nat) (byte : Bool) (s : Machine μ) :
    wp (cpu_setZN a byte) (fun _ s' =>
      s'.cpu.z = (if byte then decide (a % 0x10000 % 256 = 0) else decide (a % 0x10000 = 0)) ∧
      s'.cpu.n = (if byte then decide (a % 0x10000 / 128 % 2 = 1)
                  else decide (a % 0x10000 / 32768 % 2 = 1)) ∧
      s'.cpu.a = s.cpu.a ∧ s'.cpu.c = s.cpu.c ∧ s'.cpu.v = s.cpu.v ∧ s'.cpu.mf = s.cpu.mf ∧
      s'.cpu.d = s.cpu.d ∧ s'.trace = s.trace) s := by
  unfold cpu_setZN
  apply wp_modifyCpu
  cases byte
  · refine ⟨?_, ?_, rfl, rfl, rfl, rfl, rfl, rfl⟩
    · simp only [Bool.false_eq_true, if_false]
      rw [Bool.eq_iff_iff]; simp
    · simp only [Bool.false_eq_true, if_false, and_8000]
      rw [Bool.eq_iff_iff]; simp only [bne_iff_ne, ne_eq, decide_eq_true_eq]; omega
  · refine ⟨?_, ?_, rfl, rfl, rfl, rfl, rfl, rfl⟩
    · simp only [if_true, and_ff]
      rw [Bool.eq_iff_iff]; simp
    · simp only [if_true, and_80]
      rw [Bool.eq_iff_iff]; simp only [bne_iff_ne, ne_eq, decide_eq_true_eq]; omega

section AdcWp
variable {μ : Type} (h : Handlers μ)

/-- `cpu_adc` with an 8-bit accumulator: one read, then `adc8` and the Z and N flags. -/
theorem wp_adc8 (low high : Nat) (s : Machine μ) (hm : s.cpu.mf = true) :
    wp (cpu_adc h low high) (fun _ s' =>
      s'.trace = s.trace ++ [BusEvent.read low ((h.read s.mem low).1 % 256)] ∧
      s'.cpu.a = (adc8 s.cpu ((h.read s.mem low).1 % 256)).a ∧
      s'.cpu.c = (adc8 s.cpu ((h.read s.mem low).1 % 256)).c ∧
      s'.cpu.v = (adc8 s.cpu ((h.read s.mem low).1 % 256)).v ∧
      s'.cpu.z = decide ((adc8 s.cpu ((h.read s.mem low).1 % 256)).a % 0x10000 % 256 = 0) ∧
      s'.cpu.n = decide ((adc8 s.cpu ((h.read s.mem low).1 % 256)).a % 0x10000 / 128 % 2 = 1))
      s := by
  unfold cpu_adc
  apply wp_bind; apply wp_getCpu
  dsimp only
  refine wp_ite_pos hm ?_
  apply wp_bind; apply wp_checkInt
  apply wp_bind; apply wp_read
  intro nmi irq dly m' _ _
  apply wp_bind; apply wp_modifyCpu
  apply wp_bind; apply wp_getCpu
  refine wp_mono (setZN_fields _ _ _) ?_
  intro _ s' hs
  obtain ⟨z1, z2, z3, z4, z5, z6, z7, z8⟩ := hs
  dsimp only at z1 z2 z3 z4 z5 z6 z7 z8
  have e : (adc8 (afterBus (checkInt s.cpu) nmi irq dly) ((h.read s.mem low).1 % 256)).mf = true :=
    hm
  rw [if_pos e] at z1 z2
  exact ⟨z8, z3, z4, z5, z1, z2⟩

/-- `cpu_readWord` with the interrupt check between the two reads. -/
theorem wp_readWord_int {adrl adrh : Nat} {Q : Nat → Machine μ → Prop} {s : Machine μ}
    (H : ∀ (lo hi : Nat) (c1 : Cpu) (nmi irq dly : Bool) (m1 m' : μ),
      lo = (h.read s.mem adrl).1 % 256 → hi = (h.read m1 adrh).1 % 256 →
      c1.a = s.cpu.a → c1.c = s.cpu.c → c1.d = s.cpu.d → c1.mf = s.cpu.mf →
      Q (lo ||| (hi <<< 8))
        ⟨afterBus c1 nmi irq dly, m',
          s.trace ++ [BusEvent.read adrl lo, BusEvent.read adrh hi]⟩) :
    wp (cpu_readWord h adrl adrh true) Q s := by
  unfold cpu_readWord
  apply wp_bind
  apply wp_read
  intro n1 i1 d1 m1 hn1 hq1
  simp only [if_true]
  apply wp_bind
  apply wp_checkInt
  apply wp_bind
  apply wp_read
  intro n2 i2 d2 m2 hn2 hq2
  apply wp_pure
  have key := H ((h.read s.mem adrl).1 % 256) ((h.read m1 adrh).1 % 256)
    (checkInt (afterBus s.cpu n1 i1 d1)) n2 i2 d2 m1 m2 rfl rfl rfl rfl rfl rfl
  simpa only [List.append_assoc, List.cons_append, List.nil_append] using key

/-- `cpu_adc` with a 16-bit accumulator: two reads, then `adc16` and the Z and N flags. -/
theorem wp_adc16 (low high : Nat) (s : Machine μ) (hm : s.cpu.mf = false) :
    wp (cpu_adc h low high) (fun _ s' =>
      ∃ lo hi m1, lo = (h.read s.mem low).1 % 256 ∧ hi = (h.read m1 high).1 % 256 ∧
      s'.trace = s.trace ++ [BusEvent.read low lo, BusEvent.read high hi] ∧
      s'.cpu.a = (adc16 s.cpu (lo ||| (hi <<< 8))).a ∧
      s'.cpu.c = (adc16 s.cpu (lo ||| (hi <<< 8))).c ∧
      s'.cpu.v = (adc16 s.cpu (lo ||| (hi <<< 8))).v ∧
      s'.cpu.z = decide ((adc16 s.cpu (lo ||| (hi <<< 8))).a % 0x10000 = 0) ∧
      s'.cpu.n = decide ((adc16 s.cpu (lo ||| (hi <<< 8))).a % 0x10000 / 32768 % 2 = 1))
      s := by
  unfold cpu_adc
  apply wp_bind; apply wp_getCpu
  dsimp only
  refine wp_ite_neg (by rw [hm]; decide) ?_
  apply wp_bind; apply wp_readWord_int
  intro lo hi c1 nmi irq dly m1 m' hlo hhi ea ec ed emf
  apply wp_bind; apply wp_modifyCpu
  apply wp_bind; apply wp_getCpu
  refine wp_mono (setZN_fields _ _ _) ?_
  intro _ s' hs
  obtain ⟨z1, z2, z3, z4, z5, z6, z7, z8⟩ := hs
  dsimp only at z1 z2 z3 z4 z5 z6 z7 z8
  have e : (adc16 (afterBus c1 nmi irq dly) (lo ||| (hi <<< 8))).mf = false := emf.trans hm
  have e2 : ¬ (adc16 (afterBus c1 nmi irq dly) (lo ||| (hi <<< 8))).mf = true := by
    rw [e]; decide
  rw [if_neg e2] at z1 z2
  have key : adc16 (afterBus c1 nmi irq dly) (lo ||| (hi <<< 8)) =
      { afterBus c1 nmi irq dly with
        v := (adc16 s.cpu (lo ||| (hi <<< 8))).v, c := (adc16 s.cpu (lo ||| (hi <<< 8))).c,
        a := (adc16 s.cpu (lo ||| (hi <<< 8))).a } := by
    unfold adc16
    have ea2 : (afterBus c1 nmi irq dly).a = s.cpu.a := ea
    have ec2 : (afterBus c1 nmi irq dly).c = s.cpu.c := ec
    have ed2 : (afterBus c1 nmi irq dly).d = s.cpu.d := ed
    simp only [ea2, ec2, ed2]
  rw [key] at z1 z2 z3 z4 z5
  exact ⟨lo, hi, m1, hlo, hhi, z8, z3, z4, z5, z1, z2⟩

end AdcWp

/-- C38: binary ADC.  With D = 0, `cpu_adc` leaves `(a + m + c) mod 2^w` in the accumulator
(the upper byte of A unchanged when `w = 8`), `C = (a + m + c >= 2^w)`, `V` set exactly when
the signed sum lies outside the signed `w`-bit range, `Z = (result == 0)` and `N` the top
bit of the result; `w = 8` and `m` is the byte read when M = 1, `w = 16` and `m` is the
little-endian word read when M = 0. -/
theorem C38_binary_adc {μ : Type} (h : Handlers μ) (low high : Nat) (s : Machine μ)
    (hd : s.cpu.d = false) (ha : s.cpu.a < 0x10000) :
    wp (cpu_adc h low high) (fun _ s' =>
      (s.cpu.mf = true →
        s'.cpu.a = s.cpu.a / 256 * 256 +
          (s.cpu.a % 256 + (h.read s.mem low).1 % 256 + s.cpu.c.toNat) % 256 ∧
        s'.cpu.c = decide (s.cpu.a % 256 + (h.read s.mem low).1 % 256 + s.cpu.c.toNat ≥ 256) ∧
        s'.cpu.v = decide
          (signedOf 8 (s.cpu.a % 256) + signedOf 8 ((h.read s.mem low).1 % 256) + s.cpu.c.toNat
              < -128 ∨
            signedOf 8 (s.cpu.a % 256) + signedOf 8 ((h.read s.mem low).1 % 256) + s.cpu.c.toNat
              > 127) ∧
        s'.cpu.z = decide
          ((s.cpu.a % 256 + (h.read s.mem low).1 % 256 + s.cpu.c.toNat) % 256 = 0) ∧
        s'.cpu.n = decide
          ((s.cpu.a % 256 + (h.read s.mem low).1 % 256 + s.cpu.c.toNat) % 256 ≥ 128)) ∧
      (s.cpu.mf = false →
        ∃ lo hi m1, lo = (h.read s.mem low).1 % 256 ∧ hi = (h.read m1 high).1 % 256 ∧
          s'.cpu.a = (s.cpu.a + (lo + 256 * hi) + s.cpu.c.toNat) % 0x10000 ∧
          s'.cpu.c = decide (s.cpu.a + (lo + 256 * hi) + s.cpu.c.toNat ≥ 0x10000) ∧
          s'.cpu.v = decide
            (signedOf 16 s.cpu.a + signedOf 16 (lo + 256 * hi) + s.cpu.c.toNat < -32768 ∨
              signedOf 16 s.cpu.a + signedOf 16 (lo + 256 * hi) + s.cpu.c.toNat > 32767) ∧
          s'.cpu.z = decide ((s.cpu.a + (lo + 256 * hi) + s.cpu.c.toNat) % 0x10000 = 0) ∧
          s'.cpu.n = decide
            ((s.cpu.a + (lo + 256 * hi) + s.cpu.c.toNat) % 0x10000 ≥ 0x8000))) s := by
  by_cases hm : s.cpu.mf = true
  · refine wp_mono (wp_adc8 h low high s hm) ?_
    intro _ s' ⟨_, e2, e3, e4, e5, e6⟩
    have hb : (h.read s.mem low).1 % 256 < 256 := Nat.mod_lt _ (by norm_num)
    obtain ⟨b1, b2, b3⟩ := adc8_binary s.cpu _ hd hb
    refine ⟨fun _ => ⟨?_, e3.trans b2, e4.trans b3, ?_, ?_⟩, fun hf => ?_⟩
    · rw [e2, b1]
      have : s.cpu.a / 256 % 256 = s.cpu.a / 256 := Nat.mod_eq_of_lt (by omega)
      rw [this]
    · rw [e5, b1]
      congr 1
      apply propext
      constructor <;> intro hh <;> omega
    · rw [e6, b1]
      congr 1
      apply propext
      constructor <;> intro hh <;> omega
    · rw [hm] at hf; exact absurd hf (by decide)
  · have hmf : s.cpu.mf = false := by simpa using hm
    refine wp_mono (wp_adc16 h low high s hmf) ?_
    intro _ s' ⟨lo, hi, m1, hlo, hhi, _, e2, e3, e4, e5, e6⟩
    have hl : lo < 256 := by rw [hlo]; exact Nat.mod_lt _ (by norm_num)
    have hh : hi < 256 := by rw [hhi]; exact Nat.mod_lt _ (by norm_num)
    have ew : lo ||| (hi <<< 8) = lo + 256 * hi := byte_or_shl8 lo hi hl
    rw [ew] at e2 e3 e4 e5 e6
    obtain ⟨b1, b2, b3⟩ := adc16_binary s.cpu (lo + 256 * hi) hd ha (by omega)
    refine ⟨fun ht => absurd ht hm, fun _ => ⟨lo, hi, m1, hlo, hhi, e2.trans b1, e3.trans b2,
      e4.trans b3, ?_, ?_⟩⟩
    · rw [e5, b1]
      congr 1
      apply propext
      constructor <;> intro hh <;> omega
    · rw [e6, b1]
      congr 1
      apply propext
      constructor <;> intro hh <;> omega

theorem C38_binary_adc_witness :
    demoNmiState.cpu.d = false ∧ demoNmiState.cpu.a < 0x10000 ∧
    wp (cpu_adc (romHandlers demoRom) 0x10 0x11) (fun _ s' =>
      (demoNmiState.cpu.mf = true →
        s'.cpu.a = demoNmiState.cpu.a / 256 * 256 +
          (demoNmiState.cpu.a % 256 + ((romHandlers demoRom).read demoNmiState.mem 0x10).1 % 256 + demoNmiState.cpu.c.toNat) % 256 ∧
        s'.cpu.c = decide (demoNmiState.cpu.a % 256 + ((romHandlers demoRom).read demoNmiState.mem 0x10).1 % 256 + demoNmiState.cpu.c.toNat ≥ 256) ∧
        s'.cpu.v = decide
          (signedOf 8 (demoNmiState.cpu.a % 256) + signedOf 8 (((romHandlers demoRom).read demoNmiState.mem 0x10).1 % 256) + demoNmiState.cpu.c.toNat
              < -128 ∨
            signedOf 8 (demoNmiState.cpu.a % 256) + signedOf 8 (((romHandlers demoRom).read demoNmiState.mem 0x10).1 % 256) + demoNmiState.cpu.c.toNat
              > 127) ∧
        s'.cpu.z = decide
          ((demoNmiState.cpu.a % 256 + ((romHandlers demoRom).read demoNmiState.mem 0x10).1 % 256 + demoNmiState.cpu.c.toNat) % 256 = 0) ∧
        s'.cpu.n = decide
          ((demoNmiState.cpu.a % 256 + ((romHandlers demoRom).read demoNmiState.mem 0x10).1 % 256 + demoNmiState.cpu.c.toNat) % 256 ≥ 128)) ∧
      (demoNmiState.cpu.mf = false →
        ∃ lo hi m1, lo = ((romHandlers demoRom).read demoNmiState.mem 0x10).1 % 256 ∧ hi = ((romHandlers demoRom).read m1 0x11).1 % 256 ∧
          s'.cpu.a = (demoNmiState.cpu.a + (lo + 256 * hi) + demoNmiState.cpu.c.toNat) % 0x10000 ∧
          s'.cpu.c = decide (demoNmiState.cpu.a + (lo + 256 * hi) + demoNmiState.cpu.c.toNat ≥ 0x10000) ∧
          s'.cpu.v = decide
            (signedOf 16 demoNmiState.cpu.a + signedOf 16 (lo + 256 * hi) + demoNmiState.cpu.c.toNat < -32768 ∨
              signedOf 16 demoNmiState.cpu.a + signedOf 16 (lo + 256 * hi) + demoNmiState.cpu.c.toNat > 32767) ∧
          s'.cpu.z = decide ((demoNmiState.cpu.a + (lo + 256 * hi) + demoNmiState.cpu.c.toNat) % 0x10000 = 0) ∧
          s'.cpu.n = decide
            ((demoNmiState.cpu.a + (lo + 256 * hi) + demoNmiState.cpu.c.toNat) % 0x10000 ≥ 0x8000))) demoNmiState :=
  ⟨rfl, by decide, C38_binary_adc (romHandlers demoRom) 0x10 0x11 demoNmiState rfl (by decide)⟩

/-! ## Decimal-mode `cpu_adc` -/

/-- The decimal value of a packed-BCD byte. -/
def bcdValue8 (x : Nat) : Nat := x / 16 * 10 + x % 16

/-- The packed-BCD byte of a number below 100. -/
def bcdByte (n : Nat) : Nat := n / 10 * 16 + n % 10

/-- The decimal value of a packed-BCD word. -/
def bcdValue16 (x : Nat) : Nat :=
  x / 4096 * 1000 + x / 256 % 16 * 100 + x / 16 % 16 * 10 + x % 16

/-- The packed-BCD word of a number below 10000. -/
def bcdWord (n : Nat) : Nat :=
  n / 1000 * 4096 + n / 100 % 10 * 256 + n / 10 % 10 * 16 + n % 10

/-- Whether the digit sum `x + y + c` produces a decimal carry. -/
def decCarry (x y c : Nat) : Nat := if x + y + c > 9 then 1 else 0

theorem decCarry_le (x y c : Nat) : decCarry x y c ≤ 1 := by
  unfold decCarry; split_ifs <;> omega

/-- The three lower digit stages of the decimal adder, for valid lower digits: the
intermediate sum `r3` is the binary sum of the high digits, the carry into them, and the
three adjusted lower digits. -/
theorem bcd_stages (a0 a1 a2 a3 m0 m1 m2 m3 c r0 r1 r2 r3 : Nat)
    (h0 : a0 ≤ 9) (h1 : a1 ≤ 9) (h2 : a2 ≤ 9) (g0 : m0 ≤ 9) (g1 : m1 ≤ 9) (g2 : m2 ≤ 9)
    (hc : c ≤ 1)
    (e0 : r0 = if a0 + m0 + c > 9 then (a0 + m0 + c + 6) % 16 + 16 else a0 + m0 + c)
    (e1 : r1 = if a1 * 16 + m1 * 16 + r0 > 159 then (a1 * 16 + m1 * 16 + r0 + 96) % 256 + 256
      else a1 * 16 + m1 * 16 + r0)
    (e2 : r2 = if a2 * 256 + m2 * 256 + r1 > 2559
      then (a2 * 256 + m2 * 256 + r1 + 1536) % 4096 + 4096 else a2 * 256 + m2 * 256 + r1)
    (e3 : r3 = a3 * 4096 + m3 * 4096 + r2) :
    r0 = a0 + m0 + c + 6 * decCarry a0 m0 c ∧
    r1 = a1 * 16 + m1 * 16 + r0 + 96 * decCarry a1 m1 (decCarry a0 m0 c) ∧
    r2 = a2 * 256 + m2 * 256 + r1 + 1536 * decCarry a2 m2 (decCarry a1 m1 (decCarry a0 m0 c)) ∧
    ∃ d0 d1 d2, d0 ≤ 9 ∧ d1 ≤ 9 ∧ d2 ≤ 9 ∧
      a0 + m0 + c = 10 * decCarry a0 m0 c + d0 ∧
      a1 + m1 + decCarry a0 m0 c = 10 * decCarry a1 m1 (decCarry a0 m0 c) + d1 ∧
      a2 + m2 + decCarry a1 m1 (decCarry a0 m0 c) =
        10 * decCarry a2 m2 (decCarry a1 m1 (decCarry a0 m0 c)) + d2 ∧
      r3 = 4096 * (a3 + m3 + decCarry a2 m2 (decCarry a1 m1 (decCarry a0 m0 c))) +
        256 * d2 + 16 * d1 + d0 := by
  have k0le := decCarry_le a0 m0 c
  have k1le := decCarry_le a1 m1 (decCarry a0 m0 c)
  have k2le := decCarry_le a2 m2 (decCarry a1 m1 (decCarry a0 m0 c))
  have f0 : r0 = a0 + m0 + c + 6 * decCarry a0 m0 c := by
    rw [e0]; unfold decCarry; split_ifs <;> omega
  have s0 : ∃ d0, d0 ≤ 9 ∧ a0 + m0 + c = 10 * decCarry a0 m0 c + d0 := by
    unfold decCarry
    split_ifs with hh
    · exact ⟨a0 + m0 + c - 10, by omega, by omega⟩
    · exact ⟨a0 + m0 + c, by omega, by omega⟩
  obtain ⟨d0, hd0, q0⟩ := s0
  generalize decCarry a0 m0 c = k0 at *
  have s1 : ∃ d1, d1 ≤ 9 ∧ a1 + m1 + k0 = 10 * decCarry a1 m1 k0 + d1 := by
    unfold decCarry
    split_ifs with hh
    · exact ⟨a1 + m1 + k0 - 10, by omega, by omega⟩
    · exact ⟨a1 + m1 + k0, by omega, by omega⟩
  obtain ⟨d1, hd1, q1⟩ := s1
  have f1 : r1 = a1 * 16 + m1 * 16 + r0 + 96 * decCarry a1 m1 k0 := by
    rw [e1, f0]; unfold decCarry; split_ifs <;> omega
  generalize decCarry a1 m1 k0 = k1 at *
  have s2 : ∃ d2, d2 ≤ 9 ∧ a2 + m2 + k1 = 10 * decCarry a2 m2 k1 + d2 := by
    unfold decCarry
    split_ifs with hh
    · exact ⟨a2 + m2 + k1 - 10, by omega, by omega⟩
    · exact ⟨a2 + m2 + k1, by omega, by omega⟩
  obtain ⟨d2, hd2, q2⟩ := s2
  have f2 : r2 = a2 * 256 + m2 * 256 + r1 + 1536 * decCarry a2 m2 k1 := by
    rw [e2, f1, f0]; unfold decCarry; split_ifs <;> omega
  generalize decCarry a2 m2 k1 = k2 at *
  refine ⟨f0, f1, f2, d0, d1, d2, hd0, hd1, hd2, q0, q1, q2, ?_⟩
  omega

/-- One adjustment step of the decimal adder (snes_cpu.c:481, 496-500):
`if (r > limit) r = ((r + add) & mask) + carry`. -/
def decAdj (limit add mask carry r : Nat) : Nat :=
  if r > limit then ((r + add) &&& mask) + carry else r

/-- The intermediate sum of the 16-bit decimal adder, before the adjustment of the top
digit (snes_cpu.c:495-501). -/
def decSum16 (a m c : Nat) : Nat :=
  (a &&& 0xf000) + (m &&& 0xf000) +
    decAdj 0x9ff 0x600 0xfff 0x1000 ((a &&& 0xf00) + (m &&& 0xf00) +
      decAdj 0x9f 0x60 0xff 0x100 ((a &&& 0xf0) + (m &&& 0xf0) +
        decAdj 0x9 0x6 0xf 0x10 ((a &&& 0xf) + (m &&& 0xf) + c)))

/-- The intermediate sum of the 8-bit decimal adder (snes_cpu.c:480-482). -/
def decSum8 (a m c : Nat) : Nat :=
  (a &&& 0xf0) + (m &&& 0xf0) + decAdj 0x9 0x6 0xf 0x10 ((a &&& 0xf) + (m &&& 0xf) + c)

theorem adc16_dec_eq (cpu : Cpu) (m : Nat) (hd : cpu.d = true) :
    adc16 cpu m =
      { cpu with
        v := ((cpu.a &&& 0x8000) == (m &&& 0x8000)) &&
          ((m &&& 0x8000) != (decSum16 cpu.a m cpu.c.toNat &&& 0x8000)),
        c := decide ((if decSum16 cpu.a m cpu.c.toNat > 0x9fff
          then decSum16 cpu.a m cpu.c.toNat + 0x6000 else decSum16 cpu.a m cpu.c.toNat) > 0xffff),
        a := (if decSum16 cpu.a m cpu.c.toNat > 0x9fff
          then decSum16 cpu.a m cpu.c.toNat + 0x6000 else decSum16 cpu.a m cpu.c.toNat)
            % 0x10000 } := by
  unfold adc16 decSum16 decAdj
  simp only [hd, if_true, Bool.true_and, decide_eq_true_eq]

theorem adc8_dec_eq (cpu : Cpu) (m : Nat) (hd : cpu.d = true) :
    adc8 cpu m =
      { cpu with
        v := ((cpu.a &&& 0x80) == (m &&& 0x80)) &&
          ((m &&& 0x80) != (decSum8 cpu.a m cpu.c.toNat &&& 0x80)),
        c := decide ((if decSum8 cpu.a m cpu.c.toNat > 0x9f
          then decSum8 cpu.a m cpu.c.toNat + 0x60 else decSum8 cpu.a m cpu.c.toNat) > 0xff),
        a := (cpu.a &&& 0xff00) ||| ((if decSum8 cpu.a m cpu.c.toNat > 0x9f
          then decSum8 cpu.a m cpu.c.toNat + 0x60 else decSum8 cpu.a m cpu.c.toNat) &&& 0xff) } := by
  unfold adc8 decSum8 decAdj
  simp only [hd, if_true, Bool.true_and, decide_eq_true_eq]

theorem decAdj_def (l a k y r : Nat) :
    decAdj l a k y r = if r > l then ((r + a) &&& k) + y else r := rfl

/-- The intermediate sum of the 16-bit decimal adder for operands whose three lower digits
are decimal. -/
theorem decSum16_eq (a m c : Nat) (hc : c ≤ 1)
    (h0 : a % 16 ≤ 9) (h1 : a / 16 % 16 ≤ 9) (h2 : a / 256 % 16 ≤ 9)
    (g0 : m % 16 ≤ 9) (g1 : m / 16 % 16 ≤ 9) (g2 : m / 256 % 16 ≤ 9) :
    ∃ d0 d1 d2, d0 ≤ 9 ∧ d1 ≤ 9 ∧ d2 ≤ 9 ∧
      a % 16 + m % 16 + c = 10 * decCarry (a % 16) (m % 16) c + d0 ∧
      a / 16 % 16 + m / 16 % 16 + decCarry (a % 16) (m % 16) c =
        10 * decCarry (a / 16 % 16) (m / 16 % 16) (decCarry (a % 16) (m % 16) c) + d1 ∧
      a / 256 % 16 + m / 256 % 16 +
          decCarry (a / 16 % 16) (m / 16 % 16) (decCarry (a % 16) (m % 16) c) =
        10 * decCarry (a / 256 % 16) (m / 256 % 16)
          (decCarry (a / 16 % 16) (m / 16 % 16) (decCarry (a % 16) (m % 16) c)) + d2 ∧
      decSum16 a m c = 4096 * (a / 4096 % 16 + m / 4096 % 16 +
        decCarry (a / 256 % 16) (m / 256 % 16)
          (decCarry (a / 16 % 16) (m / 16 % 16) (decCarry (a % 16) (m % 16) c))) +
        256 * d2 + 16 * d1 + d0 := by
  obtain ⟨-, -, -, d0, d1, d2, hd0, hd1, hd2, q0, q1, q2, q3⟩ :=
    bcd_stages (a % 16) (a / 16 % 16) (a / 256 % 16) (a / 4096 % 16)
      (m % 16) (m / 16 % 16) (m / 256 % 16) (m / 4096 % 16) c
      (decAdj 0x9 0x6 0xf 0x10 (a % 16 + m % 16 + c))
      (decAdj 0x9f 0x60 0xff 0x100 (a / 16 % 16 * 16 + m / 16 % 16 * 16 +
        decAdj 0x9 0x6 0xf 0x10 (a % 16 + m % 16 + c)))
      (decAdj 0x9ff 0x600 0xfff 0x1000 (a / 256 % 16 * 256 + m / 256 % 16 * 256 +
        decAdj 0x9f 0x60 0xff 0x100 (a / 16 % 16 * 16 + m / 16 % 16 * 16 +
          decAdj 0x9 0x6 0xf 0x10 (a % 16 + m % 16 + c))))
      _ h0 h1 h2 g0 g1 g2 hc
      (by rw [decAdj_def, and_f])
      (by rw [decAdj_def 0x9f, and_ff])
      (by rw [decAdj_def 0x9ff, and_fff])
      rfl
  refine ⟨d0, d1, d2, hd0, hd1, hd2, q0, q1, q2, ?_⟩
  rw [← q3]
  unfold decSum16
  rw [and_f000, and_f000, and_f00, and_f00, and_f0, and_f0, and_f, and_f]

theorem bcdWord_digits (d0 d1 d2 d3 : Nat) (h0 : d0 ≤ 9) (h1 : d1 ≤ 9) (h2 : d2 ≤ 9)
    (h3 : d3 ≤ 9) :
    bcdWord (1000 * d3 + 100 * d2 + 10 * d1 + d0) = 4096 * d3 + 256 * d2 + 16 * d1 + d0 := by
  unfold bcdWord
  have e3 : (1000 * d3 + 100 * d2 + 10 * d1 + d0) / 1000 = d3 := by omega
  have e2 : (1000 * d3 + 100 * d2 + 10 * d1 + d0) / 100 % 10 = d2 := by omega
  have e1 : (1000 * d3 + 100 * d2 + 10 * d1 + d0) / 10 % 10 = d1 := by omega
  have e0 : (1000 * d3 + 100 * d2 + 10 * d1 + d0) % 10 = d0 := by omega
  rw [e3, e2, e1, e0]
  omega

theorem bcdByte_digits (d0 d1 : Nat) (h0 : d0 ≤ 9) (h1 : d1 ≤ 9) :
    bcdByte (10 * d1 + d0) = 16 * d1 + d0 := by
  unfold bcdByte
  have e1 : (10 * d1 + d0) / 10 = d1 := by omega
  have e0 : (10 * d1 + d0) % 10 = d0 := by omega
  rw [e1, e0]
  omega

/-- The adjustment of the top digit: the final result and carry of the 16-bit decimal
adder are the packed sum modulo 10000 and the decimal carry. -/
theorem bcd_final16 (s3 d0 d1 d2 r n : Nat) (hs : s3 ≤ 19) (h0 : d0 ≤ 9) (h1 : d1 ≤ 9)
    (h2 : d2 ≤ 9) (er : r = 4096 * s3 + 256 * d2 + 16 * d1 + d0)
    (en : n = 1000 * s3 + 100 * d2 + 10 * d1 + d0) :
    (if r > 0x9fff then r + 0x6000 else r) % 0x10000 = bcdWord (n % 10000) ∧
    ((if r > 0x9fff then r + 0x6000 else r) > 0xffff ↔ n ≥ 10000) := by
  subst er en
  by_cases k : s3 ≥ 10
  · have c1 : 4096 * s3 + 256 * d2 + 16 * d1 + d0 > 0x9fff := by omega
    rw [if_pos c1]
    have e : (1000 * s3 + 100 * d2 + 10 * d1 + d0) % 10000 =
        1000 * (s3 - 10) + 100 * d2 + 10 * d1 + d0 := by omega
    rw [e, bcdWord_digits _ _ _ _ h0 h1 h2 (by omega)]
    constructor <;> omega
  · have c1 : ¬ 4096 * s3 + 256 * d2 + 16 * d1 + d0 > 0x9fff := by omega
    rw [if_neg c1]
    have e : (1000 * s3 + 100 * d2 + 10 * d1 + d0) % 10000 =
        1000 * s3 + 100 * d2 + 10 * d1 + d0 := by omega
    rw [e, bcdWord_digits _ _ _ _ h0 h1 h2 (by omega)]
    constructor <;> omega

theorem digits16 (a : Nat) (ha : a < 0x10000) :
    a = 4096 * (a / 4096 % 16) + 256 * (a / 256 % 16) + 16 * (a / 16 % 16) + a % 16 := by
  omega

theorem overflow16 (a m r : Nat) (ha : a < 0x10000) (hm : m < 0x10000) :
    (a / 32768 % 2 * 32768 = m / 32768 % 2 * 32768 ∧
      ¬ m / 32768 % 2 * 32768 = r / 32768 % 2 * 32768) ↔
    ((a < 32768 ∧ m < 32768 ∧ r % 65536 ≥ 32768) ∨
      (a ≥ 32768 ∧ m ≥ 32768 ∧ r % 65536 < 32768)) := by
  omega

theorem overflow8 (a m r : Nat) (hm : m < 256) :
    (a / 128 % 2 * 128 = m / 128 % 2 * 128 ∧ ¬ m / 128 % 2 * 128 = r / 128 % 2 * 128) ↔
    ((a % 256 < 128 ∧ m < 128 ∧ r % 256 ≥ 128) ∨ (a % 256 ≥ 128 ∧ m ≥ 128 ∧ r % 256 < 128)) := by
  omega

/-- Decimal `adc16`, for operands whose three lower digits are decimal: the V flag is the
signed overflow of the intermediate sum `a + m + c + 6 k0 + 0x60 k1 + 0x600 k2`. -/
theorem adc16_decimal_v (cpu : Cpu) (m : Nat) (hd : cpu.d = true) (ha : cpu.a < 0x10000)
    (hm : m < 0x10000)
    (h0 : cpu.a % 16 ≤ 9) (h1 : cpu.a / 16 % 16 ≤ 9) (h2 : cpu.a / 256 % 16 ≤ 9)
    (g0 : m % 16 ≤ 9) (g1 : m / 16 % 16 ≤ 9) (g2 : m / 256 % 16 ≤ 9) :
    decSum16 cpu.a m cpu.c.toNat = cpu.a + m + cpu.c.toNat +
      6 * decCarry (cpu.a % 16) (m % 16) cpu.c.toNat +
      0x60 * decCarry (cpu.a / 16 % 16) (m / 16 % 16)
        (decCarry (cpu.a % 16) (m % 16) cpu.c.toNat) +
      0x600 * decCarry (cpu.a / 256 % 16) (m / 256 % 16)
        (decCarry (cpu.a / 16 % 16) (m / 16 % 16)
          (decCarry (cpu.a % 16) (m % 16) cpu.c.toNat)) ∧
    (adc16 cpu m).v = decide
      ((cpu.a < 32768 ∧ m < 32768 ∧ decSum16 cpu.a m cpu.c.toNat % 65536 ≥ 32768) ∨
        (cpu.a ≥ 32768 ∧ m ≥ 32768 ∧ decSum16 cpu.a m cpu.c.toNat % 65536 < 32768)) := by
  have hc := bool_toNat_le cpu.c
  obtain ⟨d0, d1, d2, hd0, hd1, hd2, q0, q1, q2, q3⟩ :=
    decSum16_eq cpu.a m cpu.c.toNat hc h0 h1 h2 g0 g1 g2
  constructor
  · rw [q3]
    have ea := digits16 cpu.a ha
    have em := digits16 m hm
    clear h0 h1 h2 g0 g1 g2 hd0 hd1 hd2 q3 hd
    generalize decCarry (cpu.a % 16) (m % 16) cpu.c.toNat = k0 at *
    generalize decCarry (cpu.a / 16 % 16) (m / 16 % 16) k0 = k1 at *
    generalize decCarry (cpu.a / 256 % 16) (m / 256 % 16) k1 = k2 at *
    generalize cpu.a / 4096 % 16 = a3 at *
    generalize cpu.a / 256 % 16 = a2 at *
    generalize cpu.a / 16 % 16 = a1 at *
    generalize cpu.a % 16 = a0 at *
    generalize m / 4096 % 16 = m3 at *
    generalize m / 256 % 16 = m2 at *
    generalize m / 16 % 16 = m1 at *
    generalize m % 16 = m0 at *
    omega
  · rw [adc16_dec_eq cpu m hd]
    simp only [and_8000]
    rw [Bool.eq_iff_iff]
    simp only [Bool.and_eq_true, beq_iff_eq, bne_iff_ne, ne_eq, decide_eq_true_eq]
    exact overflow16 cpu.a m _ ha hm
/-- Decimal `adc16` on packed-BCD operands is BCD addition. -/
theorem adc16_bcd (cpu : Cpu) (m : Nat) (hd : cpu.d = true) (ha : cpu.a < 0x10000)
    (hm : m < 0x10000)
    (h0 : cpu.a % 16 ≤ 9) (h1 : cpu.a / 16 % 16 ≤ 9) (h2 : cpu.a / 256 % 16 ≤ 9)
    (h3 : cpu.a / 4096 ≤ 9)
    (g0 : m % 16 ≤ 9) (g1 : m / 16 % 16 ≤ 9) (g2 : m / 256 % 16 ≤ 9) (g3 : m / 4096 ≤ 9) :
    (adc16 cpu m).a = bcdWord ((bcdValue16 cpu.a + bcdValue16 m + cpu.c.toNat) % 10000) ∧
    (adc16 cpu m).c = decide (bcdValue16 cpu.a + bcdValue16 m + cpu.c.toNat ≥ 10000) := by
  have hc := bool_toNat_le cpu.c
  have e3a : cpu.a / 4096 % 16 = cpu.a / 4096 := Nat.mod_eq_of_lt (lt_of_le_of_lt h3 (by norm_num))
  have e3m : m / 4096 % 16 = m / 4096 := Nat.mod_eq_of_lt (lt_of_le_of_lt g3 (by norm_num))
  obtain ⟨d0, d1, d2, hd0, hd1, hd2, q0, q1, q2, q3⟩ :=
    decSum16_eq cpu.a m cpu.c.toNat hc h0 h1 h2 g0 g1 g2
  have k2le := decCarry_le (cpu.a / 256 % 16) (m / 256 % 16)
    (decCarry (cpu.a / 16 % 16) (m / 16 % 16) (decCarry (cpu.a % 16) (m % 16) cpu.c.toNat))
  have hs : cpu.a / 4096 + m / 4096 +
      decCarry (cpu.a / 256 % 16) (m / 256 % 16)
        (decCarry (cpu.a / 16 % 16) (m / 16 % 16)
          (decCarry (cpu.a % 16) (m % 16) cpu.c.toNat)) ≤ 19 :=
    Nat.add_le_add (Nat.add_le_add h3 g3) k2le
  rw [e3a, e3m] at q3
  have en : bcdValue16 cpu.a + bcdValue16 m + cpu.c.toNat =
      1000 * (cpu.a / 4096 + m / 4096 +
        decCarry (cpu.a / 256 % 16) (m / 256 % 16)
          (decCarry (cpu.a / 16 % 16) (m / 16 % 16)
            (decCarry (cpu.a % 16) (m % 16) cpu.c.toNat))) + 100 * d2 + 10 * d1 + d0 := by
    unfold bcdValue16
    clear h0 h1 h2 g0 g1 g2 hd0 hd1 hd2 q3 hd e3a e3m k2le ha hm h3 g3 hs
    generalize decCarry (cpu.a % 16) (m % 16) cpu.c.toNat = k0 at *
    generalize decCarry (cpu.a / 16 % 16) (m / 16 % 16) k0 = k1 at *
    generalize decCarry (cpu.a / 256 % 16) (m / 256 % 16) k1 = k2 at *
    generalize cpu.a / 4096 = a3 at *
    generalize cpu.a / 256 % 16 = a2 at *
    generalize cpu.a / 16 % 16 = a1 at *
    generalize cpu.a % 16 = a0 at *
    generalize m / 4096 = m3 at *
    generalize m / 256 % 16 = m2 at *
    generalize m / 16 % 16 = m1 at *
    generalize m % 16 = m0 at *
    omega
  obtain ⟨r1, r2⟩ := bcd_final16 _ d0 d1 d2 _ _ hs hd0 hd1 hd2 q3 en
  rw [adc16_dec_eq cpu m hd]
  dsimp only
  constructor
  · exact r1
  · rw [Bool.eq_iff_iff]
    simp only [decide_eq_true_eq]
    exact r2
/-- The intermediate sum of the 8-bit decimal adder for operands with decimal low digits. -/
theorem decSum8_eq (a m c : Nat) (hc : c ≤ 1) (h0 : a % 16 ≤ 9) (g0 : m % 16 ≤ 9) :
    ∃ d0, d0 ≤ 9 ∧ a % 16 + m % 16 + c = 10 * decCarry (a % 16) (m % 16) c + d0 ∧
      decSum8 a m c = 16 * (a / 16 % 16 + m / 16 % 16 + decCarry (a % 16) (m % 16) c) + d0 := by
  have k0le := decCarry_le (a % 16) (m % 16) c
  have s0 : ∃ d0, d0 ≤ 9 ∧ a % 16 + m % 16 + c = 10 * decCarry (a % 16) (m % 16) c + d0 := by
    unfold decCarry
    split_ifs with hh
    · exact ⟨a % 16 + m % 16 + c - 10, by omega, by omega⟩
    · exact ⟨a % 16 + m % 16 + c, by omega, by omega⟩
  obtain ⟨d0, hd0, q0⟩ := s0
  refine ⟨d0, hd0, q0, ?_⟩
  unfold decSum8
  rw [decAdj_def, and_f0, and_f0, and_f, and_f, and_f]
  generalize a / 16 % 16 = a1 at *
  generalize m / 16 % 16 = m1 at *
  generalize a % 16 = a0 at *
  generalize m % 16 = m0 at *
  revert q0 k0le
  unfold decCarry
  split_ifs <;> intro q0 k0le <;> omega

theorem bcd_final8 (s1 d0 r n : Nat) (hs : s1 ≤ 19) (h0 : d0 ≤ 9)
    (er : r = 16 * s1 + d0) (en : n = 10 * s1 + d0) :
    (if r > 0x9f then r + 0x60 else r) % 256 = bcdByte (n % 100) ∧
    ((if r > 0x9f then r + 0x60 else r) > 0xff ↔ n ≥ 100) := by
  subst er en
  by_cases k : s1 ≥ 10
  · have c1 : 16 * s1 + d0 > 0x9f := by omega
    rw [if_pos c1]
    have e : (10 * s1 + d0) % 100 = 10 * (s1 - 10) + d0 := by omega
    rw [e, bcdByte_digits _ _ h0 (by omega)]
    constructor <;> omega
  · have c1 : ¬ 16 * s1 + d0 > 0x9f := by omega
    rw [if_neg c1]
    have e : (10 * s1 + d0) % 100 = 10 * s1 + d0 := by omega
    rw [e, bcdByte_digits _ _ h0 (by omega)]
    constructor <;> omega

theorem digits8 (a : Nat) : a % 256 = 16 * (a / 16 % 16) + a % 16 := by omega

/-- Decimal `adc8`, for operands whose low digits are decimal: the V flag is the signed
overflow of the intermediate sum `a + m + c + 6 k0`. -/
theorem adc8_decimal_v (cpu : Cpu) (m : Nat) (hd : cpu.d = true) (hm : m < 256)
    (h0 : cpu.a % 16 ≤ 9) (g0 : m % 16 ≤ 9) :
    decSum8 cpu.a m cpu.c.toNat =
      cpu.a % 256 + m + cpu.c.toNat + 6 * decCarry (cpu.a % 16) (m % 16) cpu.c.toNat ∧
    (adc8 cpu m).v = decide
      ((cpu.a % 256 < 128 ∧ m < 128 ∧ decSum8 cpu.a m cpu.c.toNat % 256 ≥ 128) ∨
        (cpu.a % 256 ≥ 128 ∧ m ≥ 128 ∧ decSum8 cpu.a m cpu.c.toNat % 256 < 128)) := by
  have hc := bool_toNat_le cpu.c
  obtain ⟨d0, hd0, q0, q1⟩ := decSum8_eq cpu.a m cpu.c.toNat hc h0 g0
  constructor
  · rw [q1, digits8 cpu.a]
    have em : m = 16 * (m / 16 % 16) + m % 16 := by omega
    clear h0 g0 hd0 q1 hd
    generalize decCarry (cpu.a % 16) (m % 16) cpu.c.toNat = k0 at *
    generalize cpu.a / 16 % 16 = a1 at *
    generalize cpu.a % 16 = a0 at *
    generalize m / 16 % 16 = m1 at *
    generalize m % 16 = m0 at *
    omega
  · rw [adc8_dec_eq cpu m hd]
    simp only [and_80]
    rw [Bool.eq_iff_iff]
    simp only [Bool.and_eq_true, beq_iff_eq, bne_iff_ne, ne_eq, decide_eq_true_eq]
    exact overflow8 cpu.a m _ hm

/-- Decimal `adc8` on packed-BCD operands is BCD addition; the upper byte of A is kept. -/
theorem adc8_bcd (cpu : Cpu) (m : Nat) (hd : cpu.d = true) (hm : m < 256)
    (h0 : cpu.a % 16 ≤ 9) (h1 : cpu.a / 16 % 16 ≤ 9) (g0 : m % 16 ≤ 9) (g1 : m / 16 ≤ 9) :
    (adc8 cpu m).a = cpu.a / 256 % 256 * 256 +
      bcdByte ((bcdValue8 (cpu.a % 256) + bcdValue8 m + cpu.c.toNat) % 100) ∧
    (adc8 cpu m).c = decide (bcdValue8 (cpu.a % 256) + bcdValue8 m + cpu.c.toNat ≥ 100) := by
  have hc := bool_toNat_le cpu.c
  have e1m : m / 16 % 16 = m / 16 := Nat.mod_eq_of_lt (lt_of_le_of_lt g1 (by norm_num))
  have e1a : cpu.a % 256 / 16 = cpu.a / 16 % 16 := by clear hd hm h0 h1 g0 g1 hc e1m; omega
  have e0a : cpu.a % 256 % 16 = cpu.a % 16 := by clear hd hm h0 h1 g0 g1 hc e1m e1a; omega
  obtain ⟨d0, hd0, q0, q1⟩ := decSum8_eq cpu.a m cpu.c.toNat hc h0 g0
  have k0le := decCarry_le (cpu.a % 16) (m % 16) cpu.c.toNat
  have hs : cpu.a / 16 % 16 + m / 16 + decCarry (cpu.a % 16) (m % 16) cpu.c.toNat ≤ 19 :=
    Nat.add_le_add (Nat.add_le_add h1 g1) k0le
  rw [e1m] at q1
  have en : bcdValue8 (cpu.a % 256) + bcdValue8 m + cpu.c.toNat =
      10 * (cpu.a / 16 % 16 + m / 16 + decCarry (cpu.a % 16) (m % 16) cpu.c.toNat) + d0 := by
    unfold bcdValue8
    rw [e1a, e0a]
    clear h0 h1 g0 g1 hd0 q1 hd e1a e0a e1m k0le hm hs
    generalize decCarry (cpu.a % 16) (m % 16) cpu.c.toNat = k0 at *
    generalize cpu.a / 16 % 16 = a1 at *
    generalize cpu.a % 16 = a0 at *
    generalize m / 16 = m1 at *
    generalize m % 16 = m0 at *
    omega
  obtain ⟨r1, r2⟩ := bcd_final8 _ d0 _ _ hs hd0 q1 en
  rw [adc8_dec_eq cpu m hd]
  dsimp only
  constructor
  · rw [and_ff00, and_ff, or_high_low _ _ (Nat.mod_lt _ (by norm_num)), r1]
  · rw [Bool.eq_iff_iff]
    simp only [decide_eq_true_eq]
    exact r2

/-- C23: decimal ADC is BCD addition.  With D = 1 and packed-BCD operands (every nibble of
the accumulator and of the operand read is a decimal digit), `cpu_adc` leaves in A the
packed-BCD encoding of `(dec(a) + dec(m) + c) mod 100` with `C = (dec(a) + dec(m) + c >= 100)`
when M = 1 (the upper byte of A is kept), and of the sum modulo 10000 with
`C = (sum >= 10000)` when M = 0. -/
theorem C23_decimal_adc_is_bcd {μ : Type} (h : Handlers μ) (low high : Nat) (s : Machine μ)
    (hd : s.cpu.d = true) (ha : s.cpu.a < 0x10000) :
    wp (cpu_adc h low high) (fun _ s' =>
      (s.cpu.mf = true → s.cpu.a % 16 ≤ 9 → s.cpu.a / 16 % 16 ≤ 9 →
        (h.read s.mem low).1 % 256 % 16 ≤ 9 → (h.read s.mem low).1 % 256 / 16 ≤ 9 →
        s'.cpu.a = s.cpu.a / 256 * 256 +
          bcdByte ((bcdValue8 (s.cpu.a % 256) + bcdValue8 ((h.read s.mem low).1 % 256) +
            s.cpu.c.toNat) % 100) ∧
        s'.cpu.c = decide (bcdValue8 (s.cpu.a % 256) + bcdValue8 ((h.read s.mem low).1 % 256) +
            s.cpu.c.toNat ≥ 100)) ∧
      (s.cpu.mf = false →
        ∃ lo hi m1, lo = (h.read s.mem low).1 % 256 ∧ hi = (h.read m1 high).1 % 256 ∧
          (s.cpu.a % 16 ≤ 9 → s.cpu.a / 16 % 16 ≤ 9 → s.cpu.a / 256 % 16 ≤ 9 →
            s.cpu.a / 4096 ≤ 9 → lo % 16 ≤ 9 → lo / 16 ≤ 9 → hi % 16 ≤ 9 → hi / 16 ≤ 9 →
            s'.cpu.a = bcdWord ((bcdValue16 s.cpu.a + bcdValue16 (lo + 256 * hi) +
              s.cpu.c.toNat) % 10000) ∧
            s'.cpu.c = decide (bcdValue16 s.cpu.a + bcdValue16 (lo + 256 * hi) +
              s.cpu.c.toNat ≥ 10000)))) s := by
  by_cases hm : s.cpu.mf = true
  · refine wp_mono (wp_adc8 h low high s hm) ?_
    intro _ s' ⟨_, e2, e3, _, _, _⟩
    have hb : (h.read s.mem low).1 % 256 < 256 := Nat.mod_lt _ (by norm_num)
    refine ⟨fun _ h0 h1 g0 g1 => ?_, fun hf => ?_⟩
    · obtain ⟨b1, b2⟩ := adc8_bcd s.cpu _ hd hb h0 h1 g0 g1
      have e : s.cpu.a / 256 % 256 = s.cpu.a / 256 :=
        Nat.mod_eq_of_lt ((Nat.div_lt_iff_lt_mul (by norm_num)).mpr (by omega))
      rw [e] at b1
      exact ⟨e2.trans b1, e3.trans b2⟩
    · rw [hm] at hf; exact absurd hf (by decide)
  · have hmf : s.cpu.mf = false := by simpa using hm
    refine wp_mono (wp_adc16 h low high s hmf) ?_
    intro _ s' ⟨lo, hi, m1, hlo, hhi, _, e2, e3, _, _, _⟩
    have hl : lo < 256 := by rw [hlo]; exact Nat.mod_lt _ (by norm_num)
    have hh : hi < 256 := by rw [hhi]; exact Nat.mod_lt _ (by norm_num)
    have ew : lo ||| (hi <<< 8) = lo + 256 * hi := byte_or_shl8 lo hi hl
    rw [ew] at e2 e3
    refine ⟨fun ht => absurd ht hm, fun _ => ⟨lo, hi, m1, hlo, hhi,
      fun h0 h1 h2 h3 g0 g1 g2 g3 => ?_⟩⟩
    have w0 : (lo + 256 * hi) % 16 = lo % 16 := by clear e2 e3 ew; omega
    have w1 : (lo + 256 * hi) / 16 % 16 = lo / 16 := by clear e2 e3 ew; omega
    have w2 : (lo + 256 * hi) / 256 % 16 = hi % 16 := by clear e2 e3 ew; omega
    have w3 : (lo + 256 * hi) / 4096 = hi / 16 := by clear e2 e3 ew; omega
    obtain ⟨b1, b2⟩ := adc16_bcd s.cpu (lo + 256 * hi) hd ha (by clear e2 e3 ew; omega)
      h0 h1 h2 h3 (by rw [w0]; exact g0) (by rw [w1]; exact g1) (by rw [w2]; exact g2)
      (by rw [w3]; exact g3)
    exact ⟨e2.trans b1, e3.trans b2⟩

theorem C23_decimal_adc_is_bcd_witness :
    demoDecimalState.cpu.d = true ∧
    demoDecimalState.cpu.a < 0x10000 ∧
    wp (cpu_adc (romHandlers demoRom) 0x10 0x11) (fun _ s' =>
      (demoDecimalState.cpu.mf = true → demoDecimalState.cpu.a % 16 ≤ 9 → demoDecimalState.cpu.a / 16 % 16 ≤ 9 →
        ((romHandlers demoRom).read demoDecimalState.mem 0x10).1 % 256 % 16 ≤ 9 → ((romHandlers demoRom).read demoDecimalState.mem 0x10).1 % 256 / 16 ≤ 9 →
        s'.cpu.a = demoDecimalState.cpu.a / 256 * 256 +
          bcdByte ((bcdValue8 (demoDecimalState.cpu.a % 256) + bcdValue8 (((romHandlers demoRom).read demoDecimalState.mem 0x10).1 % 256) +
            demoDecimalState.cpu.c.toNat) % 100) ∧
        s'.cpu.c = decide (bcdValue8 (demoDecimalState.cpu.a % 256) + bcdValue8 (((romHandlers demoRom).read demoDecimalState.mem 0x10).1 % 256) +
            demoDecimalState.cpu.c.toNat ≥ 100)) ∧
      (demoDecimalState.cpu.mf = false →
        ∃ lo hi m1, lo = ((romHandlers demoRom).read demoDecimalState.mem 0x10).1 % 256 ∧ hi = ((romHandlers demoRom).read m1 0x11).1 % 256 ∧
          (demoDecimalState.cpu.a % 16 ≤ 9 → demoDecimalState.cpu.a / 16 % 16 ≤ 9 → demoDecimalState.cpu.a / 256 % 16 ≤ 9 →
            demoDecimalState.cpu.a / 4096 ≤ 9 → lo % 16 ≤ 9 → lo / 16 ≤ 9 → hi % 16 ≤ 9 → hi / 16 ≤ 9 →
            s'.cpu.a = bcdWord ((bcdValue16 demoDecimalState.cpu.a + bcdValue16 (lo + 256 * hi) +
              demoDecimalState.cpu.c.toNat) % 10000) ∧
            s'.cpu.c = decide (bcdValue16 demoDecimalState.cpu.a + bcdValue16 (lo + 256 * hi) +
              demoDecimalState.cpu.c.toNat ≥ 10000)))) demoDecimalState :=
  ⟨by decide, by decide,
    C23_decimal_adc_is_bcd (romHandlers demoRom) 0x10 0x11 demoDecimalState (by decide) (by decide)⟩

/-! ## The V flag of decimal-mode `cpu_adc` -/

/-- One digit column of the decimal adder in arithmetic form: a column sum `r` above
`limit` is replaced by `(r + add) mod modulus`, plus a carry of `modulus` into the next
column. -/
def decStage (limit add modulus r : Nat) : Nat :=
  if r > limit then (r + add) % modulus + modulus else r

/-- The partial sum from which 8-bit decimal `cpu_adc` takes V: the low digit column is
adjusted, the high digits are added in binary. -/
def decimalPartial8 (a m c : Nat) : Nat :=
  a / 16 % 16 * 16 + m / 16 % 16 * 16 + decStage 9 6 16 (a % 16 + m % 16 + c)

/-- The partial sum from which 16-bit decimal `cpu_adc` takes V: the three lower digit
columns are adjusted in turn, the top digits are added in binary. -/
def decimalPartial16 (a m c : Nat) : Nat :=
  a / 4096 % 16 * 4096 + m / 4096 % 16 * 4096 +
    decStage 0x9ff 0x600 4096 (a / 256 % 16 * 256 + m / 256 % 16 * 256 +
      decStage 0x9f 0x60 256 (a / 16 % 16 * 16 + m / 16 % 16 * 16 +
        decStage 9 6 16 (a % 16 + m % 16 + c)))

theorem decAdj_stage (r : Nat) :
    decAdj 0x9 0x6 0xf 0x10 r = decStage 9 6 16 r ∧
    decAdj 0x9f 0x60 0xff 0x100 r = decStage 0x9f 0x60 256 r ∧
    decAdj 0x9ff 0x600 0xfff 0x1000 r = decStage 0x9ff 0x600 4096 r := by
  unfold decAdj decStage
  rw [and_f, and_ff, and_fff]
  exact ⟨rfl, rfl, rfl⟩

theorem decSum8_arith (a m c : Nat) : decSum8 a m c = decimalPartial8 a m c := by
  unfold decSum8 decimalPartial8
  rw [(decAdj_stage _).1, and_f0, and_f0, and_f, and_f]

theorem decSum16_arith (a m c : Nat) : decSum16 a m c = decimalPartial16 a m c := by
  unfold decSum16 decimalPartial16
  rw [(decAdj_stage _).1, (decAdj_stage _).2.1, (decAdj_stage _).2.2, and_f000, and_f000,
    and_f00, and_f00, and_f0, and_f0, and_f, and_f]

/-- The V flag of decimal `adc8`, for every accumulator, operand byte and carry. -/
theorem adc8_v_partial (cpu : Cpu) (m : Nat) (hd : cpu.d = true) (hm : m < 256) :
    (adc8 cpu m).v = decide
      ((cpu.a % 256 < 128 ∧ m < 128 ∧ decimalPartial8 cpu.a m cpu.c.toNat % 256 ≥ 128) ∨
        (cpu.a % 256 ≥ 128 ∧ m ≥ 128 ∧ decimalPartial8 cpu.a m cpu.c.toNat % 256 < 128)) := by
  rw [adc8_dec_eq cpu m hd, decSum8_arith]
  simp only [and_80]
  rw [Bool.eq_iff_iff]
  simp only [Bool.and_eq_true, beq_iff_eq, bne_iff_ne, ne_eq, decide_eq_true_eq]
  exact overflow8 cpu.a m _ hm

/-- The V flag of decimal `adc16`, for every accumulator, operand word and carry. -/
theorem adc16_v_partial (cpu : Cpu) (m : Nat) (hd : cpu.d = true) (ha : cpu.a < 0x10000)
    (hm : m < 0x10000) :
    (adc16 cpu m).v = decide
      ((cpu.a < 32768 ∧ m < 32768 ∧ decimalPartial16 cpu.a m cpu.c.toNat % 65536 ≥ 32768) ∨
        (cpu.a ≥ 32768 ∧ m ≥ 32768 ∧ decimalPartial16 cpu.a m cpu.c.toNat % 65536 < 32768)) := by
  rw [adc16_dec_eq cpu m hd, decSum16_arith]
  simp only [and_8000]
  rw [Bool.eq_iff_iff]
  simp only [Bool.and_eq_true, beq_iff_eq, bne_iff_ne, ne_eq, decide_eq_true_eq]
  exact overflow16 cpu.a m _ ha hm

/-- C33 (counterexample): in decimal mode with an 8-bit accumulator, A = 0x52, the operand
0x28 and carry clear, `cpu_adc` leaves A = 0x80 with V set, although the plain binary sum
0x52 + 0x28 = 0x7A has no signed overflow. -/
theorem C33_v_set_without_binary_overflow :
    ((cpu_adc (romHandlers demoRom) 0x10 0x11).run demoDecimalState).2.cpu.v = true ∧
    ((cpu_adc (romHandlers demoRom) 0x10 0x11).run demoDecimalState).2.cpu.a = 0x80 ∧
    demoDecimalState.cpu.a = 0x52 ∧ ((romHandlers demoRom).read () 0x10).1 = 0x28 ∧
    demoDecimalState.cpu.c = false ∧
    ¬ (signedOf 8 0x52 + signedOf 8 0x28 + (0 : Int) < -128 ∨
      signedOf 8 0x52 + signedOf 8 0x28 + (0 : Int) > 127) := by
  decide

/-- C33 (amended): in decimal mode, for every accumulator value, operand and carry-in, the V
flag left by `cpu_adc` is the signed-overflow flag of the partial sum `r` taken after the
decimal adjustment of the lower digit columns and before that of the top digit
(`decimalPartial8`, `decimalPartial16`): V is set exactly when `a` and `m` have the same
sign bit and `r` has the other one.  When the digits below the top one are decimal,
`r = a + m + c + 6 k0` (8-bit) and `r = a + m + c + 6 k0 + 0x60 k1 + 0x600 k2` (16-bit), where
`k0`, `k1`, `k2` are the decimal carries out of the lower digits. -/
theorem C33_decimal_v_flag {μ : Type} (h : Handlers μ) (low high : Nat) (s : Machine μ)
    (hd : s.cpu.d = true) (ha : s.cpu.a < 0x10000) :
    wp (cpu_adc h low high) (fun _ s' =>
      (s.cpu.mf = true →
        s'.cpu.v = decide
          ((s.cpu.a % 256 < 128 ∧ (h.read s.mem low).1 % 256 < 128 ∧
            decimalPartial8 s.cpu.a ((h.read s.mem low).1 % 256) s.cpu.c.toNat % 256 ≥ 128) ∨
          (s.cpu.a % 256 ≥ 128 ∧ (h.read s.mem low).1 % 256 ≥ 128 ∧
            decimalPartial8 s.cpu.a ((h.read s.mem low).1 % 256) s.cpu.c.toNat % 256 < 128)) ∧
        (s.cpu.a % 16 ≤ 9 → (h.read s.mem low).1 % 256 % 16 ≤ 9 →
          decimalPartial8 s.cpu.a ((h.read s.mem low).1 % 256) s.cpu.c.toNat =
            s.cpu.a % 256 + (h.read s.mem low).1 % 256 + s.cpu.c.toNat +
              6 * decCarry (s.cpu.a % 16) ((h.read s.mem low).1 % 256 % 16) s.cpu.c.toNat)) ∧
      (s.cpu.mf = false →
        ∃ lo hi m1, lo = (h.read s.mem low).1 % 256 ∧ hi = (h.read m1 high).1 % 256 ∧
          s'.cpu.v = decide
            ((s.cpu.a < 32768 ∧ lo + 256 * hi < 32768 ∧
              decimalPartial16 s.cpu.a (lo + 256 * hi) s.cpu.c.toNat % 65536 ≥ 32768) ∨
            (s.cpu.a ≥ 32768 ∧ lo + 256 * hi ≥ 32768 ∧
              decimalPartial16 s.cpu.a (lo + 256 * hi) s.cpu.c.toNat % 65536 < 32768)) ∧
          (s.cpu.a % 16 ≤ 9 → s.cpu.a / 16 % 16 ≤ 9 → s.cpu.a / 256 % 16 ≤ 9 →
            lo % 16 ≤ 9 → lo / 16 ≤ 9 → hi % 16 ≤ 9 →
            decimalPartial16 s.cpu.a (lo + 256 * hi) s.cpu.c.toNat =
              s.cpu.a + (lo + 256 * hi) + s.cpu.c.toNat +
                6 * decCarry (s.cpu.a % 16) (lo % 16) s.cpu.c.toNat +
                0x60 * decCarry (s.cpu.a / 16 % 16) (lo / 16)
                  (decCarry (s.cpu.a % 16) (lo % 16) s.cpu.c.toNat) +
                0x600 * decCarry (s.cpu.a / 256 % 16) (hi % 16)
                  (decCarry (s.cpu.a / 16 % 16) (lo / 16)
                    (decCarry (s.cpu.a % 16) (lo % 16) s.cpu.c.toNat))))) s := by
  by_cases hm : s.cpu.mf = true
  · refine wp_mono (wp_adc8 h low high s hm) ?_
    intro _ s' ⟨_, _, _, e4, _, _⟩
    have hb : (h.read s.mem low).1 % 256 < 256 := Nat.mod_lt _ (by norm_num)
    refine ⟨fun _ => ⟨?_, fun h0 g0 => ?_⟩, fun hf => ?_⟩
    · rw [e4]
      exact adc8_v_partial s.cpu _ hd hb
    · rw [← decSum8_arith]
      exact (adc8_decimal_v s.cpu _ hd hb h0 g0).1
    · rw [hm] at hf; exact absurd hf (by decide)
  · have hmf : s.cpu.mf = false := by simpa using hm
    refine wp_mono (wp_adc16 h low high s hmf) ?_
    intro _ s' ⟨lo, hi, m1, hlo, hhi, _, _, _, e4, _, _⟩
    have hl : lo < 256 := by rw [hlo]; exact Nat.mod_lt _ (by norm_num)
    have hh : hi < 256 := by rw [hhi]; exact Nat.mod_lt _ (by norm_num)
    have ew : lo ||| (hi <<< 8) = lo + 256 * hi := byte_or_shl8 lo hi hl
    rw [ew] at e4
    have hw : lo + 256 * hi < 0x10000 := by clear e4 ew; omega
    refine ⟨fun ht => absurd ht hm, fun _ => ⟨lo, hi, m1, hlo, hhi, ?_,
      fun h0 h1 h2 g0 g1 g2 => ?_⟩⟩
    · rw [e4]
      exact adc16_v_partial s.cpu _ hd ha hw
    · have w0 : (lo + 256 * hi) % 16 = lo % 16 := by clear e4 ew; omega
      have w1 : (lo + 256 * hi) / 16 % 16 = lo / 16 := by clear e4 ew; omega
      have w2 : (lo + 256 * hi) / 256 % 16 = hi % 16 := by clear e4 ew; omega
      have b1 := (adc16_decimal_v s.cpu (lo + 256 * hi) hd ha hw
        h0 h1 h2 (by rw [w0]; exact g0) (by rw [w1]; exact g1) (by rw [w2]; exact g2)).1
      rw [w0, w1, w2] at b1
      rw [← decSum16_arith]
      exact b1

theorem C33_decimal_v_flag_witness :
    demoDecimalState.cpu.d = true ∧
    demoDecimalState.cpu.a < 0x10000 ∧
    wp (cpu_adc (romHandlers demoRom) 0x10 0x11) (fun _ s' =>
      (demoDecimalState.cpu.mf = true →
        s'.cpu.v = decide
          ((demoDecimalState.cpu.a % 256 < 128 ∧ ((romHandlers demoRom).read demoDecimalState.mem 0x10).1 % 256 < 128 ∧
            decimalPartial8 demoDecimalState.cpu.a (((romHandlers demoRom).read demoDecimalState.mem 0x10).1 % 256) demoDecimalState.cpu.c.toNat % 256 ≥ 128) ∨
          (demoDecimalState.cpu.a % 256 ≥ 128 ∧ ((romHandlers demoRom).read demoDecimalState.mem 0x10).1 % 256 ≥ 128 ∧
            decimalPartial8 demoDecimalState.cpu.a (((romHandlers demoRom).read demoDecimalState.mem 0x10).1 % 256) demoDecimalState.cpu.c.toNat % 256 < 128)) ∧
        (demoDecimalState.cpu.a % 16 ≤ 9 → ((romHandlers demoRom).read demoDecimalState.mem 0x10).1 % 256 % 16 ≤ 9 →
          decimalPartial8 demoDecimalState.cpu.a (((romHandlers demoRom).read demoDecimalState.mem 0x10).1 % 256) demoDecimalState.cpu.c.toNat =
            demoDecimalState.cpu.a % 256 + ((romHandlers demoRom).read demoDecimalState.mem 0x10).1 % 256 + demoDecimalState.cpu.c.toNat +
              6 * decCarry (demoDecimalState.cpu.a % 16) (((romHandlers demoRom).read demoDecimalState.mem 0x10).1 % 256 % 16) demoDecimalState.cpu.c.toNat)) ∧
      (demoDecimalState.cpu.mf = false →
        ∃ lo hi m1, lo = ((romHandlers demoRom).read demoDecimalState.mem 0x10).1 % 256 ∧ hi = ((romHandlers demoRom).read m1 0x11).1 % 256 ∧
          s'.cpu.v = decide
            ((demoDecimalState.cpu.a < 32768 ∧ lo + 256 * hi < 32768 ∧
              decimalPartial16 demoDecimalState.cpu.a (lo + 256 * hi) demoDecimalState.cpu.c.toNat % 65536 ≥ 32768) ∨
            (demoDecimalState.cpu.a ≥ 32768 ∧ lo + 256 * hi ≥ 32768 ∧
              decimalPartial16 demoDecimalState.cpu.a (lo + 256 * hi) demoDecimalState.cpu.c.toNat % 65536 < 32768)) ∧
          (demoDecimalState.cpu.a % 16 ≤ 9 → demoDecimalState.cpu.a / 16 % 16 ≤ 9 → demoDecimalState.cpu.a / 256 % 16 ≤ 9 →
            lo % 16 ≤ 9 → lo / 16 ≤ 9 → hi % 16 ≤ 9 →
            decimalPartial16 demoDecimalState.cpu.a (lo + 256 * hi) demoDecimalState.cpu.c.toNat =
              demoDecimalState.cpu.a + (lo + 256 * hi) + demoDecimalState.cpu.c.toNat +
                6 * decCarry (demoDecimalState.cpu.a % 16) (lo % 16) demoDecimalState.cpu.c.toNat +
                0x60 * decCarry (demoDecimalState.cpu.a / 16 % 16) (lo / 16)
                  (decCarry (demoDecimalState.cpu.a % 16) (lo % 16) demoDecimalState.cpu.c.toNat) +
                0x600 * decCarry (demoDecimalState.cpu.a / 256 % 16) (hi % 16)
                  (decCarry (demoDecimalState.cpu.a / 16 % 16) (lo / 16)
                    (decCarry (demoDecimalState.cpu.a % 16) (lo % 16) demoDecimalState.cpu.c.toNat))))) demoDecimalState :=
  ⟨by decide, by decide,
    C33_decimal_v_flag (romHandlers demoRom) 0x10 0x11 demoDecimalState (by decide) (by decide)⟩

/-! ## Decimal-mode `cpu_sbc` -/

theorem cAnd_of_nonneg (i : Int) (n : Nat) (hn : n ≤ 32) (h0 : 0 ≤ i) (h1 : i < 2 ^ n) :
    cAnd i (2 ^ n - 1) = i.toNat := by
  unfold cAnd
  have hp : (2 : Int) ^ n ≤ 4294967296 := by
    have : (2 : Int) ^ n ≤ 2 ^ 32 := pow_le_pow_right₀ (by norm_num) hn
    simpa using this
  have e : i % 4294967296 = i := Int.emod_eq_of_lt h0 (lt_of_lt_of_le h1 hp)
  rw [e, Nat.and_pow_two_sub_one_eq_mod]
  apply Nat.mod_eq_of_lt
  have h2 : ((i.toNat : Nat) : Int) < ((2 ^ n : Nat) : Int) := by
    rw [Int.toNat_of_nonneg h0]; push_cast; exact h1
  exact_mod_cast h2

/-- One adjustment step of the decimal subtracter (snes_cpu.c:519, 534-538):
`if (r < limit) r = (r - sub) & ((r - sub < 0) ? mneg : mpos)`. -/
def decSubAdj (limit sub : Int) (mneg mpos : Nat) (r : Int) : Int :=
  if r < limit then ((cAnd (r - sub) (if r - sub < 0 then mneg else mpos) : Nat) : Int) else r

theorem decSubAdj_def (limit sub : Int) (mneg mpos : Nat) (r : Int) :
    decSubAdj limit sub mneg mpos r =
      if r < limit then ((cAnd (r - sub) (if r - sub < 0 then mneg else mpos) : Nat) : Int)
      else r := rfl

/-- Whether the digit difference `x - y - (1 - k)` needs no borrow. -/
def noBorrow (x y k : Nat) : Nat := if x + k ≥ y + 1 then 1 else 0

theorem noBorrow_le (x y k : Nat) : noBorrow x y k ≤ 1 := by
  unfold noBorrow; split_ifs <;> omega

/-- One digit of the decimal subtracter: for decimal digits `x`, `y` and the packed lower
digits `p` below position `B`, the adjusted sum of `x + (15 - y) + k` at position `B`. -/
theorem sub_stage (B limit sub : Int) (n mneg mpos : Nat) (x y k : Nat) (p r : Int)
    (hB : (B = 1 ∧ n = 5) ∨ (B = 16 ∧ n = 9) ∨ (B = 256 ∧ n = 13))
    (hl : limit = 16 * B) (hsub : sub = 6 * B) (hmp : mpos = 2 ^ n - 1)
    (hx : x ≤ 9) (hy : y ≤ 9) (hk : k ≤ 1) (hp0 : 0 ≤ p) (hp1 : p < B)
    (er : r = B * ((x : Int) + (15 - (y : Int)) + k) + p) :
    ∃ d : Nat, d ≤ 9 ∧ x + k + 9 = y + d + 10 * noBorrow x y k ∧
      decSubAdj limit sub mneg mpos r = 16 * B * noBorrow x y k + (B * d + p) := by
  subst hl hsub hmp
  rw [decSubAdj_def]
  unfold noBorrow
  by_cases hb : x + k ≥ y + 1
  · rw [if_pos hb]
    refine ⟨x + k - y - 1, by omega, by omega, ?_⟩
    have hlt : ¬ r < 16 * B := by
      rcases hB with ⟨rfl, -⟩ | ⟨rfl, -⟩ | ⟨rfl, -⟩ <;> omega
    rw [if_neg hlt, er]
    have e : ((x + k - y - 1 : Nat) : Int) = (x : Int) + k - y - 1 := by omega
    rw [e]
    push_cast
    ring
  · rw [if_neg hb]
    refine ⟨x + k + 9 - y, by omega, by omega, ?_⟩
    have hlt : r < 16 * B := by
      rcases hB with ⟨rfl, -⟩ | ⟨rfl, -⟩ | ⟨rfl, -⟩ <;> omega
    have hnn : ¬ r - 6 * B < 0 := by
      rcases hB with ⟨rfl, -⟩ | ⟨rfl, -⟩ | ⟨rfl, -⟩ <;> omega
    rw [if_pos hlt, if_neg hnn]
    have h0 : 0 ≤ r - 6 * B := by omega
    have h1 : r - 6 * B < 2 ^ n := by
      rcases hB with ⟨rfl, rfl⟩ | ⟨rfl, rfl⟩ | ⟨rfl, rfl⟩ <;> norm_num <;> omega
    have hn : n ≤ 32 := by
      rcases hB with ⟨-, rfl⟩ | ⟨-, rfl⟩ | ⟨-, rfl⟩ <;> norm_num
    rw [cAnd_of_nonneg _ n hn h0 h1, Int.toNat_of_nonneg h0, er]
    have e : ((x + k + 9 - y : Nat) : Int) = (x : Int) + k + 9 - y := by omega
    rw [e]
    push_cast
    ring

/-- The intermediate sum of the 16-bit decimal subtracter, before the adjustment of the top
digit (snes_cpu.c:533-539); `v` is the complemented operand. -/
def decDiff16 (a v c : Nat) : Int :=
  (((a &&& 0xf000) + (v &&& 0xf000) : Nat) : Int) +
    decSubAdj 0x1000 0x600 0xfff 0x1fff ((((a &&& 0xf00) + (v &&& 0xf00) : Nat) : Int) +
      decSubAdj 0x100 0x60 0xff 0x1ff ((((a &&& 0xf0) + (v &&& 0xf0) : Nat) : Int) +
        decSubAdj 0x10 0x6 0xf 0x1f (((a &&& 0xf) + (v &&& 0xf) + c : Nat) : Int)))

/-- The intermediate sum of the 8-bit decimal subtracter (snes_cpu.c:518-520). -/
def decDiff8 (a v c : Nat) : Int :=
  (((a &&& 0xf0) + (v &&& 0xf0) : Nat) : Int) +
    decSubAdj 0x10 0x6 0xf 0x1f (((a &&& 0xf) + (v &&& 0xf) + c : Nat) : Int)

theorem sbc16_dec_eq (cpu : Cpu) (v : Nat) (hd : cpu.d = true) :
    sbc16 cpu v =
      { cpu with
        v := ((cpu.a &&& 0x8000) == (v &&& 0x8000)) &&
          ((v &&& 0x8000) != cAnd (decDiff16 cpu.a v cpu.c.toNat) 0x8000),
        c := decide ((if decDiff16 cpu.a v cpu.c.toNat < 0x10000
          then decDiff16 cpu.a v cpu.c.toNat - 0x6000 else decDiff16 cpu.a v cpu.c.toNat)
            > 0xffff),
        a := toU16 (if decDiff16 cpu.a v cpu.c.toNat < 0x10000
          then decDiff16 cpu.a v cpu.c.toNat - 0x6000 else decDiff16 cpu.a v cpu.c.toNat) } := by
  unfold sbc16 decDiff16 decSubAdj
  simp only [hd, if_true, Bool.true_and, decide_eq_true_eq]

theorem sbc8_dec_eq (cpu : Cpu) (v : Nat) (hd : cpu.d = true) :
    sbc8 cpu v =
      { cpu with
        v := ((cpu.a &&& 0x80) == (v &&& 0x80)) &&
          ((v &&& 0x80) != cAnd (decDiff8 cpu.a v cpu.c.toNat) 0x80),
        c := decide ((if decDiff8 cpu.a v cpu.c.toNat < 0x100
          then decDiff8 cpu.a v cpu.c.toNat - 0x60 else decDiff8 cpu.a v cpu.c.toNat) > 0xff),
        a := (cpu.a &&& 0xff00) ||| cAnd (if decDiff8 cpu.a v cpu.c.toNat < 0x100
          then decDiff8 cpu.a v cpu.c.toNat - 0x60 else decDiff8 cpu.a v cpu.c.toNat) 0xff } := by
  unfold sbc8 decDiff8 decSubAdj
  simp only [hd, if_true, Bool.true_and, decide_eq_true_eq]

theorem xor_mask (x n : Nat) (h : x < 2 ^ n) : x ^^^ (2 ^ n - 1) = 2 ^ n - 1 - x := by
  apply Nat.eq_of_testBit_eq
  intro i
  have e : 2 ^ n - 1 - x = 2 ^ n - (x + 1) := by omega
  rw [Nat.testBit_xor, Nat.testBit_two_pow_sub_one, e, Nat.testBit_two_pow_sub_succ h]
  by_cases hi : i < n
  · simp [hi]
  · have : x.testBit i = false :=
      Nat.testBit_eq_false_of_lt (lt_of_lt_of_le h (Nat.pow_le_pow_right (by norm_num) (by omega)))
    simp [hi, this]

theorem xor_ff (x : Nat) (h : x < 256) : x ^^^ 0xff = 255 - x := by
  have := xor_mask x 8 (by simpa using h)
  simpa using this

theorem xor_ffff (x : Nat) (h : x < 0x10000) : x ^^^ 0xffff = 65535 - x := by
  have := xor_mask x 16 (by simpa using h)
  simpa using this

/-- The intermediate sum of the 16-bit decimal subtracter for operands whose three lower
digits are decimal; `m` is the operand before the complement. -/
theorem decDiff16_eq (a m c : Nat) (hm : m < 0x10000) (hc : c ≤ 1)
    (h0 : a % 16 ≤ 9) (h1 : a / 16 % 16 ≤ 9) (h2 : a / 256 % 16 ≤ 9)
    (g0 : m % 16 ≤ 9) (g1 : m / 16 % 16 ≤ 9) (g2 : m / 256 % 16 ≤ 9) :
    ∃ d0 d1 d2 : Nat, d0 ≤ 9 ∧ d1 ≤ 9 ∧ d2 ≤ 9 ∧
      a % 16 + c + 9 = m % 16 + d0 + 10 * noBorrow (a % 16) (m % 16) c ∧
      a / 16 % 16 + noBorrow (a % 16) (m % 16) c + 9 =
        m / 16 % 16 + d1 + 10 * noBorrow (a / 16 % 16) (m / 16 % 16) (noBorrow (a % 16) (m % 16) c) ∧
      a / 256 % 16 + noBorrow (a / 16 % 16) (m / 16 % 16) (noBorrow (a % 16) (m % 16) c) + 9 =
        m / 256 % 16 + d2 + 10 * noBorrow (a / 256 % 16) (m / 256 % 16)
          (noBorrow (a / 16 % 16) (m / 16 % 16) (noBorrow (a % 16) (m % 16) c)) ∧
      decDiff16 a (65535 - m) c =
        4096 * ((a / 4096 % 16 : Nat) + (15 - (m / 4096 % 16 : Nat)) +
          (noBorrow (a / 256 % 16) (m / 256 % 16)
            (noBorrow (a / 16 % 16) (m / 16 % 16) (noBorrow (a % 16) (m % 16) c)) : Nat)) +
        256 * (d2 : Int) + 16 * (d1 : Int) + (d0 : Int) := by
  have v0 : (65535 - m) % 16 = 15 - m % 16 := by omega
  have v1 : (65535 - m) / 16 % 16 = 15 - m / 16 % 16 := by omega
  have v2 : (65535 - m) / 256 % 16 = 15 - m / 256 % 16 := by omega
  have v3 : (65535 - m) / 4096 % 16 = 15 - m / 4096 % 16 := by omega
  unfold decDiff16
  rw [and_f000, and_f000, and_f00, and_f00, and_f0, and_f0, and_f, and_f, v0, v1, v2, v3]
  have k0le := noBorrow_le (a % 16) (m % 16) c
  obtain ⟨d0, hd0, q0, s0⟩ := sub_stage 1 0x10 0x6 5 0xf 0x1f (a % 16) (m % 16) c 0
    (((a % 16 + (15 - m % 16) + c : Nat) : Int)) (Or.inl ⟨rfl, rfl⟩) (by norm_num) (by norm_num)
    (by norm_num) h0 g0 hc (le_refl _) (by norm_num) (by omega)
  rw [s0]
  generalize noBorrow (a % 16) (m % 16) c = k0 at *
  have k1le := noBorrow_le (a / 16 % 16) (m / 16 % 16) k0
  obtain ⟨d1, hd1, q1, s1⟩ := sub_stage 16 0x100 0x60 9 0xff 0x1ff (a / 16 % 16) (m / 16 % 16) k0
    (d0 : Int)
    ((((a / 16 % 16 * 16 + (15 - m / 16 % 16) * 16 : Nat) : Int)) + (16 * 1 * (k0 : Int) +
      (1 * (d0 : Int) + 0)))
    (Or.inr (Or.inl ⟨rfl, rfl⟩)) (by norm_num) (by norm_num) (by norm_num) h1 g1 k0le
    (by omega) (by omega) (by omega)
  rw [s1]
  generalize noBorrow (a / 16 % 16) (m / 16 % 16) k0 = k1 at *
  have k2le := noBorrow_le (a / 256 % 16) (m / 256 % 16) k1
  obtain ⟨d2, hd2, q2, s2⟩ := sub_stage 256 0x1000 0x600 13 0xfff 0x1fff (a / 256 % 16)
    (m / 256 % 16) k1 (16 * (d1 : Int) + (d0 : Int))
    ((((a / 256 % 16 * 256 + (15 - m / 256 % 16) * 256 : Nat) : Int)) + (16 * 16 * (k1 : Int) +
      (16 * (d1 : Int) + (d0 : Int))))
    (Or.inr (Or.inr ⟨rfl, rfl⟩)) (by norm_num) (by norm_num) (by norm_num) h2 g2 k1le
    (by omega) (by omega) (by omega)
  rw [s2]
  refine ⟨d0, d1, d2, hd0, hd1, hd2, q0, q1, q2, ?_⟩
  generalize noBorrow (a / 256 % 16) (m / 256 % 16) k1 = k2 at *
  have w3 : m / 4096 % 16 ≤ 15 := by omega
  generalize a / 4096 % 16 = a3 at *
  generalize m / 4096 % 16 = m3 at *
  clear v0 v1 v2 v3 s0 s1 s2 q0 q1 q2 h0 h1 h2 g0 g1 g2
  omega

/-- The adjustment of the top digit of the 16-bit decimal subtracter (snes_cpu.c:543-545). -/
theorem sbc_final16 (R : Int) (a3 m3 k2 d0 d1 d2 : Nat) (ha : a3 ≤ 9) (hm : m3 ≤ 9)
    (hk : k2 ≤ 1) (h0 : d0 ≤ 9) (h1 : d1 ≤ 9) (h2 : d2 ≤ 9)
    (hR : R = 4096 * ((a3 : Int) + (15 - (m3 : Int)) + (k2 : Int)) +
      256 * (d2 : Int) + 16 * (d1 : Int) + (d0 : Int)) :
    ∃ d3 : Nat, d3 ≤ 9 ∧ a3 + k2 + 9 = m3 + d3 + 10 * noBorrow a3 m3 k2 ∧
      toU16 (if R < 0x10000 then R - 0x6000 else R) = 4096 * d3 + 256 * d2 + 16 * d1 + d0 ∧
      ((if R < 0x10000 then R - 0x6000 else R) > 0xffff ↔ noBorrow a3 m3 k2 = 1) := by
  unfold noBorrow toU16
  by_cases hb : a3 + k2 ≥ m3 + 1
  · rw [if_pos hb]
    have hlt : ¬ R < 0x10000 := by omega
    rw [if_neg hlt]
    refine ⟨a3 + k2 - m3 - 1, by omega, by omega, ?_, ?_⟩
    · have e : R % 65536 = ((4096 * (a3 + k2 - m3 - 1) + 256 * d2 + 16 * d1 + d0 : Nat) : Int) := by
        omega
      rw [e, Int.toNat_natCast]
    · constructor
      · intro _; rfl
      · intro _; omega
  · rw [if_neg hb]
    have hlt : R < 0x10000 := by omega
    rw [if_pos hlt]
    refine ⟨a3 + k2 + 9 - m3, by omega, by omega, ?_, ?_⟩
    · have e : (R - 0x6000) % 65536 =
          ((4096 * (a3 + k2 + 9 - m3) + 256 * d2 + 16 * d1 + d0 : Nat) : Int) := by
        omega
      rw [e, Int.toNat_natCast]
    · constructor
      · intro h; omega
      · intro h; omega

/-- The decimal value of a difference of decimal digit strings with borrows. -/
theorem sub_digits16 (a0 a1 a2 a3 m0 m1 m2 m3 c k0 k1 k2 k3 d0 d1 d2 d3 : Nat)
    (h0 : d0 ≤ 9) (h1 : d1 ≤ 9) (h2 : d2 ≤ 9) (h3 : d3 ≤ 9) (hk : k3 ≤ 1)
    (q0 : a0 + c + 9 = m0 + d0 + 10 * k0) (q1 : a1 + k0 + 9 = m1 + d1 + 10 * k1)
    (q2 : a2 + k1 + 9 = m2 + d2 + 10 * k2) (q3 : a3 + k2 + 9 = m3 + d3 + 10 * k3) :
    (((a3 * 1000 + a2 * 100 + a1 * 10 + a0 : Nat) : Int) -
        ((m3 * 1000 + m2 * 100 + m1 * 10 + m0 : Nat) : Int) - (1 - (c : Int))) % 10000 =
      ((1000 * d3 + 100 * d2 + 10 * d1 + d0 : Nat) : Int) ∧
    (k3 = 1 ↔ a3 * 1000 + a2 * 100 + a1 * 10 + a0 + c ≥
      m3 * 1000 + m2 * 100 + m1 * 10 + m0 + 1) := by
  constructor
  · omega
  · omega

theorem sbc16_bcd (cpu : Cpu) (m : Nat) (hd : cpu.d = true) (ha : cpu.a < 0x10000)
    (hm : m < 0x10000)
    (h0 : cpu.a % 16 ≤ 9) (h1 : cpu.a / 16 % 16 ≤ 9) (h2 : cpu.a / 256 % 16 ≤ 9)
    (h3 : cpu.a / 4096 ≤ 9)
    (g0 : m % 16 ≤ 9) (g1 : m / 16 % 16 ≤ 9) (g2 : m / 256 % 16 ≤ 9) (g3 : m / 4096 ≤ 9) :
    (sbc16 cpu (m ^^^ 0xffff)).a =
      bcdWord ((((bcdValue16 cpu.a : Int) - (bcdValue16 m : Int) -
        (1 - (cpu.c.toNat : Int))) % 10000).toNat) ∧
    (sbc16 cpu (m ^^^ 0xffff)).c = decide (bcdValue16 cpu.a + cpu.c.toNat ≥ bcdValue16 m + 1) := by
  have hc := bool_toNat_le cpu.c
  have e3a : cpu.a / 4096 % 16 = cpu.a / 4096 := Nat.mod_eq_of_lt (lt_of_le_of_lt h3 (by norm_num))
  have e3m : m / 4096 % 16 = m / 4096 := Nat.mod_eq_of_lt (lt_of_le_of_lt g3 (by norm_num))
  obtain ⟨d0, d1, d2, hd0, hd1, hd2, q0, q1, q2, qR⟩ :=
    decDiff16_eq cpu.a m cpu.c.toNat hm hc h0 h1 h2 g0 g1 g2
  rw [e3a, e3m] at qR
  have k2le := noBorrow_le (cpu.a / 256 % 16) (m / 256 % 16)
    (noBorrow (cpu.a / 16 % 16) (m / 16 % 16) (noBorrow (cpu.a % 16) (m % 16) cpu.c.toNat))
  obtain ⟨d3, hd3, q3, rA, rC⟩ := sbc_final16 _ (cpu.a / 4096) (m / 4096) _ d0 d1 d2 h3 g3 k2le
    hd0 hd1 hd2 qR
  have k3le := noBorrow_le (cpu.a / 4096) (m / 4096)
    (noBorrow (cpu.a / 256 % 16) (m / 256 % 16)
      (noBorrow (cpu.a / 16 % 16) (m / 16 % 16) (noBorrow (cpu.a % 16) (m % 16) cpu.c.toNat)))
  obtain ⟨n1, n2⟩ := sub_digits16 (cpu.a % 16) (cpu.a / 16 % 16) (cpu.a / 256 % 16)
    (cpu.a / 4096) (m % 16) (m / 16 % 16) (m / 256 % 16) (m / 4096) cpu.c.toNat _ _ _ _
    d0 d1 d2 d3 hd0 hd1 hd2 hd3 k3le q0 q1 q2 q3
  rw [xor_ffff m hm, sbc16_dec_eq cpu _ hd]
  dsimp only
  constructor
  · rw [rA]
    unfold bcdValue16
    rw [n1, Int.toNat_natCast, bcdWord_digits d0 d1 d2 d3 hd0 hd1 hd2 hd3]
  · rw [Bool.eq_iff_iff]
    simp only [decide_eq_true_eq]
    rw [rC, n2]
    unfold bcdValue16
    exact Iff.rfl

theorem cAnd_ff (i : Int) (h0 : 0 ≤ i) (h1 : i < 4294967296) : cAnd i 0xff = (i % 256).toNat := by
  unfold cAnd
  rw [Int.emod_eq_of_lt h0 h1, and_ff]
  omega

/-- The intermediate sum of the 8-bit decimal subtracter for operands with decimal low
digits; `m` is the operand before the complement. -/
theorem decDiff8_eq (a m c : Nat) (hm : m < 256) (hc : c ≤ 1)
    (h0 : a % 16 ≤ 9) (g0 : m % 16 ≤ 9) :
    ∃ d0 : Nat, d0 ≤ 9 ∧
      a % 16 + c + 9 = m % 16 + d0 + 10 * noBorrow (a % 16) (m % 16) c ∧
      decDiff8 a (255 - m) c =
        16 * ((a / 16 % 16 : Nat) + (15 - (m / 16 % 16 : Nat)) +
          (noBorrow (a % 16) (m % 16) c : Nat)) + (d0 : Int) := by
  have v0 : (255 - m) % 16 = 15 - m % 16 := by omega
  have v1 : (255 - m) / 16 % 16 = 15 - m / 16 % 16 := by omega
  unfold decDiff8
  rw [and_f0, and_f0, and_f, and_f, v0, v1]
  have k0le := noBorrow_le (a % 16) (m % 16) c
  obtain ⟨d0, hd0, q0, s0⟩ := sub_stage 1 0x10 0x6 5 0xf 0x1f (a % 16) (m % 16) c 0
    (((a % 16 + (15 - m % 16) + c : Nat) : Int)) (Or.inl ⟨rfl, rfl⟩) (by norm_num) (by norm_num)
    (by norm_num) h0 g0 hc (le_refl _) (by norm_num) (by omega)
  rw [s0]
  refine ⟨d0, hd0, q0, ?_⟩
  generalize noBorrow (a % 16) (m % 16) c = k0 at *
  have w1 : m / 16 % 16 ≤ 15 := by omega
  generalize a / 16 % 16 = a1 at *
  generalize m / 16 % 16 = m1 at *
  clear v0 v1 s0 q0 h0 g0
  omega

/-- The adjustment of the top digit of the 8-bit decimal subtracter (snes_cpu.c:525-527). -/
theorem sbc_final8 (R : Int) (a1 m1 k0 d0 : Nat) (ha : a1 ≤ 9) (hm : m1 ≤ 9)
    (hk : k0 ≤ 1) (h0 : d0 ≤ 9)
    (hR : R = 16 * ((a1 : Int) + (15 - (m1 : Int)) + (k0 : Int)) + (d0 : Int)) :
    ∃ d1 : Nat, d1 ≤ 9 ∧ a1 + k0 + 9 = m1 + d1 + 10 * noBorrow a1 m1 k0 ∧
      cAnd (if R < 0x100 then R - 0x60 else R) 0xff = 16 * d1 + d0 ∧
      ((if R < 0x100 then R - 0x60 else R) > 0xff ↔ noBorrow a1 m1 k0 = 1) := by
  unfold noBorrow
  by_cases hb : a1 + k0 ≥ m1 + 1
  · rw [if_pos hb]
    have hlt : ¬ R < 0x100 := by omega
    rw [if_neg hlt, cAnd_ff R (by omega) (by omega)]
    refine ⟨a1 + k0 - m1 - 1, by omega, by omega, ?_, ?_⟩
    · have e : R % 256 = ((16 * (a1 + k0 - m1 - 1) + d0 : Nat) : Int) := by omega
      rw [e, Int.toNat_natCast]
    · constructor
      · intro _; rfl
      · intro _; omega
  · rw [if_neg hb]
    have hlt : R < 0x100 := by omega
    rw [if_pos hlt, cAnd_ff (R - 0x60) (by omega) (by omega)]
    refine ⟨a1 + k0 + 9 - m1, by omega, by omega, ?_, ?_⟩
    · have e : (R - 0x60) % 256 = ((16 * (a1 + k0 + 9 - m1) + d0 : Nat) : Int) := by omega
      rw [e, Int.toNat_natCast]
    · constructor
      · intro h; omega
      · intro h; omega

theorem sub_digits8 (a0 a1 m0 m1 c k0 k1 d0 d1 : Nat)
    (h0 : d0 ≤ 9) (h1 : d1 ≤ 9) (hk : k1 ≤ 1)
    (q0 : a0 + c + 9 = m0 + d0 + 10 * k0) (q1 : a1 + k0 + 9 = m1 + d1 + 10 * k1) :
    (((a1 * 10 + a0 : Nat) : Int) - ((m1 * 10 + m0 : Nat) : Int) - (1 - (c : Int))) % 100 =
      ((10 * d1 + d0 : Nat) : Int) ∧
    (k1 = 1 ↔ a1 * 10 + a0 + c ≥ m1 * 10 + m0 + 1) := by
  constructor
  · omega
  · omega

theorem sbc8_bcd (cpu : Cpu) (m : Nat) (hd : cpu.d = true) (hm : m < 256)
    (h0 : cpu.a % 16 ≤ 9) (h1 : cpu.a / 16 % 16 ≤ 9) (g0 : m % 16 ≤ 9) (g1 : m / 16 ≤ 9) :
    (sbc8 cpu (m ^^^ 0xff)).a = cpu.a / 256 % 256 * 256 +
      bcdByte ((((bcdValue8 (cpu.a % 256) : Int) - (bcdValue8 m : Int) -
        (1 - (cpu.c.toNat : Int))) % 100).toNat) ∧
    (sbc8 cpu (m ^^^ 0xff)).c =
      decide (bcdValue8 (cpu.a % 256) + cpu.c.toNat ≥ bcdValue8 m + 1) := by
  have hc := bool_toNat_le cpu.c
  have e1m : m / 16 % 16 = m / 16 := Nat.mod_eq_of_lt (lt_of_le_of_lt g1 (by norm_num))
  have e1a : cpu.a % 256 / 16 = cpu.a / 16 % 16 := by clear hd hm h0 h1 g0 g1 hc e1m; omega
  have e0a : cpu.a % 256 % 16 = cpu.a % 16 := by clear hd hm h0 h1 g0 g1 hc e1m e1a; omega
  obtain ⟨d0, hd0, q0, qR⟩ := decDiff8_eq cpu.a m cpu.c.toNat hm hc h0 g0
  rw [e1m] at qR
  have k0le := noBorrow_le (cpu.a % 16) (m % 16) cpu.c.toNat
  obtain ⟨d1, hd1, q1, rA, rC⟩ := sbc_final8 _ (cpu.a / 16 % 16) (m / 16) _ d0 h1 g1 k0le hd0 qR
  have k1le := noBorrow_le (cpu.a / 16 % 16) (m / 16)
    (noBorrow (cpu.a % 16) (m % 16) cpu.c.toNat)
  obtain ⟨n1, n2⟩ := sub_digits8 (cpu.a % 16) (cpu.a / 16 % 16) (m % 16) (m / 16)
    cpu.c.toNat _ _ d0 d1 hd0 hd1 k1le q0 q1
  rw [xor_ff m hm, sbc8_dec_eq cpu _ hd]
  dsimp only
  constructor
  · rw [and_ff00, rA, or_high_low _ _ (by omega)]
    unfold bcdValue8
    rw [e1a, e0a, n1, Int.toNat_natCast, bcdByte_digits d0 d1 hd0 hd1]
  · rw [Bool.eq_iff_iff]
    simp only [decide_eq_true_eq]
    rw [rC, n2]
    unfold bcdValue8
    rw [e1a, e0a]

section SbcWp
variable {μ : Type} (h : Handlers μ)

/-- `cpu_sbc` with an 8-bit accumulator: one read, then `sbc8` on the complemented byte. -/
theorem wp_sbc8 (low high : Nat) (s : Machine μ) (hm : s.cpu.mf = true) :
    wp (cpu_sbc h low high) (fun _ s' =>
      s'.trace = s.trace ++ [BusEvent.read low ((h.read s.mem low).1 % 256)] ∧
      s'.cpu.a = (sbc8 s.cpu (((h.read s.mem low).1 % 256) ^^^ 0xff)).a ∧
      s'.cpu.c = (sbc8 s.cpu (((h.read s.mem low).1 % 256) ^^^ 0xff)).c ∧
      s'.cpu.v = (sbc8 s.cpu (((h.read s.mem low).1 % 256) ^^^ 0xff)).v)
      s := by
  unfold cpu_sbc
  apply wp_bind; apply wp_getCpu
  dsimp only
  refine wp_ite_pos hm ?_
  apply wp_bind; apply wp_checkInt
  apply wp_bind; apply wp_read
  intro nmi irq dly m' _ _
  apply wp_bind; apply wp_modifyCpu
  apply wp_bind; apply wp_getCpu
  refine wp_mono (setZN_fields _ _ _) ?_
  intro _ s' hs
  obtain ⟨z1, z2, z3, z4, z5, z6, z7, z8⟩ := hs
  dsimp only at z1 z2 z3 z4 z5 z6 z7 z8
  exact ⟨z8, z3, z4, z5⟩

/-- `cpu_sbc` with a 16-bit accumulator: two reads, then `sbc16` on the complemented word. -/
theorem wp_sbc16 (low high : Nat) (s : Machine μ) (hm : s.cpu.mf = false) :
    wp (cpu_sbc h low high) (fun _ s' =>
      ∃ lo hi m1, lo = (h.read s.mem low).1 % 256 ∧ hi = (h.read m1 high).1 % 256 ∧
      s'.trace = s.trace ++ [BusEvent.read low lo, BusEvent.read high hi] ∧
      s'.cpu.a = (sbc16 s.cpu ((lo ||| (hi <<< 8)) ^^^ 0xffff)).a ∧
      s'.cpu.c = (sbc16 s.cpu ((lo ||| (hi <<< 8)) ^^^ 0xffff)).c ∧
      s'.cpu.v = (sbc16 s.cpu ((lo ||| (hi <<< 8)) ^^^ 0xffff)).v)
      s := by
  unfold cpu_sbc
  apply wp_bind; apply wp_getCpu
  dsimp only
  refine wp_ite_neg (by rw [hm]; decide) ?_
  apply wp_bind; apply wp_readWord_int
  intro lo hi c1 nmi irq dly m1 m' hlo hhi ea ec ed emf
  apply wp_bind; apply wp_modifyCpu
  apply wp_bind; apply wp_getCpu
  refine wp_mono (setZN_fields _ _ _) ?_
  intro _ s' hs
  obtain ⟨z1, z2, z3, z4, z5, z6, z7, z8⟩ := hs
  dsimp only at z1 z2 z3 z4 z5 z6 z7 z8
  have key : sbc16 (afterBus c1 nmi irq dly) ((lo ||| (hi <<< 8)) ^^^ 0xffff) =
      { afterBus c1 nmi irq dly with
        v := (sbc16 s.cpu ((lo ||| (hi <<< 8)) ^^^ 0xffff)).v,
        c := (sbc16 s.cpu ((lo ||| (hi <<< 8)) ^^^ 0xffff)).c,
        a := (sbc16 s.cpu ((lo ||| (hi <<< 8)) ^^^ 0xffff)).a } := by
    unfold sbc16
    have ea2 : (afterBus c1 nmi irq dly).a = s.cpu.a := ea
    have ec2 : (afterBus c1 nmi irq dly).c = s.cpu.c := ec
    have ed2 : (afterBus c1 nmi irq dly).d = s.cpu.d := ed
    simp only [ea2, ec2, ed2]
  rw [key] at z3 z4 z5
  exact ⟨lo, hi, m1, hlo, hhi, z8, z3, z4, z5⟩

end SbcWp

/-- C24: decimal SBC is BCD subtraction.  With D = 1 and packed-BCD operands (every nibble of
the accumulator and of the operand read is a decimal digit), `cpu_sbc` leaves in A the
packed-BCD encoding of `(dec(a) - dec(m) - (1 - c)) mod 100` with C set exactly when no
borrow occurred (`dec(a) >= dec(m) + (1 - c)`) when M = 1 (the upper byte of A is kept), and
of the difference modulo 10000 with the same carry rule when M = 0. -/
theorem C24_decimal_sbc_is_bcd {μ : Type} (h : Handlers μ) (low high : Nat) (s : Machine μ)
    (hd : s.cpu.d = true) (ha : s.cpu.a < 0x10000) :
    wp (cpu_sbc h low high) (fun _ s' =>
      (s.cpu.mf = true → s.cpu.a % 16 ≤ 9 → s.cpu.a / 16 % 16 ≤ 9 →
        (h.read s.mem low).1 % 256 % 16 ≤ 9 → (h.read s.mem low).1 % 256 / 16 ≤ 9 →
        s'.cpu.a = s.cpu.a / 256 * 256 +
          bcdByte ((((bcdValue8 (s.cpu.a % 256) : Int) -
            (bcdValue8 ((h.read s.mem low).1 % 256) : Int) -
            (1 - (s.cpu.c.toNat : Int))) % 100).toNat) ∧
        s'.cpu.c = decide (bcdValue8 (s.cpu.a % 256) + s.cpu.c.toNat ≥
          bcdValue8 ((h.read s.mem low).1 % 256) + 1)) ∧
      (s.cpu.mf = false →
        ∃ lo hi m1, lo = (h.read s.mem low).1 % 256 ∧ hi = (h.read m1 high).1 % 256 ∧
          (s.cpu.a % 16 ≤ 9 → s.cpu.a / 16 % 16 ≤ 9 → s.cpu.a / 256 % 16 ≤ 9 →
            s.cpu.a / 4096 ≤ 9 → lo % 16 ≤ 9 → lo / 16 ≤ 9 → hi % 16 ≤ 9 → hi / 16 ≤ 9 →
            s'.cpu.a = bcdWord ((((bcdValue16 s.cpu.a : Int) -
              (bcdValue16 (lo + 256 * hi) : Int) - (1 - (s.cpu.c.toNat : Int))) % 10000).toNat) ∧
            s'.cpu.c = decide (bcdValue16 s.cpu.a + s.cpu.c.toNat ≥
              bcdValue16 (lo + 256 * hi) + 1)))) s := by
  by_cases hm : s.cpu.mf = true
  · refine wp_mono (wp_sbc8 h low high s hm) ?_
    intro _ s' ⟨_, e2, e3, _⟩
    have hb : (h.read s.mem low).1 % 256 < 256 := Nat.mod_lt _ (by norm_num)
    refine ⟨fun _ h0 h1 g0 g1 => ?_, fun hf => ?_⟩
    · obtain ⟨b1, b2⟩ := sbc8_bcd s.cpu _ hd hb h0 h1 g0 g1
      have e : s.cpu.a / 256 % 256 = s.cpu.a / 256 :=
        Nat.mod_eq_of_lt ((Nat.div_lt_iff_lt_mul (by norm_num)).mpr (by omega))
      rw [e] at b1
      exact ⟨e2.trans b1, e3.trans b2⟩
    · rw [hm] at hf; exact absurd hf (by decide)
  · have hmf : s.cpu.mf = false := by simpa using hm
    refine wp_mono (wp_sbc16 h low high s hmf) ?_
    intro _ s' ⟨lo, hi, m1, hlo, hhi, _, e2, e3, _⟩
    have hl : lo < 256 := by rw [hlo]; exact Nat.mod_lt _ (by norm_num)
    have hh : hi < 256 := by rw [hhi]; exact Nat.mod_lt _ (by norm_num)
    have ew : lo ||| (hi <<< 8) = lo + 256 * hi := byte_or_shl8 lo hi hl
    rw [ew] at e2 e3
    refine ⟨fun ht => absurd ht hm, fun _ => ⟨lo, hi, m1, hlo, hhi,
      fun h0 h1 h2 h3 g0 g1 g2 g3 => ?_⟩⟩
    have w0 : (lo + 256 * hi) % 16 = lo % 16 := by clear e2 e3 ew; omega
    have w1 : (lo + 256 * hi) / 16 % 16 = lo / 16 := by clear e2 e3 ew; omega
    have w2 : (lo + 256 * hi) / 256 % 16 = hi % 16 := by clear e2 e3 ew; omega
    have w3 : (lo + 256 * hi) / 4096 = hi / 16 := by clear e2 e3 ew; omega
    obtain ⟨b1, b2⟩ := sbc16_bcd s.cpu (lo + 256 * hi) hd ha (by clear e2 e3 ew; omega)
      h0 h1 h2 h3 (by rw [w0]; exact g0) (by rw [w1]; exact g1) (by rw [w2]; exact g2)
      (by rw [w3]; exact g3)
    exact ⟨e2.trans b1, e3.trans b2⟩

theorem C24_decimal_sbc_is_bcd_witness :
    demoDecimalState.cpu.d = true ∧
    demoDecimalState.cpu.a < 0x10000 ∧
    wp (cpu_sbc (romHandlers demoRom) 0x10 0x11) (fun _ s' =>
      (demoDecimalState.cpu.mf = true → demoDecimalState.cpu.a % 16 ≤ 9 → demoDecimalState.cpu.a / 16 % 16 ≤ 9 →
        ((romHandlers demoRom).read demoDecimalState.mem 0x10).1 % 256 % 16 ≤ 9 → ((romHandlers demoRom).read demoDecimalState.mem 0x10).1 % 256 / 16 ≤ 9 →
        s'.cpu.a = demoDecimalState.cpu.a / 256 * 256 +
          bcdByte ((((bcdValue8 (demoDecimalState.cpu.a % 256) : Int) -
            (bcdValue8 (((romHandlers demoRom).read demoDecimalState.mem 0x10).1 % 256) : Int) -
            (1 - (demoDecimalState.cpu.c.toNat : Int))) % 100).toNat) ∧
        s'.cpu.c = decide (bcdValue8 (demoDecimalState.cpu.a % 256) + demoDecimalState.cpu.c.toNat ≥
          bcdValue8 (((romHandlers demoRom).read demoDecimalState.mem 0x10).1 % 256) + 1)) ∧
      (demoDecimalState.cpu.mf = false →
        ∃ lo hi m1, lo = ((romHandlers demoRom).read demoDecimalState.mem 0x10).1 % 256 ∧ hi = ((romHandlers demoRom).read m1 0x11).1 % 256 ∧
          (demoDecimalState.cpu.a % 16 ≤ 9 → demoDecimalState.cpu.a / 16 % 16 ≤ 9 → demoDecimalState.cpu.a / 256 % 16 ≤ 9 →
            demoDecimalState.cpu.a / 4096 ≤ 9 → lo % 16 ≤ 9 → lo / 16 ≤ 9 → hi % 16 ≤ 9 → hi / 16 ≤ 9 →
            s'.cpu.a = bcdWord ((((bcdValue16 demoDecimalState.cpu.a : Int) -
              (bcdValue16 (lo + 256 * hi) : Int) - (1 - (demoDecimalState.cpu.c.toNat : Int))) % 10000).toNat) ∧
            s'.cpu.c = decide (bcdValue16 demoDecimalState.cpu.a + demoDecimalState.cpu.c.toNat ≥
              bcdValue16 (lo + 256 * hi) + 1)))) demoDecimalState :=
  ⟨by decide, by decide,
    C24_decimal_sbc_is_bcd (romHandlers demoRom) 0x10 0x11 demoDecimalState (by decide) (by decide)⟩

/-! ## Indexed addressing modes -/

section IdxWp
variable {μ : Type} (h : Handlers μ)

/-- `cpu_readOpcode`: one read at `K:PC`, with PC advanced. -/
theorem wp_readOpcode {Q : Nat → Machine μ → Prop} {s : Machine μ}
    (H : ∀ (c1 : Cpu) (m' : μ), c1.x = s.cpu.x → c1.y = s.cpu.y → c1.db = s.cpu.db →
      c1.xf = s.cpu.xf → c1.dp = s.cpu.dp → c1.k = s.cpu.k → c1.pc = inc16 s.cpu.pc →
      Q ((h.read s.mem ((s.cpu.k <<< 16) ||| s.cpu.pc)).1 % 256)
        ⟨c1, m', s.trace ++ [BusEvent.read ((s.cpu.k <<< 16) ||| s.cpu.pc)
          ((h.read s.mem ((s.cpu.k <<< 16) ||| s.cpu.pc)).1 % 256)]⟩) :
    wp (cpu_readOpcode h) Q s := by
  unfold cpu_readOpcode
  apply wp_bind; apply wp_getCpu
  apply wp_bind; apply wp_modifyCpu
  apply wp_read
  intro nmi irq dly m' _ _
  exact H _ m' rfl rfl rfl rfl rfl rfl rfl

/-- `cpu_readOpcodeWord` without the interrupt check: two reads at `K:PC` and `K:PC+1`. -/
theorem wp_readOpcodeWord {Q : Nat → Machine μ → Prop} {s : Machine μ}
    (H : ∀ (lo hi : Nat) (c1 : Cpu) (m1 m' : μ),
      lo = (h.read s.mem ((s.cpu.k <<< 16) ||| s.cpu.pc)).1 % 256 →
      hi = (h.read m1 ((s.cpu.k <<< 16) ||| inc16 s.cpu.pc)).1 % 256 →
      c1.x = s.cpu.x → c1.y = s.cpu.y → c1.db = s.cpu.db → c1.xf = s.cpu.xf →
      Q (lo ||| (hi <<< 8))
        ⟨c1, m', s.trace ++ [BusEvent.read ((s.cpu.k <<< 16) ||| s.cpu.pc) lo,
          BusEvent.read ((s.cpu.k <<< 16) ||| inc16 s.cpu.pc) hi]⟩) :
    wp (cpu_readOpcodeWord h false) Q s := by
  unfold cpu_readOpcodeWord
  apply wp_bind; apply wp_readOpcode
  intro c1 m1 ex ey edb exf edp ek epc
  simp only [Bool.false_eq_true, if_false]
  apply wp_bind; apply wp_pure
  apply wp_bind; apply wp_readOpcode
  intro c2 m2 ex2 ey2 edb2 exf2 edp2 ek2 epc2
  apply wp_pure
  have ex3 : c2.x = s.cpu.x := ex2.trans ex
  have ey3 : c2.y = s.cpu.y := ey2.trans ey
  have edb3 : c2.db = s.cpu.db := edb2.trans edb
  have exf3 : c2.xf = s.cpu.xf := exf2.trans exf
  have ek1 : c1.k = s.cpu.k := ek
  have epc1 : c1.pc = inc16 s.cpu.pc := epc
  have key := H ((h.read s.mem ((s.cpu.k <<< 16) ||| s.cpu.pc)).1 % 256)
    ((h.read m1 ((s.cpu.k <<< 16) ||| inc16 s.cpu.pc)).1 % 256) c2 m1 m2 rfl rfl ex3 ey3 edb3 exf3
  simpa only [ek1, epc1, List.append_assoc, List.cons_append, List.nil_append] using key

/-- The tail shared by `cpu_adrAbx`, `cpu_adrAby` and `cpu_adrIdy`: the penalty cycle and the
two addresses. -/
theorem wp_index_tail (write : Bool) (b i db : Nat) (xf : Bool) (s : Machine μ)
    (f : Cpu → Nat) (hi : f s.cpu = i) (hdb : s.cpu.db = db) (hxf : s.cpu.xf = xf)
    (hf : ∀ c nmi irq dly, f (afterBus c nmi irq dly) = f c) :
    wp (do
      let cpu ← getCpu
      if write || !cpu.xf || ((b >>> 8) != ((b + f cpu) >>> 8)) then cpu_idle h
      let cpu ← getCpu
      pure (((cpu.db <<< 16) + b + f cpu) &&& 0xffffff,
            ((cpu.db <<< 16) + b + f cpu + 1) &&& 0xffffff) : CpuM μ (Nat × Nat))
      (fun r s' =>
        s'.trace = s.trace ++
          (if write = true ∨ xf = false ∨ b / 256 ≠ (b + i) / 256 then [BusEvent.idle false]
           else []) ∧
        r.1 = (db * 65536 + b + i) % 16777216 ∧ r.2 = (db * 65536 + b + i + 1) % 16777216) s := by
  have ea : ∀ x : Nat, x &&& 0xffffff = x % 16777216 := fun x => by
    have := Nat.and_pow_two_sub_one_eq_mod x 24
    simpa using this
  have es : s.cpu.db <<< 16 = db * 65536 := by rw [Nat.shiftLeft_eq, hdb]
  have ec : (write || !s.cpu.xf || ((b >>> 8) != ((b + f s.cpu) >>> 8))) = true ↔
      (write = true ∨ xf = false ∨ b / 256 ≠ (b + i) / 256) := by
    rw [hi, hxf, Nat.shiftRight_eq_div_pow, Nat.shiftRight_eq_div_pow]
    cases write <;> cases xf <;> simp
  apply wp_bind; apply wp_getCpu
  dsimp only
  by_cases hc : (write || !s.cpu.xf || ((b >>> 8) != ((b + f s.cpu) >>> 8))) = true
  · refine wp_ite_pos hc ?_
    apply wp_bind; apply wp_idle
    intro nmi irq dly m' _ _
    apply wp_bind; apply wp_getCpu
    apply wp_pure
    dsimp only
    rw [if_pos (ec.mp hc), hf, hi, ea, ea]
    have e2 : (afterBus s.cpu nmi irq dly).db <<< 16 = db * 65536 := es
    rw [e2]
    exact ⟨rfl, rfl, rfl⟩
  · refine wp_ite_neg hc ?_
    apply wp_bind; apply wp_pure
    apply wp_bind; apply wp_getCpu
    apply wp_pure
    dsimp only
    rw [if_neg (fun hp => hc (ec.mpr hp)), hi, ea, ea, es, List.append_nil]
    exact ⟨rfl, rfl, rfl⟩

end IdxWp

/-- C34: the penalty cycle of the indexed addressing modes.  `cpu_adrAbx` and `cpu_adrAby`
read the two operand bytes `b = lo + 256 hi` at `K:PC` and `K:PC+1`; `cpu_adrIdy` reads the
operand byte, spends one idle cycle if the low byte of D is not zero, and reads the pointer
`b` from the direct page.  After that each of them issues exactly one idle callback if the
opcode writes, the X flag is clear or `b >> 8` differs from `(b + index) >> 8`, and none
otherwise; the low address is `(DB << 16) + b + index` modulo 2^24 and the high address is
the low address plus one modulo 2^24. -/
theorem C34_indexed_penalty {μ : Type} (h : Handlers μ) (write : Bool) (s : Machine μ) :
    wp (cpu_adrAbx h write) (fun r s' => ∃ lo hi m1,
      lo = (h.read s.mem ((s.cpu.k <<< 16) ||| s.cpu.pc)).1 % 256 ∧
      hi = (h.read m1 ((s.cpu.k <<< 16) ||| inc16 s.cpu.pc)).1 % 256 ∧
      s'.trace = s.trace ++ [BusEvent.read ((s.cpu.k <<< 16) ||| s.cpu.pc) lo,
          BusEvent.read ((s.cpu.k <<< 16) ||| inc16 s.cpu.pc) hi] ++
        (if write = true ∨ s.cpu.xf = false ∨
            (lo + 256 * hi) / 256 ≠ (lo + 256 * hi + s.cpu.x) / 256
          then [BusEvent.idle false] else []) ∧
      r.1 = (s.cpu.db * 65536 + (lo + 256 * hi) + s.cpu.x) % 16777216 ∧
      r.2 = (r.1 + 1) % 16777216) s ∧
    wp (cpu_adrAby h write) (fun r s' => ∃ lo hi m1,
      lo = (h.read s.mem ((s.cpu.k <<< 16) ||| s.cpu.pc)).1 % 256 ∧
      hi = (h.read m1 ((s.cpu.k <<< 16) ||| inc16 s.cpu.pc)).1 % 256 ∧
      s'.trace = s.trace ++ [BusEvent.read ((s.cpu.k <<< 16) ||| s.cpu.pc) lo,
          BusEvent.read ((s.cpu.k <<< 16) ||| inc16 s.cpu.pc) hi] ++
        (if write = true ∨ s.cpu.xf = false ∨
            (lo + 256 * hi) / 256 ≠ (lo + 256 * hi + s.cpu.y) / 256
          then [BusEvent.idle false] else []) ∧
      r.1 = (s.cpu.db * 65536 + (lo + 256 * hi) + s.cpu.y) % 16777216 ∧
      r.2 = (r.1 + 1) % 16777216) s ∧
    wp (cpu_adrIdy h write) (fun r s' => ∃ adr lo hi m1 m2,
      adr = (h.read s.mem ((s.cpu.k <<< 16) ||| s.cpu.pc)).1 % 256 ∧
      lo = (h.read m1 ((s.cpu.dp + adr) % 65536)).1 % 256 ∧
      hi = (h.read m2 ((s.cpu.dp + adr + 1) % 65536)).1 % 256 ∧
      s'.trace = s.trace ++ [BusEvent.read ((s.cpu.k <<< 16) ||| s.cpu.pc) adr] ++
        (if s.cpu.dp % 256 ≠ 0 then [BusEvent.idle false] else []) ++
        [BusEvent.read ((s.cpu.dp + adr) % 65536) lo,
          BusEvent.read ((s.cpu.dp + adr + 1) % 65536) hi] ++
        (if write = true ∨ s.cpu.xf = false ∨
            (lo + 256 * hi) / 256 ≠ (lo + 256 * hi + s.cpu.y) / 256
          then [BusEvent.idle false] else []) ∧
      r.1 = (s.cpu.db * 65536 + (lo + 256 * hi) + s.cpu.y) % 16777216 ∧
      r.2 = (r.1 + 1) % 16777216) s := by
  refine ⟨?_, ?_, ?_⟩
  · unfold cpu_adrAbx
    apply wp_bind; apply wp_readOpcodeWord
    intro lo hi c1 m1 m' hlo hhi ex ey edb exf
    have hl : lo < 256 := by rw [hlo]; exact Nat.mod_lt _ (by norm_num)
    refine wp_mono (wp_index_tail h write (lo ||| (hi <<< 8)) s.cpu.x s.cpu.db s.cpu.xf
      ⟨c1, m', _⟩ (fun c => c.x) ex edb exf (fun _ _ _ _ => rfl)) ?_
    intro r s' ⟨t, a1, a2⟩
    rw [byte_or_shl8 lo hi hl] at t a1 a2
    refine ⟨lo, hi, m1, hlo, hhi, t, a1, ?_⟩
    rw [a2, a1]
    omega
  · unfold cpu_adrAby
    apply wp_bind; apply wp_readOpcodeWord
    intro lo hi c1 m1 m' hlo hhi ex ey edb exf
    have hl : lo < 256 := by rw [hlo]; exact Nat.mod_lt _ (by norm_num)
    refine wp_mono (wp_index_tail h write (lo ||| (hi <<< 8)) s.cpu.y s.cpu.db s.cpu.xf
      ⟨c1, m', _⟩ (fun c => c.y) ey edb exf (fun _ _ _ _ => rfl)) ?_
    intro r s' ⟨t, a1, a2⟩
    rw [byte_or_shl8 lo hi hl] at t a1 a2
    refine ⟨lo, hi, m1, hlo, hhi, t, a1, ?_⟩
    rw [a2, a1]
    omega
  · have ea : ∀ x : Nat, x &&& 0xffff = x % 65536 := and_ffff
    unfold cpu_adrIdy
    apply wp_bind; apply wp_readOpcode
    intro c1 m1 ex ey edb exf edp ek epc
    have edp1 : c1.dp = s.cpu.dp := edp
    apply wp_bind; apply wp_getCpu
    dsimp only
    by_cases hdp : ((c1.dp &&& 0xff) != 0) = true
    · refine wp_ite_pos hdp ?_
      apply wp_bind; apply wp_idle
      intro n1 i1 d1 m2 _ _
      apply wp_bind; apply wp_getCpu
      apply wp_bind; apply wp_readWord
      intro lo hi n2 i2 d2 m3 m4 hlo hhi _ _
      have hl : lo < 256 := by rw [hlo]; exact Nat.mod_lt _ (by norm_num)
      refine wp_mono (wp_index_tail h write (lo ||| (hi <<< 8)) s.cpu.y s.cpu.db s.cpu.xf
        ⟨_, m4, _⟩ (fun c => c.y) ey edb exf (fun _ _ _ _ => rfl)) ?_
      intro r s' ⟨t, a1, a2⟩
      rw [byte_or_shl8 lo hi hl] at t a1 a2
      have e1 : (afterBus c1 n1 i1 d1).dp = s.cpu.dp := edp
      dsimp only at hlo hhi t
      simp only [e1, ea] at hlo hhi t
      have hd : s.cpu.dp % 256 ≠ 0 := by
        rw [edp1, and_ff] at hdp
        simpa using hdp
      refine ⟨_, lo, hi, m2, m3, rfl, hlo, hhi, ?_, a1, ?_⟩
      · rw [t, if_pos hd]
      · rw [a2, a1]
        omega
    · refine wp_ite_neg hdp ?_
      apply wp_bind; apply wp_pure
      apply wp_bind; apply wp_getCpu
      apply wp_bind; apply wp_readWord
      intro lo hi n2 i2 d2 m3 m4 hlo hhi _ _
      have hl : lo < 256 := by rw [hlo]; exact Nat.mod_lt _ (by norm_num)
      refine wp_mono (wp_index_tail h write (lo ||| (hi <<< 8)) s.cpu.y s.cpu.db s.cpu.xf
        ⟨_, m4, _⟩ (fun c => c.y) ey edb exf (fun _ _ _ _ => rfl)) ?_
      intro r s' ⟨t, a1, a2⟩
      rw [byte_or_shl8 lo hi hl] at t a1 a2
      dsimp only at hlo hhi t
      simp only [edp1, ea] at hlo hhi t
      have hd : ¬ s.cpu.dp % 256 ≠ 0 := by
        rw [edp1, and_ff] at hdp
        simpa using hdp
      refine ⟨_, lo, hi, m1, m3, rfl, hlo, hhi, ?_, a1, ?_⟩
      · rw [t, if_neg hd]
        simp only [List.append_assoc, List.cons_append, List.nil_append, List.append_nil]
      · rw [a2, a1]
        omega

/-! ## Block moves -/

theorem blockMoveRegs_fields (step : Nat → Nat) (c : Cpu) (a x y pc db : Nat) (xf : Bool)
    (ea : c.a = a) (ex : c.x = x) (ey : c.y = y) (epc : c.pc = pc) (edb : c.db = db)
    (exf : c.xf = xf) :
    (blockMoveRegs step c).a = dec16 a ∧
    (blockMoveRegs step c).x = (if xf = true then step x &&& 0xff else step x) ∧
    (blockMoveRegs step c).y = (if xf = true then step y &&& 0xff else step y) ∧
    (blockMoveRegs step c).pc =
      (if dec16 a ≠ 0xffff then toU16 ((pc : Int) - 3) else pc) ∧
    (blockMoveRegs step c).db = db := by
  subst ea ex ey epc edb exf
  unfold blockMoveRegs
  by_cases ha : dec16 c.a = 0xffff <;> by_cases hx : c.xf = true <;> simp [ha, hx]

theorem pc_rewind (pc : Nat) (h : pc < 0x10000) :
    toU16 ((inc16 (inc16 (inc16 pc)) : Int) - 3) = pc ∧
    inc16 (inc16 (inc16 pc)) = (pc + 3) % 0x10000 := by
  unfold toU16 inc16
  constructor
  · omega
  · omega

theorem index_step (x : Nat) :
    inc16 x &&& 0xff = (x + 1) % 0x10000 % 256 ∧ inc16 x = (x + 1) % 0x10000 ∧
    dec16 x &&& 0xff = (x + 65535) % 0x10000 % 256 ∧ dec16 x = (x + 65535) % 0x10000 := by
  have e : dec16 x = (x + 65535) % 0x10000 := by
    unfold dec16
    split_ifs with h0
    · rw [h0]
    · omega
  refine ⟨?_, rfl, ?_, e⟩
  · rw [and_ff]; rfl
  · rw [and_ff, e]

theorem idle_check_idle_fields (c : Cpu) (n i d n2 i2 d2 : Bool) :
    (afterBus (checkInt (afterBus c n i d)) n2 i2 d2).a = c.a ∧
    (afterBus (checkInt (afterBus c n i d)) n2 i2 d2).x = c.x ∧
    (afterBus (checkInt (afterBus c n i d)) n2 i2 d2).y = c.y ∧
    (afterBus (checkInt (afterBus c n i d)) n2 i2 d2).pc = c.pc ∧
    (afterBus (checkInt (afterBus c n i d)) n2 i2 d2).db = c.db :=
  ⟨rfl, rfl, rfl, rfl, rfl⟩

/-- The registers after the write, the register updates and the two idle cycles of a block
move, in terms of the registers `c` before the data read. -/
theorem blockMove_tail (step : Nat → Nat) (c : Cpu) (n3 i3 d3 n4 i4 d4 n5 i5 d5 n6 i6 d6 : Bool)
    (a x y pc db : Nat) (xf : Bool) :
    (c.a = a → (afterBus (checkInt (afterBus (blockMoveRegs step
      (afterBus (afterBus c n3 i3 d3) n4 i4 d4)) n5 i5 d5)) n6 i6 d6).a = dec16 a) ∧
    (c.x = x → c.xf = xf → (afterBus (checkInt (afterBus (blockMoveRegs step
      (afterBus (afterBus c n3 i3 d3) n4 i4 d4)) n5 i5 d5)) n6 i6 d6).x =
        (if xf = true then step x &&& 0xff else step x)) ∧
    (c.y = y → c.xf = xf → (afterBus (checkInt (afterBus (blockMoveRegs step
      (afterBus (afterBus c n3 i3 d3) n4 i4 d4)) n5 i5 d5)) n6 i6 d6).y =
        (if xf = true then step y &&& 0xff else step y)) ∧
    (c.a = a → c.pc = pc → (afterBus (checkInt (afterBus (blockMoveRegs step
      (afterBus (afterBus c n3 i3 d3) n4 i4 d4)) n5 i5 d5)) n6 i6 d6).pc =
        (if dec16 a ≠ 0xffff then toU16 ((pc : Int) - 3) else pc)) ∧
    (c.db = db → (afterBus (checkInt (afterBus (blockMoveRegs step
      (afterBus (afterBus c n3 i3 d3) n4 i4 d4)) n5 i5 d5)) n6 i6 d6).db = db) := by
  have g := idle_check_idle_fields (blockMoveRegs step (afterBus (afterBus c n3 i3 d3) n4 i4 d4))
    n5 i5 d5 n6 i6 d6
  have f := blockMoveRegs_fields step (afterBus (afterBus c n3 i3 d3) n4 i4 d4)
    c.a c.x c.y c.pc c.db c.xf rfl rfl rfl rfl rfl rfl
  refine ⟨fun e => ?_, fun e1 e2 => ?_, fun e1 e2 => ?_, fun e1 e2 => ?_, fun e => ?_⟩
  · rw [g.1, f.1, e]
  · rw [g.2.1, f.2.1, e1, e2]
  · rw [g.2.2.1, f.2.2.1, e1, e2]
  · rw [g.2.2.2.1, f.2.2.2.1, e1, e2]
  · rw [g.2.2.2.2, f.2.2.2.2, e]

section MoveWp
variable {μ : Type} (h : Handlers μ)

/-- `cpu_readOpcode` keeps A, X, Y, the X flag and K, advances PC and records one read. -/
theorem wp_readOpcode_regs {Q : Nat → Machine μ → Prop} {s : Machine μ}
    (H : ∀ (c1 : Cpu) (m' : μ), c1.a = s.cpu.a → c1.x = s.cpu.x → c1.y = s.cpu.y →
      c1.xf = s.cpu.xf → c1.k = s.cpu.k → c1.pc = inc16 s.cpu.pc →
      Q ((h.read s.mem ((s.cpu.k <<< 16) ||| s.cpu.pc)).1 % 256)
        ⟨c1, m', s.trace ++ [BusEvent.read ((s.cpu.k <<< 16) ||| s.cpu.pc)
          ((h.read s.mem ((s.cpu.k <<< 16) ||| s.cpu.pc)).1 % 256)]⟩) :
    wp (cpu_readOpcode h) Q s := by
  unfold cpu_readOpcode
  apply wp_bind; apply wp_getCpu
  apply wp_bind; apply wp_modifyCpu
  apply wp_read
  intro nmi irq dly m' _ _
  exact H _ m' rfl rfl rfl rfl rfl rfl

theorem doOpcode_mvn : cpu_doOpcode h 0x54 = (do
    let dest ← cpu_readOpcode h
    let src ← cpu_readOpcode h
    modifyCpu fun c => { c with db := dest }
    let value ← cpu_read h ((src <<< 16) ||| (← getCpu).x)
    cpu_write h ((dest <<< 16) ||| (← getCpu).y) value
    modifyCpu (blockMoveRegs inc16)
    cpu_idle h
    cpu_checkInt
    cpu_idle h) := rfl

theorem doOpcode_mvp : cpu_doOpcode h 0x44 = (do
    let dest ← cpu_readOpcode h
    let src ← cpu_readOpcode h
    modifyCpu fun c => { c with db := dest }
    let value ← cpu_read h ((src <<< 16) ||| (← getCpu).x)
    cpu_write h ((dest <<< 16) ||| (← getCpu).y) value
    modifyCpu (blockMoveRegs dec16)
    cpu_idle h
    cpu_checkInt
    cpu_idle h) := rfl

/-- One iteration of a block move after the opcode fetch, for either index step. -/
theorem wp_blockMove (step : Nat → Nat) (s : Machine μ) :
    wp (do
      let dest ← cpu_readOpcode h
      let src ← cpu_readOpcode h
      modifyCpu fun c => { c with db := dest }
      let value ← cpu_read h ((src <<< 16) ||| (← getCpu).x)
      cpu_write h ((dest <<< 16) ||| (← getCpu).y) value
      modifyCpu (blockMoveRegs step)
      cpu_idle h
      cpu_checkInt
      cpu_idle h : CpuM μ Unit)
      (fun _ s' => ∃ dest src v m1 m2,
        dest = (h.read s.mem ((s.cpu.k <<< 16) ||| s.cpu.pc)).1 % 256 ∧
        src = (h.read m1 ((s.cpu.k <<< 16) ||| inc16 s.cpu.pc)).1 % 256 ∧
        v = (h.read m2 ((src <<< 16) ||| s.cpu.x)).1 % 256 ∧
        s'.trace = s.trace ++ [BusEvent.read ((s.cpu.k <<< 16) ||| s.cpu.pc) dest,
          BusEvent.read ((s.cpu.k <<< 16) ||| inc16 s.cpu.pc) src,
          BusEvent.read ((src <<< 16) ||| s.cpu.x) v,
          BusEvent.write ((dest <<< 16) ||| s.cpu.y) v,
          BusEvent.idle false, BusEvent.idle false] ∧
        s'.cpu.db = dest ∧ s'.cpu.a = dec16 s.cpu.a ∧
        s'.cpu.x = (if s.cpu.xf = true then step s.cpu.x &&& 0xff else step s.cpu.x) ∧
        s'.cpu.y = (if s.cpu.xf = true then step s.cpu.y &&& 0xff else step s.cpu.y) ∧
        s'.cpu.pc = (if dec16 s.cpu.a ≠ 0xffff
          then toU16 ((inc16 (inc16 s.cpu.pc) : Int) - 3) else inc16 (inc16 s.cpu.pc))) s := by
  apply wp_bind; apply wp_readOpcode_regs
  intro c1 m1 ea1 ex1 ey1 exf1 ek1 epc1
  apply wp_bind; apply wp_readOpcode_regs
  intro c2 m2 ea2 ex2 ey2 exf2 ek2 epc2
  have ea : c2.a = s.cpu.a := ea2.trans ea1
  have ex : c2.x = s.cpu.x := ex2.trans ex1
  have ey : c2.y = s.cpu.y := ey2.trans ey1
  have exf : c2.xf = s.cpu.xf := exf2.trans exf1
  have ek : c1.k = s.cpu.k := ek1
  have epc0 : c1.pc = inc16 s.cpu.pc := epc1
  have epc : c2.pc = inc16 (inc16 s.cpu.pc) := by rw [← epc0]; exact epc2
  clear ea1 ex1 ey1 exf1 ek1 epc1 ea2 ex2 ey2 exf2 ek2 epc2
  dsimp only
  rw [ek, epc0]
  apply wp_bind; apply wp_modifyCpu
  apply wp_bind; apply wp_getCpu
  apply wp_bind; apply wp_read
  intro n3 i3 d3 m3 hA hB
  clear hA hB
  dsimp only
  rw [ex]
  apply wp_bind; apply wp_getCpu
  apply wp_bind; apply wp_write
  intro n4 i4 d4 m4 hA hB
  clear hA hB
  dsimp only
  apply wp_bind; apply wp_modifyCpu
  apply wp_bind; apply wp_idle
  intro n5 i5 d5 m5 hA hB
  clear hA hB
  apply wp_bind; apply wp_checkInt
  apply wp_idle
  intro n6 i6 d6 m6 hA hB
  clear hA hB
  dsimp only
  refine ⟨_, _, _, m1, m2, rfl, rfl, rfl, ?_, ?_, ?_, ?_, ?_, ?_⟩
  · simp only [afterBus, ey, Nat.mod_mod, List.append_assoc, List.cons_append,
      List.nil_append]
  · exact (blockMove_tail step _ n3 i3 d3 n4 i4 d4 n5 i5 d5 n6 i6 d6 0 0 0 0 _ false).2.2.2.2 rfl
  · exact (blockMove_tail step _ n3 i3 d3 n4 i4 d4 n5 i5 d5 n6 i6 d6 _ 0 0 0 0 false).1 ea
  · exact (blockMove_tail step _ n3 i3 d3 n4 i4 d4 n5 i5 d5 n6 i6 d6 0 _ 0 0 0 _).2.1 rfl exf
  · exact (blockMove_tail step _ n3 i3 d3 n4 i4 d4 n5 i5 d5 n6 i6 d6 0 0 _ 0 0 _).2.2.1 ey exf
  · exact (blockMove_tail step _ n3 i3 d3 n4 i4 d4 n5 i5 d5 n6 i6 d6 _ 0 0 _ 0 false).2.2.2.1
      ea epc

end MoveWp

/-- A ROM image filled with the MVN opcode 0x54: the instruction `MVN 0x54, 0x54` at every
address. -/
def demoMoveRom (_ : Nat) : Nat := 0x54

/-- C22: one iteration of a block move.  With no reset, stop, wait or interrupt pending and
the opcode byte at K:PC being MVN (0x54) or MVP (0x44), `cpu_runOpcode` reads the opcode and
the operand bytes `dest` (at PC+1) and `src` (at PC+2), reads one byte `v` from
`(src << 16) | X`, writes `v` to `(dest << 16) | Y` (X and Y as before the instruction) and
ends with two idle cycles.  It leaves DB = dest, A = A - 1 modulo 2^16, X and Y stepped by +1
(MVN) or -1 (MVP) modulo 2^16 and truncated to 8 bits when the X flag is set, and PC back at
the opcode when the new A is not 0xFFFF, at the next instruction (PC + 3) when it is. -/
theorem C22_block_move {μ : Type} (h : Handlers μ) (s : Machine μ) (op : Nat)
    (hr : s.cpu.resetWanted = false) (hs : s.cpu.stopped = false) (hw : s.cpu.waiting = false)
    (hi : s.cpu.intWanted = false) (hpc : s.cpu.pc < 0x10000)
    (hop : (h.read s.mem ((s.cpu.k <<< 16) ||| s.cpu.pc)).1 % 256 = op)
    (hmv : op = 0x54 ∨ op = 0x44) :
    wp (cpu_runOpcode h) (fun _ s' => ∃ dest src v m1 m2 m3,
      dest = (h.read m1 ((s.cpu.k <<< 16) ||| inc16 s.cpu.pc)).1 % 256 ∧
      src = (h.read m2 ((s.cpu.k <<< 16) ||| inc16 (inc16 s.cpu.pc))).1 % 256 ∧
      v = (h.read m3 ((src <<< 16) ||| s.cpu.x)).1 % 256 ∧
      s'.trace = s.trace ++ [BusEvent.read ((s.cpu.k <<< 16) ||| s.cpu.pc) op,
        BusEvent.read ((s.cpu.k <<< 16) ||| inc16 s.cpu.pc) dest,
        BusEvent.read ((s.cpu.k <<< 16) ||| inc16 (inc16 s.cpu.pc)) src,
        BusEvent.read ((src <<< 16) ||| s.cpu.x) v,
        BusEvent.write ((dest <<< 16) ||| s.cpu.y) v,
        BusEvent.idle false, BusEvent.idle false] ∧
      s'.cpu.db = dest ∧
      s'.cpu.a = (s.cpu.a + 65535) % 0x10000 ∧
      s'.cpu.x = (s.cpu.x + (if op = 0x54 then 1 else 65535)) % 0x10000 %
        (if s.cpu.xf = true then 256 else 0x10000) ∧
      s'.cpu.y = (s.cpu.y + (if op = 0x54 then 1 else 65535)) % 0x10000 %
        (if s.cpu.xf = true then 256 else 0x10000) ∧
      s'.cpu.pc = (if (s.cpu.a + 65535) % 0x10000 ≠ 0xffff then s.cpu.pc
        else (s.cpu.pc + 3) % 0x10000)) s := by
  unfold cpu_runOpcode
  apply wp_bind; apply wp_getCpu; simp only [hr, Bool.false_eq_true, if_false]
  apply wp_bind; apply wp_getCpu; simp only [hs, Bool.false_eq_true, if_false]
  apply wp_bind; apply wp_getCpu; simp only [hw, Bool.false_eq_true, if_false]
  apply wp_bind; apply wp_getCpu; simp only [hi, Bool.false_eq_true, if_false]
  apply wp_bind; apply wp_readOpcode_regs
  intro c1 m1 ea ex ey exf ek epc
  rw [hop]
  have post : ∀ (step : Nat → Nat) (s' : Machine μ),
      (∀ x, (if s.cpu.xf = true then step x &&& 0xff else step x) =
        (x + (if op = 0x54 then 1 else 65535)) % 0x10000 %
          (if s.cpu.xf = true then 256 else 0x10000)) →
      (∃ dest src v ma mb,
        dest = (h.read m1 ((c1.k <<< 16) ||| c1.pc)).1 % 256 ∧
        src = (h.read ma ((c1.k <<< 16) ||| inc16 c1.pc)).1 % 256 ∧
        v = (h.read mb ((src <<< 16) ||| c1.x)).1 % 256 ∧
        s'.trace = (s.trace ++ [BusEvent.read ((s.cpu.k <<< 16) ||| s.cpu.pc) op]) ++
          [BusEvent.read ((c1.k <<< 16) ||| c1.pc) dest,
          BusEvent.read ((c1.k <<< 16) ||| inc16 c1.pc) src,
          BusEvent.read ((src <<< 16) ||| c1.x) v,
          BusEvent.write ((dest <<< 16) ||| c1.y) v,
          BusEvent.idle false, BusEvent.idle false] ∧
        s'.cpu.db = dest ∧ s'.cpu.a = dec16 c1.a ∧
        s'.cpu.x = (if c1.xf = true then step c1.x &&& 0xff else step c1.x) ∧
        s'.cpu.y = (if c1.xf = true then step c1.y &&& 0xff else step c1.y) ∧
        s'.cpu.pc = (if dec16 c1.a ≠ 0xffff
          then toU16 ((inc16 (inc16 c1.pc) : Int) - 3) else inc16 (inc16 c1.pc))) →
      ∃ dest src v m1 m2 m3,
        dest = (h.read m1 ((s.cpu.k <<< 16) ||| inc16 s.cpu.pc)).1 % 256 ∧
        src = (h.read m2 ((s.cpu.k <<< 16) ||| inc16 (inc16 s.cpu.pc))).1 % 256 ∧
        v = (h.read m3 ((src <<< 16) ||| s.cpu.x)).1 % 256 ∧
        s'.trace = s.trace ++ [BusEvent.read ((s.cpu.k <<< 16) ||| s.cpu.pc) op,
          BusEvent.read ((s.cpu.k <<< 16) ||| inc16 s.cpu.pc) dest,
          BusEvent.read ((s.cpu.k <<< 16) ||| inc16 (inc16 s.cpu.pc)) src,
          BusEvent.read ((src <<< 16) ||| s.cpu.x) v,
          BusEvent.write ((dest <<< 16) ||| s.cpu.y) v,
          BusEvent.idle false, BusEvent.idle false] ∧
        s'.cpu.db = dest ∧
        s'.cpu.a = (s.cpu.a + 65535) % 0x10000 ∧
        s'.cpu.x = (s.cpu.x + (if op = 0x54 then 1 else 65535)) % 0x10000 %
          (if s.cpu.xf = true then 256 else 0x10000) ∧
        s'.cpu.y = (s.cpu.y + (if op = 0x54 then 1 else 65535)) % 0x10000 %
          (if s.cpu.xf = true then 256 else 0x10000) ∧
        s'.cpu.pc = (if (s.cpu.a + 65535) % 0x10000 ≠ 0xffff then s.cpu.pc
          else (s.cpu.pc + 3) % 0x10000) := by
    intro step s' hstep ⟨dest, src, v, ma, mb, hdest, hsrc, hv, ht, hdb, ha, hx, hy, hp⟩
    have ek2 : c1.k = s.cpu.k := ek
    have epc2 : c1.pc = inc16 s.cpu.pc := epc
    have ex2 : c1.x = s.cpu.x := ex
    have ey2 : c1.y = s.cpu.y := ey
    have ea2 : c1.a = s.cpu.a := ea
    have exf2 : c1.xf = s.cpu.xf := exf
    simp only [ek2, epc2, ex2, ey2, ea2, exf2] at hdest hsrc hv ht ha hx hy hp
    refine ⟨dest, src, v, m1, ma, mb, hdest, hsrc, hv, ?_, hdb, ?_, ?_, ?_, ?_⟩
    · rw [ht]
      simp only [List.append_assoc, List.cons_append, List.nil_append]
    · rw [ha, (index_step s.cpu.a).2.2.2]
    · rw [hx, hstep]
    · rw [hy, hstep]
    · rw [hp, (index_step s.cpu.a).2.2.2, (pc_rewind s.cpu.pc hpc).1, (pc_rewind s.cpu.pc hpc).2]
  rcases hmv with rfl | rfl
  · rw [doOpcode_mvn h]
    refine wp_mono (wp_blockMove h inc16 _) ?_
    intro _ s' hs'
    refine post inc16 s' (fun x => ?_) hs'
    rw [(index_step x).1, (index_step x).2.1]
    by_cases hxf : s.cpu.xf = true <;> simp [hxf]
  · rw [doOpcode_mvp h]
    refine wp_mono (wp_blockMove h dec16 _) ?_
    intro _ s' hs'
    refine post dec16 s' (fun x => ?_) hs'
    rw [(index_step x).2.2.1, (index_step x).2.2.2]
    by_cases hxf : s.cpu.xf = true <;> simp [hxf]

theorem C22_block_move_witness :
    demoDecimalState.cpu.resetWanted = false ∧ demoDecimalState.cpu.stopped = false ∧
    demoDecimalState.cpu.waiting = false ∧ demoDecimalState.cpu.intWanted = false ∧
    demoDecimalState.cpu.pc < 0x10000 ∧
    ((romHandlers demoMoveRom).read demoDecimalState.mem
      ((demoDecimalState.cpu.k <<< 16) ||| demoDecimalState.cpu.pc)).1 % 256 = 0x54 ∧
    wp (cpu_runOpcode (romHandlers demoMoveRom)) (fun _ s' => ∃ dest src v m1 m2 m3,
      dest = ((romHandlers demoMoveRom).read m1
        ((demoDecimalState.cpu.k <<< 16) ||| inc16 demoDecimalState.cpu.pc)).1 % 256 ∧
      src = ((romHandlers demoMoveRom).read m2
        ((demoDecimalState.cpu.k <<< 16) ||| inc16 (inc16 demoDecimalState.cpu.pc))).1 % 256 ∧
      v = ((romHandlers demoMoveRom).read m3 ((src <<< 16) ||| demoDecimalState.cpu.x)).1 % 256 ∧
      s'.trace = demoDecimalState.trace ++
        [BusEvent.read ((demoDecimalState.cpu.k <<< 16) ||| demoDecimalState.cpu.pc) 0x54,
        BusEvent.read ((demoDecimalState.cpu.k <<< 16) ||| inc16 demoDecimalState.cpu.pc) dest,
        BusEvent.read ((demoDecimalState.cpu.k <<< 16) ||| inc16 (inc16 demoDecimalState.cpu.pc))
          src,
        BusEvent.read ((src <<< 16) ||| demoDecimalState.cpu.x) v,
        BusEvent.write ((dest <<< 16) ||| demoDecimalState.cpu.y) v,
        BusEvent.idle false, BusEvent.idle false] ∧
      s'.cpu.db = dest ∧
      s'.cpu.a = (demoDecimalState.cpu.a + 65535) % 0x10000 ∧
      s'.cpu.x = (demoDecimalState.cpu.x + (if (0x54 : Nat) = 0x54 then 1 else 65535)) % 0x10000 %
        (if demoDecimalState.cpu.xf = true then 256 else 0x10000) ∧
      s'.cpu.y = (demoDecimalState.cpu.y + (if (0x54 : Nat) = 0x54 then 1 else 65535)) % 0x10000 %
        (if demoDecimalState.cpu.xf = true then 256 else 0x10000) ∧
      s'.cpu.pc = (if (demoDecimalState.cpu.a + 65535) % 0x10000 ≠ 0xffff
        then demoDecimalState.cpu.pc
        else (demoDecimalState.cpu.pc + 3) % 0x10000)) demoDecimalState :=
  ⟨rfl, rfl, rfl, rfl, by decide, by decide,
    C22_block_move (romHandlers demoMoveRom) demoDecimalState 0x54 rfl rfl rfl rfl (by decide)
      (by decide) (Or.inl rfl)⟩

/-! ## `ppu_putPixels`

The output buffer `pixels` and the frame buffer are indexed by 16-bit word: every access of
`ppu_putPixels` is a `uint16_t` access at an even byte offset, and every `memset` clears a
whole number of words. -/

/-- The copy loop `for(x = 0; x < 256; x++) dst[x] = src[x]` (snes_ppu.c:1211) with `src` at
word `srcBase` of the frame buffer and `dst` at word `dstBase` of the output. -/
def copyLine (src dst : Nat → Nat) (srcBase dstBase : Nat) : Nat → Nat :=
  fun i => if dstBase ≤ i ∧ i < dstBase + 256 then src (srcBase + (i - dstBase)) else dst i

/-- `memset(pixels + 2 * start, 0, 2 * count)` on the word-indexed output. -/
def memsetWords (pixels : Nat → Nat) (start count : Nat) : Nat → Nat :=
  fun i => if start ≤ i ∧ i < start + count then 0 else pixels i

/-- The body of the line loop of `ppu_putPixels` (snes_ppu.c:1202-1220). -/
def putPixelsLine (ppu : Ppu) (pixels : Nat → Nat) (y : Nat) : Nat → Nat :=
  let dest := y + (if ppu.frameOverscan then 2 else 16)
  let y1 := if !ppu.frameInterlace then y + (if ppu.evenFrame then 0 else 239) else y
  let y2 := if !ppu.frameInterlace then y1 else y + 239
  let pixels := copyLine ppu.pixelBuffer pixels (y1 * 256) (dest * 320)
  if y1 ≠ y2 then copyLine ppu.pixelBuffer pixels (y2 * 256) ((dest + 1) * 320) else pixels

/-- `ppu_putPixels` (snes_ppu.c:1200). -/
def ppu_putPixels (ppu : Ppu) (pixels : Nat → Nat) : Nat → Nat :=
  let pixels := (List.range (if ppu.frameOverscan then 239 else 224)).foldl
    (putPixelsLine ppu) pixels
  let pixels := memsetWords pixels 0 (320 * 2)
  if !ppu.frameOverscan then
    memsetWords (memsetWords pixels (2 * 320) (320 * 14)) (224 * 320) (320 * 16)
  else pixels

/-- A PPU after reset whose frame buffer holds the colour 0x7FFF everywhere. -/
def demoWhitePpu : Ppu := { ppu_reset with pixelBuffer := fun _ => 0x7fff }

theorem putPixelsLine_plain (ppu : Ppu) (pixels : Nat → Nat) (y : Nat)
    (ho : ppu.frameOverscan = false) (hi : ppu.frameInterlace = false) :
    putPixelsLine ppu pixels y =
      copyLine ppu.pixelBuffer pixels ((y + (if ppu.evenFrame then 0 else 239)) * 256)
        ((y + 16) * 320) := by
  unfold putPixelsLine
  simp [ho, hi]

/-- The line loop over the first `n` lines of a frame without overscan and interlace. -/
theorem putPixels_lines (ppu : Ppu) (ho : ppu.frameOverscan = false)
    (hi : ppu.frameInterlace = false) (n : Nat) (pixels : Nat → Nat) :
    (∀ y x, y < n → x < 256 →
      (List.range n).foldl (putPixelsLine ppu) pixels ((y + 16) * 320 + x) =
        ppu.pixelBuffer ((y + (if ppu.evenFrame then 0 else 239)) * 256 + x)) ∧
    (∀ i, i < 16 * 320 → (List.range n).foldl (putPixelsLine ppu) pixels i = pixels i) := by
  induction n with
  | zero =>
    exact ⟨fun y x hy _ => absurd hy (Nat.not_lt_zero y), fun i _ => rfl⟩
  | succ n ih =>
    rw [List.range_succ, List.foldl_append, List.foldl_cons, List.foldl_nil,
      putPixelsLine_plain ppu _ n ho hi]
    refine ⟨fun y x hy hx => ?_, fun i hlt => ?_⟩
    · unfold copyLine
      by_cases hyn : y = n
      · subst hyn
        rw [if_pos ⟨by omega, by omega⟩]
        congr 1
        omega
      · have hy2 : y < n := by omega
        rw [if_neg (by omega)]
        exact ih.1 y x hy2 hx
    · unfold copyLine
      rw [if_neg (by omega)]
      exact ih.2 i hlt

/-- The output of `ppu_putPixels` for a frame without overscan and interlace: the 16 rows
above the picture are zero, rows 16..223 hold the rendered lines 0..207, and rows 224..239,
where the lines 208..223 were copied, are zero. -/
theorem putPixels_plain (ppu : Ppu) (pixels : Nat → Nat) (ho : ppu.frameOverscan = false)
    (hi : ppu.frameInterlace = false) :
    (∀ i, i < 16 * 320 → ppu_putPixels ppu pixels i = 0) ∧
    (∀ y x, y < 208 → x < 256 →
      ppu_putPixels ppu pixels ((y + 16) * 320 + x) =
        ppu.pixelBuffer ((y + (if ppu.evenFrame then 0 else 239)) * 256 + x)) ∧
    (∀ y x, 208 ≤ y → y < 224 → x < 320 → ppu_putPixels ppu pixels ((y + 16) * 320 + x) = 0) := by
  have e : ppu_putPixels ppu pixels =
      memsetWords (memsetWords (memsetWords
        ((List.range 224).foldl (putPixelsLine ppu) pixels) 0 (320 * 2)) (2 * 320) (320 * 14))
        (224 * 320) (320 * 16) := by
    unfold ppu_putPixels
    simp [ho]
  rw [e]
  refine ⟨fun i hlt => ?_, fun y x hy hx => ?_, fun y x h1 h2 hx => ?_⟩
  · unfold memsetWords
    by_cases h2 : i < 640
    · rw [if_neg (by omega), if_neg (by omega), if_pos ⟨by omega, by omega⟩]
    · rw [if_neg (by omega), if_pos ⟨by omega, by omega⟩]
  · unfold memsetWords
    rw [if_neg (by omega), if_neg (by omega), if_neg (by omega)]
    exact (putPixels_lines ppu ho hi 224 pixels).1 y x (by omega) hx
  · unfold memsetWords
    rw [if_pos ⟨by omega, by omega⟩]

/-- C28 (failing input): for a frame without overscan and interlace whose frame buffer holds
0x7FFF on line 208, `ppu_putPixels` leaves 0 in the output word of row 224, column 0 (byte
offset `((208 + 16) * 320 + 0) * 2`), where the claim expects the pixel of line 208: the final
`memset` of 16 rows from row 224 clears the rows that received the lines 208..223. -/
theorem C28_bottom_lines_cleared :
    demoWhitePpu.frameOverscan = false ∧ demoWhitePpu.frameInterlace = false ∧
    demoWhitePpu.pixelBuffer ((208 + (if demoWhitePpu.evenFrame then 0 else 239)) * 256 + 0)
      = 0x7fff ∧
    ppu_putPixels demoWhitePpu (fun _ => 0) ((208 + 16) * 320 + 0) = 0 ∧
    (∀ y x, 208 ≤ y → y < 224 → x < 320 →
      ppu_putPixels demoWhitePpu (fun _ => 0) ((y + 16) * 320 + x) = 0) ∧
    (∀ y x, y < 208 → x < 256 →
      ppu_putPixels demoWhitePpu (fun _ => 0) ((y + 16) * 320 + x) = 0x7fff) :=
  ⟨rfl, rfl, rfl,
    (putPixels_plain demoWhitePpu (fun _ => 0) rfl rfl).2.2 208 0 (by decide) (by decide)
      (by decide),
    (putPixels_plain demoWhitePpu (fun _ => 0) rfl rfl).2.2,
    fun y x hy hx => (putPixels_plain demoWhitePpu (fun _ => 0) rfl rfl).2.1 y x hy hx⟩

/-! ## JSR / RTS against a plain memory -/

/-- A memory with one byte replaced. -/
def memWrite (m : Nat → Nat) (adr val : Nat) : Nat → Nat :=
  fun a => if a = adr then val else m a

/-- A pure memory backend: a read returns the byte last written to the address, and no
callback calls back into the CPU. -/
def ramHandlers : Handlers (Nat → Nat) where
  read := fun m adr => (m adr, [], m)
  write := fun m adr val => ([], memWrite m adr val)
  idle := fun m _ => ([], m)

/-- The registers and flags that steer `cpu_runOpcode` through JSR and RTS. -/
structure CtlView where
  k : Nat
  e : Bool
  sp : Nat
  pc : Nat
  resetWanted : Bool
  stopped : Bool
  waiting : Bool
  nmiWanted : Bool
  irqWanted : Bool
  intWanted : Bool

/-- The steering registers of a register file. -/
def ctlOf (c : Cpu) : CtlView :=
  { k := c.k, e := c.e, sp := c.sp, pc := c.pc, resetWanted := c.resetWanted,
    stopped := c.stopped, waiting := c.waiting, nmiWanted := c.nmiWanted,
    irqWanted := c.irqWanted, intWanted := c.intWanted }

/-- The stack pointer after a push: decremented, and kept in page 1 in emulation mode
(snes_cpu.c:241-242). -/
def spDec (e : Bool) (sp : Nat) : Nat :=
  if e then (dec16 sp &&& 0xff) ||| 0x100 else dec16 sp

/-- The stack pointer after a pull: incremented, and kept in page 1 in emulation mode
(snes_cpu.c:234-235). -/
def spInc (e : Bool) (sp : Nat) : Nat :=
  if e then (inc16 sp &&& 0xff) ||| 0x100 else inc16 sp

/-- A machine over the plain memory at PC = 0x8000 whose memory holds `JSR 0x9000` at 0x8000
and `RTS` everywhere else from 0x8003 on. -/
def demoCallState : Machine (Nat → Nat) :=
  { cpu := { zeroCpu with sp := 0x1fd, pc := 0x8000, i := true, xf := true, mf := true },
    mem := fun a => if a = 0x8000 then 0x20 else if a = 0x8001 then 0x00
      else if a = 0x8002 then 0x90 else 0x60,
    trace := [] }

theorem ctl_ext {c : Cpu} {k sp pc : Nat} {e rw st wt nmi irq iw : Bool}
    (h1 : c.k = k) (h2 : c.e = e) (h3 : c.sp = sp) (h4 : c.pc = pc) (h5 : c.resetWanted = rw)
    (h6 : c.stopped = st) (h7 : c.waiting = wt) (h8 : c.nmiWanted = nmi)
    (h9 : c.irqWanted = irq) (h10 : c.intWanted = iw) :
    ctlOf c = ⟨k, e, sp, pc, rw, st, wt, nmi, irq, iw⟩ := by
  subst h1 h2 h3 h4 h5 h6 h7 h8 h9 h10
  rfl

theorem ctl_fields {c : Cpu} {k sp pc : Nat} {e rw st wt nmi irq iw : Bool}
    (h : ctlOf c = ⟨k, e, sp, pc, rw, st, wt, nmi, irq, iw⟩) :
    c.k = k ∧ c.e = e ∧ c.sp = sp ∧ c.pc = pc ∧ c.resetWanted = rw ∧ c.stopped = st ∧
    c.waiting = wt ∧ c.nmiWanted = nmi ∧ c.irqWanted = irq ∧ c.intWanted = iw :=
  ⟨congrArg CtlView.k h, congrArg CtlView.e h, congrArg CtlView.sp h, congrArg CtlView.pc h,
    congrArg CtlView.resetWanted h, congrArg CtlView.stopped h, congrArg CtlView.waiting h,
    congrArg CtlView.nmiWanted h, congrArg CtlView.irqWanted h, congrArg CtlView.intWanted h⟩

section RamWp

theorem ram_idle {Q : Unit → Machine (Nat → Nat) → Prop} {s : Machine (Nat → Nat)}
    {V : CtlView} (hv : ctlOf s.cpu = V)
    (H : ∀ c' t', ctlOf c' = V → Q () ⟨c', s.mem, t'⟩) : wp (cpu_idle ramHandlers) Q s :=
  H _ _ hv

theorem ram_read {adr : Nat} {Q : Nat → Machine (Nat → Nat) → Prop}
    {s : Machine (Nat → Nat)} {V : CtlView} (hv : ctlOf s.cpu = V)
    (H : ∀ c' t', ctlOf c' = V → Q (s.mem adr % 256) ⟨c', s.mem, t'⟩) :
    wp (cpu_read ramHandlers adr) Q s :=
  H _ _ hv

theorem ram_write {adr val : Nat} {Q : Unit → Machine (Nat → Nat) → Prop}
    {s : Machine (Nat → Nat)} {V : CtlView} (hv : ctlOf s.cpu = V)
    (H : ∀ c' t', ctlOf c' = V → Q () ⟨c', memWrite s.mem adr (val % 256), t'⟩) :
    wp (cpu_write ramHandlers adr val) Q s :=
  H _ _ hv

theorem ram_readOpcode {Q : Nat → Machine (Nat → Nat) → Prop} {s : Machine (Nat → Nat)}
    {k sp pc : Nat} {e rw st wt nmi irq iw : Bool}
    (hv : ctlOf s.cpu = ⟨k, e, sp, pc, rw, st, wt, nmi, irq, iw⟩)
    (H : ∀ c' t', ctlOf c' = ⟨k, e, sp, inc16 pc, rw, st, wt, nmi, irq, iw⟩ →
      Q (s.mem ((k <<< 16) ||| pc) % 256) ⟨c', s.mem, t'⟩) :
    wp (cpu_readOpcode ramHandlers) Q s := by
  obtain ⟨h1, h2, h3, h4, h5, h6, h7, h8, h9, h10⟩ := ctl_fields hv
  unfold cpu_readOpcode
  apply wp_bind; apply wp_getCpu
  apply wp_bind; apply wp_modifyCpu
  rw [h1, h4]
  refine ram_read (V := ⟨k, e, sp, inc16 pc, rw, st, wt, nmi, irq, iw⟩) ?_ H
  refine ctl_ext ?_ ?_ ?_ ?_ ?_ ?_ ?_ ?_ ?_ ?_ <;> first | rfl | assumption | (rw [h3])

theorem ram_pushByte {value : Nat} {Q : Unit → Machine (Nat → Nat) → Prop}
    {s : Machine (Nat → Nat)} {k sp pc : Nat} {e rw st wt nmi irq iw : Bool}
    (hv : ctlOf s.cpu = ⟨k, e, sp, pc, rw, st, wt, nmi, irq, iw⟩)
    (H : ∀ c' t', ctlOf c' = ⟨k, e, spDec e sp, pc, rw, st, wt, nmi, irq, iw⟩ →
      Q () ⟨c', memWrite s.mem sp (value % 256), t'⟩) :
    wp (cpu_pushByte ramHandlers value) Q s := by
  have hsp : s.cpu.sp = sp := congrArg CtlView.sp hv
  unfold cpu_pushByte
  apply wp_bind; apply wp_getCpu
  rw [hsp]
  apply wp_bind
  refine ram_write hv ?_
  intro c1 t1 hc1
  obtain ⟨h1, h2, h3, h4, h5, h6, h7, h8, h9, h10⟩ := ctl_fields hc1
  rw [Nat.mod_mod]
  apply wp_bind; apply wp_modifyCpu
  apply wp_modifyCpu
  apply H
  dsimp only
  unfold spDec
  cases e
  · rw [h2]
    simp only [Bool.false_eq_true, if_false]
    refine ctl_ext ?_ ?_ ?_ ?_ ?_ ?_ ?_ ?_ ?_ ?_ <;> first | rfl | assumption | (rw [h3])
  · rw [h2]
    simp only [if_true]
    refine ctl_ext ?_ ?_ ?_ ?_ ?_ ?_ ?_ ?_ ?_ ?_ <;> first | rfl | assumption | (rw [h3])

theorem ram_pullByte {Q : Nat → Machine (Nat → Nat) → Prop}
    {s : Machine (Nat → Nat)} {k sp pc : Nat} {e rw st wt nmi irq iw : Bool}
    (hv : ctlOf s.cpu = ⟨k, e, sp, pc, rw, st, wt, nmi, irq, iw⟩)
    (H : ∀ c' t', ctlOf c' = ⟨k, e, spInc e sp, pc, rw, st, wt, nmi, irq, iw⟩ →
      Q (s.mem (spInc e sp) % 256) ⟨c', s.mem, t'⟩) :
    wp (cpu_pullByte ramHandlers) Q s := by
  obtain ⟨h1, h2, h3, h4, h5, h6, h7, h8, h9, h10⟩ := ctl_fields hv
  unfold cpu_pullByte
  apply wp_bind; apply wp_modifyCpu
  apply wp_bind; apply wp_modifyCpu
  apply wp_bind; apply wp_getCpu
  dsimp only
  rw [h2, h3]
  cases e
  · simp only [Bool.false_eq_true, if_false]
    refine ram_read (V := ⟨k, false, spInc false sp, pc, rw, st, wt, nmi, irq, iw⟩) ?_ H
    refine ctl_ext ?_ ?_ ?_ ?_ ?_ ?_ ?_ ?_ ?_ ?_ <;> first | rfl | assumption | (rw [h3])
  · simp only [if_true]
    refine ram_read (V := ⟨k, true, spInc true sp, pc, rw, st, wt, nmi, irq, iw⟩) ?_ H
    refine ctl_ext ?_ ?_ ?_ ?_ ?_ ?_ ?_ ?_ ?_ ?_ <;> first | rfl | assumption | (rw [h3])

theorem ram_checkInt {Q : Unit → Machine (Nat → Nat) → Prop}
    {s : Machine (Nat → Nat)} {k sp pc : Nat} {e rw st wt iw : Bool}
    (hv : ctlOf s.cpu = ⟨k, e, sp, pc, rw, st, wt, false, false, iw⟩)
    (H : ∀ c', ctlOf c' = ⟨k, e, sp, pc, rw, st, wt, false, false, false⟩ →
      Q () ⟨c', s.mem, s.trace⟩) :
    wp cpu_checkInt Q s := by
  obtain ⟨h1, h2, h3, h4, h5, h6, h7, h8, h9, h10⟩ := ctl_fields hv
  apply wp_checkInt
  apply H
  refine ctl_ext h1 h2 h3 h4 h5 h6 h7 h8 h9 ?_
  show ((s.cpu.nmiWanted || (s.cpu.irqWanted && !s.cpu.i)) && !s.cpu.intDelay) = false
  rw [h8, h9]
  rfl

theorem ram_setPc {val : Nat} {Q : Unit → Machine (Nat → Nat) → Prop}
    {s : Machine (Nat → Nat)} {k sp pc : Nat} {e rw st wt nmi irq iw : Bool}
    (hv : ctlOf s.cpu = ⟨k, e, sp, pc, rw, st, wt, nmi, irq, iw⟩)
    (H : ∀ c', ctlOf c' = ⟨k, e, sp, val, rw, st, wt, nmi, irq, iw⟩ →
      Q () ⟨c', s.mem, s.trace⟩) :
    wp (modifyCpu fun c => { c with pc := val }) Q s := by
  obtain ⟨h1, h2, h3, h4, h5, h6, h7, h8, h9, h10⟩ := ctl_fields hv
  apply wp_modifyCpu
  apply H
  refine ctl_ext ?_ ?_ ?_ ?_ ?_ ?_ ?_ ?_ ?_ ?_ <;> first | rfl | assumption | (rw [h3])

end RamWp

section RamWord

theorem ram_readOpcodeWord {Q : Nat → Machine (Nat → Nat) → Prop} {s : Machine (Nat → Nat)}
    {k sp pc : Nat} {e rw st wt nmi irq iw : Bool}
    (hv : ctlOf s.cpu = ⟨k, e, sp, pc, rw, st, wt, nmi, irq, iw⟩)
    (H : ∀ c' t', ctlOf c' = ⟨k, e, sp, inc16 (inc16 pc), rw, st, wt, nmi, irq, iw⟩ →
      Q ((s.mem ((k <<< 16) ||| pc) % 256) ||| ((s.mem ((k <<< 16) ||| inc16 pc) % 256) <<< 8))
        ⟨c', s.mem, t'⟩) :
    wp (cpu_readOpcodeWord ramHandlers false) Q s := by
  unfold cpu_readOpcodeWord
  apply wp_bind
  refine ram_readOpcode hv ?_
  intro c1 t1 h1
  simp only [Bool.false_eq_true, if_false]
  apply wp_bind; apply wp_pure
  apply wp_bind
  refine ram_readOpcode h1 ?_
  intro c2 t2 h2
  apply wp_pure
  exact H c2 t2 h2

theorem ram_pushWord {value : Nat} {Q : Unit → Machine (Nat → Nat) → Prop}
    {s : Machine (Nat → Nat)} {k sp pc : Nat} {e rw st wt iw : Bool}
    (hv : ctlOf s.cpu = ⟨k, e, sp, pc, rw, st, wt, false, false, iw⟩)
    (H : ∀ c' t', ctlOf c' =
        ⟨k, e, spDec e (spDec e sp), pc, rw, st, wt, false, false, false⟩ →
      Q () ⟨c', memWrite (memWrite s.mem sp (((value % 0x10000) >>> 8) % 256)) (spDec e sp)
        ((value % 0x10000 &&& 0xff) % 256), t'⟩) :
    wp (cpu_pushWord ramHandlers value true) Q s := by
  unfold cpu_pushWord
  dsimp only
  apply wp_bind
  refine ram_pushByte hv ?_
  intro c1 t1 h1
  simp only [if_true]
  apply wp_bind
  refine ram_checkInt h1 ?_
  intro c2 h2
  refine ram_pushByte h2 ?_
  intro c3 t3 h3
  exact H c3 t3 h3

theorem ram_pullWord {Q : Nat → Machine (Nat → Nat) → Prop} {s : Machine (Nat → Nat)}
    {k sp pc : Nat} {e rw st wt nmi irq iw : Bool}
    (hv : ctlOf s.cpu = ⟨k, e, sp, pc, rw, st, wt, nmi, irq, iw⟩)
    (H : ∀ c' t', ctlOf c' = ⟨k, e, spInc e (spInc e sp), pc, rw, st, wt, nmi, irq, iw⟩ →
      Q ((s.mem (spInc e sp) % 256) ||| ((s.mem (spInc e (spInc e sp)) % 256) <<< 8))
        ⟨c', s.mem, t'⟩) :
    wp (cpu_pullWord ramHandlers false) Q s := by
  unfold cpu_pullWord
  apply wp_bind
  refine ram_pullByte hv ?_
  intro c1 t1 h1
  simp only [Bool.false_eq_true, if_false]
  apply wp_bind; apply wp_pure
  apply wp_bind
  refine ram_pullByte h1 ?_
  intro c2 t2 h2
  apply wp_pure
  exact H c2 t2 h2

end RamWord

section Fetch
variable {μ : Type} (h : Handlers μ)

/-- With no reset, stop, wait or interrupt pending `cpu_runOpcode` fetches and executes one
opcode. -/
theorem wp_runOpcode_fetch {Q : Unit → Machine μ → Prop} {s : Machine μ}
    (hr : s.cpu.resetWanted = false) (hs : s.cpu.stopped = false) (hw : s.cpu.waiting = false)
    (hi : s.cpu.intWanted = false)
    (H : wp (cpu_readOpcode h >>= fun opcode => cpu_doOpcode h opcode) Q s) :
    wp (cpu_runOpcode h) Q s := by
  unfold cpu_runOpcode
  apply wp_bind; apply wp_getCpu; simp only [hr, Bool.false_eq_true, if_false]
  apply wp_bind; apply wp_getCpu; simp only [hs, Bool.false_eq_true, if_false]
  apply wp_bind; apply wp_getCpu; simp only [hw, Bool.false_eq_true, if_false]
  apply wp_bind; apply wp_getCpu; simp only [hi, Bool.false_eq_true, if_false]
  exact H

theorem doOpcode_jsr : cpu_doOpcode h 0x20 = (do
    let value ← cpu_readOpcodeWord h false
    cpu_idle h
    cpu_pushWord h (toU16 (((← getCpu).pc : Int) - 1)) true
    modifyCpu fun c => { c with pc := value }) := rfl

theorem doOpcode_rts : cpu_doOpcode h 0x60 = (do
    cpu_idle h
    cpu_idle h
    let value ← cpu_pullWord h false
    modifyCpu fun c => { c with pc := (value + 1) % 0x10000 }
    cpu_checkInt
    cpu_idle h) := rfl

end Fetch

set_option maxRecDepth 20000 in
theorem page1_round (b : Nat) (hb : b < 256) :
    ((inc16 ((dec16 (0x100 + b) &&& 0xff) ||| 0x100)) &&& 0xff) ||| 0x100 = 0x100 + b ∧
    (dec16 (0x100 + b) &&& 0xff) ||| 0x100 ≠ 0x100 + b ∧
    0x100 ≤ (dec16 (0x100 + b) &&& 0xff) ||| 0x100 ∧
    (dec16 (0x100 + b) &&& 0xff) ||| 0x100 < 0x200 := by
  have key : ∀ b, b < 256 →
      (((inc16 ((dec16 (0x100 + b) &&& 0xff) ||| 0x100)) &&& 0xff) ||| 0x100 = 0x100 + b ∧
      (dec16 (0x100 + b) &&& 0xff) ||| 0x100 ≠ 0x100 + b ∧
      0x100 ≤ (dec16 (0x100 + b) &&& 0xff) ||| 0x100 ∧
      (dec16 (0x100 + b) &&& 0xff) ||| 0x100 < 0x200) := by decide
  exact key b hb

/-- A pull undoes a push of the stack pointer, in native mode for every 16-bit value and
in emulation mode for every value in page 1; the pushed-to addresses differ. -/
theorem sp_round (e : Bool) (sp : Nat) (h : sp < 0x10000)
    (he : e = true → 0x100 ≤ sp ∧ sp < 0x200) :
    spInc e (spDec e sp) = sp ∧ spDec e sp ≠ sp ∧ spDec e sp < 0x10000 ∧
    (e = true → 0x100 ≤ spDec e sp ∧ spDec e sp < 0x200) := by
  unfold spInc spDec
  cases e
  · simp only [Bool.false_eq_true, if_false, false_implies, and_true]
    unfold inc16 dec16
    split_ifs with h0
    · subst h0; decide
    · refine ⟨?_, ?_, ?_⟩ <;> omega
  · simp only [if_true, true_implies]
    obtain ⟨h1, h2⟩ := he rfl
    obtain ⟨b, rfl⟩ : ∃ b, sp = 0x100 + b := ⟨sp - 0x100, by omega⟩
    obtain ⟨r1, r2, r3, r4⟩ := page1_round b (by omega)
    exact ⟨r1, r2, by omega, r3, r4⟩

theorem return_address (p : Nat) (h : p < 0x10000) :
    ((toU16 ((inc16 (inc16 (inc16 p)) : Int) - 1) % 0x10000) >>> 8) % 256 =
      (p + 2) % 0x10000 / 256 ∧
    (toU16 ((inc16 (inc16 (inc16 p)) : Int) - 1) % 0x10000 &&& 0xff) % 256 =
      (p + 2) % 0x10000 % 256 := by
  have e : toU16 ((inc16 (inc16 (inc16 p)) : Int) - 1) = (p + 2) % 0x10000 := by
    unfold toU16 inc16
    omega
  rw [e, Nat.shiftRight_eq_div_pow, and_ff]
  constructor
  · norm_num
    omega
  · omega

/-- C39: JSR / RTS round trip.  Over a plain memory (a read returns the byte last written),
with no reset, stop, wait or interrupt pending, registers in range and, in emulation mode,
the stack pointer in page 1: if the opcode at K:PC is JSR abs (0x20) and the opcode found at
the target after the two stack writes is RTS (0x60), then two `cpu_runOpcode` steps leave
PC = (p + 3) mod 2^16 with K, the E flag and SP as before the JSR.  The stack pointer steps
are `spDec` / `spInc`, which wrap modulo 2^16 in native mode and within page 1 in emulation
mode. -/
theorem C39_jsr_rts_round_trip (s : Machine (Nat → Nat))
    (hr : s.cpu.resetWanted = false) (hs : s.cpu.stopped = false) (hw : s.cpu.waiting = false)
    (hn : s.cpu.nmiWanted = false) (hq : s.cpu.irqWanted = false)
    (hi : s.cpu.intWanted = false) (hpc : s.cpu.pc < 0x10000) (hsp : s.cpu.sp < 0x10000)
    (he : s.cpu.e = true → 0x100 ≤ s.cpu.sp ∧ s.cpu.sp < 0x200)
    (hjsr : s.mem ((s.cpu.k <<< 16) ||| s.cpu.pc) % 256 = 0x20)
    (hrts : memWrite (memWrite s.mem s.cpu.sp ((s.cpu.pc + 2) % 0x10000 / 256))
        (spDec s.cpu.e s.cpu.sp) ((s.cpu.pc + 2) % 0x10000 % 256)
        ((s.cpu.k <<< 16) |||
          ((s.mem ((s.cpu.k <<< 16) ||| inc16 s.cpu.pc) % 256) |||
            ((s.mem ((s.cpu.k <<< 16) ||| inc16 (inc16 s.cpu.pc)) % 256) <<< 8))) % 256 = 0x60) :
    wp (cpu_runOpcode ramHandlers >>= fun _ => cpu_runOpcode ramHandlers)
      (fun _ s' => s'.cpu.pc = (s.cpu.pc + 3) % 0x10000 ∧ s'.cpu.k = s.cpu.k ∧
        s'.cpu.sp = s.cpu.sp ∧ s'.cpu.e = s.cpu.e ∧
        s'.mem = memWrite (memWrite s.mem s.cpu.sp ((s.cpu.pc + 2) % 0x10000 / 256))
          (spDec s.cpu.e s.cpu.sp) ((s.cpu.pc + 2) % 0x10000 % 256)) s := by
  have hv : ctlOf s.cpu = ⟨s.cpu.k, s.cpu.e, s.cpu.sp, s.cpu.pc, false, false, false, false,
      false, false⟩ := ctl_ext rfl rfl rfl rfl hr hs hw hn hq hi
  obtain ⟨ra1, ra2⟩ := return_address s.cpu.pc hpc
  obtain ⟨sr1, sr2, sr3, sr4⟩ := sp_round s.cpu.e s.cpu.sp hsp he
  obtain ⟨sq1, sq2, sq3, sq4⟩ := sp_round s.cpu.e (spDec s.cpu.e s.cpu.sp) sr3 sr4
  apply wp_bind
  refine wp_runOpcode_fetch _ hr hs hw hi ?_
  apply wp_bind
  refine ram_readOpcode hv ?_
  intro c1 t1 h1
  rw [hjsr, doOpcode_jsr ramHandlers]
  apply wp_bind
  refine ram_readOpcodeWord h1 ?_
  intro c2 t2 h2
  apply wp_bind
  refine ram_idle h2 ?_
  intro c3 t3 h3
  apply wp_bind; apply wp_getCpu
  have e3 : c3.pc = inc16 (inc16 (inc16 s.cpu.pc)) := (ctl_fields h3).2.2.2.1
  dsimp only
  rw [e3]
  apply wp_bind
  refine ram_pushWord h3 ?_
  intro c4 t4 h4
  rw [ra1, ra2]
  refine ram_setPc h4 ?_
  intro c5 h5
  obtain ⟨-, -, -, -, f5, f6, f7, -, -, f10⟩ := ctl_fields h5
  refine wp_runOpcode_fetch _ f5 f6 f7 f10 ?_
  apply wp_bind
  refine ram_readOpcode h5 ?_
  intro c6 t6 h6
  dsimp only
  rw [hrts, doOpcode_rts ramHandlers]
  apply wp_bind
  refine ram_idle h6 ?_
  intro c7 t7 h7
  apply wp_bind
  refine ram_idle h7 ?_
  intro c8 t8 h8
  apply wp_bind
  refine ram_pullWord h8 ?_
  intro c9 t9 h9
  apply wp_bind
  refine ram_setPc h9 ?_
  intro c10 h10
  apply wp_bind
  refine ram_checkInt h10 ?_
  intro c11 h11
  refine ram_idle h11 ?_
  intro c12 t12 h12
  obtain ⟨g1, g2, g3, g4, -⟩ := ctl_fields h12
  dsimp only at g1 g2 g3 g4 ⊢
  rw [sq1, sr1] at g3
  refine ⟨?_, g1, g3, g2, rfl⟩
  rw [g4, sq1, sr1]
  have m1 : memWrite (memWrite s.mem s.cpu.sp ((s.cpu.pc + 2) % 0x10000 / 256))
      (spDec s.cpu.e s.cpu.sp) ((s.cpu.pc + 2) % 0x10000 % 256) (spDec s.cpu.e s.cpu.sp) =
      (s.cpu.pc + 2) % 0x10000 % 256 := by
    unfold memWrite
    rw [if_pos rfl]
  have m2 : memWrite (memWrite s.mem s.cpu.sp ((s.cpu.pc + 2) % 0x10000 / 256))
      (spDec s.cpu.e s.cpu.sp) ((s.cpu.pc + 2) % 0x10000 % 256) s.cpu.sp =
      (s.cpu.pc + 2) % 0x10000 / 256 := by
    unfold memWrite
    rw [if_neg (fun h => sr2 h.symm), if_pos rfl]
  rw [m1, m2, byte_or_shl8 _ _ (Nat.mod_lt _ (by norm_num))]
  omega

theorem C39_jsr_rts_round_trip_witness :
    demoCallState.cpu.pc = 0x8000 ∧ demoCallState.cpu.sp = 0x1fd ∧
    wp (cpu_runOpcode ramHandlers >>= fun _ => cpu_runOpcode ramHandlers)
      (fun _ s' => s'.cpu.pc = (demoCallState.cpu.pc + 3) % 0x10000 ∧
        s'.cpu.k = demoCallState.cpu.k ∧ s'.cpu.sp = demoCallState.cpu.sp ∧
        s'.cpu.e = demoCallState.cpu.e ∧
        s'.mem = memWrite (memWrite demoCallState.mem demoCallState.cpu.sp
            ((demoCallState.cpu.pc + 2) % 0x10000 / 256))
          (spDec demoCallState.cpu.e demoCallState.cpu.sp)
          ((demoCallState.cpu.pc + 2) % 0x10000 % 256)) demoCallState :=
  ⟨rfl, rfl, C39_jsr_rts_round_trip demoCallState rfl rfl rfl rfl rfl rfl (by decide) (by decide)
    (by decide) (by decide) (by decide)⟩

theorem clamp_range (i : Int) (h1 : -32 ≤ i) (h2 : i ≤ 63) :
    ∃ v : Nat, color_clamp_lut_i20 i = some v ∧ v ≤ 31 := by
  unfold color_clamp_lut_i20
  rw [if_pos (by omega)]
  unfold color_clamp_lut
  by_cases a : (0x20 + i).toNat < 0x20
  · rw [if_pos a]; exact ⟨0, rfl, by omega⟩
  · rw [if_neg a]
    by_cases b : (0x20 + i).toNat ≤ 0x3f
    · rw [if_pos b]; exact ⟨_, rfl, by omega⟩
    · rw [if_neg b, if_pos (by omega)]; exact ⟨0x1f, rfl, by omega⟩

theorem mathSum_range (subtract useSub highRes : Bool) (c c2 fixed : Int)
    (hc : 0 ≤ c ∧ c ≤ 31) (hc2 : 0 ≤ c2 ∧ c2 ≤ 31) (hf : 0 ≤ fixed ∧ fixed ≤ 31) :
    ∃ p : Int × Int, mathSum subtract useSub highRes c c2 fixed = some p ∧
      -31 ≤ p.1 ∧ p.1 ≤ 62 ∧ 0 ≤ p.2 ∧ p.2 ≤ 31 := by
  obtain ⟨v1, e1, b1⟩ := clamp_range (c2 - fixed) (by omega) (by omega)
  obtain ⟨v2, e2, b2⟩ := clamp_range (c2 + fixed) (by omega) (by omega)
  unfold mathSum
  cases subtract <;> cases useSub <;> cases highRes <;>
    simp only [if_true, Bool.false_eq_true, if_false, e1, e2, Option.bind_eq_bind,
      Option.some_bind, Option.pure_def] <;>
    refine ⟨_, rfl, ?_, ?_, ?_, ?_⟩ <;> dsimp only <;> omega

theorem mathClamp_range (subtract useSub highRes half : Bool) (c c2 fixed : Int)
    (hc : 0 ≤ c ∧ c ≤ 31) (hc2 : 0 ≤ c2 ∧ c2 ≤ 31) (hf : 0 ≤ fixed ∧ fixed ≤ 31) :
    ∃ p : Int × Int, mathClamp subtract useSub highRes half c c2 fixed = some p ∧
      0 ≤ p.1 ∧ p.1 ≤ 31 ∧ 0 ≤ p.2 ∧ p.2 ≤ 31 := by
  obtain ⟨p, e, a1, a2, a3, a4⟩ := mathSum_range subtract useSub highRes c c2 fixed hc hc2 hf
  have hs : p.1 >>> (1 : Nat) = p.1 / 2 := by
    rw [Int.shiftRight_eq_div_pow]
    norm_num
  have hr : -32 ≤ (if half = true then p.1 >>> (1 : Nat) else p.1) ∧
      (if half = true then p.1 >>> (1 : Nat) else p.1) ≤ 63 := by
    split_ifs
    · rw [hs]; omega
    · omega
  obtain ⟨v, ev, bv⟩ := clamp_range _ hr.1 hr.2
  unfold mathClamp
  rw [e]
  simp only [Option.bind_eq_bind, Option.some_bind, ev, Option.pure_def]
  exact ⟨_, rfl, by dsimp only; omega, by dsimp only; omega, a3, a4⟩

/-- Every table read of the colour math of one channel is within the table and both
resulting channels are in [0, 31], for channels and a fixed colour in [0, 31]. -/
theorem channelMath_range (mathEnabled subtract useSub highRes half avg : Bool)
    (c c2 fixed : Int)
    (hc : 0 ≤ c ∧ c ≤ 31) (hc2 : 0 ≤ c2 ∧ c2 ≤ 31) (hf : 0 ≤ fixed ∧ fixed ≤ 31) :
    ∃ p : Int × Int,
      channelMath mathEnabled subtract useSub highRes half avg c c2 fixed = some p ∧
      0 ≤ p.1 ∧ p.1 ≤ 31 := by
  have h1 : ∃ p : Int × Int,
      (if mathEnabled = true then mathClamp subtract useSub highRes half c c2 fixed
        else some (c, c2)) = some p ∧ 0 ≤ p.1 ∧ p.1 ≤ 31 ∧ 0 ≤ p.2 ∧ p.2 ≤ 31 := by
    split_ifs
    · exact mathClamp_range subtract useSub highRes half c c2 fixed hc hc2 hf
    · exact ⟨_, rfl, hc.1, hc.2, hc2.1, hc2.2⟩
  obtain ⟨p, e, a1, a2, a3, a4⟩ := h1
  have hs : (p.1 + p.2) >>> (1 : Nat) = (p.1 + p.2) / 2 := by
    rw [Int.shiftRight_eq_div_pow]
    norm_num
  unfold channelMath
  rw [e]
  simp only [Option.bind_eq_bind, Option.some_bind, Option.pure_def]
  refine ⟨_, rfl, ?_, ?_⟩
  · cases avg <;> cases highRes <;> simp only [if_true, Bool.false_eq_true, Bool.true_eq_false, if_false, hs] <;>
      omega
  · cases avg <;> cases highRes <;> simp only [if_true, Bool.false_eq_true, Bool.true_eq_false, if_false, hs] <;>
      omega

theorem ppu_write_fixedColorR (ppu : Ppu) (bus : PpuBus) (adr val : Nat) :
    (ppu_write ppu bus adr val).fixedColorR =
      if adr = 0x32 then (if (val &&& 0x20) != 0 then val &&& 0x1f else ppu.fixedColorR)
      else ppu.fixedColorR := by
  by_cases h : adr = 0x32
  · subst h
    simp [ppu_write]
  · rw [if_neg h]
    simp only [ppu_write, ppu_writeHScroll, ppu_writeVScroll, if_neg h, apply_ite Ppu.fixedColorR,
      ite_self]

theorem ppu_write_fixedColorG (ppu : Ppu) (bus : PpuBus) (adr val : Nat) :
    (ppu_write ppu bus adr val).fixedColorG =
      if adr = 0x32 then (if (val &&& 0x40) != 0 then val &&& 0x1f else ppu.fixedColorG)
      else ppu.fixedColorG := by
  by_cases h : adr = 0x32
  · subst h
    simp [ppu_write]
  · rw [if_neg h]
    simp only [ppu_write, ppu_writeHScroll, ppu_writeVScroll, if_neg h, apply_ite Ppu.fixedColorG,
      ite_self]

theorem ppu_write_fixedColorB (ppu : Ppu) (bus : PpuBus) (adr val : Nat) :
    (ppu_write ppu bus adr val).fixedColorB =
      if adr = 0x32 then (if (val &&& 0x80) != 0 then val &&& 0x1f else ppu.fixedColorB)
      else ppu.fixedColorB := by
  by_cases h : adr = 0x32
  · subst h
    simp [ppu_write]
  · rw [if_neg h]
    simp only [ppu_write, ppu_writeHScroll, ppu_writeVScroll, if_neg h, apply_ite Ppu.fixedColorB,
      ite_self]

theorem ppu_write_bright_now (ppu : Ppu) (bus : PpuBus) (adr val : Nat) :
    (ppu_write ppu bus adr val).bright_now =
      if adr = 0x00 then bright_lut (val &&& 0xf) else ppu.bright_now := by
  by_cases h : adr = 0x00
  · subst h
    simp [ppu_write]
  · rw [if_neg h]
    simp only [ppu_write, ppu_writeHScroll, ppu_writeVScroll, if_neg h, apply_ite Ppu.bright_now,
      ite_self]

theorem bright_lut_le (v : Nat) : bright_lut (v &&& 0xf) ≤ 0x10000 := by
  have h : v &&& 0xf ≤ 0xf := Nat.and_le_right
  unfold bright_lut
  omega

theorem ppu_read_fixedColorR (ppu : Ppu) (bus : PpuBus) (adr : Nat) :
    (ppu_read ppu bus adr).2.fixedColorR = ppu.fixedColorR := by
  simp only [ppu_read, ppu_latchHV, apply_ite Prod.snd, apply_ite Ppu.fixedColorR, ite_self]

theorem handleVblank_fixedColorR (ppu : Ppu) : (ppu_handleVblank ppu).fixedColorR = ppu.fixedColorR := by
  simp only [ppu_handleVblank, apply_ite Ppu.fixedColorR, ite_self]

theorem ppu_read_fixedColorG (ppu : Ppu) (bus : PpuBus) (adr : Nat) :
    (ppu_read ppu bus adr).2.fixedColorG = ppu.fixedColorG := by
  simp only [ppu_read, ppu_latchHV, apply_ite Prod.snd, apply_ite Ppu.fixedColorG, ite_self]

theorem handleVblank_fixedColorG (ppu : Ppu) : (ppu_handleVblank ppu).fixedColorG = ppu.fixedColorG := by
  simp only [ppu_handleVblank, apply_ite Ppu.fixedColorG, ite_self]

theorem ppu_read_fixedColorB (ppu : Ppu) (bus : PpuBus) (adr : Nat) :
    (ppu_read ppu bus adr).2.fixedColorB = ppu.fixedColorB := by
  simp only [ppu_read, ppu_latchHV, apply_ite Prod.snd, apply_ite Ppu.fixedColorB, ite_self]

theorem handleVblank_fixedColorB (ppu : Ppu) : (ppu_handleVblank ppu).fixedColorB = ppu.fixedColorB := by
  simp only [ppu_handleVblank, apply_ite Ppu.fixedColorB, ite_self]

theorem ppu_read_bright_now (ppu : Ppu) (bus : PpuBus) (adr : Nat) :
    (ppu_read ppu bus adr).2.bright_now = ppu.bright_now := by
  simp only [ppu_read, ppu_latchHV, apply_ite Prod.snd, apply_ite Ppu.bright_now, ite_self]

theorem handleVblank_bright_now (ppu : Ppu) : (ppu_handleVblank ppu).bright_now = ppu.bright_now := by
  simp only [ppu_handleVblank, apply_ite Ppu.bright_now, ite_self]

/-- In every PPU state reached from `ppu_reset` the three fixed-colour channels are at most
31 and the brightness factor is at most 0x10000. -/
theorem ppuReach_colour {ppu : Ppu} (hp : PpuReach ppu) :
    ppu.fixedColorR ≤ 31 ∧ ppu.fixedColorG ≤ 31 ∧ ppu.fixedColorB ≤ 31 ∧
    ppu.bright_now ≤ 0x10000 := by
  induction hp with
  | reset => decide
  | write bus adr val hval _ ih =>
    have hm : val &&& 0x1f ≤ 0x1f := Nat.and_le_right
    rw [ppu_write_fixedColorR, ppu_write_fixedColorG, ppu_write_fixedColorB,
      ppu_write_bright_now]
    obtain ⟨i1, i2, i3, i4⟩ := ih
    have hb := bright_lut_le val
    refine ⟨?_, ?_, ?_, ?_⟩ <;> split_ifs <;> omega
  | read bus adr _ ih =>
    rw [ppu_read_fixedColorR, ppu_read_fixedColorG, ppu_read_fixedColorB, ppu_read_bright_now]
    exact ih
  | latch bus _ ih => exact ih
  | overscan _ ih => exact ih
  | vblank _ ih =>
    rw [handleVblank_fixedColorR, handleVblank_fixedColorG, handleVblank_fixedColorB,
      handleVblank_bright_now]
    exact ih
  | frameStart _ ih => exact ih
  | line env line _ ih => exact ih

theorem getPixel_range (env : PixelEnv) (ppu : Ppu) (x y : Nat) (sub : Bool) :
    (0 ≤ (ppu_getPixel env ppu x y sub).r ∧ (ppu_getPixel env ppu x y sub).r ≤ 31) ∧
    (0 ≤ (ppu_getPixel env ppu x y sub).g ∧ (ppu_getPixel env ppu x y sub).g ≤ 31) ∧
    (0 ≤ (ppu_getPixel env ppu x y sub).b ∧ (ppu_getPixel env ppu x y sub).b ≤ 31) := by
  have hor : ∀ a b : Nat, a < 32 → b < 32 → a ||| b < 32 := fun a b ha hb =>
    Nat.or_lt_two_pow (n := 5) ha hb
  have m1 : ∀ v : Nat, v &&& 0x1f ≤ 0x1f := fun v => Nat.and_le_right
  have r1 : ∀ p : Nat, ((p &&& 0x7) <<< 2) ||| ((p &&& 0x100) >>> 7) < 32 := by
    intro p
    have h1 : p &&& 0x7 ≤ 0x7 := Nat.and_le_right
    have h2 : p &&& 0x100 ≤ 0x100 := Nat.and_le_right
    apply hor
    · rw [Nat.shiftLeft_eq]; omega
    · rw [Nat.shiftRight_eq_div_pow]; omega
  have g1 : ∀ p : Nat, ((p &&& 0x38) >>> 1) ||| ((p &&& 0x200) >>> 8) < 32 := by
    intro p
    have h1 : p &&& 0x38 ≤ 0x38 := Nat.and_le_right
    have h2 : p &&& 0x200 ≤ 0x200 := Nat.and_le_right
    apply hor
    · rw [Nat.shiftRight_eq_div_pow]; omega
    · rw [Nat.shiftRight_eq_div_pow]; omega
  have b1 : ∀ p : Nat, ((p &&& 0xc0) >>> 3) ||| ((p &&& 0x400) >>> 8) < 32 := by
    intro p
    have h1 : p &&& 0xc0 ≤ 0xc0 := Nat.and_le_right
    have h2 : p &&& 0x400 ≤ 0x400 := Nat.and_le_right
    apply hor
    · rw [Nat.shiftRight_eq_div_pow]; omega
    · rw [Nat.shiftRight_eq_div_pow]; omega
  unfold ppu_getPixel
  dsimp only
  refine ⟨?_, ?_, ?_⟩
  · have h1 := r1 (env.pickLayer ppu x y sub).2
    have h2 := m1 (ppu.cgram ((env.pickLayer ppu x y sub).2 &&& 0xff))
    split_ifs <;> omega
  · have h1 := g1 (env.pickLayer ppu x y sub).2
    have h2 := m1 (ppu.cgram ((env.pickLayer ppu x y sub).2 &&& 0xff) >>> 5)
    split_ifs <;> omega
  · have h1 := b1 (env.pickLayer ppu x y sub).2
    have h2 := m1 (ppu.cgram ((env.pickLayer ppu x y sub).2 &&& 0xff) >>> 10)
    split_ifs <;> omega

theorem applyBrightness_range (ppu : Ppu) (c : Int) (hb : ppu.bright_now ≤ 0x10000)
    (h0 : 0 ≤ c) (h1 : c ≤ 31) :
    0 ≤ applyBrightness ppu c ∧ applyBrightness ppu c ≤ 31 := by
  unfold applyBrightness
  have hb2 : (ppu.bright_now : Int) ≤ 65536 := by exact_mod_cast hb
  have hb0 : (0 : Int) ≤ (ppu.bright_now : Int) := Int.ofNat_nonneg _
  have p0 : 0 ≤ c * (ppu.bright_now : Int) := mul_nonneg h0 hb0
  have p1 : c * (ppu.bright_now : Int) ≤ c * 65536 := mul_le_mul_of_nonneg_left hb2 h0
  generalize c * (ppu.bright_now : Int) = q at p0 p1
  omega

theorem channels_range (ppu : Ppu) (me sb us hr hf av : Bool) (cr dr cg dg cb db : Int)
    (fr fg fb : Nat) (hfr : fr ≤ 31) (hfg : fg ≤ 31) (hfb : fb ≤ 31)
    (hb : ppu.bright_now ≤ 0x10000)
    (hcr : 0 ≤ cr ∧ cr ≤ 31) (hdr : 0 ≤ dr ∧ dr ≤ 31)
    (hcg : 0 ≤ cg ∧ cg ≤ 31) (hdg : 0 ≤ dg ∧ dg ≤ 31)
    (hcb : 0 ≤ cb ∧ cb ≤ 31) (hdb : 0 ≤ db ∧ db ≤ 31) :
    ∃ r g b : Int,
      (do
        let r ← channelMath me sb us hr hf av cr dr fr
        let g ← channelMath me sb us hr hf av cg dg fg
        let b ← channelMath me sb us hr hf av cb db fb
        pure (applyBrightness ppu r.1, applyBrightness ppu g.1, applyBrightness ppu b.1)) =
        some (r, g, b) ∧
      (0 ≤ r ∧ r ≤ 31) ∧ (0 ≤ g ∧ g ≤ 31) ∧ (0 ≤ b ∧ b ≤ 31) := by
  obtain ⟨pr, er, r0, r1⟩ := channelMath_range me sb us hr hf av cr dr fr hcr hdr
    ⟨Int.ofNat_nonneg _, by exact_mod_cast hfr⟩
  obtain ⟨pg, eg, g0, g1⟩ := channelMath_range me sb us hr hf av cg dg fg hcg hdg
    ⟨Int.ofNat_nonneg _, by exact_mod_cast hfg⟩
  obtain ⟨pb, eb, b0, b1⟩ := channelMath_range me sb us hr hf av cb db fb hcb hdb
    ⟨Int.ofNat_nonneg _, by exact_mod_cast hfb⟩
  rw [er, eg, eb]
  exact ⟨_, _, _, rfl, applyBrightness_range ppu _ hb r0 r1,
    applyBrightness_range ppu _ hb g0 g1, applyBrightness_range ppu _ hb b0 b1⟩

theorem ite_zero_range (c : Bool) (v : Int) (h : 0 ≤ v ∧ v ≤ 31) :
    0 ≤ (if c = true then 0 else v) ∧ (if c = true then 0 else v) ≤ 31 := by
  cases c
  · exact h
  · exact ⟨le_refl _, by norm_num⟩

/-- C25: in every PPU state reached from `ppu_reset` by register writes (and the other PPU
events), for every result of the layer selection and of the window test (so for any CGRAM,
VRAM and OAM contents and any math, clip, hires and brightness settings) and every `x`, `y`,
`ppu_handlePixel` makes all its reads of the colour clamp table within the 96 entries (the
embedding returns `none` for a read outside them), and the red, green and blue values it packs
into the output pixel are each in [0, 31]. -/
theorem C25_colour_math_range (env : PixelEnv) (ppu : Ppu) (hp : PpuReach ppu) (x y : Nat) :
    ∃ r g b : Int, ppu_pixelChannels env ppu x y = some (r, g, b) ∧
      (0 ≤ r ∧ r ≤ 31) ∧ (0 ≤ g ∧ g ≤ 31) ∧ (0 ≤ b ∧ b ≤ 31) ∧
      ∃ out : Ppu, ppu_handlePixel env ppu x y = some out ∧
        out.pixelBuffer (((y - 1) + (if ppu.evenFrame then 0 else 239)) * 256 + x) =
          ((cAnd r 0x1f <<< 11) ||| (cAnd g 0x1f <<< 6) ||| cAnd b 0x1f) % 0x10000 := by
  obtain ⟨f1, f2, f3, hb⟩ := ppuReach_colour hp
  have hm := getPixel_range env ppu x y false
  have hs := getPixel_range env ppu x y true
  have key : ∃ r g b : Int, ppu_pixelChannels env ppu x y = some (r, g, b) ∧
      (0 ≤ r ∧ r ≤ 31) ∧ (0 ≤ g ∧ g ≤ 31) ∧ (0 ≤ b ∧ b ≤ 31) := by
    unfold ppu_pixelChannels
    by_cases hfb : ppu.forcedBlank = true
    · rw [if_pos hfb]
      exact ⟨0, 0, 0, rfl, by decide, by decide, by decide⟩
    · rw [if_neg hfb]
      dsimp only
      exact channels_range ppu _ _ _ _ _ _ _ _ _ _ _ _ _ _ _ f1 f2 f3 hb
        (ite_zero_range _ _ hm.1) (ite_zero_range _ _ hs.1)
        (ite_zero_range _ _ hm.2.1) (ite_zero_range _ _ hs.2.1)
        (ite_zero_range _ _ hm.2.2) (ite_zero_range _ _ hs.2.2)
  obtain ⟨r, g, b, e, hr, hg, hbl⟩ := key
  refine ⟨r, g, b, e, hr, hg, hbl, ?_⟩
  unfold ppu_handlePixel
  rw [e]
  exact ⟨_, rfl, if_pos rfl⟩

/-- Witness for C25: display on at full brightness, colour math enabled for BG1 and the
backdrop with fixed colour (31, 31, 31). -/
theorem C25_colour_math_range_witness :
    PpuReach (ppu_write (ppu_write (ppu_write ppu_reset demoLatchBus 0x00 0x0f)
      demoLatchBus 0x31 0x21) demoLatchBus 0x32 0xff) ∧
    ∃ r g b : Int, ppu_pixelChannels demoPixelEnv (ppu_write (ppu_write (ppu_write ppu_reset demoLatchBus 0x00 0x0f)
      demoLatchBus 0x31 0x21) demoLatchBus 0x32 0xff) 0 1 = some (r, g, b) ∧
      (0 ≤ r ∧ r ≤ 31) ∧ (0 ≤ g ∧ g ≤ 31) ∧ (0 ≤ b ∧ b ≤ 31) ∧
      ∃ out : Ppu, ppu_handlePixel demoPixelEnv (ppu_write (ppu_write (ppu_write ppu_reset demoLatchBus 0x00 0x0f)
      demoLatchBus 0x31 0x21) demoLatchBus 0x32 0xff) 0 1 = some out ∧
        out.pixelBuffer (((1 - 1) + (if (Ppu.evenFrame (ppu_write (ppu_write (ppu_write ppu_reset demoLatchBus 0x00 0x0f)
      demoLatchBus 0x31 0x21) demoLatchBus 0x32 0xff)) then 0 else 239)) * 256 + 0) =
          ((cAnd r 0x1f <<< 11) ||| (cAnd g 0x1f <<< 6) ||| cAnd b 0x1f) % 0x10000 :=
  ⟨(PpuReach.write demoLatchBus 0x32 0xff (by decide)
      (PpuReach.write demoLatchBus 0x31 0x21 (by decide)
        (PpuReach.write demoLatchBus 0x00 0x0f (by decide) PpuReach.reset))),
    C25_colour_math_range demoPixelEnv _ (PpuReach.write demoLatchBus 0x32 0xff (by decide)
      (PpuReach.write demoLatchBus 0x31 0x21 (by decide)
        (PpuReach.write demoLatchBus 0x00 0x0f (by decide) PpuReach.reset))) 0 1⟩

theorem spriteScanLoop_spec (ppu : Ppu) (line : Int) :
    ∀ (n : Nat) (st : SpriteScan), st.spritesFound ≤ 32 →
      ∃ st1, spriteScanLoop ppu line n st = some st1 ∧
        st1.spritesFound =
          min 32 (st.spritesFound + (inRangeSprites ppu line n st.index).length) ∧
        st1.rangeOver = (st.rangeOver ||
          decide (32 < st.spritesFound + (inRangeSprites ppu line n st.index).length)) ∧
        ∀ p, st1.foundSprites p =
          if st.spritesFound ≤ p ∧
              p < min 32 (st.spritesFound + (inRangeSprites ppu line n st.index).length) then
            (inRangeSprites ppu line n st.index).getD (p - st.spritesFound) 0
          else st.foundSprites p := by
  intro n
  induction n with
  | zero =>
    intro st _
    refine ⟨st, rfl, ?_, ?_, ?_⟩
    · simp [inRangeSprites]
      omega
    · simp [inRangeSprites]
      omega
    · intro p
      rw [if_neg]
      simp [inRangeSprites]
      omega
  | succ n ih =>
    intro st hk
    by_cases hin : spriteInRange ppu line st.index = true
    · have hL : inRangeSprites ppu line (n + 1) st.index =
          st.index :: inRangeSprites ppu line n ((st.index + 2) % 256) := by
        simp [inRangeSprites, hin]
      rw [hL]
      by_cases hfull : st.spritesFound + 1 > 32
      · refine ⟨{ st with spritesFound := 32, rangeOver := true }, ?_, ?_, ?_, ?_⟩
        · simp [spriteScanLoop, hin, hfull]
        · simp only [List.length_cons]
          omega
        · simp only [List.length_cons]
          have : 32 < st.spritesFound +
              ((inRangeSprites ppu line n ((st.index + 2) % 256)).length + 1) := by omega
          simp [this]
        · intro p
          rw [if_neg]
          simp only [List.length_cons]
          omega
      · have hlt : st.spritesFound + 1 - 1 < 32 := by omega
        obtain ⟨st1, e1, s1, r1, f1⟩ := ih
          { st with spritesFound := st.spritesFound + 1,
                    foundSprites := Function.update st.foundSprites (st.spritesFound + 1 - 1)
                      st.index,
                    index := (st.index + 2) % 256 } (by dsimp only; omega)
        dsimp only at s1 r1 f1
        refine ⟨st1, ?_, ?_, ?_, ?_⟩
        · rw [← e1]
          simp only [spriteScanLoop, hin, if_true, if_neg hfull, if_pos hlt]
        · rw [s1]
          simp only [List.length_cons]
          omega
        · rw [r1]
          simp only [List.length_cons]
          congr 2
          apply propext
          omega
        · intro p
          rw [f1 p]
          simp only [List.length_cons]
          by_cases hp : p = st.spritesFound
          · subst hp
            rw [if_neg (by omega), if_pos (by omega)]
            simp
          · by_cases hp2 : st.spritesFound + 1 ≤ p ∧
                p < min 32 (st.spritesFound + 1 +
                  (inRangeSprites ppu line n ((st.index + 2) % 256)).length)
            · rw [if_pos hp2, if_pos (by omega)]
              have e : p - st.spritesFound = (p - (st.spritesFound + 1)) + 1 := by omega
              rw [e, List.getD_cons_succ]
            · rw [if_neg hp2, if_neg (by omega)]
              rw [Function.update_noteq]
              omega
    · have hL : inRangeSprites ppu line (n + 1) st.index =
          inRangeSprites ppu line n ((st.index + 2) % 256) := by
        simp [inRangeSprites, hin]
      rw [hL]
      obtain ⟨st1, e1, s1, r1, f1⟩ := ih { st with index := (st.index + 2) % 256 } hk
      refine ⟨st1, ?_, s1, r1, f1⟩
      rw [← e1]
      simp only [spriteScanLoop, hin, Bool.false_eq_true, if_false]

theorem drawSliverPixel_fields (ppu : Ppu) (index : Nat) (x : Int) (col plane1 plane2 : Nat)
    (st : SpriteDraw) (px : Nat) :
    (drawSliverPixel ppu index x col plane1 plane2 st px).tilesFound = st.tilesFound ∧
    (drawSliverPixel ppu index x col plane1 plane2 st px).timeOver = st.timeOver ∧
    (drawSliverPixel ppu index x col plane1 plane2 st px).drawn = st.drawn := by
  unfold drawSliverPixel
  dsimp only
  split_ifs <;> exact ⟨rfl, rfl, rfl⟩

theorem drawSliverPixels_fields (ppu : Ppu) (index : Nat) (x : Int) (col plane1 plane2 : Nat) :
    ∀ (l : List Nat) (st : SpriteDraw),
      (l.foldl (drawSliverPixel ppu index x col plane1 plane2) st).tilesFound = st.tilesFound ∧
      (l.foldl (drawSliverPixel ppu index x col plane1 plane2) st).timeOver = st.timeOver ∧
      (l.foldl (drawSliverPixel ppu index x col plane1 plane2) st).drawn = st.drawn := by
  intro l
  induction l with
  | nil => intro st; exact ⟨rfl, rfl, rfl⟩
  | cons a l ih =>
    intro st
    rw [List.foldl_cons]
    obtain ⟨h1, h2, h3⟩ := ih (drawSliverPixel ppu index x col plane1 plane2 st a)
    obtain ⟨g1, g2, g3⟩ := drawSliverPixel_fields ppu index x col plane1 plane2 st a
    exact ⟨h1.trans g1, h2.trans g2, h3.trans g3⟩

theorem drawSliver_fields (ppu : Ppu) (index : Nat) (x : Int) (row spriteSize col : Nat)
    (st : SpriteDraw) :
    (drawSliver ppu index x row spriteSize col st).tilesFound = st.tilesFound ∧
    (drawSliver ppu index x row spriteSize col st).timeOver = st.timeOver ∧
    (drawSliver ppu index x row spriteSize col st).drawn = st.drawn ++ [(index, col)] := by
  unfold drawSliver
  dsimp only
  exact drawSliverPixels_fields ppu index x col _ _ _ _

theorem spriteColumns_spec (ppu : Ppu) (index : Nat) (x : Int) (row spriteSize : Nat) :
    ∀ (n col : Nat) (st : SpriteDraw), st.tilesFound ≤ 34 →
      (spriteColumns ppu index x row spriteSize n col st).tilesFound =
        min 35 (st.tilesFound + onScreenColumns x n col) ∧
      (spriteColumns ppu index x row spriteSize n col st).timeOver =
        (st.timeOver || decide (34 < st.tilesFound + onScreenColumns x n col)) ∧
      (spriteColumns ppu index x row spriteSize n col st).drawn.length =
        st.drawn.length + min (onScreenColumns x n col) (34 - st.tilesFound) := by
  intro n
  induction n with
  | zero =>
    intro col st ht
    simp only [spriteColumns, onScreenColumns]
    refine ⟨by omega, ?_, by omega⟩
    have : ¬ 34 < st.tilesFound := by omega
    simp [this]
  | succ n ih =>
    intro col st ht
    by_cases hon : (col : Int) + x > -8 ∧ (col : Int) + x < 256
    · have hc : onScreenColumns x (n + 1) col = 1 + onScreenColumns x n (col + 8) := by
        simp only [onScreenColumns, if_pos hon]
      rw [hc]
      by_cases hfull : st.tilesFound + 1 > 34
      · have e : spriteColumns ppu index x row spriteSize (n + 1) col st =
            { st with tilesFound := st.tilesFound + 1, timeOver := true } := by
          simp only [spriteColumns, if_pos hon, if_pos hfull]
        rw [e]
        dsimp only
        refine ⟨by omega, ?_, by omega⟩
        have : 34 < st.tilesFound + (1 + onScreenColumns x n (col + 8)) := by omega
        simp [this]
      · have e : spriteColumns ppu index x row spriteSize (n + 1) col st =
            spriteColumns ppu index x row spriteSize n (col + 8)
              (drawSliver ppu index x row spriteSize col
                { st with tilesFound := st.tilesFound + 1 }) := by
          simp only [spriteColumns, if_pos hon, if_neg hfull]
        obtain ⟨d1, d2, d3⟩ := drawSliver_fields ppu index x row spriteSize col
          { st with tilesFound := st.tilesFound + 1 }
        dsimp only at d1 d2 d3
        obtain ⟨h1, h2, h3⟩ := ih (col + 8) (drawSliver ppu index x row spriteSize col
          { st with tilesFound := st.tilesFound + 1 }) (by rw [d1]; omega)
        rw [d1] at h1 h2 h3
        rw [d2] at h2
        rw [d3] at h3
        rw [e, h1, h2, h3]
        refine ⟨by omega, ?_, ?_⟩
        · congr 2
          apply propext
          omega
        · simp only [List.length_append, List.length_singleton]
          omega
    · have hc : onScreenColumns x (n + 1) col = onScreenColumns x n (col + 8) := by
        simp only [onScreenColumns, if_neg hon, Nat.zero_add]
      have e : spriteColumns ppu index x row spriteSize (n + 1) col st =
          spriteColumns ppu index x row spriteSize n (col + 8) st := by
        simp only [spriteColumns, if_neg hon]
      rw [hc, e]
      exact ih (col + 8) st ht

theorem spriteDrawLoop_spec (ppu : Ppu) (line : Int) (found : Nat → Nat) :
    ∀ (i : Nat) (st : SpriteDraw), st.tilesFound ≤ 34 →
      (spriteDrawLoop ppu line found i st).tilesFound =
        min 35 (st.tilesFound + sliverDemandUpTo ppu found i) ∧
      (spriteDrawLoop ppu line found i st).timeOver =
        (st.timeOver || decide (34 < st.tilesFound + sliverDemandUpTo ppu found i)) ∧
      (spriteDrawLoop ppu line found i st).drawn.length =
        st.drawn.length + min (sliverDemandUpTo ppu found i) (34 - st.tilesFound) := by
  intro i
  induction i with
  | zero =>
    intro st ht
    simp only [spriteDrawLoop, sliverDemandUpTo]
    refine ⟨by omega, ?_, by omega⟩
    have : ¬ 34 < st.tilesFound := by omega
    simp [this]
  | succ i ih =>
    intro st ht
    by_cases hx : spriteX ppu (found i) > -(spriteSizeAt ppu (found i) : Int)
    · have hd : sliverDemandUpTo ppu found (i + 1) =
          onScreenColumns (spriteX ppu (found i)) ((spriteSizeAt ppu (found i) + 7) / 8) 0 +
            sliverDemandUpTo ppu found i := by
        simp only [sliverDemandUpTo, onScreenSlivers, if_pos hx]
      obtain ⟨c1, c2, c3⟩ := spriteColumns_spec ppu (found i) (spriteX ppu (found i))
        (spriteFetchRow ppu line (found i)) (spriteSizeAt ppu (found i))
        ((spriteSizeAt ppu (found i) + 7) / 8) 0 st ht
      rw [hd]
      by_cases hfull : (spriteColumns ppu (found i) (spriteX ppu (found i))
          (spriteFetchRow ppu line (found i)) (spriteSizeAt ppu (found i))
          ((spriteSizeAt ppu (found i) + 7) / 8) 0 st).tilesFound > 34
      · have e : spriteDrawLoop ppu line found (i + 1) st =
            spriteColumns ppu (found i) (spriteX ppu (found i))
              (spriteFetchRow ppu line (found i)) (spriteSizeAt ppu (found i))
              ((spriteSizeAt ppu (found i) + 7) / 8) 0 st := by
          simp only [spriteDrawLoop, if_pos hx, if_pos hfull]
        rw [e, c1, c2, c3]
        rw [c1] at hfull
        refine ⟨by omega, ?_, by omega⟩
        congr 2
        apply propext
        omega
      · have e : spriteDrawLoop ppu line found (i + 1) st =
            spriteDrawLoop ppu line found i (spriteColumns ppu (found i) (spriteX ppu (found i))
              (spriteFetchRow ppu line (found i)) (spriteSizeAt ppu (found i))
              ((spriteSizeAt ppu (found i) + 7) / 8) 0 st) := by
          simp only [spriteDrawLoop, if_pos hx, if_neg hfull]
        rw [c1] at hfull
        obtain ⟨h1, h2, h3⟩ := ih _ (by rw [c1]; omega)
        rw [c1] at h1 h2 h3
        rw [c2] at h2
        rw [c3] at h3
        rw [e, h1, h2, h3]
        have hno : ¬ 34 < st.tilesFound +
            onScreenColumns (spriteX ppu (found i)) ((spriteSizeAt ppu (found i) + 7) / 8) 0 := by
          omega
        refine ⟨by omega, ?_, by omega⟩
        simp only [hno, decide_False, Bool.or_false]
        congr 2
        apply propext
        omega
    · have hd : sliverDemandUpTo ppu found (i + 1) = sliverDemandUpTo ppu found i := by
        simp only [sliverDemandUpTo, onScreenSlivers, if_neg hx, Nat.zero_add]
      have e : spriteDrawLoop ppu line found (i + 1) st =
          spriteDrawLoop ppu line found i st := by
        simp only [spriteDrawLoop, if_neg hx]
      rw [hd, e]
      exact ih st ht

theorem sliverDemandUpTo_take (ppu : Ppu) (found : Nat → Nat) (l : List Nat) :
    ∀ i, i ≤ l.length → (∀ p < i, found p = l.getD p 0) →
      sliverDemandUpTo ppu found i = sliverDemand ppu (l.take i) := by
  intro i
  induction i with
  | zero => intro _ _; simp [sliverDemandUpTo, sliverDemand]
  | succ i ih =>
    intro hi hf
    have hlt : i < l.length := by omega
    rw [sliverDemandUpTo, ih (by omega) (fun p hp => hf p (by omega)), hf i (by omega)]
    unfold sliverDemand
    rw [List.take_succ, List.map_append, List.sum_append]
    simp [List.getD, List.getElem?_eq_getElem hlt]
    omega

/-- C26: for every PPU state (any OAM and VRAM contents) and every line, with `l` the in-range
sprites of the line in scan order: the scan of `ppu_evaluateSprites` never writes
`foundSprites` outside its 32 entries, records `min 32 (length l)` sprites, which are the
first ones of `l`, and sets `rangeOver` exactly when `l` has a 33rd sprite; the second loop
draws `min 34 d` slivers, where `d` is the number of on-screen slivers of the recorded
sprites, and sets `timeOver` exactly when `d` is at least 35; otherwise each flag keeps its
value. -/
theorem C26_sprite_limits (ppu : Ppu) (line : Int) :
    ∃ sc : SpriteScan, spriteScan ppu line = some sc ∧
      sc.spritesFound = min 32 (inRangeSprites ppu line 128 (spriteStartIndex ppu)).length ∧
      (∀ p < sc.spritesFound,
        sc.foundSprites p = (inRangeSprites ppu line 128 (spriteStartIndex ppu)).getD p 0) ∧
      (spriteDraw ppu line sc).drawn.length =
        min 34 (sliverDemand ppu
          ((inRangeSprites ppu line 128 (spriteStartIndex ppu)).take 32)) ∧
      ∃ out : Ppu, ppu_evaluateSprites ppu line = some out ∧
        out.rangeOver = (ppu.rangeOver ||
          decide (33 ≤ (inRangeSprites ppu line 128 (spriteStartIndex ppu)).length)) ∧
        out.timeOver = (ppu.timeOver ||
          decide (35 ≤ sliverDemand ppu
            ((inRangeSprites ppu line 128 (spriteStartIndex ppu)).take 32))) := by
  obtain ⟨sc, e, s1, r1, f1⟩ := spriteScanLoop_spec ppu line 128
    { index := spriteStartIndex ppu, spritesFound := 0, foundSprites := fun _ => 0,
      rangeOver := ppu.rangeOver } (Nat.zero_le _)
  change spriteScan ppu line = some sc at e
  dsimp only at s1 r1 f1
  rw [Nat.zero_add] at s1 r1
  have hf : ∀ p < sc.spritesFound,
      sc.foundSprites p = (inRangeSprites ppu line 128 (spriteStartIndex ppu)).getD p 0 := by
    intro p hp
    rw [f1 p, if_pos ⟨Nat.zero_le _, by rw [Nat.zero_add, ← s1]; exact hp⟩, Nat.sub_zero]
  have htake : (inRangeSprites ppu line 128 (spriteStartIndex ppu)).take sc.spritesFound =
      (inRangeSprites ppu line 128 (spriteStartIndex ppu)).take 32 := by
    rw [s1]
    by_cases hl : 32 ≤ (inRangeSprites ppu line 128 (spriteStartIndex ppu)).length
    · rw [Nat.min_eq_left hl]
    · rw [Nat.min_eq_right (by omega), List.take_of_length_le (le_refl _),
        List.take_of_length_le (by omega)]
  have hd := sliverDemandUpTo_take ppu sc.foundSprites
    (inRangeSprites ppu line 128 (spriteStartIndex ppu)) sc.spritesFound
    (by rw [s1]; exact Nat.min_le_right _ _) hf
  rw [htake] at hd
  obtain ⟨d1, d2, d3⟩ := spriteDrawLoop_spec ppu line sc.foundSprites sc.spritesFound
    { tilesFound := 0, timeOver := ppu.timeOver, objPixelBuffer := ppu.objPixelBuffer,
      objPriorityBuffer := ppu.objPriorityBuffer, drawn := [] } (Nat.zero_le _)
  dsimp only at d1 d2 d3
  rw [hd] at d2 d3
  refine ⟨sc, e, s1, hf, ?_, ?_⟩
  · unfold spriteDraw
    rw [d3]
    simp only [List.length_nil, Nat.zero_add, Nat.sub_zero]
    exact Nat.min_comm _ _
  · have ev : ppu_evaluateSprites ppu line =
        some { ppu with rangeOver := sc.rangeOver, timeOver := (spriteDraw ppu line sc).timeOver,
                        objPixelBuffer := (spriteDraw ppu line sc).objPixelBuffer,
                        objPriorityBuffer := (spriteDraw ppu line sc).objPriorityBuffer } := by
      unfold ppu_evaluateSprites
      rw [e]
      rfl
    refine ⟨_, ev, ?_, ?_⟩
    · exact r1
    · dsimp only
      unfold spriteDraw
      rw [d2]
      congr 2
      apply propext
      omega

/-- With every sprite at (0, 0) and 8 pixels wide, line 0 has 128 in-range sprites: 32 are
recorded, `rangeOver` is set, and their 32 slivers leave `timeOver` clear. -/
theorem evaluateSprites_range_over :
    (spriteScan ppu_reset 0).map (fun sc => (sc.spritesFound, sc.rangeOver)) =
      some (32, true) ∧
    (ppu_evaluateSprites ppu_reset 0).map (fun p => (p.rangeOver, p.timeOver)) =
      some (true, false) := by
  decide

/-- With every sprite at (0, 0) and 16 pixels wide, the 32 recorded sprites have 64 on-screen
slivers: 34 are drawn and `timeOver` is set. -/
theorem evaluateSprites_time_over :
    (spriteScan (ppu_write ppu_reset demoLatchBus 0x01 0x60) 0).map
      (fun sc => (spriteDraw (ppu_write ppu_reset demoLatchBus 0x01 0x60) 0 sc).drawn.length) =
      some 34 ∧
    (ppu_evaluateSprites (ppu_write ppu_reset demoLatchBus 0x01 0x60) 0).map
      (fun p => (p.rangeOver, p.timeOver)) = some (true, true) := by
  decide

end LakeSnes
